import Mathlib

/-!
# OpenLogReplicator: writer delivery queue and writer checkpoint

A shallow embedding of `src/writer/Writer.cpp`.

* A `BuilderMsg*` is an address `Ptr`; the messages live in a memory
  `Ptr → BuilderMsg`, so that `msg->flags |= ...` is an update of that memory
  and the queue holds addresses, as in the source.
* `BuilderMsg** queue` is a function from slot index to address.  The C++ array
  has `ctx->queueSize` slots and `mainLoop` never calls `createMessage` on a
  full queue; slots at or above `currentQueueSize` keep stale addresses, as in
  the source.
* The counters are `uint64_t`; they count messages and cannot reach `2^64`, so
  they are natural numbers.  The one place where wrap-around is reachable, the
  `time_t` difference of `writeCheckpoint`, is reduced modulo `2^64`.
* Each loop is a structural recursion on a fuel argument that the caller sets to
  a bound of the loop's iteration count; the theorems below show that the loops
  end by their own exit condition within that bound.
-/

set_option autoImplicit false

namespace OpenLogReplicator

/-- Address of a `BuilderMsg` in the builder's memory. -/
abbrev Ptr := Nat

/-- Modelled from the spec: `struct BuilderMsg` of `builder/Builder.h`, which is
not among the sources; the fields are those of the spec's Writer/Builder
contract, without the payload bytes. -/
structure BuilderMsg where
  id : Nat
  queueId : Nat
  scn : Nat
  length : Nat
  flags : Nat
deriving DecidableEq

/-- Constants of headers that are not among the sources (`Builder.h`,
`types.h`); the code is embedded for every value of them. -/
structure Consts where
  OUTPUT_BUFFER_CONFIRMED : Nat
  OUTPUT_BUFFER_ALLOCATED : Nat
  ZERO_SCN : Nat
  ZERO_SEQ : Nat
  CHECKPOINT_FILE_MAX_SIZE : Nat
  JSON_PARAMETER_LENGTH : Nat

/-- Fields of `Ctx` read by the writer. -/
structure Ctx where
  queueSize : Nat
  checkpointIntervalS : Nat

/-- The data members of `class Writer` (`Writer.h`); `builder`, `metadata` and
`ctx` are passed to the operations that use them. -/
structure Writer where
  database : String
  checkpointScn : Nat
  checkpointTime : Int
  confirmedScn : Nat
  confirmedMessages : Nat
  sentMessages : Nat
  currentQueueSize : Nat
  maxQueueSize : Nat
  queue : Nat → Ptr
  streaming : Bool

/-- The C expression `flags & ~mask` on an unsigned integer: the bits of `mask`
are cleared, whatever the width of the type. -/
def clearBits (flags mask : Nat) : Nat :=
  flags ^^^ (flags &&& mask)

/-- The method `Writer::createMessage` (Writer.cpp 62-68). -/
def createMessage (w : Writer) (msg : Ptr) : Writer :=
  let sentMessages := w.sentMessages + 1
  let queue := Function.update w.queue w.currentQueueSize msg
  let currentQueueSize := w.currentQueueSize + 1
  { w with
    sentMessages := sentMessages
    queue := queue
    currentQueueSize := currentQueueSize
    maxQueueSize := if currentQueueSize > w.maxQueueSize then currentQueueSize else w.maxQueueSize }

/-- The inner loop `while (i < size)` shared by `sortQueue` (Writer.cpp 82-96)
and `confirmMessage` (Writer.cpp 130-144): the hole at `i` moves down towards
the smaller child while that child's id is below the id of `queue[size]`.
Returns the queue and the final `i`. -/
def siftLoop (mem : Ptr → BuilderMsg) (size : Nat) :
    Nat → (Nat → Ptr) → Nat → (Nat → Ptr) × Nat
  | 0, queue, i => (queue, i)
  | fuel + 1, queue, i =>
    if i < size then
      if i * 2 + 2 < size ∧ (mem (queue (i * 2 + 2))).id < (mem (queue size)).id then
        if (mem (queue (i * 2 + 1))).id < (mem (queue (i * 2 + 2))).id then
          siftLoop mem size fuel (Function.update queue i (queue (i * 2 + 1))) (i * 2 + 1)
        else
          siftLoop mem size fuel (Function.update queue i (queue (i * 2 + 2))) (i * 2 + 2)
      else if i * 2 + 1 < size ∧ (mem (queue (i * 2 + 1))).id < (mem (queue size)).id then
        siftLoop mem size fuel (Function.update queue i (queue (i * 2 + 1))) (i * 2 + 1)
      else
        (queue, i)
    else
      (queue, i)

/-- The statements `i = 0; while (i < size) {...}; queue[i] = queue[size];`
(Writer.cpp 129-145 and 80-97), run once `size` has been decremented.  Each
iteration of the loop increases `i`, so `size` iterations are enough. -/
def siftDown (mem : Ptr → BuilderMsg) (size : Nat) (queue : Nat → Ptr) : Nat → Ptr :=
  let r := siftLoop mem size size queue 0
  Function.update r.1 r.2 (r.1 size)

/-- State of the loop `while (currentQueueSize > 0 && ...)` of `confirmMessage`;
`popped` is a log of the addresses removed from the queue, in the order of
removal (it is not a variable of the source). -/
structure PopState where
  queue : Nat → Ptr
  currentQueueSize : Nat
  confirmedScn : Nat
  maxId : Nat
  popped : List Ptr

/-- The loop of Writer.cpp 122-146. -/
def popLoop (k : Consts) (mem : Ptr → BuilderMsg) : Nat → PopState → PopState
  | 0, s => s
  | fuel + 1, s =>
    if s.currentQueueSize > 0 ∧ (mem (s.queue 0)).flags &&& k.OUTPUT_BUFFER_CONFIRMED ≠ 0 then
      let maxId := (mem (s.queue 0)).queueId
      let confirmedScn := (mem (s.queue 0)).scn
      let popped := s.popped ++ [s.queue 0]
      let currentQueueSize := s.currentQueueSize - 1
      if currentQueueSize = 0 then
        { s with maxId := maxId, confirmedScn := confirmedScn, popped := popped,
                 currentQueueSize := currentQueueSize }
      else
        popLoop k mem fuel
          { queue := siftDown mem currentQueueSize s.queue
            currentQueueSize := currentQueueSize
            confirmedScn := confirmedScn
            maxId := maxId
            popped := popped }
    else
      s

/-- What a call of `confirmMessage` leaves behind: the message memory, the
writer, the warning code if one was raised, the argument of
`builder->releaseBuffers` if it was called, and the log of removed addresses. -/
structure ConfirmOutcome where
  mem : Ptr → BuilderMsg
  writer : Writer
  warning : Option Nat
  released : Option Nat
  popped : List Ptr

/-- The statements of Writer.cpp 113-117 on the flags of the confirmed message
(`delete[] msg->data` frees the copy and has no other effect on the state). -/
def confirmFlags (k : Consts) (flags : Nat) : Nat :=
  let flags := flags ||| k.OUTPUT_BUFFER_CONFIRMED
  if flags &&& k.OUTPUT_BUFFER_ALLOCATED ≠ 0 then
    clearBits flags k.OUTPUT_BUFFER_ALLOCATED
  else
    flags

/-- The body of `confirmMessage` from line 113 on, for a non-null `msg`. -/
def confirmMessageAt (k : Consts) (mem : Ptr → BuilderMsg) (w : Writer) (msg : Ptr) :
    ConfirmOutcome :=
  let mem := Function.update mem msg { mem msg with flags := confirmFlags k (mem msg).flags }
  let confirmedMessages := w.confirmedMessages + 1
  let s := popLoop k mem w.currentQueueSize
    { queue := w.queue, currentQueueSize := w.currentQueueSize,
      confirmedScn := w.confirmedScn, maxId := 0, popped := [] }
  { mem := mem
    writer := { w with confirmedMessages := confirmedMessages, queue := s.queue,
                       currentQueueSize := s.currentQueueSize, confirmedScn := s.confirmedScn }
    warning := none
    released := some s.maxId
    popped := s.popped }

/-- The method `Writer::confirmMessage` (Writer.cpp 104-150); `none` is `nullptr`. -/
def confirmMessage (k : Consts) (mem : Ptr → BuilderMsg) (w : Writer) (msg : Option Ptr) :
    ConfirmOutcome :=
  match msg with
  | none =>
    if w.currentQueueSize = 0 then
      { mem := mem, writer := w, warning := some 70007, released := none, popped := [] }
    else
      confirmMessageAt k mem w (w.queue 0)
  | some msg => confirmMessageAt k mem w msg

/-- The loop `for (newId = 0; newId < currentQueueSize; ++newId)` of `sortQueue`
(Writer.cpp 78-98).  `oldQueueSize` is the number of elements left in
`oldQueue`, which is `currentQueueSize - newId` throughout, so the loop runs
once for each of them.  Returns `oldQueue` and `queue`. -/
def sortLoop (mem : Ptr → BuilderMsg) :
    Nat → Nat → (Nat → Ptr) → (Nat → Ptr) → (Nat → Ptr) × (Nat → Ptr)
  | 0, _, oldQueue, queue => (oldQueue, queue)
  | oldQueueSize + 1, newId, oldQueue, queue =>
    let queue := Function.update queue newId (oldQueue 0)
    let oldQueue := siftDown mem oldQueueSize oldQueue
    sortLoop mem oldQueueSize (newId + 1) oldQueue queue

/-- The method `Writer::sortQueue` (Writer.cpp 70-102); `fresh` is the content of the newly
allocated array. -/
def sortQueue (fresh : Nat → Ptr) (mem : Ptr → BuilderMsg) (w : Writer) : Writer :=
  if w.currentQueueSize = 0 then
    w
  else
    { w with queue := (sortLoop mem w.currentQueueSize 0 w.queue fresh).2 }

/-! ### Specification vocabulary for the delivery queue -/

/-- The id of the message in slot `i`. -/
def slotId (mem : Ptr → BuilderMsg) (queue : Nat → Ptr) (i : Nat) : Nat :=
  (mem (queue i)).id

/-- Min-heap property on `id` of `queue[0..n)`: the id of every element is at
most the ids of its children at `2i+1` and `2i+2`. -/
def IsMinHeap (mem : Ptr → BuilderMsg) (queue : Nat → Ptr) (n : Nat) : Prop :=
  ∀ i, i < n →
    (i * 2 + 1 < n → slotId mem queue i ≤ slotId mem queue (i * 2 + 1)) ∧
    (i * 2 + 2 < n → slotId mem queue i ≤ slotId mem queue (i * 2 + 2))

instance IsMinHeap.decide (mem : Ptr → BuilderMsg) (queue : Nat → Ptr) (n : Nat) :
    Decidable (IsMinHeap mem queue n) :=
  inferInstanceAs (Decidable (∀ i, i < n → _))

/-- The content of `queue[0..n)` as a list. -/
def queueList (queue : Nat → Ptr) (n : Nat) : List Ptr :=
  (List.range n).map queue

/-- The message at `msg` carries the CONFIRMED flag. -/
def IsConfirmed (k : Consts) (mem : Ptr → BuilderMsg) (msg : Ptr) : Prop :=
  (mem msg).flags &&& k.OUTPUT_BUFFER_CONFIRMED ≠ 0

instance IsConfirmed.decide (k : Consts) (mem : Ptr → BuilderMsg) (msg : Ptr) :
    Decidable (IsConfirmed k mem msg) :=
  inferInstanceAs (Decidable (_ ≠ _))

/-- A call made on the writer by its owner. -/
inductive Op where
  | create (msg : Ptr)
  | confirm (msg : Option Ptr)

/-- The message memory and the writer, with the history of the calls: the
addresses passed to `createMessage` and those removed by `confirmMessage`, both
in order of occurrence. -/
structure Sys where
  mem : Ptr → BuilderMsg
  writer : Writer
  created : List Ptr
  popped : List Ptr

/-- A system whose queue is empty and on which no call was made yet. -/
def Sys.start (mem : Ptr → BuilderMsg) (w : Writer) : Sys :=
  { mem := mem, writer := { w with currentQueueSize := 0 }, created := [], popped := [] }

/-- One call. -/
def Sys.step (k : Consts) (s : Sys) : Op → Sys
  | .create msg =>
    { s with writer := createMessage s.writer msg, created := s.created ++ [msg] }
  | .confirm msg =>
    let r := confirmMessage k s.mem s.writer msg
    { mem := r.mem, writer := r.writer, created := s.created, popped := s.popped ++ r.popped }

/-- A sequence of calls. -/
def Sys.run (k : Consts) (s : Sys) (ops : List Op) : Sys :=
  ops.foldl (Sys.step k) s

/-- The call is one the claims on the delivery queue speak of: a created
message has an id above the ids of all messages created before it, and a
confirmed message is in the queue (`nullptr` stands for the head). -/
def Op.Allowed (s : Sys) : Op → Prop
  | .create msg => ∀ c ∈ s.created, (s.mem c).id < (s.mem msg).id
  | .confirm none => True
  | .confirm (some msg) => msg ∈ queueList s.writer.queue s.writer.currentQueueSize

instance Op.Allowed.decide (s : Sys) : (op : Op) → Decidable (op.Allowed s)
  | .create msg => inferInstanceAs (Decidable (∀ c ∈ s.created, (s.mem c).id < (s.mem msg).id))
  | .confirm none => inferInstanceAs (Decidable True)
  | .confirm (some msg) =>
    inferInstanceAs (Decidable (msg ∈ queueList s.writer.queue s.writer.currentQueueSize))

/-- Every call of the sequence is allowed in the state it is made in. -/
def ValidTrace (k : Consts) : Sys → List Op → Prop
  | _, [] => True
  | s, op :: ops => op.Allowed s ∧ ValidTrace k (s.step k op) ops

instance ValidTrace.decide (k : Consts) : (s : Sys) → (ops : List Op) → Decidable (ValidTrace k s ops)
  | _, [] => inferInstanceAs (Decidable True)
  | s, op :: ops =>
    have := ValidTrace.decide k (s.step k op) ops
    inferInstanceAs (Decidable (op.Allowed s ∧ ValidTrace k (s.step k op) ops))

/-- The value `confirmedScn` is the greatest SCN among the removed messages. -/
def IsMaxPoppedScn (s : Sys) : Prop :=
  (∃ m ∈ s.popped, (s.mem m).scn = s.writer.confirmedScn) ∧
    ∀ m ∈ s.popped, (s.mem m).scn ≤ s.writer.confirmedScn

instance IsMaxPoppedScn.decide (s : Sys) : Decidable (IsMaxPoppedScn s) :=
  inferInstanceAs (Decidable (_ ∧ _))


/-- What the loop of `confirmMessage` achieves when it goes from state `s` to
state `r` and removes the messages `ps`, in that order. -/
structure PopSpec (k : Consts) (mem : Ptr → BuilderMsg) (s r : PopState) (ps : List Ptr) :
    Prop where
  popped_eq : r.popped = s.popped ++ ps
  heap : IsMinHeap mem r.queue r.currentQueueSize
  perm : (queueList s.queue s.currentQueueSize).Perm (ps ++ queueList r.queue r.currentQueueSize)
  confirmed : ∀ m ∈ ps, IsConfirmed k mem m
  sorted : ps.Pairwise fun a b => (mem a).id ≤ (mem b).id
  le_rest : ∀ m ∈ ps, ∀ x ∈ queueList r.queue r.currentQueueSize, (mem m).id ≤ (mem x).id
  scn_eq : r.confirmedScn = ps.foldl (fun _ m => (mem m).scn) s.confirmedScn
  maxId_eq : r.maxId = ps.foldl (fun _ m => (mem m).queueId) s.maxId
  done : ¬ (r.currentQueueSize > 0 ∧ IsConfirmed k mem (r.queue 0))


/-- The invariant of the delivery queue along a valid sequence of calls. -/
structure Inv (k : Consts) (s : Sys) : Prop where
  heap : IsMinHeap s.mem s.writer.queue s.writer.currentQueueSize
  perm : s.created.Perm (s.popped ++ queueList s.writer.queue s.writer.currentQueueSize)
  createdLt : s.created.Pairwise fun a b => (s.mem a).id < (s.mem b).id
  poppedLe : s.popped.Pairwise fun a b => (s.mem a).id ≤ (s.mem b).id
  poppedLeQueue : ∀ m ∈ s.popped,
    ∀ x ∈ queueList s.writer.queue s.writer.currentQueueSize, (s.mem m).id ≤ (s.mem x).id
  poppedConfirmed : ∀ m ∈ s.popped, IsConfirmed k s.mem m
  lastScn : ∀ m, s.popped.getLast? = some m → s.writer.confirmedScn = (s.mem m).scn


/-! ### Concrete data for the scenarios -/

/-- Sample values of the constants: distinct flag bits, the all-ones SCN and
sequence, and size limits of 1024 and 256 bytes. -/
def sampleConsts : Consts :=
  { OUTPUT_BUFFER_CONFIRMED := 2, OUTPUT_BUFFER_ALLOCATED := 1, ZERO_SCN := 2 ^ 64 - 1,
    ZERO_SEQ := 2 ^ 32 - 1, CHECKPOINT_FILE_MAX_SIZE := 1024, JSON_PARAMETER_LENGTH := 256 }

/-- A writer as the constructor leaves it (Writer.cpp 33-47), at time `0`. -/
def sampleWriter : Writer :=
  { database := "DB", checkpointScn := 2 ^ 64 - 1, checkpointTime := 0,
    confirmedScn := 2 ^ 64 - 1, confirmedMessages := 0, sentMessages := 0,
    currentQueueSize := 0, maxQueueSize := 0, queue := fun _ => 0, streaming := false }

/-- Messages with id `p`, queueId `p` and SCN `100 * p` at address `p`, no flag set. -/
def memAscending : Ptr → BuilderMsg :=
  fun p => { id := p, queueId := p, scn := 100 * p, length := 8, flags := 0 }

/-- Messages with id `p` at address `p` whose queueId and SCN decrease with the
id, no flag set. -/
def memDescending : Ptr → BuilderMsg :=
  fun p => { id := p, queueId := 10 - p, scn := 1000 - 100 * p, length := 8, flags := 0 }


/-- The greatest `queueId` among the messages of a list, `0` for the empty list. -/
def maxQueueId (mem : Ptr → BuilderMsg) (l : List Ptr) : Nat :=
  (l.map fun p => (mem p).queueId).foldr max 0


/-- The content of `queue[from..from+n)` as a list. -/
def queueSegment (queue : Nat → Ptr) (start n : Nat) : List Ptr :=
  (List.range n).map fun j => queue (start + j)

/-- A queue of three slots holding the addresses 3, 1, 2 in that order. -/
def queueUnordered : Nat → Ptr :=
  fun i => [3, 1, 2].getD i 0


/-! ### The writer checkpoint -/

/-- Modelled from the spec: the status of `Metadata`, whose class is not among
the sources; the spec names BOOT (no checkpoint file) and REPLICATE (valid
checkpoint file). -/
inductive Status where
  | READY
  | BOOT
  | REPLICATE
deriving DecidableEq

/-- Modelled from the spec: the members of `Metadata` that the writer reads and
writes (`metadata/Metadata.h` is not among the sources). -/
structure Metadata where
  resetlogs : Nat
  activation : Nat
  startScn : Nat
  startSequence : Nat
  startTime : String
  startTimeRel : Nat
  status : Status
deriving DecidableEq

/-- The key of the writer's checkpoint in the state store: `database + "-chkpt"`
(Writer.cpp 328 and 343). -/
def checkpointName (database : String) : String :=
  database ++ "-chkpt"

/-- The text that `writeCheckpoint` streams into `ss` (Writer.cpp 329-333);
`std::dec <<` on an unsigned integer is its decimal numeral. -/
def checkpointText (database : String) (confirmedScn resetlogs activation : Nat) : String :=
  "\x7b\"database\":\"" ++ database
    ++ "\",\"scn\":" ++ toString confirmedScn
    ++ ",\"resetlogs\":" ++ toString resetlogs
    ++ ",\"activation\":" ++ toString activation ++ "\x7d"

/-- What a call of `writeCheckpoint` leaves behind: the writer, and the name and
content passed to `metadata->stateWrite` if it was called. -/
structure CheckpointOutcome where
  writer : Writer
  written : Option (String × String)

/-- The method `Writer::writeCheckpoint` (Writer.cpp 310-339).  `now` is the value of
`time(nullptr)`, a `time_t`; its difference to `checkpointTime` is converted to
`uint64_t`, hence reduced modulo `2^64`.  `stateWrite` gives the result of
`metadata->stateWrite`.  The trace output of lines 321-327 is not part of the
state. -/
def writeCheckpoint (k : Consts) (ctx : Ctx) (metadata : Metadata)
    (stateWrite : String → String → Bool) (now : Int) (w : Writer) (force : Bool) :
    CheckpointOutcome :=
  if w.checkpointScn = w.confirmedScn ∨ w.confirmedScn = k.ZERO_SCN then
    { writer := w, written := none }
  else
    let timeSinceCheckpoint := ((now - w.checkpointTime) % 2 ^ 64).toNat
    if timeSinceCheckpoint < ctx.checkpointIntervalS ∧ force = false then
      { writer := w, written := none }
    else
      let name := checkpointName w.database
      let ss := checkpointText w.database w.confirmedScn metadata.resetlogs metadata.activation
      if stateWrite name ss = true then
        { writer := { w with checkpointScn := w.confirmedScn, checkpointTime := now }
          written := some (name, ss) }
      else
        { writer := w, written := some (name, ss) }

/-- The values of a `time_t`, a signed 64-bit integer. -/
def IsTimeT (t : Int) : Prop :=
  -(2 : Int) ^ 63 ≤ t ∧ t < (2 : Int) ^ 63

instance IsTimeT.decide (t : Int) : Decidable (IsTimeT t) :=
  inferInstanceAs (Decidable (_ ∧ _))

/-- Sample metadata: resetlogs 7, activation 9, nothing read yet. -/
def sampleMetadata : Metadata :=
  { resetlogs := 7, activation := 9, startScn := 0, startSequence := 0, startTime := "",
    startTimeRel := 0, status := Status.READY }

/-- A writer whose queue has delivered up to SCN 12345 and whose last
checkpoint, at time 0, was at SCN 100. -/
def sampleWriterConfirmed : Writer :=
  { sampleWriter with confirmedScn := 12345, checkpointScn := 100 }


/-! ### Reading the checkpoint

`readCheckpoint` parses the stored text with `rapidjson::Document::Parse` and
reads its members with `Ctx::getJsonFieldS`, `getJsonFieldU32` and
`getJsonFieldU64`.  Neither the parser nor `Ctx.cpp` is among the sources; they
are modelled from the spec's description of the checkpoint file: a JSON text
that is a single object with the keys `database` (string), `scn` (uint64),
`resetlogs` (uint32) and `activation` (uint32). -/

/-- Modelled from the spec: a member value of the checkpoint file's JSON object,
a string or an unsigned number (the document type of rapidjson is not among the
sources). -/
inductive JsonValue where
  | str (s : String)
  | num (n : Nat)
deriving DecidableEq

/-- A parsed JSON object: its members in the order of the text. -/
abbrev JsonObject := List (String × JsonValue)

/-- The whitespace of JSON: space, line feed, carriage return, tab. -/
def isJsonSpace (c : Char) : Bool :=
  c = ' ' || c = '\n' || c = '\r' || c = '\t'

/-- The value of a decimal numeral. -/
def digitsValue (ds : List Char) : Nat :=
  ds.foldl (fun acc c => acc * 10 + (c.toNat - 48)) 0

/-- Where the reader of a JSON object stands in the text. -/
inductive JsonState where
  | start
  | opened
  | key (ms : JsonObject)
  | inKey (ms : JsonObject) (name : List Char)
  | colon (ms : JsonObject) (name : List Char)
  | value (ms : JsonObject) (name : List Char)
  | inString (ms : JsonObject) (name : List Char) (s : List Char)
  | inNumber (ms : JsonObject) (name : List Char) (ds : List Char)
  | next (ms : JsonObject)
  | closed (ms : JsonObject)
  | fail

/-- The character after a complete member value: whitespace, `,` or the closing
brace. -/
def jsonAfterValue (ms : JsonObject) (c : Char) : JsonState :=
  if isJsonSpace c then .next ms
  else if c = ',' then .key ms
  else if c = '\x7d' then .closed ms
  else .fail

/-- Modelled from the spec: one character of the JSON grammar for a single
object whose member values are strings and unsigned integers.  A string is a
run of characters other than the quote, the backslash and the control
characters below U+0020, between quotes; a number is `0` or a run of digits
that does not start with `0`.  Everything else, including escape sequences,
signs, fractions, exponents, arrays, nested objects and literals, is a parse
error in this model: the checkpoint file has none of them. -/
def jsonStep : JsonState → Char → JsonState
  | .start, c =>
    if isJsonSpace c then .start else if c = '\x7b' then .opened else .fail
  | .opened, c =>
    if isJsonSpace c then .opened
    else if c = '"' then .inKey [] []
    else if c = '\x7d' then .closed []
    else .fail
  | .key ms, c =>
    if isJsonSpace c then .key ms else if c = '"' then .inKey ms [] else .fail
  | .inKey ms name, c =>
    if c = '"' then .colon ms name
    else if c = '\\' ∨ c.toNat < 0x20 then .fail
    else .inKey ms (name ++ [c])
  | .colon ms name, c =>
    if isJsonSpace c then .colon ms name else if c = ':' then .value ms name else .fail
  | .value ms name, c =>
    if isJsonSpace c then .value ms name
    else if c = '"' then .inString ms name []
    else if c.isDigit then .inNumber ms name [c]
    else .fail
  | .inString ms name s, c =>
    if c = '"' then .next (ms ++ [(String.mk name, JsonValue.str (String.mk s))])
    else if c = '\\' ∨ c.toNat < 0x20 then .fail
    else .inString ms name (s ++ [c])
  | .inNumber ms name ds, c =>
    if c.isDigit then
      if ds = ['0'] then .fail else .inNumber ms name (ds ++ [c])
    else
      jsonAfterValue (ms ++ [(String.mk name, JsonValue.num (digitsValue ds))]) c
  | .next ms, c => jsonAfterValue ms c
  | .closed ms, c => if isJsonSpace c then .closed ms else .fail
  | .fail, _ => .fail

/-- Modelled from the spec: `document.Parse(text)` of rapidjson on a checkpoint
file; `none` is `HasParseError()`. -/
def parseDocument (text : String) : Option JsonObject :=
  match text.toList.foldl jsonStep .start with
  | .closed ms => some ms
  | _ => none

/-- The first member of the object with the given name, as `FindMember` of
rapidjson gives it. -/
def findMember (document : JsonObject) (field : String) : Option JsonValue :=
  (document.find? fun m => m.1 = field).map fun m => m.2

/-- An exception raised by `readCheckpoint`: the two `DataException(20001, ...)`
of Writer.cpp 354 and 359, and the exception of a `Ctx::getJsonField*` call. -/
inductive CheckpointError where
  | parseError
  | invalidDatabase
  | badField (field : String)
deriving DecidableEq

deriving instance DecidableEq for Except

/-- Modelled from the spec: `Ctx::getJsonFieldS` (`Ctx.cpp` is not among the
sources): the member must exist, be a string and be at most `maxLength` bytes
long. -/
def getJsonFieldS (maxLength : Nat) (document : JsonObject) (field : String) :
    Except CheckpointError String :=
  match findMember document field with
  | some (.str s) => if s.utf8ByteSize > maxLength then .error (.badField field) else .ok s
  | _ => .error (.badField field)

/-- Modelled from the spec: `Ctx::getJsonFieldU32` (`Ctx.cpp` is not among the
sources): the member must exist and be an unsigned 32-bit number. -/
def getJsonFieldU32 (document : JsonObject) (field : String) : Except CheckpointError Nat :=
  match findMember document field with
  | some (.num n) => if n < 2 ^ 32 then .ok n else .error (.badField field)
  | _ => .error (.badField field)

/-- Modelled from the spec: `Ctx::getJsonFieldU64` (`Ctx.cpp` is not among the
sources): the member must exist and be an unsigned 64-bit number. -/
def getJsonFieldU64 (document : JsonObject) (field : String) : Except CheckpointError Nat :=
  match findMember document field with
  | some (.num n) => if n < 2 ^ 64 then .ok n else .error (.badField field)
  | _ => .error (.badField field)

/-- The method `Writer::readCheckpoint` (Writer.cpp 341-372).  `stateRead name maxLen` gives
the text stored under `name`, `none` when `metadata->stateRead` returns false.
The result is the metadata after the call, or the exception raised.  The
setters of `Metadata` store their argument. -/
def readCheckpoint (k : Consts) (stateRead : String → Nat → Option String) (w : Writer)
    (metadata : Metadata) : Except CheckpointError Metadata :=
  let name := checkpointName w.database
  match stateRead name k.CHECKPOINT_FILE_MAX_SIZE with
  | none => .ok { metadata with status := Status.BOOT }
  | some checkpoint =>
    if checkpoint.length = 0 then .error .parseError
    else
      match parseDocument checkpoint with
      | none => .error .parseError
      | some document =>
        match getJsonFieldS k.JSON_PARAMETER_LENGTH document "database" with
        | .error e => .error e
        | .ok databaseJson =>
          if w.database ≠ databaseJson then .error .invalidDatabase
          else
            match getJsonFieldU32 document "resetlogs" with
            | .error e => .error e
            | .ok resetlogs =>
              match getJsonFieldU32 document "activation" with
              | .error e => .error e
              | .ok activation =>
                match getJsonFieldU64 document "scn" with
                | .error e => .error e
                | .ok scn =>
                  .ok { resetlogs := resetlogs
                        activation := activation
                        startScn := scn
                        startSequence := k.ZERO_SEQ
                        startTime := ""
                        startTimeRel := 0
                        status := Status.REPLICATE }

/-- The characters that a JSON string holds as they are: all but the quote, the
backslash and the control characters below U+0020. -/
def IsPlainText (s : String) : Prop :=
  ∀ c ∈ s.toList, c ≠ '"' ∧ c ≠ '\\' ∧ 0x20 ≤ c.toNat

instance IsPlainText.decide (s : String) : Decidable (IsPlainText s) :=
  inferInstanceAs (Decidable (∀ c ∈ s.toList, _))

/-- A writer for a database whose name is a single quote character. -/
def sampleWriterQuote : Writer :=
  { sampleWriterConfirmed with database := "\"" }


/-- The list of characters `ds` is the decimal numeral of `n`: a non-empty run
of digits with value `n` that starts with `0` only if it is `0`. -/
def IsNumeral (ds : List Char) (n : Nat) : Prop :=
  ds ≠ [] ∧ (∀ c ∈ ds, c.isDigit = true) ∧ digitsValue ds = n ∧
    (ds.head? = some '0' → ds = ['0'])


/-! ### The dictionary store of `Schema` (`src/metadata/Schema.cpp`)

The record classes (`SysCCol`, ..., `SysUser`), their key classes, `typeRowId`
and `Schema.h` are not among the sources; the records and keys are modelled
from the constructor calls of `Schema.cpp` and from the spec's table of
meta-tables.

* A `std::map` is a list of entries in the order of their keys; `find`, `set`
  (the assignment `m[k] = v`) and `erase` are those of the container.
* The primary map of a kind owns its records: it maps a rowId to the record.
  A pointer to a record, as the secondary maps and the touched sets hold them,
  is the rowId under which the primary map holds the record, so that
  `sysObj->single = false` is one update of the primary map and leaves every
  other container as it is.  A record passed to a function is passed by value.
  A pointer and its rowId name the same record as long as no add assigns a
  rowId of the primary map anew (`m[rowId] = record` on a stored rowId); the
  adds that take the rowId string never do, they look the rowId up first.
* A function that may raise returns the schema it leaves behind together with
  the value returned or the exception raised, because the source raises after
  it has changed maps.  The trace output is not part of the state. -/

/-- The order of the keys of a `std::map`, the `operator<` of the key class. -/
class KeyOrder (K : Type) where
  before : K → K → Bool

instance : KeyOrder Nat := ⟨fun a b => decide (a < b)⟩

instance : KeyOrder Int := ⟨fun a b => decide (a < b)⟩

/-- Texts are ordered by their characters, one after the other. -/
instance : KeyOrder String := ⟨fun a b => decide (a.data < b.data)⟩

/-- A `std::map<K, V>`: its entries. -/
structure Map (K V : Type) where
  entries : List (K × V)
deriving DecidableEq

/-- The look-up `m.find(k)` in a list of entries; `none` is `end()`. -/
def findEntry {K V : Type} [DecidableEq K] (k : K) : List (K × V) → Option V
  | [] => none
  | (k', v) :: es => if k = k' then some v else findEntry k es

/-- The assignment `m[k] = v` on a list of entries: the value is replaced if the
key is there, otherwise the entry is put before the first greater key. -/
def setEntry {K V : Type} [DecidableEq K] [KeyOrder K] (k : K) (v : V) :
    List (K × V) → List (K × V)
  | [] => [(k, v)]
  | (k', v') :: es =>
    if k = k' then (k, v) :: es
    else if KeyOrder.before k k' then (k, v) :: (k', v') :: es
    else (k', v') :: setEntry k v es

/-- The empty map. -/
def Map.empty {K V : Type} : Map K V := ⟨[]⟩

/-- The look-up `m.find(k)`; `none` is `m.end()`. -/
def Map.find {K V : Type} [DecidableEq K] (m : Map K V) (k : K) : Option V :=
  findEntry k m.entries

/-- The assignment `m[k] = v`. -/
def Map.set {K V : Type} [DecidableEq K] [KeyOrder K] (m : Map K V) (k : K) (v : V) : Map K V :=
  ⟨setEntry k v m.entries⟩

/-- The removal `m.erase(k)`. -/
def Map.erase {K V : Type} [DecidableEq K] (m : Map K V) (k : K) : Map K V :=
  ⟨m.entries.filter fun e => decide (e.1 ≠ k)⟩

/-- The insertion `s.insert(x)` into a `std::set` ordered by `operator<`. -/
def setInsert {T : Type} [DecidableEq T] [KeyOrder T] (x : T) : List T → List T
  | [] => [x]
  | y :: ys =>
    if x = y then y :: ys
    else if KeyOrder.before x y then x :: y :: ys
    else y :: setInsert x ys

/-- The insertion into a `std::set` of pointers to table descriptors; the order
of such a set is that of the addresses, here the order of insertion. -/
def setInsertLast {T : Type} [DecidableEq T] (x : T) (l : List T) : List T :=
  if x ∈ l then l else l ++ [x]

/-- Modelled from the spec: `typeRowId`, the identity of a row (its class is not
among the sources); the rowId is kept as the text it is given as. -/
abbrev RowId := String

/-- Modelled from the spec: `DataException(code, msg)`; the message is left
out. -/
structure DataException where
  code : Nat
deriving DecidableEq


/-! #### Keys of the secondary maps

Modelled from the spec: the key classes are not among the sources; their
components are those of the constructor calls in `Schema.cpp`, and their order
is lexicographic by component, as the spec states for the range scans. -/

/-- Key of `sysCColMapKey`: `SysCColKey(obj, intCol, con)`. -/
structure SysCColKey where
  obj : Nat
  intCol : Int
  con : Nat
deriving DecidableEq

instance : KeyOrder SysCColKey :=
  ⟨fun a b => decide (a.obj < b.obj ∨ (a.obj = b.obj ∧
    (a.intCol < b.intCol ∨ (a.intCol = b.intCol ∧ a.con < b.con))))⟩

/-- Key of `sysCDefMapKey`: `SysCDefKey(obj, con)`. -/
structure SysCDefKey where
  obj : Nat
  con : Nat
deriving DecidableEq

instance : KeyOrder SysCDefKey :=
  ⟨fun a b => decide (a.obj < b.obj ∨ (a.obj = b.obj ∧ a.con < b.con))⟩

/-- Key of `sysColMapSeg`: `SysColSeg(obj, segCol)`. -/
structure SysColSeg where
  obj : Nat
  segCol : Int
deriving DecidableEq

instance : KeyOrder SysColSeg :=
  ⟨fun a b => decide (a.obj < b.obj ∨ (a.obj = b.obj ∧ a.segCol < b.segCol))⟩

/-- Key of `sysEColMapKey`: `SysEColKey(tabObj, colNum)`. -/
structure SysEColKey where
  tabObj : Nat
  colNum : Int
deriving DecidableEq

instance : KeyOrder SysEColKey :=
  ⟨fun a b => decide (a.tabObj < b.tabObj ∨ (a.tabObj = b.tabObj ∧ a.colNum < b.colNum))⟩

/-- Key of `sysLobMapKey`: `SysLobKey(obj, intCol)`. -/
structure SysLobKey where
  obj : Nat
  intCol : Int
deriving DecidableEq

instance : KeyOrder SysLobKey :=
  ⟨fun a b => decide (a.obj < b.obj ∨ (a.obj = b.obj ∧ a.intCol < b.intCol))⟩

/-- Key of `sysLobCompPartMapKey`: `SysLobCompPartKey(lObj, partObj)`. -/
structure SysLobCompPartKey where
  lObj : Nat
  partObj : Nat
deriving DecidableEq

instance : KeyOrder SysLobCompPartKey :=
  ⟨fun a b => decide (a.lObj < b.lObj ∨ (a.lObj = b.lObj ∧ a.partObj < b.partObj))⟩

/-- Key of `sysLobFragMapKey`: `SysLobFragKey(parentObj, fragObj)`. -/
structure SysLobFragKey where
  parentObj : Nat
  fragObj : Nat
deriving DecidableEq

instance : KeyOrder SysLobFragKey :=
  ⟨fun a b => decide (a.parentObj < b.parentObj ∨
    (a.parentObj = b.parentObj ∧ a.fragObj < b.fragObj))⟩

/-- Key of `sysObjMapName`: `SysObjNameKey(owner, name, obj, dataObj)`. -/
structure SysObjNameKey where
  owner : Nat
  name : String
  obj : Nat
  dataObj : Nat
deriving DecidableEq

instance : KeyOrder SysObjNameKey :=
  ⟨fun a b => decide (a.owner < b.owner ∨ (a.owner = b.owner ∧
    (a.name.data < b.name.data ∨ (a.name = b.name ∧
      (a.obj < b.obj ∨ (a.obj = b.obj ∧ a.dataObj < b.dataObj))))))⟩

/-- Key of `sysTabComPartMapKey`: `SysTabComPartKey(bo, obj)`. -/
structure SysTabComPartKey where
  bo : Nat
  obj : Nat
deriving DecidableEq

instance : KeyOrder SysTabComPartKey :=
  ⟨fun a b => decide (a.bo < b.bo ∨ (a.bo = b.bo ∧ a.obj < b.obj))⟩

/-- Key of `sysTabPartMapKey`: `SysTabPartKey(bo, obj)`. -/
structure SysTabPartKey where
  bo : Nat
  obj : Nat
deriving DecidableEq

instance : KeyOrder SysTabPartKey :=
  ⟨fun a b => decide (a.bo < b.bo ∨ (a.bo = b.bo ∧ a.obj < b.obj))⟩

/-- Key of `sysTabSubPartMapKey`: `SysTabSubPartKey(pObj, obj)`. -/
structure SysTabSubPartKey where
  pObj : Nat
  obj : Nat
deriving DecidableEq

instance : KeyOrder SysTabSubPartKey :=
  ⟨fun a b => decide (a.pObj < b.pObj ∨ (a.pObj = b.pObj ∧ a.obj < b.obj))⟩

/-! #### Records

Modelled from the spec: the record classes are not among the sources; the
fields are the arguments of the constructor calls in `Schema.cpp`.  The type
`typeCol` is signed (`segCol > 0`, `guardSeg = -1`), the other numbers are
unsigned; a `typeIntX` built from two words is a pair. -/

/-- A row of SYS.CCOL$: `SysCCol(rowId, con, intCol, obj, spare11, spare12)`. -/
structure SysCCol where
  rowId : RowId
  con : Nat
  intCol : Int
  obj : Nat
  spare1 : Nat × Nat
deriving DecidableEq

/-- A row of SYS.CDEF$: `SysCDef(rowId, con, obj, type)`. -/
structure SysCDef where
  rowId : RowId
  con : Nat
  obj : Nat
  type : Nat
deriving DecidableEq

/-- A row of SYS.COL$: `SysCol(rowId, obj, col, segCol, intCol, name, type, length,
precision, scale, charsetForm, charsetId, null_, property1, property2)`. -/
structure SysCol where
  rowId : RowId
  obj : Nat
  col : Int
  segCol : Int
  intCol : Int
  name : String
  type : Nat
  length : Nat
  precision : Int
  scale : Int
  charsetForm : Nat
  charsetId : Nat
  null_ : Bool
  property : Nat × Nat
deriving DecidableEq

/-- A row of SYS.DEFERRED_STG$: `SysDeferredStg(rowId, obj, flagsStg1, flagsStg2)`. -/
structure SysDeferredStg where
  rowId : RowId
  obj : Nat
  flagsStg : Nat × Nat
deriving DecidableEq

/-- A row of SYS.ECOL$: `SysECol(rowId, tabObj, colNum, guardId)`. -/
structure SysECol where
  rowId : RowId
  tabObj : Nat
  colNum : Int
  guardId : Int
deriving DecidableEq

/-- A row of SYS.LOB$: `SysLob(rowId, obj, col, intCol, lObj, ts)`. -/
structure SysLob where
  rowId : RowId
  obj : Nat
  col : Int
  intCol : Int
  lObj : Nat
  ts : Nat
deriving DecidableEq

/-- A row of SYS.LOBCOMPPART$: `SysLobCompPart(rowId, partObj, lObj)`. -/
structure SysLobCompPart where
  rowId : RowId
  partObj : Nat
  lObj : Nat
deriving DecidableEq

/-- A row of SYS.LOBFRAG$: `SysLobFrag(rowId, fragObj, parentObj, ts)`. -/
structure SysLobFrag where
  rowId : RowId
  fragObj : Nat
  parentObj : Nat
  ts : Nat
deriving DecidableEq

/-- A row of SYS.OBJ$: `SysObj(rowId, owner, obj, dataObj, type, name, flags1,
flags2, single)`. -/
structure SysObj where
  rowId : RowId
  owner : Nat
  obj : Nat
  dataObj : Nat
  type : Nat
  name : String
  flags : Nat × Nat
  single : Bool
deriving DecidableEq

/-- A row of SYS.TAB$: `SysTab(rowId, obj, dataObj, ts, cluCols, flags1, flags2,
property1, property2)`. -/
structure SysTab where
  rowId : RowId
  obj : Nat
  dataObj : Nat
  ts : Nat
  cluCols : Int
  flags : Nat × Nat
  property : Nat × Nat
deriving DecidableEq

/-- A row of SYS.TABCOMPART$: `SysTabComPart(rowId, obj, dataObj, bo)`. -/
structure SysTabComPart where
  rowId : RowId
  obj : Nat
  dataObj : Nat
  bo : Nat
deriving DecidableEq

/-- A row of SYS.TABPART$: `SysTabPart(rowId, obj, dataObj, bo)`. -/
structure SysTabPart where
  rowId : RowId
  obj : Nat
  dataObj : Nat
  bo : Nat
deriving DecidableEq

/-- A row of SYS.TABSUBPART$: `SysTabSubPart(rowId, obj, dataObj, pObj)`. -/
structure SysTabSubPart where
  rowId : RowId
  obj : Nat
  dataObj : Nat
  pObj : Nat
deriving DecidableEq

/-- A row of SYS.TS$: `SysTs(rowId, ts, name, blockSize)`. -/
structure SysTs where
  rowId : RowId
  ts : Nat
  name : String
  blockSize : Nat
deriving DecidableEq

/-- A row of SYS.USER$: `SysUser(rowId, user, name, spare11, spare12, single)`. -/
structure SysUser where
  rowId : RowId
  user : Nat
  name : String
  spare1 : Nat × Nat
  single : Bool
deriving DecidableEq

/-! #### Table descriptors

Modelled from the spec: `OracleColumn`, `OracleLob` and `OracleTable` are not
among the sources; the fields are the arguments of the constructor calls and
the members read in `Schema.cpp`. -/

/-- A column of a table descriptor. -/
structure OracleColumn where
  col : Int
  guardSeg : Int
  segCol : Int
  name : String
  type : Nat
  length : Nat
  precision : Int
  scale : Int
  numPk : Int
  charsetId : Nat
  nullable : Bool
  invisible : Bool
  storedAsLob : Bool
  constraint : Bool
  nested : Bool
  unused : Bool
  added : Bool
  guard : Bool
deriving DecidableEq

/-- A LOB of a table descriptor, with the data objects of its indexes and of
its partitions (each with its block size). -/
structure OracleLob where
  obj : Nat
  dataObj : Nat
  lObj : Nat
  col : Int
  intCol : Int
  lobIndexes : List Nat
  lobPartitions : List Nat
  lobPageMap : List (Nat × Nat)
deriving DecidableEq

/-- A table descriptor. -/
structure OracleTable where
  obj : Nat
  dataObj : Nat
  user : Nat
  cluCols : Int
  options : Nat
  owner : String
  name : String
  columns : List OracleColumn
  lobs : List OracleLob
  tablePartitions : List Nat
deriving DecidableEq

/-- The members of `Schema` that hold the dictionary, the touch tracking and
the table descriptors.  For every meta-table: the primary map `...MapRowId`,
the secondary maps and the touched set.  The entries of
`sysDeferredStgMapObj` can be null pointers: `buildMaps` reads this map with
`operator[]`. -/
structure Schema where
  sysCColMapRowId : Map RowId SysCCol := Map.empty
  sysCColMapKey : Map SysCColKey RowId := Map.empty
  sysCColSetTouched : List RowId := []
  sysCDefMapRowId : Map RowId SysCDef := Map.empty
  sysCDefMapKey : Map SysCDefKey RowId := Map.empty
  sysCDefMapCon : Map Nat RowId := Map.empty
  sysCDefSetTouched : List RowId := []
  sysColMapRowId : Map RowId SysCol := Map.empty
  sysColMapSeg : Map SysColSeg RowId := Map.empty
  sysColSetTouched : List RowId := []
  sysDeferredStgMapRowId : Map RowId SysDeferredStg := Map.empty
  sysDeferredStgMapObj : Map Nat (Option RowId) := Map.empty
  sysDeferredStgSetTouched : List RowId := []
  sysEColMapRowId : Map RowId SysECol := Map.empty
  sysEColMapKey : Map SysEColKey RowId := Map.empty
  sysEColSetTouched : List RowId := []
  sysLobMapRowId : Map RowId SysLob := Map.empty
  sysLobMapKey : Map SysLobKey RowId := Map.empty
  sysLobMapLObj : Map Nat RowId := Map.empty
  sysLobSetTouched : List RowId := []
  sysLobCompPartMapRowId : Map RowId SysLobCompPart := Map.empty
  sysLobCompPartMapKey : Map SysLobCompPartKey RowId := Map.empty
  sysLobCompPartMapPartObj : Map Nat RowId := Map.empty
  sysLobCompPartSetTouched : List RowId := []
  sysLobFragMapRowId : Map RowId SysLobFrag := Map.empty
  sysLobFragMapKey : Map SysLobFragKey RowId := Map.empty
  sysLobFragSetTouched : List RowId := []
  sysObjMapRowId : Map RowId SysObj := Map.empty
  sysObjMapName : Map SysObjNameKey RowId := Map.empty
  sysObjMapObj : Map Nat RowId := Map.empty
  sysObjSetTouched : List RowId := []
  sysTabMapRowId : Map RowId SysTab := Map.empty
  sysTabMapObj : Map Nat RowId := Map.empty
  sysTabSetTouched : List RowId := []
  sysTabComPartMapRowId : Map RowId SysTabComPart := Map.empty
  sysTabComPartMapKey : Map SysTabComPartKey RowId := Map.empty
  sysTabComPartMapObj : Map Nat RowId := Map.empty
  sysTabComPartSetTouched : List RowId := []
  sysTabPartMapRowId : Map RowId SysTabPart := Map.empty
  sysTabPartMapKey : Map SysTabPartKey RowId := Map.empty
  sysTabPartSetTouched : List RowId := []
  sysTabSubPartMapRowId : Map RowId SysTabSubPart := Map.empty
  sysTabSubPartMapKey : Map SysTabSubPartKey RowId := Map.empty
  sysTabSubPartSetTouched : List RowId := []
  sysTsMapRowId : Map RowId SysTs := Map.empty
  sysTsMapTs : Map Nat RowId := Map.empty
  sysUserMapRowId : Map RowId SysUser := Map.empty
  sysUserMapUser : Map Nat RowId := Map.empty
  sysUserSetTouched : List RowId := []
  identifiersTouched : List Nat := []
  tablesTouched : List OracleTable := []
  touched : Bool := false
  tableMap : Map Nat OracleTable := Map.empty
  tablePartitionMap : Map Nat OracleTable := Map.empty
  lobPartitionMap : Map Nat OracleLob := Map.empty
  lobIndexMap : Map Nat OracleLob := Map.empty
deriving DecidableEq

/-- The schema after a call, also when the call raised, with the value
returned or the exception raised. -/
structure Result (α : Type) where
  schema : Schema
  ret : Except DataException α

/-- Limits of the name columns, constants of headers that are not among the
sources. -/
structure SchemaLimits where
  SYS_COL_NAME_LENGTH : Nat
  SYS_OBJ_NAME_LENGTH : Nat
  SYS_USER_NAME_LENGTH : Nat


/-! #### Touching, adding and dropping -/

/-- The method `Schema::touchTable` (Schema.cpp 1688-1702). -/
def touchTable (s : Schema) (obj : Nat) : Schema :=
  if obj = 0 then s
  else
    let s := { s with identifiersTouched := setInsert obj s.identifiersTouched }
    match s.tableMap.find obj with
    | none => s
    | some table =>
      if table ∈ s.tablesTouched then s
      else { s with tablesTouched := setInsertLast table s.tablesTouched }

/-- The LOB$ row that an entry of `sysLobMapLObj` points to, if the map has an
entry at `lObj`. -/
def lobOfLObj (s : Schema) (lObj : Nat) : Option SysLob :=
  (s.sysLobMapLObj.find lObj).bind s.sysLobMapRowId.find

/-- The LOBCOMPPART$ row that an entry of `sysLobCompPartMapPartObj` points to,
if the map has an entry at `partObj`. -/
def lobCompPartOfPartObj (s : Schema) (partObj : Nat) : Option SysLobCompPart :=
  (s.sysLobCompPartMapPartObj.find partObj).bind s.sysLobCompPartMapRowId.find

/-- The OBJ$ row that an entry of `sysObjMapObj` points to, if the map has an
entry at `obj`. -/
def objOfObj (s : Schema) (obj : Nat) : Option SysObj :=
  (s.sysObjMapObj.find obj).bind s.sysObjMapRowId.find

/-- The method `Schema::dictSysCColAdd(SysCCol*)` (Schema.cpp 806-826): the record
is stored under its rowId first, then every unique key is checked and
entered. -/
def dictSysCColAdd (s : Schema) (sysCCol : SysCCol) : Result Unit :=
  let s := { s with sysCColMapRowId := s.sysCColMapRowId.set sysCCol.rowId sysCCol }
  let sysCColKey : SysCColKey :=
    { obj := sysCCol.obj, intCol := sysCCol.intCol, con := sysCCol.con }
  match s.sysCColMapKey.find sysCColKey with
  | some _ => { schema := s, ret := .error ⟨50024⟩ }
  | none =>
    let s := { s with sysCColMapKey := s.sysCColMapKey.set sysCColKey sysCCol.rowId }
    let s := { s with sysCColSetTouched := setInsert sysCCol.rowId s.sysCColSetTouched }
    let s := touchTable s sysCCol.obj
    { schema := { s with touched := true }, ret := .ok () }

/-- The method `Schema::dictSysCColDrop` (Schema.cpp 1172-1194). -/
def dictSysCColDrop (s : Schema) (sysCCol : SysCCol) : Result Unit :=
  match s.sysCColMapRowId.find sysCCol.rowId with
  | none => { schema := s, ret := .ok () }
  | some _ =>
    let s := { s with sysCColMapRowId := s.sysCColMapRowId.erase sysCCol.rowId }
    let sysCColKey : SysCColKey :=
      { obj := sysCCol.obj, intCol := sysCCol.intCol, con := sysCCol.con }
    match s.sysCColMapKey.find sysCColKey with
    | none => { schema := s, ret := .error ⟨50030⟩ }
    | some _ =>
      let s := { s with sysCColMapKey := s.sysCColMapKey.erase sysCColKey }
      let s := touchTable s sysCCol.obj
      { schema := { s with touched := true }, ret := .ok () }

/-- The method `Schema::dictSysCDefAdd(SysCDef*)` (Schema.cpp 828-853): the record
is stored under its rowId first, then every unique key is checked and
entered. -/
def dictSysCDefAdd (s : Schema) (sysCDef : SysCDef) : Result Unit :=
  let s := { s with sysCDefMapRowId := s.sysCDefMapRowId.set sysCDef.rowId sysCDef }
  let sysCDefKey : SysCDefKey := { obj := sysCDef.obj, con := sysCDef.con }
  match s.sysCDefMapKey.find sysCDefKey with
  | some _ => { schema := s, ret := .error ⟨50024⟩ }
  | none =>
    let s := { s with sysCDefMapKey := s.sysCDefMapKey.set sysCDefKey sysCDef.rowId }
    match s.sysCDefMapCon.find sysCDef.con with
    | some _ => { schema := s, ret := .error ⟨50024⟩ }
    | none =>
      let s := { s with sysCDefMapCon := s.sysCDefMapCon.set sysCDef.con sysCDef.rowId }
      let s := { s with sysCDefSetTouched := setInsert sysCDef.rowId s.sysCDefSetTouched }
      let s := touchTable s sysCDef.obj
      { schema := { s with touched := true }, ret := .ok () }

/-- The method `Schema::dictSysCDefDrop` (Schema.cpp 1196-1223). -/
def dictSysCDefDrop (s : Schema) (sysCDef : SysCDef) : Result Unit :=
  match s.sysCDefMapRowId.find sysCDef.rowId with
  | none => { schema := s, ret := .ok () }
  | some _ =>
    let s := { s with sysCDefMapRowId := s.sysCDefMapRowId.erase sysCDef.rowId }
    let sysCDefKey : SysCDefKey := { obj := sysCDef.obj, con := sysCDef.con }
    match s.sysCDefMapKey.find sysCDefKey with
    | none => { schema := s, ret := .error ⟨50030⟩ }
    | some _ =>
      let s := { s with sysCDefMapKey := s.sysCDefMapKey.erase sysCDefKey }
      match s.sysCDefMapCon.find sysCDef.con with
      | none => { schema := s, ret := .error ⟨50030⟩ }
      | some _ =>
        let s := { s with sysCDefMapCon := s.sysCDefMapCon.erase sysCDef.con }
        let s := touchTable s sysCDef.obj
        { schema := { s with touched := true }, ret := .ok () }

/-- The method `Schema::dictSysEColAdd(SysECol*)` (Schema.cpp 907-926): the record
is stored under its rowId first, then every unique key is checked and
entered. -/
def dictSysEColAdd (s : Schema) (sysECol : SysECol) : Result Unit :=
  let s := { s with sysEColMapRowId := s.sysEColMapRowId.set sysECol.rowId sysECol }
  let sysEColKey : SysEColKey := { tabObj := sysECol.tabObj, colNum := sysECol.colNum }
  match s.sysEColMapKey.find sysEColKey with
  | some _ => { schema := s, ret := .error ⟨50024⟩ }
  | none =>
    let s := { s with sysEColMapKey := s.sysEColMapKey.set sysEColKey sysECol.rowId }
    let s := { s with sysEColSetTouched := setInsert sysECol.rowId s.sysEColSetTouched }
    let s := touchTable s sysECol.tabObj
    { schema := { s with touched := true }, ret := .ok () }

/-- The method `Schema::dictSysEColDrop` (Schema.cpp 1280-1301). -/
def dictSysEColDrop (s : Schema) (sysECol : SysECol) : Result Unit :=
  match s.sysEColMapRowId.find sysECol.rowId with
  | none => { schema := s, ret := .ok () }
  | some _ =>
    let s := { s with sysEColMapRowId := s.sysEColMapRowId.erase sysECol.rowId }
    let sysEColKey : SysEColKey := { tabObj := sysECol.tabObj, colNum := sysECol.colNum }
    match s.sysEColMapKey.find sysEColKey with
    | none => { schema := s, ret := .error ⟨50030⟩ }
    | some _ =>
      let s := { s with sysEColMapKey := s.sysEColMapKey.erase sysEColKey }
      let s := touchTable s sysECol.tabObj
      { schema := { s with touched := true }, ret := .ok () }

/-- The method `Schema::dictSysLobAdd(SysLob*)` (Schema.cpp 928-955): the record
is stored under its rowId first, then every unique key is checked and
entered. -/
def dictSysLobAdd (s : Schema) (sysLob : SysLob) : Result Unit :=
  let s := { s with sysLobMapRowId := s.sysLobMapRowId.set sysLob.rowId sysLob }
  let sysLobKey : SysLobKey := { obj := sysLob.obj, intCol := sysLob.intCol }
  match s.sysLobMapKey.find sysLobKey with
  | some _ => { schema := s, ret := .error ⟨50024⟩ }
  | none =>
    let s := { s with sysLobMapKey := s.sysLobMapKey.set sysLobKey sysLob.rowId }
    match s.sysLobMapLObj.find sysLob.lObj with
    | some _ => { schema := s, ret := .error ⟨50024⟩ }
    | none =>
      let s := { s with sysLobMapLObj := s.sysLobMapLObj.set sysLob.lObj sysLob.rowId }
      let s := { s with sysLobSetTouched := setInsert sysLob.rowId s.sysLobSetTouched }
      let s := touchTable s sysLob.obj
      { schema := { s with touched := true }, ret := .ok () }

/-- The method `Schema::dictSysLobDrop` (Schema.cpp 1303-1332). -/
def dictSysLobDrop (s : Schema) (sysLob : SysLob) : Result Unit :=
  match s.sysLobMapRowId.find sysLob.rowId with
  | none => { schema := s, ret := .ok () }
  | some _ =>
    let s := { s with sysLobMapRowId := s.sysLobMapRowId.erase sysLob.rowId }
    let sysLobKey : SysLobKey := { obj := sysLob.obj, intCol := sysLob.intCol }
    match s.sysLobMapKey.find sysLobKey with
    | none => { schema := s, ret := .error ⟨50030⟩ }
    | some _ =>
      let s := { s with sysLobMapKey := s.sysLobMapKey.erase sysLobKey }
      match s.sysLobMapLObj.find sysLob.lObj with
      | none => { schema := s, ret := .error ⟨50030⟩ }
      | some _ =>
        let s := { s with sysLobMapLObj := s.sysLobMapLObj.erase sysLob.lObj }
        let s := touchTable s sysLob.obj
        { schema := { s with touched := true }, ret := .ok () }

/-- The method `Schema::dictSysLobCompPartAdd(SysLobCompPart*)` (Schema.cpp 957-984): the record
is stored under its rowId first, then every unique key is checked and
entered. -/
def dictSysLobCompPartAdd (s : Schema) (sysLobCompPart : SysLobCompPart) : Result Unit :=
  let s := { s with
    sysLobCompPartMapRowId := s.sysLobCompPartMapRowId.set sysLobCompPart.rowId sysLobCompPart }
  let sysLobCompPartKey : SysLobCompPartKey :=
    { lObj := sysLobCompPart.lObj, partObj := sysLobCompPart.partObj }
  match s.sysLobCompPartMapKey.find sysLobCompPartKey with
  | some _ => { schema := s, ret := .error ⟨50024⟩ }
  | none =>
    let s := { s with
      sysLobCompPartMapKey := s.sysLobCompPartMapKey.set sysLobCompPartKey sysLobCompPart.rowId }
    match s.sysLobCompPartMapPartObj.find sysLobCompPart.partObj with
    | some _ => { schema := s, ret := .error ⟨50024⟩ }
    | none =>
      let s := { s with
        sysLobCompPartMapPartObj :=
          s.sysLobCompPartMapPartObj.set sysLobCompPart.partObj sysLobCompPart.rowId }
      let s := { s with
        sysLobCompPartSetTouched := setInsert sysLobCompPart.rowId s.sysLobCompPartSetTouched }
      let s := match lobOfLObj s sysLobCompPart.lObj with
        | some sysLob => touchTable s sysLob.obj
        | none => s
      { schema := { s with touched := true }, ret := .ok () }

/-- The method `Schema::dictSysLobCompPartDrop` (Schema.cpp 1334-1362). -/
def dictSysLobCompPartDrop (s : Schema) (sysLobCompPart : SysLobCompPart) : Result Unit :=
  match s.sysLobCompPartMapRowId.find sysLobCompPart.rowId with
  | none => { schema := s, ret := .ok () }
  | some _ =>
    let s := { s with
      sysLobCompPartMapRowId := s.sysLobCompPartMapRowId.erase sysLobCompPart.rowId }
    let sysLobCompPartKey : SysLobCompPartKey :=
      { lObj := sysLobCompPart.lObj, partObj := sysLobCompPart.partObj }
    match s.sysLobCompPartMapKey.find sysLobCompPartKey with
    | none => { schema := s, ret := .error ⟨50030⟩ }
    | some _ =>
      let s := { s with sysLobCompPartMapKey := s.sysLobCompPartMapKey.erase sysLobCompPartKey }
      match s.sysLobCompPartMapPartObj.find sysLobCompPart.partObj with
      | none => { schema := s, ret := .error ⟨50030⟩ }
      | some _ =>
        let s := { s with
          sysLobCompPartMapPartObj := s.sysLobCompPartMapPartObj.erase sysLobCompPart.partObj }
        let s := match lobOfLObj s sysLobCompPart.lObj with
          | some sysLob => touchTable s sysLob.obj
          | none => s
        { schema := { s with touched := true }, ret := .ok () }

/-- The method `Schema::dictSysObjAdd(SysObj*)` (Schema.cpp 1015-1043): the record
is stored under its rowId first, then every unique key is checked and
entered. -/
def dictSysObjAdd (s : Schema) (sysObj : SysObj) : Result Unit :=
  let s := { s with sysObjMapRowId := s.sysObjMapRowId.set sysObj.rowId sysObj }
  let sysObjNameKey : SysObjNameKey :=
    { owner := sysObj.owner, name := sysObj.name, obj := sysObj.obj, dataObj := sysObj.dataObj }
  match s.sysObjMapName.find sysObjNameKey with
  | some _ => { schema := s, ret := .error ⟨50024⟩ }
  | none =>
    let s := { s with sysObjMapName := s.sysObjMapName.set sysObjNameKey sysObj.rowId }
    match s.sysObjMapObj.find sysObj.obj with
    | some _ => { schema := s, ret := .error ⟨50024⟩ }
    | none =>
      let s := { s with sysObjMapObj := s.sysObjMapObj.set sysObj.obj sysObj.rowId }
      let s := { s with sysObjSetTouched := setInsert sysObj.rowId s.sysObjSetTouched }
      let s := touchTable s sysObj.obj
      { schema := { s with touched := true }, ret := .ok () }

/-- The method `Schema::dictSysObjDrop` (Schema.cpp 1396-1426). -/
def dictSysObjDrop (s : Schema) (sysObj : SysObj) : Result Unit :=
  match s.sysObjMapRowId.find sysObj.rowId with
  | none => { schema := s, ret := .ok () }
  | some _ =>
    let s := { s with sysObjMapRowId := s.sysObjMapRowId.erase sysObj.rowId }
    let sysObjNameKey : SysObjNameKey :=
      { owner := sysObj.owner, name := sysObj.name, obj := sysObj.obj, dataObj := sysObj.dataObj }
    match s.sysObjMapName.find sysObjNameKey with
    | none => { schema := s, ret := .error ⟨50030⟩ }
    | some _ =>
      let s := { s with sysObjMapName := s.sysObjMapName.erase sysObjNameKey }
      match s.sysObjMapObj.find sysObj.obj with
      | none => { schema := s, ret := .error ⟨50030⟩ }
      | some _ =>
        let s := { s with sysObjMapObj := s.sysObjMapObj.erase sysObj.obj }
        let s := touchTable s sysObj.obj
        { schema := { s with touched := true }, ret := .ok () }

/-- The method `Schema::dictSysTabAdd(SysTab*)` (Schema.cpp 1045-1064): the record
is stored under its rowId first, then every unique key is checked and
entered. -/
def dictSysTabAdd (s : Schema) (sysTab : SysTab) : Result Unit :=
  let s := { s with sysTabMapRowId := s.sysTabMapRowId.set sysTab.rowId sysTab }
  match s.sysTabMapObj.find sysTab.obj with
  | some _ => { schema := s, ret := .error ⟨50024⟩ }
  | none =>
    let s := { s with sysTabMapObj := s.sysTabMapObj.set sysTab.obj sysTab.rowId }
    let s := { s with sysTabSetTouched := setInsert sysTab.rowId s.sysTabSetTouched }
    let s := touchTable s sysTab.obj
    { schema := { s with touched := true }, ret := .ok () }

/-- The method `Schema::dictSysTabDrop` (Schema.cpp 1428-1449). -/
def dictSysTabDrop (s : Schema) (sysTab : SysTab) : Result Unit :=
  match s.sysTabMapRowId.find sysTab.rowId with
  | none => { schema := s, ret := .ok () }
  | some _ =>
    let s := { s with sysTabMapRowId := s.sysTabMapRowId.erase sysTab.rowId }
    match s.sysTabMapObj.find sysTab.obj with
    | none => { schema := s, ret := .error ⟨50030⟩ }
    | some _ =>
      let s := { s with sysTabMapObj := s.sysTabMapObj.erase sysTab.obj }
      let s := touchTable s sysTab.obj
      { schema := { s with touched := true }, ret := .ok () }

/-- The method `Schema::dictSysTabComPartAdd(SysTabComPart*)` (Schema.cpp 1066-1091): the record
is stored under its rowId first, then every unique key is checked and
entered. -/
def dictSysTabComPartAdd (s : Schema) (sysTabComPart : SysTabComPart) : Result Unit :=
  let s := { s with
    sysTabComPartMapRowId := s.sysTabComPartMapRowId.set sysTabComPart.rowId sysTabComPart }
  let sysTabComPartKey : SysTabComPartKey := { bo := sysTabComPart.bo, obj := sysTabComPart.obj }
  match s.sysTabComPartMapKey.find sysTabComPartKey with
  | some _ => { schema := s, ret := .error ⟨50024⟩ }
  | none =>
    let s := { s with
      sysTabComPartMapKey := s.sysTabComPartMapKey.set sysTabComPartKey sysTabComPart.rowId }
    match s.sysTabComPartMapObj.find sysTabComPart.obj with
    | some _ => { schema := s, ret := .error ⟨50024⟩ }
    | none =>
      let s := { s with
        sysTabComPartMapObj := s.sysTabComPartMapObj.set sysTabComPart.obj sysTabComPart.rowId }
      let s := { s with
        sysTabComPartSetTouched := setInsert sysTabComPart.rowId s.sysTabComPartSetTouched }
      let s := touchTable s sysTabComPart.bo
      { schema := { s with touched := true }, ret := .ok () }

/-- The method `Schema::dictSysTabComPartDrop` (Schema.cpp 1451-1478). -/
def dictSysTabComPartDrop (s : Schema) (sysTabComPart : SysTabComPart) : Result Unit :=
  match s.sysTabComPartMapRowId.find sysTabComPart.rowId with
  | none => { schema := s, ret := .ok () }
  | some _ =>
    let s := { s with sysTabComPartMapRowId := s.sysTabComPartMapRowId.erase sysTabComPart.rowId }
    let sysTabComPartKey : SysTabComPartKey := { bo := sysTabComPart.bo, obj := sysTabComPart.obj }
    match s.sysTabComPartMapKey.find sysTabComPartKey with
    | none => { schema := s, ret := .error ⟨50030⟩ }
    | some _ =>
      let s := { s with sysTabComPartMapKey := s.sysTabComPartMapKey.erase sysTabComPartKey }
      match s.sysTabComPartMapObj.find sysTabComPart.obj with
      | none => { schema := s, ret := .error ⟨50030⟩ }
      | some _ =>
        let s := { s with sysTabComPartMapObj := s.sysTabComPartMapObj.erase sysTabComPart.obj }
        let s := touchTable s sysTabComPart.bo
        { schema := { s with touched := true }, ret := .ok () }

/-- The method `Schema::dictSysTabPartAdd(SysTabPart*)` (Schema.cpp 1093-1112): the record
is stored under its rowId first, then every unique key is checked and
entered. -/
def dictSysTabPartAdd (s : Schema) (sysTabPart : SysTabPart) : Result Unit :=
  let s := { s with sysTabPartMapRowId := s.sysTabPartMapRowId.set sysTabPart.rowId sysTabPart }
  let sysTabPartKey : SysTabPartKey := { bo := sysTabPart.bo, obj := sysTabPart.obj }
  match s.sysTabPartMapKey.find sysTabPartKey with
  | some _ => { schema := s, ret := .error ⟨50024⟩ }
  | none =>
    let s := { s with sysTabPartMapKey := s.sysTabPartMapKey.set sysTabPartKey sysTabPart.rowId }
    let s := { s with sysTabPartSetTouched := setInsert sysTabPart.rowId s.sysTabPartSetTouched }
    let s := touchTable s sysTabPart.bo
    { schema := { s with touched := true }, ret := .ok () }

/-- The method `Schema::dictSysTabPartDrop` (Schema.cpp 1480-1501). -/
def dictSysTabPartDrop (s : Schema) (sysTabPart : SysTabPart) : Result Unit :=
  match s.sysTabPartMapRowId.find sysTabPart.rowId with
  | none => { schema := s, ret := .ok () }
  | some _ =>
    let s := { s with sysTabPartMapRowId := s.sysTabPartMapRowId.erase sysTabPart.rowId }
    let sysTabPartKey : SysTabPartKey := { bo := sysTabPart.bo, obj := sysTabPart.obj }
    match s.sysTabPartMapKey.find sysTabPartKey with
    | none => { schema := s, ret := .error ⟨50030⟩ }
    | some _ =>
      let s := { s with sysTabPartMapKey := s.sysTabPartMapKey.erase sysTabPartKey }
      let s := touchTable s sysTabPart.bo
      { schema := { s with touched := true }, ret := .ok () }

/-- The method `Schema::dictSysTabSubPartAdd(SysTabSubPart*)` (Schema.cpp 1114-1135): the record
is stored under its rowId first, then every unique key is checked and
entered. -/
def dictSysTabSubPartAdd (s : Schema) (sysTabSubPart : SysTabSubPart) : Result Unit :=
  let s := { s with
    sysTabSubPartMapRowId := s.sysTabSubPartMapRowId.set sysTabSubPart.rowId sysTabSubPart }
  let sysTabSubPartKey : SysTabSubPartKey :=
    { pObj := sysTabSubPart.pObj, obj := sysTabSubPart.obj }
  match s.sysTabSubPartMapKey.find sysTabSubPartKey with
  | some _ => { schema := s, ret := .error ⟨50024⟩ }
  | none =>
    let s := { s with
      sysTabSubPartMapKey := s.sysTabSubPartMapKey.set sysTabSubPartKey sysTabSubPart.rowId }
    let s := { s with
      sysTabSubPartSetTouched := setInsert sysTabSubPart.rowId s.sysTabSubPartSetTouched }
    let s := match objOfObj s sysTabSubPart.obj with
      | some sysObj => touchTable s sysObj.obj
      | none => s
    { schema := { s with touched := true }, ret := .ok () }

/-- The method `Schema::dictSysTabSubPartDrop` (Schema.cpp 1503-1526). -/
def dictSysTabSubPartDrop (s : Schema) (sysTabSubPart : SysTabSubPart) : Result Unit :=
  match s.sysTabSubPartMapRowId.find sysTabSubPart.rowId with
  | none => { schema := s, ret := .ok () }
  | some _ =>
    let s := { s with sysTabSubPartMapRowId := s.sysTabSubPartMapRowId.erase sysTabSubPart.rowId }
    let sysTabSubPartKey : SysTabSubPartKey :=
      { pObj := sysTabSubPart.pObj, obj := sysTabSubPart.obj }
    match s.sysTabSubPartMapKey.find sysTabSubPartKey with
    | none => { schema := s, ret := .error ⟨50030⟩ }
    | some _ =>
      let s := { s with sysTabSubPartMapKey := s.sysTabSubPartMapKey.erase sysTabSubPartKey }
      let s := match objOfObj s sysTabSubPart.obj with
        | some sysObj => touchTable s sysObj.obj
        | none => s
      { schema := { s with touched := true }, ret := .ok () }

/-- The method `Schema::dictSysTsAdd(SysTs*)` (Schema.cpp 1137-1152): the record
is stored under its rowId first, then every unique key is checked and
entered. -/
def dictSysTsAdd (s : Schema) (sysTs : SysTs) : Result Unit :=
  let s := { s with sysTsMapRowId := s.sysTsMapRowId.set sysTs.rowId sysTs }
  match s.sysTsMapTs.find sysTs.ts with
  | some _ => { schema := s, ret := .error ⟨50024⟩ }
  | none =>
    let s := { s with sysTsMapTs := s.sysTsMapTs.set sysTs.ts sysTs.rowId }
    { schema := { s with touched := true }, ret := .ok () }

/-- The method `Schema::dictSysTsDrop` (Schema.cpp 1528-1546). -/
def dictSysTsDrop (s : Schema) (sysTs : SysTs) : Result Unit :=
  match s.sysTsMapRowId.find sysTs.rowId with
  | none => { schema := s, ret := .ok () }
  | some _ =>
    let s := { s with sysTsMapRowId := s.sysTsMapRowId.erase sysTs.rowId }
    match s.sysTsMapTs.find sysTs.ts with
    | none => { schema := s, ret := .error ⟨50030⟩ }
    | some _ =>
      let s := { s with sysTsMapTs := s.sysTsMapTs.erase sysTs.ts }
      { schema := { s with touched := true }, ret := .ok () }

/-- The method `Schema::dictSysUserAdd(SysUser*)` (Schema.cpp 1154-1170): the record
is stored under its rowId first, then every unique key is checked and
entered. -/
def dictSysUserAdd (s : Schema) (sysUser : SysUser) : Result Unit :=
  let s := { s with sysUserMapRowId := s.sysUserMapRowId.set sysUser.rowId sysUser }
  match s.sysUserMapUser.find sysUser.user with
  | some _ => { schema := s, ret := .error ⟨50024⟩ }
  | none =>
    let s := { s with sysUserMapUser := s.sysUserMapUser.set sysUser.user sysUser.rowId }
    let s := { s with sysUserSetTouched := setInsert sysUser.rowId s.sysUserSetTouched }
    { schema := { s with touched := true }, ret := .ok () }

/-- The method `Schema::dictSysUserDrop` (Schema.cpp 1548-1566). -/
def dictSysUserDrop (s : Schema) (sysUser : SysUser) : Result Unit :=
  match s.sysUserMapRowId.find sysUser.rowId with
  | none => { schema := s, ret := .ok () }
  | some _ =>
    let s := { s with sysUserMapRowId := s.sysUserMapRowId.erase sysUser.rowId }
    match s.sysUserMapUser.find sysUser.user with
    | none => { schema := s, ret := .error ⟨50030⟩ }
    | some _ =>
      let s := { s with sysUserMapUser := s.sysUserMapUser.erase sysUser.user }
      { schema := { s with touched := true }, ret := .ok () }

/-- The method `Schema::dictSysColAdd(SysCol*)` (Schema.cpp 855-886).  When the key
`(obj, segCol)` is taken, the source builds a `DataException(50024, ...)` and
does not throw it (line 877), so nothing happens on that branch. -/
def dictSysColAdd (s : Schema) (sysCol : SysCol) : Result Unit :=
  let s := { s with sysColMapRowId := s.sysColMapRowId.set sysCol.rowId sysCol }
  let s :=
    if sysCol.segCol > 0 then
      let sysColSeg : SysColSeg := { obj := sysCol.obj, segCol := sysCol.segCol }
      match s.sysColMapSeg.find sysColSeg with
      | none => { s with sysColMapSeg := s.sysColMapSeg.set sysColSeg sysCol.rowId }
      | some _ => s
    else s
  let s := { s with sysColSetTouched := setInsert sysCol.rowId s.sysColSetTouched }
  let s := touchTable s sysCol.obj
  { schema := { s with touched := true }, ret := .ok () }

/-- The method `Schema::dictSysColDrop` (Schema.cpp 1225-1258). -/
def dictSysColDrop (s : Schema) (sysCol : SysCol) : Result Unit :=
  match s.sysColMapRowId.find sysCol.rowId with
  | none => { schema := s, ret := .ok () }
  | some _ =>
    let s := { s with sysColMapRowId := s.sysColMapRowId.erase sysCol.rowId }
    if sysCol.segCol > 0 then
      let sysColSeg : SysColSeg := { obj := sysCol.obj, segCol := sysCol.segCol }
      match s.sysColMapSeg.find sysColSeg with
      | none => { schema := s, ret := .error ⟨50030⟩ }
      | some _ =>
        let s := { s with sysColMapSeg := s.sysColMapSeg.erase sysColSeg }
        let s := touchTable s sysCol.obj
        { schema := { s with touched := true }, ret := .ok () }
    else
      let s := touchTable s sysCol.obj
      { schema := { s with touched := true }, ret := .ok () }

/-- The method `Schema::dictSysDeferredStgAdd(SysDeferredStg*)` (Schema.cpp
888-905). -/
def dictSysDeferredStgAdd (s : Schema) (sysDeferredStg : SysDeferredStg) : Result Unit :=
  let s := { s with
    sysDeferredStgMapRowId := s.sysDeferredStgMapRowId.set sysDeferredStg.rowId sysDeferredStg }
  match s.sysDeferredStgMapObj.find sysDeferredStg.obj with
  | some _ => { schema := s, ret := .error ⟨50024⟩ }
  | none =>
    let s := { s with
      sysDeferredStgMapObj :=
        s.sysDeferredStgMapObj.set sysDeferredStg.obj (some sysDeferredStg.rowId) }
    let s := { s with
      sysDeferredStgSetTouched := setInsert sysDeferredStg.rowId s.sysDeferredStgSetTouched }
    let s := touchTable s sysDeferredStg.obj
    { schema := { s with touched := true }, ret := .ok () }

/-- The method `Schema::dictSysDeferredStgDrop` (Schema.cpp 1260-1278). -/
def dictSysDeferredStgDrop (s : Schema) (sysDeferredStg : SysDeferredStg) : Result Unit :=
  match s.sysDeferredStgMapRowId.find sysDeferredStg.rowId with
  | none => { schema := s, ret := .ok () }
  | some _ =>
    let s := { s with
      sysDeferredStgMapRowId := s.sysDeferredStgMapRowId.erase sysDeferredStg.rowId }
    match s.sysDeferredStgMapObj.find sysDeferredStg.obj with
    | none => { schema := s, ret := .error ⟨50030⟩ }
    | some _ =>
      let s := { s with
        sysDeferredStgMapObj := s.sysDeferredStgMapObj.erase sysDeferredStg.obj }
      let s := touchTable s sysDeferredStg.obj
      { schema := { s with touched := true }, ret := .ok () }

/-- The method `Schema::dictSysLobFragAdd(SysLobFrag*)` (Schema.cpp 986-1013). -/
def dictSysLobFragAdd (s : Schema) (sysLobFrag : SysLobFrag) : Result Unit :=
  let s := { s with sysLobFragMapRowId := s.sysLobFragMapRowId.set sysLobFrag.rowId sysLobFrag }
  let sysLobFragKey : SysLobFragKey :=
    { parentObj := sysLobFrag.parentObj, fragObj := sysLobFrag.fragObj }
  match s.sysLobFragMapKey.find sysLobFragKey with
  | some _ => { schema := s, ret := .error ⟨50024⟩ }
  | none =>
    let s := { s with sysLobFragMapKey := s.sysLobFragMapKey.set sysLobFragKey sysLobFrag.rowId }
    let s := { s with sysLobFragSetTouched := setInsert sysLobFrag.rowId s.sysLobFragSetTouched }
    let s := match lobCompPartOfPartObj s sysLobFrag.parentObj with
      | some sysLobCompPart =>
        match lobOfLObj s sysLobCompPart.lObj with
        | some sysLob => touchTable s sysLob.obj
        | none => s
      | none => s
    let s := match lobOfLObj s sysLobFrag.parentObj with
      | some sysLob => touchTable s sysLob.obj
      | none => s
    { schema := { s with touched := true }, ret := .ok () }

/-- The method `Schema::dictSysLobFragDrop` (Schema.cpp 1364-1394). -/
def dictSysLobFragDrop (s : Schema) (sysLobFrag : SysLobFrag) : Result Unit :=
  match s.sysLobFragMapRowId.find sysLobFrag.rowId with
  | none => { schema := s, ret := .ok () }
  | some _ =>
    let s := { s with sysLobFragMapRowId := s.sysLobFragMapRowId.erase sysLobFrag.rowId }
    let s := match lobOfLObj s sysLobFrag.parentObj with
      | some sysLob => touchTable s sysLob.obj
      | none => s
    let sysLobFragKey : SysLobFragKey :=
      { parentObj := sysLobFrag.parentObj, fragObj := sysLobFrag.fragObj }
    match s.sysLobFragMapKey.find sysLobFragKey with
    | none => { schema := s, ret := .error ⟨50030⟩ }
    | some _ =>
      let s := { s with sysLobFragMapKey := s.sysLobFragMapKey.erase sysLobFragKey }
      let s := match lobCompPartOfPartObj s sysLobFrag.parentObj with
        | some sysLobCompPart =>
          match lobOfLObj s sysLobCompPart.lObj with
          | some sysLob => touchTable s sysLob.obj
          | none => s
        | none => s
      { schema := { s with touched := true }, ret := .ok () }

/-- The value or exception of a call, with the value forgotten. -/
def Result.void {α : Type} (r : Result α) : Result Unit :=
  { schema := r.schema, ret := r.ret.map fun _ => () }

/-- The call `dictSysCColAdd(rowIdStr, ...)` (Schema.cpp 615-622). -/
def dictSysCColAddStr (s : Schema) (rowIdStr : String) (con : Nat) (intCol : Int) (obj : Nat)
    (spare11 spare12 : Nat) : Result Unit :=
  let rowId : RowId := rowIdStr
  match s.sysCColMapRowId.find rowId with
  | some _ => { schema := s, ret := .error ⟨50023⟩ }
  | none =>
    dictSysCColAdd s
      { rowId := rowId, con := con, intCol := intCol, obj := obj, spare1 := (spare11, spare12) }

/-- The call `dictSysCDefAdd(rowIdStr, ...)` (Schema.cpp 624-631). -/
def dictSysCDefAddStr (s : Schema) (rowIdStr : String) (con obj type : Nat) : Result Unit :=
  let rowId : RowId := rowIdStr
  match s.sysCDefMapRowId.find rowId with
  | some _ => { schema := s, ret := .error ⟨50023⟩ }
  | none => dictSysCDefAdd s { rowId := rowId, con := con, obj := obj, type := type }

/-- The call `dictSysColAdd(rowIdStr, ...)` (Schema.cpp 633-651); `strlen(name)` is
the number of bytes of the name. -/
def dictSysColAddStr (lim : SchemaLimits) (s : Schema) (rowIdStr : String) (obj : Nat)
    (col segCol intCol : Int) (name : String) (type length : Nat) (precision scale : Int)
    (charsetForm charsetId : Nat) (null_ : Bool) (property1 property2 : Nat) : Result Unit :=
  let rowId : RowId := rowIdStr
  match s.sysColMapRowId.find rowId with
  | some _ => { schema := s, ret := .error ⟨50023⟩ }
  | none =>
    if name.utf8ByteSize > lim.SYS_COL_NAME_LENGTH then { schema := s, ret := .error ⟨50025⟩ }
    else if segCol > 1000 then { schema := s, ret := .error ⟨50025⟩ }
    else
      dictSysColAdd s
        { rowId := rowId, obj := obj, col := col, segCol := segCol, intCol := intCol,
          name := name, type := type, length := length, precision := precision, scale := scale,
          charsetForm := charsetForm, charsetId := charsetId, null_ := null_,
          property := (property1, property2) }

/-- The call `dictSysDeferredStgAdd(rowIdStr, ...)` (Schema.cpp 653-660). -/
def dictSysDeferredStgAddStr (s : Schema) (rowIdStr : String) (obj flagsStg1 flagsStg2 : Nat) :
    Result Unit :=
  let rowId : RowId := rowIdStr
  match s.sysDeferredStgMapRowId.find rowId with
  | some _ => { schema := s, ret := .error ⟨50023⟩ }
  | none =>
    dictSysDeferredStgAdd s { rowId := rowId, obj := obj, flagsStg := (flagsStg1, flagsStg2) }

/-- The call `dictSysEColAdd(rowIdStr, ...)` (Schema.cpp 662-669). -/
def dictSysEColAddStr (s : Schema) (rowIdStr : String) (tabObj : Nat) (colNum guardId : Int) :
    Result Unit :=
  let rowId : RowId := rowIdStr
  match s.sysEColMapRowId.find rowId with
  | some _ => { schema := s, ret := .error ⟨50023⟩ }
  | none =>
    dictSysEColAdd s { rowId := rowId, tabObj := tabObj, colNum := colNum, guardId := guardId }

/-- The call `dictSysLobAdd(rowIdStr, ...)` (Schema.cpp 671-678). -/
def dictSysLobAddStr (s : Schema) (rowIdStr : String) (obj : Nat) (col intCol : Int)
    (lObj ts : Nat) : Result Unit :=
  let rowId : RowId := rowIdStr
  match s.sysLobMapRowId.find rowId with
  | some _ => { schema := s, ret := .error ⟨50023⟩ }
  | none =>
    dictSysLobAdd s
      { rowId := rowId, obj := obj, col := col, intCol := intCol, lObj := lObj, ts := ts }

/-- The call `dictSysLobCompPartAdd(rowIdStr, ...)` (Schema.cpp 680-687). -/
def dictSysLobCompPartAddStr (s : Schema) (rowIdStr : String) (partObj lObj : Nat) :
    Result Unit :=
  let rowId : RowId := rowIdStr
  match s.sysLobCompPartMapRowId.find rowId with
  | some _ => { schema := s, ret := .error ⟨50023⟩ }
  | none => dictSysLobCompPartAdd s { rowId := rowId, partObj := partObj, lObj := lObj }

/-- The call `dictSysLobFragAdd(rowIdStr, ...)` (Schema.cpp 689-696). -/
def dictSysLobFragAddStr (s : Schema) (rowIdStr : String) (fragObj parentObj ts : Nat) :
    Result Unit :=
  let rowId : RowId := rowIdStr
  match s.sysLobFragMapRowId.find rowId with
  | some _ => { schema := s, ret := .error ⟨50023⟩ }
  | none =>
    dictSysLobFragAdd s { rowId := rowId, fragObj := fragObj, parentObj := parentObj, ts := ts }

/-- The call `dictSysObjAdd(rowIdStr, ...)` (Schema.cpp 698-728).  For a rowId that
is stored, the stored record is reached through the primary map and its
`single` is cleared in place. -/
def dictSysObjAddStr (lim : SchemaLimits) (s : Schema) (rowIdStr : String)
    (owner obj dataObj type : Nat) (name : String) (flags1 flags2 : Nat) (single : Bool) :
    Result Bool :=
  let rowId : RowId := rowIdStr
  match s.sysObjMapRowId.find rowId with
  | some sysObj =>
    if sysObj.single = true then
      if single = false then
        { schema := { s with
            sysObjMapRowId := s.sysObjMapRowId.set rowId { sysObj with single := false } }
          ret := .ok true }
      else
        { schema := s, ret := .ok true }
    else
      { schema := s, ret := .ok false }
  | none =>
    if name.utf8ByteSize > lim.SYS_OBJ_NAME_LENGTH then { schema := s, ret := .error ⟨50025⟩ }
    else
      let r := dictSysObjAdd s
        { rowId := rowId, owner := owner, obj := obj, dataObj := dataObj, type := type,
          name := name, flags := (flags1, flags2), single := single }
      { schema := r.schema, ret := r.ret.map fun _ => true }

/-- The call `dictSysTabAdd(rowIdStr, ...)` (Schema.cpp 730-739). -/
def dictSysTabAddStr (s : Schema) (rowIdStr : String) (obj dataObj ts : Nat) (cluCols : Int)
    (flags1 flags2 property1 property2 : Nat) : Result Unit :=
  let rowId : RowId := rowIdStr
  match s.sysTabMapRowId.find rowId with
  | some _ => { schema := s, ret := .error ⟨50023⟩ }
  | none =>
    dictSysTabAdd s
      { rowId := rowId, obj := obj, dataObj := dataObj, ts := ts, cluCols := cluCols,
        flags := (flags1, flags2), property := (property1, property2) }

/-- The call `dictSysTabComPartAdd(rowIdStr, ...)` (Schema.cpp 741-748). -/
def dictSysTabComPartAddStr (s : Schema) (rowIdStr : String) (obj dataObj bo : Nat) :
    Result Unit :=
  let rowId : RowId := rowIdStr
  match s.sysTabComPartMapRowId.find rowId with
  | some _ => { schema := s, ret := .error ⟨50023⟩ }
  | none => dictSysTabComPartAdd s { rowId := rowId, obj := obj, dataObj := dataObj, bo := bo }

/-- The call `dictSysTabPartAdd(rowIdStr, ...)` (Schema.cpp 750-757). -/
def dictSysTabPartAddStr (s : Schema) (rowIdStr : String) (obj dataObj bo : Nat) :
    Result Unit :=
  let rowId : RowId := rowIdStr
  match s.sysTabPartMapRowId.find rowId with
  | some _ => { schema := s, ret := .error ⟨50023⟩ }
  | none => dictSysTabPartAdd s { rowId := rowId, obj := obj, dataObj := dataObj, bo := bo }

/-- The call `dictSysTabSubPartAdd(rowIdStr, ...)` (Schema.cpp 759-766). -/
def dictSysTabSubPartAddStr (s : Schema) (rowIdStr : String) (obj dataObj pObj : Nat) :
    Result Unit :=
  let rowId : RowId := rowIdStr
  match s.sysTabSubPartMapRowId.find rowId with
  | some _ => { schema := s, ret := .error ⟨50023⟩ }
  | none =>
    dictSysTabSubPartAdd s { rowId := rowId, obj := obj, dataObj := dataObj, pObj := pObj }

/-- The call `dictSysTsAdd(rowIdStr, ...)` (Schema.cpp 768-775). -/
def dictSysTsAddStr (s : Schema) (rowIdStr : String) (ts : Nat) (name : String)
    (blockSize : Nat) : Result Unit :=
  let rowId : RowId := rowIdStr
  match s.sysTsMapRowId.find rowId with
  | some _ => { schema := s, ret := .error ⟨50023⟩ }
  | none => dictSysTsAdd s { rowId := rowId, ts := ts, name := name, blockSize := blockSize }

/-- The call `dictSysUserAdd(rowIdStr, ...)` (Schema.cpp 777-804).  For a rowId that
is stored, the stored record is reached through the primary map and its
`single` is cleared in place. -/
def dictSysUserAddStr (lim : SchemaLimits) (s : Schema) (rowIdStr : String) (user : Nat)
    (name : String) (spare11 spare12 : Nat) (single : Bool) : Result Bool :=
  let rowId : RowId := rowIdStr
  match s.sysUserMapRowId.find rowId with
  | some sysUser =>
    if sysUser.single = true then
      if single = false then
        { schema := { s with
            sysUserMapRowId := s.sysUserMapRowId.set rowId { sysUser with single := false } }
          ret := .ok true }
      else
        { schema := s, ret := .ok true }
    else
      { schema := s, ret := .ok false }
  | none =>
    if name.utf8ByteSize > lim.SYS_USER_NAME_LENGTH then { schema := s, ret := .error ⟨50025⟩ }
    else
      let r := dictSysUserAdd s
        { rowId := rowId, user := user, name := name, spare1 := (spare11, spare12),
          single := single }
      { schema := r.schema, ret := r.ret.map fun _ => true }


/-! #### The fifteen meta-tables at once -/

/-- The kinds of meta-table. -/
inductive Kind where
  | CCOL | CDEF | COL | DEFERRED_STG | ECOL | LOB | LOBCOMPPART | LOBFRAG | OBJ | TAB
  | TABCOMPART | TABPART | TABSUBPART | TS | USER
deriving DecidableEq

/-- A record of one of the meta-tables. -/
inductive Row where
  | ccol (r : SysCCol)
  | cdef (r : SysCDef)
  | col (r : SysCol)
  | deferredStg (r : SysDeferredStg)
  | ecol (r : SysECol)
  | lob (r : SysLob)
  | lobCompPart (r : SysLobCompPart)
  | lobFrag (r : SysLobFrag)
  | obj (r : SysObj)
  | tab (r : SysTab)
  | tabComPart (r : SysTabComPart)
  | tabPart (r : SysTabPart)
  | tabSubPart (r : SysTabSubPart)
  | ts (r : SysTs)
  | user (r : SysUser)
deriving DecidableEq

/-- The meta-table of a record. -/
def Row.kind : Row → Kind
  | .ccol _ => .CCOL
  | .cdef _ => .CDEF
  | .col _ => .COL
  | .deferredStg _ => .DEFERRED_STG
  | .ecol _ => .ECOL
  | .lob _ => .LOB
  | .lobCompPart _ => .LOBCOMPPART
  | .lobFrag _ => .LOBFRAG
  | .obj _ => .OBJ
  | .tab _ => .TAB
  | .tabComPart _ => .TABCOMPART
  | .tabPart _ => .TABPART
  | .tabSubPart _ => .TABSUBPART
  | .ts _ => .TS
  | .user _ => .USER

/-- The rowId of a record. -/
def Row.rowId : Row → RowId
  | .ccol r => r.rowId
  | .cdef r => r.rowId
  | .col r => r.rowId
  | .deferredStg r => r.rowId
  | .ecol r => r.rowId
  | .lob r => r.rowId
  | .lobCompPart r => r.rowId
  | .lobFrag r => r.rowId
  | .obj r => r.rowId
  | .tab r => r.rowId
  | .tabComPart r => r.rowId
  | .tabPart r => r.rowId
  | .tabSubPart r => r.rowId
  | .ts r => r.rowId
  | .user r => r.rowId

/-- The add of the record's kind that takes the record, `dictSys<K>Add(Sys<K>*)`. -/
def dictAdd (s : Schema) : Row → Result Unit
  | .ccol r => dictSysCColAdd s r
  | .cdef r => dictSysCDefAdd s r
  | .col r => dictSysColAdd s r
  | .deferredStg r => dictSysDeferredStgAdd s r
  | .ecol r => dictSysEColAdd s r
  | .lob r => dictSysLobAdd s r
  | .lobCompPart r => dictSysLobCompPartAdd s r
  | .lobFrag r => dictSysLobFragAdd s r
  | .obj r => dictSysObjAdd s r
  | .tab r => dictSysTabAdd s r
  | .tabComPart r => dictSysTabComPartAdd s r
  | .tabPart r => dictSysTabPartAdd s r
  | .tabSubPart r => dictSysTabSubPartAdd s r
  | .ts r => dictSysTsAdd s r
  | .user r => dictSysUserAdd s r

/-- The add of the record's kind that takes the rowId string and the fields,
`dictSys<K>Add(rowIdStr, ...)`, called with the fields of the record; the
boolean that the adds of OBJ$ and USER$ return is forgotten. -/
def dictAddStr (lim : SchemaLimits) (s : Schema) : Row → Result Unit
  | .ccol r => dictSysCColAddStr s r.rowId r.con r.intCol r.obj r.spare1.1 r.spare1.2
  | .cdef r => dictSysCDefAddStr s r.rowId r.con r.obj r.type
  | .col r =>
    dictSysColAddStr lim s r.rowId r.obj r.col r.segCol r.intCol r.name r.type r.length
      r.precision r.scale r.charsetForm r.charsetId r.null_ r.property.1 r.property.2
  | .deferredStg r => dictSysDeferredStgAddStr s r.rowId r.obj r.flagsStg.1 r.flagsStg.2
  | .ecol r => dictSysEColAddStr s r.rowId r.tabObj r.colNum r.guardId
  | .lob r => dictSysLobAddStr s r.rowId r.obj r.col r.intCol r.lObj r.ts
  | .lobCompPart r => dictSysLobCompPartAddStr s r.rowId r.partObj r.lObj
  | .lobFrag r => dictSysLobFragAddStr s r.rowId r.fragObj r.parentObj r.ts
  | .obj r =>
    (dictSysObjAddStr lim s r.rowId r.owner r.obj r.dataObj r.type r.name r.flags.1 r.flags.2
      r.single).void
  | .tab r =>
    dictSysTabAddStr s r.rowId r.obj r.dataObj r.ts r.cluCols r.flags.1 r.flags.2 r.property.1
      r.property.2
  | .tabComPart r => dictSysTabComPartAddStr s r.rowId r.obj r.dataObj r.bo
  | .tabPart r => dictSysTabPartAddStr s r.rowId r.obj r.dataObj r.bo
  | .tabSubPart r => dictSysTabSubPartAddStr s r.rowId r.obj r.dataObj r.pObj
  | .ts r => dictSysTsAddStr s r.rowId r.ts r.name r.blockSize
  | .user r =>
    (dictSysUserAddStr lim s r.rowId r.user r.name r.spare1.1 r.spare1.2 r.single).void

/-- The drop of the record's kind, `dictSys<K>Drop(Sys<K>*)`. -/
def dictDrop (s : Schema) : Row → Result Unit
  | .ccol r => dictSysCColDrop s r
  | .cdef r => dictSysCDefDrop s r
  | .col r => dictSysColDrop s r
  | .deferredStg r => dictSysDeferredStgDrop s r
  | .ecol r => dictSysEColDrop s r
  | .lob r => dictSysLobDrop s r
  | .lobCompPart r => dictSysLobCompPartDrop s r
  | .lobFrag r => dictSysLobFragDrop s r
  | .obj r => dictSysObjDrop s r
  | .tab r => dictSysTabDrop s r
  | .tabComPart r => dictSysTabComPartDrop s r
  | .tabPart r => dictSysTabPartDrop s r
  | .tabSubPart r => dictSysTabSubPartDrop s r
  | .ts r => dictSysTsDrop s r
  | .user r => dictSysUserDrop s r

/-- The rowId is a key of the primary map of the kind. -/
def HasRowId (s : Schema) (k : Kind) (rowId : RowId) : Prop :=
  match k with
  | .CCOL => (s.sysCColMapRowId.find rowId).isSome = true
  | .CDEF => (s.sysCDefMapRowId.find rowId).isSome = true
  | .COL => (s.sysColMapRowId.find rowId).isSome = true
  | .DEFERRED_STG => (s.sysDeferredStgMapRowId.find rowId).isSome = true
  | .ECOL => (s.sysEColMapRowId.find rowId).isSome = true
  | .LOB => (s.sysLobMapRowId.find rowId).isSome = true
  | .LOBCOMPPART => (s.sysLobCompPartMapRowId.find rowId).isSome = true
  | .LOBFRAG => (s.sysLobFragMapRowId.find rowId).isSome = true
  | .OBJ => (s.sysObjMapRowId.find rowId).isSome = true
  | .TAB => (s.sysTabMapRowId.find rowId).isSome = true
  | .TABCOMPART => (s.sysTabComPartMapRowId.find rowId).isSome = true
  | .TABPART => (s.sysTabPartMapRowId.find rowId).isSome = true
  | .TABSUBPART => (s.sysTabSubPartMapRowId.find rowId).isSome = true
  | .TS => (s.sysTsMapRowId.find rowId).isSome = true
  | .USER => (s.sysUserMapRowId.find rowId).isSome = true

instance HasRowId.decide (s : Schema) (k : Kind) (rowId : RowId) : Decidable (HasRowId s k rowId) :=
    by
  cases k <;> exact inferInstanceAs (Decidable (_ = true))

/-- The record is stored: the primary map of its kind holds it under its
rowId. -/
def Stored (s : Schema) : Row → Prop
  | .ccol r => s.sysCColMapRowId.find r.rowId = some r
  | .cdef r => s.sysCDefMapRowId.find r.rowId = some r
  | .col r => s.sysColMapRowId.find r.rowId = some r
  | .deferredStg r => s.sysDeferredStgMapRowId.find r.rowId = some r
  | .ecol r => s.sysEColMapRowId.find r.rowId = some r
  | .lob r => s.sysLobMapRowId.find r.rowId = some r
  | .lobCompPart r => s.sysLobCompPartMapRowId.find r.rowId = some r
  | .lobFrag r => s.sysLobFragMapRowId.find r.rowId = some r
  | .obj r => s.sysObjMapRowId.find r.rowId = some r
  | .tab r => s.sysTabMapRowId.find r.rowId = some r
  | .tabComPart r => s.sysTabComPartMapRowId.find r.rowId = some r
  | .tabPart r => s.sysTabPartMapRowId.find r.rowId = some r
  | .tabSubPart r => s.sysTabSubPartMapRowId.find r.rowId = some r
  | .ts r => s.sysTsMapRowId.find r.rowId = some r
  | .user r => s.sysUserMapRowId.find r.rowId = some r

instance Stored.decide (s : Schema) (r : Row) : Decidable (Stored s r) := by
  cases r <;> exact inferInstanceAs (Decidable (_ = _))


/-! #### The words of the properties of the dictionary store -/

/-- The key of a record in `sysCColMapKey`. -/
abbrev SysCCol.key (r : SysCCol) : SysCColKey :=
  { obj := r.obj, intCol := r.intCol, con := r.con }

/-- The key of a record in `sysCDefMapKey`. -/
abbrev SysCDef.key (r : SysCDef) : SysCDefKey :=
  { obj := r.obj, con := r.con }

/-- The key of a record in `sysColMapSeg`. -/
abbrev SysCol.seg (r : SysCol) : SysColSeg :=
  { obj := r.obj, segCol := r.segCol }

/-- The key of a record in `sysEColMapKey`. -/
abbrev SysECol.key (r : SysECol) : SysEColKey :=
  { tabObj := r.tabObj, colNum := r.colNum }

/-- The key of a record in `sysLobMapKey`. -/
abbrev SysLob.key (r : SysLob) : SysLobKey :=
  { obj := r.obj, intCol := r.intCol }

/-- The key of a record in `sysLobCompPartMapKey`. -/
abbrev SysLobCompPart.key (r : SysLobCompPart) : SysLobCompPartKey :=
  { lObj := r.lObj, partObj := r.partObj }

/-- The key of a record in `sysLobFragMapKey`. -/
abbrev SysLobFrag.key (r : SysLobFrag) : SysLobFragKey :=
  { parentObj := r.parentObj, fragObj := r.fragObj }

/-- The key of a record in `sysObjMapName`. -/
abbrev SysObj.nameKey (r : SysObj) : SysObjNameKey :=
  { owner := r.owner, name := r.name, obj := r.obj, dataObj := r.dataObj }

/-- The key of a record in `sysTabComPartMapKey`. -/
abbrev SysTabComPart.key (r : SysTabComPart) : SysTabComPartKey :=
  { bo := r.bo, obj := r.obj }

/-- The key of a record in `sysTabPartMapKey`. -/
abbrev SysTabPart.key (r : SysTabPart) : SysTabPartKey :=
  { bo := r.bo, obj := r.obj }

/-- The key of a record in `sysTabSubPartMapKey`. -/
abbrev SysTabSubPart.key (r : SysTabSubPart) : SysTabSubPartKey :=
  { pObj := r.pObj, obj := r.obj }

/-- The entry of a secondary map for the record stored under a rowId. -/
abbrev RowId.entry (rowId : RowId) : RowId := rowId

/-- The entry of `sysDeferredStgMapObj` for the record stored under a rowId,
a pointer that is not null. -/
abbrev RowId.entryStg (rowId : RowId) : Option RowId := some rowId

/-- The primary map and the secondary maps of a kind are the same in two
schemas: the same keys with the same records. -/
def SameMaps (k : Kind) (s t : Schema) : Prop :=
  match k with
  | .CCOL =>
    s.sysCColMapRowId = t.sysCColMapRowId ∧
    s.sysCColMapKey = t.sysCColMapKey
  | .CDEF =>
    s.sysCDefMapRowId = t.sysCDefMapRowId ∧
    s.sysCDefMapKey = t.sysCDefMapKey ∧
    s.sysCDefMapCon = t.sysCDefMapCon
  | .COL =>
    s.sysColMapRowId = t.sysColMapRowId ∧
    s.sysColMapSeg = t.sysColMapSeg
  | .DEFERRED_STG =>
    s.sysDeferredStgMapRowId = t.sysDeferredStgMapRowId ∧
    s.sysDeferredStgMapObj = t.sysDeferredStgMapObj
  | .ECOL =>
    s.sysEColMapRowId = t.sysEColMapRowId ∧
    s.sysEColMapKey = t.sysEColMapKey
  | .LOB =>
    s.sysLobMapRowId = t.sysLobMapRowId ∧
    s.sysLobMapKey = t.sysLobMapKey ∧
    s.sysLobMapLObj = t.sysLobMapLObj
  | .LOBCOMPPART =>
    s.sysLobCompPartMapRowId = t.sysLobCompPartMapRowId ∧
    s.sysLobCompPartMapKey = t.sysLobCompPartMapKey ∧
    s.sysLobCompPartMapPartObj = t.sysLobCompPartMapPartObj
  | .LOBFRAG =>
    s.sysLobFragMapRowId = t.sysLobFragMapRowId ∧
    s.sysLobFragMapKey = t.sysLobFragMapKey
  | .OBJ =>
    s.sysObjMapRowId = t.sysObjMapRowId ∧
    s.sysObjMapName = t.sysObjMapName ∧
    s.sysObjMapObj = t.sysObjMapObj
  | .TAB =>
    s.sysTabMapRowId = t.sysTabMapRowId ∧
    s.sysTabMapObj = t.sysTabMapObj
  | .TABCOMPART =>
    s.sysTabComPartMapRowId = t.sysTabComPartMapRowId ∧
    s.sysTabComPartMapKey = t.sysTabComPartMapKey ∧
    s.sysTabComPartMapObj = t.sysTabComPartMapObj
  | .TABPART =>
    s.sysTabPartMapRowId = t.sysTabPartMapRowId ∧
    s.sysTabPartMapKey = t.sysTabPartMapKey
  | .TABSUBPART =>
    s.sysTabSubPartMapRowId = t.sysTabSubPartMapRowId ∧
    s.sysTabSubPartMapKey = t.sysTabSubPartMapKey
  | .TS =>
    s.sysTsMapRowId = t.sysTsMapRowId ∧
    s.sysTsMapTs = t.sysTsMapTs
  | .USER =>
    s.sysUserMapRowId = t.sysUserMapRowId ∧
    s.sysUserMapUser = t.sysUserMapUser

instance SameMaps.decide (k : Kind) (s t : Schema) : Decidable (SameMaps k s t) := by
  cases k <;> unfold SameMaps <;> infer_instance

/-- The store holds the record: the primary map of its kind has it under its
rowId and every secondary map of the kind has it at its key (for COL$ when
`segCol > 0`). -/
def Held (s : Schema) : Row → Prop
  | .ccol r =>
    s.sysCColMapRowId.find r.rowId = some r ∧
    s.sysCColMapKey.find r.key = some r.rowId
  | .cdef r =>
    s.sysCDefMapRowId.find r.rowId = some r ∧
    s.sysCDefMapKey.find r.key = some r.rowId ∧
    s.sysCDefMapCon.find r.con = some r.rowId
  | .col r =>
    s.sysColMapRowId.find r.rowId = some r ∧
    (0 < r.segCol → s.sysColMapSeg.find r.seg = some r.rowId)
  | .deferredStg r =>
    s.sysDeferredStgMapRowId.find r.rowId = some r ∧
    s.sysDeferredStgMapObj.find r.obj = some (some r.rowId)
  | .ecol r =>
    s.sysEColMapRowId.find r.rowId = some r ∧
    s.sysEColMapKey.find r.key = some r.rowId
  | .lob r =>
    s.sysLobMapRowId.find r.rowId = some r ∧
    s.sysLobMapKey.find r.key = some r.rowId ∧
    s.sysLobMapLObj.find r.lObj = some r.rowId
  | .lobCompPart r =>
    s.sysLobCompPartMapRowId.find r.rowId = some r ∧
    s.sysLobCompPartMapKey.find r.key = some r.rowId ∧
    s.sysLobCompPartMapPartObj.find r.partObj = some r.rowId
  | .lobFrag r =>
    s.sysLobFragMapRowId.find r.rowId = some r ∧
    s.sysLobFragMapKey.find r.key = some r.rowId
  | .obj r =>
    s.sysObjMapRowId.find r.rowId = some r ∧
    s.sysObjMapName.find r.nameKey = some r.rowId ∧
    s.sysObjMapObj.find r.obj = some r.rowId
  | .tab r =>
    s.sysTabMapRowId.find r.rowId = some r ∧
    s.sysTabMapObj.find r.obj = some r.rowId
  | .tabComPart r =>
    s.sysTabComPartMapRowId.find r.rowId = some r ∧
    s.sysTabComPartMapKey.find r.key = some r.rowId ∧
    s.sysTabComPartMapObj.find r.obj = some r.rowId
  | .tabPart r =>
    s.sysTabPartMapRowId.find r.rowId = some r ∧
    s.sysTabPartMapKey.find r.key = some r.rowId
  | .tabSubPart r =>
    s.sysTabSubPartMapRowId.find r.rowId = some r ∧
    s.sysTabSubPartMapKey.find r.key = some r.rowId
  | .ts r =>
    s.sysTsMapRowId.find r.rowId = some r ∧
    s.sysTsMapTs.find r.ts = some r.rowId
  | .user r =>
    s.sysUserMapRowId.find r.rowId = some r ∧
    s.sysUserMapUser.find r.user = some r.rowId

instance Held.decide (s : Schema) (r : Row) : Decidable (Held s r) := by
  cases r <;> unfold Held <;> infer_instance

/-- Two records of one kind have the same value for one of the unique keys of
the kind (for COL$ the key is there when `segCol > 0`). -/
def SameUniqueKey : Row → Row → Prop
  | .ccol a, .ccol b => a.key = b.key
  | .cdef a, .cdef b => a.key = b.key ∨ a.con = b.con
  | .col a, .col b => 0 < a.segCol ∧ a.seg = b.seg
  | .deferredStg a, .deferredStg b => a.obj = b.obj
  | .ecol a, .ecol b => a.key = b.key
  | .lob a, .lob b => a.key = b.key ∨ a.lObj = b.lObj
  | .lobCompPart a, .lobCompPart b => a.key = b.key ∨ a.partObj = b.partObj
  | .lobFrag a, .lobFrag b => a.key = b.key
  | .obj a, .obj b => a.nameKey = b.nameKey ∨ a.obj = b.obj
  | .tab a, .tab b => a.obj = b.obj
  | .tabComPart a, .tabComPart b => a.key = b.key ∨ a.obj = b.obj
  | .tabPart a, .tabPart b => a.key = b.key
  | .tabSubPart a, .tabSubPart b => a.key = b.key
  | .ts a, .ts b => a.ts = b.ts
  | .user a, .user b => a.user = b.user
  | _, _ => False

instance SameUniqueKey.decide (a b : Row) : Decidable (SameUniqueKey a b) := by
  cases a <;> cases b <;> unfold SameUniqueKey <;> infer_instance

/-- One of the secondary maps of the kind of the record has no entry at the key
of the record (for COL$ the key is there when `segCol > 0`). -/
def MissingIndex (s : Schema) : Row → Prop
  | .ccol r => s.sysCColMapKey.find r.key = none
  | .cdef r => s.sysCDefMapKey.find r.key = none ∨ s.sysCDefMapCon.find r.con = none
  | .col r => 0 < r.segCol ∧ s.sysColMapSeg.find r.seg = none
  | .deferredStg r => s.sysDeferredStgMapObj.find r.obj = none
  | .ecol r => s.sysEColMapKey.find r.key = none
  | .lob r => s.sysLobMapKey.find r.key = none ∨ s.sysLobMapLObj.find r.lObj = none
  | .lobCompPart r =>
    s.sysLobCompPartMapKey.find r.key = none ∨
    s.sysLobCompPartMapPartObj.find r.partObj = none
  | .lobFrag r => s.sysLobFragMapKey.find r.key = none
  | .obj r => s.sysObjMapName.find r.nameKey = none ∨ s.sysObjMapObj.find r.obj = none
  | .tab r => s.sysTabMapObj.find r.obj = none
  | .tabComPart r =>
    s.sysTabComPartMapKey.find r.key = none ∨
    s.sysTabComPartMapObj.find r.obj = none
  | .tabPart r => s.sysTabPartMapKey.find r.key = none
  | .tabSubPart r => s.sysTabSubPartMapKey.find r.key = none
  | .ts r => s.sysTsMapTs.find r.ts = none
  | .user r => s.sysUserMapUser.find r.user = none

instance MissingIndex.decide (s : Schema) (r : Row) : Decidable (MissingIndex s r) := by
  cases r <;> unfold MissingIndex <;> infer_instance

/-- A secondary map agrees with the primary map: every record of the primary
map is what the secondary map has at the key of the record, and every entry of
the secondary map is a record that the primary map has under the rowId of the
record, at the key of the record. -/
def IndexOk {R K H : Type} [DecidableEq K] (rowIdOf : R → RowId) (key : R → K)
    (entry : RowId → H) (primary : Map RowId R) (index : Map K H) : Prop :=
  (∀ rowId r, primary.find rowId = some r → index.find (key r) = some (entry rowId)) ∧
  (∀ k h, index.find k = some h →
    ∃ r, primary.find (rowIdOf r) = some r ∧ h = entry (rowIdOf r) ∧ key r = k)

/-- Index consistency of a kind: each of its secondary maps agrees with its
primary map (for COL$ on the records with `segCol > 0`). -/
def Consistent (k : Kind) (s : Schema) : Prop :=
  match k with
  | .CCOL =>
    IndexOk SysCCol.rowId SysCCol.key RowId.entry s.sysCColMapRowId s.sysCColMapKey
  | .CDEF =>
    IndexOk SysCDef.rowId SysCDef.key RowId.entry s.sysCDefMapRowId s.sysCDefMapKey ∧
    IndexOk SysCDef.rowId SysCDef.con RowId.entry s.sysCDefMapRowId s.sysCDefMapCon
  | .COL =>
    (∀ rowId r, s.sysColMapRowId.find rowId = some r → 0 < r.segCol →
      s.sysColMapSeg.find r.seg = some rowId) ∧
    (∀ k h, s.sysColMapSeg.find k = some h →
      ∃ r, s.sysColMapRowId.find r.rowId = some r ∧ h = r.rowId ∧ r.seg = k)
  | .DEFERRED_STG =>
    IndexOk SysDeferredStg.rowId SysDeferredStg.obj RowId.entryStg s.sysDeferredStgMapRowId
        s.sysDeferredStgMapObj
  | .ECOL =>
    IndexOk SysECol.rowId SysECol.key RowId.entry s.sysEColMapRowId s.sysEColMapKey
  | .LOB =>
    IndexOk SysLob.rowId SysLob.key RowId.entry s.sysLobMapRowId s.sysLobMapKey ∧
    IndexOk SysLob.rowId SysLob.lObj RowId.entry s.sysLobMapRowId s.sysLobMapLObj
  | .LOBCOMPPART =>
    IndexOk SysLobCompPart.rowId SysLobCompPart.key RowId.entry s.sysLobCompPartMapRowId
        s.sysLobCompPartMapKey ∧
    IndexOk SysLobCompPart.rowId SysLobCompPart.partObj RowId.entry s.sysLobCompPartMapRowId
        s.sysLobCompPartMapPartObj
  | .LOBFRAG =>
    IndexOk SysLobFrag.rowId SysLobFrag.key RowId.entry s.sysLobFragMapRowId s.sysLobFragMapKey
  | .OBJ =>
    IndexOk SysObj.rowId SysObj.nameKey RowId.entry s.sysObjMapRowId s.sysObjMapName ∧
    IndexOk SysObj.rowId SysObj.obj RowId.entry s.sysObjMapRowId s.sysObjMapObj
  | .TAB =>
    IndexOk SysTab.rowId SysTab.obj RowId.entry s.sysTabMapRowId s.sysTabMapObj
  | .TABCOMPART =>
    IndexOk SysTabComPart.rowId SysTabComPart.key RowId.entry s.sysTabComPartMapRowId
        s.sysTabComPartMapKey ∧
    IndexOk SysTabComPart.rowId SysTabComPart.obj RowId.entry s.sysTabComPartMapRowId
        s.sysTabComPartMapObj
  | .TABPART =>
    IndexOk SysTabPart.rowId SysTabPart.key RowId.entry s.sysTabPartMapRowId s.sysTabPartMapKey
  | .TABSUBPART =>
    IndexOk SysTabSubPart.rowId SysTabSubPart.key RowId.entry s.sysTabSubPartMapRowId
        s.sysTabSubPartMapKey
  | .TS =>
    IndexOk SysTs.rowId SysTs.ts RowId.entry s.sysTsMapRowId s.sysTsMapTs
  | .USER =>
    IndexOk SysUser.rowId SysUser.user RowId.entry s.sysUserMapRowId s.sysUserMapUser

/-- The empty schema. -/
def Schema.empty : Schema := {}

/-- A call on the dictionary store: an add with the rowId string and the fields
of a record, or the drop of a record. -/
inductive DictOp where
  | add (r : Row)
  | drop (r : Row)
deriving DecidableEq

/-- The call. -/
def DictOp.run (lim : SchemaLimits) (s : Schema) : DictOp → Result Unit
  | .add r => dictAddStr lim s r
  | .drop r => dictDrop s r

/-- The calls of a run: an add that returns without raising, the drop of a
record that is stored. -/
def DictOp.Allowed (lim : SchemaLimits) (s : Schema) : DictOp → Prop
  | .add r => (dictAddStr lim s r).ret = .ok ()
  | .drop r => Stored s r

instance DictOp.Allowed.decide (lim : SchemaLimits) (s : Schema) (op : DictOp) :
    Decidable (op.Allowed lim s) := by
  cases op <;> unfold DictOp.Allowed <;> infer_instance

/-- Limits of the name columns for the samples. -/
def sampleLimits : SchemaLimits :=
  { SYS_COL_NAME_LENGTH := 128, SYS_OBJ_NAME_LENGTH := 128, SYS_USER_NAME_LENGTH := 128 }

/-- A CCOL$ row. -/
def sampleCCol : SysCCol := { rowId := "AAAB", con := 7, intCol := 1, obj := 100, spare1 := (0, 0) }

/-- The schema after the first call of scenario S2. -/
def schemaCCol : Schema := (dictAddStr sampleLimits Schema.empty (.ccol sampleCCol)).schema

/-- A schema whose primary map of CCOL$ has a row that `sysCColMapKey` has no
entry for. -/
def schemaCColNoIndex : Schema := { sysCColMapRowId := Map.empty.set "AAAB" sampleCCol }

/-- Two CDEF$ rows of different tables with the same `con`. -/
def sampleCDef : SysCDef := { rowId := "D1", con := 5, obj := 100, type := 1 }

/-- The second CDEF$ row. -/
def sampleCDefTwin : SysCDef := { rowId := "D2", con := 5, obj := 200, type := 1 }

/-- The schema that holds the first CDEF$ row. -/
def schemaCDef : Schema := (dictAddStr sampleLimits Schema.empty (.cdef sampleCDef)).schema

/-- Two COL$ rows of one table with the same `segCol`. -/
def sampleCol : SysCol :=
  { rowId := "C1", obj := 100, col := 1, segCol := 1, intCol := 1, name := "ID", type := 2,
    length := 22, precision := -1, scale := -1, charsetForm := 0, charsetId := 0, null_ := false,
    property := (0, 0) }

/-- The second COL$ row. -/
def sampleColTwin : SysCol :=
  { rowId := "C2", obj := 100, col := 2, segCol := 1, intCol := 2, name := "NAME", type := 1,
    length := 30, precision := -1, scale := -1, charsetForm := 1, charsetId := 873,
    null_ := true, property := (0, 0) }

/-- The schema that holds the first COL$ row. -/
def schemaCol : Schema := (dictAddStr sampleLimits Schema.empty (.col sampleCol)).schema

/-- The OBJ$ row of scenario S1. -/
def sampleObj : SysObj :=
  { rowId := "AAAA", owner := 5, obj := 100, dataObj := 101, type := 2, name := "T1",
    flags := (0, 0), single := true }

/-- The schema that holds the OBJ$ row of scenario S1. -/
def schemaObj : Schema := (dictAddStr sampleLimits Schema.empty (.obj sampleObj)).schema

/-- The USER$ row of the first call of scenario S3. -/
def sampleUser : SysUser :=
  { rowId := "U1", user := 7, name := "A", spare1 := (0, 0), single := true }

/-- The schema after the first call of scenario S3. -/
def schemaUser : Schema :=
  (dictSysUserAddStr sampleLimits Schema.empty "U1" 7 "A" 0 0 true).schema

/-- The schema after the second call of scenario S3. -/
def schemaUserTwice : Schema :=
  (dictSysUserAddStr sampleLimits schemaUser "U1" 7 "A" 0 0 false).schema


/-! #### Words of the touch tracking and of the adds and drops that raise -/

/-- The touched set of a kind of meta-table; TS$ has none. -/
def touchedSet (k : Kind) (s : Schema) : List RowId :=
  match k with
  | .CCOL => s.sysCColSetTouched
  | .CDEF => s.sysCDefSetTouched
  | .COL => s.sysColSetTouched
  | .DEFERRED_STG => s.sysDeferredStgSetTouched
  | .ECOL => s.sysEColSetTouched
  | .LOB => s.sysLobSetTouched
  | .LOBCOMPPART => s.sysLobCompPartSetTouched
  | .LOBFRAG => s.sysLobFragSetTouched
  | .OBJ => s.sysObjSetTouched
  | .TAB => s.sysTabSetTouched
  | .TABCOMPART => s.sysTabComPartSetTouched
  | .TABPART => s.sysTabPartSetTouched
  | .TABSUBPART => s.sysTabSubPartSetTouched
  | .TS => []
  | .USER => s.sysUserSetTouched

/-- The field of a record that names the table it belongs to: `obj` for CCOL$,
CDEF$, COL$, DEFERRED_STG$, LOB$, OBJ$ and TAB$, `tabObj` for ECOL$, `bo` for
TABCOMPART$ and TABPART$; the other kinds have no such field. -/
def Row.touchObj : Row → Option Nat
  | .ccol r => some r.obj
  | .cdef r => some r.obj
  | .col r => some r.obj
  | .deferredStg r => some r.obj
  | .ecol r => some r.tabObj
  | .lob r => some r.obj
  | .obj r => some r.obj
  | .tab r => some r.obj
  | .tabComPart r => some r.bo
  | .tabPart r => some r.bo
  | .lobCompPart _ => none
  | .lobFrag _ => none
  | .tabSubPart _ => none
  | .ts _ => none
  | .user _ => none

/-- The secondary map of the kind of the record that a drop looks into first
(the only one for most kinds) has no entry at the key of the record. -/
def AbsentFirstIndex (s : Schema) : Row → Prop
  | .ccol r => s.sysCColMapKey.find r.key = none
  | .cdef r => s.sysCDefMapKey.find r.key = none
  | .col r => s.sysColMapSeg.find r.seg = none
  | .deferredStg r => s.sysDeferredStgMapObj.find r.obj = none
  | .ecol r => s.sysEColMapKey.find r.key = none
  | .lob r => s.sysLobMapKey.find r.key = none
  | .lobCompPart r => s.sysLobCompPartMapKey.find r.key = none
  | .lobFrag r => s.sysLobFragMapKey.find r.key = none
  | .obj r => s.sysObjMapName.find r.nameKey = none
  | .tab r => s.sysTabMapObj.find r.obj = none
  | .tabComPart r => s.sysTabComPartMapKey.find r.key = none
  | .tabPart r => s.sysTabPartMapKey.find r.key = none
  | .tabSubPart r => s.sysTabSubPartMapKey.find r.key = none
  | .ts r => s.sysTsMapTs.find r.ts = none
  | .user r => s.sysUserMapUser.find r.user = none

instance AbsentFirstIndex.decide (s : Schema) (r : Row) : Decidable (AbsentFirstIndex s r) := by
  cases r <;> unfold AbsentFirstIndex <;> infer_instance

/-- The secondary map that a drop looks into second, for the kinds that have
two secondary maps, is the same in two schemas. -/
def SameSecondIndex (k : Kind) (s t : Schema) : Prop :=
  match k with
  | .CDEF => s.sysCDefMapCon = t.sysCDefMapCon
  | .LOB => s.sysLobMapLObj = t.sysLobMapLObj
  | .LOBCOMPPART => s.sysLobCompPartMapPartObj = t.sysLobCompPartMapPartObj
  | .OBJ => s.sysObjMapObj = t.sysObjMapObj
  | .TABCOMPART => s.sysTabComPartMapObj = t.sysTabComPartMapObj
  | _ => True

instance SameSecondIndex.decide (k : Kind) (s t : Schema) :
    Decidable (SameSecondIndex k s t) := by
  cases k <;> unfold SameSecondIndex <;> infer_instance

/-- Two LOB$ rows of one column with different `lObj`. -/
def sampleLob : SysLob := { rowId := "L1", obj := 100, col := 3, intCol := 3, lObj := 200, ts := 4 }

/-- The second LOB$ row. -/
def sampleLobTwin : SysLob :=
  { rowId := "L2", obj := 100, col := 3, intCol := 3, lObj := 201, ts := 4 }

/-- The schema that holds the first LOB$ row. -/
def schemaLob : Schema := (dictAddStr sampleLimits Schema.empty (.lob sampleLob)).schema

/-- The schema after the add of the second LOB$ row, which raises 50024. -/
def schemaLobTwin : Schema := (dictAddStr sampleLimits schemaLob (.lob sampleLobTwin)).schema

/-- The schema after the drop of the second LOB$ row, which raises 50030. -/
def schemaLobTwinDropped : Schema := (dictDrop schemaLobTwin (.lob sampleLobTwin)).schema

/-- A table descriptor for object 100. -/
def sampleTable : OracleTable :=
  { obj := 100, dataObj := 101, user := 5, cluCols := 0, options := 0, owner := "HR",
    name := "T1", columns := [], lobs := [], tablePartitions := [] }

/-- A schema whose `tableMap` has the descriptor of object 100, with object 7
touched before. -/
def schemaTable : Schema :=
  { tableMap := Map.empty.set 100 sampleTable, identifiersTouched := [7] }


/-! #### The maps of the table descriptors (`Schema.cpp` 1728-1808)

A descriptor is immutable once it is in `tableMap`; a pointer to a descriptor or
to one of its LOBs is modelled by the descriptor or the LOB itself. -/

/-- Modelled from the spec: `packObj2(obj, dataObj)`, the element of
`tablePartitions` for a partition (the method `OracleTable::addTablePartition`
that builds it is not among the sources): a 64-bit integer with `obj` in the
high 32 bits and `dataObj` in the low 32 bits. -/
def packObj2 (obj dataObj : Nat) : Nat :=
  ((obj <<< 32) ||| dataObj) % 2 ^ 64

/-- The object of a partition, `typeObj obj = objx >> 32` (Schema.cpp 1755,
1775); `typeObj` has 32 bits. -/
def unpackObj (objx : Nat) : Nat :=
  (objx >>> 32) % 2 ^ 32

/-- The data object of a partition, `typeDataObj dataObj = objx & 0xFFFFFFFF`
(Schema.cpp 1756, 1776). -/
def unpackDataObj (objx : Nat) : Nat :=
  (objx &&& 0xFFFFFFFF) % 2 ^ 32

/-- The loop of `addTableToDict` over `lob->lobIndexes` (Schema.cpp 1735-1740). -/
def addLobIndexes (s : Schema) (lob : OracleLob) : List Nat → Result Unit
  | [] => { schema := s, ret := .ok () }
  | dataObj :: rest =>
    match s.lobIndexMap.find dataObj with
    | none => addLobIndexes { s with lobIndexMap := s.lobIndexMap.set dataObj lob } lob rest
    | some _ => { schema := s, ret := .error ⟨50032⟩ }

/-- The loop of `addTableToDict` over `lob->lobPartitions` (Schema.cpp 1742-1745):
a data object that is in `lobPartitionMap` is passed over. -/
def addLobPartitions (s : Schema) (lob : OracleLob) : List Nat → Schema
  | [] => s
  | dataObj :: rest =>
    match s.lobPartitionMap.find dataObj with
    | none =>
      addLobPartitions { s with lobPartitionMap := s.lobPartitionMap.set dataObj lob } lob rest
    | some _ => addLobPartitions s lob rest

/-- The loop of `addTableToDict` over `table->lobs` (Schema.cpp 1734-1746). -/
def addLobs (s : Schema) : List OracleLob → Result Unit
  | [] => { schema := s, ret := .ok () }
  | lob :: rest =>
    let r := addLobIndexes s lob lob.lobIndexes
    match r.ret with
    | .error e => { schema := r.schema, ret := .error e }
    | .ok _ => addLobs (addLobPartitions r.schema lob lob.lobPartitions) rest

/-- The loop of `addTableToDict` over `table->tablePartitions` (Schema.cpp
1754-1763). -/
def addTablePartitions (s : Schema) (table : OracleTable) : List Nat → Result Unit
  | [] => { schema := s, ret := .ok () }
  | objx :: rest =>
    let obj := unpackObj objx
    match s.tablePartitionMap.find obj with
    | none =>
      addTablePartitions { s with tablePartitionMap := s.tablePartitionMap.set obj table } table
        rest
    | some _ => { schema := s, ret := .error ⟨50034⟩ }

/-- The method `Schema::addTableToDict` (Schema.cpp 1728-1764). -/
def addTableToDict (s : Schema) (table : OracleTable) : Result Unit :=
  match s.tableMap.find table.obj with
  | some _ => { schema := s, ret := .error ⟨50031⟩ }
  | none =>
    let s := { s with tableMap := s.tableMap.set table.obj table }
    let r := addLobs s table.lobs
    match r.ret with
    | .error e => { schema := r.schema, ret := .error e }
    | .ok _ =>
      let s := r.schema
      match s.tablePartitionMap.find table.obj with
      | some _ => { schema := s, ret := .error ⟨50033⟩ }
      | none =>
        let s := { s with tablePartitionMap := s.tablePartitionMap.set table.obj table }
        addTablePartitions s table table.tablePartitions

/-- The loop of `removeTableFromDict` over `table->tablePartitions` (Schema.cpp
1774-1784). -/
def removeTablePartitions (s : Schema) : List Nat → Result Unit
  | [] => { schema := s, ret := .ok () }
  | objx :: rest =>
    let obj := unpackObj objx
    match s.tablePartitionMap.find obj with
    | some _ =>
      removeTablePartitions { s with tablePartitionMap := s.tablePartitionMap.erase obj } rest
    | none => { schema := s, ret := .error ⟨50036⟩ }

/-- The loop of `removeTableFromDict` over `lob->lobIndexes` (Schema.cpp
1787-1793). -/
def removeLobIndexes (s : Schema) : List Nat → Result Unit
  | [] => { schema := s, ret := .ok () }
  | dataObj :: rest =>
    match s.lobIndexMap.find dataObj with
    | some _ => removeLobIndexes { s with lobIndexMap := s.lobIndexMap.erase dataObj } rest
    | none => { schema := s, ret := .error ⟨50037⟩ }

/-- The loop of `removeTableFromDict` over `lob->lobPartitions` (Schema.cpp
1795-1799). -/
def removeLobPartitions (s : Schema) : List Nat → Schema
  | [] => s
  | dataObj :: rest =>
    match s.lobPartitionMap.find dataObj with
    | some _ =>
      removeLobPartitions { s with lobPartitionMap := s.lobPartitionMap.erase dataObj } rest
    | none => removeLobPartitions s rest

/-- The loop of `removeTableFromDict` over `table->lobs` (Schema.cpp 1786-1800). -/
def removeLobs (s : Schema) : List OracleLob → Result Unit
  | [] => { schema := s, ret := .ok () }
  | lob :: rest =>
    let r := removeLobIndexes s lob.lobIndexes
    match r.ret with
    | .error e => { schema := r.schema, ret := .error e }
    | .ok _ => removeLobs (removeLobPartitions r.schema lob.lobPartitions) rest

/-- The method `Schema::removeTableFromDict` (Schema.cpp 1766-1808). -/
def removeTableFromDict (s : Schema) (table : OracleTable) : Result Unit :=
  match s.tablePartitionMap.find table.obj with
  | none => { schema := s, ret := .error ⟨50035⟩ }
  | some _ =>
    let s := { s with tablePartitionMap := s.tablePartitionMap.erase table.obj }
    let r := removeTablePartitions s table.tablePartitions
    match r.ret with
    | .error e => { schema := r.schema, ret := .error e }
    | .ok _ =>
      let r := removeLobs r.schema table.lobs
      match r.ret with
      | .error e => { schema := r.schema, ret := .error e }
      | .ok _ =>
        let s := r.schema
        match s.tableMap.find table.obj with
        | some _ => { schema := { s with tableMap := s.tableMap.erase table.obj }, ret := .ok () }
        | none => { schema := s, ret := .error ⟨50038⟩ }

/-- The removal of several keys from a map. -/
def Map.eraseAll {K V : Type} [DecidableEq K] (m : Map K V) (ks : List K) : Map K V :=
  ⟨m.entries.filter fun e => decide (e.1 ∉ ks)⟩

/-- The map `after` is the map `before` with new entries at the keys `ks`: the keys
are distinct and have no entry in `before`, they have one in `after`, the other
keys have the entries they had, and removing the keys gives `before` back. -/
def Inserted {K V : Type} [DecidableEq K] (ks : List K) (before after : Map K V) : Prop :=
  ks.Nodup ∧ (∀ k ∈ ks, before.find k = none) ∧ (∀ k ∈ ks, (after.find k).isSome = true) ∧
    (∀ k, k ∉ ks → after.find k = before.find k) ∧ after.eraseAll ks = before

/-- The data objects of the LOB indexes of a list of LOBs, LOB by LOB. -/
def lobIndexObjs (lobs : List OracleLob) : List Nat :=
  lobs.flatMap fun lob => lob.lobIndexes

/-- The data objects of the LOB partitions of a list of LOBs, LOB by LOB. -/
def lobPartitionObjs (lobs : List OracleLob) : List Nat :=
  lobs.flatMap fun lob => lob.lobPartitions

/-- The objects under which `tablePartitionMap` has a table: the table and its
partitions. -/
def OracleTable.partitionObjs (table : OracleTable) : List Nat :=
  table.obj :: table.tablePartitions.map unpackObj

/-- The four maps of the table descriptors are the same in two schemas. -/
def SameTableDict (s t : Schema) : Prop :=
  s.tableMap = t.tableMap ∧ s.tablePartitionMap = t.tablePartitionMap ∧
    s.lobIndexMap = t.lobIndexMap ∧ s.lobPartitionMap = t.lobPartitionMap

instance SameTableDict.decide (s t : Schema) : Decidable (SameTableDict s t) := by
  unfold SameTableDict; infer_instance

/-- A LOB with one index and one partition. -/
def sampleOracleLob : OracleLob :=
  { obj := 100, dataObj := 201, lObj := 200, col := 3, intCol := 3, lobIndexes := [210],
    lobPartitions := [220], lobPageMap := [] }

/-- A descriptor of table 100 with that LOB and the partitions 110 and 111. -/
def sampleTableLob : OracleTable :=
  { obj := 100, dataObj := 101, user := 5, cluCols := 0, options := 0, owner := "HR",
    name := "T1", columns := [], lobs := [sampleOracleLob],
    tablePartitions := [packObj2 110 1110, packObj2 111 1111] }

/-- A schema whose `lobPartitionMap` has data object 220 for a LOB of another
table. -/
def schemaLobPartition : Schema :=
  { lobPartitionMap := Map.empty.set 220 { sampleOracleLob with obj := 900, lObj := 901 } }


/-! #### Comparing two schemas (`Schema.cpp` 250-613)

The operators `!=` of the record classes are not among the sources and are
parameters here.  The text of a rowId is the rowId.  The fifteen methods
`compareSys<K>` are the same text up to the name of the kind, so they share
their two loops here. -/

/-- The operators `!=` of the fifteen record classes, which are not among the
sources. -/
structure RecordNe where
  sysCCol : SysCCol → SysCCol → Bool
  sysCDef : SysCDef → SysCDef → Bool
  sysCol : SysCol → SysCol → Bool
  sysDeferredStg : SysDeferredStg → SysDeferredStg → Bool
  sysECol : SysECol → SysECol → Bool
  sysLob : SysLob → SysLob → Bool
  sysLobCompPart : SysLobCompPart → SysLobCompPart → Bool
  sysLobFrag : SysLobFrag → SysLobFrag → Bool
  sysObj : SysObj → SysObj → Bool
  sysTab : SysTab → SysTab → Bool
  sysTabComPart : SysTabComPart → SysTabComPart → Bool
  sysTabPart : SysTabPart → SysTabPart → Bool
  sysTabSubPart : SysTabSubPart → SysTabSubPart → Bool
  sysTs : SysTs → SysTs → Bool
  sysUser : SysUser → SysUser → Bool

/-- An operator `!=` of a record class is that of an equality: no record differs
from itself and the operator is symmetric. -/
def NeOk {R : Type} (differs : R → R → Bool) : Prop :=
  (∀ a, differs a a = false) ∧ ∀ a b, differs a b = differs b a

/-- The fifteen operators `!=` are those of equalities. -/
def RecordNe.Ok (ne : RecordNe) : Prop :=
  NeOk ne.sysCCol ∧
  NeOk ne.sysCDef ∧
  NeOk ne.sysCol ∧
  NeOk ne.sysDeferredStg ∧
  NeOk ne.sysECol ∧
  NeOk ne.sysLob ∧
  NeOk ne.sysLobCompPart ∧
  NeOk ne.sysLobFrag ∧
  NeOk ne.sysObj ∧
  NeOk ne.sysTab ∧
  NeOk ne.sysTabComPart ∧
  NeOk ne.sysTabPart ∧
  NeOk ne.sysTabSubPart ∧
  NeOk ne.sysTs ∧
  NeOk ne.sysUser

/-- The operators `!=` that compare all the fields. -/
def RecordNe.fields : RecordNe where
  sysCCol a b := decide (a ≠ b)
  sysCDef a b := decide (a ≠ b)
  sysCol a b := decide (a ≠ b)
  sysDeferredStg a b := decide (a ≠ b)
  sysECol a b := decide (a ≠ b)
  sysLob a b := decide (a ≠ b)
  sysLobCompPart a b := decide (a ≠ b)
  sysLobFrag a b := decide (a ≠ b)
  sysObj a b := decide (a ≠ b)
  sysTab a b := decide (a ≠ b)
  sysTabComPart a b := decide (a ≠ b)
  sysTabPart a b := decide (a ≠ b)
  sysTabSubPart a b := decide (a ≠ b)
  sysTs a b := decide (a ≠ b)
  sysUser a b := decide (a ≠ b)

/-- The first loop of `compareSys<K>`: every record of this schema is looked up
in the other schema by its rowId; the message is that of the first record that
is lost or differs. -/
def compareLost {R : Type} (differs : R → R → Bool) (table : String) (rowIdOf : R → RowId)
    (other : Map RowId R) : List (RowId × R) → Option String
  | [] => none
  | (_, r) :: rest =>
    match other.find (rowIdOf r) with
    | none => some ("schema mismatch: " ++ table ++ " lost ROWID: " ++ rowIdOf r)
    | some r2 =>
      if differs r r2 then
        some ("schema mismatch: " ++ table ++ " differs ROWID: " ++ rowIdOf r)
      else compareLost differs table rowIdOf other rest

/-- The second loop of `compareSys<K>`: every record of the other schema is
looked up in this schema by its rowId. -/
def compareExtra {R : Type} (table : String) (rowIdOf : R → RowId)
    (mine : Map RowId R) : List (RowId × R) → Option String
  | [] => none
  | (_, r) :: rest =>
    match mine.find (rowIdOf r) with
    | none => some ("schema mismatch: " ++ table ++ " lost ROWID: " ++ rowIdOf r)
    | some _ => compareExtra table rowIdOf mine rest

/-- The body of `compareSys<K>`: the value returned and `msgs` after the call. -/
def compareRecords {R : Type} (differs : R → R → Bool) (table : String) (rowIdOf : R → RowId)
    (mine other : Map RowId R) (msgs : String) : Bool × String :=
  match compareLost differs table rowIdOf other mine.entries with
  | some m => (false, m)
  | none =>
    match compareExtra table rowIdOf mine other.entries with
    | some m => (false, m)
    | none => (true, msgs)

/-- The method `Schema::compareSysCCol` (Schema.cpp 250-271). -/
def compareSysCCol (ne : RecordNe) (s otherSchema : Schema) (msgs : String) :
    Bool × String :=
  compareRecords ne.sysCCol "SYS.CCOL$" SysCCol.rowId s.sysCColMapRowId
    otherSchema.sysCColMapRowId msgs

/-- The method `Schema::compareSysCDef` (Schema.cpp 273-294). -/
def compareSysCDef (ne : RecordNe) (s otherSchema : Schema) (msgs : String) :
    Bool × String :=
  compareRecords ne.sysCDef "SYS.CDEF$" SysCDef.rowId s.sysCDefMapRowId
    otherSchema.sysCDefMapRowId msgs

/-- The method `Schema::compareSysCol` (Schema.cpp 296-317). -/
def compareSysCol (ne : RecordNe) (s otherSchema : Schema) (msgs : String) :
    Bool × String :=
  compareRecords ne.sysCol "SYS.COL$" SysCol.rowId s.sysColMapRowId
    otherSchema.sysColMapRowId msgs

/-- The method `Schema::compareSysDeferredStg` (Schema.cpp 319-340). -/
def compareSysDeferredStg (ne : RecordNe) (s otherSchema : Schema) (msgs : String) :
    Bool × String :=
  compareRecords ne.sysDeferredStg "SYS.DEFERRED_STG$" SysDeferredStg.rowId s.sysDeferredStgMapRowId
    otherSchema.sysDeferredStgMapRowId msgs

/-- The method `Schema::compareSysECol` (Schema.cpp 342-363). -/
def compareSysECol (ne : RecordNe) (s otherSchema : Schema) (msgs : String) :
    Bool × String :=
  compareRecords ne.sysECol "SYS.ECOL$" SysECol.rowId s.sysEColMapRowId
    otherSchema.sysEColMapRowId msgs

/-- The method `Schema::compareSysLob` (Schema.cpp 365-386). -/
def compareSysLob (ne : RecordNe) (s otherSchema : Schema) (msgs : String) :
    Bool × String :=
  compareRecords ne.sysLob "SYS.LOB$" SysLob.rowId s.sysLobMapRowId
    otherSchema.sysLobMapRowId msgs

/-- The method `Schema::compareSysLobCompPart` (Schema.cpp 388-409). -/
def compareSysLobCompPart (ne : RecordNe) (s otherSchema : Schema) (msgs : String) :
    Bool × String :=
  compareRecords ne.sysLobCompPart "SYS.LOBCOMPPART$" SysLobCompPart.rowId s.sysLobCompPartMapRowId
    otherSchema.sysLobCompPartMapRowId msgs

/-- The method `Schema::compareSysLobFrag` (Schema.cpp 411-432). -/
def compareSysLobFrag (ne : RecordNe) (s otherSchema : Schema) (msgs : String) :
    Bool × String :=
  compareRecords ne.sysLobFrag "SYS.LOBFRAG$" SysLobFrag.rowId s.sysLobFragMapRowId
    otherSchema.sysLobFragMapRowId msgs

/-- The method `Schema::compareSysObj` (Schema.cpp 434-454). -/
def compareSysObj (ne : RecordNe) (s otherSchema : Schema) (msgs : String) :
    Bool × String :=
  compareRecords ne.sysObj "SYS.OBJ$" SysObj.rowId s.sysObjMapRowId
    otherSchema.sysObjMapRowId msgs

/-- The method `Schema::compareSysTab` (Schema.cpp 456-477). -/
def compareSysTab (ne : RecordNe) (s otherSchema : Schema) (msgs : String) :
    Bool × String :=
  compareRecords ne.sysTab "SYS.TAB$" SysTab.rowId s.sysTabMapRowId
    otherSchema.sysTabMapRowId msgs

/-- The method `Schema::compareSysTabComPart` (Schema.cpp 479-500). -/
def compareSysTabComPart (ne : RecordNe) (s otherSchema : Schema) (msgs : String) :
    Bool × String :=
  compareRecords ne.sysTabComPart "SYS.TABCOMPART$" SysTabComPart.rowId s.sysTabComPartMapRowId
    otherSchema.sysTabComPartMapRowId msgs

/-- The method `Schema::compareSysTabPart` (Schema.cpp 502-523). -/
def compareSysTabPart (ne : RecordNe) (s otherSchema : Schema) (msgs : String) :
    Bool × String :=
  compareRecords ne.sysTabPart "SYS.TABPART$" SysTabPart.rowId s.sysTabPartMapRowId
    otherSchema.sysTabPartMapRowId msgs

/-- The method `Schema::compareSysTabSubPart` (Schema.cpp 525-546). -/
def compareSysTabSubPart (ne : RecordNe) (s otherSchema : Schema) (msgs : String) :
    Bool × String :=
  compareRecords ne.sysTabSubPart "SYS.TABSUBPART$" SysTabSubPart.rowId s.sysTabSubPartMapRowId
    otherSchema.sysTabSubPartMapRowId msgs

/-- The method `Schema::compareSysTs` (Schema.cpp 548-569). -/
def compareSysTs (ne : RecordNe) (s otherSchema : Schema) (msgs : String) :
    Bool × String :=
  compareRecords ne.sysTs "SYS.TS$" SysTs.rowId s.sysTsMapRowId
    otherSchema.sysTsMapRowId msgs

/-- The method `Schema::compareSysUser` (Schema.cpp 571-592). -/
def compareSysUser (ne : RecordNe) (s otherSchema : Schema) (msgs : String) :
    Bool × String :=
  compareRecords ne.sysUser "SYS.USER$" SysUser.rowId s.sysUserMapRowId
    otherSchema.sysUserMapRowId msgs

/-- The method `Schema::compare` (Schema.cpp 594-613): the value returned and
`msgs` after the call. -/
def compare (ne : RecordNe) (s otherSchema : Schema) (msgs : String) : Bool × String :=
  let r := compareSysCCol ne s otherSchema msgs
  if r.1 = false then (false, r.2) else
  let r := compareSysCDef ne s otherSchema r.2
  if r.1 = false then (false, r.2) else
  let r := compareSysCol ne s otherSchema r.2
  if r.1 = false then (false, r.2) else
  let r := compareSysDeferredStg ne s otherSchema r.2
  if r.1 = false then (false, r.2) else
  let r := compareSysECol ne s otherSchema r.2
  if r.1 = false then (false, r.2) else
  let r := compareSysLob ne s otherSchema r.2
  if r.1 = false then (false, r.2) else
  let r := compareSysLobCompPart ne s otherSchema r.2
  if r.1 = false then (false, r.2) else
  let r := compareSysLobFrag ne s otherSchema r.2
  if r.1 = false then (false, r.2) else
  let r := compareSysObj ne s otherSchema r.2
  if r.1 = false then (false, r.2) else
  let r := compareSysTab ne s otherSchema r.2
  if r.1 = false then (false, r.2) else
  let r := compareSysTabComPart ne s otherSchema r.2
  if r.1 = false then (false, r.2) else
  let r := compareSysTabPart ne s otherSchema r.2
  if r.1 = false then (false, r.2) else
  let r := compareSysTabSubPart ne s otherSchema r.2
  if r.1 = false then (false, r.2) else
  let r := compareSysTs ne s otherSchema r.2
  if r.1 = false then (false, r.2) else
  let r := compareSysUser ne s otherSchema r.2
  if r.1 = false then (false, r.2) else
  (true, "")

/-- The keys of a primary map are distinct and every record is under its own
rowId, as in every `std::map` that is filled by `m[record->rowId] = record`. -/
def MapOk {R : Type} (rowIdOf : R → RowId) (m : Map RowId R) : Prop :=
  (m.entries.map Prod.fst).Nodup ∧ ∀ e ∈ m.entries, rowIdOf e.2 = e.1

instance MapOk.decide {R : Type} (rowIdOf : R → RowId) (m : Map RowId R) :
    Decidable (MapOk rowIdOf m) := by
  unfold MapOk; infer_instance

/-- The primary map of a kind is such a map. -/
def PrimaryOk (k : Kind) (s : Schema) : Prop :=
  match k with
  | .CCOL => MapOk SysCCol.rowId s.sysCColMapRowId
  | .CDEF => MapOk SysCDef.rowId s.sysCDefMapRowId
  | .COL => MapOk SysCol.rowId s.sysColMapRowId
  | .DEFERRED_STG => MapOk SysDeferredStg.rowId s.sysDeferredStgMapRowId
  | .ECOL => MapOk SysECol.rowId s.sysEColMapRowId
  | .LOB => MapOk SysLob.rowId s.sysLobMapRowId
  | .LOBCOMPPART => MapOk SysLobCompPart.rowId s.sysLobCompPartMapRowId
  | .LOBFRAG => MapOk SysLobFrag.rowId s.sysLobFragMapRowId
  | .OBJ => MapOk SysObj.rowId s.sysObjMapRowId
  | .TAB => MapOk SysTab.rowId s.sysTabMapRowId
  | .TABCOMPART => MapOk SysTabComPart.rowId s.sysTabComPartMapRowId
  | .TABPART => MapOk SysTabPart.rowId s.sysTabPartMapRowId
  | .TABSUBPART => MapOk SysTabSubPart.rowId s.sysTabSubPartMapRowId
  | .TS => MapOk SysTs.rowId s.sysTsMapRowId
  | .USER => MapOk SysUser.rowId s.sysUserMapRowId

instance PrimaryOk.decide (k : Kind) (s : Schema) : Decidable (PrimaryOk k s) := by
  cases k <;> unfold PrimaryOk <;> infer_instance

/-- Two primary maps have the same rowIds and the two records under each rowId
do not differ. -/
def SameRecords {R : Type} (differs : R → R → Bool) (m1 m2 : Map RowId R) : Prop :=
  ∀ rowId,
    match m1.find rowId, m2.find rowId with
    | none, none => True
    | some a, some b => differs a b = false
    | _, _ => False

/-- The primary maps of a kind in two schemas have the same rowIds with equal
records. -/
def SamePrimary (ne : RecordNe) (k : Kind) (s t : Schema) : Prop :=
  match k with
  | .CCOL => SameRecords ne.sysCCol s.sysCColMapRowId t.sysCColMapRowId
  | .CDEF => SameRecords ne.sysCDef s.sysCDefMapRowId t.sysCDefMapRowId
  | .COL => SameRecords ne.sysCol s.sysColMapRowId t.sysColMapRowId
  | .DEFERRED_STG => SameRecords ne.sysDeferredStg s.sysDeferredStgMapRowId t.sysDeferredStgMapRowId
  | .ECOL => SameRecords ne.sysECol s.sysEColMapRowId t.sysEColMapRowId
  | .LOB => SameRecords ne.sysLob s.sysLobMapRowId t.sysLobMapRowId
  | .LOBCOMPPART => SameRecords ne.sysLobCompPart s.sysLobCompPartMapRowId t.sysLobCompPartMapRowId
  | .LOBFRAG => SameRecords ne.sysLobFrag s.sysLobFragMapRowId t.sysLobFragMapRowId
  | .OBJ => SameRecords ne.sysObj s.sysObjMapRowId t.sysObjMapRowId
  | .TAB => SameRecords ne.sysTab s.sysTabMapRowId t.sysTabMapRowId
  | .TABCOMPART => SameRecords ne.sysTabComPart s.sysTabComPartMapRowId t.sysTabComPartMapRowId
  | .TABPART => SameRecords ne.sysTabPart s.sysTabPartMapRowId t.sysTabPartMapRowId
  | .TABSUBPART => SameRecords ne.sysTabSubPart s.sysTabSubPartMapRowId t.sysTabSubPartMapRowId
  | .TS => SameRecords ne.sysTs s.sysTsMapRowId t.sysTsMapRowId
  | .USER => SameRecords ne.sysUser s.sysUserMapRowId t.sysUserMapRowId

/-- The schema of scenario S1 with another name for the object. -/
def schemaObjRenamed : Schema :=
  (dictAddStr sampleLimits Schema.empty (.obj { sampleObj with name := "T2" })).schema


/-! #### Emptying the schema (`Schema.cpp` 52-248, 1952-1970)

A record or a descriptor is a value here, so the `delete` of one that has left
the maps is no step.  The members `schemaColumn`, `schemaLob` and `schemaTable`,
of classes that are not among the sources, are left out. -/

/-- The method `Schema::resetTouched` (Schema.cpp 1952-1970). -/
def resetTouched (s : Schema) : Schema :=
  { s with
    tablesTouched := []
    identifiersTouched := []
    sysCColSetTouched := []
    sysCDefSetTouched := []
    sysColSetTouched := []
    sysDeferredStgSetTouched := []
    sysEColSetTouched := []
    sysLobSetTouched := []
    sysLobCompPartSetTouched := []
    sysLobFragSetTouched := []
    sysObjSetTouched := []
    sysTabSetTouched := []
    sysTabComPartSetTouched := []
    sysTabPartSetTouched := []
    sysTabSubPartSetTouched := []
    sysUserSetTouched := []
    touched := false }

/-- Modelled from the spec: `ctx->error(code, text)`, of a class that is not among
the sources, reports the error and returns.  This is the guarded report
`if (!m.empty()) ctx->error(50029, text + std::to_string(m.size()) + " at exit")`
with the errors reported so far. -/
def reportLeft {K V : Type} (m : Map K V) (text : String) (reported : List (Nat × String)) :
    List (Nat × String) :=
  match m.entries with
  | [] => reported
  | _ :: _ => reported ++ [(50029, text ++ toString m.entries.length ++ " at exit")]

/-- The record `cbegin()->second` of the primary map of a kind; `none` when the
map is empty. -/
def firstRow (k : Kind) (s : Schema) : Option Row :=
  match k with
  | .CCOL => s.sysCColMapRowId.entries.head?.map fun e => Row.ccol e.2
  | .CDEF => s.sysCDefMapRowId.entries.head?.map fun e => Row.cdef e.2
  | .COL => s.sysColMapRowId.entries.head?.map fun e => Row.col e.2
  | .DEFERRED_STG => s.sysDeferredStgMapRowId.entries.head?.map fun e => Row.deferredStg e.2
  | .ECOL => s.sysEColMapRowId.entries.head?.map fun e => Row.ecol e.2
  | .LOB => s.sysLobMapRowId.entries.head?.map fun e => Row.lob e.2
  | .LOBCOMPPART => s.sysLobCompPartMapRowId.entries.head?.map fun e => Row.lobCompPart e.2
  | .LOBFRAG => s.sysLobFragMapRowId.entries.head?.map fun e => Row.lobFrag e.2
  | .OBJ => s.sysObjMapRowId.entries.head?.map fun e => Row.obj e.2
  | .TAB => s.sysTabMapRowId.entries.head?.map fun e => Row.tab e.2
  | .TABCOMPART => s.sysTabComPartMapRowId.entries.head?.map fun e => Row.tabComPart e.2
  | .TABPART => s.sysTabPartMapRowId.entries.head?.map fun e => Row.tabPart e.2
  | .TABSUBPART => s.sysTabSubPartMapRowId.entries.head?.map fun e => Row.tabSubPart e.2
  | .TS => s.sysTsMapRowId.entries.head?.map fun e => Row.ts e.2
  | .USER => s.sysUserMapRowId.entries.head?.map fun e => Row.user e.2

/-- The loop `while (!primary.empty()) { r = cbegin()->second; dictSys<K>Drop(r) }`
of a kind, the same text for the fifteen kinds; `none` when the fuel runs out
before the map is empty. -/
def purgeLoop (k : Kind) : Nat → Schema → Option (Result Unit)
  | 0, _ => none
  | fuel + 1, s =>
    match firstRow k s with
    | none => some { schema := s, ret := .ok () }
    | some r =>
      match (dictDrop s r).ret with
      | .error e => some { schema := (dictDrop s r).schema, ret := .error e }
      | .ok _ => purgeLoop k fuel (dictDrop s r).schema

/-- The reports on the secondary maps of a kind after its loop. -/
def reportKind (k : Kind) (s : Schema) (reported : List (Nat × String)) : List (Nat × String) :=
  match k with
  | .CCOL =>
    reportLeft s.sysCColMapKey
      "key map SYS.CCOL$ not empty, left: " reported
  | .CDEF =>
    reportLeft s.sysCDefMapKey "key map SYS.CDEF$ not empty, left: "
      (reportLeft s.sysCDefMapCon
        "con# map SYS.CDEF$ not empty, left: " reported)
  | .COL =>
    reportLeft s.sysColMapSeg
      "seg# map SYS.COL$ not empty, left: " reported
  | .DEFERRED_STG =>
    reportLeft s.sysDeferredStgMapObj
      "obj map SYS.DEFERRED_STG$ not empty, left: " reported
  | .ECOL =>
    reportLeft s.sysEColMapKey
      "key map SYS.ECOL$ not empty, left: " reported
  | .LOB =>
    reportLeft s.sysLobMapKey "key map SYS.LOB$ not empty, left: "
      (reportLeft s.sysLobMapLObj
        "lobj# map SYS.LOB$ not empty, left: " reported)
  | .LOBCOMPPART =>
    reportLeft s.sysLobCompPartMapKey "key map SYS.LOBCOMPPART$ not empty, left: "
      (reportLeft s.sysLobCompPartMapPartObj
        "partobj# map SYS.LOBCOMPPART$ not empty, left: " reported)
  | .LOBFRAG =>
    reportLeft s.sysLobFragMapKey
      "key map SYS.LOBFRAG$ not empty, left: " reported
  | .OBJ =>
    reportLeft s.sysObjMapObj "obj# map SYS.OBJ$ not empty, left: "
      (reportLeft s.sysObjMapName
        "name map SYS.OBJ$ not empty, left: " reported)
  | .TAB =>
    reportLeft s.sysTabMapObj
      "obj# map SYS.TAB$ not empty, left: " reported
  | .TABCOMPART =>
    reportLeft s.sysTabComPartMapKey "key map SYS.TABCOMPART$ not empty, left: "
      (reportLeft s.sysTabComPartMapObj
        "obj# map SYS.TABCOMPART$ not empty, left: " reported)
  | .TABPART =>
    reportLeft s.sysTabPartMapKey
      "key map SYS.TABPART$ not empty, left: " reported
  | .TABSUBPART =>
    reportLeft s.sysTabSubPartMapKey
      "key map SYS.TABSUBPART$ not empty, left: " reported
  | .TS =>
    reportLeft s.sysTsMapTs
      "ts# map SYS.TS$ not empty, left: " reported
  | .USER =>
    reportLeft s.sysUserMapUser
      "user# map SYS.USER$ not empty, left: " reported

/-- The loop `while (!tableMap.empty()) { table = cbegin()->second;
removeTableFromDict(table) }`; `none` when the fuel runs out before the map is
empty. -/
def purgeTables : Nat → Schema → Option (Result Unit)
  | 0, _ => none
  | fuel + 1, s =>
    match s.tableMap.entries with
    | [] => some { schema := s, ret := .ok () }
    | (_, table) :: _ =>
      match (removeTableFromDict s table).ret with
      | .error e => some { schema := (removeTableFromDict s table).schema, ret := .error e }
      | .ok _ => purgeTables fuel (removeTableFromDict s table).schema

/-- What a call of `purge` leaves: the schema, its `scn`, the errors reported
and the exception if one was raised. -/
structure PurgeResult where
  schema : Schema
  scn : Nat
  reported : List (Nat × String)
  ret : Except DataException Unit
deriving DecidableEq

/-- The loops of `purge` over the dictionaries, kind after kind, each followed
by its reports. -/
def purgeKinds (zeroScn : Nat) : List Kind → Nat → Schema → List (Nat × String) →
    Option PurgeResult
  | [], _, s, reported =>
    some { schema := resetTouched s, scn := zeroScn, reported := reported, ret := .ok () }
  | k :: ks, fuel, s, reported =>
    match purgeLoop k fuel s with
    | none => none
    | some r =>
      match r.ret with
      | .error e =>
        some { schema := r.schema, scn := zeroScn, reported := reported, ret := .error e }
      | .ok _ => purgeKinds zeroScn ks fuel r.schema (reportKind k r.schema reported)

/-- The kinds in the order of `purge`. -/
def purgeOrder : List Kind :=
  [.CCOL, .CDEF, .COL, .DEFERRED_STG, .ECOL, .LOB, .LOBCOMPPART, .LOBFRAG, .OBJ, .TAB,
    .TABCOMPART, .TABPART, .TABSUBPART, .TS, .USER]

/-- The method `Schema::purge` (Schema.cpp 52-248) with a bound `fuel` on the
turns of each loop; `zeroScn` is the constant `ZERO_SCN` of a header that is not
among the sources.  The value is `none` when a loop runs out of fuel. -/
def purge (zeroScn : Nat) (fuel : Nat) (s : Schema) : Option PurgeResult :=
  match purgeTables fuel s with
  | none => none
  | some r =>
    match r.ret with
    | .error e => some { schema := r.schema, scn := zeroScn, reported := [], ret := .error e }
    | .ok _ =>
      let s := r.schema
      let reported := reportLeft s.lobPartitionMap "schema lob partition map not empty, left: " []
      let s := { s with lobPartitionMap := Map.empty }
      let reported := reportLeft s.lobIndexMap "schema lob index map not empty, left: " reported
      let s := { s with lobIndexMap := Map.empty }
      let reported := reportLeft s.tablePartitionMap
        "schema table partition map not empty, left: " reported
      let s := { s with tablePartitionMap := Map.empty }
      purgeKinds zeroScn purgeOrder fuel s reported

/-- The number of entries of the primary map of a kind. -/
def primarySize (k : Kind) (s : Schema) : Nat :=
  match k with
  | .CCOL => s.sysCColMapRowId.entries.length
  | .CDEF => s.sysCDefMapRowId.entries.length
  | .COL => s.sysColMapRowId.entries.length
  | .DEFERRED_STG => s.sysDeferredStgMapRowId.entries.length
  | .ECOL => s.sysEColMapRowId.entries.length
  | .LOB => s.sysLobMapRowId.entries.length
  | .LOBCOMPPART => s.sysLobCompPartMapRowId.entries.length
  | .LOBFRAG => s.sysLobFragMapRowId.entries.length
  | .OBJ => s.sysObjMapRowId.entries.length
  | .TAB => s.sysTabMapRowId.entries.length
  | .TABCOMPART => s.sysTabComPartMapRowId.entries.length
  | .TABPART => s.sysTabPartMapRowId.entries.length
  | .TABSUBPART => s.sysTabSubPartMapRowId.entries.length
  | .TS => s.sysTsMapRowId.entries.length
  | .USER => s.sysUserMapRowId.entries.length

/-- A bound on the turns of every loop of `purge`: the entries of `tableMap` and
of the fifteen primary maps. -/
def Schema.size (s : Schema) : Nat :=
  s.tableMap.entries.length + (purgeOrder.map fun k => primarySize k s).sum

/-- The columns of COL$ are under their own rowIds and `sysColMapSeg` has entries
for stored columns with `segCol > 0` only. -/
def ColSegOk (s : Schema) : Prop :=
  (∀ rowId r, s.sysColMapRowId.find rowId = some r → r.rowId = rowId) ∧
  (∀ k h, s.sysColMapSeg.find k = some h →
    ∃ r, s.sysColMapRowId.find r.rowId = some r ∧ h = r.rowId ∧ r.seg = k ∧ 0 < r.segCol)

/-- The keys of a descriptor map are the registered objects `objs`, each once. -/
def Registered {V : Type} (objs : List Nat) (m : Map Nat V) : Prop :=
  objs.Nodup ∧ (∀ obj ∈ objs, (m.find obj).isSome = true) ∧
    ∀ e ∈ m.entries, e.1 ∈ objs

instance Registered.decide {V : Type} (objs : List Nat) (m : Map Nat V) :
    Decidable (Registered objs m) := by
  unfold Registered; infer_instance

/-- The descriptors of `tableMap`. -/
def Schema.tables (s : Schema) : List OracleTable :=
  s.tableMap.entries.map Prod.snd

/-- The descriptor maps hold what `addTableToDict` registers for the descriptors of
`tableMap`: every descriptor is in `tableMap` under its object,
`tablePartitionMap` has the objects of the tables and of their partitions and
no other, `lobIndexMap` has the objects of their LOB indexes and no other, and
`lobPartitionMap` has no object that is not of their LOB partitions. -/
def DescOk (s : Schema) : Prop :=
  (∀ e ∈ s.tableMap.entries, e.2.obj = e.1) ∧
  Registered (s.tables.flatMap OracleTable.partitionObjs) s.tablePartitionMap ∧
  Registered (s.tables.flatMap fun t => lobIndexObjs t.lobs) s.lobIndexMap ∧
  ∀ e ∈ s.lobPartitionMap.entries, e.1 ∈ s.tables.flatMap fun t => lobPartitionObjs t.lobs

instance DescOk.decide (s : Schema) : Decidable (DescOk s) := by
  unfold DescOk; infer_instance

/-- The schema of scenario S1 with a table that has a LOB and two partitions. -/
def schemaObjTable : Schema := (addTableToDict schemaObj sampleTableLob).schema


/-! #### The slots of the queue that the sift-down reads and writes -/

/-- The indices at which the loop `while (i < size)` of `siftLoop` reads or writes
`queue`, in the order of the accesses: the conditions read `queue[i * 2 + 2]`
and `queue[size]`, or `queue[i * 2 + 1]` and `queue[size]`, when the test of
the index before `&&` holds; a move reads the child and writes `queue[i]`. -/
def siftLoopIndices (mem : Ptr → BuilderMsg) (size : Nat) :
    Nat → (Nat → Ptr) → Nat → List Nat
  | 0, _, _ => []
  | fuel + 1, queue, i =>
    if i < size then
      let first := if i * 2 + 2 < size then [i * 2 + 2, size] else []
      if i * 2 + 2 < size ∧ (mem (queue (i * 2 + 2))).id < (mem (queue size)).id then
        if (mem (queue (i * 2 + 1))).id < (mem (queue (i * 2 + 2))).id then
          first ++ [i * 2 + 1, i * 2 + 2, i * 2 + 1, i] ++
            siftLoopIndices mem size fuel (Function.update queue i (queue (i * 2 + 1)))
              (i * 2 + 1)
        else
          first ++ [i * 2 + 1, i * 2 + 2, i * 2 + 2, i] ++
            siftLoopIndices mem size fuel (Function.update queue i (queue (i * 2 + 2)))
              (i * 2 + 2)
      else
        let second := if i * 2 + 1 < size then [i * 2 + 1, size] else []
        if i * 2 + 1 < size ∧ (mem (queue (i * 2 + 1))).id < (mem (queue size)).id then
          first ++ second ++ [i * 2 + 1, i] ++
            siftLoopIndices mem size fuel (Function.update queue i (queue (i * 2 + 1)))
              (i * 2 + 1)
        else
          first ++ second
    else
      []

/-- The indices at which `siftDown` reads or writes `queue`: those of the loop,
then the read of `queue[size]` and the write of `queue[i]`. -/
def siftDownIndices (mem : Ptr → BuilderMsg) (size : Nat) (queue : Nat → Ptr) : List Nat :=
  siftLoopIndices mem size size queue 0 ++ [size, (siftLoop mem size size queue 0).2]

/-- The indices at which one turn of the loop of `confirmMessage` (`popLoop`)
reads or writes `queue`: the condition reads `queue[0]` when the queue is not
empty, the body reads it twice and, unless the queue has become empty, sifts
down. -/
def popIndices (k : Consts) (mem : Ptr → BuilderMsg) (s : PopState) : List Nat :=
  if s.currentQueueSize > 0 then
    if (mem (s.queue 0)).flags &&& k.OUTPUT_BUFFER_CONFIRMED ≠ 0 then
      if s.currentQueueSize - 1 = 0 then
        [0, 0, 0]
      else
        [0, 0, 0] ++ siftDownIndices mem (s.currentQueueSize - 1) s.queue
    else
      [0]
  else
    []

/-- The memory in which the messages at the addresses 1, 3, 2, 7, 4, 5 are
confirmed. -/
def memConfirmed : Ptr → BuilderMsg :=
  fun p => { memAscending p with flags := sampleConsts.OUTPUT_BUFFER_CONFIRMED }


/-! #### The block size of a LOB (`Schema.cpp` 2388-2404) -/

/-- The TS$ row that an entry of `sysTsMapTs` points to, if the map has an entry
at `ts`. -/
def tsOfTs (s : Schema) (ts : Nat) : Option SysTs :=
  (s.sysTsMapTs.find ts).bind s.sysTsMapRowId.find

/-- What a call of `getLobBlockSize` leaves behind: the schema, the warnings
raised and the value returned. -/
structure BlockSizeResult where
  schema : Schema
  warnings : List (Nat × String)
  value : Nat

/-- The method `Schema::getLobBlockSize` (Schema.cpp 2388-2404).  Modelled from the
spec: `ctx->warning(code, text)`, of a class that is not among the sources,
reports the warning and returns. -/
def getLobBlockSize (s : Schema) (ts : Nat) : BlockSizeResult :=
  match tsOfTs s ts with
  | some sysTs =>
    let pageSize := sysTs.blockSize
    if pageSize = 8192 then
      { schema := s, warnings := [], value := 8132 }
    else if pageSize = 16384 then
      { schema := s, warnings := [], value := 16264 }
    else if pageSize = 32768 then
      { schema := s, warnings := [], value := 32528 }
    else
      { schema := s
        warnings := [(60022, "missing TS#: " ++ toString ts ++ ", BLOCKSIZE: " ++
          toString pageSize ++ ")")]
        value := 8132 }
  | none =>
    { schema := s, warnings := [(60022, "missing TS#: " ++ toString ts ++ ")")], value := 8132 }

/-- A tablespace with blocks of 16384 bytes. -/
def sampleTs : SysTs := { rowId := "T1", ts := 4, name := "USERS", blockSize := 16384 }

/-- The schema with the tablespace 4. -/
def schemaTs : Schema := (dictAddStr sampleLimits Schema.empty (.ts sampleTs)).schema

/-- A composite partition 400 of table 100. -/
def sampleTabComPart : SysTabComPart := { rowId := "TC1", obj := 400, dataObj := 1400, bo := 100 }

/-- A subpartition 500 of the composite partition 400. -/
def sampleTabSubPart : SysTabSubPart := { rowId := "TS1", obj := 500, dataObj := 1500, pObj := 400 }

/-- The schema with the composite partition 400 of table 100, once the touched
sets have been reset. -/
def schemaTabComPart : Schema :=
  resetTouched (dictAddStr sampleLimits Schema.empty (.tabComPart sampleTabComPart)).schema

/-- The schema with the composite partition 400 and its subpartition 500, once
the touched sets have been reset. -/
def schemaTabSubPart : Schema :=
  resetTouched (dictAddStr sampleLimits schemaTabComPart (.tabSubPart sampleTabSubPart)).schema


/-! #### The checkpoint thread (`Checkpoint.cpp` 43-83)

`Ctx`, `Metadata` and the exception classes are not among the sources.  The
flags of `ctx` are written by other threads, so a turn of the loop is given
what it observes: the flags at the moments they are read and the outcomes of
the two calls.  The wait on the condition variable and the trace output are
no part of the state. -/

/-- Modelled from the spec: the exceptions of its section 7, `DataException`,
`RuntimeException` and `NetworkException`, each with a code and a message and
none a subclass of another (`Writer::run`, Writer.cpp 176-182, catches
`DataException` and `RuntimeException` in clauses of their own), and
`std::bad_alloc` with the text of `what()`. -/
inductive Raised where
  | dataException (code : Nat) (msg : String)
  | runtimeException (code : Nat) (msg : String)
  | networkException (code : Nat) (msg : String)
  | badAlloc (what : String)
deriving DecidableEq

/-- What one turn of the loop of `Checkpoint::run` observes, in the order of the
source: `ctx->hardShutdown` in the condition of the loop, the exception raised
by `metadata->writeCheckpoint(false)` if it raises, the exception raised by
`metadata->deleteOldCheckpoints()` if it raises, then `ctx->hardShutdown`,
`ctx->softShutdown` and `ctx->replicatorFinished`. -/
structure CheckpointTurn where
  hardShutdown : Bool
  writeCheckpoint : Option Raised
  deleteOldCheckpoints : Option Raised
  hardShutdownAfter : Bool
  softShutdown : Bool
  replicatorFinished : Bool
deriving DecidableEq

/-- What the statement after the loop observes: `ctx->softShutdown` and the
exception raised by `metadata->writeCheckpoint(true)` if it raises. -/
structure CheckpointEnd where
  softShutdown : Bool
  writeCheckpoint : Option Raised
deriving DecidableEq

/-- The loop `while (!ctx->hardShutdown)` of `Checkpoint::run` (Checkpoint.cpp
51-65) on the turns observed; `none` when the turns end before the loop does. -/
def Checkpoint.loop : List CheckpointTurn → Option (Except Raised Unit)
  | [] => none
  | turn :: turns =>
    if turn.hardShutdown then some (.ok ())
    else
      match turn.writeCheckpoint with
      | some e => some (.error e)
      | none =>
        match turn.deleteOldCheckpoints with
        | some e => some (.error e)
        | none =>
          if turn.hardShutdownAfter then some (.ok ())
          else if turn.softShutdown && turn.replicatorFinished then some (.ok ())
          else Checkpoint.loop turns

/-- The statements of the `try` block of `Checkpoint::run` (Checkpoint.cpp 50-69):
the loop, then the last checkpoint on a soft shutdown. -/
def Checkpoint.tryBlock (turns : List CheckpointTurn) (last : CheckpointEnd) :
    Option (Except Raised Unit) :=
  match Checkpoint.loop turns with
  | none => none
  | some (.error e) => some (.error e)
  | some (.ok _) =>
    if last.softShutdown then
      match last.writeCheckpoint with
      | some e => some (.error e)
      | none => some (.ok ())
    else some (.ok ())

/-- What a call of `Checkpoint::run` leaves behind: the errors reported by
`ctx->error`, whether `ctx->stopHard()` was called, and the exception that
leaves `run` if one does. -/
structure RunOutcome where
  errors : List (Nat × String)
  stopHard : Bool
  ret : Except Raised Unit
deriving DecidableEq

/-- The method `Checkpoint::run` (Checkpoint.cpp 43-83): the `try` block with its two
`catch` clauses, for `RuntimeException` and for `std::bad_alloc`; `none` when
the turns end before the loop does. -/
def Checkpoint.run (turns : List CheckpointTurn) (last : CheckpointEnd) : Option RunOutcome :=
  match Checkpoint.tryBlock turns last with
  | none => none
  | some (.ok _) => some { errors := [], stopHard := false, ret := .ok () }
  | some (.error (.runtimeException code msg)) =>
    some { errors := [(code, msg)], stopHard := true, ret := .ok () }
  | some (.error (.badAlloc what)) =>
    some { errors := [(10018, "memory allocation failed: " ++ what)], stopHard := true,
           ret := .ok () }
  | some (.error e) => some { errors := [], stopHard := false, ret := .error e }

/-- A turn in which no flag is set and both calls return. -/
def quietTurn : CheckpointTurn :=
  { hardShutdown := false, writeCheckpoint := none, deleteOldCheckpoints := none,
    hardShutdownAfter := false, softShutdown := false, replicatorFinished := false }


/-! #### Dropping the unused metadata (`Schema.cpp` 1810-1950)

A touched set holds pointers to records, here their rowIds; a pointer is
followed through the primary map of its kind.  The `delete` of a record or of
a descriptor that has left the maps is no step. -/

/-- The record under a rowId in the primary map of a kind: the record that a
pointer of the touched set of the kind points to. -/
def rowOf (k : Kind) (s : Schema) (rowId : RowId) : Option Row :=
  match k with
  | .CCOL => (s.sysCColMapRowId.find rowId).map Row.ccol
  | .CDEF => (s.sysCDefMapRowId.find rowId).map Row.cdef
  | .COL => (s.sysColMapRowId.find rowId).map Row.col
  | .DEFERRED_STG => (s.sysDeferredStgMapRowId.find rowId).map Row.deferredStg
  | .ECOL => (s.sysEColMapRowId.find rowId).map Row.ecol
  | .LOB => (s.sysLobMapRowId.find rowId).map Row.lob
  | .LOBCOMPPART => (s.sysLobCompPartMapRowId.find rowId).map Row.lobCompPart
  | .LOBFRAG => (s.sysLobFragMapRowId.find rowId).map Row.lobFrag
  | .OBJ => (s.sysObjMapRowId.find rowId).map Row.obj
  | .TAB => (s.sysTabMapRowId.find rowId).map Row.tab
  | .TABCOMPART => (s.sysTabComPartMapRowId.find rowId).map Row.tabComPart
  | .TABPART => (s.sysTabPartMapRowId.find rowId).map Row.tabPart
  | .TABSUBPART => (s.sysTabSubPartMapRowId.find rowId).map Row.tabSubPart
  | .TS => (s.sysTsMapRowId.find rowId).map Row.ts
  | .USER => (s.sysUserMapRowId.find rowId).map Row.user

/-- The tests before the drop in the loop of a kind of `dropUnusedMetadata`; `true`
is `continue`.  `adaptive` is `FLAG(REDO_FLAGS_ADAPTIVE_SCHEMA)`, a flag of `ctx`.
There is no loop for TS$. -/
def keepTouched (adaptive : Bool) (users : List String) (s : Schema) : Row → Bool
  | .ccol r => (s.sysObjMapObj.find r.obj).isSome
  | .cdef r => (s.sysObjMapObj.find r.obj).isSome
  | .col r => (s.sysObjMapObj.find r.obj).isSome
  | .deferredStg r => (s.sysObjMapObj.find r.obj).isSome
  | .ecol r => (s.sysObjMapObj.find r.tabObj).isSome
  | .lob r => (s.sysObjMapObj.find r.obj).isSome
  | .lobCompPart r => (s.sysLobMapLObj.find r.lObj).isSome
  | .lobFrag r =>
    (s.sysLobCompPartMapPartObj.find r.parentObj).isSome ||
      (s.sysLobMapLObj.find r.parentObj).isSome
  | .obj r => (s.sysUserMapUser.find r.owner).isSome || !adaptive
  | .tab r => (s.sysObjMapObj.find r.obj).isSome
  | .tabComPart r => (s.sysObjMapObj.find r.obj).isSome
  | .tabPart r => (s.sysObjMapObj.find r.bo).isSome
  | .tabSubPart r => (s.sysObjMapObj.find r.obj).isSome
  | .ts _ => true
  | .user r => decide (r.name ∈ users)

/-- The loop `for (auto r : sys<K>SetTouched)` of a kind (the same text for the
fourteen kinds, up to the tests): a record that passes no test is dropped.  A
pointer to a record that is no longer stored has no value; its turn is left
out. -/
def dropTouched (adaptive : Bool) (users : List String) (k : Kind) :
    List RowId → Schema → Result Unit
  | [], s => { schema := s, ret := .ok () }
  | rowId :: rest, s =>
    match rowOf k s rowId with
    | none => dropTouched adaptive users k rest s
    | some r =>
      if keepTouched adaptive users s r then dropTouched adaptive users k rest s
      else
        match (dictDrop s r).ret with
        | .error e => { schema := (dictDrop s r).schema, ret := .error e }
        | .ok _ => dropTouched adaptive users k rest (dictDrop s r).schema

/-- The kinds in the order of the loops of `dropUnusedMetadata`. -/
def dropOrder : List Kind :=
  [.USER, .OBJ, .CCOL, .CDEF, .COL, .DEFERRED_STG, .ECOL, .LOB,
    .LOBCOMPPART, .LOBFRAG, .TAB, .TABCOMPART, .TABPART, .TABSUBPART]

/-- The loops of the kinds `ks`, one after the other, each over the touched set
of its kind. -/
def dropKinds (adaptive : Bool) (users : List String) : List Kind → Schema → Result Unit
  | [], s => { schema := s, ret := .ok () }
  | k :: ks, s =>
    match (dropTouched adaptive users k (touchedSet k s) s).ret with
    | .error e =>
      { schema := (dropTouched adaptive users k (touchedSet k s) s).schema, ret := .error e }
    | .ok _ => dropKinds adaptive users ks (dropTouched adaptive users k (touchedSet k s) s).schema

/-- What the loop over `tablesTouched` leaves behind: the schema, `msgs` and the
exception if one was raised. -/
structure DropResult where
  schema : Schema
  msgs : List String
  ret : Except DataException Unit

/-- The loop `for (OracleTable* table : tablesTouched)` of `dropUnusedMetadata`
(Schema.cpp 1811-1816). -/
def dropTables : List OracleTable → Schema → List String → DropResult
  | [], s, msgs => { schema := s, msgs := msgs, ret := .ok () }
  | table :: rest, s, msgs =>
    let msgs := msgs ++ [table.owner ++ "." ++ table.name ++ " (dataobj: " ++
      toString table.dataObj ++ ", obj: " ++ toString table.obj ++ ") "]
    match (removeTableFromDict s table).ret with
    | .error e => { schema := (removeTableFromDict s table).schema, msgs := msgs, ret := .error e }
    | .ok _ => dropTables rest (removeTableFromDict s table).schema msgs

/-- The schema at the start of the loop of a kind of `ks`, when the loops of the
kinds before it have returned. -/
def schemaBefore (adaptive : Bool) (users : List String) (k : Kind) :
    List Kind → Schema → Schema
  | [], s => s
  | k2 :: ks, s =>
    if k = k2 then s
    else schemaBefore adaptive users k ks (dropTouched adaptive users k2 (touchedSet k2 s) s).schema

/-- The schema after the loop over `tablesTouched` and `tablesTouched.clear()`. -/
def afterTables (s : Schema) : Schema :=
  { (dropTables s.tablesTouched s []).schema with tablesTouched := [] }

/-- The method `Schema::dropUnusedMetadata` (Schema.cpp 1810-1950). -/
def dropUnusedMetadata (adaptive : Bool) (users : List String) (s : Schema)
    (msgs : List String) : DropResult :=
  let r := dropTables s.tablesTouched s msgs
  match r.ret with
  | .error e => { schema := r.schema, msgs := r.msgs, ret := .error e }
  | .ok _ =>
    let s := { r.schema with tablesTouched := [] }
    let p := dropKinds adaptive users dropOrder s
    { schema := p.schema, msgs := r.msgs, ret := p.ret }

/-- The object that decides whether a touched record of CCOL$, CDEF$, COL$,
DEFERRED_STG$, LOB$ or TAB$ (`obj`) or of ECOL$ (`tabObj`) is kept. -/
def Row.ownerObj : Row → Option Nat
  | .ccol r => some r.obj
  | .cdef r => some r.obj
  | .col r => some r.obj
  | .deferredStg r => some r.obj
  | .ecol r => some r.tabObj
  | .lob r => some r.obj
  | .tab r => some r.obj
  | _ => none

/-- Every pointer of a touched set points to a stored record: the primary map of
the kind has a record under the rowId, with that rowId. -/
def TouchedStored (s : Schema) : Prop :=
  ∀ k, ∀ rowId ∈ touchedSet k s, (rowOf k s rowId).map Row.rowId = some rowId

/-- The schema when the pass over the touched USER$ records has returned, at
the start of the pass over the touched OBJ$ records. -/
def afterUserPass (adaptive : Bool) (users : List String) (s : Schema) : Schema :=
  schemaBefore adaptive users .OBJ dropOrder (afterTables s)

/-- The schema when the pass over the touched OBJ$ records has returned, at the
start of the pass over the touched CCOL$ records. -/
def afterObjPass (adaptive : Bool) (users : List String) (s : Schema) : Schema :=
  schemaBefore adaptive users .CCOL dropOrder (afterTables s)

/-- A second CCOL$ row with the key of the first. -/
def sampleCColTwin : SysCCol :=
  { rowId := "AAAC", con := 7, intCol := 1, obj := 100, spare1 := (0, 0) }

/-- The schema after these calls: the add of a CCOL$ row, the add of a second
CCOL$ row with the same key, which raises 50024, the drop of the second row,
which takes the entry of the first row out of `sysCColMapKey`, and the add of a
COL$ row of the same table.  There is no OBJ$ row. -/
def schemaCColUnindexed : Schema :=
  (dictAddStr sampleLimits
    (dictDrop (dictAddStr sampleLimits schemaCCol (.ccol sampleCColTwin)).schema
      (.ccol sampleCColTwin)).schema (.col sampleCol)).schema

/-- The schema after the adds of a USER$ row, of an OBJ$ row of another owner and
of a COL$ row of the table of the OBJ$ row. -/
def schemaTouchedThree : Schema :=
  (dictAddStr sampleLimits
    (dictAddStr sampleLimits schemaUser (.obj sampleObj)).schema (.col sampleCol)).schema


/-- Two schemas differ at most in the four maps of the table descriptors. -/
def OnlyTableDict (s t : Schema) : Prop :=
  t = { s with
    tableMap := t.tableMap
    tablePartitionMap := t.tablePartitionMap
    lobPartitionMap := t.lobPartitionMap
    lobIndexMap := t.lobIndexMap }

/-- Two schemas differ at most in `sysDeferredStgMapObj` and in the four maps of
the table descriptors. -/
def BuildFrame (s t : Schema) : Prop :=
  t = { s with
    sysDeferredStgMapObj := t.sysDeferredStgMapObj
    tableMap := t.tableMap
    tablePartitionMap := t.tablePartitionMap
    lobPartitionMap := t.lobPartitionMap
    lobIndexMap := t.lobIndexMap }

/-- The map `sysDeferredStgMapObj` of `t` is that of `s` with null pointers at
keys that had no entry. -/
def NullAdded (s t : Schema) : Prop :=
  ∀ obj, t.sysDeferredStgMapObj.find obj = s.sysDeferredStgMapObj.find obj ∨
    (s.sysDeferredStgMapObj.find obj = none ∧ t.sysDeferredStgMapObj.find obj = some none)

/-- An OBJ$ row is stored for an object: `sysObjMapObj` has an entry at the
object, the test of `dropUnusedMetadata`, and the entry is a record of the
primary map with this obj. -/
def HasObjRow (s : Schema) (obj : Nat) : Prop :=
  ∃ rowId sysObj, s.sysObjMapObj.find obj = some rowId ∧
    s.sysObjMapRowId.find rowId = some sysObj ∧ sysObj.obj = obj

/-- The descriptors are where `addTableToDict` and `touchTable` put them: a
descriptor of `tableMap` is under its obj, an entry of `tablePartitionMap` is
for a descriptor of `tableMap`, under its obj or under the object of one of its
partitions, and a touched descriptor is a descriptor of `tableMap`. -/
def DescStored (s : Schema) : Prop :=
  (∀ o t, s.tableMap.find o = some t → t.obj = o) ∧
  (∀ k t, s.tablePartitionMap.find k = some t →
    s.tableMap.find t.obj = some t ∧ k ∈ t.partitionObjs) ∧
  (∀ t ∈ s.tablesTouched, s.tableMap.find t.obj = some t)

/-- A descriptor of `tableMap` whose object has no OBJ$ row is touched: it is in
`tablesTouched`, where `touchTable` puts the descriptor of the object of a row
that is added or dropped. -/
def StaleTouched (s : Schema) : Prop :=
  ∀ o t, s.tableMap.find o = some t → t ∈ s.tablesTouched ∨ HasObjRow s t.obj


/-! #### Building the table descriptors (`Schema.cpp` 1972-2386)

`buildMaps` reads classes that are not among the sources: the flags of `ctx`,
the character sets of `locales`, `std::regex`, the tests of the record classes
(`isTable()`, ...) and the constants of the column types; they are the fields
of `BuildEnv`.  The texts pushed to `msgs` and the trace output take no part in
what is built; they are left out, and with them the argument `keysStr`.  A
text is the list of its characters, and two names are the same for `strcmp`
when they are the same text (a name holds no NUL character).  A pointer of a
secondary map is followed through the primary map; the turn of a pointer to a
record that is no longer stored is left out. -/

/-- Modelled from the spec: what `buildMaps` reads from `ctx`, `locales`,
`std::regex` and the record classes, none of them among the sources.
`regexMatch text pattern` is `regex_match(text, std::regex(pattern))`,
`adaptive` is `FLAG(REDO_FLAGS_ADAPTIVE_SCHEMA)`, `disableSupplementalLog` is
`DISABLE_CHECKS(DISABLE_CHECKS_SUPPLEMENTAL_LOG)`, `characterMap id` says
whether `locales->characterMap` has the id, `sysUserRowId` is the rowId of
`sysUserAdaptive`; the other fields are the constants and the tests of the
same name. -/
structure BuildEnv where
  regexMatch : String → String → Bool
  adaptive : Bool
  disableSupplementalLog : Bool
  OPTIONS_SYSTEM_TABLE : Nat
  SYS_COL_TYPE_VARCHAR : Nat
  SYS_COL_TYPE_CHAR : Nat
  SYS_COL_TYPE_CLOB : Nat
  characterMap : Nat → Bool
  sysUserRowId : RowId
  objIsDropped : SysObj → Bool
  objIsTable : SysObj → Bool
  objIsTemporary : SysObj → Bool
  tabIsBinary : SysTab → Bool
  tabIsIot : SysTab → Bool
  tabIsNested : SysTab → Bool
  tabIsPartitioned : SysTab → Bool
  tabIsInitial : SysTab → Bool
  stgIsCompressed : SysDeferredStg → Bool
  cdefIsPK : SysCDef → Bool
  cdefIsSupplementalLog : SysCDef → Bool
  cdefIsSupplementalLogPK : SysCDef → Bool
  cdefIsSupplementalLogAll : SysCDef → Bool
  userIsSuppLogAll : SysUser → Bool
  userIsSuppLogPrimary : SysUser → Bool
  colIsNullable : SysCol → Bool
  colIsInvisible : SysCol → Bool
  colIsStoredAsLob : SysCol → Bool
  colIsConstraint : SysCol → Bool
  colIsNested : SysCol → Bool
  colIsUnused : SysCol → Bool
  colIsAdded : SysCol → Bool
  colIsGuard : SysCol → Bool

/-- The arguments of `buildMaps` that take part in what is built: `owner` and
`table` are the texts of the two regular expressions. -/
structure BuildArgs where
  owner : String
  table : String
  keys : List String
  options : Nat
  suppLogDbPrimary : Bool
  suppLogDbAll : Bool
  defaultCharacterMapId : Nat
  defaultCharacterNcharMapId : Nat

/-- What a call of `buildMaps` leaves behind: the schema, the warnings reported
through `ctx->warning` and the exception if one was raised. -/
structure BuildResult where
  schema : Schema
  warnings : List (Nat × String)
  ret : Except DataException Unit

/-- The entries from `m.upper_bound(first)` on: those from the first key that is
greater than `first`. -/
def Map.upperBound {K V : Type} [KeyOrder K] (m : Map K V) (first : K) : List (K × V) :=
  m.entries.dropWhile fun e => !KeyOrder.before first e.1

/-- The entries that the loop
`for (it = m.upper_bound(first); it != m.end() && cond(it->first); ++it)` visits. -/
def Map.scan {K V : Type} [KeyOrder K] (m : Map K V) (first : K) (cond : K → Bool) :
    List (K × V) :=
  (m.upperBound first).takeWhile fun e => cond e.1

/-- Modelled from the spec: `OracleTable::addTablePartition(obj, dataObj)` puts the
two numbers, packed into one, at the end of `tablePartitions` (the loop of
`addTableToDict` unpacks them). -/
def OracleTable.addTablePartition (table : OracleTable) (obj dataObj : Nat) : OracleTable :=
  { table with tablePartitions := table.tablePartitions ++ [packObj2 obj dataObj] }

/-- Modelled from the spec: `OracleTable::addColumn(column)` puts the column at the
end of `columns`. -/
def OracleTable.addColumn (table : OracleTable) (column : OracleColumn) : OracleTable :=
  { table with columns := table.columns ++ [column] }

/-- Modelled from the spec: `OracleTable::addLob(lob)` puts the LOB at the end of
`lobs`. -/
def OracleTable.addLob (table : OracleTable) (lob : OracleLob) : OracleTable :=
  { table with lobs := table.lobs ++ [lob] }

/-- Modelled from the spec: `OracleLob::addIndex(dataObj)` puts the data object at
the end of `lobIndexes`. -/
def OracleLob.addIndex (lob : OracleLob) (dataObj : Nat) : OracleLob :=
  { lob with lobIndexes := lob.lobIndexes ++ [dataObj] }

/-- Modelled from the spec: `OracleLob::addPartition(dataObj, pageSize)` puts the
data object at the end of `lobPartitions` and records its page size. -/
def OracleLob.addPartition (lob : OracleLob) (dataObj pageSize : Nat) : OracleLob :=
  { lob with
    lobPartitions := lob.lobPartitions ++ [dataObj]
    lobPageMap := lob.lobPageMap ++ [(dataObj, pageSize)] }

/-- The loops over TABPART$ and over TABCOMPART$ with TABSUBPART$ (Schema.cpp
2073-2098), run when `sysTab->isPartitioned()`. -/
def addPartitionsOf (s : Schema) (obj : Nat) (table : OracleTable) : OracleTable :=
  let table :=
    (s.sysTabPartMapKey.scan ⟨obj, 0⟩ fun k => decide (k.bo = obj)).foldl
      (fun table e =>
        match s.sysTabPartMapRowId.find e.2 with
        | none => table
        | some sysTabPart => table.addTablePartition sysTabPart.obj sysTabPart.dataObj)
      table
  (s.sysTabComPartMapKey.scan ⟨obj, 0⟩ fun k => decide (k.bo = obj)).foldl
    (fun table e =>
      match s.sysTabComPartMapRowId.find e.2 with
      | none => table
      | some sysTabComPart =>
        (s.sysTabSubPartMapKey.scan ⟨sysTabComPart.obj, 0⟩
            fun k => decide (k.pObj = sysTabComPart.obj)).foldl
          (fun table e2 =>
            match s.sysTabSubPartMapRowId.find e2.2 with
            | none => table
            | some sysTabSubPart =>
              table.addTablePartition sysTabSubPart.obj sysTabSubPart.dataObj)
          table)
    table

/-- The flags `suppLogTablePrimary` and `suppLogTableAll`. -/
structure SuppLogTable where
  primary : Bool
  all : Bool

/-- The loop over CDEF$ that sets `suppLogTablePrimary` and `suppLogTableAll`
(Schema.cpp 2100-2116). -/
def suppLogOf (env : BuildEnv) (args : BuildArgs) (s : Schema) (sysObj : SysObj)
    (sysUser : SysUser) : SuppLogTable :=
  if !env.disableSupplementalLog && decide (args.options &&& env.OPTIONS_SYSTEM_TABLE = 0) &&
      !args.suppLogDbAll && !env.userIsSuppLogAll sysUser then
    (s.sysCDefMapKey.scan ⟨sysObj.obj, 0⟩ fun k => decide (k.obj = sysObj.obj)).foldl
      (fun flags e =>
        match s.sysCDefMapRowId.find e.2 with
        | none => flags
        | some sysCDef =>
          if env.cdefIsSupplementalLogPK sysCDef then { flags with primary := true }
          else if env.cdefIsSupplementalLogAll sysCDef then { flags with all := true }
          else flags)
      { primary := false, all := false }
  else { primary := false, all := false }

/-- The counters `numPk` and `numSup` of a column with the warnings of the loop
that counts them. -/
structure ConstraintCount where
  numPk : Int
  numSup : Int
  warnings : List (Nat × String)

/-- The loop over CCOL$ of a column (Schema.cpp 2151-2170).  Modelled from the
spec: `spare1.isZero()`, of a class that is not among the sources, says that
both words are zero. -/
def countConstraints (env : BuildEnv) (s : Schema) :
    List (SysCColKey × RowId) → ConstraintCount → ConstraintCount
  | [], c => c
  | e :: rest, c =>
    match s.sysCColMapRowId.find e.2 with
    | none => countConstraints env s rest c
    | some sysCCol =>
      match s.sysCDefMapCon.find sysCCol.con with
      | none =>
        countConstraints env s rest
          { c with warnings := c.warnings ++
              [(70005, "data in SYS.CDEF$ missing for CON#: " ++ toString sysCCol.con)] }
      | some h =>
        match s.sysCDefMapRowId.find h with
        | none => countConstraints env s rest c
        | some sysCDef =>
          let numPk := if env.cdefIsPK sysCDef then c.numPk + 1 else c.numPk
          let numSup :=
            if decide (sysCCol.spare1 = (0, 0)) && env.cdefIsSupplementalLog sysCDef then
              c.numSup + 1
            else c.numSup
          countConstraints env s rest { c with numPk := numPk, numSup := numSup }

/-- The loop `for (const auto& key : keys)` of a column (Schema.cpp 2178-2186):
whether a key has the name of the column. -/
def keyListed (name : String) : List String → Bool
  | [] => false
  | key :: keys => if name = key then true else keyListed name keys

/-- The state of the loop over the columns: the descriptor, `keysCnt`,
`supLogColMissing`, the warnings, and the exception if one was raised. -/
structure ColumnScan where
  table : OracleTable
  keysCnt : Int
  supLogColMissing : Bool
  warnings : List (Nat × String)
  ret : Except DataException Unit

/-- The character map id of a column (Schema.cpp 2132-2141). -/
def charmapIdOf (env : BuildEnv) (args : BuildArgs) (sysCol : SysCol) : Nat :=
  if sysCol.charsetForm = 1 then
    if sysCol.type = env.SYS_COL_TYPE_CLOB then args.defaultCharacterNcharMapId
    else args.defaultCharacterMapId
  else if sysCol.charsetForm = 2 then args.defaultCharacterNcharMapId
  else sysCol.charsetId

/-- The loop over the columns of a table (Schema.cpp 2118-2203), over the entries
of `sysColMapSeg` that it visits. -/
def scanColumns (env : BuildEnv) (args : BuildArgs) (s : Schema) (sysObj : SysObj)
    (sysUser : SysUser) (suppLogTablePrimary : Bool) :
    List (SysColSeg × RowId) → ColumnScan → ColumnScan
  | [], c => c
  | e :: rest, c =>
    match s.sysColMapRowId.find e.2 with
    | none => scanColumns env args s sysObj sysUser suppLogTablePrimary rest c
    | some sysCol =>
      let guardSeg : Int :=
        match s.sysEColMapKey.find ⟨sysObj.obj, sysCol.segCol⟩ with
        | none => -1
        | some h =>
          match s.sysEColMapRowId.find h with
          | none => -1
          | some sysECol => sysECol.guardId
      let charmapId := charmapIdOf env args sysCol
      if (decide (sysCol.type = env.SYS_COL_TYPE_VARCHAR) ||
          decide (sysCol.type = env.SYS_COL_TYPE_CHAR) ||
          decide (sysCol.type = env.SYS_COL_TYPE_CLOB)) && !env.characterMap charmapId then
        { c with ret := .error ⟨50026⟩ }
      else
        let n := countConstraints env s
          (s.sysCColMapKey.scan ⟨sysObj.obj, sysCol.intCol, 0⟩
            fun k => decide (k.obj = sysObj.obj) && decide (k.intCol = sysCol.intCol))
          { numPk := 0, numSup := 0, warnings := [] }
        let numSup : Int :=
          if args.keys = [] then n.numSup
          else if decide (n.numPk > 0) &&
              (suppLogTablePrimary || env.userIsSuppLogPrimary sysUser ||
                args.suppLogDbPrimary) then 1
          else n.numSup
        let listed := keyListed sysCol.name args.keys
        let numPk : Int :=
          if args.keys = [] then n.numPk else if listed then 1 else 0
        let keysCnt := if listed then c.keysCnt + 1 else c.keysCnt
        let missing :=
          if args.keys = [] then decide (n.numPk > 0) && decide (numSup = 0)
          else listed && decide (numSup = 0)
        let column : OracleColumn :=
          { col := sysCol.col, guardSeg := guardSeg, segCol := sysCol.segCol,
            name := sysCol.name, type := sysCol.type, length := sysCol.length,
            precision := sysCol.precision, scale := sysCol.scale, numPk := numPk,
            charsetId := charmapId, nullable := env.colIsNullable sysCol,
            invisible := env.colIsInvisible sysCol, storedAsLob := env.colIsStoredAsLob sysCol,
            constraint := env.colIsConstraint sysCol, nested := env.colIsNested sysCol,
            unused := env.colIsUnused sysCol, added := env.colIsAdded sysCol,
            guard := env.colIsGuard sysCol }
        scanColumns env args s sysObj sysUser suppLogTablePrimary rest
          { table := c.table.addColumn column
            keysCnt := keysCnt
            supLogColMissing := c.supLogColMissing || missing
            warnings := c.warnings ++ n.warnings
            ret := .ok () }

/-- A number as `std::setw(w) << std::setfill('0')` writes it: zeros in front up
to the width `w`. -/
def zeroPad (w : Nat) (text : String) : String :=
  ⟨List.replicate (w - text.length) (Char.ofNat 48) ++ text.data⟩

/-- The name `SYS_IL<obj:10>C<intCol:5>$$` of the index of a LOB (Schema.cpp
2226-2229). -/
def lobIndexName (obj : Nat) (intCol : Int) : String :=
  "SYS_IL" ++ zeroPad 10 (toString obj) ++ "C" ++ zeroPad 5 (toString intCol) ++ "$$"

/-- A LOB under construction with the warnings and the exception if one was
raised. -/
structure LobBuild where
  lob : OracleLob
  warnings : List (Nat × String)
  ret : Except DataException Unit

/-- A loop over LOBFRAG$ rows (Schema.cpp 2254-2268 and 2279-2292): the data
object of each fragment becomes a partition of the LOB. -/
def addLobFrags (s : Schema) : List (SysLobFragKey × RowId) → LobBuild → LobBuild
  | [], b => b
  | e :: rest, b =>
    match s.sysLobFragMapRowId.find e.2 with
    | none => addLobFrags s rest b
    | some sysLobFrag =>
      match s.sysObjMapObj.find sysLobFrag.fragObj with
      | none => { b with ret := .error ⟨50028⟩ }
      | some h =>
        match s.sysObjMapRowId.find h with
        | none => addLobFrags s rest b
        | some sysObjFrag =>
          let size := getLobBlockSize s sysLobFrag.ts
          addLobFrags s rest
            { b with
              lob := b.lob.addPartition sysObjFrag.dataObj size.value
              warnings := b.warnings ++ size.warnings }

/-- The loop over LOBCOMPPART$ with its loop over LOBFRAG$ (Schema.cpp
2270-2293). -/
def addLobCompParts (s : Schema) : List (SysLobCompPartKey × RowId) → LobBuild → LobBuild
  | [], b => b
  | e :: rest, b =>
    match s.sysLobCompPartMapRowId.find e.2 with
    | none => addLobCompParts s rest b
    | some sysLobCompPart =>
      let b := addLobFrags s
        (s.sysLobFragMapKey.scan ⟨sysLobCompPart.partObj, 0⟩
          fun k => decide (k.parentObj = sysLobCompPart.partObj)) b
      match b.ret with
      | .error _ => b
      | .ok _ => addLobCompParts s rest b

/-- The state of the loop over the LOBs of a table. -/
structure LobScan where
  table : OracleTable
  warnings : List (Nat × String)
  ret : Except DataException Unit

/-- The loop over LOB$ of a table (Schema.cpp 2206-2301), over the entries of
`sysLobMapKey` that it visits. -/
def scanLobs (env : BuildEnv) (s : Schema) (sysObj : SysObj) (sysTab : SysTab) :
    List (SysLobKey × RowId) → LobScan → LobScan
  | [], c => c
  | e :: rest, c =>
    match s.sysLobMapRowId.find e.2 with
    | none => scanLobs env s sysObj sysTab rest c
    | some sysLob =>
      match s.sysObjMapObj.find sysLob.lObj with
      | none => { c with ret := .error ⟨50027⟩ }
      | some h =>
        match s.sysObjMapRowId.find h with
        | none => scanLobs env s sysObj sysTab rest c
        | some sysObjOfLob =>
          let lob : OracleLob :=
            { obj := sysLob.obj, dataObj := sysObjOfLob.dataObj, lObj := sysLob.lObj,
              col := sysLob.col, intCol := sysLob.intCol, lobIndexes := [],
              lobPartitions := [], lobPageMap := [] }
          let name := lobIndexName sysObj.obj sysLob.intCol
          let lob :=
            (s.sysObjMapName.scan ⟨sysObj.owner, name, 0, 0⟩
                fun k => decide (k.name = name) && decide (k.owner = sysObj.owner)).foldl
              (fun lob e2 => if e2.1.dataObj = 0 then lob else lob.addIndex e2.1.dataObj) lob
          let warnings :=
            if lob.lobIndexes.length = 0 then
              [(60021, "missing LOB index for LOB (OBJ#: " ++ toString sysObj.obj ++
                ", DATAOBJ#: " ++ toString sysLob.lObj ++ ", COL#: " ++
                toString sysLob.intCol ++ ")")]
            else []
          let b : LobBuild := { lob := lob, warnings := c.warnings ++ warnings, ret := .ok () }
          let b :=
            if env.tabIsPartitioned sysTab then
              let b := addLobFrags s
                (s.sysLobFragMapKey.scan ⟨sysLob.lObj, 0⟩
                  fun k => decide (k.parentObj = sysLob.lObj)) b
              match b.ret with
              | .error _ => b
              | .ok _ =>
                addLobCompParts s
                  (s.sysLobCompPartMapKey.scan ⟨sysLob.lObj, 0⟩
                    fun k => decide (k.lObj = sysLob.lObj)) b
            else b
          match b.ret with
          | .error err => { c with warnings := b.warnings, ret := .error err }
          | .ok _ =>
            let size := getLobBlockSize s sysLob.ts
            scanLobs env s sysObj sysTab rest
              { table := c.table.addLob (b.lob.addPartition b.lob.dataObj size.value)
                warnings := b.warnings ++ size.warnings
                ret := .ok () }

/-- The ten digits that the loop `sysLobConstraintName[16 - j] = (obj2 % 10) + '0'`
writes (Schema.cpp 2305-2309): the last `n` decimal digits of `obj2`. -/
def objDigits : Nat → Nat → List Char
  | 0, _ => []
  | n + 1, obj2 => objDigits n (obj2 / 10) ++ [Char.ofNat (obj2 % 10 + 48)]

/-- The text of `sysLobConstraintName` for a table: `SYS_LOB`, ten digits of
the obj, `C00000$$`. -/
def sysLobConstraintName (obj : Nat) : String :=
  "SYS_LOB" ++ ⟨objDigits 10 obj⟩ ++ "C00000$$"

/-- The test before the decoding (Schema.cpp 2317-2318): the name has 25
characters, its first 18 are those of `sysLobConstraintName` and it ends in
`$$`. -/
def isLobName (constraintName name : String) : Bool :=
  decide (name.length = 25) && decide (name.data.take 18 = constraintName.data.take 18) &&
    decide (name.data.get? 23 = some (Char.ofNat 36)) &&
    decide (name.data.get? 24 = some (Char.ofNat 36))

/-- The loop that decodes the column id (Schema.cpp 2320-2325):
`col += colStr[18 + j] - '0'; col *= 10;` for `j` from 0 to 4. -/
def decodeCol (colStr : String) : Int :=
  ((colStr.data.drop 18).take 5).foldl (fun col c => (col + ((c.toNat : Int) - 48)) * 10) 0

/-- The LOB that `oracleLob->addPartition(...)` is called on, in the list of the
LOBs of the table: the first one with `intCol == col`. -/
def addPartitionAt (col : Int) (dataObj pageSize : Nat) : List OracleLob → List OracleLob
  | [] => []
  | lob :: lobs =>
    if lob.intCol = col then lob.addPartition dataObj pageSize :: lobs
    else lob :: addPartitionAt col dataObj pageSize lobs

/-- One turn of the loop of the alternate discovery for an OBJ$ row whose name
passes the test (Schema.cpp 2320-2343): the column id is decoded, a LOB with
that `intCol` is looked for among the LOBs of the table and made if there is
none, and the data object of the row becomes a partition of it. -/
def addLobOfName (obj : Nat) (sysObjLob : SysObj) (pageSize : Nat) (table : OracleTable) :
    OracleTable :=
  let col := decodeCol sysObjLob.name
  let table :=
    match table.lobs.find? fun lob => decide (lob.intCol = col) with
    | some _ => table
    | none =>
      table.addLob
        { obj := obj, dataObj := 0, lObj := 0, col := col, intCol := col, lobIndexes := [],
          lobPartitions := [], lobPageMap := [] }
  { table with lobs := addPartitionAt col sysObjLob.dataObj pageSize table.lobs }

/-- The loop of the alternate discovery (Schema.cpp 2311-2344), over the entries
of `sysObjMapName` from the upper bound on. -/
def scanLobNames (s : Schema) (sysObj : SysObj) (sysTab : SysTab) :
    List (SysObjNameKey × RowId) → LobScan → LobScan
  | [], c => c
  | e :: rest, c =>
    match s.sysObjMapRowId.find e.2 with
    | none => scanLobNames s sysObj sysTab rest c
    | some sysObjLob =>
      if !isLobName (sysLobConstraintName sysObj.obj) sysObjLob.name then
        scanLobNames s sysObj sysTab rest c
      else
        let size := getLobBlockSize s sysTab.ts
        scanLobNames s sysObj sysTab rest
          { c with
            table := addLobOfName sysObj.obj sysObjLob size.value c.table
            warnings := c.warnings ++ size.warnings }

/-- A descriptor that has been built, with the warnings, or the exception that
was raised on the way. -/
structure TableBuild where
  table : OracleTable
  warnings : List (Nat × String)
  ret : Except DataException Unit

/-- The entries of `sysColMapSeg` that the loop over the columns of a table
visits. -/
def columnEntries (s : Schema) (obj : Nat) : List (SysColSeg × RowId) :=
  s.sysColMapSeg.scan ⟨obj, 0⟩ fun k => decide (k.obj = obj)

/-- The names of the columns of a table: those of the COL$ rows that the loop
over the columns visits, the rows of the table with `segCol > 0`. -/
def columnNames (s : Schema) (obj : Nat) : List String :=
  ((columnEntries s obj).filterMap fun e => s.sysColMapRowId.find e.2).map fun sysCol =>
    sysCol.name

/-- The loop over the columns of a table, from the new descriptor on. -/
def columnsOf (env : BuildEnv) (args : BuildArgs) (s : Schema) (sysObj : SysObj)
    (sysUser : SysUser) (sysTab : SysTab) : ColumnScan :=
  let table : OracleTable :=
    { obj := sysObj.obj, dataObj := sysTab.dataObj, user := sysObj.owner,
      cluCols := sysTab.cluCols, options := args.options, owner := sysUser.name,
      name := sysObj.name, columns := [], lobs := [], tablePartitions := [] }
  let table := if env.tabIsPartitioned sysTab then addPartitionsOf s sysObj.obj table else table
  let suppLog := suppLogOf env args s sysObj sysUser
  scanColumns env args s sysObj sysUser suppLog.primary (columnEntries s sysObj.obj)
    { table := table, keysCnt := 0, supLogColMissing := false, warnings := [], ret := .ok () }

/-- The two loops over the LOBs of a table (Schema.cpp 2205-2345), run when the
table is no system table. -/
def lobsOf (env : BuildEnv) (args : BuildArgs) (s : Schema) (sysObj : SysObj)
    (sysTab : SysTab) (c : ColumnScan) : LobScan :=
  if args.options &&& env.OPTIONS_SYSTEM_TABLE = 0 then
    let l := scanLobs env s sysObj sysTab
      (s.sysLobMapKey.scan ⟨sysObj.obj, 0⟩ fun k => decide (k.obj = sysObj.obj))
      { table := c.table, warnings := c.warnings, ret := .ok () }
    match l.ret with
    | .error _ => l
    | .ok _ =>
      scanLobNames s sysObj sysTab
        (s.sysObjMapName.upperBound ⟨sysObj.owner, sysLobConstraintName sysObj.obj, 0, 0⟩) l
  else { table := c.table, warnings := c.warnings, ret := .ok () }

/-- The part of a turn of `buildMaps` from `new OracleTable(...)` to the check of
the keys (Schema.cpp 2062-2350), for a table that was not passed over. -/
def buildTable (env : BuildEnv) (args : BuildArgs) (s : Schema) (sysObj : SysObj)
    (sysUser : SysUser) (sysTab : SysTab) : TableBuild :=
  let c := columnsOf env args s sysObj sysUser sysTab
  match c.ret with
  | .error e => { table := c.table, warnings := c.warnings, ret := .error e }
  | .ok _ =>
    let l := lobsOf env args s sysObj sysTab c
    match l.ret with
    | .error e => { table := l.table, warnings := l.warnings, ret := .error e }
    | .ok _ =>
      if (args.keys.length : Int) ≠ c.keysCnt then
        { table := l.table, warnings := l.warnings, ret := .error ⟨10041⟩ }
      else { table := l.table, warnings := l.warnings, ret := .ok () }

/-- What the tests at the start of a turn of `buildMaps` find: the table is
passed over, or it is built from these records.  The schema is the one the
tests leave. -/
inductive Checked where
  | skip (s : Schema)
  | build (s : Schema) (sysObj : SysObj) (sysUser : SysUser) (sysTab : SysTab)
deriving DecidableEq

/-- The schema that the tests leave. -/
def Checked.schema : Checked → Schema
  | .skip s => s
  | .build s _ _ _ => s

/-- The look-up `sysDeferredStgMapObj[obj]` (Schema.cpp 2050): `operator[]` of
`std::map` enters a null pointer at a key that the map does not have. -/
def deferredStgAt (s : Schema) (obj : Nat) : Schema × Option RowId :=
  match s.sysDeferredStgMapObj.find obj with
  | some h => (s, h)
  | none => ({ s with sysDeferredStgMapObj := s.sysDeferredStgMapObj.set obj none }, none)

/-- The user that a turn of `buildMaps` takes for a table (Schema.cpp 1989-2001):
the USER$ row of the owner if its name matches, `sysUserAdaptive` under the
name `USER_<obj>` if the owner has no USER$ row and the adaptive-schema flag is
set; `none` is `continue`. -/
def userOf (env : BuildEnv) (args : BuildArgs) (s : Schema) (sysObj : SysObj) : Option SysUser :=
  match s.sysUserMapUser.find sysObj.owner with
  | none =>
    if !env.adaptive then none
    else
      some { rowId := env.sysUserRowId, user := 0, name := "USER_" ++ toString sysObj.obj,
             spare1 := (0, 0), single := false }
  | some h =>
    match s.sysUserMapRowId.find h with
    | none => none
    | some sysUser => if !env.regexMatch sysUser.name args.owner then none else some sysUser

/-- The tests at the start of a turn of `buildMaps` up to the one for nested
tables (Schema.cpp 1981-2043), which read the schema only: the records that
the table is built from; `none` is `continue`. -/
def checkRecords (env : BuildEnv) (args : BuildArgs) (s : Schema) (obj : Nat) :
    Option (SysObj × SysUser × SysTab) :=
  match objOfObj s obj with
  | none => none
  | some sysObj =>
    if env.objIsDropped sysObj || !env.objIsTable sysObj ||
        !env.regexMatch sysObj.name args.table then none
    else
      match userOf env args s sysObj with
      | none => none
      | some sysUser =>
        match s.tableMap.find sysObj.obj with
        | some _ => none
        | none =>
          match (s.sysTabMapObj.find sysObj.obj).bind s.sysTabMapRowId.find with
          | none => none
          | some sysTab =>
            if env.tabIsBinary sysTab then none
            else if env.tabIsIot sysTab then none
            else if env.objIsTemporary sysObj then none
            else if env.tabIsNested sysTab then none
            else some (sysObj, sysUser, sysTab)

/-- The tests at the start of a turn of `buildMaps` (Schema.cpp 1981-2060): those
that read the schema only, then the one for compressed tables. -/
def checkObj (env : BuildEnv) (args : BuildArgs) (s : Schema) (obj : Nat) : Checked :=
  match checkRecords env args s obj with
  | none => .skip s
  | some (sysObj, sysUser, sysTab) =>
    if env.tabIsPartitioned sysTab then .build s sysObj sysUser sysTab
    else if env.tabIsInitial sysTab then
      let d := deferredStgAt s sysObj.obj
      match d.2.bind d.1.sysDeferredStgMapRowId.find with
      | some sysDeferredStg =>
        if env.stgIsCompressed sysDeferredStg then .skip d.1
        else .build d.1 sysObj sysUser sysTab
      | none => .build d.1 sysObj sysUser sysTab
    else .build s sysObj sysUser sysTab

/-- One turn of the loop of `buildMaps`, for one touched identifier (Schema.cpp
1980-2385). -/
def buildMapsObj (env : BuildEnv) (args : BuildArgs) (s : Schema) (obj : Nat) : BuildResult :=
  match checkObj env args s obj with
  | .skip s => { schema := s, warnings := [], ret := .ok () }
  | .build s sysObj sysUser sysTab =>
    let t := buildTable env args s sysObj sysUser sysTab
    match t.ret with
    | .error e => { schema := s, warnings := t.warnings, ret := .error e }
    | .ok _ =>
      let r := addTableToDict s t.table
      { schema := r.schema, warnings := t.warnings, ret := r.ret }

/-- The loop `for (auto obj: identifiersTouched)` of `buildMaps`. -/
def buildMapsLoop (env : BuildEnv) (args : BuildArgs) :
    List Nat → Schema → List (Nat × String) → BuildResult
  | [], s, warnings => { schema := s, warnings := warnings, ret := .ok () }
  | obj :: rest, s, warnings =>
    let r := buildMapsObj env args s obj
    match r.ret with
    | .error e => { schema := r.schema, warnings := warnings ++ r.warnings, ret := .error e }
    | .ok _ => buildMapsLoop env args rest r.schema (warnings ++ r.warnings)

/-- The method `Schema::buildMaps` (Schema.cpp 1972-2386). -/
def buildMaps (env : BuildEnv) (args : BuildArgs) (s : Schema) : BuildResult :=
  buildMapsLoop env args s.identifiersTouched s []


/-! #### Samples for `buildMaps` -/

/-- An environment for the scenarios: a regular expression without operators
matches its own text, the character sets 873 and 2000 are known, the column
types are those of the database (VARCHAR 1, CHAR 96, CLOB 112), a table has
type 2, and the tests read the first word of the flags or of the property. -/
def sampleEnv : BuildEnv :=
  { regexMatch := fun text pattern => decide (text = pattern)
    adaptive := false
    disableSupplementalLog := false
    OPTIONS_SYSTEM_TABLE := 4
    SYS_COL_TYPE_VARCHAR := 1
    SYS_COL_TYPE_CHAR := 96
    SYS_COL_TYPE_CLOB := 112
    characterMap := fun id => decide (id = 873) || decide (id = 2000)
    sysUserRowId := ""
    objIsDropped := fun o => decide (o.flags.1 = 128)
    objIsTable := fun o => decide (o.type = 2)
    objIsTemporary := fun o => decide (o.flags.1 = 2)
    tabIsBinary := fun t => decide (t.property.1 = 1)
    tabIsIot := fun t => decide (t.property.1 = 64)
    tabIsNested := fun t => decide (t.property.1 = 8192)
    tabIsPartitioned := fun t => decide (t.property.1 = 32)
    tabIsInitial := fun t => decide (t.flags.1 = 1)
    stgIsCompressed := fun d => decide (d.flagsStg.1 = 4)
    cdefIsPK := fun c => decide (c.type = 2)
    cdefIsSupplementalLog := fun c => decide (c.type = 12)
    cdefIsSupplementalLogPK := fun c => decide (c.type = 14)
    cdefIsSupplementalLogAll := fun c => decide (c.type = 17)
    userIsSuppLogAll := fun u => decide (u.spare1.1 = 8)
    userIsSuppLogPrimary := fun u => decide (u.spare1.1 = 1)
    colIsNullable := fun c => !c.null_
    colIsInvisible := fun c => decide (c.property.1 = 32)
    colIsStoredAsLob := fun c => decide (c.property.1 = 128)
    colIsConstraint := fun c => decide (c.property.1 = 256)
    colIsNested := fun c => decide (c.property.1 = 1024)
    colIsUnused := fun c => decide (c.property.1 = 32768)
    colIsAdded := fun c => decide (c.property.1 = 1073741824)
    colIsGuard := fun c => decide (c.property.1 = 549755813888) }

/-- The same environment with the adaptive-schema flag set. -/
def sampleEnvAdaptive : BuildEnv := { sampleEnv with adaptive := true }

/-- The arguments of scenario S4:
`buildMaps("HR", "EMP", [], "", 0, msgs, false, false, 873, 2000)`. -/
def sampleArgs : BuildArgs :=
  { owner := "HR", table := "EMP", keys := [], options := 0, suppLogDbPrimary := false,
    suppLogDbAll := false, defaultCharacterMapId := 873, defaultCharacterNcharMapId := 2000 }

/-- The USER$ row of scenario S4. -/
def sampleUserHr : SysUser :=
  { rowId := "U10", user := 10, name := "HR", spare1 := (0, 0), single := false }

/-- The OBJ$ row of scenario S4. -/
def sampleObjEmp : SysObj :=
  { rowId := "O500", owner := 10, obj := 500, dataObj := 500, type := 2, name := "EMP",
    flags := (0, 0), single := false }

/-- The TAB$ row of scenario S4: not partitioned, not binary, no IOT; the table
is initial. -/
def sampleTabEmp : SysTab :=
  { rowId := "T500", obj := 500, dataObj := 500, ts := 4, cluCols := 0, flags := (1, 0),
    property := (0, 0) }

/-- The COL$ row of scenario S4. -/
def sampleColId : SysCol :=
  { rowId := "C500", obj := 500, col := 1, segCol := 1, intCol := 1, name := "ID", type := 1,
    length := 10, precision := -1, scale := -1, charsetForm := 1, charsetId := 873,
    null_ := false, property := (0, 0) }

/-- The DEFERRED_STG$ row of scenario S4: not compressed. -/
def sampleStgEmp : SysDeferredStg := { rowId := "S500", obj := 500, flagsStg := (0, 0) }

/-- The schema after the adds of the USER$, OBJ$, TAB$ and COL$ rows of scenario
S4; there is no DEFERRED_STG$ row. -/
def schemaEmp : Schema :=
  (dictAddStr sampleLimits
    (dictAddStr sampleLimits
      (dictAddStr sampleLimits
        (dictAddStr sampleLimits Schema.empty (.user sampleUserHr)).schema
        (.obj sampleObjEmp)).schema
      (.tab sampleTabEmp)).schema
    (.col sampleColId)).schema

/-- The schema of scenario S4: with the DEFERRED_STG$ row. -/
def schemaEmpStg : Schema := (dictAddStr sampleLimits schemaEmp (.deferredStg sampleStgEmp)).schema

/-- The column of the descriptor of scenario S4. -/
def sampleColumnId : OracleColumn :=
  { col := 1, guardSeg := -1, segCol := 1, name := "ID", type := 1, length := 10,
    precision := -1, scale := -1, numPk := 0, charsetId := 873, nullable := true,
    invisible := false, storedAsLob := false, constraint := false, nested := false,
    unused := false, added := false, guard := false }

/-- The descriptor of scenario S4. -/
def sampleTableEmp : OracleTable :=
  { obj := 500, dataObj := 500, user := 10, cluCols := 0, options := 0, owner := "HR",
    name := "EMP", columns := [sampleColumnId], lobs := [], tablePartitions := [] }

/-- The schema after the adds of the OBJ$ row and of the TAB$ row of scenario S4:
the owner of the table has no USER$ row. -/
def schemaObjTab : Schema :=
  (dictAddStr sampleLimits (dictAddStr sampleLimits Schema.empty (.obj sampleObjEmp)).schema
    (.tab sampleTabEmp)).schema

/-- The descriptor that `buildMaps` builds for that table when the
adaptive-schema flag is set. -/
def sampleTableAdaptive : OracleTable :=
  { obj := 500, dataObj := 500, user := 10, cluCols := 0, options := 0, owner := "USER_500",
    name := "EMP", columns := [], lobs := [], tablePartitions := [] }

/-- The arguments of scenario S4 with the key list `["X"]`. -/
def sampleArgsKey : BuildArgs := { sampleArgs with keys := ["X"] }

/-- The COL$ row of scenario S4 with a character set that `locales` does not
have. -/
def sampleColCharset : SysCol := { sampleColId with charsetForm := 0, charsetId := 999 }

/-- The schema of scenario S4 with that COL$ row in place of the one of the
scenario. -/
def schemaEmpCharset : Schema :=
  (dictAddStr sampleLimits
    (dictAddStr sampleLimits
      (dictAddStr sampleLimits
        (dictAddStr sampleLimits Schema.empty (.user sampleUserHr)).schema
        (.obj sampleObjEmp)).schema
      (.tab sampleTabEmp)).schema
    (.col sampleColCharset)).schema

/-- An OBJ$ row of the same owner with the name of a LOB of column 3 of table
500. -/
def sampleObjLob : SysObj :=
  { rowId := "O777", owner := 10, obj := 777, dataObj := 777, type := 21,
    name := "SYS_LOB0000000500C00003$$", flags := (0, 0), single := false }

/-- The schema of scenario S4 with that OBJ$ row. -/
def schemaEmpLob : Schema := (dictAddStr sampleLimits schemaEmpStg (.obj sampleObjLob)).schema

/-- The schema of scenario S4 with the descriptor of table 100 in the maps of the
descriptors and touched: the table has a LOB and two partitions and no OBJ$
row, as after the drop of its OBJ$ row. -/
def schemaEmpStale : Schema :=
  touchTable (addTableToDict schemaEmpStg sampleTableLob).schema 100


/-! ### The heap property -/

theorem slotId_update (mem : Ptr → BuilderMsg) (queue : Nat → Ptr) (i : Nat) (v : Ptr) (j : Nat) :
    slotId mem (Function.update queue i v) j = if j = i then (mem v).id else slotId mem queue j := by
  unfold slotId
  by_cases h : j = i
  · subst h; simp
  · simp [Function.update_noteq h, h]

theorem IsMinHeap.mono {mem : Ptr → BuilderMsg} {queue : Nat → Ptr} {n m : Nat}
    (h : IsMinHeap mem queue m) (hnm : n ≤ m) : IsMinHeap mem queue n := by
  intro i hi
  have := h i (by omega)
  exact ⟨fun h1 => this.1 (by omega), fun h2 => this.2 (by omega)⟩

theorem IsMinHeap.congr {mem mem' : Ptr → BuilderMsg} {queue : Nat → Ptr} {n : Nat}
    (h : IsMinHeap mem queue n) (hid : ∀ p, (mem' p).id = (mem p).id) :
    IsMinHeap mem' queue n := by
  intro i hi
  have := h i hi
  simpa [slotId, hid] using this

/-- The head of a heap has the least id. -/
theorem IsMinHeap.head_le {mem : Ptr → BuilderMsg} {queue : Nat → Ptr} {n : Nat}
    (h : IsMinHeap mem queue n) : ∀ i, i < n → slotId mem queue 0 ≤ slotId mem queue i := by
  intro i
  induction i using Nat.strong_induction_on with
  | _ i ih =>
    intro hi
    rcases Nat.eq_zero_or_pos i with h0 | hpos
    · subst h0; exact Nat.le_refl _
    · have hp : (i - 1) / 2 < i := by omega
      have hle := ih ((i - 1) / 2) hp (by omega)
      have hh := h ((i - 1) / 2) (by omega)
      rcases Nat.even_or_odd' (i - 1) with ⟨c, hc | hc⟩
      · have e : (i - 1) / 2 * 2 + 1 = i := by omega
        have := hh.1 (by omega)
        rw [e] at this
        exact Nat.le_trans hle this
      · have e : (i - 1) / 2 * 2 + 2 = i := by omega
        have := hh.2 (by omega)
        rw [e] at this
        exact Nat.le_trans hle this

/-- Moving the smaller child into its parent's slot keeps the heap property. -/
theorem IsMinHeap.moveUp {mem : Ptr → BuilderMsg} {queue : Nat → Ptr} {n i c : Nat}
    (h : IsMinHeap mem queue n) (hi : i < n) (hc : c < n) (hcc : c = i * 2 + 1 ∨ c = i * 2 + 2)
    (hsib : ∀ d, d < n → d = i * 2 + 1 ∨ d = i * 2 + 2 → slotId mem queue c ≤ slotId mem queue d) :
    IsMinHeap mem (Function.update queue i (queue c)) n := by
  have hic : slotId mem queue i ≤ slotId mem queue c := by
    rcases hcc with e | e
    · subst e; exact (h i hi).1 hc
    · subst e; exact (h i hi).2 hc
  have key : ∀ j d, j < n → d < n → d = j * 2 + 1 ∨ d = j * 2 + 2 →
      slotId mem (Function.update queue i (queue c)) j
        ≤ slotId mem (Function.update queue i (queue c)) d := by
    intro j d hj hd hjd
    have hjd' : slotId mem queue j ≤ slotId mem queue d := by
      rcases hjd with e | e
      · subst e; exact (h j hj).1 hd
      · subst e; exact (h j hj).2 hd
    rw [slotId_update, slotId_update]
    by_cases e1 : j = i
    · subst e1
      have : d ≠ j := by omega
      simp only [this, if_true, if_false]
      exact hsib d hd hjd
    · by_cases e2 : d = i
      · subst e2
        simp only [e1, if_true, if_false]
        exact Nat.le_trans hjd' hic
      · simp only [e1, e2, if_false]
        exact hjd'
  intro j hj
  exact ⟨fun h1 => key j _ hj h1 (Or.inl rfl), fun h2 => key j _ hj h2 (Or.inr rfl)⟩

/-- Writing `v` into slot `i` keeps the heap property when the id of `v` is at
least that of the slot's parent and at most those of the slot's children. -/
theorem IsMinHeap.place {mem : Ptr → BuilderMsg} {queue : Nat → Ptr} {n i : Nat} (v : Ptr)
    (h : IsMinHeap mem queue n)
    (hpar : i = 0 ∨ slotId mem queue i ≤ (mem v).id)
    (hch : ∀ d, d < n → d = i * 2 + 1 ∨ d = i * 2 + 2 → (mem v).id ≤ slotId mem queue d) :
    IsMinHeap mem (Function.update queue i v) n := by
  have key : ∀ j d, j < n → d < n → d = j * 2 + 1 ∨ d = j * 2 + 2 →
      slotId mem (Function.update queue i v) j ≤ slotId mem (Function.update queue i v) d := by
    intro j d hj hd hjd
    have hjd' : slotId mem queue j ≤ slotId mem queue d := by
      rcases hjd with e | e
      · subst e; exact (h j hj).1 hd
      · subst e; exact (h j hj).2 hd
    rw [slotId_update, slotId_update]
    by_cases e1 : j = i
    · subst e1
      have : d ≠ j := by omega
      simp only [this, if_true, if_false]
      exact hch d hd hjd
    · by_cases e2 : d = i
      · subst e2
        simp only [e1, if_true, if_false]
        rcases hpar with h0 | hp
        · omega
        · exact Nat.le_trans hjd' hp
      · simp only [e1, e2, if_false]
        exact hjd'
  intro j hj
  exact ⟨fun h1 => key j _ hj h1 (Or.inl rfl), fun h2 => key j _ hj h2 (Or.inr rfl)⟩


/-! ### The sift-down loop -/

/-- The loop keeps the heap property of `queue[0..size)` and stops, within the
fuel, at a slot whose parent has an id at most that of `queue[size]` and whose
children have ids at least that of `queue[size]`. -/
theorem siftLoop_heap (mem : Ptr → BuilderMsg) (size : Nat) :
    ∀ (fuel : Nat) (queue : Nat → Ptr) (i : Nat), size ≤ fuel + i → i < size →
      IsMinHeap mem queue size →
      (i = 0 ∨ slotId mem queue i ≤ slotId mem queue size) →
      (siftLoop mem size fuel queue i).2 < size ∧
      (siftLoop mem size fuel queue i).1 size = queue size ∧
      IsMinHeap mem (siftLoop mem size fuel queue i).1 size ∧
      ((siftLoop mem size fuel queue i).2 = 0 ∨
        slotId mem (siftLoop mem size fuel queue i).1 (siftLoop mem size fuel queue i).2
          ≤ slotId mem queue size) ∧
      (∀ d, d < size →
        d = (siftLoop mem size fuel queue i).2 * 2 + 1 ∨
          d = (siftLoop mem size fuel queue i).2 * 2 + 2 →
        slotId mem queue size ≤ slotId mem (siftLoop mem size fuel queue i).1 d) := by
  intro fuel
  induction fuel with
  | zero => intro queue i h1 h2; omega
  | succ fuel ih =>
    intro queue i hfuel hi hheap hpar
    have hsz : ∀ v, Function.update queue i v size = queue size :=
      fun v => Function.update_noteq (Nat.ne_of_gt hi) _ _
    have hszId : ∀ v, slotId mem (Function.update queue i v) size = slotId mem queue size := by
      intro v; unfold slotId; rw [hsz]
    -- one iteration that moves the child `c` up
    have move : ∀ c, c < size → c = i * 2 + 1 ∨ c = i * 2 + 2 →
        slotId mem queue c < slotId mem queue size →
        (∀ d, d < size → d = i * 2 + 1 ∨ d = i * 2 + 2 → slotId mem queue c ≤ slotId mem queue d) →
        (siftLoop mem size fuel (Function.update queue i (queue c)) c).2 < size ∧
        (siftLoop mem size fuel (Function.update queue i (queue c)) c).1 size = queue size ∧
        IsMinHeap mem (siftLoop mem size fuel (Function.update queue i (queue c)) c).1 size ∧
        ((siftLoop mem size fuel (Function.update queue i (queue c)) c).2 = 0 ∨
          slotId mem (siftLoop mem size fuel (Function.update queue i (queue c)) c).1
              (siftLoop mem size fuel (Function.update queue i (queue c)) c).2
            ≤ slotId mem queue size) ∧
        (∀ d, d < size →
          d = (siftLoop mem size fuel (Function.update queue i (queue c)) c).2 * 2 + 1 ∨
            d = (siftLoop mem size fuel (Function.update queue i (queue c)) c).2 * 2 + 2 →
          slotId mem queue size
            ≤ slotId mem (siftLoop mem size fuel (Function.update queue i (queue c)) c).1 d) := by
      intro c hc hcc hlt hsib
      have hci : c ≠ i := by omega
      have hcId : slotId mem (Function.update queue i (queue c)) c = slotId mem queue c := by
        rw [slotId_update]; simp [hci]
      have := ih (Function.update queue i (queue c)) c (by omega) hc
        (hheap.moveUp hi hc hcc hsib)
        (Or.inr (by rw [hcId, hszId]; exact Nat.le_of_lt hlt))
      rw [hsz, hszId] at this
      exact this
    rw [siftLoop, if_pos hi]
    by_cases hR : i * 2 + 2 < size ∧ (mem (queue (i * 2 + 2))).id < (mem (queue size)).id
    · rw [if_pos hR]
      by_cases hLR : (mem (queue (i * 2 + 1))).id < (mem (queue (i * 2 + 2))).id
      · rw [if_pos hLR]
        refine move (i * 2 + 1) (by omega) (Or.inl rfl) (Nat.lt_trans hLR hR.2) ?_
        intro d _ hd
        rcases hd with e | e
        · subst e; exact Nat.le_refl _
        · subst e; exact Nat.le_of_lt hLR
      · rw [if_neg hLR]
        refine move (i * 2 + 2) hR.1 (Or.inr rfl) hR.2 ?_
        intro d _ hd
        rcases hd with e | e
        · subst e; exact Nat.le_of_not_lt hLR
        · subst e; exact Nat.le_refl _
    · rw [if_neg hR]
      by_cases hL : i * 2 + 1 < size ∧ (mem (queue (i * 2 + 1))).id < (mem (queue size)).id
      · rw [if_pos hL]
        refine move (i * 2 + 1) hL.1 (Or.inl rfl) hL.2 ?_
        intro d hdlt hd
        rcases hd with e | e
        · subst e; exact Nat.le_refl _
        · subst e
          have : ¬ (mem (queue (i * 2 + 2))).id < (mem (queue size)).id := fun hh => hR ⟨hdlt, hh⟩
          exact Nat.le_of_lt (Nat.lt_of_lt_of_le hL.2 (Nat.le_of_not_lt this))
      · rw [if_neg hL]
        refine ⟨hi, rfl, hheap, hpar, ?_⟩
        intro d hdlt hd
        rcases hd with e | e
        · subst e
          exact Nat.le_of_not_lt fun hh => hL ⟨hdlt, hh⟩
        · subst e
          exact Nat.le_of_not_lt fun hh => hR ⟨hdlt, hh⟩

/-- Removing the head of a heap by `siftDown` leaves a heap. -/
theorem siftDown_heap {mem : Ptr → BuilderMsg} {queue : Nat → Ptr} {size : Nat}
    (hsize : 0 < size) (h : IsMinHeap mem queue size) :
    IsMinHeap mem (siftDown mem size queue) size := by
  obtain ⟨_, h2, h3, h4, h5⟩ :=
    siftLoop_heap mem size size queue 0 (by omega) hsize h (Or.inl rfl)
  unfold siftDown
  simp only
  rw [h2]
  exact IsMinHeap.place (queue size) h3 h4 h5


/-! ### The queue content as a list -/

theorem queueList_succ (queue : Nat → Ptr) (n : Nat) :
    queueList queue (n + 1) = queueList queue n ++ [queue n] := by
  simp [queueList, List.range_succ]

theorem mem_queueList {queue : Nat → Ptr} {n : Nat} {p : Ptr} :
    p ∈ queueList queue n ↔ ∃ i, i < n ∧ queue i = p := by
  simp [queueList]

theorem queueList_congr {f g : Nat → Ptr} {n : Nat} (h : ∀ i, i < n → f i = g i) :
    queueList f n = queueList g n := by
  unfold queueList
  apply List.map_congr_left
  intro i hi
  exact h i (List.mem_range.1 hi)

theorem queueList_update_ge (queue : Nat → Ptr) {n i : Nat} (v : Ptr) (h : n ≤ i) :
    queueList (Function.update queue i v) n = queueList queue n :=
  queueList_congr fun j hj => Function.update_noteq (by omega) _ _

/-- Exchanging two slots below `n` permutes `queue[0..n)`. -/
theorem queueList_perm_swap {f g : Nat → Ptr} {n i c : Nat} (hi : i < n) (hc : c < n)
    (hgi : g i = f c) (hgc : g c = f i) (hrest : ∀ j, j ≠ i → j ≠ c → g j = f j) :
    (queueList g n).Perm (queueList f n) := by
  have hg : g = f ∘ (Equiv.swap i c) := by
    funext j
    simp only [Function.comp, Equiv.swap_apply_def]
    by_cases h1 : j = i
    · subst h1; simp [hgi]
    · by_cases h2 : j = c
      · subst h2; simp [h1, hgc]
      · simp [h1, h2, hrest j h1 h2]
  have hp : ((List.range n).map (Equiv.swap i c)).Perm (List.range n) := by
    apply (List.perm_ext_iff_of_nodup
      ((List.nodup_range n).map (Equiv.swap i c).injective) (List.nodup_range n)).2
    intro a
    simp only [List.mem_map, List.mem_range]
    constructor
    · rintro ⟨b, hb, rfl⟩
      rw [Equiv.swap_apply_def]
      split_ifs <;> omega
    · intro ha
      refine ⟨Equiv.swap i c a, ?_, Equiv.swap_apply_self i c a⟩
      rw [Equiv.swap_apply_def]
      split_ifs <;> omega
  have := hp.map f
  rw [List.map_map] at this
  unfold queueList
  rw [hg]
  exact this

/-- The sift-down loop only moves elements: with `queue[size]` written into the
final slot, the content of `queue[0..size)` is that of the start with
`queue[size]` written into the initial slot, up to order. -/
theorem siftLoop_perm (mem : Ptr → BuilderMsg) (size : Nat) :
    ∀ (fuel : Nat) (queue : Nat → Ptr) (i : Nat), i < size →
      (siftLoop mem size fuel queue i).2 < size ∧
      (siftLoop mem size fuel queue i).1 size = queue size ∧
      (queueList (Function.update (siftLoop mem size fuel queue i).1
          (siftLoop mem size fuel queue i).2 (queue size)) size).Perm
        (queueList (Function.update queue i (queue size)) size) := by
  intro fuel
  induction fuel with
  | zero => intro queue i hi; exact ⟨hi, rfl, List.Perm.refl _⟩
  | succ fuel ih =>
    intro queue i hi
    have hsz : ∀ v, Function.update queue i v size = queue size :=
      fun v => Function.update_noteq (Nat.ne_of_gt hi) _ _
    have move : ∀ c, c < size → c = i * 2 + 1 ∨ c = i * 2 + 2 →
        (siftLoop mem size fuel (Function.update queue i (queue c)) c).2 < size ∧
        (siftLoop mem size fuel (Function.update queue i (queue c)) c).1 size = queue size ∧
        (queueList (Function.update (siftLoop mem size fuel (Function.update queue i (queue c)) c).1
            (siftLoop mem size fuel (Function.update queue i (queue c)) c).2 (queue size)) size).Perm
          (queueList (Function.update queue i (queue size)) size) := by
      intro c hc hcc
      have hci : c ≠ i := by omega
      obtain ⟨h1, h2, h3⟩ := ih (Function.update queue i (queue c)) c hc
      rw [hsz] at h2 h3
      refine ⟨h1, h2, h3.trans ?_⟩
      apply queueList_perm_swap hi hc
      · simp [Function.update_noteq (Ne.symm hci), Function.update_noteq hci]
      · simp
      · intro j hj1 hj2
        simp [Function.update_noteq hj1, Function.update_noteq hj2]
    rw [siftLoop, if_pos hi]
    split_ifs with hR hLR hL
    · exact move _ (by omega) (Or.inl rfl)
    · exact move _ hR.1 (Or.inr rfl)
    · exact move _ hL.1 (Or.inl rfl)
    · exact ⟨hi, rfl, List.Perm.refl _⟩

/-- The function `siftDown` leaves in `queue[0..size)` the former `queue[1..size]`, up to
order: the head is dropped and nothing else is lost or duplicated. -/
theorem siftDown_perm (mem : Ptr → BuilderMsg) (queue : Nat → Ptr) {size : Nat} (hsize : 0 < size) :
    (queue 0 :: queueList (siftDown mem size queue) size).Perm (queueList queue (size + 1)) := by
  obtain ⟨_, h2, h3⟩ := siftLoop_perm mem size size queue 0 hsize
  unfold siftDown
  simp only
  rw [h2]
  refine (List.Perm.cons _ h3).trans ?_
  obtain ⟨m, rfl⟩ : ∃ m, size = m + 1 := ⟨size - 1, by omega⟩
  rw [queueList_succ queue (m + 1)]
  have e : queueList (Function.update queue 0 (queue (m + 1))) (m + 1)
      = queue (m + 1) :: (List.range m).map (fun j => queue (j + 1)) := by
    simp [queueList, List.range_succ_eq_map, List.map_map, Function.comp_def]
  have e' : queueList queue (m + 1)
      = queue 0 :: (List.range m).map (fun j => queue (j + 1)) := by
    simp [queueList, List.range_succ_eq_map, List.map_map, Function.comp_def]
  rw [e, e']
  exact List.Perm.cons _ (List.perm_append_singleton _ _).symm


/-! ### The loop of `confirmMessage` -/

theorem queueList_head_le {mem : Ptr → BuilderMsg} {queue : Nat → Ptr} {n : Nat}
    (h : IsMinHeap mem queue n) {x : Ptr} (hx : x ∈ queueList queue n) :
    (mem (queue 0)).id ≤ (mem x).id := by
  obtain ⟨i, hi, rfl⟩ := mem_queueList.1 hx
  exact h.head_le i hi

/-- On a heap the loop of `confirmMessage` ends by its own exit condition within
`currentQueueSize` iterations, and meets `PopSpec`. -/
theorem popLoop_spec (k : Consts) (mem : Ptr → BuilderMsg) :
    ∀ (fuel : Nat) (s : PopState), s.currentQueueSize ≤ fuel →
      IsMinHeap mem s.queue s.currentQueueSize →
      ∃ ps, PopSpec k mem s (popLoop k mem fuel s) ps := by
  intro fuel
  induction fuel with
  | zero =>
    intro s hs hheap
    refine ⟨[], ?_⟩
    rw [popLoop]
    exact
      { popped_eq := by simp
        heap := hheap
        perm := by simp
        confirmed := by simp
        sorted := List.Pairwise.nil
        le_rest := by simp
        scn_eq := rfl
        maxId_eq := rfl
        done := fun h => by omega }
  | succ fuel ih =>
    intro s hs hheap
    rw [popLoop]
    by_cases hc : s.currentQueueSize > 0 ∧
        (mem (s.queue 0)).flags &&& k.OUTPUT_BUFFER_CONFIRMED ≠ 0
    · rw [if_pos hc]
      simp only
      by_cases h0 : s.currentQueueSize - 1 = 0
      · rw [if_pos h0]
        refine ⟨[s.queue 0], ?_⟩
        have h1 : s.currentQueueSize = 1 := by omega
        exact
          { popped_eq := rfl
            heap := fun i hi => absurd hi (by simp only [h0]; omega)
            perm := by simp [h1, h0, queueList, List.range_succ]
            confirmed := by
              intro m hm
              rw [List.mem_singleton.1 hm]
              exact hc.2
            sorted := List.pairwise_singleton _ _
            le_rest := by simp [h0, queueList]
            scn_eq := rfl
            maxId_eq := rfl
            done := fun h => absurd h.1 (by simp only [h0]; omega) }
      · rw [if_neg h0]
        obtain ⟨n, hn⟩ : ∃ n, s.currentQueueSize = n + 1 := ⟨s.currentQueueSize - 1, by omega⟩
        have hn' : s.currentQueueSize - 1 = n := by omega
        rw [hn']
        have hnpos : 0 < n := by omega
        have hheapn : IsMinHeap mem s.queue n := hheap.mono (by omega)
        obtain ⟨ps, hps⟩ := ih
          { queue := siftDown mem n s.queue, currentQueueSize := n,
            confirmedScn := (mem (s.queue 0)).scn, maxId := (mem (s.queue 0)).queueId,
            popped := s.popped ++ [s.queue 0] }
          (by simp only; omega) (siftDown_heap hnpos hheapn)
        have hperm : (queueList s.queue s.currentQueueSize).Perm
            (s.queue 0 :: queueList (siftDown mem n s.queue) n) := by
          rw [hn]; exact (siftDown_perm mem s.queue hnpos).symm
        refine ⟨s.queue 0 :: ps, ?_⟩
        exact
          { popped_eq := by rw [hps.popped_eq]; simp
            heap := hps.heap
            perm := hperm.trans (List.Perm.cons _ hps.perm)
            confirmed := by
              intro m hm
              rcases List.mem_cons.1 hm with e | e
              · rw [e]; exact hc.2
              · exact hps.confirmed m e
            sorted := by
              refine List.Pairwise.cons ?_ hps.sorted
              intro x hx
              apply queueList_head_le hheap
              apply hperm.symm.subset
              exact List.mem_cons_of_mem _ (hps.perm.symm.subset (List.mem_append_left _ hx))
            le_rest := by
              intro m hm x hx
              rcases List.mem_cons.1 hm with e | e
              · rw [e]
                apply queueList_head_le hheap
                apply hperm.symm.subset
                exact List.mem_cons_of_mem _ (hps.perm.symm.subset (List.mem_append_right _ hx))
              · exact hps.le_rest m e x hx
            scn_eq := hps.scn_eq
            maxId_eq := hps.maxId_eq
            done := hps.done }
    · rw [if_neg hc]
      refine ⟨[], ?_⟩
      exact
        { popped_eq := by simp
          heap := hheap
          perm := by simp
          confirmed := by simp
          sorted := List.Pairwise.nil
          le_rest := by simp
          scn_eq := rfl
          maxId_eq := rfl
          done := hc }


/-! ### Sequences of calls -/

/-- Appending an element whose id is at least every id of the heap keeps the
heap property. -/
theorem IsMinHeap.push {mem : Ptr → BuilderMsg} {queue : Nat → Ptr} {n : Nat} (v : Ptr)
    (h : IsMinHeap mem queue n) (hv : ∀ i, i < n → slotId mem queue i ≤ (mem v).id) :
    IsMinHeap mem (Function.update queue n v) (n + 1) := by
  have key : ∀ j d, j < n + 1 → d < n + 1 → d = j * 2 + 1 ∨ d = j * 2 + 2 →
      slotId mem (Function.update queue n v) j ≤ slotId mem (Function.update queue n v) d := by
    intro j d hj hd hjd
    have hjn : j ≠ n := by omega
    have hjlt : j < n := by omega
    rw [slotId_update, slotId_update]
    simp only [hjn, if_false]
    by_cases e : d = n
    · simp only [e, if_true]
      exact hv j hjlt
    · simp only [e, if_false]
      have hdlt : d < n := by omega
      rcases hjd with e | e
      · subst e; exact (h j hjlt).1 hdlt
      · subst e; exact (h j hjlt).2 hdlt
  intro j hj
  exact ⟨fun h1 => key j _ hj h1 (Or.inl rfl), fun h2 => key j _ hj h2 (Or.inr rfl)⟩

theorem confirm_mem_id (k : Consts) (mem : Ptr → BuilderMsg) (msg p : Ptr) :
    (Function.update mem msg { mem msg with flags := confirmFlags k (mem msg).flags } p).id
      = (mem p).id := by
  by_cases h : p = msg
  · subst h; simp
  · rw [Function.update_noteq h]

theorem confirm_mem_scn (k : Consts) (mem : Ptr → BuilderMsg) (msg p : Ptr) :
    (Function.update mem msg { mem msg with flags := confirmFlags k (mem msg).flags } p).scn
      = (mem p).scn := by
  by_cases h : p = msg
  · subst h; simp
  · rw [Function.update_noteq h]

theorem confirm_mem_queueId (k : Consts) (mem : Ptr → BuilderMsg) (msg p : Ptr) :
    (Function.update mem msg { mem msg with flags := confirmFlags k (mem msg).flags } p).queueId
      = (mem p).queueId := by
  by_cases h : p = msg
  · subst h; simp
  · rw [Function.update_noteq h]

theorem foldl_last_eq {α β : Type} (g : α → β) :
    ∀ (l : List α) (c : β) (m : α), l.getLast? = some m → l.foldl (fun _ x => g x) c = g m := by
  intro l
  induction l with
  | nil => intro c m h; simp at h
  | cons a l ih =>
    intro c m h
    rw [List.foldl_cons]
    cases l with
    | nil => simpa using congrArg g (by simpa using h)
    | cons b l' =>
      apply ih
      simpa [List.getLast?_cons_cons] using h

theorem Inv.start (k : Consts) (mem : Ptr → BuilderMsg) (w : Writer) : Inv k (Sys.start mem w) where
  heap := fun i hi => by simp [Sys.start] at hi
  perm := by simp [Sys.start, queueList]
  createdLt := List.Pairwise.nil
  poppedLe := List.Pairwise.nil
  poppedLeQueue := by simp [Sys.start]
  poppedConfirmed := by simp [Sys.start]
  lastScn := by simp [Sys.start]

theorem Inv.create {k : Consts} {s : Sys} (h : Inv k s) {msg : Ptr}
    (hmsg : (Op.create msg).Allowed s) : Inv k (s.step k (.create msg)) := by
  have hmsg' : ∀ c ∈ s.created, (s.mem c).id < (s.mem msg).id := hmsg
  have hql : queueList (createMessage s.writer msg).queue (createMessage s.writer msg).currentQueueSize
      = queueList s.writer.queue s.writer.currentQueueSize ++ [msg] := by
    simp only [createMessage]
    rw [queueList_succ, queueList_update_ge _ _ (Nat.le_refl _)]
    simp
  exact
    { heap := by
        simp only [Sys.step, createMessage]
        apply h.heap.push
        intro i hi
        apply Nat.le_of_lt
        apply hmsg'
        apply h.perm.symm.subset
        exact List.mem_append_right _ (mem_queueList.2 ⟨i, hi, rfl⟩)
      perm := by
        simp only [Sys.step]
        rw [hql, ← List.append_assoc]
        exact h.perm.append_right _
      createdLt := by
        simp only [Sys.step]
        rw [List.pairwise_append]
        refine ⟨h.createdLt, List.pairwise_singleton _ _, ?_⟩
        intro a ha b hb
        rw [List.mem_singleton.1 hb]
        exact hmsg' a ha
      poppedLe := h.poppedLe
      poppedLeQueue := by
        intro m hm x hx
        simp only [Sys.step] at hm hx ⊢
        rw [hql] at hx
        rcases List.mem_append.1 hx with hx | hx
        · exact h.poppedLeQueue m hm x hx
        · rw [List.mem_singleton.1 hx]
          exact Nat.le_of_lt (hmsg' m (h.perm.symm.subset (List.mem_append_left _ hm)))
      poppedConfirmed := h.poppedConfirmed
      lastScn := h.lastScn }


theorem Inv.nodup {k : Consts} {s : Sys} (h : Inv k s) : s.created.Nodup :=
  h.createdLt.imp fun hab e => by subst e; exact Nat.lt_irrefl _ hab

/-- A queued message has not been removed. -/
theorem Inv.queued_not_popped {k : Consts} {s : Sys} (h : Inv k s) {msg : Ptr}
    (hq : msg ∈ queueList s.writer.queue s.writer.currentQueueSize) : msg ∉ s.popped := by
  intro hp
  have hnd : (s.popped ++ queueList s.writer.queue s.writer.currentQueueSize).Nodup :=
    h.perm.nodup_iff.1 h.nodup
  exact List.disjoint_of_nodup_append hnd hp hq

/-- The loop of `confirmMessage`, run by `confirmMessageAt` on a heap. -/
theorem confirmMessageAt_spec (k : Consts) (mem : Ptr → BuilderMsg) (w : Writer) (msg : Ptr)
    (hheap : IsMinHeap mem w.queue w.currentQueueSize) :
    ∃ maxId, (confirmMessageAt k mem w msg).released = some maxId ∧
      PopSpec k (confirmMessageAt k mem w msg).mem
        { queue := w.queue, currentQueueSize := w.currentQueueSize,
          confirmedScn := w.confirmedScn, maxId := 0, popped := [] }
        { queue := (confirmMessageAt k mem w msg).writer.queue
          currentQueueSize := (confirmMessageAt k mem w msg).writer.currentQueueSize
          confirmedScn := (confirmMessageAt k mem w msg).writer.confirmedScn
          maxId := maxId
          popped := (confirmMessageAt k mem w msg).popped }
        (confirmMessageAt k mem w msg).popped := by
  obtain ⟨ps, hps⟩ := popLoop_spec k
    (Function.update mem msg { mem msg with flags := confirmFlags k (mem msg).flags })
    w.currentQueueSize
    { queue := w.queue, currentQueueSize := w.currentQueueSize,
      confirmedScn := w.confirmedScn, maxId := 0, popped := [] }
    (Nat.le_refl _) (hheap.congr (confirm_mem_id k mem msg))
  have e : (popLoop k
      (Function.update mem msg { mem msg with flags := confirmFlags k (mem msg).flags })
      w.currentQueueSize
      { queue := w.queue, currentQueueSize := w.currentQueueSize,
        confirmedScn := w.confirmedScn, maxId := 0, popped := [] }).popped = ps := by
    rw [hps.popped_eq]; rfl
  subst e
  exact ⟨_, rfl, hps⟩

theorem Inv.confirmAt {k : Consts} {s : Sys} (h : Inv k s) {msg : Ptr}
    (hq : msg ∈ queueList s.writer.queue s.writer.currentQueueSize) :
    Inv k
      { mem := (confirmMessageAt k s.mem s.writer msg).mem
        writer := (confirmMessageAt k s.mem s.writer msg).writer
        created := s.created
        popped := s.popped ++ (confirmMessageAt k s.mem s.writer msg).popped } := by
  obtain ⟨maxId, -, hps⟩ := confirmMessageAt_spec k s.mem s.writer msg h.heap
  have hid : ∀ p, ((confirmMessageAt k s.mem s.writer msg).mem p).id = (s.mem p).id :=
    confirm_mem_id k s.mem msg
  have hscn : ∀ p, ((confirmMessageAt k s.mem s.writer msg).mem p).scn = (s.mem p).scn :=
    confirm_mem_scn k s.mem msg
  have hne : ∀ p, p ≠ msg → (confirmMessageAt k s.mem s.writer msg).mem p = s.mem p :=
    fun p hp => Function.update_noteq hp _ _
  have hsub : ∀ x, x ∈ (confirmMessageAt k s.mem s.writer msg).popped ++
      queueList (confirmMessageAt k s.mem s.writer msg).writer.queue
        (confirmMessageAt k s.mem s.writer msg).writer.currentQueueSize →
      x ∈ queueList s.writer.queue s.writer.currentQueueSize :=
    fun x hx => hps.perm.symm.subset hx
  exact
    { heap := hps.heap
      perm := by
        rw [List.append_assoc]
        exact h.perm.trans (hps.perm.append_left _)
      createdLt := h.createdLt.imp fun hab => by rw [hid, hid]; exact hab
      poppedLe := by
        rw [List.pairwise_append]
        refine ⟨h.poppedLe.imp fun hab => by rw [hid, hid]; exact hab, hps.sorted, ?_⟩
        intro a ha b hb
        rw [hid, hid]
        exact h.poppedLeQueue a ha b (hsub b (List.mem_append_left _ hb))
      poppedLeQueue := by
        intro m hm x hx
        rcases List.mem_append.1 hm with hm | hm
        · rw [hid, hid]
          exact h.poppedLeQueue m hm x (hsub x (List.mem_append_right _ hx))
        · exact hps.le_rest m hm x hx
      poppedConfirmed := by
        intro m hm
        rcases List.mem_append.1 hm with hm | hm
        · have : m ≠ msg := fun e => h.queued_not_popped hq (e ▸ hm)
          have hc := h.poppedConfirmed m hm
          show IsConfirmed k (confirmMessageAt k s.mem s.writer msg).mem m
          unfold IsConfirmed at hc ⊢
          rw [hne m this]
          exact hc
        · exact hps.confirmed m hm
      lastScn := by
        intro m hm
        have hs := hps.scn_eq
        simp only at hs hm ⊢
        rw [hs]
        rcases List.eq_nil_or_concat (confirmMessageAt k s.mem s.writer msg).popped with e | ⟨l, a, e⟩
        · rw [e] at hm ⊢
          rw [List.append_nil] at hm
          rw [List.foldl_nil, hscn]
          exact h.lastScn m hm
        · rw [List.concat_eq_append] at e
          rw [e] at hm ⊢
          rw [← List.append_assoc, List.getLast?_concat] at hm
          exact foldl_last_eq _ _ _ _ (by rw [List.getLast?_concat]; exact hm) }

theorem Inv.step {k : Consts} {s : Sys} (h : Inv k s) {op : Op} (hop : op.Allowed s) :
    Inv k (s.step k op) := by
  cases op with
  | create msg => exact h.create hop
  | confirm msg =>
    cases msg with
    | some msg => exact h.confirmAt hop
    | none =>
      by_cases h0 : s.writer.currentQueueSize = 0
      · have e : s.step k (.confirm none) = s := by
          simp [Sys.step, confirmMessage, h0]
        rw [e]; exact h
      · have e : s.step k (.confirm none) =
            { mem := (confirmMessageAt k s.mem s.writer (s.writer.queue 0)).mem
              writer := (confirmMessageAt k s.mem s.writer (s.writer.queue 0)).writer
              created := s.created
              popped := s.popped ++ (confirmMessageAt k s.mem s.writer (s.writer.queue 0)).popped } := by
          simp [Sys.step, confirmMessage, h0]
        rw [e]
        exact h.confirmAt (mem_queueList.2 ⟨0, Nat.pos_of_ne_zero h0, rfl⟩)

theorem Inv.run {k : Consts} : ∀ (ops : List Op) {s : Sys}, Inv k s → ValidTrace k s ops →
    Inv k (s.run k ops) := by
  intro ops
  induction ops with
  | nil => intro s h _; exact h
  | cons op ops ih =>
    intro s h hv
    exact ih (h.step hv.1) hv.2


/-! ### The loops end within their fuel -/

/-- Whatever the queue holds, `siftLoop` started with at least `size - i` units
of fuel returns in a state in which the condition of the source loop is false:
the fuel does not cut the loop short. -/
theorem siftLoop_exit (mem : Ptr → BuilderMsg) (size : Nat) :
    ∀ (fuel : Nat) (queue : Nat → Ptr) (i : Nat), size ≤ fuel + i →
      ¬ ((siftLoop mem size fuel queue i).2 < size ∧
        (((siftLoop mem size fuel queue i).2 * 2 + 2 < size ∧
            (mem ((siftLoop mem size fuel queue i).1
                ((siftLoop mem size fuel queue i).2 * 2 + 2))).id
              < (mem ((siftLoop mem size fuel queue i).1 size)).id) ∨
          ((siftLoop mem size fuel queue i).2 * 2 + 1 < size ∧
            (mem ((siftLoop mem size fuel queue i).1
                ((siftLoop mem size fuel queue i).2 * 2 + 1))).id
              < (mem ((siftLoop mem size fuel queue i).1 size)).id))) := by
  intro fuel
  induction fuel with
  | zero =>
    intro queue i h
    rw [siftLoop]
    intro hh
    have := hh.1
    simp only at this
    omega
  | succ fuel ih =>
    intro queue i h
    rw [siftLoop]
    by_cases hi : i < size
    · rw [if_pos hi]
      by_cases hR : i * 2 + 2 < size ∧ (mem (queue (i * 2 + 2))).id < (mem (queue size)).id
      · rw [if_pos hR]
        by_cases hLR : (mem (queue (i * 2 + 1))).id < (mem (queue (i * 2 + 2))).id
        · rw [if_pos hLR]
          exact ih _ _ (by omega)
        · rw [if_neg hLR]
          exact ih _ _ (by omega)
      · rw [if_neg hR]
        by_cases hL : i * 2 + 1 < size ∧ (mem (queue (i * 2 + 1))).id < (mem (queue size)).id
        · rw [if_pos hL]
          exact ih _ _ (by omega)
        · rw [if_neg hL]
          rintro ⟨-, h1 | h1⟩
          · exact hR h1
          · exact hL h1
    · rw [if_neg hi]
      exact fun hh => hi hh.1

/-- Whatever the queue holds, `popLoop` started with at least
`currentQueueSize` units of fuel returns in a state in which the condition of
the source loop is false. -/
theorem popLoop_exit (k : Consts) (mem : Ptr → BuilderMsg) :
    ∀ (fuel : Nat) (s : PopState), s.currentQueueSize ≤ fuel →
      ¬ ((popLoop k mem fuel s).currentQueueSize > 0 ∧
        (mem ((popLoop k mem fuel s).queue 0)).flags &&& k.OUTPUT_BUFFER_CONFIRMED ≠ 0) := by
  intro fuel
  induction fuel with
  | zero =>
    intro s hs
    rw [popLoop]
    exact fun hh => absurd hh.1 (by omega)
  | succ fuel ih =>
    intro s hs
    rw [popLoop]
    by_cases h1 : s.currentQueueSize > 0 ∧
        (mem (s.queue 0)).flags &&& k.OUTPUT_BUFFER_CONFIRMED ≠ 0
    · rw [if_pos h1]
      simp only
      by_cases h2 : s.currentQueueSize - 1 = 0
      · rw [if_pos h2]
        exact fun hh => absurd hh.1 (by simp only [h2]; omega)
      · rw [if_neg h2]
        exact ih _ (by simp only; omega)
    · rw [if_neg h1]
      exact h1


/-! ### The dictionary store: look-up after assignment and removal -/

theorem findEntry_setEntry_self {K V : Type} [DecidableEq K] [KeyOrder K] (k : K) (v : V)
    (es : List (K × V)) : findEntry k (setEntry k v es) = some v := by
  induction es with
  | nil => simp [setEntry, findEntry]
  | cons e es ih =>
    obtain ⟨k', v'⟩ := e
    unfold setEntry
    by_cases h : k = k'
    · rw [if_pos h]; simp [findEntry]
    · rw [if_neg h]
      by_cases hb : KeyOrder.before k k' = true
      · rw [if_pos hb]; simp [findEntry]
      · rw [if_neg hb]; unfold findEntry; rw [if_neg h]; exact ih

theorem findEntry_setEntry_ne {K V : Type} [DecidableEq K] [KeyOrder K] (k k2 : K) (v : V)
    (es : List (K × V)) (hne : k2 ≠ k) : findEntry k2 (setEntry k v es) = findEntry k2 es := by
  induction es with
  | nil => simp [setEntry, findEntry, hne]
  | cons e es ih =>
    obtain ⟨k', v'⟩ := e
    unfold setEntry
    by_cases h : k = k'
    · rw [if_pos h]
      have h2 : k2 ≠ k' := h ▸ hne
      simp [findEntry, hne, h2]
    · rw [if_neg h]
      by_cases hb : KeyOrder.before k k' = true
      · rw [if_pos hb]
        conv_lhs => unfold findEntry
        rw [if_neg hne]
      · rw [if_neg hb]
        unfold findEntry
        by_cases h3 : k2 = k'
        · rw [if_pos h3, if_pos h3]
        · rw [if_neg h3, if_neg h3]; exact ih

theorem findEntry_filter_self {K V : Type} [DecidableEq K] (k : K) (es : List (K × V)) :
    findEntry k (es.filter fun e => decide (e.1 ≠ k)) = none := by
  induction es with
  | nil => simp [findEntry]
  | cons e es ih =>
    obtain ⟨k', v'⟩ := e
    by_cases h : k' = k
    · simp [List.filter, h]; simpa using ih
    · have h2 : k ≠ k' := fun e => h e.symm
      simp [List.filter, h, findEntry, h2]; simpa using ih

theorem findEntry_filter_ne {K V : Type} [DecidableEq K] (k k2 : K) (es : List (K × V))
    (hne : k2 ≠ k) : findEntry k2 (es.filter fun e => decide (e.1 ≠ k)) = findEntry k2 es := by
  induction es with
  | nil => simp [findEntry]
  | cons e es ih =>
    obtain ⟨k', v'⟩ := e
    by_cases h : k' = k
    · have h2 : k2 ≠ k' := h ▸ hne
      simp [List.filter, h, findEntry, hne]; simpa using ih
    · simp only [List.filter, h, ne_eq, not_false_eq_true, decide_True]
      unfold findEntry
      by_cases h3 : k2 = k'
      · rw [if_pos h3, if_pos h3]
      · rw [if_neg h3, if_neg h3]; simpa using ih

theorem filter_of_findEntry_none {K V : Type} [DecidableEq K] (k : K) (es : List (K × V))
    (hnone : findEntry k es = none) : (es.filter fun e => decide (e.1 ≠ k)) = es := by
  induction es with
  | nil => rfl
  | cons e es ih =>
    obtain ⟨k', v'⟩ := e
    unfold findEntry at hnone
    by_cases h : k = k'
    · rw [if_pos h] at hnone; cases hnone
    · rw [if_neg h] at hnone
      have h2 : k' ≠ k := fun e => h e.symm
      simp only [List.filter, h2, ne_eq, not_false_eq_true, decide_True]
      rw [← ih hnone]
      simp

theorem filter_setEntry_of_findEntry_none {K V : Type} [DecidableEq K] [KeyOrder K] (k : K)
    (v : V) (es : List (K × V)) (hnone : findEntry k es = none) :
    ((setEntry k v es).filter fun e => decide (e.1 ≠ k)) = es := by
  induction es with
  | nil => simp [setEntry]
  | cons e es ih =>
    obtain ⟨k', v'⟩ := e
    have hall := filter_of_findEntry_none k _ hnone
    unfold findEntry at hnone
    by_cases h : k = k'
    · rw [if_pos h] at hnone; cases hnone
    · rw [if_neg h] at hnone
      have h2 : k' ≠ k := fun e => h e.symm
      unfold setEntry
      rw [if_neg h]
      by_cases hb : KeyOrder.before k k' = true
      · rw [if_pos hb]
        rw [List.filter_cons_of_neg (by simp)]
        exact hall
      · rw [if_neg hb]
        rw [List.filter_cons_of_pos (by simpa using h2)]
        rw [ih hnone]

theorem Map.find_set_self {K V : Type} [DecidableEq K] [KeyOrder K] (m : Map K V) (k : K)
    (v : V) : (m.set k v).find k = some v :=
  findEntry_setEntry_self k v m.entries

theorem Map.find_set_ne {K V : Type} [DecidableEq K] [KeyOrder K] (m : Map K V) (k k2 : K)
    (v : V) (hne : k2 ≠ k) : (m.set k v).find k2 = m.find k2 :=
  findEntry_setEntry_ne k k2 v m.entries hne

theorem Map.find_erase_self {K V : Type} [DecidableEq K] (m : Map K V) (k : K) :
    (m.erase k).find k = none :=
  findEntry_filter_self k m.entries

theorem Map.find_erase_ne {K V : Type} [DecidableEq K] (m : Map K V) (k k2 : K)
    (hne : k2 ≠ k) : (m.erase k).find k2 = m.find k2 :=
  findEntry_filter_ne k k2 m.entries hne

theorem Map.erase_set_of_find_none {K V : Type} [DecidableEq K] [KeyOrder K] (m : Map K V)
    (k : K) (v : V) (hnone : m.find k = none) : (m.set k v).erase k = m := by
  cases m with
  | mk es =>
    show Map.mk _ = Map.mk es
    congr 1
    exact filter_setEntry_of_findEntry_none k v es hnone

theorem Map.find_empty {K V : Type} [DecidableEq K] (k : K) :
    (Map.empty : Map K V).find k = none := rfl


/-! ### The dictionary store: what the operations leave as it is

`touchTable` changes `identifiersTouched` and `tablesTouched` only. -/

@[simp] theorem touchTable_sysCColMapRowId (s : Schema) (obj : Nat) :
    (touchTable s obj).sysCColMapRowId = s.sysCColMapRowId := by
  unfold touchTable
  split
  · rfl
  · dsimp only
    split
    · rfl
    · split <;> rfl

@[simp] theorem touchTable_sysCColMapKey (s : Schema) (obj : Nat) :
    (touchTable s obj).sysCColMapKey = s.sysCColMapKey := by
  unfold touchTable
  split
  · rfl
  · dsimp only
    split
    · rfl
    · split <;> rfl

@[simp] theorem touchTable_sysCColSetTouched (s : Schema) (obj : Nat) :
    (touchTable s obj).sysCColSetTouched = s.sysCColSetTouched := by
  unfold touchTable
  split
  · rfl
  · dsimp only
    split
    · rfl
    · split <;> rfl

@[simp] theorem touchTable_sysCDefMapRowId (s : Schema) (obj : Nat) :
    (touchTable s obj).sysCDefMapRowId = s.sysCDefMapRowId := by
  unfold touchTable
  split
  · rfl
  · dsimp only
    split
    · rfl
    · split <;> rfl

@[simp] theorem touchTable_sysCDefMapKey (s : Schema) (obj : Nat) :
    (touchTable s obj).sysCDefMapKey = s.sysCDefMapKey := by
  unfold touchTable
  split
  · rfl
  · dsimp only
    split
    · rfl
    · split <;> rfl

@[simp] theorem touchTable_sysCDefMapCon (s : Schema) (obj : Nat) :
    (touchTable s obj).sysCDefMapCon = s.sysCDefMapCon := by
  unfold touchTable
  split
  · rfl
  · dsimp only
    split
    · rfl
    · split <;> rfl

@[simp] theorem touchTable_sysCDefSetTouched (s : Schema) (obj : Nat) :
    (touchTable s obj).sysCDefSetTouched = s.sysCDefSetTouched := by
  unfold touchTable
  split
  · rfl
  · dsimp only
    split
    · rfl
    · split <;> rfl

@[simp] theorem touchTable_sysColMapRowId (s : Schema) (obj : Nat) :
    (touchTable s obj).sysColMapRowId = s.sysColMapRowId := by
  unfold touchTable
  split
  · rfl
  · dsimp only
    split
    · rfl
    · split <;> rfl

@[simp] theorem touchTable_sysColMapSeg (s : Schema) (obj : Nat) :
    (touchTable s obj).sysColMapSeg = s.sysColMapSeg := by
  unfold touchTable
  split
  · rfl
  · dsimp only
    split
    · rfl
    · split <;> rfl

@[simp] theorem touchTable_sysColSetTouched (s : Schema) (obj : Nat) :
    (touchTable s obj).sysColSetTouched = s.sysColSetTouched := by
  unfold touchTable
  split
  · rfl
  · dsimp only
    split
    · rfl
    · split <;> rfl

@[simp] theorem touchTable_sysDeferredStgMapRowId (s : Schema) (obj : Nat) :
    (touchTable s obj).sysDeferredStgMapRowId = s.sysDeferredStgMapRowId := by
  unfold touchTable
  split
  · rfl
  · dsimp only
    split
    · rfl
    · split <;> rfl

@[simp] theorem touchTable_sysDeferredStgMapObj (s : Schema) (obj : Nat) :
    (touchTable s obj).sysDeferredStgMapObj = s.sysDeferredStgMapObj := by
  unfold touchTable
  split
  · rfl
  · dsimp only
    split
    · rfl
    · split <;> rfl

@[simp] theorem touchTable_sysDeferredStgSetTouched (s : Schema) (obj : Nat) :
    (touchTable s obj).sysDeferredStgSetTouched = s.sysDeferredStgSetTouched := by
  unfold touchTable
  split
  · rfl
  · dsimp only
    split
    · rfl
    · split <;> rfl

@[simp] theorem touchTable_sysEColMapRowId (s : Schema) (obj : Nat) :
    (touchTable s obj).sysEColMapRowId = s.sysEColMapRowId := by
  unfold touchTable
  split
  · rfl
  · dsimp only
    split
    · rfl
    · split <;> rfl

@[simp] theorem touchTable_sysEColMapKey (s : Schema) (obj : Nat) :
    (touchTable s obj).sysEColMapKey = s.sysEColMapKey := by
  unfold touchTable
  split
  · rfl
  · dsimp only
    split
    · rfl
    · split <;> rfl

@[simp] theorem touchTable_sysEColSetTouched (s : Schema) (obj : Nat) :
    (touchTable s obj).sysEColSetTouched = s.sysEColSetTouched := by
  unfold touchTable
  split
  · rfl
  · dsimp only
    split
    · rfl
    · split <;> rfl

@[simp] theorem touchTable_sysLobMapRowId (s : Schema) (obj : Nat) :
    (touchTable s obj).sysLobMapRowId = s.sysLobMapRowId := by
  unfold touchTable
  split
  · rfl
  · dsimp only
    split
    · rfl
    · split <;> rfl

@[simp] theorem touchTable_sysLobMapKey (s : Schema) (obj : Nat) :
    (touchTable s obj).sysLobMapKey = s.sysLobMapKey := by
  unfold touchTable
  split
  · rfl
  · dsimp only
    split
    · rfl
    · split <;> rfl

@[simp] theorem touchTable_sysLobMapLObj (s : Schema) (obj : Nat) :
    (touchTable s obj).sysLobMapLObj = s.sysLobMapLObj := by
  unfold touchTable
  split
  · rfl
  · dsimp only
    split
    · rfl
    · split <;> rfl

@[simp] theorem touchTable_sysLobSetTouched (s : Schema) (obj : Nat) :
    (touchTable s obj).sysLobSetTouched = s.sysLobSetTouched := by
  unfold touchTable
  split
  · rfl
  · dsimp only
    split
    · rfl
    · split <;> rfl

@[simp] theorem touchTable_sysLobCompPartMapRowId (s : Schema) (obj : Nat) :
    (touchTable s obj).sysLobCompPartMapRowId = s.sysLobCompPartMapRowId := by
  unfold touchTable
  split
  · rfl
  · dsimp only
    split
    · rfl
    · split <;> rfl

@[simp] theorem touchTable_sysLobCompPartMapKey (s : Schema) (obj : Nat) :
    (touchTable s obj).sysLobCompPartMapKey = s.sysLobCompPartMapKey := by
  unfold touchTable
  split
  · rfl
  · dsimp only
    split
    · rfl
    · split <;> rfl

@[simp] theorem touchTable_sysLobCompPartMapPartObj (s : Schema) (obj : Nat) :
    (touchTable s obj).sysLobCompPartMapPartObj = s.sysLobCompPartMapPartObj := by
  unfold touchTable
  split
  · rfl
  · dsimp only
    split
    · rfl
    · split <;> rfl

@[simp] theorem touchTable_sysLobCompPartSetTouched (s : Schema) (obj : Nat) :
    (touchTable s obj).sysLobCompPartSetTouched = s.sysLobCompPartSetTouched := by
  unfold touchTable
  split
  · rfl
  · dsimp only
    split
    · rfl
    · split <;> rfl

@[simp] theorem touchTable_sysLobFragMapRowId (s : Schema) (obj : Nat) :
    (touchTable s obj).sysLobFragMapRowId = s.sysLobFragMapRowId := by
  unfold touchTable
  split
  · rfl
  · dsimp only
    split
    · rfl
    · split <;> rfl

@[simp] theorem touchTable_sysLobFragMapKey (s : Schema) (obj : Nat) :
    (touchTable s obj).sysLobFragMapKey = s.sysLobFragMapKey := by
  unfold touchTable
  split
  · rfl
  · dsimp only
    split
    · rfl
    · split <;> rfl

@[simp] theorem touchTable_sysLobFragSetTouched (s : Schema) (obj : Nat) :
    (touchTable s obj).sysLobFragSetTouched = s.sysLobFragSetTouched := by
  unfold touchTable
  split
  · rfl
  · dsimp only
    split
    · rfl
    · split <;> rfl

@[simp] theorem touchTable_sysObjMapRowId (s : Schema) (obj : Nat) :
    (touchTable s obj).sysObjMapRowId = s.sysObjMapRowId := by
  unfold touchTable
  split
  · rfl
  · dsimp only
    split
    · rfl
    · split <;> rfl

@[simp] theorem touchTable_sysObjMapName (s : Schema) (obj : Nat) :
    (touchTable s obj).sysObjMapName = s.sysObjMapName := by
  unfold touchTable
  split
  · rfl
  · dsimp only
    split
    · rfl
    · split <;> rfl

@[simp] theorem touchTable_sysObjMapObj (s : Schema) (obj : Nat) :
    (touchTable s obj).sysObjMapObj = s.sysObjMapObj := by
  unfold touchTable
  split
  · rfl
  · dsimp only
    split
    · rfl
    · split <;> rfl

@[simp] theorem touchTable_sysObjSetTouched (s : Schema) (obj : Nat) :
    (touchTable s obj).sysObjSetTouched = s.sysObjSetTouched := by
  unfold touchTable
  split
  · rfl
  · dsimp only
    split
    · rfl
    · split <;> rfl

@[simp] theorem touchTable_sysTabMapRowId (s : Schema) (obj : Nat) :
    (touchTable s obj).sysTabMapRowId = s.sysTabMapRowId := by
  unfold touchTable
  split
  · rfl
  · dsimp only
    split
    · rfl
    · split <;> rfl

@[simp] theorem touchTable_sysTabMapObj (s : Schema) (obj : Nat) :
    (touchTable s obj).sysTabMapObj = s.sysTabMapObj := by
  unfold touchTable
  split
  · rfl
  · dsimp only
    split
    · rfl
    · split <;> rfl

@[simp] theorem touchTable_sysTabSetTouched (s : Schema) (obj : Nat) :
    (touchTable s obj).sysTabSetTouched = s.sysTabSetTouched := by
  unfold touchTable
  split
  · rfl
  · dsimp only
    split
    · rfl
    · split <;> rfl

@[simp] theorem touchTable_sysTabComPartMapRowId (s : Schema) (obj : Nat) :
    (touchTable s obj).sysTabComPartMapRowId = s.sysTabComPartMapRowId := by
  unfold touchTable
  split
  · rfl
  · dsimp only
    split
    · rfl
    · split <;> rfl

@[simp] theorem touchTable_sysTabComPartMapKey (s : Schema) (obj : Nat) :
    (touchTable s obj).sysTabComPartMapKey = s.sysTabComPartMapKey := by
  unfold touchTable
  split
  · rfl
  · dsimp only
    split
    · rfl
    · split <;> rfl

@[simp] theorem touchTable_sysTabComPartMapObj (s : Schema) (obj : Nat) :
    (touchTable s obj).sysTabComPartMapObj = s.sysTabComPartMapObj := by
  unfold touchTable
  split
  · rfl
  · dsimp only
    split
    · rfl
    · split <;> rfl

@[simp] theorem touchTable_sysTabComPartSetTouched (s : Schema) (obj : Nat) :
    (touchTable s obj).sysTabComPartSetTouched = s.sysTabComPartSetTouched := by
  unfold touchTable
  split
  · rfl
  · dsimp only
    split
    · rfl
    · split <;> rfl

@[simp] theorem touchTable_sysTabPartMapRowId (s : Schema) (obj : Nat) :
    (touchTable s obj).sysTabPartMapRowId = s.sysTabPartMapRowId := by
  unfold touchTable
  split
  · rfl
  · dsimp only
    split
    · rfl
    · split <;> rfl

@[simp] theorem touchTable_sysTabPartMapKey (s : Schema) (obj : Nat) :
    (touchTable s obj).sysTabPartMapKey = s.sysTabPartMapKey := by
  unfold touchTable
  split
  · rfl
  · dsimp only
    split
    · rfl
    · split <;> rfl

@[simp] theorem touchTable_sysTabPartSetTouched (s : Schema) (obj : Nat) :
    (touchTable s obj).sysTabPartSetTouched = s.sysTabPartSetTouched := by
  unfold touchTable
  split
  · rfl
  · dsimp only
    split
    · rfl
    · split <;> rfl

@[simp] theorem touchTable_sysTabSubPartMapRowId (s : Schema) (obj : Nat) :
    (touchTable s obj).sysTabSubPartMapRowId = s.sysTabSubPartMapRowId := by
  unfold touchTable
  split
  · rfl
  · dsimp only
    split
    · rfl
    · split <;> rfl

@[simp] theorem touchTable_sysTabSubPartMapKey (s : Schema) (obj : Nat) :
    (touchTable s obj).sysTabSubPartMapKey = s.sysTabSubPartMapKey := by
  unfold touchTable
  split
  · rfl
  · dsimp only
    split
    · rfl
    · split <;> rfl

@[simp] theorem touchTable_sysTabSubPartSetTouched (s : Schema) (obj : Nat) :
    (touchTable s obj).sysTabSubPartSetTouched = s.sysTabSubPartSetTouched := by
  unfold touchTable
  split
  · rfl
  · dsimp only
    split
    · rfl
    · split <;> rfl

@[simp] theorem touchTable_sysTsMapRowId (s : Schema) (obj : Nat) :
    (touchTable s obj).sysTsMapRowId = s.sysTsMapRowId := by
  unfold touchTable
  split
  · rfl
  · dsimp only
    split
    · rfl
    · split <;> rfl

@[simp] theorem touchTable_sysTsMapTs (s : Schema) (obj : Nat) :
    (touchTable s obj).sysTsMapTs = s.sysTsMapTs := by
  unfold touchTable
  split
  · rfl
  · dsimp only
    split
    · rfl
    · split <;> rfl

@[simp] theorem touchTable_sysUserMapRowId (s : Schema) (obj : Nat) :
    (touchTable s obj).sysUserMapRowId = s.sysUserMapRowId := by
  unfold touchTable
  split
  · rfl
  · dsimp only
    split
    · rfl
    · split <;> rfl

@[simp] theorem touchTable_sysUserMapUser (s : Schema) (obj : Nat) :
    (touchTable s obj).sysUserMapUser = s.sysUserMapUser := by
  unfold touchTable
  split
  · rfl
  · dsimp only
    split
    · rfl
    · split <;> rfl

@[simp] theorem touchTable_sysUserSetTouched (s : Schema) (obj : Nat) :
    (touchTable s obj).sysUserSetTouched = s.sysUserSetTouched := by
  unfold touchTable
  split
  · rfl
  · dsimp only
    split
    · rfl
    · split <;> rfl

@[simp] theorem touchTable_touched (s : Schema) (obj : Nat) :
    (touchTable s obj).touched = s.touched := by
  unfold touchTable
  split
  · rfl
  · dsimp only
    split
    · rfl
    · split <;> rfl

@[simp] theorem touchTable_tableMap (s : Schema) (obj : Nat) :
    (touchTable s obj).tableMap = s.tableMap := by
  unfold touchTable
  split
  · rfl
  · dsimp only
    split
    · rfl
    · split <;> rfl

@[simp] theorem touchTable_tablePartitionMap (s : Schema) (obj : Nat) :
    (touchTable s obj).tablePartitionMap = s.tablePartitionMap := by
  unfold touchTable
  split
  · rfl
  · dsimp only
    split
    · rfl
    · split <;> rfl

@[simp] theorem touchTable_lobPartitionMap (s : Schema) (obj : Nat) :
    (touchTable s obj).lobPartitionMap = s.lobPartitionMap := by
  unfold touchTable
  split
  · rfl
  · dsimp only
    split
    · rfl
    · split <;> rfl

@[simp] theorem touchTable_lobIndexMap (s : Schema) (obj : Nat) :
    (touchTable s obj).lobIndexMap = s.lobIndexMap := by
  unfold touchTable
  split
  · rfl
  · dsimp only
    split
    · rfl
    · split <;> rfl


/-! ### The dictionary store: the adds and drops kind by kind -/

theorem dictSysCColAdd_raises1 (s : Schema) (r : SysCCol) (x : RowId)
    (h1 : s.sysCColMapKey.find r.key = some x) : (dictSysCColAdd s r).ret = .error ⟨50024⟩ := by
  simp only [SysCCol.key] at h1
  simp only [dictSysCColAdd, h1]

theorem dictSysCColAdd_returns (s : Schema) (r : SysCCol) (h : (dictSysCColAdd s r).ret = .ok ()) :
    s.sysCColMapKey.find r.key = none := by
  cases h1 : s.sysCColMapKey.find r.key with
  | none => rfl
  | some x => rw [dictSysCColAdd_raises1 s r x h1] at h; cases h

theorem dictSysCColAdd_ok (s : Schema) (r : SysCCol)
    (h1 : s.sysCColMapKey.find r.key = none) :
    (dictSysCColAdd s r).ret = .ok () ∧
    (dictSysCColAdd s r).schema.sysCColMapRowId = s.sysCColMapRowId.set r.rowId r ∧
    (dictSysCColAdd s r).schema.sysCColMapKey = s.sysCColMapKey.set r.key r.rowId := by
  simp only [SysCCol.key] at h1 ⊢
  simp only [dictSysCColAdd, h1]
  refine ⟨?_, ?_, ?_⟩ <;>
    simp only [touchTable_sysCColMapRowId, touchTable_sysCColMapKey]

theorem dictSysCColAdd_frame (s : Schema) (r : SysCCol) (k : Kind) (hk : k ≠ Kind.CCOL) :
    SameMaps k s (dictSysCColAdd s r).schema := by
  cases k <;> first
    | exact absurd rfl hk
    | (simp only [SameMaps, dictSysCColAdd]
       (repeat' split) <;> simp)

theorem dictSysCColDrop_absent (s : Schema) (r : SysCCol) (hP : s.sysCColMapRowId.find r.rowId =
    none) :
    dictSysCColDrop s r = ⟨s, .ok ()⟩ := by
  simp only [dictSysCColDrop, hP]

theorem dictSysCColDrop_raises1 (s : Schema) (r : SysCCol) (x : SysCCol)
    (hP : s.sysCColMapRowId.find r.rowId = some x) (h1 : s.sysCColMapKey.find r.key = none) :
    (dictSysCColDrop s r).ret = .error ⟨50030⟩ := by
  simp only [SysCCol.key] at h1
  simp only [dictSysCColDrop, hP, h1]

theorem dictSysCColDrop_ok (s : Schema) (r x : SysCCol) (y1 : RowId)
    (hP : s.sysCColMapRowId.find r.rowId = some x)
    (h1 : s.sysCColMapKey.find r.key = some y1) :
    (dictSysCColDrop s r).ret = .ok () ∧
    (dictSysCColDrop s r).schema.sysCColMapRowId = s.sysCColMapRowId.erase r.rowId ∧
    (dictSysCColDrop s r).schema.sysCColMapKey = s.sysCColMapKey.erase r.key := by
  simp only [SysCCol.key] at h1 ⊢
  simp only [dictSysCColDrop, hP, h1]
  refine ⟨?_, ?_, ?_⟩ <;>
    simp only [touchTable_sysCColMapRowId, touchTable_sysCColMapKey]

theorem dictSysCColDrop_frame (s : Schema) (r : SysCCol) (k : Kind) (hk : k ≠ Kind.CCOL) :
    SameMaps k s (dictSysCColDrop s r).schema := by
  cases k <;> first
    | exact absurd rfl hk
    | (simp only [SameMaps, dictSysCColDrop]
       (repeat' split) <;> simp)

theorem dictSysCDefAdd_raises1 (s : Schema) (r : SysCDef) (x : RowId)
    (h1 : s.sysCDefMapKey.find r.key = some x) : (dictSysCDefAdd s r).ret = .error ⟨50024⟩ := by
  simp only [SysCDef.key] at h1
  simp only [dictSysCDefAdd, h1]

theorem dictSysCDefAdd_raises2 (s : Schema) (r : SysCDef) (x : RowId)
    (h2 : s.sysCDefMapCon.find r.con = some x) : (dictSysCDefAdd s r).ret = .error ⟨50024⟩ := by
  cases h1 : s.sysCDefMapKey.find r.key with
  | some y => exact dictSysCDefAdd_raises1 s r y h1
  | none =>
    simp only [SysCDef.key] at h1
    simp only [dictSysCDefAdd, h1, h2]

theorem dictSysCDefAdd_returns (s : Schema) (r : SysCDef) (h : (dictSysCDefAdd s r).ret = .ok ()) :
    s.sysCDefMapKey.find r.key = none ∧ s.sysCDefMapCon.find r.con = none := by
  refine ⟨?_, ?_⟩
  · cases h1 : s.sysCDefMapKey.find r.key with
    | none => rfl
    | some x => rw [dictSysCDefAdd_raises1 s r x h1] at h; cases h
  · cases h2 : s.sysCDefMapCon.find r.con with
    | none => rfl
    | some x => rw [dictSysCDefAdd_raises2 s r x h2] at h; cases h

theorem dictSysCDefAdd_ok (s : Schema) (r : SysCDef)
    (h1 : s.sysCDefMapKey.find r.key = none) (h2 : s.sysCDefMapCon.find r.con = none) :
    (dictSysCDefAdd s r).ret = .ok () ∧
    (dictSysCDefAdd s r).schema.sysCDefMapRowId = s.sysCDefMapRowId.set r.rowId r ∧
    (dictSysCDefAdd s r).schema.sysCDefMapKey = s.sysCDefMapKey.set r.key r.rowId ∧
    (dictSysCDefAdd s r).schema.sysCDefMapCon = s.sysCDefMapCon.set r.con r.rowId := by
  simp only [SysCDef.key] at h1 h2 ⊢
  simp only [dictSysCDefAdd, h1, h2]
  refine ⟨?_, ?_, ?_, ?_⟩ <;>
    simp only [touchTable_sysCDefMapRowId, touchTable_sysCDefMapKey, touchTable_sysCDefMapCon]

theorem dictSysCDefAdd_frame (s : Schema) (r : SysCDef) (k : Kind) (hk : k ≠ Kind.CDEF) :
    SameMaps k s (dictSysCDefAdd s r).schema := by
  cases k <;> first
    | exact absurd rfl hk
    | (simp only [SameMaps, dictSysCDefAdd]
       (repeat' split) <;> simp)

theorem dictSysCDefDrop_absent (s : Schema) (r : SysCDef) (hP : s.sysCDefMapRowId.find r.rowId =
    none) :
    dictSysCDefDrop s r = ⟨s, .ok ()⟩ := by
  simp only [dictSysCDefDrop, hP]

theorem dictSysCDefDrop_raises1 (s : Schema) (r : SysCDef) (x : SysCDef)
    (hP : s.sysCDefMapRowId.find r.rowId = some x) (h1 : s.sysCDefMapKey.find r.key = none) :
    (dictSysCDefDrop s r).ret = .error ⟨50030⟩ := by
  simp only [SysCDef.key] at h1
  simp only [dictSysCDefDrop, hP, h1]

theorem dictSysCDefDrop_raises2 (s : Schema) (r : SysCDef) (x : SysCDef)
    (hP : s.sysCDefMapRowId.find r.rowId = some x) (h2 : s.sysCDefMapCon.find r.con = none) :
    (dictSysCDefDrop s r).ret = .error ⟨50030⟩ := by
  cases h1 : s.sysCDefMapKey.find r.key with
  | none => exact dictSysCDefDrop_raises1 s r x hP h1
  | some y =>
    simp only [SysCDef.key] at h1
    simp only [dictSysCDefDrop, hP, h1, h2]

theorem dictSysCDefDrop_ok (s : Schema) (r x : SysCDef) (y1 : RowId) (y2 : RowId)
    (hP : s.sysCDefMapRowId.find r.rowId = some x)
    (h1 : s.sysCDefMapKey.find r.key = some y1) (h2 : s.sysCDefMapCon.find r.con = some y2) :
    (dictSysCDefDrop s r).ret = .ok () ∧
    (dictSysCDefDrop s r).schema.sysCDefMapRowId = s.sysCDefMapRowId.erase r.rowId ∧
    (dictSysCDefDrop s r).schema.sysCDefMapKey = s.sysCDefMapKey.erase r.key ∧
    (dictSysCDefDrop s r).schema.sysCDefMapCon = s.sysCDefMapCon.erase r.con := by
  simp only [SysCDef.key] at h1 h2 ⊢
  simp only [dictSysCDefDrop, hP, h1, h2]
  refine ⟨?_, ?_, ?_, ?_⟩ <;>
    simp only [touchTable_sysCDefMapRowId, touchTable_sysCDefMapKey, touchTable_sysCDefMapCon]

theorem dictSysCDefDrop_frame (s : Schema) (r : SysCDef) (k : Kind) (hk : k ≠ Kind.CDEF) :
    SameMaps k s (dictSysCDefDrop s r).schema := by
  cases k <;> first
    | exact absurd rfl hk
    | (simp only [SameMaps, dictSysCDefDrop]
       (repeat' split) <;> simp)

theorem dictSysDeferredStgAdd_raises1 (s : Schema) (r : SysDeferredStg) (x : Option RowId)
    (h1 : s.sysDeferredStgMapObj.find r.obj = some x) : (dictSysDeferredStgAdd s r).ret = .error
        ⟨50024⟩ := by
  simp only [dictSysDeferredStgAdd, h1]

theorem dictSysDeferredStgAdd_returns (s : Schema) (r : SysDeferredStg) (h : (dictSysDeferredStgAdd
    s r).ret = .ok ()) :
    s.sysDeferredStgMapObj.find r.obj = none := by
  cases h1 : s.sysDeferredStgMapObj.find r.obj with
  | none => rfl
  | some x => rw [dictSysDeferredStgAdd_raises1 s r x h1] at h; cases h

theorem dictSysDeferredStgAdd_ok (s : Schema) (r : SysDeferredStg)
    (h1 : s.sysDeferredStgMapObj.find r.obj = none) :
    (dictSysDeferredStgAdd s r).ret = .ok () ∧
    (dictSysDeferredStgAdd s r).schema.sysDeferredStgMapRowId = s.sysDeferredStgMapRowId.set r.rowId
        r ∧
    (dictSysDeferredStgAdd s r).schema.sysDeferredStgMapObj = s.sysDeferredStgMapObj.set r.obj (some
        r.rowId) := by
  simp only [dictSysDeferredStgAdd, h1]
  refine ⟨?_, ?_, ?_⟩ <;>
    simp only [touchTable_sysDeferredStgMapRowId, touchTable_sysDeferredStgMapObj]

theorem dictSysDeferredStgAdd_frame (s : Schema) (r : SysDeferredStg) (k : Kind) (hk : k ≠
    Kind.DEFERRED_STG) :
    SameMaps k s (dictSysDeferredStgAdd s r).schema := by
  cases k <;> first
    | exact absurd rfl hk
    | (simp only [SameMaps, dictSysDeferredStgAdd]
       (repeat' split) <;> simp)

theorem dictSysDeferredStgDrop_absent (s : Schema) (r : SysDeferredStg) (hP :
    s.sysDeferredStgMapRowId.find r.rowId = none) :
    dictSysDeferredStgDrop s r = ⟨s, .ok ()⟩ := by
  simp only [dictSysDeferredStgDrop, hP]

theorem dictSysDeferredStgDrop_raises1 (s : Schema) (r : SysDeferredStg) (x : SysDeferredStg)
    (hP : s.sysDeferredStgMapRowId.find r.rowId = some x) (h1 : s.sysDeferredStgMapObj.find r.obj =
        none) :
    (dictSysDeferredStgDrop s r).ret = .error ⟨50030⟩ := by
  simp only [dictSysDeferredStgDrop, hP, h1]

theorem dictSysDeferredStgDrop_ok (s : Schema) (r x : SysDeferredStg) (y1 : Option RowId)
    (hP : s.sysDeferredStgMapRowId.find r.rowId = some x)
    (h1 : s.sysDeferredStgMapObj.find r.obj = some y1) :
    (dictSysDeferredStgDrop s r).ret = .ok () ∧
    (dictSysDeferredStgDrop s r).schema.sysDeferredStgMapRowId = s.sysDeferredStgMapRowId.erase
        r.rowId ∧
    (dictSysDeferredStgDrop s r).schema.sysDeferredStgMapObj = s.sysDeferredStgMapObj.erase r.obj :=
        by
  simp only [dictSysDeferredStgDrop, hP, h1]
  refine ⟨?_, ?_, ?_⟩ <;>
    simp only [touchTable_sysDeferredStgMapRowId, touchTable_sysDeferredStgMapObj]

theorem dictSysDeferredStgDrop_frame (s : Schema) (r : SysDeferredStg) (k : Kind) (hk : k ≠
    Kind.DEFERRED_STG) :
    SameMaps k s (dictSysDeferredStgDrop s r).schema := by
  cases k <;> first
    | exact absurd rfl hk
    | (simp only [SameMaps, dictSysDeferredStgDrop]
       (repeat' split) <;> simp)

theorem dictSysEColAdd_raises1 (s : Schema) (r : SysECol) (x : RowId)
    (h1 : s.sysEColMapKey.find r.key = some x) : (dictSysEColAdd s r).ret = .error ⟨50024⟩ := by
  simp only [SysECol.key] at h1
  simp only [dictSysEColAdd, h1]

theorem dictSysEColAdd_returns (s : Schema) (r : SysECol) (h : (dictSysEColAdd s r).ret = .ok ()) :
    s.sysEColMapKey.find r.key = none := by
  cases h1 : s.sysEColMapKey.find r.key with
  | none => rfl
  | some x => rw [dictSysEColAdd_raises1 s r x h1] at h; cases h

theorem dictSysEColAdd_ok (s : Schema) (r : SysECol)
    (h1 : s.sysEColMapKey.find r.key = none) :
    (dictSysEColAdd s r).ret = .ok () ∧
    (dictSysEColAdd s r).schema.sysEColMapRowId = s.sysEColMapRowId.set r.rowId r ∧
    (dictSysEColAdd s r).schema.sysEColMapKey = s.sysEColMapKey.set r.key r.rowId := by
  simp only [SysECol.key] at h1 ⊢
  simp only [dictSysEColAdd, h1]
  refine ⟨?_, ?_, ?_⟩ <;>
    simp only [touchTable_sysEColMapRowId, touchTable_sysEColMapKey]

theorem dictSysEColAdd_frame (s : Schema) (r : SysECol) (k : Kind) (hk : k ≠ Kind.ECOL) :
    SameMaps k s (dictSysEColAdd s r).schema := by
  cases k <;> first
    | exact absurd rfl hk
    | (simp only [SameMaps, dictSysEColAdd]
       (repeat' split) <;> simp)

theorem dictSysEColDrop_absent (s : Schema) (r : SysECol) (hP : s.sysEColMapRowId.find r.rowId =
    none) :
    dictSysEColDrop s r = ⟨s, .ok ()⟩ := by
  simp only [dictSysEColDrop, hP]

theorem dictSysEColDrop_raises1 (s : Schema) (r : SysECol) (x : SysECol)
    (hP : s.sysEColMapRowId.find r.rowId = some x) (h1 : s.sysEColMapKey.find r.key = none) :
    (dictSysEColDrop s r).ret = .error ⟨50030⟩ := by
  simp only [SysECol.key] at h1
  simp only [dictSysEColDrop, hP, h1]

theorem dictSysEColDrop_ok (s : Schema) (r x : SysECol) (y1 : RowId)
    (hP : s.sysEColMapRowId.find r.rowId = some x)
    (h1 : s.sysEColMapKey.find r.key = some y1) :
    (dictSysEColDrop s r).ret = .ok () ∧
    (dictSysEColDrop s r).schema.sysEColMapRowId = s.sysEColMapRowId.erase r.rowId ∧
    (dictSysEColDrop s r).schema.sysEColMapKey = s.sysEColMapKey.erase r.key := by
  simp only [SysECol.key] at h1 ⊢
  simp only [dictSysEColDrop, hP, h1]
  refine ⟨?_, ?_, ?_⟩ <;>
    simp only [touchTable_sysEColMapRowId, touchTable_sysEColMapKey]

theorem dictSysEColDrop_frame (s : Schema) (r : SysECol) (k : Kind) (hk : k ≠ Kind.ECOL) :
    SameMaps k s (dictSysEColDrop s r).schema := by
  cases k <;> first
    | exact absurd rfl hk
    | (simp only [SameMaps, dictSysEColDrop]
       (repeat' split) <;> simp)

theorem dictSysLobAdd_raises1 (s : Schema) (r : SysLob) (x : RowId)
    (h1 : s.sysLobMapKey.find r.key = some x) : (dictSysLobAdd s r).ret = .error ⟨50024⟩ := by
  simp only [SysLob.key] at h1
  simp only [dictSysLobAdd, h1]

theorem dictSysLobAdd_raises2 (s : Schema) (r : SysLob) (x : RowId)
    (h2 : s.sysLobMapLObj.find r.lObj = some x) : (dictSysLobAdd s r).ret = .error ⟨50024⟩ := by
  cases h1 : s.sysLobMapKey.find r.key with
  | some y => exact dictSysLobAdd_raises1 s r y h1
  | none =>
    simp only [SysLob.key] at h1
    simp only [dictSysLobAdd, h1, h2]

theorem dictSysLobAdd_returns (s : Schema) (r : SysLob) (h : (dictSysLobAdd s r).ret = .ok ()) :
    s.sysLobMapKey.find r.key = none ∧ s.sysLobMapLObj.find r.lObj = none := by
  refine ⟨?_, ?_⟩
  · cases h1 : s.sysLobMapKey.find r.key with
    | none => rfl
    | some x => rw [dictSysLobAdd_raises1 s r x h1] at h; cases h
  · cases h2 : s.sysLobMapLObj.find r.lObj with
    | none => rfl
    | some x => rw [dictSysLobAdd_raises2 s r x h2] at h; cases h

theorem dictSysLobAdd_ok (s : Schema) (r : SysLob)
    (h1 : s.sysLobMapKey.find r.key = none) (h2 : s.sysLobMapLObj.find r.lObj = none) :
    (dictSysLobAdd s r).ret = .ok () ∧
    (dictSysLobAdd s r).schema.sysLobMapRowId = s.sysLobMapRowId.set r.rowId r ∧
    (dictSysLobAdd s r).schema.sysLobMapKey = s.sysLobMapKey.set r.key r.rowId ∧
    (dictSysLobAdd s r).schema.sysLobMapLObj = s.sysLobMapLObj.set r.lObj r.rowId := by
  simp only [SysLob.key] at h1 h2 ⊢
  simp only [dictSysLobAdd, h1, h2]
  refine ⟨?_, ?_, ?_, ?_⟩ <;>
    simp only [touchTable_sysLobMapRowId, touchTable_sysLobMapKey, touchTable_sysLobMapLObj]

theorem dictSysLobAdd_frame (s : Schema) (r : SysLob) (k : Kind) (hk : k ≠ Kind.LOB) :
    SameMaps k s (dictSysLobAdd s r).schema := by
  cases k <;> first
    | exact absurd rfl hk
    | (simp only [SameMaps, dictSysLobAdd]
       (repeat' split) <;> simp)

theorem dictSysLobDrop_absent (s : Schema) (r : SysLob) (hP : s.sysLobMapRowId.find r.rowId = none)
    :
    dictSysLobDrop s r = ⟨s, .ok ()⟩ := by
  simp only [dictSysLobDrop, hP]

theorem dictSysLobDrop_raises1 (s : Schema) (r : SysLob) (x : SysLob)
    (hP : s.sysLobMapRowId.find r.rowId = some x) (h1 : s.sysLobMapKey.find r.key = none) :
    (dictSysLobDrop s r).ret = .error ⟨50030⟩ := by
  simp only [SysLob.key] at h1
  simp only [dictSysLobDrop, hP, h1]

theorem dictSysLobDrop_raises2 (s : Schema) (r : SysLob) (x : SysLob)
    (hP : s.sysLobMapRowId.find r.rowId = some x) (h2 : s.sysLobMapLObj.find r.lObj = none) :
    (dictSysLobDrop s r).ret = .error ⟨50030⟩ := by
  cases h1 : s.sysLobMapKey.find r.key with
  | none => exact dictSysLobDrop_raises1 s r x hP h1
  | some y =>
    simp only [SysLob.key] at h1
    simp only [dictSysLobDrop, hP, h1, h2]

theorem dictSysLobDrop_ok (s : Schema) (r x : SysLob) (y1 : RowId) (y2 : RowId)
    (hP : s.sysLobMapRowId.find r.rowId = some x)
    (h1 : s.sysLobMapKey.find r.key = some y1) (h2 : s.sysLobMapLObj.find r.lObj = some y2) :
    (dictSysLobDrop s r).ret = .ok () ∧
    (dictSysLobDrop s r).schema.sysLobMapRowId = s.sysLobMapRowId.erase r.rowId ∧
    (dictSysLobDrop s r).schema.sysLobMapKey = s.sysLobMapKey.erase r.key ∧
    (dictSysLobDrop s r).schema.sysLobMapLObj = s.sysLobMapLObj.erase r.lObj := by
  simp only [SysLob.key] at h1 h2 ⊢
  simp only [dictSysLobDrop, hP, h1, h2]
  refine ⟨?_, ?_, ?_, ?_⟩ <;>
    simp only [touchTable_sysLobMapRowId, touchTable_sysLobMapKey, touchTable_sysLobMapLObj]

theorem dictSysLobDrop_frame (s : Schema) (r : SysLob) (k : Kind) (hk : k ≠ Kind.LOB) :
    SameMaps k s (dictSysLobDrop s r).schema := by
  cases k <;> first
    | exact absurd rfl hk
    | (simp only [SameMaps, dictSysLobDrop]
       (repeat' split) <;> simp)

theorem dictSysLobCompPartAdd_raises1 (s : Schema) (r : SysLobCompPart) (x : RowId)
    (h1 : s.sysLobCompPartMapKey.find r.key = some x) : (dictSysLobCompPartAdd s r).ret = .error
        ⟨50024⟩ := by
  simp only [SysLobCompPart.key] at h1
  simp only [dictSysLobCompPartAdd, h1]

theorem dictSysLobCompPartAdd_raises2 (s : Schema) (r : SysLobCompPart) (x : RowId)
    (h2 : s.sysLobCompPartMapPartObj.find r.partObj = some x) : (dictSysLobCompPartAdd s r).ret =
        .error ⟨50024⟩ := by
  cases h1 : s.sysLobCompPartMapKey.find r.key with
  | some y => exact dictSysLobCompPartAdd_raises1 s r y h1
  | none =>
    simp only [SysLobCompPart.key] at h1
    simp only [dictSysLobCompPartAdd, h1, h2]

theorem dictSysLobCompPartAdd_returns (s : Schema) (r : SysLobCompPart) (h : (dictSysLobCompPartAdd
    s r).ret = .ok ()) :
    s.sysLobCompPartMapKey.find r.key = none ∧ s.sysLobCompPartMapPartObj.find r.partObj = none :=
        by
  refine ⟨?_, ?_⟩
  · cases h1 : s.sysLobCompPartMapKey.find r.key with
    | none => rfl
    | some x => rw [dictSysLobCompPartAdd_raises1 s r x h1] at h; cases h
  · cases h2 : s.sysLobCompPartMapPartObj.find r.partObj with
    | none => rfl
    | some x => rw [dictSysLobCompPartAdd_raises2 s r x h2] at h; cases h

theorem dictSysLobCompPartAdd_ok (s : Schema) (r : SysLobCompPart)
    (h1 : s.sysLobCompPartMapKey.find r.key = none) (h2 : s.sysLobCompPartMapPartObj.find r.partObj
        = none) :
    (dictSysLobCompPartAdd s r).ret = .ok () ∧
    (dictSysLobCompPartAdd s r).schema.sysLobCompPartMapRowId = s.sysLobCompPartMapRowId.set r.rowId
        r ∧
    (dictSysLobCompPartAdd s r).schema.sysLobCompPartMapKey = s.sysLobCompPartMapKey.set r.key
        r.rowId ∧
    (dictSysLobCompPartAdd s r).schema.sysLobCompPartMapPartObj = s.sysLobCompPartMapPartObj.set
        r.partObj r.rowId := by
  simp only [SysLobCompPart.key] at h1 h2 ⊢
  simp only [dictSysLobCompPartAdd, h1, h2]
  refine ⟨?_, ?_, ?_, ?_⟩ <;> (repeat' split) <;>
    simp only [touchTable_sysLobCompPartMapRowId, touchTable_sysLobCompPartMapKey,
        touchTable_sysLobCompPartMapPartObj]

theorem dictSysLobCompPartAdd_frame (s : Schema) (r : SysLobCompPart) (k : Kind) (hk : k ≠
    Kind.LOBCOMPPART) :
    SameMaps k s (dictSysLobCompPartAdd s r).schema := by
  cases k <;> first
    | exact absurd rfl hk
    | (simp only [SameMaps, dictSysLobCompPartAdd]
       (repeat' split) <;> simp)

theorem dictSysLobCompPartDrop_absent (s : Schema) (r : SysLobCompPart) (hP :
    s.sysLobCompPartMapRowId.find r.rowId = none) :
    dictSysLobCompPartDrop s r = ⟨s, .ok ()⟩ := by
  simp only [dictSysLobCompPartDrop, hP]

theorem dictSysLobCompPartDrop_raises1 (s : Schema) (r : SysLobCompPart) (x : SysLobCompPart)
    (hP : s.sysLobCompPartMapRowId.find r.rowId = some x) (h1 : s.sysLobCompPartMapKey.find r.key =
        none) :
    (dictSysLobCompPartDrop s r).ret = .error ⟨50030⟩ := by
  simp only [SysLobCompPart.key] at h1
  simp only [dictSysLobCompPartDrop, hP, h1]

theorem dictSysLobCompPartDrop_raises2 (s : Schema) (r : SysLobCompPart) (x : SysLobCompPart)
    (hP : s.sysLobCompPartMapRowId.find r.rowId = some x) (h2 : s.sysLobCompPartMapPartObj.find
        r.partObj = none) :
    (dictSysLobCompPartDrop s r).ret = .error ⟨50030⟩ := by
  cases h1 : s.sysLobCompPartMapKey.find r.key with
  | none => exact dictSysLobCompPartDrop_raises1 s r x hP h1
  | some y =>
    simp only [SysLobCompPart.key] at h1
    simp only [dictSysLobCompPartDrop, hP, h1, h2]

theorem dictSysLobCompPartDrop_ok (s : Schema) (r x : SysLobCompPart) (y1 : RowId) (y2 : RowId)
    (hP : s.sysLobCompPartMapRowId.find r.rowId = some x)
    (h1 : s.sysLobCompPartMapKey.find r.key = some y1) (h2 : s.sysLobCompPartMapPartObj.find
        r.partObj = some y2) :
    (dictSysLobCompPartDrop s r).ret = .ok () ∧
    (dictSysLobCompPartDrop s r).schema.sysLobCompPartMapRowId = s.sysLobCompPartMapRowId.erase
        r.rowId ∧
    (dictSysLobCompPartDrop s r).schema.sysLobCompPartMapKey = s.sysLobCompPartMapKey.erase r.key ∧
    (dictSysLobCompPartDrop s r).schema.sysLobCompPartMapPartObj = s.sysLobCompPartMapPartObj.erase
        r.partObj := by
  simp only [SysLobCompPart.key] at h1 h2 ⊢
  simp only [dictSysLobCompPartDrop, hP, h1, h2]
  refine ⟨?_, ?_, ?_, ?_⟩ <;> (repeat' split) <;>
    simp only [touchTable_sysLobCompPartMapRowId, touchTable_sysLobCompPartMapKey,
        touchTable_sysLobCompPartMapPartObj]

theorem dictSysLobCompPartDrop_frame (s : Schema) (r : SysLobCompPart) (k : Kind) (hk : k ≠
    Kind.LOBCOMPPART) :
    SameMaps k s (dictSysLobCompPartDrop s r).schema := by
  cases k <;> first
    | exact absurd rfl hk
    | (simp only [SameMaps, dictSysLobCompPartDrop]
       (repeat' split) <;> simp)

theorem dictSysLobFragAdd_raises1 (s : Schema) (r : SysLobFrag) (x : RowId)
    (h1 : s.sysLobFragMapKey.find r.key = some x) : (dictSysLobFragAdd s r).ret = .error ⟨50024⟩ :=
        by
  simp only [SysLobFrag.key] at h1
  simp only [dictSysLobFragAdd, h1]

theorem dictSysLobFragAdd_returns (s : Schema) (r : SysLobFrag) (h : (dictSysLobFragAdd s r).ret =
    .ok ()) :
    s.sysLobFragMapKey.find r.key = none := by
  cases h1 : s.sysLobFragMapKey.find r.key with
  | none => rfl
  | some x => rw [dictSysLobFragAdd_raises1 s r x h1] at h; cases h

theorem dictSysLobFragAdd_ok (s : Schema) (r : SysLobFrag)
    (h1 : s.sysLobFragMapKey.find r.key = none) :
    (dictSysLobFragAdd s r).ret = .ok () ∧
    (dictSysLobFragAdd s r).schema.sysLobFragMapRowId = s.sysLobFragMapRowId.set r.rowId r ∧
    (dictSysLobFragAdd s r).schema.sysLobFragMapKey = s.sysLobFragMapKey.set r.key r.rowId := by
  simp only [SysLobFrag.key] at h1 ⊢
  simp only [dictSysLobFragAdd, h1]
  refine ⟨?_, ?_, ?_⟩ <;> (repeat' split) <;>
    simp only [touchTable_sysLobFragMapRowId, touchTable_sysLobFragMapKey]

theorem dictSysLobFragAdd_frame (s : Schema) (r : SysLobFrag) (k : Kind) (hk : k ≠ Kind.LOBFRAG) :
    SameMaps k s (dictSysLobFragAdd s r).schema := by
  cases k <;> first
    | exact absurd rfl hk
    | (simp only [SameMaps, dictSysLobFragAdd]
       (repeat' split) <;> simp)

theorem dictSysLobFragDrop_absent (s : Schema) (r : SysLobFrag) (hP : s.sysLobFragMapRowId.find
    r.rowId = none) :
    dictSysLobFragDrop s r = ⟨s, .ok ()⟩ := by
  simp only [dictSysLobFragDrop, hP]

theorem dictSysLobFragDrop_raises1 (s : Schema) (r : SysLobFrag) (x : SysLobFrag)
    (hP : s.sysLobFragMapRowId.find r.rowId = some x) (h1 : s.sysLobFragMapKey.find r.key = none) :
    (dictSysLobFragDrop s r).ret = .error ⟨50030⟩ := by
  simp only [SysLobFrag.key] at h1
  simp only [dictSysLobFragDrop, hP]
  split
  · rfl
  · next heq =>
    exfalso
    split at heq <;> simp [h1] at heq

theorem dictSysLobFragDrop_ok (s : Schema) (r x : SysLobFrag) (y1 : RowId)
    (hP : s.sysLobFragMapRowId.find r.rowId = some x)
    (h1 : s.sysLobFragMapKey.find r.key = some y1) :
    (dictSysLobFragDrop s r).ret = .ok () ∧
    (dictSysLobFragDrop s r).schema.sysLobFragMapRowId = s.sysLobFragMapRowId.erase r.rowId ∧
    (dictSysLobFragDrop s r).schema.sysLobFragMapKey = s.sysLobFragMapKey.erase r.key := by
  simp only [SysLobFrag.key] at h1 ⊢
  simp only [dictSysLobFragDrop, hP]
  split
  · next heq =>
    exfalso
    split at heq <;> simp [h1] at heq
  · refine ⟨?_, ?_, ?_⟩ <;> (repeat' split) <;> simp

theorem dictSysLobFragDrop_frame (s : Schema) (r : SysLobFrag) (k : Kind) (hk : k ≠ Kind.LOBFRAG) :
    SameMaps k s (dictSysLobFragDrop s r).schema := by
  cases k <;> first
    | exact absurd rfl hk
    | (simp only [SameMaps, dictSysLobFragDrop]
       (repeat' split) <;> simp)

theorem dictSysObjAdd_raises1 (s : Schema) (r : SysObj) (x : RowId)
    (h1 : s.sysObjMapName.find r.nameKey = some x) : (dictSysObjAdd s r).ret = .error ⟨50024⟩ := by
  simp only [SysObj.nameKey] at h1
  simp only [dictSysObjAdd, h1]

theorem dictSysObjAdd_raises2 (s : Schema) (r : SysObj) (x : RowId)
    (h2 : s.sysObjMapObj.find r.obj = some x) : (dictSysObjAdd s r).ret = .error ⟨50024⟩ := by
  cases h1 : s.sysObjMapName.find r.nameKey with
  | some y => exact dictSysObjAdd_raises1 s r y h1
  | none =>
    simp only [SysObj.nameKey] at h1
    simp only [dictSysObjAdd, h1, h2]

theorem dictSysObjAdd_returns (s : Schema) (r : SysObj) (h : (dictSysObjAdd s r).ret = .ok ()) :
    s.sysObjMapName.find r.nameKey = none ∧ s.sysObjMapObj.find r.obj = none := by
  refine ⟨?_, ?_⟩
  · cases h1 : s.sysObjMapName.find r.nameKey with
    | none => rfl
    | some x => rw [dictSysObjAdd_raises1 s r x h1] at h; cases h
  · cases h2 : s.sysObjMapObj.find r.obj with
    | none => rfl
    | some x => rw [dictSysObjAdd_raises2 s r x h2] at h; cases h

theorem dictSysObjAdd_ok (s : Schema) (r : SysObj)
    (h1 : s.sysObjMapName.find r.nameKey = none) (h2 : s.sysObjMapObj.find r.obj = none) :
    (dictSysObjAdd s r).ret = .ok () ∧
    (dictSysObjAdd s r).schema.sysObjMapRowId = s.sysObjMapRowId.set r.rowId r ∧
    (dictSysObjAdd s r).schema.sysObjMapName = s.sysObjMapName.set r.nameKey r.rowId ∧
    (dictSysObjAdd s r).schema.sysObjMapObj = s.sysObjMapObj.set r.obj r.rowId := by
  simp only [SysObj.nameKey] at h1 h2 ⊢
  simp only [dictSysObjAdd, h1, h2]
  refine ⟨?_, ?_, ?_, ?_⟩ <;>
    simp only [touchTable_sysObjMapRowId, touchTable_sysObjMapName, touchTable_sysObjMapObj]

theorem dictSysObjAdd_frame (s : Schema) (r : SysObj) (k : Kind) (hk : k ≠ Kind.OBJ) :
    SameMaps k s (dictSysObjAdd s r).schema := by
  cases k <;> first
    | exact absurd rfl hk
    | (simp only [SameMaps, dictSysObjAdd]
       (repeat' split) <;> simp)

theorem dictSysObjDrop_absent (s : Schema) (r : SysObj) (hP : s.sysObjMapRowId.find r.rowId = none)
    :
    dictSysObjDrop s r = ⟨s, .ok ()⟩ := by
  simp only [dictSysObjDrop, hP]

theorem dictSysObjDrop_raises1 (s : Schema) (r : SysObj) (x : SysObj)
    (hP : s.sysObjMapRowId.find r.rowId = some x) (h1 : s.sysObjMapName.find r.nameKey = none) :
    (dictSysObjDrop s r).ret = .error ⟨50030⟩ := by
  simp only [SysObj.nameKey] at h1
  simp only [dictSysObjDrop, hP, h1]

theorem dictSysObjDrop_raises2 (s : Schema) (r : SysObj) (x : SysObj)
    (hP : s.sysObjMapRowId.find r.rowId = some x) (h2 : s.sysObjMapObj.find r.obj = none) :
    (dictSysObjDrop s r).ret = .error ⟨50030⟩ := by
  cases h1 : s.sysObjMapName.find r.nameKey with
  | none => exact dictSysObjDrop_raises1 s r x hP h1
  | some y =>
    simp only [SysObj.nameKey] at h1
    simp only [dictSysObjDrop, hP, h1, h2]

theorem dictSysObjDrop_ok (s : Schema) (r x : SysObj) (y1 : RowId) (y2 : RowId)
    (hP : s.sysObjMapRowId.find r.rowId = some x)
    (h1 : s.sysObjMapName.find r.nameKey = some y1) (h2 : s.sysObjMapObj.find r.obj = some y2) :
    (dictSysObjDrop s r).ret = .ok () ∧
    (dictSysObjDrop s r).schema.sysObjMapRowId = s.sysObjMapRowId.erase r.rowId ∧
    (dictSysObjDrop s r).schema.sysObjMapName = s.sysObjMapName.erase r.nameKey ∧
    (dictSysObjDrop s r).schema.sysObjMapObj = s.sysObjMapObj.erase r.obj := by
  simp only [SysObj.nameKey] at h1 h2 ⊢
  simp only [dictSysObjDrop, hP, h1, h2]
  refine ⟨?_, ?_, ?_, ?_⟩ <;>
    simp only [touchTable_sysObjMapRowId, touchTable_sysObjMapName, touchTable_sysObjMapObj]

theorem dictSysObjDrop_frame (s : Schema) (r : SysObj) (k : Kind) (hk : k ≠ Kind.OBJ) :
    SameMaps k s (dictSysObjDrop s r).schema := by
  cases k <;> first
    | exact absurd rfl hk
    | (simp only [SameMaps, dictSysObjDrop]
       (repeat' split) <;> simp)

theorem dictSysTabAdd_raises1 (s : Schema) (r : SysTab) (x : RowId)
    (h1 : s.sysTabMapObj.find r.obj = some x) : (dictSysTabAdd s r).ret = .error ⟨50024⟩ := by
  simp only [dictSysTabAdd, h1]

theorem dictSysTabAdd_returns (s : Schema) (r : SysTab) (h : (dictSysTabAdd s r).ret = .ok ()) :
    s.sysTabMapObj.find r.obj = none := by
  cases h1 : s.sysTabMapObj.find r.obj with
  | none => rfl
  | some x => rw [dictSysTabAdd_raises1 s r x h1] at h; cases h

theorem dictSysTabAdd_ok (s : Schema) (r : SysTab)
    (h1 : s.sysTabMapObj.find r.obj = none) :
    (dictSysTabAdd s r).ret = .ok () ∧
    (dictSysTabAdd s r).schema.sysTabMapRowId = s.sysTabMapRowId.set r.rowId r ∧
    (dictSysTabAdd s r).schema.sysTabMapObj = s.sysTabMapObj.set r.obj r.rowId := by
  simp only [dictSysTabAdd, h1]
  refine ⟨?_, ?_, ?_⟩ <;>
    simp only [touchTable_sysTabMapRowId, touchTable_sysTabMapObj]

theorem dictSysTabAdd_frame (s : Schema) (r : SysTab) (k : Kind) (hk : k ≠ Kind.TAB) :
    SameMaps k s (dictSysTabAdd s r).schema := by
  cases k <;> first
    | exact absurd rfl hk
    | (simp only [SameMaps, dictSysTabAdd]
       (repeat' split) <;> simp)

theorem dictSysTabDrop_absent (s : Schema) (r : SysTab) (hP : s.sysTabMapRowId.find r.rowId = none)
    :
    dictSysTabDrop s r = ⟨s, .ok ()⟩ := by
  simp only [dictSysTabDrop, hP]

theorem dictSysTabDrop_raises1 (s : Schema) (r : SysTab) (x : SysTab)
    (hP : s.sysTabMapRowId.find r.rowId = some x) (h1 : s.sysTabMapObj.find r.obj = none) :
    (dictSysTabDrop s r).ret = .error ⟨50030⟩ := by
  simp only [dictSysTabDrop, hP, h1]

theorem dictSysTabDrop_ok (s : Schema) (r x : SysTab) (y1 : RowId)
    (hP : s.sysTabMapRowId.find r.rowId = some x)
    (h1 : s.sysTabMapObj.find r.obj = some y1) :
    (dictSysTabDrop s r).ret = .ok () ∧
    (dictSysTabDrop s r).schema.sysTabMapRowId = s.sysTabMapRowId.erase r.rowId ∧
    (dictSysTabDrop s r).schema.sysTabMapObj = s.sysTabMapObj.erase r.obj := by
  simp only [dictSysTabDrop, hP, h1]
  refine ⟨?_, ?_, ?_⟩ <;>
    simp only [touchTable_sysTabMapRowId, touchTable_sysTabMapObj]

theorem dictSysTabDrop_frame (s : Schema) (r : SysTab) (k : Kind) (hk : k ≠ Kind.TAB) :
    SameMaps k s (dictSysTabDrop s r).schema := by
  cases k <;> first
    | exact absurd rfl hk
    | (simp only [SameMaps, dictSysTabDrop]
       (repeat' split) <;> simp)

theorem dictSysTabComPartAdd_raises1 (s : Schema) (r : SysTabComPart) (x : RowId)
    (h1 : s.sysTabComPartMapKey.find r.key = some x) : (dictSysTabComPartAdd s r).ret = .error
        ⟨50024⟩ := by
  simp only [SysTabComPart.key] at h1
  simp only [dictSysTabComPartAdd, h1]

theorem dictSysTabComPartAdd_raises2 (s : Schema) (r : SysTabComPart) (x : RowId)
    (h2 : s.sysTabComPartMapObj.find r.obj = some x) : (dictSysTabComPartAdd s r).ret = .error
        ⟨50024⟩ := by
  cases h1 : s.sysTabComPartMapKey.find r.key with
  | some y => exact dictSysTabComPartAdd_raises1 s r y h1
  | none =>
    simp only [SysTabComPart.key] at h1
    simp only [dictSysTabComPartAdd, h1, h2]

theorem dictSysTabComPartAdd_returns (s : Schema) (r : SysTabComPart) (h : (dictSysTabComPartAdd s
    r).ret = .ok ()) :
    s.sysTabComPartMapKey.find r.key = none ∧ s.sysTabComPartMapObj.find r.obj = none := by
  refine ⟨?_, ?_⟩
  · cases h1 : s.sysTabComPartMapKey.find r.key with
    | none => rfl
    | some x => rw [dictSysTabComPartAdd_raises1 s r x h1] at h; cases h
  · cases h2 : s.sysTabComPartMapObj.find r.obj with
    | none => rfl
    | some x => rw [dictSysTabComPartAdd_raises2 s r x h2] at h; cases h

theorem dictSysTabComPartAdd_ok (s : Schema) (r : SysTabComPart)
    (h1 : s.sysTabComPartMapKey.find r.key = none) (h2 : s.sysTabComPartMapObj.find r.obj = none) :
    (dictSysTabComPartAdd s r).ret = .ok () ∧
    (dictSysTabComPartAdd s r).schema.sysTabComPartMapRowId = s.sysTabComPartMapRowId.set r.rowId r
        ∧
    (dictSysTabComPartAdd s r).schema.sysTabComPartMapKey = s.sysTabComPartMapKey.set r.key r.rowId
        ∧
    (dictSysTabComPartAdd s r).schema.sysTabComPartMapObj = s.sysTabComPartMapObj.set r.obj r.rowId
        := by
  simp only [SysTabComPart.key] at h1 h2 ⊢
  simp only [dictSysTabComPartAdd, h1, h2]
  refine ⟨?_, ?_, ?_, ?_⟩ <;>
    simp only [touchTable_sysTabComPartMapRowId, touchTable_sysTabComPartMapKey,
        touchTable_sysTabComPartMapObj]

theorem dictSysTabComPartAdd_frame (s : Schema) (r : SysTabComPart) (k : Kind) (hk : k ≠
    Kind.TABCOMPART) :
    SameMaps k s (dictSysTabComPartAdd s r).schema := by
  cases k <;> first
    | exact absurd rfl hk
    | (simp only [SameMaps, dictSysTabComPartAdd]
       (repeat' split) <;> simp)

theorem dictSysTabComPartDrop_absent (s : Schema) (r : SysTabComPart) (hP :
    s.sysTabComPartMapRowId.find r.rowId = none) :
    dictSysTabComPartDrop s r = ⟨s, .ok ()⟩ := by
  simp only [dictSysTabComPartDrop, hP]

theorem dictSysTabComPartDrop_raises1 (s : Schema) (r : SysTabComPart) (x : SysTabComPart)
    (hP : s.sysTabComPartMapRowId.find r.rowId = some x) (h1 : s.sysTabComPartMapKey.find r.key =
        none) :
    (dictSysTabComPartDrop s r).ret = .error ⟨50030⟩ := by
  simp only [SysTabComPart.key] at h1
  simp only [dictSysTabComPartDrop, hP, h1]

theorem dictSysTabComPartDrop_raises2 (s : Schema) (r : SysTabComPart) (x : SysTabComPart)
    (hP : s.sysTabComPartMapRowId.find r.rowId = some x) (h2 : s.sysTabComPartMapObj.find r.obj =
        none) :
    (dictSysTabComPartDrop s r).ret = .error ⟨50030⟩ := by
  cases h1 : s.sysTabComPartMapKey.find r.key with
  | none => exact dictSysTabComPartDrop_raises1 s r x hP h1
  | some y =>
    simp only [SysTabComPart.key] at h1
    simp only [dictSysTabComPartDrop, hP, h1, h2]

theorem dictSysTabComPartDrop_ok (s : Schema) (r x : SysTabComPart) (y1 : RowId) (y2 : RowId)
    (hP : s.sysTabComPartMapRowId.find r.rowId = some x)
    (h1 : s.sysTabComPartMapKey.find r.key = some y1) (h2 : s.sysTabComPartMapObj.find r.obj = some
        y2) :
    (dictSysTabComPartDrop s r).ret = .ok () ∧
    (dictSysTabComPartDrop s r).schema.sysTabComPartMapRowId = s.sysTabComPartMapRowId.erase r.rowId
        ∧
    (dictSysTabComPartDrop s r).schema.sysTabComPartMapKey = s.sysTabComPartMapKey.erase r.key ∧
    (dictSysTabComPartDrop s r).schema.sysTabComPartMapObj = s.sysTabComPartMapObj.erase r.obj := by
  simp only [SysTabComPart.key] at h1 h2 ⊢
  simp only [dictSysTabComPartDrop, hP, h1, h2]
  refine ⟨?_, ?_, ?_, ?_⟩ <;>
    simp only [touchTable_sysTabComPartMapRowId, touchTable_sysTabComPartMapKey,
        touchTable_sysTabComPartMapObj]

theorem dictSysTabComPartDrop_frame (s : Schema) (r : SysTabComPart) (k : Kind) (hk : k ≠
    Kind.TABCOMPART) :
    SameMaps k s (dictSysTabComPartDrop s r).schema := by
  cases k <;> first
    | exact absurd rfl hk
    | (simp only [SameMaps, dictSysTabComPartDrop]
       (repeat' split) <;> simp)

theorem dictSysTabPartAdd_raises1 (s : Schema) (r : SysTabPart) (x : RowId)
    (h1 : s.sysTabPartMapKey.find r.key = some x) : (dictSysTabPartAdd s r).ret = .error ⟨50024⟩ :=
        by
  simp only [SysTabPart.key] at h1
  simp only [dictSysTabPartAdd, h1]

theorem dictSysTabPartAdd_returns (s : Schema) (r : SysTabPart) (h : (dictSysTabPartAdd s r).ret =
    .ok ()) :
    s.sysTabPartMapKey.find r.key = none := by
  cases h1 : s.sysTabPartMapKey.find r.key with
  | none => rfl
  | some x => rw [dictSysTabPartAdd_raises1 s r x h1] at h; cases h

theorem dictSysTabPartAdd_ok (s : Schema) (r : SysTabPart)
    (h1 : s.sysTabPartMapKey.find r.key = none) :
    (dictSysTabPartAdd s r).ret = .ok () ∧
    (dictSysTabPartAdd s r).schema.sysTabPartMapRowId = s.sysTabPartMapRowId.set r.rowId r ∧
    (dictSysTabPartAdd s r).schema.sysTabPartMapKey = s.sysTabPartMapKey.set r.key r.rowId := by
  simp only [SysTabPart.key] at h1 ⊢
  simp only [dictSysTabPartAdd, h1]
  refine ⟨?_, ?_, ?_⟩ <;>
    simp only [touchTable_sysTabPartMapRowId, touchTable_sysTabPartMapKey]

theorem dictSysTabPartAdd_frame (s : Schema) (r : SysTabPart) (k : Kind) (hk : k ≠ Kind.TABPART) :
    SameMaps k s (dictSysTabPartAdd s r).schema := by
  cases k <;> first
    | exact absurd rfl hk
    | (simp only [SameMaps, dictSysTabPartAdd]
       (repeat' split) <;> simp)

theorem dictSysTabPartDrop_absent (s : Schema) (r : SysTabPart) (hP : s.sysTabPartMapRowId.find
    r.rowId = none) :
    dictSysTabPartDrop s r = ⟨s, .ok ()⟩ := by
  simp only [dictSysTabPartDrop, hP]

theorem dictSysTabPartDrop_raises1 (s : Schema) (r : SysTabPart) (x : SysTabPart)
    (hP : s.sysTabPartMapRowId.find r.rowId = some x) (h1 : s.sysTabPartMapKey.find r.key = none) :
    (dictSysTabPartDrop s r).ret = .error ⟨50030⟩ := by
  simp only [SysTabPart.key] at h1
  simp only [dictSysTabPartDrop, hP, h1]

theorem dictSysTabPartDrop_ok (s : Schema) (r x : SysTabPart) (y1 : RowId)
    (hP : s.sysTabPartMapRowId.find r.rowId = some x)
    (h1 : s.sysTabPartMapKey.find r.key = some y1) :
    (dictSysTabPartDrop s r).ret = .ok () ∧
    (dictSysTabPartDrop s r).schema.sysTabPartMapRowId = s.sysTabPartMapRowId.erase r.rowId ∧
    (dictSysTabPartDrop s r).schema.sysTabPartMapKey = s.sysTabPartMapKey.erase r.key := by
  simp only [SysTabPart.key] at h1 ⊢
  simp only [dictSysTabPartDrop, hP, h1]
  refine ⟨?_, ?_, ?_⟩ <;>
    simp only [touchTable_sysTabPartMapRowId, touchTable_sysTabPartMapKey]

theorem dictSysTabPartDrop_frame (s : Schema) (r : SysTabPart) (k : Kind) (hk : k ≠ Kind.TABPART) :
    SameMaps k s (dictSysTabPartDrop s r).schema := by
  cases k <;> first
    | exact absurd rfl hk
    | (simp only [SameMaps, dictSysTabPartDrop]
       (repeat' split) <;> simp)

theorem dictSysTabSubPartAdd_raises1 (s : Schema) (r : SysTabSubPart) (x : RowId)
    (h1 : s.sysTabSubPartMapKey.find r.key = some x) : (dictSysTabSubPartAdd s r).ret = .error
        ⟨50024⟩ := by
  simp only [SysTabSubPart.key] at h1
  simp only [dictSysTabSubPartAdd, h1]

theorem dictSysTabSubPartAdd_returns (s : Schema) (r : SysTabSubPart) (h : (dictSysTabSubPartAdd s
    r).ret = .ok ()) :
    s.sysTabSubPartMapKey.find r.key = none := by
  cases h1 : s.sysTabSubPartMapKey.find r.key with
  | none => rfl
  | some x => rw [dictSysTabSubPartAdd_raises1 s r x h1] at h; cases h

theorem dictSysTabSubPartAdd_ok (s : Schema) (r : SysTabSubPart)
    (h1 : s.sysTabSubPartMapKey.find r.key = none) :
    (dictSysTabSubPartAdd s r).ret = .ok () ∧
    (dictSysTabSubPartAdd s r).schema.sysTabSubPartMapRowId = s.sysTabSubPartMapRowId.set r.rowId r
        ∧
    (dictSysTabSubPartAdd s r).schema.sysTabSubPartMapKey = s.sysTabSubPartMapKey.set r.key r.rowId
        := by
  simp only [SysTabSubPart.key] at h1 ⊢
  simp only [dictSysTabSubPartAdd, h1]
  refine ⟨?_, ?_, ?_⟩ <;> (repeat' split) <;>
    simp only [touchTable_sysTabSubPartMapRowId, touchTable_sysTabSubPartMapKey]

theorem dictSysTabSubPartAdd_frame (s : Schema) (r : SysTabSubPart) (k : Kind) (hk : k ≠
    Kind.TABSUBPART) :
    SameMaps k s (dictSysTabSubPartAdd s r).schema := by
  cases k <;> first
    | exact absurd rfl hk
    | (simp only [SameMaps, dictSysTabSubPartAdd]
       (repeat' split) <;> simp)

theorem dictSysTabSubPartDrop_absent (s : Schema) (r : SysTabSubPart) (hP :
    s.sysTabSubPartMapRowId.find r.rowId = none) :
    dictSysTabSubPartDrop s r = ⟨s, .ok ()⟩ := by
  simp only [dictSysTabSubPartDrop, hP]

theorem dictSysTabSubPartDrop_raises1 (s : Schema) (r : SysTabSubPart) (x : SysTabSubPart)
    (hP : s.sysTabSubPartMapRowId.find r.rowId = some x) (h1 : s.sysTabSubPartMapKey.find r.key =
        none) :
    (dictSysTabSubPartDrop s r).ret = .error ⟨50030⟩ := by
  simp only [SysTabSubPart.key] at h1
  simp only [dictSysTabSubPartDrop, hP, h1]

theorem dictSysTabSubPartDrop_ok (s : Schema) (r x : SysTabSubPart) (y1 : RowId)
    (hP : s.sysTabSubPartMapRowId.find r.rowId = some x)
    (h1 : s.sysTabSubPartMapKey.find r.key = some y1) :
    (dictSysTabSubPartDrop s r).ret = .ok () ∧
    (dictSysTabSubPartDrop s r).schema.sysTabSubPartMapRowId = s.sysTabSubPartMapRowId.erase r.rowId
        ∧
    (dictSysTabSubPartDrop s r).schema.sysTabSubPartMapKey = s.sysTabSubPartMapKey.erase r.key := by
  simp only [SysTabSubPart.key] at h1 ⊢
  simp only [dictSysTabSubPartDrop, hP, h1]
  refine ⟨?_, ?_, ?_⟩ <;> (repeat' split) <;>
    simp only [touchTable_sysTabSubPartMapRowId, touchTable_sysTabSubPartMapKey]

theorem dictSysTabSubPartDrop_frame (s : Schema) (r : SysTabSubPart) (k : Kind) (hk : k ≠
    Kind.TABSUBPART) :
    SameMaps k s (dictSysTabSubPartDrop s r).schema := by
  cases k <;> first
    | exact absurd rfl hk
    | (simp only [SameMaps, dictSysTabSubPartDrop]
       (repeat' split) <;> simp)

theorem dictSysTsAdd_raises1 (s : Schema) (r : SysTs) (x : RowId)
    (h1 : s.sysTsMapTs.find r.ts = some x) : (dictSysTsAdd s r).ret = .error ⟨50024⟩ := by
  simp only [dictSysTsAdd, h1]

theorem dictSysTsAdd_returns (s : Schema) (r : SysTs) (h : (dictSysTsAdd s r).ret = .ok ()) :
    s.sysTsMapTs.find r.ts = none := by
  cases h1 : s.sysTsMapTs.find r.ts with
  | none => rfl
  | some x => rw [dictSysTsAdd_raises1 s r x h1] at h; cases h

theorem dictSysTsAdd_ok (s : Schema) (r : SysTs)
    (h1 : s.sysTsMapTs.find r.ts = none) :
    (dictSysTsAdd s r).ret = .ok () ∧
    (dictSysTsAdd s r).schema.sysTsMapRowId = s.sysTsMapRowId.set r.rowId r ∧
    (dictSysTsAdd s r).schema.sysTsMapTs = s.sysTsMapTs.set r.ts r.rowId := by
  simp only [dictSysTsAdd, h1]
  refine ⟨?_, ?_, ?_⟩ <;>
    simp only [touchTable_sysTsMapRowId, touchTable_sysTsMapTs]

theorem dictSysTsAdd_frame (s : Schema) (r : SysTs) (k : Kind) (hk : k ≠ Kind.TS) :
    SameMaps k s (dictSysTsAdd s r).schema := by
  cases k <;> first
    | exact absurd rfl hk
    | (simp only [SameMaps, dictSysTsAdd]
       (repeat' split) <;> simp)

theorem dictSysTsDrop_absent (s : Schema) (r : SysTs) (hP : s.sysTsMapRowId.find r.rowId = none) :
    dictSysTsDrop s r = ⟨s, .ok ()⟩ := by
  simp only [dictSysTsDrop, hP]

theorem dictSysTsDrop_raises1 (s : Schema) (r : SysTs) (x : SysTs)
    (hP : s.sysTsMapRowId.find r.rowId = some x) (h1 : s.sysTsMapTs.find r.ts = none) :
    (dictSysTsDrop s r).ret = .error ⟨50030⟩ := by
  simp only [dictSysTsDrop, hP, h1]

theorem dictSysTsDrop_ok (s : Schema) (r x : SysTs) (y1 : RowId)
    (hP : s.sysTsMapRowId.find r.rowId = some x)
    (h1 : s.sysTsMapTs.find r.ts = some y1) :
    (dictSysTsDrop s r).ret = .ok () ∧
    (dictSysTsDrop s r).schema.sysTsMapRowId = s.sysTsMapRowId.erase r.rowId ∧
    (dictSysTsDrop s r).schema.sysTsMapTs = s.sysTsMapTs.erase r.ts := by
  simp only [dictSysTsDrop, hP, h1]
  refine ⟨?_, ?_, ?_⟩ <;>
    simp only [touchTable_sysTsMapRowId, touchTable_sysTsMapTs]

theorem dictSysTsDrop_frame (s : Schema) (r : SysTs) (k : Kind) (hk : k ≠ Kind.TS) :
    SameMaps k s (dictSysTsDrop s r).schema := by
  cases k <;> first
    | exact absurd rfl hk
    | (simp only [SameMaps, dictSysTsDrop]
       (repeat' split) <;> simp)

theorem dictSysUserAdd_raises1 (s : Schema) (r : SysUser) (x : RowId)
    (h1 : s.sysUserMapUser.find r.user = some x) : (dictSysUserAdd s r).ret = .error ⟨50024⟩ := by
  simp only [dictSysUserAdd, h1]

theorem dictSysUserAdd_returns (s : Schema) (r : SysUser) (h : (dictSysUserAdd s r).ret = .ok ()) :
    s.sysUserMapUser.find r.user = none := by
  cases h1 : s.sysUserMapUser.find r.user with
  | none => rfl
  | some x => rw [dictSysUserAdd_raises1 s r x h1] at h; cases h

theorem dictSysUserAdd_ok (s : Schema) (r : SysUser)
    (h1 : s.sysUserMapUser.find r.user = none) :
    (dictSysUserAdd s r).ret = .ok () ∧
    (dictSysUserAdd s r).schema.sysUserMapRowId = s.sysUserMapRowId.set r.rowId r ∧
    (dictSysUserAdd s r).schema.sysUserMapUser = s.sysUserMapUser.set r.user r.rowId := by
  simp only [dictSysUserAdd, h1]
  refine ⟨?_, ?_, ?_⟩ <;>
    simp only [touchTable_sysUserMapRowId, touchTable_sysUserMapUser]

theorem dictSysUserAdd_frame (s : Schema) (r : SysUser) (k : Kind) (hk : k ≠ Kind.USER) :
    SameMaps k s (dictSysUserAdd s r).schema := by
  cases k <;> first
    | exact absurd rfl hk
    | (simp only [SameMaps, dictSysUserAdd]
       (repeat' split) <;> simp)

theorem dictSysUserDrop_absent (s : Schema) (r : SysUser) (hP : s.sysUserMapRowId.find r.rowId =
    none) :
    dictSysUserDrop s r = ⟨s, .ok ()⟩ := by
  simp only [dictSysUserDrop, hP]

theorem dictSysUserDrop_raises1 (s : Schema) (r : SysUser) (x : SysUser)
    (hP : s.sysUserMapRowId.find r.rowId = some x) (h1 : s.sysUserMapUser.find r.user = none) :
    (dictSysUserDrop s r).ret = .error ⟨50030⟩ := by
  simp only [dictSysUserDrop, hP, h1]

theorem dictSysUserDrop_ok (s : Schema) (r x : SysUser) (y1 : RowId)
    (hP : s.sysUserMapRowId.find r.rowId = some x)
    (h1 : s.sysUserMapUser.find r.user = some y1) :
    (dictSysUserDrop s r).ret = .ok () ∧
    (dictSysUserDrop s r).schema.sysUserMapRowId = s.sysUserMapRowId.erase r.rowId ∧
    (dictSysUserDrop s r).schema.sysUserMapUser = s.sysUserMapUser.erase r.user := by
  simp only [dictSysUserDrop, hP, h1]
  refine ⟨?_, ?_, ?_⟩ <;>
    simp only [touchTable_sysUserMapRowId, touchTable_sysUserMapUser]

theorem dictSysUserDrop_frame (s : Schema) (r : SysUser) (k : Kind) (hk : k ≠ Kind.USER) :
    SameMaps k s (dictSysUserDrop s r).schema := by
  cases k <;> first
    | exact absurd rfl hk
    | (simp only [SameMaps, dictSysUserDrop]
       (repeat' split) <;> simp)


/-! ### The dictionary store: COL$ -/

theorem dictSysColAdd_ret (s : Schema) (r : SysCol) : (dictSysColAdd s r).ret = .ok () := rfl

theorem dictSysColAdd_primary (s : Schema) (r : SysCol) :
    (dictSysColAdd s r).schema.sysColMapRowId = s.sysColMapRowId.set r.rowId r := by
  simp only [dictSysColAdd, touchTable_sysColMapRowId]
  split
  · split <;> rfl
  · rfl

theorem dictSysColAdd_seg_free (s : Schema) (r : SysCol) (h0 : 0 < r.segCol)
    (h1 : s.sysColMapSeg.find r.seg = none) :
    (dictSysColAdd s r).schema.sysColMapSeg = s.sysColMapSeg.set r.seg r.rowId := by
  simp only [SysCol.seg] at h1 ⊢
  simp only [dictSysColAdd, touchTable_sysColMapSeg, gt_iff_lt, h0, if_true, h1]

theorem dictSysColAdd_seg_taken (s : Schema) (r : SysCol) (x : RowId) (h0 : 0 < r.segCol)
    (h1 : s.sysColMapSeg.find r.seg = some x) :
    (dictSysColAdd s r).schema.sysColMapSeg = s.sysColMapSeg := by
  simp only [SysCol.seg] at h1 ⊢
  simp only [dictSysColAdd, touchTable_sysColMapSeg, gt_iff_lt, h0, if_true, h1]

theorem dictSysColAdd_seg_none (s : Schema) (r : SysCol) (h0 : ¬ 0 < r.segCol) :
    (dictSysColAdd s r).schema.sysColMapSeg = s.sysColMapSeg := by
  simp only [dictSysColAdd, touchTable_sysColMapSeg, gt_iff_lt, h0, if_false]

theorem dictSysColAdd_frame (s : Schema) (r : SysCol) (k : Kind) (hk : k ≠ Kind.COL) :
    SameMaps k s (dictSysColAdd s r).schema := by
  cases k <;> first
    | exact absurd rfl hk
    | (simp only [SameMaps, dictSysColAdd]
       (repeat' split) <;> simp)

theorem dictSysColDrop_absent (s : Schema) (r : SysCol) (hP : s.sysColMapRowId.find r.rowId = none) :
    dictSysColDrop s r = ⟨s, .ok ()⟩ := by
  simp only [dictSysColDrop, hP]

theorem dictSysColDrop_raises (s : Schema) (r x : SysCol)
    (hP : s.sysColMapRowId.find r.rowId = some x) (h0 : 0 < r.segCol)
    (h1 : s.sysColMapSeg.find r.seg = none) : (dictSysColDrop s r).ret = .error ⟨50030⟩ := by
  simp only [SysCol.seg] at h1
  simp only [dictSysColDrop, hP, gt_iff_lt, h0, if_true, h1]

theorem dictSysColDrop_ok_seg (s : Schema) (r x : SysCol) (y : RowId)
    (hP : s.sysColMapRowId.find r.rowId = some x) (h0 : 0 < r.segCol)
    (h1 : s.sysColMapSeg.find r.seg = some y) :
    (dictSysColDrop s r).ret = .ok () ∧
    (dictSysColDrop s r).schema.sysColMapRowId = s.sysColMapRowId.erase r.rowId ∧
    (dictSysColDrop s r).schema.sysColMapSeg = s.sysColMapSeg.erase r.seg := by
  simp only [SysCol.seg] at h1 ⊢
  simp only [dictSysColDrop, hP, gt_iff_lt, h0, if_true, h1, touchTable_sysColMapRowId,
    touchTable_sysColMapSeg, and_self]

theorem dictSysColDrop_ok_none (s : Schema) (r x : SysCol)
    (hP : s.sysColMapRowId.find r.rowId = some x) (h0 : ¬ 0 < r.segCol) :
    (dictSysColDrop s r).ret = .ok () ∧
    (dictSysColDrop s r).schema.sysColMapRowId = s.sysColMapRowId.erase r.rowId ∧
    (dictSysColDrop s r).schema.sysColMapSeg = s.sysColMapSeg := by
  simp only [dictSysColDrop, hP, gt_iff_lt, h0, if_false, touchTable_sysColMapRowId,
    touchTable_sysColMapSeg, and_self]

theorem dictSysColDrop_frame (s : Schema) (r : SysCol) (k : Kind) (hk : k ≠ Kind.COL) :
    SameMaps k s (dictSysColDrop s r).schema := by
  cases k <;> first
    | exact absurd rfl hk
    | (simp only [SameMaps, dictSysColDrop]
       (repeat' split) <;> simp)

/-! ### The dictionary store: agreement of a secondary map with the primary map -/

theorem IndexOk.of_empty {R K H : Type} [DecidableEq K] (rowIdOf : R → RowId) (key : R → K)
    (entry : RowId → H) : IndexOk rowIdOf key entry Map.empty Map.empty :=
  ⟨fun _ _ h => (by cases h), fun _ _ h => (by cases h)⟩

theorem IndexOk.rowId_eq {R K H : Type} [DecidableEq K] {rowIdOf : R → RowId} {key : R → K}
    {entry : RowId → H} {primary : Map RowId R} {index : Map K H}
    (hok : IndexOk rowIdOf key entry primary index) (hinj : Function.Injective entry)
    (rowId : RowId) (r : R) (h : primary.find rowId = some r) : rowIdOf r = rowId := by
  obtain ⟨r0, hr0, he, _⟩ := hok.2 _ _ (hok.1 rowId r h)
  have hid : rowId = rowIdOf r0 := hinj he
  rw [← hid, h] at hr0
  cases hr0
  exact hid.symm

theorem IndexOk.add {R K H : Type} [DecidableEq K] [KeyOrder K] {rowIdOf : R → RowId}
    {key : R → K} {entry : RowId → H} {primary : Map RowId R} {index : Map K H}
    (hok : IndexOk rowIdOf key entry primary index) (r : R)
    (hfresh : primary.find (rowIdOf r) = none) (hfree : index.find (key r) = none) :
    IndexOk rowIdOf key entry (primary.set (rowIdOf r) r)
      (index.set (key r) (entry (rowIdOf r))) := by
  constructor
  · intro rowId r2 h
    by_cases hid : rowId = rowIdOf r
    · subst hid
      rw [Map.find_set_self] at h
      cases h
      exact Map.find_set_self _ _ _
    · rw [Map.find_set_ne _ _ _ _ hid] at h
      have h2 := hok.1 rowId r2 h
      have hk : key r2 ≠ key r := by
        intro e
        rw [e, hfree] at h2
        cases h2
      rw [Map.find_set_ne _ _ _ _ hk]
      exact h2
  · intro k h hk
    by_cases hkey : k = key r
    · subst hkey
      rw [Map.find_set_self] at hk
      cases hk
      exact ⟨r, Map.find_set_self _ _ _, rfl, rfl⟩
    · rw [Map.find_set_ne _ _ _ _ hkey] at hk
      obtain ⟨r0, hr0, he, hk0⟩ := hok.2 k h hk
      have hid : rowIdOf r0 ≠ rowIdOf r := by
        intro e
        rw [e, hfresh] at hr0
        cases hr0
      exact ⟨r0, by rw [Map.find_set_ne _ _ _ _ hid]; exact hr0, he, hk0⟩

theorem IndexOk.drop {R K H : Type} [DecidableEq K] {rowIdOf : R → RowId}
    {key : R → K} {entry : RowId → H} {primary : Map RowId R} {index : Map K H}
    (hok : IndexOk rowIdOf key entry primary index) (hinj : Function.Injective entry) (r : R)
    (hstored : primary.find (rowIdOf r) = some r) :
    IndexOk rowIdOf key entry (primary.erase (rowIdOf r)) (index.erase (key r)) := by
  constructor
  · intro rowId r2 h
    by_cases hid : rowId = rowIdOf r
    · subst hid
      rw [Map.find_erase_self] at h
      cases h
    · rw [Map.find_erase_ne _ _ _ hid] at h
      have h2 := hok.1 rowId r2 h
      have hk : key r2 ≠ key r := by
        intro e
        rw [e, hok.1 _ r hstored] at h2
        exact hid (hinj (Option.some.inj h2)).symm
      rw [Map.find_erase_ne _ _ _ hk]
      exact h2
  · intro k h hk
    by_cases hkey : k = key r
    · subst hkey
      rw [Map.find_erase_self] at hk
      cases hk
    · rw [Map.find_erase_ne _ _ _ hkey] at hk
      obtain ⟨r0, hr0, he, hk0⟩ := hok.2 k h hk
      have hid : rowIdOf r0 ≠ rowIdOf r := by
        intro e
        rw [e, hstored] at hr0
        cases hr0
        exact hkey hk0.symm
      exact ⟨r0, by rw [Map.find_erase_ne _ _ _ hid]; exact hr0, he, hk0⟩

theorem IndexOk.update {R K H : Type} [DecidableEq K] {rowIdOf : R → RowId}
    {key : R → K} {entry : RowId → H} {primary : Map RowId R} {index : Map K H}
    (hok : IndexOk rowIdOf key entry primary index) (hinj : Function.Injective entry)
    (rowId : RowId) (r r2 : R) (hstored : primary.find rowId = some r)
    (hkey : key r2 = key r) (hrow : rowIdOf r2 = rowIdOf r) :
    IndexOk rowIdOf key entry (primary.set rowId r2) index := by
  have hrid : rowIdOf r = rowId := hok.rowId_eq hinj rowId r hstored
  constructor
  · intro rowId3 r3 h
    by_cases hid : rowId3 = rowId
    · subst hid
      rw [Map.find_set_self] at h
      cases h
      rw [hkey]
      exact hok.1 _ r hstored
    · rw [Map.find_set_ne _ _ _ _ hid] at h
      exact hok.1 rowId3 r3 h
  · intro k h hk
    obtain ⟨r0, hr0, he, hk0⟩ := hok.2 k h hk
    by_cases hid : rowIdOf r0 = rowId
    · rw [hid, hstored] at hr0
      cases hr0
      refine ⟨r2, ?_, ?_, ?_⟩
      · rw [hrow, hrid]; exact Map.find_set_self _ _ _
      · rw [hrow]; exact he
      · rw [hkey]; exact hk0
    · exact ⟨r0, by rw [Map.find_set_ne _ _ _ _ hid]; exact hr0, he, hk0⟩

theorem RowId.entry_injective : Function.Injective RowId.entry := fun _ _ h => h

theorem RowId.entryStg_injective : Function.Injective RowId.entryStg :=
  fun _ _ h => Option.some.inj h

theorem SameMaps.refl (k : Kind) (s : Schema) : SameMaps k s s := by
  cases k <;> simp [SameMaps]

theorem SameMaps.trans {k : Kind} {s t u : Schema} (h1 : SameMaps k s t) (h2 : SameMaps k t u) :
    SameMaps k s u := by
  cases k <;> simp only [SameMaps] at h1 h2 ⊢ <;> simp only [h1, h2, and_self]

theorem Consistent.of_sameMaps {k : Kind} {s t : Schema} (h : SameMaps k s t)
    (hc : Consistent k s) : Consistent k t := by
  cases k <;> simp only [SameMaps] at h <;> simp only [Consistent] at hc ⊢ <;>
    simp only [← h] <;> exact hc

theorem Consistent.at_empty (k : Kind) : Consistent k Schema.empty := by
  cases k <;> simp only [Consistent, Schema.empty]
  all_goals first
    | exact IndexOk.of_empty _ _ _
    | exact ⟨IndexOk.of_empty _ _ _, IndexOk.of_empty _ _ _⟩
    | exact ⟨fun _ _ h => (by cases h), fun _ _ h => (by cases h)⟩


/-! ### The dictionary store: index consistency kind by kind -/

theorem dictSysCColAdd_consistent (s : Schema) (r : SysCCol) (hc : Consistent Kind.CCOL s)
    (hfresh : s.sysCColMapRowId.find r.rowId = none) (hret : (dictSysCColAdd s r).ret = .ok ()) :
    Consistent Kind.CCOL (dictSysCColAdd s r).schema := by
  have h1 := dictSysCColAdd_returns s r hret
  obtain ⟨_, hP, hI1⟩ := dictSysCColAdd_ok s r h1
  simp only [Consistent] at hc ⊢
  rw [hP, hI1]
  exact hc.add r hfresh h1

theorem dictSysCColDrop_consistent (s : Schema) (r : SysCCol) (hc : Consistent Kind.CCOL s)
    (hstored : s.sysCColMapRowId.find r.rowId = some r) :
    (dictSysCColDrop s r).ret = .ok () ∧ Consistent Kind.CCOL (dictSysCColDrop s r).schema := by
  simp only [Consistent] at hc
  have h1 := hc.1 _ _ hstored
  obtain ⟨hret, hP, hI1⟩ := dictSysCColDrop_ok s r r _ hstored h1
  refine ⟨hret, ?_⟩
  simp only [Consistent]
  rw [hP, hI1]
  exact hc.drop RowId.entry_injective r hstored

theorem dictSysCColAdd_then_drop (s : Schema) (r : SysCCol)
    (hfresh : s.sysCColMapRowId.find r.rowId = none) (hret : (dictSysCColAdd s r).ret = .ok ()) :
    (dictSysCColDrop (dictSysCColAdd s r).schema r).ret = .ok () ∧
    SameMaps Kind.CCOL s (dictSysCColDrop (dictSysCColAdd s r).schema r).schema := by
  have h1 := dictSysCColAdd_returns s r hret
  obtain ⟨_, hP, hI1⟩ := dictSysCColAdd_ok s r h1
  have hP2 : (dictSysCColAdd s r).schema.sysCColMapRowId.find r.rowId = some r := by
    rw [hP]; exact Map.find_set_self _ _ _
  have hJ1 : (dictSysCColAdd s r).schema.sysCColMapKey.find r.key = some r.rowId := by
    rw [hI1]; exact Map.find_set_self _ _ _
  obtain ⟨hret2, hQ, hQ1⟩ := dictSysCColDrop_ok (dictSysCColAdd s r).schema r r _ hP2 hJ1
  refine ⟨hret2, ?_⟩
  simp only [SameMaps]
  rw [hQ, hQ1, hP, hI1, Map.erase_set_of_find_none _ _ _ hfresh,
    Map.erase_set_of_find_none _ _ _ h1]
  exact ⟨rfl, rfl⟩

theorem dictSysCDefAdd_consistent (s : Schema) (r : SysCDef) (hc : Consistent Kind.CDEF s)
    (hfresh : s.sysCDefMapRowId.find r.rowId = none) (hret : (dictSysCDefAdd s r).ret = .ok ()) :
    Consistent Kind.CDEF (dictSysCDefAdd s r).schema := by
  obtain ⟨h1, h2⟩ := dictSysCDefAdd_returns s r hret
  obtain ⟨_, hP, hI1, hI2⟩ := dictSysCDefAdd_ok s r h1 h2
  simp only [Consistent] at hc ⊢
  rw [hP, hI1, hI2]
  exact ⟨hc.1.add r hfresh h1, hc.2.add r hfresh h2⟩

theorem dictSysCDefDrop_consistent (s : Schema) (r : SysCDef) (hc : Consistent Kind.CDEF s)
    (hstored : s.sysCDefMapRowId.find r.rowId = some r) :
    (dictSysCDefDrop s r).ret = .ok () ∧ Consistent Kind.CDEF (dictSysCDefDrop s r).schema := by
  simp only [Consistent] at hc
  have h1 := hc.1.1 _ _ hstored
  have h2 := hc.2.1 _ _ hstored
  obtain ⟨hret, hP, hI1, hI2⟩ := dictSysCDefDrop_ok s r r _ _ hstored h1 h2
  refine ⟨hret, ?_⟩
  simp only [Consistent]
  rw [hP, hI1, hI2]
  exact ⟨hc.1.drop RowId.entry_injective r hstored, hc.2.drop RowId.entry_injective r hstored⟩

theorem dictSysCDefAdd_then_drop (s : Schema) (r : SysCDef)
    (hfresh : s.sysCDefMapRowId.find r.rowId = none) (hret : (dictSysCDefAdd s r).ret = .ok ()) :
    (dictSysCDefDrop (dictSysCDefAdd s r).schema r).ret = .ok () ∧
    SameMaps Kind.CDEF s (dictSysCDefDrop (dictSysCDefAdd s r).schema r).schema := by
  obtain ⟨h1, h2⟩ := dictSysCDefAdd_returns s r hret
  obtain ⟨_, hP, hI1, hI2⟩ := dictSysCDefAdd_ok s r h1 h2
  have hP2 : (dictSysCDefAdd s r).schema.sysCDefMapRowId.find r.rowId = some r := by
    rw [hP]; exact Map.find_set_self _ _ _
  have hJ1 : (dictSysCDefAdd s r).schema.sysCDefMapKey.find r.key = some r.rowId := by
    rw [hI1]; exact Map.find_set_self _ _ _
  have hJ2 : (dictSysCDefAdd s r).schema.sysCDefMapCon.find r.con = some r.rowId := by
    rw [hI2]; exact Map.find_set_self _ _ _
  obtain ⟨hret2, hQ, hQ1, hQ2⟩ := dictSysCDefDrop_ok (dictSysCDefAdd s r).schema r r _ _ hP2 hJ1 hJ2
  refine ⟨hret2, ?_⟩
  simp only [SameMaps]
  rw [hQ, hQ1, hQ2, hP, hI1, hI2, Map.erase_set_of_find_none _ _ _ hfresh,
    Map.erase_set_of_find_none _ _ _ h1, Map.erase_set_of_find_none _ _ _ h2]
  exact ⟨rfl, rfl, rfl⟩

theorem dictSysDeferredStgAdd_consistent (s : Schema) (r : SysDeferredStg) (hc : Consistent
    Kind.DEFERRED_STG s)
    (hfresh : s.sysDeferredStgMapRowId.find r.rowId = none) (hret : (dictSysDeferredStgAdd s r).ret
        = .ok ()) :
    Consistent Kind.DEFERRED_STG (dictSysDeferredStgAdd s r).schema := by
  have h1 := dictSysDeferredStgAdd_returns s r hret
  obtain ⟨_, hP, hI1⟩ := dictSysDeferredStgAdd_ok s r h1
  simp only [Consistent] at hc ⊢
  rw [hP, hI1]
  exact hc.add r hfresh h1

theorem dictSysDeferredStgDrop_consistent (s : Schema) (r : SysDeferredStg) (hc : Consistent
    Kind.DEFERRED_STG s)
    (hstored : s.sysDeferredStgMapRowId.find r.rowId = some r) :
    (dictSysDeferredStgDrop s r).ret = .ok () ∧ Consistent Kind.DEFERRED_STG (dictSysDeferredStgDrop
        s r).schema := by
  simp only [Consistent] at hc
  have h1 := hc.1 _ _ hstored
  obtain ⟨hret, hP, hI1⟩ := dictSysDeferredStgDrop_ok s r r _ hstored h1
  refine ⟨hret, ?_⟩
  simp only [Consistent]
  rw [hP, hI1]
  exact hc.drop RowId.entryStg_injective r hstored

theorem dictSysDeferredStgAdd_then_drop (s : Schema) (r : SysDeferredStg)
    (hfresh : s.sysDeferredStgMapRowId.find r.rowId = none) (hret : (dictSysDeferredStgAdd s r).ret
        = .ok ()) :
    (dictSysDeferredStgDrop (dictSysDeferredStgAdd s r).schema r).ret = .ok () ∧
    SameMaps Kind.DEFERRED_STG s (dictSysDeferredStgDrop (dictSysDeferredStgAdd s r).schema
        r).schema := by
  have h1 := dictSysDeferredStgAdd_returns s r hret
  obtain ⟨_, hP, hI1⟩ := dictSysDeferredStgAdd_ok s r h1
  have hP2 : (dictSysDeferredStgAdd s r).schema.sysDeferredStgMapRowId.find r.rowId = some r := by
    rw [hP]; exact Map.find_set_self _ _ _
  have hJ1 : (dictSysDeferredStgAdd s r).schema.sysDeferredStgMapObj.find r.obj = some (some
      r.rowId) := by
    rw [hI1]; exact Map.find_set_self _ _ _
  obtain ⟨hret2, hQ, hQ1⟩ := dictSysDeferredStgDrop_ok (dictSysDeferredStgAdd s r).schema r r _ hP2
      hJ1
  refine ⟨hret2, ?_⟩
  simp only [SameMaps]
  rw [hQ, hQ1, hP, hI1, Map.erase_set_of_find_none _ _ _ hfresh,
    Map.erase_set_of_find_none _ _ _ h1]
  exact ⟨rfl, rfl⟩

theorem dictSysEColAdd_consistent (s : Schema) (r : SysECol) (hc : Consistent Kind.ECOL s)
    (hfresh : s.sysEColMapRowId.find r.rowId = none) (hret : (dictSysEColAdd s r).ret = .ok ()) :
    Consistent Kind.ECOL (dictSysEColAdd s r).schema := by
  have h1 := dictSysEColAdd_returns s r hret
  obtain ⟨_, hP, hI1⟩ := dictSysEColAdd_ok s r h1
  simp only [Consistent] at hc ⊢
  rw [hP, hI1]
  exact hc.add r hfresh h1

theorem dictSysEColDrop_consistent (s : Schema) (r : SysECol) (hc : Consistent Kind.ECOL s)
    (hstored : s.sysEColMapRowId.find r.rowId = some r) :
    (dictSysEColDrop s r).ret = .ok () ∧ Consistent Kind.ECOL (dictSysEColDrop s r).schema := by
  simp only [Consistent] at hc
  have h1 := hc.1 _ _ hstored
  obtain ⟨hret, hP, hI1⟩ := dictSysEColDrop_ok s r r _ hstored h1
  refine ⟨hret, ?_⟩
  simp only [Consistent]
  rw [hP, hI1]
  exact hc.drop RowId.entry_injective r hstored

theorem dictSysEColAdd_then_drop (s : Schema) (r : SysECol)
    (hfresh : s.sysEColMapRowId.find r.rowId = none) (hret : (dictSysEColAdd s r).ret = .ok ()) :
    (dictSysEColDrop (dictSysEColAdd s r).schema r).ret = .ok () ∧
    SameMaps Kind.ECOL s (dictSysEColDrop (dictSysEColAdd s r).schema r).schema := by
  have h1 := dictSysEColAdd_returns s r hret
  obtain ⟨_, hP, hI1⟩ := dictSysEColAdd_ok s r h1
  have hP2 : (dictSysEColAdd s r).schema.sysEColMapRowId.find r.rowId = some r := by
    rw [hP]; exact Map.find_set_self _ _ _
  have hJ1 : (dictSysEColAdd s r).schema.sysEColMapKey.find r.key = some r.rowId := by
    rw [hI1]; exact Map.find_set_self _ _ _
  obtain ⟨hret2, hQ, hQ1⟩ := dictSysEColDrop_ok (dictSysEColAdd s r).schema r r _ hP2 hJ1
  refine ⟨hret2, ?_⟩
  simp only [SameMaps]
  rw [hQ, hQ1, hP, hI1, Map.erase_set_of_find_none _ _ _ hfresh,
    Map.erase_set_of_find_none _ _ _ h1]
  exact ⟨rfl, rfl⟩

theorem dictSysLobAdd_consistent (s : Schema) (r : SysLob) (hc : Consistent Kind.LOB s)
    (hfresh : s.sysLobMapRowId.find r.rowId = none) (hret : (dictSysLobAdd s r).ret = .ok ()) :
    Consistent Kind.LOB (dictSysLobAdd s r).schema := by
  obtain ⟨h1, h2⟩ := dictSysLobAdd_returns s r hret
  obtain ⟨_, hP, hI1, hI2⟩ := dictSysLobAdd_ok s r h1 h2
  simp only [Consistent] at hc ⊢
  rw [hP, hI1, hI2]
  exact ⟨hc.1.add r hfresh h1, hc.2.add r hfresh h2⟩

theorem dictSysLobDrop_consistent (s : Schema) (r : SysLob) (hc : Consistent Kind.LOB s)
    (hstored : s.sysLobMapRowId.find r.rowId = some r) :
    (dictSysLobDrop s r).ret = .ok () ∧ Consistent Kind.LOB (dictSysLobDrop s r).schema := by
  simp only [Consistent] at hc
  have h1 := hc.1.1 _ _ hstored
  have h2 := hc.2.1 _ _ hstored
  obtain ⟨hret, hP, hI1, hI2⟩ := dictSysLobDrop_ok s r r _ _ hstored h1 h2
  refine ⟨hret, ?_⟩
  simp only [Consistent]
  rw [hP, hI1, hI2]
  exact ⟨hc.1.drop RowId.entry_injective r hstored, hc.2.drop RowId.entry_injective r hstored⟩

theorem dictSysLobAdd_then_drop (s : Schema) (r : SysLob)
    (hfresh : s.sysLobMapRowId.find r.rowId = none) (hret : (dictSysLobAdd s r).ret = .ok ()) :
    (dictSysLobDrop (dictSysLobAdd s r).schema r).ret = .ok () ∧
    SameMaps Kind.LOB s (dictSysLobDrop (dictSysLobAdd s r).schema r).schema := by
  obtain ⟨h1, h2⟩ := dictSysLobAdd_returns s r hret
  obtain ⟨_, hP, hI1, hI2⟩ := dictSysLobAdd_ok s r h1 h2
  have hP2 : (dictSysLobAdd s r).schema.sysLobMapRowId.find r.rowId = some r := by
    rw [hP]; exact Map.find_set_self _ _ _
  have hJ1 : (dictSysLobAdd s r).schema.sysLobMapKey.find r.key = some r.rowId := by
    rw [hI1]; exact Map.find_set_self _ _ _
  have hJ2 : (dictSysLobAdd s r).schema.sysLobMapLObj.find r.lObj = some r.rowId := by
    rw [hI2]; exact Map.find_set_self _ _ _
  obtain ⟨hret2, hQ, hQ1, hQ2⟩ := dictSysLobDrop_ok (dictSysLobAdd s r).schema r r _ _ hP2 hJ1 hJ2
  refine ⟨hret2, ?_⟩
  simp only [SameMaps]
  rw [hQ, hQ1, hQ2, hP, hI1, hI2, Map.erase_set_of_find_none _ _ _ hfresh,
    Map.erase_set_of_find_none _ _ _ h1, Map.erase_set_of_find_none _ _ _ h2]
  exact ⟨rfl, rfl, rfl⟩

theorem dictSysLobCompPartAdd_consistent (s : Schema) (r : SysLobCompPart) (hc : Consistent
    Kind.LOBCOMPPART s)
    (hfresh : s.sysLobCompPartMapRowId.find r.rowId = none) (hret : (dictSysLobCompPartAdd s r).ret
        = .ok ()) :
    Consistent Kind.LOBCOMPPART (dictSysLobCompPartAdd s r).schema := by
  obtain ⟨h1, h2⟩ := dictSysLobCompPartAdd_returns s r hret
  obtain ⟨_, hP, hI1, hI2⟩ := dictSysLobCompPartAdd_ok s r h1 h2
  simp only [Consistent] at hc ⊢
  rw [hP, hI1, hI2]
  exact ⟨hc.1.add r hfresh h1, hc.2.add r hfresh h2⟩

theorem dictSysLobCompPartDrop_consistent (s : Schema) (r : SysLobCompPart) (hc : Consistent
    Kind.LOBCOMPPART s)
    (hstored : s.sysLobCompPartMapRowId.find r.rowId = some r) :
    (dictSysLobCompPartDrop s r).ret = .ok () ∧ Consistent Kind.LOBCOMPPART (dictSysLobCompPartDrop
        s r).schema := by
  simp only [Consistent] at hc
  have h1 := hc.1.1 _ _ hstored
  have h2 := hc.2.1 _ _ hstored
  obtain ⟨hret, hP, hI1, hI2⟩ := dictSysLobCompPartDrop_ok s r r _ _ hstored h1 h2
  refine ⟨hret, ?_⟩
  simp only [Consistent]
  rw [hP, hI1, hI2]
  exact ⟨hc.1.drop RowId.entry_injective r hstored, hc.2.drop RowId.entry_injective r hstored⟩

theorem dictSysLobCompPartAdd_then_drop (s : Schema) (r : SysLobCompPart)
    (hfresh : s.sysLobCompPartMapRowId.find r.rowId = none) (hret : (dictSysLobCompPartAdd s r).ret
        = .ok ()) :
    (dictSysLobCompPartDrop (dictSysLobCompPartAdd s r).schema r).ret = .ok () ∧
    SameMaps Kind.LOBCOMPPART s (dictSysLobCompPartDrop (dictSysLobCompPartAdd s r).schema r).schema
        := by
  obtain ⟨h1, h2⟩ := dictSysLobCompPartAdd_returns s r hret
  obtain ⟨_, hP, hI1, hI2⟩ := dictSysLobCompPartAdd_ok s r h1 h2
  have hP2 : (dictSysLobCompPartAdd s r).schema.sysLobCompPartMapRowId.find r.rowId = some r := by
    rw [hP]; exact Map.find_set_self _ _ _
  have hJ1 : (dictSysLobCompPartAdd s r).schema.sysLobCompPartMapKey.find r.key = some r.rowId := by
    rw [hI1]; exact Map.find_set_self _ _ _
  have hJ2 : (dictSysLobCompPartAdd s r).schema.sysLobCompPartMapPartObj.find r.partObj = some
      r.rowId := by
    rw [hI2]; exact Map.find_set_self _ _ _
  obtain ⟨hret2, hQ, hQ1, hQ2⟩ := dictSysLobCompPartDrop_ok (dictSysLobCompPartAdd s r).schema r r _
      _ hP2 hJ1 hJ2
  refine ⟨hret2, ?_⟩
  simp only [SameMaps]
  rw [hQ, hQ1, hQ2, hP, hI1, hI2, Map.erase_set_of_find_none _ _ _ hfresh,
    Map.erase_set_of_find_none _ _ _ h1, Map.erase_set_of_find_none _ _ _ h2]
  exact ⟨rfl, rfl, rfl⟩

theorem dictSysLobFragAdd_consistent (s : Schema) (r : SysLobFrag) (hc : Consistent Kind.LOBFRAG s)
    (hfresh : s.sysLobFragMapRowId.find r.rowId = none) (hret : (dictSysLobFragAdd s r).ret = .ok
        ()) :
    Consistent Kind.LOBFRAG (dictSysLobFragAdd s r).schema := by
  have h1 := dictSysLobFragAdd_returns s r hret
  obtain ⟨_, hP, hI1⟩ := dictSysLobFragAdd_ok s r h1
  simp only [Consistent] at hc ⊢
  rw [hP, hI1]
  exact hc.add r hfresh h1

theorem dictSysLobFragDrop_consistent (s : Schema) (r : SysLobFrag) (hc : Consistent Kind.LOBFRAG s)
    (hstored : s.sysLobFragMapRowId.find r.rowId = some r) :
    (dictSysLobFragDrop s r).ret = .ok () ∧ Consistent Kind.LOBFRAG (dictSysLobFragDrop s r).schema
        := by
  simp only [Consistent] at hc
  have h1 := hc.1 _ _ hstored
  obtain ⟨hret, hP, hI1⟩ := dictSysLobFragDrop_ok s r r _ hstored h1
  refine ⟨hret, ?_⟩
  simp only [Consistent]
  rw [hP, hI1]
  exact hc.drop RowId.entry_injective r hstored

theorem dictSysLobFragAdd_then_drop (s : Schema) (r : SysLobFrag)
    (hfresh : s.sysLobFragMapRowId.find r.rowId = none) (hret : (dictSysLobFragAdd s r).ret = .ok
        ()) :
    (dictSysLobFragDrop (dictSysLobFragAdd s r).schema r).ret = .ok () ∧
    SameMaps Kind.LOBFRAG s (dictSysLobFragDrop (dictSysLobFragAdd s r).schema r).schema := by
  have h1 := dictSysLobFragAdd_returns s r hret
  obtain ⟨_, hP, hI1⟩ := dictSysLobFragAdd_ok s r h1
  have hP2 : (dictSysLobFragAdd s r).schema.sysLobFragMapRowId.find r.rowId = some r := by
    rw [hP]; exact Map.find_set_self _ _ _
  have hJ1 : (dictSysLobFragAdd s r).schema.sysLobFragMapKey.find r.key = some r.rowId := by
    rw [hI1]; exact Map.find_set_self _ _ _
  obtain ⟨hret2, hQ, hQ1⟩ := dictSysLobFragDrop_ok (dictSysLobFragAdd s r).schema r r _ hP2 hJ1
  refine ⟨hret2, ?_⟩
  simp only [SameMaps]
  rw [hQ, hQ1, hP, hI1, Map.erase_set_of_find_none _ _ _ hfresh,
    Map.erase_set_of_find_none _ _ _ h1]
  exact ⟨rfl, rfl⟩

theorem dictSysObjAdd_consistent (s : Schema) (r : SysObj) (hc : Consistent Kind.OBJ s)
    (hfresh : s.sysObjMapRowId.find r.rowId = none) (hret : (dictSysObjAdd s r).ret = .ok ()) :
    Consistent Kind.OBJ (dictSysObjAdd s r).schema := by
  obtain ⟨h1, h2⟩ := dictSysObjAdd_returns s r hret
  obtain ⟨_, hP, hI1, hI2⟩ := dictSysObjAdd_ok s r h1 h2
  simp only [Consistent] at hc ⊢
  rw [hP, hI1, hI2]
  exact ⟨hc.1.add r hfresh h1, hc.2.add r hfresh h2⟩

theorem dictSysObjDrop_consistent (s : Schema) (r : SysObj) (hc : Consistent Kind.OBJ s)
    (hstored : s.sysObjMapRowId.find r.rowId = some r) :
    (dictSysObjDrop s r).ret = .ok () ∧ Consistent Kind.OBJ (dictSysObjDrop s r).schema := by
  simp only [Consistent] at hc
  have h1 := hc.1.1 _ _ hstored
  have h2 := hc.2.1 _ _ hstored
  obtain ⟨hret, hP, hI1, hI2⟩ := dictSysObjDrop_ok s r r _ _ hstored h1 h2
  refine ⟨hret, ?_⟩
  simp only [Consistent]
  rw [hP, hI1, hI2]
  exact ⟨hc.1.drop RowId.entry_injective r hstored, hc.2.drop RowId.entry_injective r hstored⟩

theorem dictSysObjAdd_then_drop (s : Schema) (r : SysObj)
    (hfresh : s.sysObjMapRowId.find r.rowId = none) (hret : (dictSysObjAdd s r).ret = .ok ()) :
    (dictSysObjDrop (dictSysObjAdd s r).schema r).ret = .ok () ∧
    SameMaps Kind.OBJ s (dictSysObjDrop (dictSysObjAdd s r).schema r).schema := by
  obtain ⟨h1, h2⟩ := dictSysObjAdd_returns s r hret
  obtain ⟨_, hP, hI1, hI2⟩ := dictSysObjAdd_ok s r h1 h2
  have hP2 : (dictSysObjAdd s r).schema.sysObjMapRowId.find r.rowId = some r := by
    rw [hP]; exact Map.find_set_self _ _ _
  have hJ1 : (dictSysObjAdd s r).schema.sysObjMapName.find r.nameKey = some r.rowId := by
    rw [hI1]; exact Map.find_set_self _ _ _
  have hJ2 : (dictSysObjAdd s r).schema.sysObjMapObj.find r.obj = some r.rowId := by
    rw [hI2]; exact Map.find_set_self _ _ _
  obtain ⟨hret2, hQ, hQ1, hQ2⟩ := dictSysObjDrop_ok (dictSysObjAdd s r).schema r r _ _ hP2 hJ1 hJ2
  refine ⟨hret2, ?_⟩
  simp only [SameMaps]
  rw [hQ, hQ1, hQ2, hP, hI1, hI2, Map.erase_set_of_find_none _ _ _ hfresh,
    Map.erase_set_of_find_none _ _ _ h1, Map.erase_set_of_find_none _ _ _ h2]
  exact ⟨rfl, rfl, rfl⟩

theorem dictSysTabAdd_consistent (s : Schema) (r : SysTab) (hc : Consistent Kind.TAB s)
    (hfresh : s.sysTabMapRowId.find r.rowId = none) (hret : (dictSysTabAdd s r).ret = .ok ()) :
    Consistent Kind.TAB (dictSysTabAdd s r).schema := by
  have h1 := dictSysTabAdd_returns s r hret
  obtain ⟨_, hP, hI1⟩ := dictSysTabAdd_ok s r h1
  simp only [Consistent] at hc ⊢
  rw [hP, hI1]
  exact hc.add r hfresh h1

theorem dictSysTabDrop_consistent (s : Schema) (r : SysTab) (hc : Consistent Kind.TAB s)
    (hstored : s.sysTabMapRowId.find r.rowId = some r) :
    (dictSysTabDrop s r).ret = .ok () ∧ Consistent Kind.TAB (dictSysTabDrop s r).schema := by
  simp only [Consistent] at hc
  have h1 := hc.1 _ _ hstored
  obtain ⟨hret, hP, hI1⟩ := dictSysTabDrop_ok s r r _ hstored h1
  refine ⟨hret, ?_⟩
  simp only [Consistent]
  rw [hP, hI1]
  exact hc.drop RowId.entry_injective r hstored

theorem dictSysTabAdd_then_drop (s : Schema) (r : SysTab)
    (hfresh : s.sysTabMapRowId.find r.rowId = none) (hret : (dictSysTabAdd s r).ret = .ok ()) :
    (dictSysTabDrop (dictSysTabAdd s r).schema r).ret = .ok () ∧
    SameMaps Kind.TAB s (dictSysTabDrop (dictSysTabAdd s r).schema r).schema := by
  have h1 := dictSysTabAdd_returns s r hret
  obtain ⟨_, hP, hI1⟩ := dictSysTabAdd_ok s r h1
  have hP2 : (dictSysTabAdd s r).schema.sysTabMapRowId.find r.rowId = some r := by
    rw [hP]; exact Map.find_set_self _ _ _
  have hJ1 : (dictSysTabAdd s r).schema.sysTabMapObj.find r.obj = some r.rowId := by
    rw [hI1]; exact Map.find_set_self _ _ _
  obtain ⟨hret2, hQ, hQ1⟩ := dictSysTabDrop_ok (dictSysTabAdd s r).schema r r _ hP2 hJ1
  refine ⟨hret2, ?_⟩
  simp only [SameMaps]
  rw [hQ, hQ1, hP, hI1, Map.erase_set_of_find_none _ _ _ hfresh,
    Map.erase_set_of_find_none _ _ _ h1]
  exact ⟨rfl, rfl⟩

theorem dictSysTabComPartAdd_consistent (s : Schema) (r : SysTabComPart) (hc : Consistent
    Kind.TABCOMPART s)
    (hfresh : s.sysTabComPartMapRowId.find r.rowId = none) (hret : (dictSysTabComPartAdd s r).ret =
        .ok ()) :
    Consistent Kind.TABCOMPART (dictSysTabComPartAdd s r).schema := by
  obtain ⟨h1, h2⟩ := dictSysTabComPartAdd_returns s r hret
  obtain ⟨_, hP, hI1, hI2⟩ := dictSysTabComPartAdd_ok s r h1 h2
  simp only [Consistent] at hc ⊢
  rw [hP, hI1, hI2]
  exact ⟨hc.1.add r hfresh h1, hc.2.add r hfresh h2⟩

theorem dictSysTabComPartDrop_consistent (s : Schema) (r : SysTabComPart) (hc : Consistent
    Kind.TABCOMPART s)
    (hstored : s.sysTabComPartMapRowId.find r.rowId = some r) :
    (dictSysTabComPartDrop s r).ret = .ok () ∧ Consistent Kind.TABCOMPART (dictSysTabComPartDrop s
        r).schema := by
  simp only [Consistent] at hc
  have h1 := hc.1.1 _ _ hstored
  have h2 := hc.2.1 _ _ hstored
  obtain ⟨hret, hP, hI1, hI2⟩ := dictSysTabComPartDrop_ok s r r _ _ hstored h1 h2
  refine ⟨hret, ?_⟩
  simp only [Consistent]
  rw [hP, hI1, hI2]
  exact ⟨hc.1.drop RowId.entry_injective r hstored, hc.2.drop RowId.entry_injective r hstored⟩

theorem dictSysTabComPartAdd_then_drop (s : Schema) (r : SysTabComPart)
    (hfresh : s.sysTabComPartMapRowId.find r.rowId = none) (hret : (dictSysTabComPartAdd s r).ret =
        .ok ()) :
    (dictSysTabComPartDrop (dictSysTabComPartAdd s r).schema r).ret = .ok () ∧
    SameMaps Kind.TABCOMPART s (dictSysTabComPartDrop (dictSysTabComPartAdd s r).schema r).schema :=
        by
  obtain ⟨h1, h2⟩ := dictSysTabComPartAdd_returns s r hret
  obtain ⟨_, hP, hI1, hI2⟩ := dictSysTabComPartAdd_ok s r h1 h2
  have hP2 : (dictSysTabComPartAdd s r).schema.sysTabComPartMapRowId.find r.rowId = some r := by
    rw [hP]; exact Map.find_set_self _ _ _
  have hJ1 : (dictSysTabComPartAdd s r).schema.sysTabComPartMapKey.find r.key = some r.rowId := by
    rw [hI1]; exact Map.find_set_self _ _ _
  have hJ2 : (dictSysTabComPartAdd s r).schema.sysTabComPartMapObj.find r.obj = some r.rowId := by
    rw [hI2]; exact Map.find_set_self _ _ _
  obtain ⟨hret2, hQ, hQ1, hQ2⟩ := dictSysTabComPartDrop_ok (dictSysTabComPartAdd s r).schema r r _ _
      hP2 hJ1 hJ2
  refine ⟨hret2, ?_⟩
  simp only [SameMaps]
  rw [hQ, hQ1, hQ2, hP, hI1, hI2, Map.erase_set_of_find_none _ _ _ hfresh,
    Map.erase_set_of_find_none _ _ _ h1, Map.erase_set_of_find_none _ _ _ h2]
  exact ⟨rfl, rfl, rfl⟩

theorem dictSysTabPartAdd_consistent (s : Schema) (r : SysTabPart) (hc : Consistent Kind.TABPART s)
    (hfresh : s.sysTabPartMapRowId.find r.rowId = none) (hret : (dictSysTabPartAdd s r).ret = .ok
        ()) :
    Consistent Kind.TABPART (dictSysTabPartAdd s r).schema := by
  have h1 := dictSysTabPartAdd_returns s r hret
  obtain ⟨_, hP, hI1⟩ := dictSysTabPartAdd_ok s r h1
  simp only [Consistent] at hc ⊢
  rw [hP, hI1]
  exact hc.add r hfresh h1

theorem dictSysTabPartDrop_consistent (s : Schema) (r : SysTabPart) (hc : Consistent Kind.TABPART s)
    (hstored : s.sysTabPartMapRowId.find r.rowId = some r) :
    (dictSysTabPartDrop s r).ret = .ok () ∧ Consistent Kind.TABPART (dictSysTabPartDrop s r).schema
        := by
  simp only [Consistent] at hc
  have h1 := hc.1 _ _ hstored
  obtain ⟨hret, hP, hI1⟩ := dictSysTabPartDrop_ok s r r _ hstored h1
  refine ⟨hret, ?_⟩
  simp only [Consistent]
  rw [hP, hI1]
  exact hc.drop RowId.entry_injective r hstored

theorem dictSysTabPartAdd_then_drop (s : Schema) (r : SysTabPart)
    (hfresh : s.sysTabPartMapRowId.find r.rowId = none) (hret : (dictSysTabPartAdd s r).ret = .ok
        ()) :
    (dictSysTabPartDrop (dictSysTabPartAdd s r).schema r).ret = .ok () ∧
    SameMaps Kind.TABPART s (dictSysTabPartDrop (dictSysTabPartAdd s r).schema r).schema := by
  have h1 := dictSysTabPartAdd_returns s r hret
  obtain ⟨_, hP, hI1⟩ := dictSysTabPartAdd_ok s r h1
  have hP2 : (dictSysTabPartAdd s r).schema.sysTabPartMapRowId.find r.rowId = some r := by
    rw [hP]; exact Map.find_set_self _ _ _
  have hJ1 : (dictSysTabPartAdd s r).schema.sysTabPartMapKey.find r.key = some r.rowId := by
    rw [hI1]; exact Map.find_set_self _ _ _
  obtain ⟨hret2, hQ, hQ1⟩ := dictSysTabPartDrop_ok (dictSysTabPartAdd s r).schema r r _ hP2 hJ1
  refine ⟨hret2, ?_⟩
  simp only [SameMaps]
  rw [hQ, hQ1, hP, hI1, Map.erase_set_of_find_none _ _ _ hfresh,
    Map.erase_set_of_find_none _ _ _ h1]
  exact ⟨rfl, rfl⟩

theorem dictSysTabSubPartAdd_consistent (s : Schema) (r : SysTabSubPart) (hc : Consistent
    Kind.TABSUBPART s)
    (hfresh : s.sysTabSubPartMapRowId.find r.rowId = none) (hret : (dictSysTabSubPartAdd s r).ret =
        .ok ()) :
    Consistent Kind.TABSUBPART (dictSysTabSubPartAdd s r).schema := by
  have h1 := dictSysTabSubPartAdd_returns s r hret
  obtain ⟨_, hP, hI1⟩ := dictSysTabSubPartAdd_ok s r h1
  simp only [Consistent] at hc ⊢
  rw [hP, hI1]
  exact hc.add r hfresh h1

theorem dictSysTabSubPartDrop_consistent (s : Schema) (r : SysTabSubPart) (hc : Consistent
    Kind.TABSUBPART s)
    (hstored : s.sysTabSubPartMapRowId.find r.rowId = some r) :
    (dictSysTabSubPartDrop s r).ret = .ok () ∧ Consistent Kind.TABSUBPART (dictSysTabSubPartDrop s
        r).schema := by
  simp only [Consistent] at hc
  have h1 := hc.1 _ _ hstored
  obtain ⟨hret, hP, hI1⟩ := dictSysTabSubPartDrop_ok s r r _ hstored h1
  refine ⟨hret, ?_⟩
  simp only [Consistent]
  rw [hP, hI1]
  exact hc.drop RowId.entry_injective r hstored

theorem dictSysTabSubPartAdd_then_drop (s : Schema) (r : SysTabSubPart)
    (hfresh : s.sysTabSubPartMapRowId.find r.rowId = none) (hret : (dictSysTabSubPartAdd s r).ret =
        .ok ()) :
    (dictSysTabSubPartDrop (dictSysTabSubPartAdd s r).schema r).ret = .ok () ∧
    SameMaps Kind.TABSUBPART s (dictSysTabSubPartDrop (dictSysTabSubPartAdd s r).schema r).schema :=
        by
  have h1 := dictSysTabSubPartAdd_returns s r hret
  obtain ⟨_, hP, hI1⟩ := dictSysTabSubPartAdd_ok s r h1
  have hP2 : (dictSysTabSubPartAdd s r).schema.sysTabSubPartMapRowId.find r.rowId = some r := by
    rw [hP]; exact Map.find_set_self _ _ _
  have hJ1 : (dictSysTabSubPartAdd s r).schema.sysTabSubPartMapKey.find r.key = some r.rowId := by
    rw [hI1]; exact Map.find_set_self _ _ _
  obtain ⟨hret2, hQ, hQ1⟩ := dictSysTabSubPartDrop_ok (dictSysTabSubPartAdd s r).schema r r _ hP2
      hJ1
  refine ⟨hret2, ?_⟩
  simp only [SameMaps]
  rw [hQ, hQ1, hP, hI1, Map.erase_set_of_find_none _ _ _ hfresh,
    Map.erase_set_of_find_none _ _ _ h1]
  exact ⟨rfl, rfl⟩

theorem dictSysTsAdd_consistent (s : Schema) (r : SysTs) (hc : Consistent Kind.TS s)
    (hfresh : s.sysTsMapRowId.find r.rowId = none) (hret : (dictSysTsAdd s r).ret = .ok ()) :
    Consistent Kind.TS (dictSysTsAdd s r).schema := by
  have h1 := dictSysTsAdd_returns s r hret
  obtain ⟨_, hP, hI1⟩ := dictSysTsAdd_ok s r h1
  simp only [Consistent] at hc ⊢
  rw [hP, hI1]
  exact hc.add r hfresh h1

theorem dictSysTsDrop_consistent (s : Schema) (r : SysTs) (hc : Consistent Kind.TS s)
    (hstored : s.sysTsMapRowId.find r.rowId = some r) :
    (dictSysTsDrop s r).ret = .ok () ∧ Consistent Kind.TS (dictSysTsDrop s r).schema := by
  simp only [Consistent] at hc
  have h1 := hc.1 _ _ hstored
  obtain ⟨hret, hP, hI1⟩ := dictSysTsDrop_ok s r r _ hstored h1
  refine ⟨hret, ?_⟩
  simp only [Consistent]
  rw [hP, hI1]
  exact hc.drop RowId.entry_injective r hstored

theorem dictSysTsAdd_then_drop (s : Schema) (r : SysTs)
    (hfresh : s.sysTsMapRowId.find r.rowId = none) (hret : (dictSysTsAdd s r).ret = .ok ()) :
    (dictSysTsDrop (dictSysTsAdd s r).schema r).ret = .ok () ∧
    SameMaps Kind.TS s (dictSysTsDrop (dictSysTsAdd s r).schema r).schema := by
  have h1 := dictSysTsAdd_returns s r hret
  obtain ⟨_, hP, hI1⟩ := dictSysTsAdd_ok s r h1
  have hP2 : (dictSysTsAdd s r).schema.sysTsMapRowId.find r.rowId = some r := by
    rw [hP]; exact Map.find_set_self _ _ _
  have hJ1 : (dictSysTsAdd s r).schema.sysTsMapTs.find r.ts = some r.rowId := by
    rw [hI1]; exact Map.find_set_self _ _ _
  obtain ⟨hret2, hQ, hQ1⟩ := dictSysTsDrop_ok (dictSysTsAdd s r).schema r r _ hP2 hJ1
  refine ⟨hret2, ?_⟩
  simp only [SameMaps]
  rw [hQ, hQ1, hP, hI1, Map.erase_set_of_find_none _ _ _ hfresh,
    Map.erase_set_of_find_none _ _ _ h1]
  exact ⟨rfl, rfl⟩

theorem dictSysUserAdd_consistent (s : Schema) (r : SysUser) (hc : Consistent Kind.USER s)
    (hfresh : s.sysUserMapRowId.find r.rowId = none) (hret : (dictSysUserAdd s r).ret = .ok ()) :
    Consistent Kind.USER (dictSysUserAdd s r).schema := by
  have h1 := dictSysUserAdd_returns s r hret
  obtain ⟨_, hP, hI1⟩ := dictSysUserAdd_ok s r h1
  simp only [Consistent] at hc ⊢
  rw [hP, hI1]
  exact hc.add r hfresh h1

theorem dictSysUserDrop_consistent (s : Schema) (r : SysUser) (hc : Consistent Kind.USER s)
    (hstored : s.sysUserMapRowId.find r.rowId = some r) :
    (dictSysUserDrop s r).ret = .ok () ∧ Consistent Kind.USER (dictSysUserDrop s r).schema := by
  simp only [Consistent] at hc
  have h1 := hc.1 _ _ hstored
  obtain ⟨hret, hP, hI1⟩ := dictSysUserDrop_ok s r r _ hstored h1
  refine ⟨hret, ?_⟩
  simp only [Consistent]
  rw [hP, hI1]
  exact hc.drop RowId.entry_injective r hstored

theorem dictSysUserAdd_then_drop (s : Schema) (r : SysUser)
    (hfresh : s.sysUserMapRowId.find r.rowId = none) (hret : (dictSysUserAdd s r).ret = .ok ()) :
    (dictSysUserDrop (dictSysUserAdd s r).schema r).ret = .ok () ∧
    SameMaps Kind.USER s (dictSysUserDrop (dictSysUserAdd s r).schema r).schema := by
  have h1 := dictSysUserAdd_returns s r hret
  obtain ⟨_, hP, hI1⟩ := dictSysUserAdd_ok s r h1
  have hP2 : (dictSysUserAdd s r).schema.sysUserMapRowId.find r.rowId = some r := by
    rw [hP]; exact Map.find_set_self _ _ _
  have hJ1 : (dictSysUserAdd s r).schema.sysUserMapUser.find r.user = some r.rowId := by
    rw [hI1]; exact Map.find_set_self _ _ _
  obtain ⟨hret2, hQ, hQ1⟩ := dictSysUserDrop_ok (dictSysUserAdd s r).schema r r _ hP2 hJ1
  refine ⟨hret2, ?_⟩
  simp only [SameMaps]
  rw [hQ, hQ1, hP, hI1, Map.erase_set_of_find_none _ _ _ hfresh,
    Map.erase_set_of_find_none _ _ _ h1]
  exact ⟨rfl, rfl⟩


/-! ### The dictionary store: the fifteen kinds at once -/

theorem find_eq_none_of_not_isSome {K V : Type} [DecidableEq K] (m : Map K V) (k : K)
    (h : ¬ (m.find k).isSome = true) : m.find k = none := by
  cases hx : m.find k with
  | none => rfl
  | some x => rw [hx] at h; exact absurd rfl h

theorem Except.ok_of_map_map {ε α β : Type} (f : α → β) (g : β → Unit) (x : Except ε α) (u : Unit)
    (h : Except.map g (Except.map f x) = .ok u) : ∃ a, x = .ok a := by
  cases x with
  | error e => cases h
  | ok a => exact ⟨a, rfl⟩

theorem dictAdd_frame (s : Schema) (r : Row) (k : Kind) (hk : k ≠ r.kind) :
    SameMaps k s (dictAdd s r).schema := by
  cases r with
  | ccol r => exact dictSysCColAdd_frame s r k hk
  | cdef r => exact dictSysCDefAdd_frame s r k hk
  | col r => exact dictSysColAdd_frame s r k hk
  | deferredStg r => exact dictSysDeferredStgAdd_frame s r k hk
  | ecol r => exact dictSysEColAdd_frame s r k hk
  | lob r => exact dictSysLobAdd_frame s r k hk
  | lobCompPart r => exact dictSysLobCompPartAdd_frame s r k hk
  | lobFrag r => exact dictSysLobFragAdd_frame s r k hk
  | obj r => exact dictSysObjAdd_frame s r k hk
  | tab r => exact dictSysTabAdd_frame s r k hk
  | tabComPart r => exact dictSysTabComPartAdd_frame s r k hk
  | tabPart r => exact dictSysTabPartAdd_frame s r k hk
  | tabSubPart r => exact dictSysTabSubPartAdd_frame s r k hk
  | ts r => exact dictSysTsAdd_frame s r k hk
  | user r => exact dictSysUserAdd_frame s r k hk

theorem dictDrop_frame (s : Schema) (r : Row) (k : Kind) (hk : k ≠ r.kind) :
    SameMaps k s (dictDrop s r).schema := by
  cases r with
  | ccol r => exact dictSysCColDrop_frame s r k hk
  | cdef r => exact dictSysCDefDrop_frame s r k hk
  | col r => exact dictSysColDrop_frame s r k hk
  | deferredStg r => exact dictSysDeferredStgDrop_frame s r k hk
  | ecol r => exact dictSysEColDrop_frame s r k hk
  | lob r => exact dictSysLobDrop_frame s r k hk
  | lobCompPart r => exact dictSysLobCompPartDrop_frame s r k hk
  | lobFrag r => exact dictSysLobFragDrop_frame s r k hk
  | obj r => exact dictSysObjDrop_frame s r k hk
  | tab r => exact dictSysTabDrop_frame s r k hk
  | tabComPart r => exact dictSysTabComPartDrop_frame s r k hk
  | tabPart r => exact dictSysTabPartDrop_frame s r k hk
  | tabSubPart r => exact dictSysTabSubPartDrop_frame s r k hk
  | ts r => exact dictSysTsDrop_frame s r k hk
  | user r => exact dictSysUserDrop_frame s r k hk

/-- An add with the rowId string, of a rowId that is not stored, that returns
without raising is the add of the record. -/
theorem dictAddStr_fresh (lim : SchemaLimits) (s : Schema) (r : Row)
    (hfresh : ¬ HasRowId s r.kind r.rowId) (hret : (dictAddStr lim s r).ret = .ok ()) :
    (dictAddStr lim s r).schema = (dictAdd s r).schema ∧ (dictAdd s r).ret = .ok () := by
  cases r with
  | col r =>
    simp only [Row.kind, Row.rowId, HasRowId] at hfresh
    have hx := find_eq_none_of_not_isSome _ _ hfresh
    simp only [dictAddStr, dictSysColAddStr, hx] at hret ⊢
    by_cases hn : r.name.utf8ByteSize > lim.SYS_COL_NAME_LENGTH
    · rw [if_pos hn] at hret; cases hret
    · by_cases hs : r.segCol > 1000
      · rw [if_neg hn, if_pos hs] at hret; cases hret
      · rw [if_neg hn, if_neg hs]
        exact ⟨rfl, rfl⟩
  | obj r =>
    simp only [Row.kind, Row.rowId, HasRowId] at hfresh
    have hx := find_eq_none_of_not_isSome _ _ hfresh
    simp only [dictAddStr, dictSysObjAddStr, hx, Result.void] at hret ⊢
    by_cases hn : r.name.utf8ByteSize > lim.SYS_OBJ_NAME_LENGTH
    · rw [if_pos hn] at hret; cases hret
    · rw [if_neg hn] at hret ⊢
      obtain ⟨a, ha⟩ := Except.ok_of_map_map _ _ _ _ hret
      exact ⟨rfl, ha⟩
  | user r =>
    simp only [Row.kind, Row.rowId, HasRowId] at hfresh
    have hx := find_eq_none_of_not_isSome _ _ hfresh
    simp only [dictAddStr, dictSysUserAddStr, hx, Result.void] at hret ⊢
    by_cases hn : r.name.utf8ByteSize > lim.SYS_USER_NAME_LENGTH
    · rw [if_pos hn] at hret; cases hret
    · rw [if_neg hn] at hret ⊢
      obtain ⟨a, ha⟩ := Except.ok_of_map_map _ _ _ _ hret
      exact ⟨rfl, ha⟩
  | _ =>
    simp only [Row.kind, Row.rowId, HasRowId] at hfresh
    have hx := find_eq_none_of_not_isSome _ _ hfresh
    simp only [dictAddStr, dictSysCColAddStr, dictSysCDefAddStr,
      dictSysDeferredStgAddStr, dictSysEColAddStr, dictSysLobAddStr, dictSysLobCompPartAddStr,
      dictSysLobFragAddStr, dictSysTabAddStr, dictSysTabComPartAddStr, dictSysTabPartAddStr,
      dictSysTabSubPartAddStr, dictSysTsAddStr, hx] at hret ⊢
    exact ⟨rfl, hret⟩


/-- An add with the rowId string, of a rowId that is stored, that returns
without raising is an add of OBJ$ or USER$, and it leaves the schema as it is
or clears `single` of the stored record. -/
theorem dictAddStr_stored (lim : SchemaLimits) (s : Schema) (r : Row)
    (hstored : HasRowId s r.kind r.rowId) (hret : (dictAddStr lim s r).ret = .ok ()) :
    (dictAddStr lim s r).schema = s ∨
    (∃ x : SysObj, s.sysObjMapRowId.find r.rowId = some x ∧
      (dictAddStr lim s r).schema =
        { s with sysObjMapRowId := s.sysObjMapRowId.set r.rowId { x with single := false } }) ∨
    (∃ x : SysUser, s.sysUserMapRowId.find r.rowId = some x ∧
      (dictAddStr lim s r).schema =
        { s with sysUserMapRowId := s.sysUserMapRowId.set r.rowId { x with single := false } }) :=
            by
  cases r with
  | obj r =>
    simp only [Row.kind, Row.rowId, HasRowId, Option.isSome_iff_exists] at hstored
    obtain ⟨x, hx⟩ := hstored
    simp only [dictAddStr, dictSysObjAddStr, hx, Result.void, Row.rowId]
    by_cases h1 : x.single = true
    · by_cases h2 : r.single = false
      · rw [if_pos h1, if_pos h2]
        exact Or.inr (Or.inl ⟨x, rfl, rfl⟩)
      · rw [if_pos h1, if_neg h2]
        exact Or.inl rfl
    · rw [if_neg h1]
      exact Or.inl rfl
  | user r =>
    simp only [Row.kind, Row.rowId, HasRowId, Option.isSome_iff_exists] at hstored
    obtain ⟨x, hx⟩ := hstored
    simp only [dictAddStr, dictSysUserAddStr, hx, Result.void, Row.rowId]
    by_cases h1 : x.single = true
    · by_cases h2 : r.single = false
      · rw [if_pos h1, if_pos h2]
        exact Or.inr (Or.inr ⟨x, rfl, rfl⟩)
      · rw [if_pos h1, if_neg h2]
        exact Or.inl rfl
    · rw [if_neg h1]
      exact Or.inl rfl
  | _ =>
    exfalso
    simp only [Row.kind, Row.rowId, HasRowId, Option.isSome_iff_exists] at hstored
    obtain ⟨x, hx⟩ := hstored
    simp only [dictAddStr, dictSysCColAddStr, dictSysCDefAddStr, dictSysColAddStr,
      dictSysDeferredStgAddStr, dictSysEColAddStr, dictSysLobAddStr, dictSysLobCompPartAddStr,
      dictSysLobFragAddStr, dictSysTabAddStr, dictSysTabComPartAddStr, dictSysTabPartAddStr,
      dictSysTabSubPartAddStr, dictSysTsAddStr, hx] at hret
    cases hret

theorem dictAdd_consistent (s : Schema) (r : Row) (hcol : r.kind ≠ Kind.COL)
    (hc : Consistent r.kind s) (hfresh : ¬ HasRowId s r.kind r.rowId)
    (hret : (dictAdd s r).ret = .ok ()) : Consistent r.kind (dictAdd s r).schema := by
  cases r with
  | col r => exact absurd rfl hcol
  | ccol r => exact dictSysCColAdd_consistent s r hc (find_eq_none_of_not_isSome _ _ hfresh) hret
  | cdef r => exact dictSysCDefAdd_consistent s r hc (find_eq_none_of_not_isSome _ _ hfresh) hret
  | deferredStg r =>
    exact dictSysDeferredStgAdd_consistent s r hc (find_eq_none_of_not_isSome _ _ hfresh) hret
  | ecol r => exact dictSysEColAdd_consistent s r hc (find_eq_none_of_not_isSome _ _ hfresh) hret
  | lob r => exact dictSysLobAdd_consistent s r hc (find_eq_none_of_not_isSome _ _ hfresh) hret
  | lobCompPart r =>
    exact dictSysLobCompPartAdd_consistent s r hc (find_eq_none_of_not_isSome _ _ hfresh) hret
  | lobFrag r =>
    exact dictSysLobFragAdd_consistent s r hc (find_eq_none_of_not_isSome _ _ hfresh) hret
  | obj r => exact dictSysObjAdd_consistent s r hc (find_eq_none_of_not_isSome _ _ hfresh) hret
  | tab r => exact dictSysTabAdd_consistent s r hc (find_eq_none_of_not_isSome _ _ hfresh) hret
  | tabComPart r =>
    exact dictSysTabComPartAdd_consistent s r hc (find_eq_none_of_not_isSome _ _ hfresh) hret
  | tabPart r =>
    exact dictSysTabPartAdd_consistent s r hc (find_eq_none_of_not_isSome _ _ hfresh) hret
  | tabSubPart r =>
    exact dictSysTabSubPartAdd_consistent s r hc (find_eq_none_of_not_isSome _ _ hfresh) hret
  | ts r => exact dictSysTsAdd_consistent s r hc (find_eq_none_of_not_isSome _ _ hfresh) hret
  | user r => exact dictSysUserAdd_consistent s r hc (find_eq_none_of_not_isSome _ _ hfresh) hret

theorem Consistent.clear_single_obj (k : Kind) (s : Schema) (rowId : RowId) (x : SysObj)
    (hx : s.sysObjMapRowId.find rowId = some x) (hc : Consistent k s) :
    Consistent k
      { s with sysObjMapRowId := s.sysObjMapRowId.set rowId { x with single := false } } := by
  cases k <;> simp only [Consistent] at hc ⊢ <;> first
    | exact hc
    | exact ⟨hc.1.update RowId.entry_injective rowId x _ hx rfl rfl,
        hc.2.update RowId.entry_injective rowId x _ hx rfl rfl⟩

theorem Consistent.clear_single_user (k : Kind) (s : Schema) (rowId : RowId) (x : SysUser)
    (hx : s.sysUserMapRowId.find rowId = some x) (hc : Consistent k s) :
    Consistent k
      { s with sysUserMapRowId := s.sysUserMapRowId.set rowId { x with single := false } } := by
  cases k <;> simp only [Consistent] at hc ⊢ <;> first
    | exact hc
    | exact hc.update RowId.entry_injective rowId x _ hx rfl rfl

/-- Index consistency of a kind other than COL$ is kept by every add with the
rowId string that returns without raising. -/
theorem dictAddStr_consistent (lim : SchemaLimits) (s : Schema) (r : Row) (k : Kind)
    (hk : k ≠ Kind.COL) (hc : Consistent k s) (hret : (dictAddStr lim s r).ret = .ok ()) :
    Consistent k (dictAddStr lim s r).schema := by
  by_cases hstored : HasRowId s r.kind r.rowId
  · rcases dictAddStr_stored lim s r hstored hret with h | ⟨x, hx, h⟩ | ⟨x, hx, h⟩
    · rw [h]; exact hc
    · rw [h]; exact Consistent.clear_single_obj k s _ x hx hc
    · rw [h]; exact Consistent.clear_single_user k s _ x hx hc
  · obtain ⟨hs, hr⟩ := dictAddStr_fresh lim s r hstored hret
    rw [hs]
    by_cases hkr : k = r.kind
    · subst hkr
      exact dictAdd_consistent s r hk hc hstored hr
    · exact Consistent.of_sameMaps (dictAdd_frame s r k hkr) hc

theorem dictSysObjAddStr_at_stored (lim : SchemaLimits) (s : Schema) (rowId : RowId)
    (owner obj dataObj type : Nat) (name : String) (flags1 flags2 : Nat) (single : Bool)
    (x : SysObj) (hx : s.sysObjMapRowId.find rowId = some x) :
    dictSysObjAddStr lim s rowId owner obj dataObj type name flags1 flags2 single =
      if x.single = true then
        if single = false then
          { schema := { s with
              sysObjMapRowId := s.sysObjMapRowId.set rowId { x with single := false } }
            ret := .ok true }
        else { schema := s, ret := .ok true }
      else { schema := s, ret := .ok false } := by
  simp only [dictSysObjAddStr, hx]

theorem dictSysUserAddStr_at_stored (lim : SchemaLimits) (s : Schema) (rowId : RowId)
    (user : Nat) (name : String) (spare11 spare12 : Nat) (single : Bool)
    (x : SysUser) (hx : s.sysUserMapRowId.find rowId = some x) :
    dictSysUserAddStr lim s rowId user name spare11 spare12 single =
      if x.single = true then
        if single = false then
          { schema := { s with
              sysUserMapRowId := s.sysUserMapRowId.set rowId { x with single := false } }
            ret := .ok true }
        else { schema := s, ret := .ok true }
      else { schema := s, ret := .ok false } := by
  simp only [dictSysUserAddStr, hx]

/-- After a call of `dictSysUserAdd(rowIdStr, ...)` that returns true the rowId is
stored, with `single` set if the call had it set. -/
theorem dictSysUserAddStr_true (lim : SchemaLimits) (s : Schema) (rowId : RowId)
    (user : Nat) (name : String) (spare11 spare12 : Nat) (single : Bool)
    (h : (dictSysUserAddStr lim s rowId user name spare11 spare12 single).ret = .ok true) :
    ∃ x, (dictSysUserAddStr lim s rowId user name spare11 spare12
        single).schema.sysUserMapRowId.find
        rowId = some x ∧ (single = true → x.single = true) := by
  cases hx : s.sysUserMapRowId.find rowId with
  | some x =>
    rw [dictSysUserAddStr_at_stored lim s rowId user name spare11 spare12 single x hx] at h ⊢
    by_cases h1 : x.single = true
    · by_cases h2 : single = false
      · rw [if_pos h1, if_pos h2]
        exact ⟨_, Map.find_set_self _ _ _, fun h3 => by rw [h3] at h2; cases h2⟩
      · rw [if_pos h1, if_neg h2]
        exact ⟨x, hx, fun _ => h1⟩
    · rw [if_neg h1] at h
      cases h
  | none =>
    simp only [dictSysUserAddStr, hx] at h ⊢
    by_cases hn : name.utf8ByteSize > lim.SYS_USER_NAME_LENGTH
    · rw [if_pos hn] at h; cases h
    · rw [if_neg hn] at h ⊢
      have hret : (dictSysUserAdd s
          { rowId := rowId, user := user, name := name, spare1 := (spare11, spare12),
            single := single }).ret = .ok () := by
        cases hr : (dictSysUserAdd s
          { rowId := rowId, user := user, name := name, spare1 := (spare11, spare12),
            single := single }).ret with
        | ok u => rfl
        | error e => simp only [hr] at h; cases h
      have h1 := dictSysUserAdd_returns s _ hret
      obtain ⟨_, hP, _⟩ := dictSysUserAdd_ok s _ h1
      exact ⟨_, by rw [hP]; exact Map.find_set_self _ _ _, fun h3 => h3⟩


/-! ### The dictionary store: an add followed by the drop of the same record -/

theorem dictSysColAdd_then_drop (s : Schema) (r : SysCol)
    (hfresh : s.sysColMapRowId.find r.rowId = none)
    (hfree : 0 < r.segCol → s.sysColMapSeg.find r.seg = none) :
    (dictSysColDrop (dictSysColAdd s r).schema r).ret = .ok () ∧
    SameMaps Kind.COL s (dictSysColDrop (dictSysColAdd s r).schema r).schema := by
  have hP := dictSysColAdd_primary s r
  have hP2 : (dictSysColAdd s r).schema.sysColMapRowId.find r.rowId = some r := by
    rw [hP]; exact Map.find_set_self _ _ _
  by_cases h0 : 0 < r.segCol
  · have hI := dictSysColAdd_seg_free s r h0 (hfree h0)
    have hJ : (dictSysColAdd s r).schema.sysColMapSeg.find r.seg = some r.rowId := by
      rw [hI]; exact Map.find_set_self _ _ _
    obtain ⟨hret, hQ, hQ1⟩ := dictSysColDrop_ok_seg (dictSysColAdd s r).schema r r _ hP2 h0 hJ
    refine ⟨hret, ?_⟩
    simp only [SameMaps]
    rw [hQ, hQ1, hP, hI, Map.erase_set_of_find_none _ _ _ hfresh,
      Map.erase_set_of_find_none _ _ _ (hfree h0)]
    exact ⟨rfl, rfl⟩
  · have hI := dictSysColAdd_seg_none s r h0
    obtain ⟨hret, hQ, hQ1⟩ := dictSysColDrop_ok_none (dictSysColAdd s r).schema r r hP2 h0
    refine ⟨hret, ?_⟩
    simp only [SameMaps]
    rw [hQ, hQ1, hP, hI, Map.erase_set_of_find_none _ _ _ hfresh]
    exact ⟨rfl, rfl⟩

theorem dictAdd_then_drop (s : Schema) (r : Row) (hfresh : ¬ HasRowId s r.kind r.rowId)
    (hret : (dictAdd s r).ret = .ok ())
    (hcol : ∀ c, r = .col c → 0 < c.segCol → s.sysColMapSeg.find c.seg = none) :
    (dictDrop (dictAdd s r).schema r).ret = .ok () ∧
    SameMaps r.kind s (dictDrop (dictAdd s r).schema r).schema := by
  cases r with
  | col r => exact dictSysColAdd_then_drop s r (find_eq_none_of_not_isSome _ _ hfresh) (hcol r rfl)
  | ccol r => exact dictSysCColAdd_then_drop s r (find_eq_none_of_not_isSome _ _ hfresh) hret
  | cdef r => exact dictSysCDefAdd_then_drop s r (find_eq_none_of_not_isSome _ _ hfresh) hret
  | deferredStg r =>
    exact dictSysDeferredStgAdd_then_drop s r (find_eq_none_of_not_isSome _ _ hfresh) hret
  | ecol r => exact dictSysEColAdd_then_drop s r (find_eq_none_of_not_isSome _ _ hfresh) hret
  | lob r => exact dictSysLobAdd_then_drop s r (find_eq_none_of_not_isSome _ _ hfresh) hret
  | lobCompPart r =>
    exact dictSysLobCompPartAdd_then_drop s r (find_eq_none_of_not_isSome _ _ hfresh) hret
  | lobFrag r => exact dictSysLobFragAdd_then_drop s r (find_eq_none_of_not_isSome _ _ hfresh) hret
  | obj r => exact dictSysObjAdd_then_drop s r (find_eq_none_of_not_isSome _ _ hfresh) hret
  | tab r => exact dictSysTabAdd_then_drop s r (find_eq_none_of_not_isSome _ _ hfresh) hret
  | tabComPart r =>
    exact dictSysTabComPartAdd_then_drop s r (find_eq_none_of_not_isSome _ _ hfresh) hret
  | tabPart r => exact dictSysTabPartAdd_then_drop s r (find_eq_none_of_not_isSome _ _ hfresh) hret
  | tabSubPart r =>
    exact dictSysTabSubPartAdd_then_drop s r (find_eq_none_of_not_isSome _ _ hfresh) hret
  | ts r => exact dictSysTsAdd_then_drop s r (find_eq_none_of_not_isSome _ _ hfresh) hret
  | user r => exact dictSysUserAdd_then_drop s r (find_eq_none_of_not_isSome _ _ hfresh) hret


/-! ### The dictionary store: what an add or a drop that raises leaves behind, and
what an add that returns touches -/

theorem mem_setInsert {T : Type} [DecidableEq T] [KeyOrder T] (x y : T) (l : List T) :
    y ∈ setInsert x l ↔ y = x ∨ y ∈ l := by
  induction l with
  | nil => simp [setInsert]
  | cons z zs ih =>
    unfold setInsert
    by_cases h : x = z
    · rw [if_pos h]
      subst h
      simp
    · rw [if_neg h]
      by_cases hb : KeyOrder.before x z = true
      · rw [if_pos hb]
        simp
      · rw [if_neg hb]
        simp only [List.mem_cons, ih]
        constructor
        · rintro (h1 | h1 | h1)
          · exact Or.inr (Or.inl h1)
          · exact Or.inl h1
          · exact Or.inr (Or.inr h1)
        · rintro (h1 | h1 | h1)
          · exact Or.inr (Or.inl h1)
          · exact Or.inl h1
          · exact Or.inr (Or.inr h1)

theorem touchTable_identifiersTouched (s : Schema) (obj : Nat) :
    (touchTable s obj).identifiersTouched
      = if obj = 0 then s.identifiersTouched else setInsert obj s.identifiersTouched := by
  unfold touchTable
  by_cases h : obj = 0
  · rw [if_pos h, if_pos h]
  · rw [if_neg h, if_neg h]
    dsimp only
    split
    · rfl
    · split <;> rfl

theorem dictSysCColAdd_error (s : Schema) (r : SysCCol) (e : DataException)
    (h : (dictSysCColAdd s r).ret = .error e) :
    e = ⟨50024⟩ ∧ (dictSysCColAdd s r).schema.sysCColMapRowId = s.sysCColMapRowId.set r.rowId r ∧
    (dictSysCColAdd s r).schema.sysCColMapKey = s.sysCColMapKey := by
  cases h1 : s.sysCColMapKey.find r.key with
  | some x =>
    rw [dictSysCColAdd_raises1 s r x h1] at h
    cases h
    simp only [SysCCol.key] at h1
    refine ⟨?_, ?_, ?_⟩ <;> first | trivial | simp only [dictSysCColAdd, h1]
  | none =>
    rw [(dictSysCColAdd_ok s r h1).1] at h
    cases h

theorem dictSysCColAdd_touch (s : Schema) (r : SysCCol)
    (h1 : s.sysCColMapKey.find r.key = none) :
    (dictSysCColAdd s r).schema.touched = true ∧
    (dictSysCColAdd s r).schema.sysCColSetTouched = setInsert r.rowId s.sysCColSetTouched ∧
    (dictSysCColAdd s r).schema.identifiersTouched =
      if r.obj = 0 then s.identifiersTouched else setInsert r.obj s.identifiersTouched := by
  simp only [SysCCol.key] at h1
  simp only [dictSysCColAdd, h1]
  refine ⟨?_, ?_, ?_⟩ <;>
    simp only [touchTable_touched, touchTable_sysCColSetTouched, touchTable_identifiersTouched]

theorem dictSysCColDrop_error (s : Schema) (r : SysCCol) (e : DataException)
    (h : (dictSysCColDrop s r).ret = .error e) :
    e = ⟨50030⟩ ∧ (dictSysCColDrop s r).schema.sysCColMapRowId = s.sysCColMapRowId.erase r.rowId ∧
    (dictSysCColDrop s r).schema.sysCColMapKey.find r.key = none := by
  cases hP : s.sysCColMapRowId.find r.rowId with
  | none =>
    rw [dictSysCColDrop_absent s r hP] at h
    cases h
  | some x =>
    cases h1 : s.sysCColMapKey.find r.key with
    | none =>
      rw [dictSysCColDrop_raises1 s r x hP h1] at h
      cases h
      simp only [SysCCol.key] at h1 ⊢
      refine ⟨?_, ?_, ?_⟩ <;> first | trivial | simp only [dictSysCColDrop, hP, h1]
    | some y =>
      rw [(dictSysCColDrop_ok s r x y hP h1).1] at h
      cases h

theorem dictSysCDefAdd_error (s : Schema) (r : SysCDef) (e : DataException)
    (h : (dictSysCDefAdd s r).ret = .error e) :
    e = ⟨50024⟩ ∧ (dictSysCDefAdd s r).schema.sysCDefMapRowId = s.sysCDefMapRowId.set r.rowId r ∧
    (dictSysCDefAdd s r).schema.sysCDefMapCon = s.sysCDefMapCon ∧
    ((dictSysCDefAdd s r).schema.sysCDefMapKey = s.sysCDefMapKey ∨
      (s.sysCDefMapKey.find r.key = none ∧
        (dictSysCDefAdd s r).schema.sysCDefMapKey = s.sysCDefMapKey.set r.key r.rowId)) := by
  cases h1 : s.sysCDefMapKey.find r.key with
  | some x =>
    rw [dictSysCDefAdd_raises1 s r x h1] at h
    cases h
    simp only [SysCDef.key] at h1
    refine ⟨?_, ?_, ?_, Or.inl ?_⟩ <;> first | trivial | simp only [dictSysCDefAdd, h1]
  | none =>
    cases h2 : s.sysCDefMapCon.find r.con with
    | some y =>
      rw [dictSysCDefAdd_raises2 s r y h2] at h
      cases h
      simp only [SysCDef.key] at h1 ⊢
      refine ⟨?_, ?_, ?_, Or.inr ⟨?_, ?_⟩⟩ <;> first | trivial | simp only [dictSysCDefAdd, h1, h2]
    | none =>
      rw [(dictSysCDefAdd_ok s r h1 h2).1] at h
      cases h

theorem dictSysCDefAdd_touch (s : Schema) (r : SysCDef)
    (h1 : s.sysCDefMapKey.find r.key = none) (h2 : s.sysCDefMapCon.find r.con = none) :
    (dictSysCDefAdd s r).schema.touched = true ∧
    (dictSysCDefAdd s r).schema.sysCDefSetTouched = setInsert r.rowId s.sysCDefSetTouched ∧
    (dictSysCDefAdd s r).schema.identifiersTouched =
      if r.obj = 0 then s.identifiersTouched else setInsert r.obj s.identifiersTouched := by
  simp only [SysCDef.key] at h1 h2
  simp only [dictSysCDefAdd, h1, h2]
  refine ⟨?_, ?_, ?_⟩ <;>
    simp only [touchTable_touched, touchTable_sysCDefSetTouched, touchTable_identifiersTouched]

theorem dictSysCDefDrop_error (s : Schema) (r : SysCDef) (e : DataException)
    (h : (dictSysCDefDrop s r).ret = .error e) :
    e = ⟨50030⟩ ∧ (dictSysCDefDrop s r).schema.sysCDefMapRowId = s.sysCDefMapRowId.erase r.rowId ∧
    (dictSysCDefDrop s r).schema.sysCDefMapKey.find r.key = none ∧
    (dictSysCDefDrop s r).schema.sysCDefMapCon = s.sysCDefMapCon ∧
    (s.sysCDefMapKey.find r.key = none ∨ s.sysCDefMapCon.find r.con = none) := by
  cases hP : s.sysCDefMapRowId.find r.rowId with
  | none =>
    rw [dictSysCDefDrop_absent s r hP] at h
    cases h
  | some x =>
    cases h1 : s.sysCDefMapKey.find r.key with
    | none =>
      rw [dictSysCDefDrop_raises1 s r x hP h1] at h
      cases h
      simp only [SysCDef.key] at h1 ⊢
      refine ⟨?_, ?_, ?_, ?_, Or.inl ?_⟩ <;> first | trivial | simp only [dictSysCDefDrop, hP, h1]
    | some y =>
      cases h2 : s.sysCDefMapCon.find r.con with
      | none =>
        rw [dictSysCDefDrop_raises2 s r x hP h2] at h
        cases h
        simp only [SysCDef.key] at h1 ⊢
        refine ⟨?_, ?_, ?_, ?_, Or.inr ?_⟩ <;>
          first | trivial | exact Map.find_erase_self _ _ | simp only [dictSysCDefDrop, hP, h1, h2]
        exact Map.find_erase_self _ _
      | some y2 =>
        rw [(dictSysCDefDrop_ok s r x y y2 hP h1 h2).1] at h
        cases h

theorem dictSysDeferredStgAdd_error (s : Schema) (r : SysDeferredStg) (e : DataException)
    (h : (dictSysDeferredStgAdd s r).ret = .error e) :
    e = ⟨50024⟩ ∧ (dictSysDeferredStgAdd s r).schema.sysDeferredStgMapRowId = s.sysDeferredStgMapRowId.set r.rowId r ∧
    (dictSysDeferredStgAdd s r).schema.sysDeferredStgMapObj = s.sysDeferredStgMapObj := by
  cases h1 : s.sysDeferredStgMapObj.find r.obj with
  | some x =>
    rw [dictSysDeferredStgAdd_raises1 s r x h1] at h
    cases h
    refine ⟨?_, ?_, ?_⟩ <;> first | trivial | simp only [dictSysDeferredStgAdd, h1]
  | none =>
    rw [(dictSysDeferredStgAdd_ok s r h1).1] at h
    cases h

theorem dictSysDeferredStgAdd_touch (s : Schema) (r : SysDeferredStg)
    (h1 : s.sysDeferredStgMapObj.find r.obj = none) :
    (dictSysDeferredStgAdd s r).schema.touched = true ∧
    (dictSysDeferredStgAdd s r).schema.sysDeferredStgSetTouched = setInsert r.rowId s.sysDeferredStgSetTouched ∧
    (dictSysDeferredStgAdd s r).schema.identifiersTouched =
      if r.obj = 0 then s.identifiersTouched else setInsert r.obj s.identifiersTouched := by
  simp only [dictSysDeferredStgAdd, h1]
  refine ⟨?_, ?_, ?_⟩ <;>
    simp only [touchTable_touched, touchTable_sysDeferredStgSetTouched, touchTable_identifiersTouched]

theorem dictSysDeferredStgDrop_error (s : Schema) (r : SysDeferredStg) (e : DataException)
    (h : (dictSysDeferredStgDrop s r).ret = .error e) :
    e = ⟨50030⟩ ∧ (dictSysDeferredStgDrop s r).schema.sysDeferredStgMapRowId = s.sysDeferredStgMapRowId.erase r.rowId ∧
    (dictSysDeferredStgDrop s r).schema.sysDeferredStgMapObj.find r.obj = none := by
  cases hP : s.sysDeferredStgMapRowId.find r.rowId with
  | none =>
    rw [dictSysDeferredStgDrop_absent s r hP] at h
    cases h
  | some x =>
    cases h1 : s.sysDeferredStgMapObj.find r.obj with
    | none =>
      rw [dictSysDeferredStgDrop_raises1 s r x hP h1] at h
      cases h
      refine ⟨?_, ?_, ?_⟩ <;> first | trivial | simp only [dictSysDeferredStgDrop, hP, h1]
    | some y =>
      rw [(dictSysDeferredStgDrop_ok s r x y hP h1).1] at h
      cases h

theorem dictSysEColAdd_error (s : Schema) (r : SysECol) (e : DataException)
    (h : (dictSysEColAdd s r).ret = .error e) :
    e = ⟨50024⟩ ∧ (dictSysEColAdd s r).schema.sysEColMapRowId = s.sysEColMapRowId.set r.rowId r ∧
    (dictSysEColAdd s r).schema.sysEColMapKey = s.sysEColMapKey := by
  cases h1 : s.sysEColMapKey.find r.key with
  | some x =>
    rw [dictSysEColAdd_raises1 s r x h1] at h
    cases h
    simp only [SysECol.key] at h1
    refine ⟨?_, ?_, ?_⟩ <;> first | trivial | simp only [dictSysEColAdd, h1]
  | none =>
    rw [(dictSysEColAdd_ok s r h1).1] at h
    cases h

theorem dictSysEColAdd_touch (s : Schema) (r : SysECol)
    (h1 : s.sysEColMapKey.find r.key = none) :
    (dictSysEColAdd s r).schema.touched = true ∧
    (dictSysEColAdd s r).schema.sysEColSetTouched = setInsert r.rowId s.sysEColSetTouched ∧
    (dictSysEColAdd s r).schema.identifiersTouched =
      if r.tabObj = 0 then s.identifiersTouched else setInsert r.tabObj s.identifiersTouched := by
  simp only [SysECol.key] at h1
  simp only [dictSysEColAdd, h1]
  refine ⟨?_, ?_, ?_⟩ <;>
    simp only [touchTable_touched, touchTable_sysEColSetTouched, touchTable_identifiersTouched]

theorem dictSysEColDrop_error (s : Schema) (r : SysECol) (e : DataException)
    (h : (dictSysEColDrop s r).ret = .error e) :
    e = ⟨50030⟩ ∧ (dictSysEColDrop s r).schema.sysEColMapRowId = s.sysEColMapRowId.erase r.rowId ∧
    (dictSysEColDrop s r).schema.sysEColMapKey.find r.key = none := by
  cases hP : s.sysEColMapRowId.find r.rowId with
  | none =>
    rw [dictSysEColDrop_absent s r hP] at h
    cases h
  | some x =>
    cases h1 : s.sysEColMapKey.find r.key with
    | none =>
      rw [dictSysEColDrop_raises1 s r x hP h1] at h
      cases h
      simp only [SysECol.key] at h1 ⊢
      refine ⟨?_, ?_, ?_⟩ <;> first | trivial | simp only [dictSysEColDrop, hP, h1]
    | some y =>
      rw [(dictSysEColDrop_ok s r x y hP h1).1] at h
      cases h

theorem dictSysLobAdd_error (s : Schema) (r : SysLob) (e : DataException)
    (h : (dictSysLobAdd s r).ret = .error e) :
    e = ⟨50024⟩ ∧ (dictSysLobAdd s r).schema.sysLobMapRowId = s.sysLobMapRowId.set r.rowId r ∧
    (dictSysLobAdd s r).schema.sysLobMapLObj = s.sysLobMapLObj ∧
    ((dictSysLobAdd s r).schema.sysLobMapKey = s.sysLobMapKey ∨
      (s.sysLobMapKey.find r.key = none ∧
        (dictSysLobAdd s r).schema.sysLobMapKey = s.sysLobMapKey.set r.key r.rowId)) := by
  cases h1 : s.sysLobMapKey.find r.key with
  | some x =>
    rw [dictSysLobAdd_raises1 s r x h1] at h
    cases h
    simp only [SysLob.key] at h1
    refine ⟨?_, ?_, ?_, Or.inl ?_⟩ <;> first | trivial | simp only [dictSysLobAdd, h1]
  | none =>
    cases h2 : s.sysLobMapLObj.find r.lObj with
    | some y =>
      rw [dictSysLobAdd_raises2 s r y h2] at h
      cases h
      simp only [SysLob.key] at h1 ⊢
      refine ⟨?_, ?_, ?_, Or.inr ⟨?_, ?_⟩⟩ <;> first | trivial | simp only [dictSysLobAdd, h1, h2]
    | none =>
      rw [(dictSysLobAdd_ok s r h1 h2).1] at h
      cases h

theorem dictSysLobAdd_touch (s : Schema) (r : SysLob)
    (h1 : s.sysLobMapKey.find r.key = none) (h2 : s.sysLobMapLObj.find r.lObj = none) :
    (dictSysLobAdd s r).schema.touched = true ∧
    (dictSysLobAdd s r).schema.sysLobSetTouched = setInsert r.rowId s.sysLobSetTouched ∧
    (dictSysLobAdd s r).schema.identifiersTouched =
      if r.obj = 0 then s.identifiersTouched else setInsert r.obj s.identifiersTouched := by
  simp only [SysLob.key] at h1 h2
  simp only [dictSysLobAdd, h1, h2]
  refine ⟨?_, ?_, ?_⟩ <;>
    simp only [touchTable_touched, touchTable_sysLobSetTouched, touchTable_identifiersTouched]

theorem dictSysLobDrop_error (s : Schema) (r : SysLob) (e : DataException)
    (h : (dictSysLobDrop s r).ret = .error e) :
    e = ⟨50030⟩ ∧ (dictSysLobDrop s r).schema.sysLobMapRowId = s.sysLobMapRowId.erase r.rowId ∧
    (dictSysLobDrop s r).schema.sysLobMapKey.find r.key = none ∧
    (dictSysLobDrop s r).schema.sysLobMapLObj = s.sysLobMapLObj ∧
    (s.sysLobMapKey.find r.key = none ∨ s.sysLobMapLObj.find r.lObj = none) := by
  cases hP : s.sysLobMapRowId.find r.rowId with
  | none =>
    rw [dictSysLobDrop_absent s r hP] at h
    cases h
  | some x =>
    cases h1 : s.sysLobMapKey.find r.key with
    | none =>
      rw [dictSysLobDrop_raises1 s r x hP h1] at h
      cases h
      simp only [SysLob.key] at h1 ⊢
      refine ⟨?_, ?_, ?_, ?_, Or.inl ?_⟩ <;> first | trivial | simp only [dictSysLobDrop, hP, h1]
    | some y =>
      cases h2 : s.sysLobMapLObj.find r.lObj with
      | none =>
        rw [dictSysLobDrop_raises2 s r x hP h2] at h
        cases h
        simp only [SysLob.key] at h1 ⊢
        refine ⟨?_, ?_, ?_, ?_, Or.inr ?_⟩ <;>
          first | trivial | exact Map.find_erase_self _ _ | simp only [dictSysLobDrop, hP, h1, h2]
        exact Map.find_erase_self _ _
      | some y2 =>
        rw [(dictSysLobDrop_ok s r x y y2 hP h1 h2).1] at h
        cases h

theorem dictSysLobCompPartAdd_error (s : Schema) (r : SysLobCompPart) (e : DataException)
    (h : (dictSysLobCompPartAdd s r).ret = .error e) :
    e = ⟨50024⟩ ∧ (dictSysLobCompPartAdd s r).schema.sysLobCompPartMapRowId = s.sysLobCompPartMapRowId.set r.rowId r ∧
    (dictSysLobCompPartAdd s r).schema.sysLobCompPartMapPartObj = s.sysLobCompPartMapPartObj ∧
    ((dictSysLobCompPartAdd s r).schema.sysLobCompPartMapKey = s.sysLobCompPartMapKey ∨
      (s.sysLobCompPartMapKey.find r.key = none ∧
        (dictSysLobCompPartAdd s r).schema.sysLobCompPartMapKey = s.sysLobCompPartMapKey.set r.key r.rowId)) := by
  cases h1 : s.sysLobCompPartMapKey.find r.key with
  | some x =>
    rw [dictSysLobCompPartAdd_raises1 s r x h1] at h
    cases h
    simp only [SysLobCompPart.key] at h1
    refine ⟨?_, ?_, ?_, Or.inl ?_⟩ <;> first | trivial | simp only [dictSysLobCompPartAdd, h1]
  | none =>
    cases h2 : s.sysLobCompPartMapPartObj.find r.partObj with
    | some y =>
      rw [dictSysLobCompPartAdd_raises2 s r y h2] at h
      cases h
      simp only [SysLobCompPart.key] at h1 ⊢
      refine ⟨?_, ?_, ?_, Or.inr ⟨?_, ?_⟩⟩ <;> first | trivial | simp only [dictSysLobCompPartAdd, h1, h2]
    | none =>
      rw [(dictSysLobCompPartAdd_ok s r h1 h2).1] at h
      cases h

theorem dictSysLobCompPartAdd_touch (s : Schema) (r : SysLobCompPart)
    (h1 : s.sysLobCompPartMapKey.find r.key = none) (h2 : s.sysLobCompPartMapPartObj.find r.partObj = none) :
    (dictSysLobCompPartAdd s r).schema.touched = true ∧
    (dictSysLobCompPartAdd s r).schema.sysLobCompPartSetTouched = setInsert r.rowId s.sysLobCompPartSetTouched := by
  simp only [SysLobCompPart.key] at h1 h2
  simp only [dictSysLobCompPartAdd, h1, h2]
  refine ⟨?_, ?_⟩ <;> (repeat' split) <;>
    simp only [touchTable_touched, touchTable_sysLobCompPartSetTouched]

theorem dictSysLobCompPartDrop_error (s : Schema) (r : SysLobCompPart) (e : DataException)
    (h : (dictSysLobCompPartDrop s r).ret = .error e) :
    e = ⟨50030⟩ ∧ (dictSysLobCompPartDrop s r).schema.sysLobCompPartMapRowId = s.sysLobCompPartMapRowId.erase r.rowId ∧
    (dictSysLobCompPartDrop s r).schema.sysLobCompPartMapKey.find r.key = none ∧
    (dictSysLobCompPartDrop s r).schema.sysLobCompPartMapPartObj = s.sysLobCompPartMapPartObj ∧
    (s.sysLobCompPartMapKey.find r.key = none ∨ s.sysLobCompPartMapPartObj.find r.partObj = none) := by
  cases hP : s.sysLobCompPartMapRowId.find r.rowId with
  | none =>
    rw [dictSysLobCompPartDrop_absent s r hP] at h
    cases h
  | some x =>
    cases h1 : s.sysLobCompPartMapKey.find r.key with
    | none =>
      rw [dictSysLobCompPartDrop_raises1 s r x hP h1] at h
      cases h
      simp only [SysLobCompPart.key] at h1 ⊢
      refine ⟨?_, ?_, ?_, ?_, Or.inl ?_⟩ <;> first | trivial | simp only [dictSysLobCompPartDrop, hP, h1]
    | some y =>
      cases h2 : s.sysLobCompPartMapPartObj.find r.partObj with
      | none =>
        rw [dictSysLobCompPartDrop_raises2 s r x hP h2] at h
        cases h
        simp only [SysLobCompPart.key] at h1 ⊢
        refine ⟨?_, ?_, ?_, ?_, Or.inr ?_⟩ <;>
          first | trivial | exact Map.find_erase_self _ _ | simp only [dictSysLobCompPartDrop, hP, h1, h2]
        exact Map.find_erase_self _ _
      | some y2 =>
        rw [(dictSysLobCompPartDrop_ok s r x y y2 hP h1 h2).1] at h
        cases h

theorem dictSysLobFragAdd_error (s : Schema) (r : SysLobFrag) (e : DataException)
    (h : (dictSysLobFragAdd s r).ret = .error e) :
    e = ⟨50024⟩ ∧ (dictSysLobFragAdd s r).schema.sysLobFragMapRowId = s.sysLobFragMapRowId.set r.rowId r ∧
    (dictSysLobFragAdd s r).schema.sysLobFragMapKey = s.sysLobFragMapKey := by
  cases h1 : s.sysLobFragMapKey.find r.key with
  | some x =>
    rw [dictSysLobFragAdd_raises1 s r x h1] at h
    cases h
    simp only [SysLobFrag.key] at h1
    refine ⟨?_, ?_, ?_⟩ <;> first | trivial | simp only [dictSysLobFragAdd, h1]
  | none =>
    rw [(dictSysLobFragAdd_ok s r h1).1] at h
    cases h

theorem dictSysLobFragAdd_touch (s : Schema) (r : SysLobFrag)
    (h1 : s.sysLobFragMapKey.find r.key = none) :
    (dictSysLobFragAdd s r).schema.touched = true ∧
    (dictSysLobFragAdd s r).schema.sysLobFragSetTouched = setInsert r.rowId s.sysLobFragSetTouched := by
  simp only [SysLobFrag.key] at h1
  simp only [dictSysLobFragAdd, h1]
  refine ⟨?_, ?_⟩ <;> (repeat' split) <;>
    simp only [touchTable_touched, touchTable_sysLobFragSetTouched]

theorem dictSysLobFragDrop_error (s : Schema) (r : SysLobFrag) (e : DataException)
    (h : (dictSysLobFragDrop s r).ret = .error e) :
    e = ⟨50030⟩ ∧ (dictSysLobFragDrop s r).schema.sysLobFragMapRowId = s.sysLobFragMapRowId.erase r.rowId ∧
    (dictSysLobFragDrop s r).schema.sysLobFragMapKey.find r.key = none := by
  cases hP : s.sysLobFragMapRowId.find r.rowId with
  | none =>
    rw [dictSysLobFragDrop_absent s r hP] at h
    cases h
  | some x =>
    cases h1 : s.sysLobFragMapKey.find r.key with
    | none =>
      rw [dictSysLobFragDrop_raises1 s r x hP h1] at h
      cases h
      simp only [SysLobFrag.key] at h1 ⊢
      refine ⟨?_, ?_, ?_⟩ <;> first | trivial | (simp only [dictSysLobFragDrop, hP]; (repeat' split) <;> simp_all)
    | some y =>
      rw [(dictSysLobFragDrop_ok s r x y hP h1).1] at h
      cases h

theorem dictSysObjAdd_error (s : Schema) (r : SysObj) (e : DataException)
    (h : (dictSysObjAdd s r).ret = .error e) :
    e = ⟨50024⟩ ∧ (dictSysObjAdd s r).schema.sysObjMapRowId = s.sysObjMapRowId.set r.rowId r ∧
    (dictSysObjAdd s r).schema.sysObjMapObj = s.sysObjMapObj ∧
    ((dictSysObjAdd s r).schema.sysObjMapName = s.sysObjMapName ∨
      (s.sysObjMapName.find r.nameKey = none ∧
        (dictSysObjAdd s r).schema.sysObjMapName = s.sysObjMapName.set r.nameKey r.rowId)) := by
  cases h1 : s.sysObjMapName.find r.nameKey with
  | some x =>
    rw [dictSysObjAdd_raises1 s r x h1] at h
    cases h
    simp only [SysObj.nameKey] at h1
    refine ⟨?_, ?_, ?_, Or.inl ?_⟩ <;> first | trivial | simp only [dictSysObjAdd, h1]
  | none =>
    cases h2 : s.sysObjMapObj.find r.obj with
    | some y =>
      rw [dictSysObjAdd_raises2 s r y h2] at h
      cases h
      simp only [SysObj.nameKey] at h1 ⊢
      refine ⟨?_, ?_, ?_, Or.inr ⟨?_, ?_⟩⟩ <;> first | trivial | simp only [dictSysObjAdd, h1, h2]
    | none =>
      rw [(dictSysObjAdd_ok s r h1 h2).1] at h
      cases h

theorem dictSysObjAdd_touch (s : Schema) (r : SysObj)
    (h1 : s.sysObjMapName.find r.nameKey = none) (h2 : s.sysObjMapObj.find r.obj = none) :
    (dictSysObjAdd s r).schema.touched = true ∧
    (dictSysObjAdd s r).schema.sysObjSetTouched = setInsert r.rowId s.sysObjSetTouched ∧
    (dictSysObjAdd s r).schema.identifiersTouched =
      if r.obj = 0 then s.identifiersTouched else setInsert r.obj s.identifiersTouched := by
  simp only [SysObj.nameKey] at h1 h2
  simp only [dictSysObjAdd, h1, h2]
  refine ⟨?_, ?_, ?_⟩ <;>
    simp only [touchTable_touched, touchTable_sysObjSetTouched, touchTable_identifiersTouched]

theorem dictSysObjDrop_error (s : Schema) (r : SysObj) (e : DataException)
    (h : (dictSysObjDrop s r).ret = .error e) :
    e = ⟨50030⟩ ∧ (dictSysObjDrop s r).schema.sysObjMapRowId = s.sysObjMapRowId.erase r.rowId ∧
    (dictSysObjDrop s r).schema.sysObjMapName.find r.nameKey = none ∧
    (dictSysObjDrop s r).schema.sysObjMapObj = s.sysObjMapObj ∧
    (s.sysObjMapName.find r.nameKey = none ∨ s.sysObjMapObj.find r.obj = none) := by
  cases hP : s.sysObjMapRowId.find r.rowId with
  | none =>
    rw [dictSysObjDrop_absent s r hP] at h
    cases h
  | some x =>
    cases h1 : s.sysObjMapName.find r.nameKey with
    | none =>
      rw [dictSysObjDrop_raises1 s r x hP h1] at h
      cases h
      simp only [SysObj.nameKey] at h1 ⊢
      refine ⟨?_, ?_, ?_, ?_, Or.inl ?_⟩ <;> first | trivial | simp only [dictSysObjDrop, hP, h1]
    | some y =>
      cases h2 : s.sysObjMapObj.find r.obj with
      | none =>
        rw [dictSysObjDrop_raises2 s r x hP h2] at h
        cases h
        simp only [SysObj.nameKey] at h1 ⊢
        refine ⟨?_, ?_, ?_, ?_, Or.inr ?_⟩ <;>
          first | trivial | exact Map.find_erase_self _ _ | simp only [dictSysObjDrop, hP, h1, h2]
        exact Map.find_erase_self _ _
      | some y2 =>
        rw [(dictSysObjDrop_ok s r x y y2 hP h1 h2).1] at h
        cases h

theorem dictSysTabAdd_error (s : Schema) (r : SysTab) (e : DataException)
    (h : (dictSysTabAdd s r).ret = .error e) :
    e = ⟨50024⟩ ∧ (dictSysTabAdd s r).schema.sysTabMapRowId = s.sysTabMapRowId.set r.rowId r ∧
    (dictSysTabAdd s r).schema.sysTabMapObj = s.sysTabMapObj := by
  cases h1 : s.sysTabMapObj.find r.obj with
  | some x =>
    rw [dictSysTabAdd_raises1 s r x h1] at h
    cases h
    refine ⟨?_, ?_, ?_⟩ <;> first | trivial | simp only [dictSysTabAdd, h1]
  | none =>
    rw [(dictSysTabAdd_ok s r h1).1] at h
    cases h

theorem dictSysTabAdd_touch (s : Schema) (r : SysTab)
    (h1 : s.sysTabMapObj.find r.obj = none) :
    (dictSysTabAdd s r).schema.touched = true ∧
    (dictSysTabAdd s r).schema.sysTabSetTouched = setInsert r.rowId s.sysTabSetTouched ∧
    (dictSysTabAdd s r).schema.identifiersTouched =
      if r.obj = 0 then s.identifiersTouched else setInsert r.obj s.identifiersTouched := by
  simp only [dictSysTabAdd, h1]
  refine ⟨?_, ?_, ?_⟩ <;>
    simp only [touchTable_touched, touchTable_sysTabSetTouched, touchTable_identifiersTouched]

theorem dictSysTabDrop_error (s : Schema) (r : SysTab) (e : DataException)
    (h : (dictSysTabDrop s r).ret = .error e) :
    e = ⟨50030⟩ ∧ (dictSysTabDrop s r).schema.sysTabMapRowId = s.sysTabMapRowId.erase r.rowId ∧
    (dictSysTabDrop s r).schema.sysTabMapObj.find r.obj = none := by
  cases hP : s.sysTabMapRowId.find r.rowId with
  | none =>
    rw [dictSysTabDrop_absent s r hP] at h
    cases h
  | some x =>
    cases h1 : s.sysTabMapObj.find r.obj with
    | none =>
      rw [dictSysTabDrop_raises1 s r x hP h1] at h
      cases h
      refine ⟨?_, ?_, ?_⟩ <;> first | trivial | simp only [dictSysTabDrop, hP, h1]
    | some y =>
      rw [(dictSysTabDrop_ok s r x y hP h1).1] at h
      cases h

theorem dictSysTabComPartAdd_error (s : Schema) (r : SysTabComPart) (e : DataException)
    (h : (dictSysTabComPartAdd s r).ret = .error e) :
    e = ⟨50024⟩ ∧ (dictSysTabComPartAdd s r).schema.sysTabComPartMapRowId = s.sysTabComPartMapRowId.set r.rowId r ∧
    (dictSysTabComPartAdd s r).schema.sysTabComPartMapObj = s.sysTabComPartMapObj ∧
    ((dictSysTabComPartAdd s r).schema.sysTabComPartMapKey = s.sysTabComPartMapKey ∨
      (s.sysTabComPartMapKey.find r.key = none ∧
        (dictSysTabComPartAdd s r).schema.sysTabComPartMapKey = s.sysTabComPartMapKey.set r.key r.rowId)) := by
  cases h1 : s.sysTabComPartMapKey.find r.key with
  | some x =>
    rw [dictSysTabComPartAdd_raises1 s r x h1] at h
    cases h
    simp only [SysTabComPart.key] at h1
    refine ⟨?_, ?_, ?_, Or.inl ?_⟩ <;> first | trivial | simp only [dictSysTabComPartAdd, h1]
  | none =>
    cases h2 : s.sysTabComPartMapObj.find r.obj with
    | some y =>
      rw [dictSysTabComPartAdd_raises2 s r y h2] at h
      cases h
      simp only [SysTabComPart.key] at h1 ⊢
      refine ⟨?_, ?_, ?_, Or.inr ⟨?_, ?_⟩⟩ <;> first | trivial | simp only [dictSysTabComPartAdd, h1, h2]
    | none =>
      rw [(dictSysTabComPartAdd_ok s r h1 h2).1] at h
      cases h

theorem dictSysTabComPartAdd_touch (s : Schema) (r : SysTabComPart)
    (h1 : s.sysTabComPartMapKey.find r.key = none) (h2 : s.sysTabComPartMapObj.find r.obj = none) :
    (dictSysTabComPartAdd s r).schema.touched = true ∧
    (dictSysTabComPartAdd s r).schema.sysTabComPartSetTouched = setInsert r.rowId s.sysTabComPartSetTouched ∧
    (dictSysTabComPartAdd s r).schema.identifiersTouched =
      if r.bo = 0 then s.identifiersTouched else setInsert r.bo s.identifiersTouched := by
  simp only [SysTabComPart.key] at h1 h2
  simp only [dictSysTabComPartAdd, h1, h2]
  refine ⟨?_, ?_, ?_⟩ <;>
    simp only [touchTable_touched, touchTable_sysTabComPartSetTouched, touchTable_identifiersTouched]

theorem dictSysTabComPartDrop_error (s : Schema) (r : SysTabComPart) (e : DataException)
    (h : (dictSysTabComPartDrop s r).ret = .error e) :
    e = ⟨50030⟩ ∧ (dictSysTabComPartDrop s r).schema.sysTabComPartMapRowId = s.sysTabComPartMapRowId.erase r.rowId ∧
    (dictSysTabComPartDrop s r).schema.sysTabComPartMapKey.find r.key = none ∧
    (dictSysTabComPartDrop s r).schema.sysTabComPartMapObj = s.sysTabComPartMapObj ∧
    (s.sysTabComPartMapKey.find r.key = none ∨ s.sysTabComPartMapObj.find r.obj = none) := by
  cases hP : s.sysTabComPartMapRowId.find r.rowId with
  | none =>
    rw [dictSysTabComPartDrop_absent s r hP] at h
    cases h
  | some x =>
    cases h1 : s.sysTabComPartMapKey.find r.key with
    | none =>
      rw [dictSysTabComPartDrop_raises1 s r x hP h1] at h
      cases h
      simp only [SysTabComPart.key] at h1 ⊢
      refine ⟨?_, ?_, ?_, ?_, Or.inl ?_⟩ <;> first | trivial | simp only [dictSysTabComPartDrop, hP, h1]
    | some y =>
      cases h2 : s.sysTabComPartMapObj.find r.obj with
      | none =>
        rw [dictSysTabComPartDrop_raises2 s r x hP h2] at h
        cases h
        simp only [SysTabComPart.key] at h1 ⊢
        refine ⟨?_, ?_, ?_, ?_, Or.inr ?_⟩ <;>
          first | trivial | exact Map.find_erase_self _ _ | simp only [dictSysTabComPartDrop, hP, h1, h2]
        exact Map.find_erase_self _ _
      | some y2 =>
        rw [(dictSysTabComPartDrop_ok s r x y y2 hP h1 h2).1] at h
        cases h

theorem dictSysTabPartAdd_error (s : Schema) (r : SysTabPart) (e : DataException)
    (h : (dictSysTabPartAdd s r).ret = .error e) :
    e = ⟨50024⟩ ∧ (dictSysTabPartAdd s r).schema.sysTabPartMapRowId = s.sysTabPartMapRowId.set r.rowId r ∧
    (dictSysTabPartAdd s r).schema.sysTabPartMapKey = s.sysTabPartMapKey := by
  cases h1 : s.sysTabPartMapKey.find r.key with
  | some x =>
    rw [dictSysTabPartAdd_raises1 s r x h1] at h
    cases h
    simp only [SysTabPart.key] at h1
    refine ⟨?_, ?_, ?_⟩ <;> first | trivial | simp only [dictSysTabPartAdd, h1]
  | none =>
    rw [(dictSysTabPartAdd_ok s r h1).1] at h
    cases h

theorem dictSysTabPartAdd_touch (s : Schema) (r : SysTabPart)
    (h1 : s.sysTabPartMapKey.find r.key = none) :
    (dictSysTabPartAdd s r).schema.touched = true ∧
    (dictSysTabPartAdd s r).schema.sysTabPartSetTouched = setInsert r.rowId s.sysTabPartSetTouched ∧
    (dictSysTabPartAdd s r).schema.identifiersTouched =
      if r.bo = 0 then s.identifiersTouched else setInsert r.bo s.identifiersTouched := by
  simp only [SysTabPart.key] at h1
  simp only [dictSysTabPartAdd, h1]
  refine ⟨?_, ?_, ?_⟩ <;>
    simp only [touchTable_touched, touchTable_sysTabPartSetTouched, touchTable_identifiersTouched]

theorem dictSysTabPartDrop_error (s : Schema) (r : SysTabPart) (e : DataException)
    (h : (dictSysTabPartDrop s r).ret = .error e) :
    e = ⟨50030⟩ ∧ (dictSysTabPartDrop s r).schema.sysTabPartMapRowId = s.sysTabPartMapRowId.erase r.rowId ∧
    (dictSysTabPartDrop s r).schema.sysTabPartMapKey.find r.key = none := by
  cases hP : s.sysTabPartMapRowId.find r.rowId with
  | none =>
    rw [dictSysTabPartDrop_absent s r hP] at h
    cases h
  | some x =>
    cases h1 : s.sysTabPartMapKey.find r.key with
    | none =>
      rw [dictSysTabPartDrop_raises1 s r x hP h1] at h
      cases h
      simp only [SysTabPart.key] at h1 ⊢
      refine ⟨?_, ?_, ?_⟩ <;> first | trivial | simp only [dictSysTabPartDrop, hP, h1]
    | some y =>
      rw [(dictSysTabPartDrop_ok s r x y hP h1).1] at h
      cases h

theorem dictSysTabSubPartAdd_error (s : Schema) (r : SysTabSubPart) (e : DataException)
    (h : (dictSysTabSubPartAdd s r).ret = .error e) :
    e = ⟨50024⟩ ∧ (dictSysTabSubPartAdd s r).schema.sysTabSubPartMapRowId = s.sysTabSubPartMapRowId.set r.rowId r ∧
    (dictSysTabSubPartAdd s r).schema.sysTabSubPartMapKey = s.sysTabSubPartMapKey := by
  cases h1 : s.sysTabSubPartMapKey.find r.key with
  | some x =>
    rw [dictSysTabSubPartAdd_raises1 s r x h1] at h
    cases h
    simp only [SysTabSubPart.key] at h1
    refine ⟨?_, ?_, ?_⟩ <;> first | trivial | simp only [dictSysTabSubPartAdd, h1]
  | none =>
    rw [(dictSysTabSubPartAdd_ok s r h1).1] at h
    cases h

theorem dictSysTabSubPartAdd_touch (s : Schema) (r : SysTabSubPart)
    (h1 : s.sysTabSubPartMapKey.find r.key = none) :
    (dictSysTabSubPartAdd s r).schema.touched = true ∧
    (dictSysTabSubPartAdd s r).schema.sysTabSubPartSetTouched = setInsert r.rowId s.sysTabSubPartSetTouched := by
  simp only [SysTabSubPart.key] at h1
  simp only [dictSysTabSubPartAdd, h1]
  refine ⟨?_, ?_⟩ <;> (repeat' split) <;>
    simp only [touchTable_touched, touchTable_sysTabSubPartSetTouched]

theorem dictSysTabSubPartDrop_error (s : Schema) (r : SysTabSubPart) (e : DataException)
    (h : (dictSysTabSubPartDrop s r).ret = .error e) :
    e = ⟨50030⟩ ∧ (dictSysTabSubPartDrop s r).schema.sysTabSubPartMapRowId = s.sysTabSubPartMapRowId.erase r.rowId ∧
    (dictSysTabSubPartDrop s r).schema.sysTabSubPartMapKey.find r.key = none := by
  cases hP : s.sysTabSubPartMapRowId.find r.rowId with
  | none =>
    rw [dictSysTabSubPartDrop_absent s r hP] at h
    cases h
  | some x =>
    cases h1 : s.sysTabSubPartMapKey.find r.key with
    | none =>
      rw [dictSysTabSubPartDrop_raises1 s r x hP h1] at h
      cases h
      simp only [SysTabSubPart.key] at h1 ⊢
      refine ⟨?_, ?_, ?_⟩ <;> first | trivial | simp only [dictSysTabSubPartDrop, hP, h1]
    | some y =>
      rw [(dictSysTabSubPartDrop_ok s r x y hP h1).1] at h
      cases h

theorem dictSysTsAdd_error (s : Schema) (r : SysTs) (e : DataException)
    (h : (dictSysTsAdd s r).ret = .error e) :
    e = ⟨50024⟩ ∧ (dictSysTsAdd s r).schema.sysTsMapRowId = s.sysTsMapRowId.set r.rowId r ∧
    (dictSysTsAdd s r).schema.sysTsMapTs = s.sysTsMapTs := by
  cases h1 : s.sysTsMapTs.find r.ts with
  | some x =>
    rw [dictSysTsAdd_raises1 s r x h1] at h
    cases h
    refine ⟨?_, ?_, ?_⟩ <;> first | trivial | simp only [dictSysTsAdd, h1]
  | none =>
    rw [(dictSysTsAdd_ok s r h1).1] at h
    cases h

theorem dictSysTsAdd_touch (s : Schema) (r : SysTs)
    (h1 : s.sysTsMapTs.find r.ts = none) :
    (dictSysTsAdd s r).schema.touched = true := by
  simp only [dictSysTsAdd, h1]

theorem dictSysTsDrop_error (s : Schema) (r : SysTs) (e : DataException)
    (h : (dictSysTsDrop s r).ret = .error e) :
    e = ⟨50030⟩ ∧ (dictSysTsDrop s r).schema.sysTsMapRowId = s.sysTsMapRowId.erase r.rowId ∧
    (dictSysTsDrop s r).schema.sysTsMapTs.find r.ts = none := by
  cases hP : s.sysTsMapRowId.find r.rowId with
  | none =>
    rw [dictSysTsDrop_absent s r hP] at h
    cases h
  | some x =>
    cases h1 : s.sysTsMapTs.find r.ts with
    | none =>
      rw [dictSysTsDrop_raises1 s r x hP h1] at h
      cases h
      refine ⟨?_, ?_, ?_⟩ <;> first | trivial | simp only [dictSysTsDrop, hP, h1]
    | some y =>
      rw [(dictSysTsDrop_ok s r x y hP h1).1] at h
      cases h

theorem dictSysUserAdd_error (s : Schema) (r : SysUser) (e : DataException)
    (h : (dictSysUserAdd s r).ret = .error e) :
    e = ⟨50024⟩ ∧ (dictSysUserAdd s r).schema.sysUserMapRowId = s.sysUserMapRowId.set r.rowId r ∧
    (dictSysUserAdd s r).schema.sysUserMapUser = s.sysUserMapUser := by
  cases h1 : s.sysUserMapUser.find r.user with
  | some x =>
    rw [dictSysUserAdd_raises1 s r x h1] at h
    cases h
    refine ⟨?_, ?_, ?_⟩ <;> first | trivial | simp only [dictSysUserAdd, h1]
  | none =>
    rw [(dictSysUserAdd_ok s r h1).1] at h
    cases h

theorem dictSysUserAdd_touch (s : Schema) (r : SysUser)
    (h1 : s.sysUserMapUser.find r.user = none) :
    (dictSysUserAdd s r).schema.touched = true ∧
    (dictSysUserAdd s r).schema.sysUserSetTouched = setInsert r.rowId s.sysUserSetTouched := by
  simp only [dictSysUserAdd, h1, and_self]

theorem dictSysUserDrop_error (s : Schema) (r : SysUser) (e : DataException)
    (h : (dictSysUserDrop s r).ret = .error e) :
    e = ⟨50030⟩ ∧ (dictSysUserDrop s r).schema.sysUserMapRowId = s.sysUserMapRowId.erase r.rowId ∧
    (dictSysUserDrop s r).schema.sysUserMapUser.find r.user = none := by
  cases hP : s.sysUserMapRowId.find r.rowId with
  | none =>
    rw [dictSysUserDrop_absent s r hP] at h
    cases h
  | some x =>
    cases h1 : s.sysUserMapUser.find r.user with
    | none =>
      rw [dictSysUserDrop_raises1 s r x hP h1] at h
      cases h
      refine ⟨?_, ?_, ?_⟩ <;> first | trivial | simp only [dictSysUserDrop, hP, h1]
    | some y =>
      rw [(dictSysUserDrop_ok s r x y hP h1).1] at h
      cases h


/-! ### The dictionary store: the adds and drops that raise, all kinds at once -/

theorem dictSysColDrop_error (s : Schema) (r : SysCol) (e : DataException)
    (h : (dictSysColDrop s r).ret = .error e) :
    e = ⟨50030⟩ ∧ (dictSysColDrop s r).schema.sysColMapRowId = s.sysColMapRowId.erase r.rowId ∧
    (dictSysColDrop s r).schema.sysColMapSeg.find r.seg = none := by
  cases hP : s.sysColMapRowId.find r.rowId with
  | none =>
    rw [dictSysColDrop_absent s r hP] at h
    cases h
  | some x =>
    by_cases h0 : 0 < r.segCol
    · cases h1 : s.sysColMapSeg.find r.seg with
      | none =>
        rw [dictSysColDrop_raises s r x hP h0 h1] at h
        cases h
        simp only [SysCol.seg] at h1 ⊢
        refine ⟨?_, ?_, ?_⟩ <;>
          first | trivial | simp only [dictSysColDrop, hP, gt_iff_lt, h0, if_true, h1]
      | some y =>
        rw [(dictSysColDrop_ok_seg s r x y hP h0 h1).1] at h
        cases h
    · rw [(dictSysColDrop_ok_none s r x hP h0).1] at h
      cases h

/-- An add of a record that raises, raises 50024 and leaves the record in the
primary map of its kind. -/
theorem dictAdd_error (s : Schema) (r : Row) (e : DataException)
    (h : (dictAdd s r).ret = .error e) : e = ⟨50024⟩ ∧ Stored (dictAdd s r).schema r := by
  cases r with
  | col r => rw [show (dictAdd s (.col r)).ret = .ok () from rfl] at h; cases h
  | ccol r =>
    obtain ⟨he, hP, _⟩ := dictSysCColAdd_error s r e h
    exact ⟨he, by show (dictSysCColAdd s r).schema.sysCColMapRowId.find r.rowId = some r
                  rw [hP]; exact Map.find_set_self _ _ _⟩
  | cdef r =>
    obtain ⟨he, hP, _⟩ := dictSysCDefAdd_error s r e h
    exact ⟨he, by show (dictSysCDefAdd s r).schema.sysCDefMapRowId.find r.rowId = some r
                  rw [hP]; exact Map.find_set_self _ _ _⟩
  | deferredStg r =>
    obtain ⟨he, hP, _⟩ := dictSysDeferredStgAdd_error s r e h
    exact ⟨he, by show (dictSysDeferredStgAdd s r).schema.sysDeferredStgMapRowId.find r.rowId
                    = some r
                  rw [hP]; exact Map.find_set_self _ _ _⟩
  | ecol r =>
    obtain ⟨he, hP, _⟩ := dictSysEColAdd_error s r e h
    exact ⟨he, by show (dictSysEColAdd s r).schema.sysEColMapRowId.find r.rowId = some r
                  rw [hP]; exact Map.find_set_self _ _ _⟩
  | lob r =>
    obtain ⟨he, hP, _⟩ := dictSysLobAdd_error s r e h
    exact ⟨he, by show (dictSysLobAdd s r).schema.sysLobMapRowId.find r.rowId = some r
                  rw [hP]; exact Map.find_set_self _ _ _⟩
  | lobCompPart r =>
    obtain ⟨he, hP, _⟩ := dictSysLobCompPartAdd_error s r e h
    exact ⟨he, by show (dictSysLobCompPartAdd s r).schema.sysLobCompPartMapRowId.find r.rowId
                    = some r
                  rw [hP]; exact Map.find_set_self _ _ _⟩
  | lobFrag r =>
    obtain ⟨he, hP, _⟩ := dictSysLobFragAdd_error s r e h
    exact ⟨he, by show (dictSysLobFragAdd s r).schema.sysLobFragMapRowId.find r.rowId = some r
                  rw [hP]; exact Map.find_set_self _ _ _⟩
  | obj r =>
    obtain ⟨he, hP, _⟩ := dictSysObjAdd_error s r e h
    exact ⟨he, by show (dictSysObjAdd s r).schema.sysObjMapRowId.find r.rowId = some r
                  rw [hP]; exact Map.find_set_self _ _ _⟩
  | tab r =>
    obtain ⟨he, hP, _⟩ := dictSysTabAdd_error s r e h
    exact ⟨he, by show (dictSysTabAdd s r).schema.sysTabMapRowId.find r.rowId = some r
                  rw [hP]; exact Map.find_set_self _ _ _⟩
  | tabComPart r =>
    obtain ⟨he, hP, _⟩ := dictSysTabComPartAdd_error s r e h
    exact ⟨he, by show (dictSysTabComPartAdd s r).schema.sysTabComPartMapRowId.find r.rowId
                    = some r
                  rw [hP]; exact Map.find_set_self _ _ _⟩
  | tabPart r =>
    obtain ⟨he, hP, _⟩ := dictSysTabPartAdd_error s r e h
    exact ⟨he, by show (dictSysTabPartAdd s r).schema.sysTabPartMapRowId.find r.rowId = some r
                  rw [hP]; exact Map.find_set_self _ _ _⟩
  | tabSubPart r =>
    obtain ⟨he, hP, _⟩ := dictSysTabSubPartAdd_error s r e h
    exact ⟨he, by show (dictSysTabSubPartAdd s r).schema.sysTabSubPartMapRowId.find r.rowId
                    = some r
                  rw [hP]; exact Map.find_set_self _ _ _⟩
  | ts r =>
    obtain ⟨he, hP, _⟩ := dictSysTsAdd_error s r e h
    exact ⟨he, by show (dictSysTsAdd s r).schema.sysTsMapRowId.find r.rowId = some r
                  rw [hP]; exact Map.find_set_self _ _ _⟩
  | user r =>
    obtain ⟨he, hP, _⟩ := dictSysUserAdd_error s r e h
    exact ⟨he, by show (dictSysUserAdd s r).schema.sysUserMapRowId.find r.rowId = some r
                  rw [hP]; exact Map.find_set_self _ _ _⟩

theorem Except.error_of_map_map {ε α β : Type} (f : α → β) (g : β → Unit) (x : Except ε α)
    (e : ε) (h : Except.map g (Except.map f x) = .error e) : x = .error e := by
  cases x with
  | error e2 => cases h; rfl
  | ok a => cases h

/-- An add with the rowId string that raises: 50023 or 50025 with the schema as it
was, or the add of the record raised. -/
theorem dictAddStr_error (lim : SchemaLimits) (s : Schema) (r : Row) (e : DataException)
    (h : (dictAddStr lim s r).ret = .error e) :
    ((e = ⟨50023⟩ ∨ e = ⟨50025⟩) ∧ (dictAddStr lim s r).schema = s) ∨
    (¬ HasRowId s r.kind r.rowId ∧ (dictAddStr lim s r).schema = (dictAdd s r).schema ∧
      (dictAdd s r).ret = .error e) := by
  by_cases hstored : HasRowId s r.kind r.rowId
  · left
    cases r with
    | obj r =>
      simp only [Row.kind, Row.rowId, HasRowId, Option.isSome_iff_exists] at hstored
      obtain ⟨x, hx⟩ := hstored
      simp only [dictAddStr, dictSysObjAddStr_at_stored lim s _ _ _ _ _ _ _ _ _ x hx,
        Result.void] at h
      split at h
      · split at h <;> cases h
      · cases h
    | user r =>
      simp only [Row.kind, Row.rowId, HasRowId, Option.isSome_iff_exists] at hstored
      obtain ⟨x, hx⟩ := hstored
      simp only [dictAddStr, dictSysUserAddStr_at_stored lim s _ _ _ _ _ _ x hx,
        Result.void] at h
      split at h
      · split at h <;> cases h
      · cases h
    | _ =>
      simp only [Row.kind, Row.rowId, HasRowId, Option.isSome_iff_exists] at hstored
      obtain ⟨x, hx⟩ := hstored
      simp only [dictAddStr, dictSysCColAddStr, dictSysCDefAddStr, dictSysColAddStr,
        dictSysDeferredStgAddStr, dictSysEColAddStr, dictSysLobAddStr, dictSysLobCompPartAddStr,
        dictSysLobFragAddStr, dictSysTabAddStr, dictSysTabComPartAddStr, dictSysTabPartAddStr,
        dictSysTabSubPartAddStr, dictSysTsAddStr, hx] at h ⊢
      cases h
      exact ⟨Or.inl rfl, trivial⟩
  · cases r with
    | col r =>
      have hx := find_eq_none_of_not_isSome _ _ hstored
      simp only [Row.rowId] at hx
      simp only [dictAddStr, dictSysColAddStr, hx] at h ⊢
      by_cases hn : r.name.utf8ByteSize > lim.SYS_COL_NAME_LENGTH
      · rw [if_pos hn] at h ⊢; cases h; exact Or.inl ⟨Or.inr rfl, rfl⟩
      · by_cases hs : r.segCol > 1000
        · rw [if_neg hn, if_pos hs] at h ⊢; cases h; exact Or.inl ⟨Or.inr rfl, rfl⟩
        · rw [if_neg hn, if_neg hs] at h; cases h
    | obj r =>
      have hx := find_eq_none_of_not_isSome _ _ hstored
      simp only [Row.rowId] at hx
      simp only [dictAddStr, dictSysObjAddStr, hx, Result.void] at h ⊢
      by_cases hn : r.name.utf8ByteSize > lim.SYS_OBJ_NAME_LENGTH
      · rw [if_pos hn] at h ⊢; cases h; exact Or.inl ⟨Or.inr rfl, rfl⟩
      · rw [if_neg hn] at h ⊢
        exact Or.inr ⟨hstored, rfl, Except.error_of_map_map _ _ _ _ h⟩
    | user r =>
      have hx := find_eq_none_of_not_isSome _ _ hstored
      simp only [Row.rowId] at hx
      simp only [dictAddStr, dictSysUserAddStr, hx, Result.void] at h ⊢
      by_cases hn : r.name.utf8ByteSize > lim.SYS_USER_NAME_LENGTH
      · rw [if_pos hn] at h ⊢; cases h; exact Or.inl ⟨Or.inr rfl, rfl⟩
      · rw [if_neg hn] at h ⊢
        exact Or.inr ⟨hstored, rfl, Except.error_of_map_map _ _ _ _ h⟩
    | _ =>
      right
      have hx := find_eq_none_of_not_isSome _ _ hstored
      simp only [Row.rowId] at hx
      simp only [dictAddStr, dictSysCColAddStr, dictSysCDefAddStr,
        dictSysDeferredStgAddStr, dictSysEColAddStr, dictSysLobAddStr, dictSysLobCompPartAddStr,
        dictSysLobFragAddStr, dictSysTabAddStr, dictSysTabComPartAddStr, dictSysTabPartAddStr,
        dictSysTabSubPartAddStr, dictSysTsAddStr, hx] at h ⊢
      exact ⟨hstored, rfl, h⟩


/-! ### The dictionary store: touching -/

theorem dictSysColAdd_touch (s : Schema) (r : SysCol) :
    (dictSysColAdd s r).schema.touched = true ∧
    (dictSysColAdd s r).schema.sysColSetTouched = setInsert r.rowId s.sysColSetTouched ∧
    (dictSysColAdd s r).schema.identifiersTouched =
      if r.obj = 0 then s.identifiersTouched else setInsert r.obj s.identifiersTouched := by
  simp only [dictSysColAdd, touchTable_sysColSetTouched, touchTable_identifiersTouched]
  refine ⟨trivial, ?_, ?_⟩ <;> (repeat' split) <;> rfl

theorem mem_setInsertLast {T : Type} [DecidableEq T] (x y : T) (l : List T) :
    y ∈ setInsertLast x l ↔ y = x ∨ y ∈ l := by
  unfold setInsertLast
  by_cases h : x ∈ l
  · rw [if_pos h]
    constructor
    · exact Or.inr
    · rintro (h1 | h1)
      · rw [h1]; exact h
      · exact h1
  · rw [if_neg h]
    simp only [List.mem_append, List.mem_singleton]
    exact Or.comm

theorem setInsert_setInsert {T : Type} [DecidableEq T] [KeyOrder T] (x : T) (l : List T) :
    setInsert x (setInsert x l) = setInsert x l := by
  induction l with
  | nil => simp [setInsert]
  | cons z zs ih =>
    by_cases h : x = z
    · simp only [setInsert, if_pos h]
    · by_cases hb : KeyOrder.before x z = true
      · simp only [setInsert, if_neg h, if_pos hb, if_true]
      · simp only [setInsert, if_neg h, if_neg hb, ih]

theorem setInsertLast_setInsertLast {T : Type} [DecidableEq T] (x : T) (l : List T) :
    setInsertLast x (setInsertLast x l) = setInsertLast x l := by
  have hmem : x ∈ setInsertLast x l := (mem_setInsertLast x x l).2 (Or.inl rfl)
  unfold setInsertLast at hmem ⊢
  rw [if_pos hmem]

/-- What `touchTable` does for an object id other than zero. -/
theorem touchTable_of_ne_zero (s : Schema) (obj : Nat) (h : obj ≠ 0) :
    touchTable s obj =
      { s with
        identifiersTouched := setInsert obj s.identifiersTouched
        tablesTouched :=
          match s.tableMap.find obj with
          | some table => setInsertLast table s.tablesTouched
          | none => s.tablesTouched } := by
  unfold touchTable
  rw [if_neg h]
  dsimp only
  cases hfind : s.tableMap.find obj with
  | none => rfl
  | some table =>
    dsimp only
    by_cases hmem : table ∈ s.tablesTouched
    · rw [if_pos hmem]
      simp only [setInsertLast, if_pos hmem]
    · rw [if_neg hmem]

theorem Map.ext_entries {K V : Type} {m1 m2 : Map K V} (h : m1.entries = m2.entries) :
    m1 = m2 := by
  cases m1; cases m2; cases h; rfl

theorem Map.erase_eq_eraseAll {K V : Type} [DecidableEq K] (m : Map K V) (k : K) :
    m.erase k = m.eraseAll [k] := by
  apply Map.ext_entries
  simp [Map.erase, Map.eraseAll]

theorem Map.eraseAll_nil {K V : Type} [DecidableEq K] (m : Map K V) : m.eraseAll [] = m := by
  apply Map.ext_entries
  simp [Map.eraseAll]

theorem Map.eraseAll_eraseAll {K V : Type} [DecidableEq K] (m : Map K V) (a b : List K) :
    (m.eraseAll a).eraseAll b = m.eraseAll (a ++ b) := by
  apply Map.ext_entries
  simp only [Map.eraseAll, List.filter_filter]
  congr 1
  funext e
  simp only [List.mem_append, not_or, Bool.decide_and, Bool.and_comm]

theorem Map.eraseAll_erase {K V : Type} [DecidableEq K] (m : Map K V) (k : K) (ks : List K) :
    (m.erase k).eraseAll ks = m.eraseAll (k :: ks) := by
  rw [Map.erase_eq_eraseAll, Map.eraseAll_eraseAll]
  rfl

theorem Map.find_eraseAll {K V : Type} [DecidableEq K] (m : Map K V) (ks : List K) (k : K) :
    (m.eraseAll ks).find k = if k ∈ ks then none else m.find k := by
  cases m with
  | mk es =>
    simp only [Map.eraseAll, Map.find]
    induction es with
    | nil => simp [findEntry]
    | cons e es ih =>
      obtain ⟨k', v'⟩ := e
      by_cases hk' : k' ∈ ks
      · rw [List.filter_cons_of_neg (by simpa using hk'), ih]
        by_cases hk : k ∈ ks
        · rw [if_pos hk, if_pos hk]
        · rw [if_neg hk, if_neg hk]
          have hne : k ≠ k' := fun e => hk (e ▸ hk')
          simp only [findEntry, if_neg hne]
      · rw [List.filter_cons_of_pos (by simpa using hk')]
        by_cases hkk : k = k'
        · subst hkk
          simp only [findEntry, if_neg hk', if_true]
        · simp only [findEntry, if_neg hkk]
          exact ih

theorem Map.eraseAll_of_absent {K V : Type} [DecidableEq K] (m : Map K V) (ks : List K)
    (h : ∀ k ∈ ks, m.find k = none) : m.eraseAll ks = m := by
  cases m with
  | mk es =>
    apply Map.ext_entries
    simp only [Map.eraseAll]
    simp only [Map.find] at h
    induction es with
    | nil => rfl
    | cons e es ih =>
      obtain ⟨k', v'⟩ := e
      have hk' : k' ∉ ks := by
        intro hmem
        have := h k' hmem
        simp [findEntry] at this
      rw [List.filter_cons_of_pos (by simpa using hk')]
      congr 1
      apply ih
      intro k hk
      have := h k hk
      have hne : k ≠ k' := fun e => hk' (e ▸ hk)
      simpa only [findEntry, if_neg hne] using this

theorem filter_setEntry_mem {K V : Type} [DecidableEq K] [KeyOrder K] (k : K) (v : V)
    (ks : List K) (hk : k ∈ ks) (es : List (K × V)) :
    ((setEntry k v es).filter fun e => decide (e.1 ∉ ks))
      = es.filter fun e => decide (e.1 ∉ ks) := by
  induction es with
  | nil => simp [setEntry, hk]
  | cons e es ih =>
    obtain ⟨k', v'⟩ := e
    unfold setEntry
    by_cases h : k = k'
    · rw [if_pos h]
      subst h
      rw [List.filter_cons_of_neg (by simpa using hk), List.filter_cons_of_neg (by simpa using hk)]
    · rw [if_neg h]
      by_cases hb : KeyOrder.before k k' = true
      · rw [if_pos hb, List.filter_cons_of_neg (by simpa using hk)]
      · rw [if_neg hb]
        by_cases hk' : k' ∈ ks
        · rw [List.filter_cons_of_neg (by simpa using hk'),
            List.filter_cons_of_neg (by simpa using hk'), ih]
        · rw [List.filter_cons_of_pos (by simpa using hk'),
            List.filter_cons_of_pos (by simpa using hk'), ih]

theorem Map.eraseAll_set {K V : Type} [DecidableEq K] [KeyOrder K] (m : Map K V) (k : K) (v : V)
    (ks : List K) (hk : k ∈ ks) : (m.set k v).eraseAll ks = m.eraseAll ks := by
  apply Map.ext_entries
  exact filter_setEntry_mem k v ks hk m.entries

theorem Inserted.nil {K V : Type} [DecidableEq K] (m : Map K V) : Inserted [] m m :=
  ⟨List.nodup_nil, fun _ h => absurd h (List.not_mem_nil _),
    fun _ h => absurd h (List.not_mem_nil _), fun _ _ => rfl, Map.eraseAll_nil m⟩

theorem Inserted.set {K V : Type} [DecidableEq K] [KeyOrder K] (m : Map K V) (k : K) (v : V)
    (h : m.find k = none) : Inserted [k] m (m.set k v) := by
  refine ⟨List.nodup_singleton k, ?_, ?_, ?_, ?_⟩
  · intro k' hk'
    rw [List.mem_singleton.1 hk']; exact h
  · intro k' hk'
    rw [List.mem_singleton.1 hk', Map.find_set_self]; rfl
  · intro k' hk'
    exact Map.find_set_ne _ _ _ _ (fun e => hk' (List.mem_singleton.2 e))
  · rw [← Map.erase_eq_eraseAll]
    exact Map.erase_set_of_find_none m k v h

theorem Inserted.append {K V : Type} [DecidableEq K] {a b : List K} {m0 m1 m2 : Map K V}
    (h1 : Inserted a m0 m1) (h2 : Inserted b m1 m2) : Inserted (a ++ b) m0 m2 := by
  obtain ⟨hn1, ha1, hp1, ho1, he1⟩ := h1
  obtain ⟨hn2, ha2, hp2, ho2, he2⟩ := h2
  have hdisj : ∀ k, k ∈ a → k ∉ b := by
    intro k hka hkb
    have := hp1 k hka
    rw [ha2 k hkb] at this
    cases this
  refine ⟨?_, ?_, ?_, ?_, ?_⟩
  · exact List.nodup_append.2 ⟨hn1, hn2, fun k hka hkb => hdisj k hka hkb⟩
  · intro k hk
    rcases List.mem_append.1 hk with hka | hkb
    · exact ha1 k hka
    · have hna : k ∉ a := fun hka => hdisj k hka hkb
      rw [← ho1 k hna]; exact ha2 k hkb
  · intro k hk
    rcases List.mem_append.1 hk with hka | hkb
    · rw [ho2 k (hdisj k hka)]; exact hp1 k hka
    · exact hp2 k hkb
  · intro k hk
    have hna : k ∉ a := fun h => hk (List.mem_append.2 (Or.inl h))
    have hnb : k ∉ b := fun h => hk (List.mem_append.2 (Or.inr h))
    rw [ho2 k hnb, ho1 k hna]
  · have hcomm : m2.eraseAll (a ++ b) = (m2.eraseAll b).eraseAll a := by
      rw [Map.eraseAll_eraseAll]
      apply Map.ext_entries
      simp only [Map.eraseAll]
      congr 1
      funext e
      simp only [List.mem_append, Or.comm]
    rw [hcomm, he2, he1]


/-! ### The maps of the table descriptors: the loops of `addTableToDict` and of
`removeTableFromDict` -/

theorem Map.eraseAll_congr {K V : Type} [DecidableEq K] (m : Map K V) (a b : List K)
    (h : ∀ k, k ∈ a ↔ k ∈ b) : m.eraseAll a = m.eraseAll b := by
  apply Map.ext_entries
  simp only [Map.eraseAll]
  congr 1
  funext e
  simp only [h]

theorem Map.eraseAll_cons {K V : Type} [DecidableEq K] (m : Map K V) (k : K) (ks : List K) :
    m.eraseAll (k :: ks) = (m.eraseAll ks).eraseAll [k] := by
  rw [Map.eraseAll_eraseAll]
  apply Map.eraseAll_congr
  intro x
  simp only [List.mem_cons, List.mem_append, List.mem_singleton, List.not_mem_nil]
  tauto

theorem Map.eraseAll_comm {K V : Type} [DecidableEq K] (m : Map K V) (a b : List K) :
    (m.eraseAll a).eraseAll b = (m.eraseAll b).eraseAll a := by
  rw [Map.eraseAll_eraseAll, Map.eraseAll_eraseAll]
  apply Map.eraseAll_congr
  intro x
  simp only [List.mem_append]
  tauto

theorem addLobIndexes_spec (lob : OracleLob) (ks : List Nat) (s : Schema) :
    (∀ e, (addLobIndexes s lob ks).ret = .error e → e = ⟨50032⟩) ∧
    (∃ m, (addLobIndexes s lob ks).schema = { s with lobIndexMap := m }) ∧
    ((addLobIndexes s lob ks).ret = .ok () →
      Inserted ks s.lobIndexMap (addLobIndexes s lob ks).schema.lobIndexMap) := by
  induction ks generalizing s with
  | nil => exact ⟨fun e h => (by cases h), ⟨s.lobIndexMap, rfl⟩, fun _ => Inserted.nil _⟩
  | cons k rest ih =>
    cases hfind : s.lobIndexMap.find k with
    | some x =>
      simp only [addLobIndexes, hfind]
      exact ⟨fun e h => (by cases h; rfl), ⟨s.lobIndexMap, rfl⟩, fun h => (by cases h)⟩
    | none =>
      simp only [addLobIndexes, hfind]
      obtain ⟨h1, ⟨m, h2⟩, h3⟩ := ih { s with lobIndexMap := s.lobIndexMap.set k lob }
      refine ⟨h1, ⟨m, h2⟩, fun h => ?_⟩
      exact Inserted.append (Inserted.set s.lobIndexMap k lob hfind) (h3 h)

theorem addLobPartitions_spec (lob : OracleLob) (ks : List Nat) (s : Schema) :
    (∃ m, addLobPartitions s lob ks = { s with lobPartitionMap := m }) ∧
    (addLobPartitions s lob ks).lobPartitionMap.eraseAll ks = s.lobPartitionMap.eraseAll ks := by
  induction ks generalizing s with
  | nil => exact ⟨⟨s.lobPartitionMap, rfl⟩, rfl⟩
  | cons k rest ih =>
    cases hfind : s.lobPartitionMap.find k with
    | some x =>
      simp only [addLobPartitions, hfind]
      obtain ⟨h1, h2⟩ := ih s
      refine ⟨h1, ?_⟩
      rw [Map.eraseAll_cons, h2, ← Map.eraseAll_cons]
    | none =>
      simp only [addLobPartitions, hfind]
      obtain ⟨⟨m, h1⟩, h2⟩ := ih { s with lobPartitionMap := s.lobPartitionMap.set k lob }
      refine ⟨⟨m, h1⟩, ?_⟩
      rw [Map.eraseAll_cons, h2, ← Map.eraseAll_cons]
      exact Map.eraseAll_set _ _ _ _ (List.mem_cons_self _ _)

theorem addLobs_spec (lobs : List OracleLob) (s : Schema) :
    (∀ e, (addLobs s lobs).ret = .error e → e = ⟨50032⟩) ∧
    (∃ mi mp, (addLobs s lobs).schema = { s with lobIndexMap := mi, lobPartitionMap := mp }) ∧
    ((addLobs s lobs).ret = .ok () →
      Inserted (lobIndexObjs lobs) s.lobIndexMap (addLobs s lobs).schema.lobIndexMap ∧
      (addLobs s lobs).schema.lobPartitionMap.eraseAll (lobPartitionObjs lobs)
        = s.lobPartitionMap.eraseAll (lobPartitionObjs lobs)) := by
  induction lobs generalizing s with
  | nil =>
    exact ⟨fun e h => (by cases h), ⟨s.lobIndexMap, s.lobPartitionMap, rfl⟩,
      fun _ => ⟨Inserted.nil _, rfl⟩⟩
  | cons lob rest ih =>
    obtain ⟨hi1, ⟨mi, hi2⟩, hi3⟩ := addLobIndexes_spec lob lob.lobIndexes s
    cases hret : (addLobIndexes s lob lob.lobIndexes).ret with
    | error e =>
      simp only [addLobs, hret]
      exact ⟨fun e2 h => (by cases h; exact hi1 e hret),
        ⟨mi, s.lobPartitionMap, hi2⟩, fun h => (by cases h)⟩
    | ok u =>
      simp only [addLobs, hret]
      obtain ⟨⟨mp, hp1⟩, hp2⟩ :=
        addLobPartitions_spec lob lob.lobPartitions (addLobIndexes s lob lob.lobIndexes).schema
      obtain ⟨h1, ⟨mi2, mp2, h2⟩, h3⟩ :=
        ih (addLobPartitions (addLobIndexes s lob lob.lobIndexes).schema lob lob.lobPartitions)
      have hI1 : (addLobPartitions (addLobIndexes s lob lob.lobIndexes).schema lob
          lob.lobPartitions).lobIndexMap = (addLobIndexes s lob lob.lobIndexes).schema.lobIndexMap := by
        rw [hp1]
      have hP1 : (addLobIndexes s lob lob.lobIndexes).schema.lobPartitionMap
          = s.lobPartitionMap := by
        rw [hi2]
      refine ⟨h1, ⟨mi2, mp2, ?_⟩, fun h => ?_⟩
      · rw [h2, hp1, hi2]
      · obtain ⟨h4, h5⟩ := h3 h
        rw [hI1] at h4
        refine ⟨?_, ?_⟩
        · exact Inserted.append (hi3 hret) h4
        · show Map.eraseAll _ (lob.lobPartitions ++ lobPartitionObjs rest)
            = s.lobPartitionMap.eraseAll (lob.lobPartitions ++ lobPartitionObjs rest)
          rw [← Map.eraseAll_eraseAll, ← Map.eraseAll_eraseAll, Map.eraseAll_comm, h5,
            Map.eraseAll_comm, hp2, hP1]


theorem addTablePartitions_spec (table : OracleTable) (xs : List Nat) (s : Schema) :
    (∀ e, (addTablePartitions s table xs).ret = .error e → e = ⟨50034⟩) ∧
    (∃ m, (addTablePartitions s table xs).schema = { s with tablePartitionMap := m }) ∧
    ((addTablePartitions s table xs).ret = .ok () →
      Inserted (xs.map unpackObj) s.tablePartitionMap
        (addTablePartitions s table xs).schema.tablePartitionMap) := by
  induction xs generalizing s with
  | nil => exact ⟨fun e h => (by cases h), ⟨s.tablePartitionMap, rfl⟩, fun _ => Inserted.nil _⟩
  | cons x rest ih =>
    cases hfind : s.tablePartitionMap.find (unpackObj x) with
    | some y =>
      simp only [addTablePartitions, hfind]
      exact ⟨fun e h => (by cases h; rfl), ⟨s.tablePartitionMap, rfl⟩, fun h => (by cases h)⟩
    | none =>
      simp only [addTablePartitions, hfind]
      obtain ⟨h1, ⟨m, h2⟩, h3⟩ :=
        ih { s with tablePartitionMap := s.tablePartitionMap.set (unpackObj x) table }
      refine ⟨h1, ⟨m, h2⟩, fun h => ?_⟩
      exact Inserted.append (Inserted.set s.tablePartitionMap (unpackObj x) table hfind) (h3 h)

/-- What `addTableToDict` has done when it returns. -/
theorem addTableToDict_ok (s : Schema) (table : OracleTable)
    (h : (addTableToDict s table).ret = .ok ()) :
    s.tableMap.find table.obj = none ∧
    ∃ mi mp mt,
      (addTableToDict s table).schema =
        { s with
          tableMap := s.tableMap.set table.obj table
          lobIndexMap := mi
          lobPartitionMap := mp
          tablePartitionMap := mt } ∧
      Inserted (lobIndexObjs table.lobs) s.lobIndexMap mi ∧
      mp.eraseAll (lobPartitionObjs table.lobs)
        = s.lobPartitionMap.eraseAll (lobPartitionObjs table.lobs) ∧
      Inserted table.partitionObjs s.tablePartitionMap mt := by
  cases hfind : s.tableMap.find table.obj with
  | some x =>
    simp only [addTableToDict, hfind] at h
    cases h
  | none =>
    refine ⟨rfl, ?_⟩
    simp only [addTableToDict, hfind] at h ⊢
    obtain ⟨_, ⟨mi, mp, hl2⟩, hl3⟩ :=
      addLobs_spec table.lobs { s with tableMap := s.tableMap.set table.obj table }
    cases hret : (addLobs { s with tableMap := s.tableMap.set table.obj table } table.lobs).ret with
    | error e =>
      simp only [hret] at h
      cases h
    | ok u =>
      simp only [hret] at h ⊢
      obtain ⟨hI, hP⟩ := hl3 hret
      rw [hl2] at h hI hP ⊢
      simp only [] at h hI hP ⊢
      cases hfind2 : s.tablePartitionMap.find table.obj with
      | some y =>
        simp only [hfind2] at h
        cases h
      | none =>
        simp only [hfind2] at h ⊢
        obtain ⟨_, ⟨mt, ht2⟩, ht3⟩ := addTablePartitions_spec table table.tablePartitions
          { s with
            tableMap := s.tableMap.set table.obj table
            lobIndexMap := mi
            lobPartitionMap := mp
            tablePartitionMap := s.tablePartitionMap.set table.obj table }
        refine ⟨mi, mp, mt, ?_, hI, hP, ?_⟩
        · rw [ht2]
        · have := ht3 h
          rw [ht2] at this
          exact Inserted.append (Inserted.set s.tablePartitionMap table.obj table hfind2) this

/-- The exceptions of `addTableToDict`. -/
theorem addTableToDict_error (s : Schema) (table : OracleTable) (e : DataException)
    (h : (addTableToDict s table).ret = .error e) :
    (e = ⟨50031⟩ ∧ (s.tableMap.find table.obj).isSome = true ∧ (addTableToDict s table).schema = s) ∨
    ((e = ⟨50032⟩ ∨ e = ⟨50033⟩ ∨ e = ⟨50034⟩) ∧ s.tableMap.find table.obj = none) := by
  cases hfind : s.tableMap.find table.obj with
  | some x =>
    simp only [addTableToDict, hfind] at h ⊢
    cases h
    exact Or.inl ⟨rfl, rfl, trivial⟩
  | none =>
    right
    refine ⟨?_, rfl⟩
    simp only [addTableToDict, hfind] at h
    obtain ⟨hl1, _, _⟩ :=
      addLobs_spec table.lobs { s with tableMap := s.tableMap.set table.obj table }
    cases hret : (addLobs { s with tableMap := s.tableMap.set table.obj table } table.lobs).ret with
    | error e2 =>
      simp only [hret] at h
      cases h
      exact Or.inl (hl1 e hret)
    | ok u =>
      simp only [hret] at h
      split at h
      · cases h
        exact Or.inr (Or.inl rfl)
      · exact Or.inr (Or.inr ((addTablePartitions_spec _ _ _).1 e h))

theorem removeTablePartitions_spec (xs : List Nat) (s : Schema)
    (hn : (xs.map unpackObj).Nodup)
    (hp : ∀ k ∈ xs.map unpackObj, (s.tablePartitionMap.find k).isSome = true) :
    (removeTablePartitions s xs).ret = .ok () ∧
    (removeTablePartitions s xs).schema =
      { s with tablePartitionMap := s.tablePartitionMap.eraseAll (xs.map unpackObj) } := by
  induction xs generalizing s with
  | nil =>
    refine ⟨rfl, ?_⟩
    simp only [removeTablePartitions, List.map_nil, Map.eraseAll_nil]
  | cons x rest ih =>
    simp only [List.map_cons, List.nodup_cons] at hn
    have hx := hp (unpackObj x) (List.mem_cons_self _ _)
    obtain ⟨y, hy⟩ := Option.isSome_iff_exists.1 hx
    simp only [removeTablePartitions, hy]
    obtain ⟨h1, h2⟩ := ih { s with tablePartitionMap := s.tablePartitionMap.erase (unpackObj x) }
      hn.2 (by
        intro k hk
        have hne : k ≠ unpackObj x := fun e => hn.1 (e ▸ hk)
        simp only []
        rw [Map.find_erase_ne _ _ _ hne]
        exact hp k (List.mem_cons_of_mem _ hk))
    refine ⟨h1, ?_⟩
    rw [h2]
    simp only [List.map_cons, Map.eraseAll_erase]

theorem removeLobIndexes_spec (ks : List Nat) (s : Schema) (hn : ks.Nodup)
    (hp : ∀ k ∈ ks, (s.lobIndexMap.find k).isSome = true) :
    (removeLobIndexes s ks).ret = .ok () ∧
    (removeLobIndexes s ks).schema = { s with lobIndexMap := s.lobIndexMap.eraseAll ks } := by
  induction ks generalizing s with
  | nil =>
    refine ⟨rfl, ?_⟩
    simp only [removeLobIndexes, Map.eraseAll_nil]
  | cons x rest ih =>
    simp only [List.nodup_cons] at hn
    have hx := hp x (List.mem_cons_self _ _)
    obtain ⟨y, hy⟩ := Option.isSome_iff_exists.1 hx
    simp only [removeLobIndexes, hy]
    obtain ⟨h1, h2⟩ := ih { s with lobIndexMap := s.lobIndexMap.erase x }
      hn.2 (by
        intro k hk
        have hne : k ≠ x := fun e => hn.1 (e ▸ hk)
        simp only []
        rw [Map.find_erase_ne _ _ _ hne]
        exact hp k (List.mem_cons_of_mem _ hk))
    refine ⟨h1, ?_⟩
    rw [h2]
    simp only [Map.eraseAll_erase]

theorem removeLobPartitions_spec (ks : List Nat) (s : Schema) :
    removeLobPartitions s ks = { s with lobPartitionMap := s.lobPartitionMap.eraseAll ks } := by
  induction ks generalizing s with
  | nil => simp only [removeLobPartitions, Map.eraseAll_nil]
  | cons x rest ih =>
    cases hfind : s.lobPartitionMap.find x with
    | some y =>
      simp only [removeLobPartitions, hfind]
      rw [ih]
      simp only [Map.eraseAll_erase]
    | none =>
      simp only [removeLobPartitions, hfind]
      rw [ih]
      have : s.lobPartitionMap.erase x = s.lobPartitionMap := by
        rw [Map.erase_eq_eraseAll]
        apply Map.eraseAll_of_absent
        intro k hk
        rw [List.mem_singleton.1 hk]; exact hfind
      rw [← Map.eraseAll_erase, this]

theorem removeLobs_spec (lobs : List OracleLob) (s : Schema) (hn : (lobIndexObjs lobs).Nodup)
    (hp : ∀ k ∈ lobIndexObjs lobs, (s.lobIndexMap.find k).isSome = true) :
    (removeLobs s lobs).ret = .ok () ∧
    (removeLobs s lobs).schema =
      { s with
        lobIndexMap := s.lobIndexMap.eraseAll (lobIndexObjs lobs)
        lobPartitionMap := s.lobPartitionMap.eraseAll (lobPartitionObjs lobs) } := by
  induction lobs generalizing s with
  | nil =>
    refine ⟨rfl, ?_⟩
    simp only [removeLobs, lobIndexObjs, lobPartitionObjs, List.flatMap_nil, Map.eraseAll_nil]
  | cons lob rest ih =>
    have hsplit : lobIndexObjs (lob :: rest) = lob.lobIndexes ++ lobIndexObjs rest := rfl
    have hsplit2 : lobPartitionObjs (lob :: rest) = lob.lobPartitions ++ lobPartitionObjs rest :=
      rfl
    rw [hsplit] at hn hp
    obtain ⟨hn1, hn2, hdisj⟩ := List.nodup_append.1 hn
    obtain ⟨h1, h2⟩ := removeLobIndexes_spec lob.lobIndexes s hn1
      (fun k hk => hp k (List.mem_append.2 (Or.inl hk)))
    simp only [removeLobs, h1]
    rw [h2, removeLobPartitions_spec]
    obtain ⟨h3, h4⟩ := ih
      { s with
        lobIndexMap := s.lobIndexMap.eraseAll lob.lobIndexes
        lobPartitionMap := s.lobPartitionMap.eraseAll lob.lobPartitions } hn2 (by
        intro k hk
        simp only []
        rw [Map.find_eraseAll, if_neg (fun hmem => hdisj hmem hk)]
        exact hp k (List.mem_append.2 (Or.inr hk)))
    refine ⟨h3, ?_⟩
    rw [h4, hsplit, hsplit2]
    simp only [Map.eraseAll_eraseAll]

/-- What `removeTableFromDict` does when the maps have the entries of the table. -/
theorem removeTableFromDict_spec (s : Schema) (table : OracleTable)
    (h1 : table.partitionObjs.Nodup)
    (h2 : ∀ k ∈ table.partitionObjs, (s.tablePartitionMap.find k).isSome = true)
    (h3 : (lobIndexObjs table.lobs).Nodup)
    (h4 : ∀ k ∈ lobIndexObjs table.lobs, (s.lobIndexMap.find k).isSome = true)
    (h5 : (s.tableMap.find table.obj).isSome = true) :
    (removeTableFromDict s table).ret = .ok () ∧
    (removeTableFromDict s table).schema =
      { s with
        tablePartitionMap := s.tablePartitionMap.eraseAll table.partitionObjs
        lobIndexMap := s.lobIndexMap.eraseAll (lobIndexObjs table.lobs)
        lobPartitionMap := s.lobPartitionMap.eraseAll (lobPartitionObjs table.lobs)
        tableMap := s.tableMap.erase table.obj } := by
  obtain ⟨y, hy⟩ := Option.isSome_iff_exists.1 (h2 table.obj (List.mem_cons_self _ _))
  obtain ⟨z, hz⟩ := Option.isSome_iff_exists.1 h5
  simp only [OracleTable.partitionObjs, List.nodup_cons] at h1
  obtain ⟨hp1, hp2⟩ := removeTablePartitions_spec table.tablePartitions
    { s with tablePartitionMap := s.tablePartitionMap.erase table.obj } h1.2 (by
      intro k hk
      have hne : k ≠ table.obj := fun e => h1.1 (e ▸ hk)
      simp only []
      rw [Map.find_erase_ne _ _ _ hne]
      exact h2 k (List.mem_cons_of_mem _ hk))
  simp only [removeTableFromDict, hy, hp1]
  rw [hp2]
  obtain ⟨hl1, hl2⟩ := removeLobs_spec table.lobs
    { s with
      tablePartitionMap :=
        (s.tablePartitionMap.erase table.obj).eraseAll (table.tablePartitions.map unpackObj) }
    h3 h4
  simp only [hl1]
  rw [hl2]
  simp only [hz, Map.eraseAll_erase, OracleTable.partitionObjs, true_and]


/-! #### Lemmas on the comparison of two schemas -/

theorem findEntry_mem {K V : Type} [DecidableEq K] (k : K) (v : V) :
    ∀ es : List (K × V), findEntry k es = some v → (k, v) ∈ es
  | [], h => by simp [findEntry] at h
  | (k2, v2) :: es, h => by
    unfold findEntry at h
    by_cases hk : k = k2
    · rw [if_pos hk] at h
      cases h
      subst hk
      exact List.mem_cons_self _ _
    · rw [if_neg hk] at h
      exact List.mem_cons_of_mem _ (findEntry_mem k v es h)

theorem findEntry_of_mem {K V : Type} [DecidableEq K] (k : K) (v : V) :
    ∀ es : List (K × V), (es.map Prod.fst).Nodup → (k, v) ∈ es → findEntry k es = some v
  | [], _, h => by cases h
  | (k2, v2) :: es, hnd, h => by
    rw [List.map_cons, List.nodup_cons] at hnd
    unfold findEntry
    rcases List.mem_cons.1 h with heq | hmem
    · cases heq
      rw [if_pos rfl]
    · have hk : k ≠ k2 := by
        intro hk
        subst hk
        exact hnd.1 (List.mem_map.2 ⟨(k, v), hmem, rfl⟩)
      rw [if_neg hk]
      exact findEntry_of_mem k v es hnd.2 hmem

theorem compareLost_eq_none {R : Type} (differs : R → R → Bool) (table : String)
    (rowIdOf : R → RowId) (other : Map RowId R) :
    ∀ es : List (RowId × R), compareLost differs table rowIdOf other es = none ↔
      ∀ e ∈ es, ∃ r2, other.find (rowIdOf e.2) = some r2 ∧ differs e.2 r2 = false
  | [] => by simp [compareLost]
  | (k, r) :: es => by
    have ih := compareLost_eq_none differs table rowIdOf other es
    unfold compareLost
    cases hf : other.find (rowIdOf r) with
    | none =>
      simp only [List.mem_cons, forall_eq_or_imp, hf]
      constructor
      · intro h
        cases h
      · intro h
        obtain ⟨r2, h2, _⟩ := h.1
        cases h2
    | some r2 =>
      simp only [List.mem_cons, forall_eq_or_imp, hf]
      cases hd : differs r r2 with
      | true =>
        simp only [if_true]
        constructor
        · intro h
          cases h
        · intro h
          obtain ⟨r3, h3, h4⟩ := h.1
          cases h3
          rw [hd] at h4
          cases h4
      | false =>
        simp only [Bool.false_eq_true, if_false]
        rw [ih]
        exact ⟨fun h => ⟨⟨r2, rfl, hd⟩, h⟩, fun h => h.2⟩

theorem compareExtra_eq_none {R : Type} (table : String) (rowIdOf : R → RowId)
    (mine : Map RowId R) :
    ∀ es : List (RowId × R), compareExtra table rowIdOf mine es = none ↔
      ∀ e ∈ es, (mine.find (rowIdOf e.2)).isSome = true
  | [] => by simp [compareExtra]
  | (k, r) :: es => by
    have ih := compareExtra_eq_none table rowIdOf mine es
    unfold compareExtra
    cases hf : mine.find (rowIdOf r) with
    | none =>
      simp only [List.mem_cons, forall_eq_or_imp, hf]
      constructor
      · intro h
        cases h
      · intro h
        cases h.1
    | some r2 =>
      simp only [List.mem_cons, forall_eq_or_imp, hf, Option.isSome_some, true_and]
      exact ih

/-- The value returned by `compareSys<K>` in terms of its two loops. -/
theorem compareRecords_fst {R : Type} (differs : R → R → Bool) (table : String)
    (rowIdOf : R → RowId) (mine other : Map RowId R) (msgs : String) :
    (compareRecords differs table rowIdOf mine other msgs).1 = true ↔
      compareLost differs table rowIdOf other mine.entries = none ∧
      compareExtra table rowIdOf mine other.entries = none := by
  unfold compareRecords
  cases compareLost differs table rowIdOf other mine.entries with
  | some m => simp
  | none =>
    cases compareExtra table rowIdOf mine other.entries with
    | some m => simp
    | none => simp

/-- On maps whose records are under their own rowIds `compareSys<K>` returns
true exactly when the two maps have the same rowIds with records that do not
differ. -/
theorem compareRecords_true_iff {R : Type} (differs : R → R → Bool) (table : String)
    (rowIdOf : R → RowId) (mine other : Map RowId R) (msgs : String)
    (hm : MapOk rowIdOf mine) (ho : MapOk rowIdOf other) :
    (compareRecords differs table rowIdOf mine other msgs).1 = true ↔
      SameRecords differs mine other := by
  rw [compareRecords_fst, compareLost_eq_none, compareExtra_eq_none]
  constructor
  · rintro ⟨h1, h2⟩ rowId
    cases hf : mine.find rowId with
    | some r =>
      have hmem := findEntry_mem rowId r mine.entries hf
      obtain ⟨r2, hr2, hd⟩ := h1 _ hmem
      rw [hm.2 _ hmem] at hr2
      simp only [] at hr2 hd
      simp only [hr2]
      exact hd
    | none =>
      cases hg : other.find rowId with
      | none => trivial
      | some r =>
        have hmem := findEntry_mem rowId r other.entries hg
        have := h2 _ hmem
        rw [ho.2 _ hmem] at this
        simp only [] at this
        rw [hf] at this
        cases this
  · intro h
    constructor
    · intro e he
      have hf : mine.find e.1 = some e.2 := findEntry_of_mem e.1 e.2 mine.entries hm.1 he
      have := h e.1
      rw [hm.2 e he]
      cases hg : other.find e.1 with
      | none => simp only [hf, hg] at this
      | some r2 =>
        simp only [hf, hg] at this
        exact ⟨r2, rfl, this⟩
    · intro e he
      have hf : other.find e.1 = some e.2 := findEntry_of_mem e.1 e.2 other.entries ho.1 he
      have := h e.1
      rw [ho.2 e he]
      cases hg : mine.find e.1 with
      | none => simp only [hf, hg] at this
      | some r2 => rfl

theorem ite_fst_eq_true (r x : Bool × String) :
    (if r.1 = false then (false, r.2) else x).1 = true ↔ r.1 = true ∧ x.1 = true := by
  cases h : r.1 <;> simp

/-- On schemas whose records are under their own rowIds `compare` returns true
exactly when the fifteen primary maps have the same rowIds with records that do
not differ. -/
theorem compare_true_iff (ne : RecordNe) (s t : Schema) (msgs : String)
    (hs : ∀ k, PrimaryOk k s) (ht : ∀ k, PrimaryOk k t) :
    (compare ne s t msgs).1 = true ↔ ∀ k, SamePrimary ne k s t := by
  simp only [compare, ite_fst_eq_true, compareSysCCol, compareSysCDef, compareSysCol,
      compareSysDeferredStg, compareSysECol, compareSysLob, compareSysLobCompPart,
      compareSysLobFrag, compareSysObj, compareSysTab, compareSysTabComPart, compareSysTabPart,
      compareSysTabSubPart, compareSysTs, compareSysUser]
  rw [compareRecords_true_iff _ _ _ _ _ _ (hs .CCOL) (ht .CCOL),
    compareRecords_true_iff _ _ _ _ _ _ (hs .CDEF) (ht .CDEF),
    compareRecords_true_iff _ _ _ _ _ _ (hs .COL) (ht .COL),
    compareRecords_true_iff _ _ _ _ _ _ (hs .DEFERRED_STG) (ht .DEFERRED_STG),
    compareRecords_true_iff _ _ _ _ _ _ (hs .ECOL) (ht .ECOL),
    compareRecords_true_iff _ _ _ _ _ _ (hs .LOB) (ht .LOB),
    compareRecords_true_iff _ _ _ _ _ _ (hs .LOBCOMPPART) (ht .LOBCOMPPART),
    compareRecords_true_iff _ _ _ _ _ _ (hs .LOBFRAG) (ht .LOBFRAG),
    compareRecords_true_iff _ _ _ _ _ _ (hs .OBJ) (ht .OBJ),
    compareRecords_true_iff _ _ _ _ _ _ (hs .TAB) (ht .TAB),
    compareRecords_true_iff _ _ _ _ _ _ (hs .TABCOMPART) (ht .TABCOMPART),
    compareRecords_true_iff _ _ _ _ _ _ (hs .TABPART) (ht .TABPART),
    compareRecords_true_iff _ _ _ _ _ _ (hs .TABSUBPART) (ht .TABSUBPART),
    compareRecords_true_iff _ _ _ _ _ _ (hs .TS) (ht .TS),
    compareRecords_true_iff _ _ _ _ _ _ (hs .USER) (ht .USER)]
  constructor
  · rintro ⟨h1, h2, h3, h4, h5, h6, h7, h8, h9, h10, h11, h12, h13, h14, h15, _⟩ k
    cases k
    · exact h1
    · exact h2
    · exact h3
    · exact h4
    · exact h5
    · exact h6
    · exact h7
    · exact h8
    · exact h9
    · exact h10
    · exact h11
    · exact h12
    · exact h13
    · exact h14
    · exact h15
  · intro h
    exact ⟨h .CCOL, h .CDEF, h .COL, h .DEFERRED_STG, h .ECOL, h .LOB, h .LOBCOMPPART,
      h .LOBFRAG, h .OBJ, h .TAB, h .TABCOMPART, h .TABPART, h .TABSUBPART, h .TS, h .USER,
      trivial⟩

theorem SameRecords.exchange {R : Type} {differs : R → R → Bool} {m1 m2 : Map RowId R}
    (hne : NeOk differs) (h : SameRecords differs m1 m2) : SameRecords differs m2 m1 := by
  intro rowId
  have := h rowId
  cases h1 : m1.find rowId <;> cases h2 : m2.find rowId <;> simp only [h1, h2] at this ⊢
  rw [hne.2]
  exact this

theorem SameRecords.same {R : Type} {differs : R → R → Bool} (hne : NeOk differs)
    (m : Map RowId R) : SameRecords differs m m := by
  intro rowId
  cases h1 : m.find rowId
  · trivial
  · exact hne.1 _

theorem samePrimary_symm {ne : RecordNe} {k : Kind} {s t : Schema} (hne : ne.Ok)
    (h : SamePrimary ne k s t) : SamePrimary ne k t s := by
  simp only [RecordNe.Ok] at hne
  cases k with
  | CCOL => exact SameRecords.exchange hne.1 h
  | CDEF => exact SameRecords.exchange hne.2.1 h
  | COL => exact SameRecords.exchange hne.2.2.1 h
  | DEFERRED_STG => exact SameRecords.exchange hne.2.2.2.1 h
  | ECOL => exact SameRecords.exchange hne.2.2.2.2.1 h
  | LOB => exact SameRecords.exchange hne.2.2.2.2.2.1 h
  | LOBCOMPPART => exact SameRecords.exchange hne.2.2.2.2.2.2.1 h
  | LOBFRAG => exact SameRecords.exchange hne.2.2.2.2.2.2.2.1 h
  | OBJ => exact SameRecords.exchange hne.2.2.2.2.2.2.2.2.1 h
  | TAB => exact SameRecords.exchange hne.2.2.2.2.2.2.2.2.2.1 h
  | TABCOMPART => exact SameRecords.exchange hne.2.2.2.2.2.2.2.2.2.2.1 h
  | TABPART => exact SameRecords.exchange hne.2.2.2.2.2.2.2.2.2.2.2.1 h
  | TABSUBPART => exact SameRecords.exchange hne.2.2.2.2.2.2.2.2.2.2.2.2.1 h
  | TS => exact SameRecords.exchange hne.2.2.2.2.2.2.2.2.2.2.2.2.2.1 h
  | USER => exact SameRecords.exchange hne.2.2.2.2.2.2.2.2.2.2.2.2.2.2 h

theorem samePrimary_refl (ne : RecordNe) (hne : ne.Ok) (k : Kind) (s : Schema) :
    SamePrimary ne k s s := by
  simp only [RecordNe.Ok] at hne
  cases k with
  | CCOL => exact SameRecords.same hne.1 _
  | CDEF => exact SameRecords.same hne.2.1 _
  | COL => exact SameRecords.same hne.2.2.1 _
  | DEFERRED_STG => exact SameRecords.same hne.2.2.2.1 _
  | ECOL => exact SameRecords.same hne.2.2.2.2.1 _
  | LOB => exact SameRecords.same hne.2.2.2.2.2.1 _
  | LOBCOMPPART => exact SameRecords.same hne.2.2.2.2.2.2.1 _
  | LOBFRAG => exact SameRecords.same hne.2.2.2.2.2.2.2.1 _
  | OBJ => exact SameRecords.same hne.2.2.2.2.2.2.2.2.1 _
  | TAB => exact SameRecords.same hne.2.2.2.2.2.2.2.2.2.1 _
  | TABCOMPART => exact SameRecords.same hne.2.2.2.2.2.2.2.2.2.2.1 _
  | TABPART => exact SameRecords.same hne.2.2.2.2.2.2.2.2.2.2.2.1 _
  | TABSUBPART => exact SameRecords.same hne.2.2.2.2.2.2.2.2.2.2.2.2.1 _
  | TS => exact SameRecords.same hne.2.2.2.2.2.2.2.2.2.2.2.2.2.1 _
  | USER => exact SameRecords.same hne.2.2.2.2.2.2.2.2.2.2.2.2.2.2 _

theorem RecordNe.fields_ok : RecordNe.fields.Ok := by
  simp only [RecordNe.Ok, NeOk, RecordNe.fields, ne_eq, not_true_eq_false, decide_False,
    implies_true, true_and, and_true]
  refine ⟨?_, ?_, ?_, ?_, ?_, ?_, ?_, ?_, ?_, ?_, ?_, ?_, ?_, ?_, ?_⟩ <;>
    (intro a b; simp only [eq_comm])


/-! #### Lemmas on emptying the schema: the table descriptors -/

theorem findEntry_isSome_of_mem {K V : Type} [DecidableEq K] (k : K) (v : V) :
    ∀ es : List (K × V), (k, v) ∈ es → (findEntry k es).isSome = true
  | [], h => by cases h
  | (k', v') :: es, h => by
    unfold findEntry
    by_cases hk : k = k'
    · rw [if_pos hk]
      rfl
    · rw [if_neg hk]
      rcases List.mem_cons.1 h with heq | hmem
      · cases heq
        exact absurd rfl hk
      · exact findEntry_isSome_of_mem k v es hmem

theorem Map.mem_eraseAll {K V : Type} [DecidableEq K] (m : Map K V) (ks : List K) (e : K × V) :
    e ∈ (m.eraseAll ks).entries ↔ e ∈ m.entries ∧ e.1 ∉ ks := by
  simp only [Map.eraseAll, List.mem_filter, decide_eq_true_eq]

theorem Registered.of_append {V : Type} {a b : List Nat} {m : Map Nat V}
    (h : Registered (a ++ b) m) : Registered b (m.eraseAll a) := by
  obtain ⟨hn, hp, hk⟩ := h
  rw [List.nodup_append] at hn
  refine ⟨hn.2.1, ?_, ?_⟩
  · intro obj hobj
    have hna : obj ∉ a := fun ha => hn.2.2 ha hobj
    rw [Map.find_eraseAll, if_neg hna]
    exact hp obj (List.mem_append_right _ hobj)
  · intro e he
    rw [Map.mem_eraseAll] at he
    rcases List.mem_append.1 (hk e he.1) with h1 | h1
    · exact absurd h1 he.2
    · exact h1

theorem Registered.entries_nil {V : Type} {m : Map Nat V} (h : Registered [] m) :
    m = Map.empty := by
  apply Map.ext_entries
  show m.entries = []
  cases hm : m.entries with
  | nil => rfl
  | cons e es =>
    have := h.2.2 e (hm ▸ List.mem_cons_self _ _)
    cases this

/-- One turn of the loop over `tableMap` on well-kept descriptor maps. -/
theorem removeTableFromDict_first (s : Schema) (k : Nat) (t : OracleTable)
    (rest : List (Nat × OracleTable)) (hd : DescOk s) (he : s.tableMap.entries = (k, t) :: rest) :
    (removeTableFromDict s t).ret = .ok () ∧
    DescOk (removeTableFromDict s t).schema ∧
    (removeTableFromDict s t).schema.tableMap.entries = rest ∧
    (∀ k, SameMaps k s (removeTableFromDict s t).schema) := by
  obtain ⟨hkey, hP, hL, hLP⟩ := hd
  have htables : s.tables = t :: rest.map Prod.snd := by
    simp only [Schema.tables, he, List.map_cons]
  rw [htables] at hP hL hLP
  simp only [List.flatMap_cons] at hP hL hLP
  have hobj : t.obj = k := hkey (k, t) (he ▸ List.mem_cons_self _ _)
  have h1 : t.partitionObjs.Nodup := (List.nodup_append.1 hP.1).1
  have h3 : (lobIndexObjs t.lobs).Nodup := (List.nodup_append.1 hL.1).1
  have h5 : (s.tableMap.find t.obj).isSome = true := by
    show (findEntry t.obj s.tableMap.entries).isSome = true
    rw [he, hobj]
    simp only [findEntry, if_true, Option.isSome_some]
  obtain ⟨hret, hs⟩ := removeTableFromDict_spec s t h1
    (fun x hx => hP.2.1 x (List.mem_append_left _ hx)) h3
    (fun x hx => hL.2.1 x (List.mem_append_left _ hx)) h5
  have hrest : ∀ e ∈ rest, e.1 ≠ t.obj := by
    intro e he2 heq
    have hin : e.2.obj = e.1 := hkey e (he ▸ List.mem_cons_of_mem _ he2)
    have hmem : e.1 ∈ (rest.map Prod.snd).flatMap OracleTable.partitionObjs := by
      rw [List.mem_flatMap]
      exact ⟨e.2, List.mem_map.2 ⟨e, he2, rfl⟩, by
        rw [← hin]; exact List.mem_cons_self _ _⟩
    have hmem2 : e.1 ∈ t.partitionObjs := by
      rw [heq]; exact List.mem_cons_self _ _
    exact (List.nodup_append.1 hP.1).2.2 hmem2 hmem
  have htm : (s.tableMap.erase t.obj).entries = rest := by
    show s.tableMap.entries.filter _ = rest
    rw [he, List.filter_cons, hobj]
    simp only [ne_eq, not_true_eq_false, decide_False, Bool.false_eq_true, if_false]
    rw [List.filter_eq_self]
    intro e he2
    have := hrest e he2
    rw [hobj] at this
    simpa using this
  rw [hs]
  refine ⟨hret, ⟨?_, ?_, ?_, ?_⟩, htm, ?_⟩
  · intro e he2
    rw [show ({ s with
        tablePartitionMap := s.tablePartitionMap.eraseAll t.partitionObjs
        lobIndexMap := s.lobIndexMap.eraseAll (lobIndexObjs t.lobs)
        lobPartitionMap := s.lobPartitionMap.eraseAll (lobPartitionObjs t.lobs)
        tableMap := s.tableMap.erase t.obj } : Schema).tableMap.entries = rest from htm] at he2
    exact hkey e (he ▸ List.mem_cons_of_mem _ he2)
  · simp only [Schema.tables, htm]
    exact hP.of_append
  · simp only [Schema.tables, htm]
    exact hL.of_append
  · simp only [Schema.tables, htm]
    intro e he2
    rw [Map.mem_eraseAll] at he2
    rcases List.mem_append.1 (hLP e he2.1) with h | h
    · exact absurd h he2.2
    · exact h
  · intro k
    cases k <;> simp only [SameMaps] <;> trivial


/-! #### Lemmas on emptying the schema: the dictionaries -/

theorem purgeTables_ok : ∀ (fuel : Nat) (s : Schema), DescOk s →
    s.tableMap.entries.length < fuel →
    ∃ s2, purgeTables fuel s = some { schema := s2, ret := .ok () } ∧
      s2.tableMap = Map.empty ∧ s2.tablePartitionMap = Map.empty ∧
      s2.lobIndexMap = Map.empty ∧ s2.lobPartitionMap = Map.empty ∧
      ∀ k, SameMaps k s s2
  | 0, _, _, h => absurd h (Nat.not_lt_zero _)
  | fuel + 1, s, hd, h => by
    unfold purgeTables
    cases he : s.tableMap.entries with
    | nil =>
      refine ⟨s, rfl, Map.ext_entries he, ?_, ?_, ?_, fun k => SameMaps.refl k s⟩
      · have := hd.2.1
        simp only [Schema.tables, he, List.map_nil, List.flatMap_nil] at this
        exact this.entries_nil
      · have := hd.2.2.1
        simp only [Schema.tables, he, List.map_nil, List.flatMap_nil] at this
        exact this.entries_nil
      · have := hd.2.2.2
        simp only [Schema.tables, he, List.map_nil, List.flatMap_nil] at this
        apply Map.ext_entries
        show s.lobPartitionMap.entries = []
        cases hm : s.lobPartitionMap.entries with
        | nil => rfl
        | cons e es => cases this e (hm ▸ List.mem_cons_self _ _)
    | cons e rest =>
      obtain ⟨k, t⟩ := e
      obtain ⟨hret, hd2, hrest, hsame⟩ := removeTableFromDict_first s k t rest hd he
      simp only [hret]
      rw [he] at h
      obtain ⟨s2, h1, h2, h3, h4, h5, h6⟩ :=
        purgeTables_ok fuel (removeTableFromDict s t).schema hd2
          (by rw [hrest]; exact Nat.lt_of_succ_lt_succ h)
      exact ⟨s2, h1, h2, h3, h4, h5, fun k => (hsame k).trans (h6 k)⟩

theorem Map.find_head {K V : Type} [DecidableEq K] (m : Map K V) (e : K × V) (es : List (K × V))
    (he : m.entries = e :: es) : m.find e.1 = some e.2 := by
  show findEntry e.1 m.entries = some e.2
  rw [he]
  simp only [findEntry, if_true]

theorem Map.erase_length_lt {K V : Type} [DecidableEq K] (m : Map K V) (k : K)
    (h : (m.find k).isSome = true) : (m.erase k).entries.length < m.entries.length := by
  obtain ⟨v, hv⟩ := Option.isSome_iff_exists.1 h
  have hmem := findEntry_mem k v m.entries hv
  show (m.entries.filter _).length < m.entries.length
  apply List.length_filter_lt_length_iff_exists.2
  exact ⟨(k, v), hmem, by simp⟩

theorem IndexOk.index_empty {R K H : Type} [DecidableEq K] {rowIdOf : R → RowId} {key : R → K}
    {entry : RowId → H} {primary : Map RowId R} {index : Map K H}
    (hok : IndexOk rowIdOf key entry primary index) (hp : primary.entries = []) :
    index = Map.empty := by
  apply Map.ext_entries
  show index.entries = []
  cases hm : index.entries with
  | nil => rfl
  | cons e es =>
    obtain ⟨r, hr, _⟩ := hok.2 _ _ (Map.find_head index e es hm)
    have : primary.find (rowIdOf r) = none := by
      show findEntry _ primary.entries = none
      rw [hp]
      rfl
    rw [this] at hr
    cases hr

theorem colSegOk_of_sameMaps {s t : Schema} (h : SameMaps Kind.COL s t) (hc : ColSegOk s) :
    ColSegOk t := by
  simp only [SameMaps] at h
  simp only [ColSegOk] at hc ⊢
  rw [← h.1, ← h.2]
  exact hc

theorem primarySize_of_sameMaps {k : Kind} {s t : Schema} (h : SameMaps k s t) :
    primarySize k t = primarySize k s := by
  cases k <;> simp only [SameMaps] at h <;> simp only [primarySize, h]

theorem reportKind_of_empty (k : Kind) (s : Schema) (reported : List (Nat × String))
    (h : SameMaps k s Schema.empty) : reportKind k s reported = reported := by
  cases k <;> simp only [SameMaps] at h <;>
    simp only [reportKind, h, Schema.empty, reportLeft, Map.empty]

/-- The drop of a stored column of COL$ on maps that agree. -/
theorem dictSysColDrop_purge (s : Schema) (r : SysCol) (hc : Consistent Kind.COL s)
    (hcol : ColSegOk s) (hstored : s.sysColMapRowId.find r.rowId = some r) :
    (dictSysColDrop s r).ret = .ok () ∧ Consistent Kind.COL (dictSysColDrop s r).schema ∧
    ColSegOk (dictSysColDrop s r).schema ∧
    (dictSysColDrop s r).schema.sysColMapRowId = s.sysColMapRowId.erase r.rowId := by
  simp only [Consistent] at hc
  have key : ∀ (seg2 : Map SysColSeg RowId),
      (∀ k h, seg2.find k = some h → s.sysColMapSeg.find k = some h ∧ (0 < r.segCol → k ≠ r.seg)) →
      (∀ rowId x, rowId ≠ r.rowId → s.sysColMapRowId.find rowId = some x → 0 < x.segCol →
        seg2.find x.seg = some rowId) →
      ((∀ rowId x, (s.sysColMapRowId.erase r.rowId).find rowId = some x → 0 < x.segCol →
          seg2.find x.seg = some rowId) ∧
        (∀ k h, seg2.find k = some h →
          ∃ x, (s.sysColMapRowId.erase r.rowId).find x.rowId = some x ∧ h = x.rowId ∧
            x.seg = k)) ∧
      ((∀ rowId x, (s.sysColMapRowId.erase r.rowId).find rowId = some x → x.rowId = rowId) ∧
        (∀ k h, seg2.find k = some h →
          ∃ x, (s.sysColMapRowId.erase r.rowId).find x.rowId = some x ∧ h = x.rowId ∧
            x.seg = k ∧ 0 < x.segCol)) := by
    intro seg2 hsub hkeep
    have hfind : ∀ rowId x, (s.sysColMapRowId.erase r.rowId).find rowId = some x →
        rowId ≠ r.rowId ∧ s.sysColMapRowId.find rowId = some x := by
      intro rowId x hx
      by_cases hid : rowId = r.rowId
      · rw [hid, Map.find_erase_self] at hx
        cases hx
      · rw [Map.find_erase_ne _ _ _ hid] at hx
        exact ⟨hid, hx⟩
    have h2 : ∀ k h, seg2.find k = some h →
        ∃ x, (s.sysColMapRowId.erase r.rowId).find x.rowId = some x ∧ h = x.rowId ∧
          x.seg = k ∧ 0 < x.segCol := by
      intro k h hk
      obtain ⟨hk1, hk2⟩ := hsub k h hk
      obtain ⟨x, hx1, hx2, hx3, hx4⟩ := hcol.2 k h hk1
      have hne : x.rowId ≠ r.rowId := by
        intro hid
        rw [hid, hstored] at hx1
        cases hx1
        exact hk2 hx4 hx3.symm
      refine ⟨x, ?_, hx2, hx3, hx4⟩
      rw [Map.find_erase_ne _ _ _ hne]
      exact hx1
    refine ⟨⟨?_, ?_⟩, ?_, h2⟩
    · intro rowId x hx h0
      obtain ⟨hid, hx2⟩ := hfind rowId x hx
      exact hkeep rowId x hid hx2 h0
    · intro k h hk
      obtain ⟨x, hx1, hx2, hx3, _⟩ := h2 k h hk
      exact ⟨x, hx1, hx2, hx3⟩
    · intro rowId x hx
      exact hcol.1 rowId x (hfind rowId x hx).2
  by_cases h0 : 0 < r.segCol
  · have h1 := hc.1 _ _ hstored h0
    obtain ⟨hret, hP, hS⟩ := dictSysColDrop_ok_seg s r r _ hstored h0 h1
    refine ⟨hret, ?_, ?_, hP⟩
    · simp only [Consistent]
      rw [hP, hS]
      refine (key _ ?_ ?_).1
      · intro k h hk
        by_cases hks : k = r.seg
        · rw [hks, Map.find_erase_self] at hk
          cases hk
        · rw [Map.find_erase_ne _ _ _ hks] at hk
          exact ⟨hk, fun _ => hks⟩
      · intro rowId x hid hx hx0
        have hxs := hc.1 _ _ hx hx0
        have hne : x.seg ≠ r.seg := by
          intro heq
          rw [heq, h1] at hxs
          exact hid (Option.some.inj hxs).symm
        rw [Map.find_erase_ne _ _ _ hne]
        exact hxs
    · simp only [ColSegOk]
      rw [hP, hS]
      refine (key _ ?_ ?_).2
      · intro k h hk
        by_cases hks : k = r.seg
        · rw [hks, Map.find_erase_self] at hk
          cases hk
        · rw [Map.find_erase_ne _ _ _ hks] at hk
          exact ⟨hk, fun _ => hks⟩
      · intro rowId x hid hx hx0
        have hxs := hc.1 _ _ hx hx0
        have hne : x.seg ≠ r.seg := by
          intro heq
          rw [heq, h1] at hxs
          exact hid (Option.some.inj hxs).symm
        rw [Map.find_erase_ne _ _ _ hne]
        exact hxs
  · obtain ⟨hret, hP, hS⟩ := dictSysColDrop_ok_none s r r hstored h0
    refine ⟨hret, ?_, ?_, hP⟩
    · simp only [Consistent]
      rw [hP, hS]
      exact (key _ (fun k h hk => ⟨hk, fun h => absurd h h0⟩)
        (fun rowId x _ hx hx0 => hc.1 _ _ hx hx0)).1
    · simp only [ColSegOk]
      rw [hP, hS]
      exact (key _ (fun k h hk => ⟨hk, fun h => absurd h h0⟩)
        (fun rowId x _ hx hx0 => hc.1 _ _ hx hx0)).2

theorem dictSysCColDrop_tables (s : Schema) (r : SysCCol) :
    SameTableDict s (dictSysCColDrop s r).schema := by
  simp only [SameTableDict, dictSysCColDrop]
  (repeat' split) <;> simp

theorem dictSysCColDrop_primary (s : Schema) (r : SysCCol)
    (hc : Consistent Kind.CCOL s)
    (hstored : s.sysCColMapRowId.find r.rowId = some r) :
    (dictSysCColDrop s r).schema.sysCColMapRowId =
      s.sysCColMapRowId.erase r.rowId := by
  simp only [Consistent] at hc
  have h1 := hc.1 _ _ hstored
  exact (dictSysCColDrop_ok s r r _ hstored h1).2.1

theorem dictSysCDefDrop_tables (s : Schema) (r : SysCDef) :
    SameTableDict s (dictSysCDefDrop s r).schema := by
  simp only [SameTableDict, dictSysCDefDrop]
  (repeat' split) <;> simp

theorem dictSysCDefDrop_primary (s : Schema) (r : SysCDef)
    (hc : Consistent Kind.CDEF s)
    (hstored : s.sysCDefMapRowId.find r.rowId = some r) :
    (dictSysCDefDrop s r).schema.sysCDefMapRowId =
      s.sysCDefMapRowId.erase r.rowId := by
  simp only [Consistent] at hc
  have h1 := hc.1.1 _ _ hstored
  have h2 := hc.2.1 _ _ hstored
  exact (dictSysCDefDrop_ok s r r _ _ hstored h1 h2).2.1

theorem dictSysColDrop_tables (s : Schema) (r : SysCol) :
    SameTableDict s (dictSysColDrop s r).schema := by
  simp only [SameTableDict, dictSysColDrop]
  (repeat' split) <;> simp

theorem dictSysDeferredStgDrop_tables (s : Schema) (r : SysDeferredStg) :
    SameTableDict s (dictSysDeferredStgDrop s r).schema := by
  simp only [SameTableDict, dictSysDeferredStgDrop]
  (repeat' split) <;> simp

theorem dictSysDeferredStgDrop_primary (s : Schema) (r : SysDeferredStg)
    (hc : Consistent Kind.DEFERRED_STG s)
    (hstored : s.sysDeferredStgMapRowId.find r.rowId = some r) :
    (dictSysDeferredStgDrop s r).schema.sysDeferredStgMapRowId =
      s.sysDeferredStgMapRowId.erase r.rowId := by
  simp only [Consistent] at hc
  have h1 := hc.1 _ _ hstored
  exact (dictSysDeferredStgDrop_ok s r r _ hstored h1).2.1

theorem dictSysEColDrop_tables (s : Schema) (r : SysECol) :
    SameTableDict s (dictSysEColDrop s r).schema := by
  simp only [SameTableDict, dictSysEColDrop]
  (repeat' split) <;> simp

theorem dictSysEColDrop_primary (s : Schema) (r : SysECol)
    (hc : Consistent Kind.ECOL s)
    (hstored : s.sysEColMapRowId.find r.rowId = some r) :
    (dictSysEColDrop s r).schema.sysEColMapRowId =
      s.sysEColMapRowId.erase r.rowId := by
  simp only [Consistent] at hc
  have h1 := hc.1 _ _ hstored
  exact (dictSysEColDrop_ok s r r _ hstored h1).2.1

theorem dictSysLobDrop_tables (s : Schema) (r : SysLob) :
    SameTableDict s (dictSysLobDrop s r).schema := by
  simp only [SameTableDict, dictSysLobDrop]
  (repeat' split) <;> simp

theorem dictSysLobDrop_primary (s : Schema) (r : SysLob)
    (hc : Consistent Kind.LOB s)
    (hstored : s.sysLobMapRowId.find r.rowId = some r) :
    (dictSysLobDrop s r).schema.sysLobMapRowId =
      s.sysLobMapRowId.erase r.rowId := by
  simp only [Consistent] at hc
  have h1 := hc.1.1 _ _ hstored
  have h2 := hc.2.1 _ _ hstored
  exact (dictSysLobDrop_ok s r r _ _ hstored h1 h2).2.1

theorem dictSysLobCompPartDrop_tables (s : Schema) (r : SysLobCompPart) :
    SameTableDict s (dictSysLobCompPartDrop s r).schema := by
  simp only [SameTableDict, dictSysLobCompPartDrop]
  (repeat' split) <;> simp

theorem dictSysLobCompPartDrop_primary (s : Schema) (r : SysLobCompPart)
    (hc : Consistent Kind.LOBCOMPPART s)
    (hstored : s.sysLobCompPartMapRowId.find r.rowId = some r) :
    (dictSysLobCompPartDrop s r).schema.sysLobCompPartMapRowId =
      s.sysLobCompPartMapRowId.erase r.rowId := by
  simp only [Consistent] at hc
  have h1 := hc.1.1 _ _ hstored
  have h2 := hc.2.1 _ _ hstored
  exact (dictSysLobCompPartDrop_ok s r r _ _ hstored h1 h2).2.1

theorem dictSysLobFragDrop_tables (s : Schema) (r : SysLobFrag) :
    SameTableDict s (dictSysLobFragDrop s r).schema := by
  simp only [SameTableDict, dictSysLobFragDrop]
  (repeat' split) <;> simp

theorem dictSysLobFragDrop_primary (s : Schema) (r : SysLobFrag)
    (hc : Consistent Kind.LOBFRAG s)
    (hstored : s.sysLobFragMapRowId.find r.rowId = some r) :
    (dictSysLobFragDrop s r).schema.sysLobFragMapRowId =
      s.sysLobFragMapRowId.erase r.rowId := by
  simp only [Consistent] at hc
  have h1 := hc.1 _ _ hstored
  exact (dictSysLobFragDrop_ok s r r _ hstored h1).2.1

theorem dictSysObjDrop_tables (s : Schema) (r : SysObj) :
    SameTableDict s (dictSysObjDrop s r).schema := by
  simp only [SameTableDict, dictSysObjDrop]
  (repeat' split) <;> simp

theorem dictSysObjDrop_primary (s : Schema) (r : SysObj)
    (hc : Consistent Kind.OBJ s)
    (hstored : s.sysObjMapRowId.find r.rowId = some r) :
    (dictSysObjDrop s r).schema.sysObjMapRowId =
      s.sysObjMapRowId.erase r.rowId := by
  simp only [Consistent] at hc
  have h1 := hc.1.1 _ _ hstored
  have h2 := hc.2.1 _ _ hstored
  exact (dictSysObjDrop_ok s r r _ _ hstored h1 h2).2.1

theorem dictSysTabDrop_tables (s : Schema) (r : SysTab) :
    SameTableDict s (dictSysTabDrop s r).schema := by
  simp only [SameTableDict, dictSysTabDrop]
  (repeat' split) <;> simp

theorem dictSysTabDrop_primary (s : Schema) (r : SysTab)
    (hc : Consistent Kind.TAB s)
    (hstored : s.sysTabMapRowId.find r.rowId = some r) :
    (dictSysTabDrop s r).schema.sysTabMapRowId =
      s.sysTabMapRowId.erase r.rowId := by
  simp only [Consistent] at hc
  have h1 := hc.1 _ _ hstored
  exact (dictSysTabDrop_ok s r r _ hstored h1).2.1

theorem dictSysTabComPartDrop_tables (s : Schema) (r : SysTabComPart) :
    SameTableDict s (dictSysTabComPartDrop s r).schema := by
  simp only [SameTableDict, dictSysTabComPartDrop]
  (repeat' split) <;> simp

theorem dictSysTabComPartDrop_primary (s : Schema) (r : SysTabComPart)
    (hc : Consistent Kind.TABCOMPART s)
    (hstored : s.sysTabComPartMapRowId.find r.rowId = some r) :
    (dictSysTabComPartDrop s r).schema.sysTabComPartMapRowId =
      s.sysTabComPartMapRowId.erase r.rowId := by
  simp only [Consistent] at hc
  have h1 := hc.1.1 _ _ hstored
  have h2 := hc.2.1 _ _ hstored
  exact (dictSysTabComPartDrop_ok s r r _ _ hstored h1 h2).2.1

theorem dictSysTabPartDrop_tables (s : Schema) (r : SysTabPart) :
    SameTableDict s (dictSysTabPartDrop s r).schema := by
  simp only [SameTableDict, dictSysTabPartDrop]
  (repeat' split) <;> simp

theorem dictSysTabPartDrop_primary (s : Schema) (r : SysTabPart)
    (hc : Consistent Kind.TABPART s)
    (hstored : s.sysTabPartMapRowId.find r.rowId = some r) :
    (dictSysTabPartDrop s r).schema.sysTabPartMapRowId =
      s.sysTabPartMapRowId.erase r.rowId := by
  simp only [Consistent] at hc
  have h1 := hc.1 _ _ hstored
  exact (dictSysTabPartDrop_ok s r r _ hstored h1).2.1

theorem dictSysTabSubPartDrop_tables (s : Schema) (r : SysTabSubPart) :
    SameTableDict s (dictSysTabSubPartDrop s r).schema := by
  simp only [SameTableDict, dictSysTabSubPartDrop]
  (repeat' split) <;> simp

theorem dictSysTabSubPartDrop_primary (s : Schema) (r : SysTabSubPart)
    (hc : Consistent Kind.TABSUBPART s)
    (hstored : s.sysTabSubPartMapRowId.find r.rowId = some r) :
    (dictSysTabSubPartDrop s r).schema.sysTabSubPartMapRowId =
      s.sysTabSubPartMapRowId.erase r.rowId := by
  simp only [Consistent] at hc
  have h1 := hc.1 _ _ hstored
  exact (dictSysTabSubPartDrop_ok s r r _ hstored h1).2.1

theorem dictSysTsDrop_tables (s : Schema) (r : SysTs) :
    SameTableDict s (dictSysTsDrop s r).schema := by
  simp only [SameTableDict, dictSysTsDrop]
  (repeat' split) <;> simp

theorem dictSysTsDrop_primary (s : Schema) (r : SysTs)
    (hc : Consistent Kind.TS s)
    (hstored : s.sysTsMapRowId.find r.rowId = some r) :
    (dictSysTsDrop s r).schema.sysTsMapRowId =
      s.sysTsMapRowId.erase r.rowId := by
  simp only [Consistent] at hc
  have h1 := hc.1 _ _ hstored
  exact (dictSysTsDrop_ok s r r _ hstored h1).2.1

theorem dictSysUserDrop_tables (s : Schema) (r : SysUser) :
    SameTableDict s (dictSysUserDrop s r).schema := by
  simp only [SameTableDict, dictSysUserDrop]
  (repeat' split) <;> simp

theorem dictSysUserDrop_primary (s : Schema) (r : SysUser)
    (hc : Consistent Kind.USER s)
    (hstored : s.sysUserMapRowId.find r.rowId = some r) :
    (dictSysUserDrop s r).schema.sysUserMapRowId =
      s.sysUserMapRowId.erase r.rowId := by
  simp only [Consistent] at hc
  have h1 := hc.1 _ _ hstored
  exact (dictSysUserDrop_ok s r r _ hstored h1).2.1

theorem dictDrop_tables (s : Schema) (r : Row) : SameTableDict s (dictDrop s r).schema := by
  cases r with
  | ccol r => exact dictSysCColDrop_tables s r
  | cdef r => exact dictSysCDefDrop_tables s r
  | col r => exact dictSysColDrop_tables s r
  | deferredStg r => exact dictSysDeferredStgDrop_tables s r
  | ecol r => exact dictSysEColDrop_tables s r
  | lob r => exact dictSysLobDrop_tables s r
  | lobCompPart r => exact dictSysLobCompPartDrop_tables s r
  | lobFrag r => exact dictSysLobFragDrop_tables s r
  | obj r => exact dictSysObjDrop_tables s r
  | tab r => exact dictSysTabDrop_tables s r
  | tabComPart r => exact dictSysTabComPartDrop_tables s r
  | tabPart r => exact dictSysTabPartDrop_tables s r
  | tabSubPart r => exact dictSysTabSubPartDrop_tables s r
  | ts r => exact dictSysTsDrop_tables s r
  | user r => exact dictSysUserDrop_tables s r

/-- One turn of the loop over the primary map of a kind on maps that agree. -/
theorem dictDrop_purge (s : Schema) (r : Row) (hc : Consistent r.kind s) (hcol : ColSegOk s)
    (hstored : Stored s r) :
    (dictDrop s r).ret = .ok () ∧ Consistent r.kind (dictDrop s r).schema ∧
    ColSegOk (dictDrop s r).schema ∧
    primarySize r.kind (dictDrop s r).schema < primarySize r.kind s := by
  cases r with
  | ccol r =>
    obtain ⟨h1, h2⟩ := dictSysCColDrop_consistent s r hc hstored
    refine ⟨h1, h2,
      colSegOk_of_sameMaps (dictSysCColDrop_frame s r Kind.COL (by decide)) hcol, ?_⟩
    show (dictSysCColDrop s r).schema.sysCColMapRowId.entries.length < _
    rw [dictSysCColDrop_primary s r hc hstored]
    exact Map.erase_length_lt _ _ (by
      rw [show s.sysCColMapRowId.find r.rowId = some r from hstored]
      rfl)
  | cdef r =>
    obtain ⟨h1, h2⟩ := dictSysCDefDrop_consistent s r hc hstored
    refine ⟨h1, h2,
      colSegOk_of_sameMaps (dictSysCDefDrop_frame s r Kind.COL (by decide)) hcol, ?_⟩
    show (dictSysCDefDrop s r).schema.sysCDefMapRowId.entries.length < _
    rw [dictSysCDefDrop_primary s r hc hstored]
    exact Map.erase_length_lt _ _ (by
      rw [show s.sysCDefMapRowId.find r.rowId = some r from hstored]
      rfl)
  | col r =>
    obtain ⟨h1, h2, h3, h4⟩ := dictSysColDrop_purge s r hc hcol hstored
    refine ⟨h1, h2, h3, ?_⟩
    show (dictSysColDrop s r).schema.sysColMapRowId.entries.length < _
    rw [h4]
    exact Map.erase_length_lt _ _ (by
      rw [show s.sysColMapRowId.find r.rowId = some r from hstored]
      rfl)
  | deferredStg r =>
    obtain ⟨h1, h2⟩ := dictSysDeferredStgDrop_consistent s r hc hstored
    refine ⟨h1, h2,
      colSegOk_of_sameMaps (dictSysDeferredStgDrop_frame s r Kind.COL (by decide)) hcol, ?_⟩
    show (dictSysDeferredStgDrop s r).schema.sysDeferredStgMapRowId.entries.length < _
    rw [dictSysDeferredStgDrop_primary s r hc hstored]
    exact Map.erase_length_lt _ _ (by
      rw [show s.sysDeferredStgMapRowId.find r.rowId = some r from hstored]
      rfl)
  | ecol r =>
    obtain ⟨h1, h2⟩ := dictSysEColDrop_consistent s r hc hstored
    refine ⟨h1, h2,
      colSegOk_of_sameMaps (dictSysEColDrop_frame s r Kind.COL (by decide)) hcol, ?_⟩
    show (dictSysEColDrop s r).schema.sysEColMapRowId.entries.length < _
    rw [dictSysEColDrop_primary s r hc hstored]
    exact Map.erase_length_lt _ _ (by
      rw [show s.sysEColMapRowId.find r.rowId = some r from hstored]
      rfl)
  | lob r =>
    obtain ⟨h1, h2⟩ := dictSysLobDrop_consistent s r hc hstored
    refine ⟨h1, h2,
      colSegOk_of_sameMaps (dictSysLobDrop_frame s r Kind.COL (by decide)) hcol, ?_⟩
    show (dictSysLobDrop s r).schema.sysLobMapRowId.entries.length < _
    rw [dictSysLobDrop_primary s r hc hstored]
    exact Map.erase_length_lt _ _ (by
      rw [show s.sysLobMapRowId.find r.rowId = some r from hstored]
      rfl)
  | lobCompPart r =>
    obtain ⟨h1, h2⟩ := dictSysLobCompPartDrop_consistent s r hc hstored
    refine ⟨h1, h2,
      colSegOk_of_sameMaps (dictSysLobCompPartDrop_frame s r Kind.COL (by decide)) hcol, ?_⟩
    show (dictSysLobCompPartDrop s r).schema.sysLobCompPartMapRowId.entries.length < _
    rw [dictSysLobCompPartDrop_primary s r hc hstored]
    exact Map.erase_length_lt _ _ (by
      rw [show s.sysLobCompPartMapRowId.find r.rowId = some r from hstored]
      rfl)
  | lobFrag r =>
    obtain ⟨h1, h2⟩ := dictSysLobFragDrop_consistent s r hc hstored
    refine ⟨h1, h2,
      colSegOk_of_sameMaps (dictSysLobFragDrop_frame s r Kind.COL (by decide)) hcol, ?_⟩
    show (dictSysLobFragDrop s r).schema.sysLobFragMapRowId.entries.length < _
    rw [dictSysLobFragDrop_primary s r hc hstored]
    exact Map.erase_length_lt _ _ (by
      rw [show s.sysLobFragMapRowId.find r.rowId = some r from hstored]
      rfl)
  | obj r =>
    obtain ⟨h1, h2⟩ := dictSysObjDrop_consistent s r hc hstored
    refine ⟨h1, h2,
      colSegOk_of_sameMaps (dictSysObjDrop_frame s r Kind.COL (by decide)) hcol, ?_⟩
    show (dictSysObjDrop s r).schema.sysObjMapRowId.entries.length < _
    rw [dictSysObjDrop_primary s r hc hstored]
    exact Map.erase_length_lt _ _ (by
      rw [show s.sysObjMapRowId.find r.rowId = some r from hstored]
      rfl)
  | tab r =>
    obtain ⟨h1, h2⟩ := dictSysTabDrop_consistent s r hc hstored
    refine ⟨h1, h2,
      colSegOk_of_sameMaps (dictSysTabDrop_frame s r Kind.COL (by decide)) hcol, ?_⟩
    show (dictSysTabDrop s r).schema.sysTabMapRowId.entries.length < _
    rw [dictSysTabDrop_primary s r hc hstored]
    exact Map.erase_length_lt _ _ (by
      rw [show s.sysTabMapRowId.find r.rowId = some r from hstored]
      rfl)
  | tabComPart r =>
    obtain ⟨h1, h2⟩ := dictSysTabComPartDrop_consistent s r hc hstored
    refine ⟨h1, h2,
      colSegOk_of_sameMaps (dictSysTabComPartDrop_frame s r Kind.COL (by decide)) hcol, ?_⟩
    show (dictSysTabComPartDrop s r).schema.sysTabComPartMapRowId.entries.length < _
    rw [dictSysTabComPartDrop_primary s r hc hstored]
    exact Map.erase_length_lt _ _ (by
      rw [show s.sysTabComPartMapRowId.find r.rowId = some r from hstored]
      rfl)
  | tabPart r =>
    obtain ⟨h1, h2⟩ := dictSysTabPartDrop_consistent s r hc hstored
    refine ⟨h1, h2,
      colSegOk_of_sameMaps (dictSysTabPartDrop_frame s r Kind.COL (by decide)) hcol, ?_⟩
    show (dictSysTabPartDrop s r).schema.sysTabPartMapRowId.entries.length < _
    rw [dictSysTabPartDrop_primary s r hc hstored]
    exact Map.erase_length_lt _ _ (by
      rw [show s.sysTabPartMapRowId.find r.rowId = some r from hstored]
      rfl)
  | tabSubPart r =>
    obtain ⟨h1, h2⟩ := dictSysTabSubPartDrop_consistent s r hc hstored
    refine ⟨h1, h2,
      colSegOk_of_sameMaps (dictSysTabSubPartDrop_frame s r Kind.COL (by decide)) hcol, ?_⟩
    show (dictSysTabSubPartDrop s r).schema.sysTabSubPartMapRowId.entries.length < _
    rw [dictSysTabSubPartDrop_primary s r hc hstored]
    exact Map.erase_length_lt _ _ (by
      rw [show s.sysTabSubPartMapRowId.find r.rowId = some r from hstored]
      rfl)
  | ts r =>
    obtain ⟨h1, h2⟩ := dictSysTsDrop_consistent s r hc hstored
    refine ⟨h1, h2,
      colSegOk_of_sameMaps (dictSysTsDrop_frame s r Kind.COL (by decide)) hcol, ?_⟩
    show (dictSysTsDrop s r).schema.sysTsMapRowId.entries.length < _
    rw [dictSysTsDrop_primary s r hc hstored]
    exact Map.erase_length_lt _ _ (by
      rw [show s.sysTsMapRowId.find r.rowId = some r from hstored]
      rfl)
  | user r =>
    obtain ⟨h1, h2⟩ := dictSysUserDrop_consistent s r hc hstored
    refine ⟨h1, h2,
      colSegOk_of_sameMaps (dictSysUserDrop_frame s r Kind.COL (by decide)) hcol, ?_⟩
    show (dictSysUserDrop s r).schema.sysUserMapRowId.entries.length < _
    rw [dictSysUserDrop_primary s r hc hstored]
    exact Map.erase_length_lt _ _ (by
      rw [show s.sysUserMapRowId.find r.rowId = some r from hstored]
      rfl)

/-- The record that a turn of the loop takes is a stored record of the kind. -/
theorem firstRow_stored (k : Kind) (s : Schema) (r : Row) (hc : Consistent k s)
    (hcol : ColSegOk s) (h : firstRow k s = some r) : r.kind = k ∧ Stored s r := by
  cases k with
  | CCOL =>
    simp only [Consistent] at hc
    simp only [firstRow] at h
    cases he : s.sysCColMapRowId.entries with
    | nil => rw [he] at h; cases h
    | cons e es =>
      rw [he] at h
      cases h
      have hf := Map.find_head _ e es he
      have hid : e.2.rowId = e.1 := IndexOk.rowId_eq hc RowId.entry_injective _ _ hf
      refine ⟨rfl, ?_⟩
      show s.sysCColMapRowId.find e.2.rowId = some e.2
      rw [hid]
      exact hf
  | CDEF =>
    simp only [Consistent] at hc
    simp only [firstRow] at h
    cases he : s.sysCDefMapRowId.entries with
    | nil => rw [he] at h; cases h
    | cons e es =>
      rw [he] at h
      cases h
      have hf := Map.find_head _ e es he
      have hid : e.2.rowId = e.1 := IndexOk.rowId_eq hc.1 RowId.entry_injective _ _ hf
      refine ⟨rfl, ?_⟩
      show s.sysCDefMapRowId.find e.2.rowId = some e.2
      rw [hid]
      exact hf
  | COL =>
    simp only [Consistent] at hc
    simp only [firstRow] at h
    cases he : s.sysColMapRowId.entries with
    | nil => rw [he] at h; cases h
    | cons e es =>
      rw [he] at h
      cases h
      have hf := Map.find_head _ e es he
      have hid : e.2.rowId = e.1 := hcol.1 _ _ hf
      refine ⟨rfl, ?_⟩
      show s.sysColMapRowId.find e.2.rowId = some e.2
      rw [hid]
      exact hf
  | DEFERRED_STG =>
    simp only [Consistent] at hc
    simp only [firstRow] at h
    cases he : s.sysDeferredStgMapRowId.entries with
    | nil => rw [he] at h; cases h
    | cons e es =>
      rw [he] at h
      cases h
      have hf := Map.find_head _ e es he
      have hid : e.2.rowId = e.1 := IndexOk.rowId_eq hc RowId.entryStg_injective _ _ hf
      refine ⟨rfl, ?_⟩
      show s.sysDeferredStgMapRowId.find e.2.rowId = some e.2
      rw [hid]
      exact hf
  | ECOL =>
    simp only [Consistent] at hc
    simp only [firstRow] at h
    cases he : s.sysEColMapRowId.entries with
    | nil => rw [he] at h; cases h
    | cons e es =>
      rw [he] at h
      cases h
      have hf := Map.find_head _ e es he
      have hid : e.2.rowId = e.1 := IndexOk.rowId_eq hc RowId.entry_injective _ _ hf
      refine ⟨rfl, ?_⟩
      show s.sysEColMapRowId.find e.2.rowId = some e.2
      rw [hid]
      exact hf
  | LOB =>
    simp only [Consistent] at hc
    simp only [firstRow] at h
    cases he : s.sysLobMapRowId.entries with
    | nil => rw [he] at h; cases h
    | cons e es =>
      rw [he] at h
      cases h
      have hf := Map.find_head _ e es he
      have hid : e.2.rowId = e.1 := IndexOk.rowId_eq hc.1 RowId.entry_injective _ _ hf
      refine ⟨rfl, ?_⟩
      show s.sysLobMapRowId.find e.2.rowId = some e.2
      rw [hid]
      exact hf
  | LOBCOMPPART =>
    simp only [Consistent] at hc
    simp only [firstRow] at h
    cases he : s.sysLobCompPartMapRowId.entries with
    | nil => rw [he] at h; cases h
    | cons e es =>
      rw [he] at h
      cases h
      have hf := Map.find_head _ e es he
      have hid : e.2.rowId = e.1 := IndexOk.rowId_eq hc.1 RowId.entry_injective _ _ hf
      refine ⟨rfl, ?_⟩
      show s.sysLobCompPartMapRowId.find e.2.rowId = some e.2
      rw [hid]
      exact hf
  | LOBFRAG =>
    simp only [Consistent] at hc
    simp only [firstRow] at h
    cases he : s.sysLobFragMapRowId.entries with
    | nil => rw [he] at h; cases h
    | cons e es =>
      rw [he] at h
      cases h
      have hf := Map.find_head _ e es he
      have hid : e.2.rowId = e.1 := IndexOk.rowId_eq hc RowId.entry_injective _ _ hf
      refine ⟨rfl, ?_⟩
      show s.sysLobFragMapRowId.find e.2.rowId = some e.2
      rw [hid]
      exact hf
  | OBJ =>
    simp only [Consistent] at hc
    simp only [firstRow] at h
    cases he : s.sysObjMapRowId.entries with
    | nil => rw [he] at h; cases h
    | cons e es =>
      rw [he] at h
      cases h
      have hf := Map.find_head _ e es he
      have hid : e.2.rowId = e.1 := IndexOk.rowId_eq hc.1 RowId.entry_injective _ _ hf
      refine ⟨rfl, ?_⟩
      show s.sysObjMapRowId.find e.2.rowId = some e.2
      rw [hid]
      exact hf
  | TAB =>
    simp only [Consistent] at hc
    simp only [firstRow] at h
    cases he : s.sysTabMapRowId.entries with
    | nil => rw [he] at h; cases h
    | cons e es =>
      rw [he] at h
      cases h
      have hf := Map.find_head _ e es he
      have hid : e.2.rowId = e.1 := IndexOk.rowId_eq hc RowId.entry_injective _ _ hf
      refine ⟨rfl, ?_⟩
      show s.sysTabMapRowId.find e.2.rowId = some e.2
      rw [hid]
      exact hf
  | TABCOMPART =>
    simp only [Consistent] at hc
    simp only [firstRow] at h
    cases he : s.sysTabComPartMapRowId.entries with
    | nil => rw [he] at h; cases h
    | cons e es =>
      rw [he] at h
      cases h
      have hf := Map.find_head _ e es he
      have hid : e.2.rowId = e.1 := IndexOk.rowId_eq hc.1 RowId.entry_injective _ _ hf
      refine ⟨rfl, ?_⟩
      show s.sysTabComPartMapRowId.find e.2.rowId = some e.2
      rw [hid]
      exact hf
  | TABPART =>
    simp only [Consistent] at hc
    simp only [firstRow] at h
    cases he : s.sysTabPartMapRowId.entries with
    | nil => rw [he] at h; cases h
    | cons e es =>
      rw [he] at h
      cases h
      have hf := Map.find_head _ e es he
      have hid : e.2.rowId = e.1 := IndexOk.rowId_eq hc RowId.entry_injective _ _ hf
      refine ⟨rfl, ?_⟩
      show s.sysTabPartMapRowId.find e.2.rowId = some e.2
      rw [hid]
      exact hf
  | TABSUBPART =>
    simp only [Consistent] at hc
    simp only [firstRow] at h
    cases he : s.sysTabSubPartMapRowId.entries with
    | nil => rw [he] at h; cases h
    | cons e es =>
      rw [he] at h
      cases h
      have hf := Map.find_head _ e es he
      have hid : e.2.rowId = e.1 := IndexOk.rowId_eq hc RowId.entry_injective _ _ hf
      refine ⟨rfl, ?_⟩
      show s.sysTabSubPartMapRowId.find e.2.rowId = some e.2
      rw [hid]
      exact hf
  | TS =>
    simp only [Consistent] at hc
    simp only [firstRow] at h
    cases he : s.sysTsMapRowId.entries with
    | nil => rw [he] at h; cases h
    | cons e es =>
      rw [he] at h
      cases h
      have hf := Map.find_head _ e es he
      have hid : e.2.rowId = e.1 := IndexOk.rowId_eq hc RowId.entry_injective _ _ hf
      refine ⟨rfl, ?_⟩
      show s.sysTsMapRowId.find e.2.rowId = some e.2
      rw [hid]
      exact hf
  | USER =>
    simp only [Consistent] at hc
    simp only [firstRow] at h
    cases he : s.sysUserMapRowId.entries with
    | nil => rw [he] at h; cases h
    | cons e es =>
      rw [he] at h
      cases h
      have hf := Map.find_head _ e es he
      have hid : e.2.rowId = e.1 := IndexOk.rowId_eq hc RowId.entry_injective _ _ hf
      refine ⟨rfl, ?_⟩
      show s.sysUserMapRowId.find e.2.rowId = some e.2
      rw [hid]
      exact hf

/-- When the loop of a kind ends, the maps of the kind are empty. -/
theorem firstRow_none (k : Kind) (s : Schema) (hc : Consistent k s) (hcol : ColSegOk s)
    (h : firstRow k s = none) : SameMaps k s Schema.empty := by
  cases k with
  | CCOL =>
    simp only [firstRow, Option.map_eq_none', List.head?_eq_none_iff] at h
    simp only [Consistent] at hc
    simp only [SameMaps]
    exact ⟨Map.ext_entries h, hc.index_empty h⟩
  | CDEF =>
    simp only [firstRow, Option.map_eq_none', List.head?_eq_none_iff] at h
    simp only [Consistent] at hc
    simp only [SameMaps]
    exact ⟨Map.ext_entries h, hc.1.index_empty h, hc.2.index_empty h⟩
  | COL =>
    simp only [firstRow, Option.map_eq_none', List.head?_eq_none_iff] at h
    simp only [SameMaps]
    refine ⟨Map.ext_entries h, ?_⟩
    apply Map.ext_entries
    show s.sysColMapSeg.entries = []
    cases hm : s.sysColMapSeg.entries with
    | nil => rfl
    | cons e es =>
      obtain ⟨r, hr, _⟩ := hcol.2 _ _ (Map.find_head _ e es hm)
      have : s.sysColMapRowId.find r.rowId = none := by
        show findEntry _ s.sysColMapRowId.entries = none
        rw [h]
        rfl
      rw [this] at hr
      cases hr
  | DEFERRED_STG =>
    simp only [firstRow, Option.map_eq_none', List.head?_eq_none_iff] at h
    simp only [Consistent] at hc
    simp only [SameMaps]
    exact ⟨Map.ext_entries h, hc.index_empty h⟩
  | ECOL =>
    simp only [firstRow, Option.map_eq_none', List.head?_eq_none_iff] at h
    simp only [Consistent] at hc
    simp only [SameMaps]
    exact ⟨Map.ext_entries h, hc.index_empty h⟩
  | LOB =>
    simp only [firstRow, Option.map_eq_none', List.head?_eq_none_iff] at h
    simp only [Consistent] at hc
    simp only [SameMaps]
    exact ⟨Map.ext_entries h, hc.1.index_empty h, hc.2.index_empty h⟩
  | LOBCOMPPART =>
    simp only [firstRow, Option.map_eq_none', List.head?_eq_none_iff] at h
    simp only [Consistent] at hc
    simp only [SameMaps]
    exact ⟨Map.ext_entries h, hc.1.index_empty h, hc.2.index_empty h⟩
  | LOBFRAG =>
    simp only [firstRow, Option.map_eq_none', List.head?_eq_none_iff] at h
    simp only [Consistent] at hc
    simp only [SameMaps]
    exact ⟨Map.ext_entries h, hc.index_empty h⟩
  | OBJ =>
    simp only [firstRow, Option.map_eq_none', List.head?_eq_none_iff] at h
    simp only [Consistent] at hc
    simp only [SameMaps]
    exact ⟨Map.ext_entries h, hc.1.index_empty h, hc.2.index_empty h⟩
  | TAB =>
    simp only [firstRow, Option.map_eq_none', List.head?_eq_none_iff] at h
    simp only [Consistent] at hc
    simp only [SameMaps]
    exact ⟨Map.ext_entries h, hc.index_empty h⟩
  | TABCOMPART =>
    simp only [firstRow, Option.map_eq_none', List.head?_eq_none_iff] at h
    simp only [Consistent] at hc
    simp only [SameMaps]
    exact ⟨Map.ext_entries h, hc.1.index_empty h, hc.2.index_empty h⟩
  | TABPART =>
    simp only [firstRow, Option.map_eq_none', List.head?_eq_none_iff] at h
    simp only [Consistent] at hc
    simp only [SameMaps]
    exact ⟨Map.ext_entries h, hc.index_empty h⟩
  | TABSUBPART =>
    simp only [firstRow, Option.map_eq_none', List.head?_eq_none_iff] at h
    simp only [Consistent] at hc
    simp only [SameMaps]
    exact ⟨Map.ext_entries h, hc.index_empty h⟩
  | TS =>
    simp only [firstRow, Option.map_eq_none', List.head?_eq_none_iff] at h
    simp only [Consistent] at hc
    simp only [SameMaps]
    exact ⟨Map.ext_entries h, hc.index_empty h⟩
  | USER =>
    simp only [firstRow, Option.map_eq_none', List.head?_eq_none_iff] at h
    simp only [Consistent] at hc
    simp only [SameMaps]
    exact ⟨Map.ext_entries h, hc.index_empty h⟩


/-! #### Lemmas on emptying the schema: the loops -/

theorem sameMaps_symm {k : Kind} {s t : Schema} (h : SameMaps k s t) : SameMaps k t s := by
  cases k <;> simp only [SameMaps] at h ⊢ <;> simp only [h] <;> trivial

theorem purgeLoop_ok (k : Kind) : ∀ (fuel : Nat) (s : Schema), Consistent k s → ColSegOk s →
    primarySize k s < fuel →
    ∃ s2, purgeLoop k fuel s = some { schema := s2, ret := .ok () } ∧
      SameMaps k s2 Schema.empty ∧ (∀ k2, k2 ≠ k → SameMaps k2 s s2) ∧
      SameTableDict s s2 ∧ ColSegOk s2
  | 0, _, _, _, h => absurd h (Nat.not_lt_zero _)
  | fuel + 1, s, hc, hcol, h => by
    unfold purgeLoop
    cases hf : firstRow k s with
    | none =>
      exact ⟨s, rfl, firstRow_none k s hc hcol hf, fun k2 _ => SameMaps.refl k2 s,
        ⟨rfl, rfl, rfl, rfl⟩, hcol⟩
    | some r =>
      obtain ⟨hk, hst⟩ := firstRow_stored k s r hc hcol hf
      subst hk
      obtain ⟨hret, hc2, hcol2, hlt⟩ := dictDrop_purge s r hc hcol hst
      simp only [hret]
      obtain ⟨s2, h1, h2, h3, h4, h5⟩ := purgeLoop_ok r.kind fuel (dictDrop s r).schema hc2 hcol2
        (by omega)
      have ht := dictDrop_tables s r
      exact ⟨s2, h1, h2, fun k2 hk2 => (dictDrop_frame s r k2 hk2).trans (h3 k2 hk2),
        ⟨ht.1.trans h4.1, ht.2.1.trans h4.2.1, ht.2.2.1.trans h4.2.2.1,
          ht.2.2.2.trans h4.2.2.2⟩, h5⟩

theorem purgeKinds_ok (zeroScn : Nat) (fuel : Nat) : ∀ (ks : List Kind) (s : Schema)
    (reported : List (Nat × String)), ks.Nodup → (∀ k ∈ ks, Consistent k s) → ColSegOk s →
    (∀ k ∈ ks, primarySize k s < fuel) →
    ∃ s2, purgeKinds zeroScn ks fuel s reported =
        some { schema := resetTouched s2, scn := zeroScn, reported := reported, ret := .ok () } ∧
      (∀ k ∈ ks, SameMaps k s2 Schema.empty) ∧ (∀ k, k ∉ ks → SameMaps k s s2) ∧
      SameTableDict s s2
  | [], s, reported, _, _, _, _ =>
    ⟨s, rfl, fun _ h => absurd h (List.not_mem_nil _), fun k _ => SameMaps.refl k s,
      ⟨rfl, rfl, rfl, rfl⟩⟩
  | k :: ks, s, reported, hn, hc, hcol, hsize => by
    rw [List.nodup_cons] at hn
    obtain ⟨s1, h1, h2, h3, h4, h5⟩ := purgeLoop_ok k fuel s (hc k (List.mem_cons_self _ _)) hcol
      (hsize k (List.mem_cons_self _ _))
    have hne : ∀ k2 ∈ ks, k2 ≠ k := fun k2 hk2 heq => hn.1 (heq ▸ hk2)
    obtain ⟨s2, g1, g2, g3, g4⟩ := purgeKinds_ok zeroScn fuel ks s1 reported hn.2
      (fun k2 hk2 => Consistent.of_sameMaps (h3 k2 (hne k2 hk2))
        (hc k2 (List.mem_cons_of_mem _ hk2)))
      h5
      (fun k2 hk2 => by
        rw [primarySize_of_sameMaps (h3 k2 (hne k2 hk2))]
        exact hsize k2 (List.mem_cons_of_mem _ hk2))
    refine ⟨s2, ?_, ?_, ?_, ?_⟩
    · unfold purgeKinds
      simp only [h1, reportKind_of_empty k s1 reported h2]
      exact g1
    · intro k2 hk2
      rcases List.mem_cons.1 hk2 with heq | hmem
      · rw [heq]
        exact (sameMaps_symm (g3 k hn.1)).trans h2
      · exact g2 k2 hmem
    · intro k2 hk2
      rw [List.mem_cons, not_or] at hk2
      exact (h3 k2 hk2.1).trans (g3 k2 hk2.2)
    · exact ⟨h4.1.trans g4.1, h4.2.1.trans g4.2.1, h4.2.2.1.trans g4.2.2.1,
        h4.2.2.2.trans g4.2.2.2⟩

theorem primarySize_le_size (k : Kind) (s : Schema) : primarySize k s ≤ s.size := by
  cases k <;> simp only [Schema.size, purgeOrder, List.map_cons, List.map_nil, List.sum_cons,
    List.sum_nil] <;> omega

theorem mem_purgeOrder (k : Kind) : k ∈ purgeOrder := by
  cases k <;> decide

theorem resetTouched_eq_empty (s : Schema) (h : ∀ k, SameMaps k s Schema.empty)
    (ht : SameTableDict s Schema.empty) : resetTouched s = Schema.empty := by
  have h1 := h .CCOL
  have h2 := h .CDEF
  have h3 := h .COL
  have h4 := h .DEFERRED_STG
  have h5 := h .ECOL
  have h6 := h .LOB
  have h7 := h .LOBCOMPPART
  have h8 := h .LOBFRAG
  have h9 := h .OBJ
  have h10 := h .TAB
  have h11 := h .TABCOMPART
  have h12 := h .TABPART
  have h13 := h .TABSUBPART
  have h14 := h .TS
  have h15 := h .USER
  simp only [SameMaps] at h1 h2 h3 h4 h5 h6 h7 h8 h9 h10 h11 h12 h13 h14 h15
  simp only [SameTableDict] at ht
  cases s
  simp only [resetTouched, Schema.empty, Schema.mk.injEq] at *
  simp only [h1, h2, h3, h4, h5, h6, h7, h8, h9, h10, h11, h12, h13, h14, h15, ht, and_self]


/-! #### The passes of `dropUnusedMetadata` -/

theorem Map.erase_of_find_none {K V : Type} [DecidableEq K] (m : Map K V) (k : K)
    (h : m.find k = none) : m.erase k = m := by
  rw [Map.erase_eq_eraseAll]
  refine Map.eraseAll_of_absent m [k] ?_
  intro x hx
  simp only [List.mem_singleton] at hx
  rw [hx]; exact h

theorem touchTable_touchedSet (s : Schema) (obj : Nat) (k : Kind) :
    touchedSet k (touchTable s obj) = touchedSet k s := by
  unfold touchTable
  cases k <;> (simp only [touchedSet]; try ((repeat' split) <;> rfl))

/-- A drop of CCOL$ erases the rowId of the record from the primary map, also
when it raises. -/
theorem dictSysCColDrop_erases (s : Schema) (r : SysCCol) :
    (dictSysCColDrop s r).schema.sysCColMapRowId = s.sysCColMapRowId.erase r.rowId := by
  cases h : s.sysCColMapRowId.find r.rowId with
  | none =>
    rw [Map.erase_of_find_none _ _ h]
    simp only [dictSysCColDrop, h]
  | some x =>
    simp only [dictSysCColDrop, h]
    (repeat' split) <;> simp

theorem dictSysCColDrop_touchedSet (s : Schema) (r : SysCCol) (k : Kind) :
    touchedSet k (dictSysCColDrop s r).schema = touchedSet k s := by
  cases k <;> (simp only [touchedSet, dictSysCColDrop]; try ((repeat' split) <;> simp))

/-- A drop of CDEF$ erases the rowId of the record from the primary map, also
when it raises. -/
theorem dictSysCDefDrop_erases (s : Schema) (r : SysCDef) :
    (dictSysCDefDrop s r).schema.sysCDefMapRowId = s.sysCDefMapRowId.erase r.rowId := by
  cases h : s.sysCDefMapRowId.find r.rowId with
  | none =>
    rw [Map.erase_of_find_none _ _ h]
    simp only [dictSysCDefDrop, h]
  | some x =>
    simp only [dictSysCDefDrop, h]
    (repeat' split) <;> simp

theorem dictSysCDefDrop_touchedSet (s : Schema) (r : SysCDef) (k : Kind) :
    touchedSet k (dictSysCDefDrop s r).schema = touchedSet k s := by
  cases k <;> (simp only [touchedSet, dictSysCDefDrop]; try ((repeat' split) <;> simp))

/-- A drop of COL$ erases the rowId of the record from the primary map, also
when it raises. -/
theorem dictSysColDrop_erases (s : Schema) (r : SysCol) :
    (dictSysColDrop s r).schema.sysColMapRowId = s.sysColMapRowId.erase r.rowId := by
  cases h : s.sysColMapRowId.find r.rowId with
  | none =>
    rw [Map.erase_of_find_none _ _ h]
    simp only [dictSysColDrop, h]
  | some x =>
    simp only [dictSysColDrop, h]
    (repeat' split) <;> simp

theorem dictSysColDrop_touchedSet (s : Schema) (r : SysCol) (k : Kind) :
    touchedSet k (dictSysColDrop s r).schema = touchedSet k s := by
  cases k <;> (simp only [touchedSet, dictSysColDrop]; try ((repeat' split) <;> simp))

/-- A drop of DEFERRED_STG$ erases the rowId of the record from the primary map, also
when it raises. -/
theorem dictSysDeferredStgDrop_erases (s : Schema) (r : SysDeferredStg) :
    (dictSysDeferredStgDrop s r).schema.sysDeferredStgMapRowId = s.sysDeferredStgMapRowId.erase r.rowId := by
  cases h : s.sysDeferredStgMapRowId.find r.rowId with
  | none =>
    rw [Map.erase_of_find_none _ _ h]
    simp only [dictSysDeferredStgDrop, h]
  | some x =>
    simp only [dictSysDeferredStgDrop, h]
    (repeat' split) <;> simp

theorem dictSysDeferredStgDrop_touchedSet (s : Schema) (r : SysDeferredStg) (k : Kind) :
    touchedSet k (dictSysDeferredStgDrop s r).schema = touchedSet k s := by
  cases k <;> (simp only [touchedSet, dictSysDeferredStgDrop]; try ((repeat' split) <;> simp))

/-- A drop of ECOL$ erases the rowId of the record from the primary map, also
when it raises. -/
theorem dictSysEColDrop_erases (s : Schema) (r : SysECol) :
    (dictSysEColDrop s r).schema.sysEColMapRowId = s.sysEColMapRowId.erase r.rowId := by
  cases h : s.sysEColMapRowId.find r.rowId with
  | none =>
    rw [Map.erase_of_find_none _ _ h]
    simp only [dictSysEColDrop, h]
  | some x =>
    simp only [dictSysEColDrop, h]
    (repeat' split) <;> simp

theorem dictSysEColDrop_touchedSet (s : Schema) (r : SysECol) (k : Kind) :
    touchedSet k (dictSysEColDrop s r).schema = touchedSet k s := by
  cases k <;> (simp only [touchedSet, dictSysEColDrop]; try ((repeat' split) <;> simp))

/-- A drop of LOB$ erases the rowId of the record from the primary map, also
when it raises. -/
theorem dictSysLobDrop_erases (s : Schema) (r : SysLob) :
    (dictSysLobDrop s r).schema.sysLobMapRowId = s.sysLobMapRowId.erase r.rowId := by
  cases h : s.sysLobMapRowId.find r.rowId with
  | none =>
    rw [Map.erase_of_find_none _ _ h]
    simp only [dictSysLobDrop, h]
  | some x =>
    simp only [dictSysLobDrop, h]
    (repeat' split) <;> simp

theorem dictSysLobDrop_touchedSet (s : Schema) (r : SysLob) (k : Kind) :
    touchedSet k (dictSysLobDrop s r).schema = touchedSet k s := by
  cases k <;> (simp only [touchedSet, dictSysLobDrop]; try ((repeat' split) <;> simp))

/-- A drop of LOBCOMPPART$ erases the rowId of the record from the primary map, also
when it raises. -/
theorem dictSysLobCompPartDrop_erases (s : Schema) (r : SysLobCompPart) :
    (dictSysLobCompPartDrop s r).schema.sysLobCompPartMapRowId = s.sysLobCompPartMapRowId.erase r.rowId := by
  cases h : s.sysLobCompPartMapRowId.find r.rowId with
  | none =>
    rw [Map.erase_of_find_none _ _ h]
    simp only [dictSysLobCompPartDrop, h]
  | some x =>
    simp only [dictSysLobCompPartDrop, h]
    (repeat' split) <;> simp

theorem dictSysLobCompPartDrop_touchedSet (s : Schema) (r : SysLobCompPart) (k : Kind) :
    touchedSet k (dictSysLobCompPartDrop s r).schema = touchedSet k s := by
  cases k <;> (simp only [touchedSet, dictSysLobCompPartDrop]; try ((repeat' split) <;> simp))

/-- A drop of LOBFRAG$ erases the rowId of the record from the primary map, also
when it raises. -/
theorem dictSysLobFragDrop_erases (s : Schema) (r : SysLobFrag) :
    (dictSysLobFragDrop s r).schema.sysLobFragMapRowId = s.sysLobFragMapRowId.erase r.rowId := by
  cases h : s.sysLobFragMapRowId.find r.rowId with
  | none =>
    rw [Map.erase_of_find_none _ _ h]
    simp only [dictSysLobFragDrop, h]
  | some x =>
    simp only [dictSysLobFragDrop, h]
    (repeat' split) <;> simp

theorem dictSysLobFragDrop_touchedSet (s : Schema) (r : SysLobFrag) (k : Kind) :
    touchedSet k (dictSysLobFragDrop s r).schema = touchedSet k s := by
  cases k <;> (simp only [touchedSet, dictSysLobFragDrop]; try ((repeat' split) <;> simp))

/-- A drop of OBJ$ erases the rowId of the record from the primary map, also
when it raises. -/
theorem dictSysObjDrop_erases (s : Schema) (r : SysObj) :
    (dictSysObjDrop s r).schema.sysObjMapRowId = s.sysObjMapRowId.erase r.rowId := by
  cases h : s.sysObjMapRowId.find r.rowId with
  | none =>
    rw [Map.erase_of_find_none _ _ h]
    simp only [dictSysObjDrop, h]
  | some x =>
    simp only [dictSysObjDrop, h]
    (repeat' split) <;> simp

theorem dictSysObjDrop_touchedSet (s : Schema) (r : SysObj) (k : Kind) :
    touchedSet k (dictSysObjDrop s r).schema = touchedSet k s := by
  cases k <;> (simp only [touchedSet, dictSysObjDrop]; try ((repeat' split) <;> simp))

/-- A drop of TAB$ erases the rowId of the record from the primary map, also
when it raises. -/
theorem dictSysTabDrop_erases (s : Schema) (r : SysTab) :
    (dictSysTabDrop s r).schema.sysTabMapRowId = s.sysTabMapRowId.erase r.rowId := by
  cases h : s.sysTabMapRowId.find r.rowId with
  | none =>
    rw [Map.erase_of_find_none _ _ h]
    simp only [dictSysTabDrop, h]
  | some x =>
    simp only [dictSysTabDrop, h]
    (repeat' split) <;> simp

theorem dictSysTabDrop_touchedSet (s : Schema) (r : SysTab) (k : Kind) :
    touchedSet k (dictSysTabDrop s r).schema = touchedSet k s := by
  cases k <;> (simp only [touchedSet, dictSysTabDrop]; try ((repeat' split) <;> simp))

/-- A drop of TABCOMPART$ erases the rowId of the record from the primary map, also
when it raises. -/
theorem dictSysTabComPartDrop_erases (s : Schema) (r : SysTabComPart) :
    (dictSysTabComPartDrop s r).schema.sysTabComPartMapRowId = s.sysTabComPartMapRowId.erase r.rowId := by
  cases h : s.sysTabComPartMapRowId.find r.rowId with
  | none =>
    rw [Map.erase_of_find_none _ _ h]
    simp only [dictSysTabComPartDrop, h]
  | some x =>
    simp only [dictSysTabComPartDrop, h]
    (repeat' split) <;> simp

theorem dictSysTabComPartDrop_touchedSet (s : Schema) (r : SysTabComPart) (k : Kind) :
    touchedSet k (dictSysTabComPartDrop s r).schema = touchedSet k s := by
  cases k <;> (simp only [touchedSet, dictSysTabComPartDrop]; try ((repeat' split) <;> simp))

/-- A drop of TABPART$ erases the rowId of the record from the primary map, also
when it raises. -/
theorem dictSysTabPartDrop_erases (s : Schema) (r : SysTabPart) :
    (dictSysTabPartDrop s r).schema.sysTabPartMapRowId = s.sysTabPartMapRowId.erase r.rowId := by
  cases h : s.sysTabPartMapRowId.find r.rowId with
  | none =>
    rw [Map.erase_of_find_none _ _ h]
    simp only [dictSysTabPartDrop, h]
  | some x =>
    simp only [dictSysTabPartDrop, h]
    (repeat' split) <;> simp

theorem dictSysTabPartDrop_touchedSet (s : Schema) (r : SysTabPart) (k : Kind) :
    touchedSet k (dictSysTabPartDrop s r).schema = touchedSet k s := by
  cases k <;> (simp only [touchedSet, dictSysTabPartDrop]; try ((repeat' split) <;> simp))

/-- A drop of TABSUBPART$ erases the rowId of the record from the primary map, also
when it raises. -/
theorem dictSysTabSubPartDrop_erases (s : Schema) (r : SysTabSubPart) :
    (dictSysTabSubPartDrop s r).schema.sysTabSubPartMapRowId = s.sysTabSubPartMapRowId.erase r.rowId := by
  cases h : s.sysTabSubPartMapRowId.find r.rowId with
  | none =>
    rw [Map.erase_of_find_none _ _ h]
    simp only [dictSysTabSubPartDrop, h]
  | some x =>
    simp only [dictSysTabSubPartDrop, h]
    (repeat' split) <;> simp

theorem dictSysTabSubPartDrop_touchedSet (s : Schema) (r : SysTabSubPart) (k : Kind) :
    touchedSet k (dictSysTabSubPartDrop s r).schema = touchedSet k s := by
  cases k <;> (simp only [touchedSet, dictSysTabSubPartDrop]; try ((repeat' split) <;> simp))

/-- A drop of TS$ erases the rowId of the record from the primary map, also
when it raises. -/
theorem dictSysTsDrop_erases (s : Schema) (r : SysTs) :
    (dictSysTsDrop s r).schema.sysTsMapRowId = s.sysTsMapRowId.erase r.rowId := by
  cases h : s.sysTsMapRowId.find r.rowId with
  | none =>
    rw [Map.erase_of_find_none _ _ h]
    simp only [dictSysTsDrop, h]
  | some x =>
    simp only [dictSysTsDrop, h]
    (repeat' split) <;> simp

theorem dictSysTsDrop_touchedSet (s : Schema) (r : SysTs) (k : Kind) :
    touchedSet k (dictSysTsDrop s r).schema = touchedSet k s := by
  cases k <;> (simp only [touchedSet, dictSysTsDrop]; try ((repeat' split) <;> simp))

/-- A drop of USER$ erases the rowId of the record from the primary map, also
when it raises. -/
theorem dictSysUserDrop_erases (s : Schema) (r : SysUser) :
    (dictSysUserDrop s r).schema.sysUserMapRowId = s.sysUserMapRowId.erase r.rowId := by
  cases h : s.sysUserMapRowId.find r.rowId with
  | none =>
    rw [Map.erase_of_find_none _ _ h]
    simp only [dictSysUserDrop, h]
  | some x =>
    simp only [dictSysUserDrop, h]
    (repeat' split) <;> simp

theorem dictSysUserDrop_touchedSet (s : Schema) (r : SysUser) (k : Kind) :
    touchedSet k (dictSysUserDrop s r).schema = touchedSet k s := by
  cases k <;> (simp only [touchedSet, dictSysUserDrop]; try ((repeat' split) <;> simp))

/-- A drop leaves the touched sets of the records as they are. -/
theorem dictDrop_touchedSet (s : Schema) (r : Row) (k : Kind) :
    touchedSet k (dictDrop s r).schema = touchedSet k s := by
  cases r with
  | ccol r => exact dictSysCColDrop_touchedSet s r k
  | cdef r => exact dictSysCDefDrop_touchedSet s r k
  | col r => exact dictSysColDrop_touchedSet s r k
  | deferredStg r => exact dictSysDeferredStgDrop_touchedSet s r k
  | ecol r => exact dictSysEColDrop_touchedSet s r k
  | lob r => exact dictSysLobDrop_touchedSet s r k
  | lobCompPart r => exact dictSysLobCompPartDrop_touchedSet s r k
  | lobFrag r => exact dictSysLobFragDrop_touchedSet s r k
  | obj r => exact dictSysObjDrop_touchedSet s r k
  | tab r => exact dictSysTabDrop_touchedSet s r k
  | tabComPart r => exact dictSysTabComPartDrop_touchedSet s r k
  | tabPart r => exact dictSysTabPartDrop_touchedSet s r k
  | tabSubPart r => exact dictSysTabSubPartDrop_touchedSet s r k
  | ts r => exact dictSysTsDrop_touchedSet s r k
  | user r => exact dictSysUserDrop_touchedSet s r k

/-- A drop takes the rowId of the record out of the primary map of its kind and
leaves the other rowIds of the kind as they are, also when it raises. -/
theorem dictDrop_rowOf (s : Schema) (r : Row) (x : RowId) :
    rowOf r.kind (dictDrop s r).schema x = if x = r.rowId then none else rowOf r.kind s x := by
  cases r with
  | ccol r =>
    simp only [Row.kind, Row.rowId, rowOf, dictDrop, dictSysCColDrop_erases]
    by_cases hx : x = r.rowId
    · rw [if_pos hx, hx, Map.find_erase_self]; rfl
    · rw [if_neg hx, Map.find_erase_ne _ _ _ hx]
  | cdef r =>
    simp only [Row.kind, Row.rowId, rowOf, dictDrop, dictSysCDefDrop_erases]
    by_cases hx : x = r.rowId
    · rw [if_pos hx, hx, Map.find_erase_self]; rfl
    · rw [if_neg hx, Map.find_erase_ne _ _ _ hx]
  | col r =>
    simp only [Row.kind, Row.rowId, rowOf, dictDrop, dictSysColDrop_erases]
    by_cases hx : x = r.rowId
    · rw [if_pos hx, hx, Map.find_erase_self]; rfl
    · rw [if_neg hx, Map.find_erase_ne _ _ _ hx]
  | deferredStg r =>
    simp only [Row.kind, Row.rowId, rowOf, dictDrop, dictSysDeferredStgDrop_erases]
    by_cases hx : x = r.rowId
    · rw [if_pos hx, hx, Map.find_erase_self]; rfl
    · rw [if_neg hx, Map.find_erase_ne _ _ _ hx]
  | ecol r =>
    simp only [Row.kind, Row.rowId, rowOf, dictDrop, dictSysEColDrop_erases]
    by_cases hx : x = r.rowId
    · rw [if_pos hx, hx, Map.find_erase_self]; rfl
    · rw [if_neg hx, Map.find_erase_ne _ _ _ hx]
  | lob r =>
    simp only [Row.kind, Row.rowId, rowOf, dictDrop, dictSysLobDrop_erases]
    by_cases hx : x = r.rowId
    · rw [if_pos hx, hx, Map.find_erase_self]; rfl
    · rw [if_neg hx, Map.find_erase_ne _ _ _ hx]
  | lobCompPart r =>
    simp only [Row.kind, Row.rowId, rowOf, dictDrop, dictSysLobCompPartDrop_erases]
    by_cases hx : x = r.rowId
    · rw [if_pos hx, hx, Map.find_erase_self]; rfl
    · rw [if_neg hx, Map.find_erase_ne _ _ _ hx]
  | lobFrag r =>
    simp only [Row.kind, Row.rowId, rowOf, dictDrop, dictSysLobFragDrop_erases]
    by_cases hx : x = r.rowId
    · rw [if_pos hx, hx, Map.find_erase_self]; rfl
    · rw [if_neg hx, Map.find_erase_ne _ _ _ hx]
  | obj r =>
    simp only [Row.kind, Row.rowId, rowOf, dictDrop, dictSysObjDrop_erases]
    by_cases hx : x = r.rowId
    · rw [if_pos hx, hx, Map.find_erase_self]; rfl
    · rw [if_neg hx, Map.find_erase_ne _ _ _ hx]
  | tab r =>
    simp only [Row.kind, Row.rowId, rowOf, dictDrop, dictSysTabDrop_erases]
    by_cases hx : x = r.rowId
    · rw [if_pos hx, hx, Map.find_erase_self]; rfl
    · rw [if_neg hx, Map.find_erase_ne _ _ _ hx]
  | tabComPart r =>
    simp only [Row.kind, Row.rowId, rowOf, dictDrop, dictSysTabComPartDrop_erases]
    by_cases hx : x = r.rowId
    · rw [if_pos hx, hx, Map.find_erase_self]; rfl
    · rw [if_neg hx, Map.find_erase_ne _ _ _ hx]
  | tabPart r =>
    simp only [Row.kind, Row.rowId, rowOf, dictDrop, dictSysTabPartDrop_erases]
    by_cases hx : x = r.rowId
    · rw [if_pos hx, hx, Map.find_erase_self]; rfl
    · rw [if_neg hx, Map.find_erase_ne _ _ _ hx]
  | tabSubPart r =>
    simp only [Row.kind, Row.rowId, rowOf, dictDrop, dictSysTabSubPartDrop_erases]
    by_cases hx : x = r.rowId
    · rw [if_pos hx, hx, Map.find_erase_self]; rfl
    · rw [if_neg hx, Map.find_erase_ne _ _ _ hx]
  | ts r =>
    simp only [Row.kind, Row.rowId, rowOf, dictDrop, dictSysTsDrop_erases]
    by_cases hx : x = r.rowId
    · rw [if_pos hx, hx, Map.find_erase_self]; rfl
    · rw [if_neg hx, Map.find_erase_ne _ _ _ hx]
  | user r =>
    simp only [Row.kind, Row.rowId, rowOf, dictDrop, dictSysUserDrop_erases]
    by_cases hx : x = r.rowId
    · rw [if_pos hx, hx, Map.find_erase_self]; rfl
    · rw [if_neg hx, Map.find_erase_ne _ _ _ hx]

/-- The primary map of a kind is the same in two schemas with the same maps of
the kind. -/
theorem rowOf_of_sameMaps {k : Kind} {s t : Schema} (h : SameMaps k s t) (x : RowId) :
    rowOf k t x = rowOf k s x := by
  cases k <;> (simp only [SameMaps] at h; simp only [rowOf, h.1])

theorem rowOf_kind {k : Kind} {s : Schema} {x : RowId} {r : Row} (h : rowOf k s x = some r) :
    r.kind = k := by
  cases k <;>
    (simp only [rowOf, Option.map_eq_some'] at h
     obtain ⟨a, _, ha⟩ := h
     rw [← ha]; rfl)

theorem rowOf_stored {k : Kind} {s : Schema} {x : RowId} {r : Row} (h : rowOf k s x = some r)
    (hx : r.rowId = x) : Stored s r := by
  cases k <;>
    (simp only [rowOf, Option.map_eq_some'] at h
     obtain ⟨a, h1, ha⟩ := h
     subst ha
     simp only [Row.rowId] at hx
     simp only [Stored, hx, h1])

/-- The tests of a pass read maps of other kinds only. -/
theorem keepTouched_congr (adaptive : Bool) (users : List String) (s t : Schema) (r : Row)
    (h : ∀ k, k ≠ r.kind → SameMaps k s t) :
    keepTouched adaptive users t r = keepTouched adaptive users s r := by
  have hobj : r.kind ≠ Kind.OBJ → t.sysObjMapObj = s.sysObjMapObj := fun hk =>
    ((h Kind.OBJ (Ne.symm hk)).2.2).symm
  have huser : r.kind ≠ Kind.USER → t.sysUserMapUser = s.sysUserMapUser := fun hk =>
    ((h Kind.USER (Ne.symm hk)).2).symm
  have hlob : r.kind ≠ Kind.LOB → t.sysLobMapLObj = s.sysLobMapLObj := fun hk =>
    ((h Kind.LOB (Ne.symm hk)).2.2).symm
  have hpart : r.kind ≠ Kind.LOBCOMPPART →
      t.sysLobCompPartMapPartObj = s.sysLobCompPartMapPartObj := fun hk =>
    ((h Kind.LOBCOMPPART (Ne.symm hk)).2.2).symm
  cases r with
  | ccol r => simp only [keepTouched, hobj (by simp [Row.kind])]
  | cdef r => simp only [keepTouched, hobj (by simp [Row.kind])]
  | col r => simp only [keepTouched, hobj (by simp [Row.kind])]
  | deferredStg r => simp only [keepTouched, hobj (by simp [Row.kind])]
  | ecol r => simp only [keepTouched, hobj (by simp [Row.kind])]
  | lob r => simp only [keepTouched, hobj (by simp [Row.kind])]
  | lobCompPart r => simp only [keepTouched, hlob (by simp [Row.kind])]
  | lobFrag r =>
    simp only [keepTouched, hlob (by simp [Row.kind]), hpart (by simp [Row.kind])]
  | obj r => simp only [keepTouched, huser (by simp [Row.kind])]
  | tab r => simp only [keepTouched, hobj (by simp [Row.kind])]
  | tabComPart r => simp only [keepTouched, hobj (by simp [Row.kind])]
  | tabPart r => simp only [keepTouched, hobj (by simp [Row.kind])]
  | tabSubPart r => simp only [keepTouched, hobj (by simp [Row.kind])]
  | ts r => rfl
  | user r => rfl


theorem onlyTableDict_refl (s : Schema) : OnlyTableDict s s := by
  cases s; rfl

theorem onlyTableDict_trans {s t u : Schema} (h1 : OnlyTableDict s t) (h2 : OnlyTableDict t u) :
    OnlyTableDict s u := by
  unfold OnlyTableDict at *
  rw [h2, h1]

theorem onlyTableDict_sameMaps {s t : Schema} (h : OnlyTableDict s t) (k : Kind) :
    SameMaps k s t := by
  unfold OnlyTableDict at h
  rw [h]
  cases k <;> simp [SameMaps]

theorem onlyTableDict_touchedSet {s t : Schema} (h : OnlyTableDict s t) (k : Kind) :
    touchedSet k t = touchedSet k s := by
  unfold OnlyTableDict at h
  rw [h]
  cases k <;> rfl

theorem onlyTableDict_touched {s t : Schema} (h : OnlyTableDict s t) :
    t.identifiersTouched = s.identifiersTouched ∧ t.tablesTouched = s.tablesTouched := by
  unfold OnlyTableDict at h
  rw [h]
  exact ⟨rfl, rfl⟩

theorem onlyTableDict_tableMap (s : Schema) (m : Map Nat OracleTable) :
    OnlyTableDict s { s with tableMap := m } := by
  cases s; rfl

theorem onlyTableDict_tablePartitionMap (s : Schema) (m : Map Nat OracleTable) :
    OnlyTableDict s { s with tablePartitionMap := m } := by
  cases s; rfl

theorem onlyTableDict_lobPartitionMap (s : Schema) (m : Map Nat OracleLob) :
    OnlyTableDict s { s with lobPartitionMap := m } := by
  cases s; rfl

theorem onlyTableDict_lobIndexMap (s : Schema) (m : Map Nat OracleLob) :
    OnlyTableDict s { s with lobIndexMap := m } := by
  cases s; rfl

theorem removeTablePartitions_only (xs : List Nat) (s : Schema) :
    OnlyTableDict s (removeTablePartitions s xs).schema := by
  induction xs generalizing s with
  | nil => exact onlyTableDict_refl s
  | cons x xs ih =>
    simp only [removeTablePartitions]
    split
    · exact onlyTableDict_trans (onlyTableDict_tablePartitionMap s _) (ih _)
    · exact onlyTableDict_refl s

theorem removeLobIndexes_only (xs : List Nat) (s : Schema) :
    OnlyTableDict s (removeLobIndexes s xs).schema := by
  induction xs generalizing s with
  | nil => exact onlyTableDict_refl s
  | cons x xs ih =>
    simp only [removeLobIndexes]
    split
    · exact onlyTableDict_trans (onlyTableDict_lobIndexMap s _) (ih _)
    · exact onlyTableDict_refl s

theorem removeLobPartitions_only (xs : List Nat) (s : Schema) :
    OnlyTableDict s (removeLobPartitions s xs) := by
  induction xs generalizing s with
  | nil => exact onlyTableDict_refl s
  | cons x xs ih =>
    simp only [removeLobPartitions]
    split
    · exact onlyTableDict_trans (onlyTableDict_lobPartitionMap s _) (ih _)
    · exact ih s

theorem removeLobs_only (lobs : List OracleLob) (s : Schema) :
    OnlyTableDict s (removeLobs s lobs).schema := by
  induction lobs generalizing s with
  | nil => exact onlyTableDict_refl s
  | cons lob lobs ih =>
    simp only [removeLobs]
    split
    · exact removeLobIndexes_only _ s
    · exact onlyTableDict_trans
        (onlyTableDict_trans (removeLobIndexes_only _ s) (removeLobPartitions_only _ _)) (ih _)

theorem removeTableFromDict_only (s : Schema) (table : OracleTable) :
    OnlyTableDict s (removeTableFromDict s table).schema := by
  have h1 := onlyTableDict_tablePartitionMap s (s.tablePartitionMap.erase table.obj)
  have h2 := onlyTableDict_trans h1 (removeTablePartitions_only table.tablePartitions _)
  have h3 := onlyTableDict_trans h2 (removeLobs_only table.lobs _)
  simp only [removeTableFromDict]
  split
  · exact onlyTableDict_refl s
  · split
    · exact h2
    · split
      · exact h3
      · split
        · exact onlyTableDict_trans h3 (onlyTableDict_tableMap _ _)
        · exact h3

theorem dropTables_only (tables : List OracleTable) (s : Schema) (msgs : List String) :
    OnlyTableDict s (dropTables tables s msgs).schema := by
  induction tables generalizing s msgs with
  | nil => exact onlyTableDict_refl s
  | cons table tables ih =>
    simp only [dropTables]
    split
    · exact removeTableFromDict_only s table
    · exact onlyTableDict_trans (removeTableFromDict_only s table) (ih _ _)

theorem dropTables_schema (tables : List OracleTable) (s : Schema) (msgs msgs2 : List String) :
    (dropTables tables s msgs).schema = (dropTables tables s msgs2).schema ∧
      (dropTables tables s msgs).ret = (dropTables tables s msgs2).ret := by
  induction tables generalizing s msgs msgs2 with
  | nil => exact ⟨rfl, rfl⟩
  | cons table tables ih =>
    simp only [dropTables]
    split
    · exact ⟨rfl, rfl⟩
    · exact ih _ _ _

theorem afterTables_sameMaps (s : Schema) (k : Kind) : SameMaps k s (afterTables s) := by
  have h := onlyTableDict_sameMaps (dropTables_only s.tablesTouched s []) k
  cases k <;> exact h

theorem afterTables_touchedSet (s : Schema) (k : Kind) :
    touchedSet k (afterTables s) = touchedSet k s := by
  have h := onlyTableDict_touchedSet (dropTables_only s.tablesTouched s []) k
  cases k <;> exact h


/-- What one pass of `dropUnusedMetadata` does: the maps of the other kinds, the
touched sets and the descriptor maps stay, a rowId outside the list keeps its
record, no record comes in, and when the pass returns a record of the list
stays exactly when it passes a test. -/
theorem dropTouched_spec (adaptive : Bool) (users : List String) (k : Kind) (l : List RowId)
    (s : Schema) (hl : ∀ x ∈ l, ∀ r, rowOf k s x = some r → r.rowId = x) :
    (∀ k2, k2 ≠ k → SameMaps k2 s (dropTouched adaptive users k l s).schema) ∧
    (∀ k2, touchedSet k2 (dropTouched adaptive users k l s).schema = touchedSet k2 s) ∧
    SameTableDict s (dropTouched adaptive users k l s).schema ∧
    (∀ x, x ∉ l → rowOf k (dropTouched adaptive users k l s).schema x = rowOf k s x) ∧
    (∀ x r, rowOf k (dropTouched adaptive users k l s).schema x = some r →
      rowOf k s x = some r) ∧
    ((dropTouched adaptive users k l s).ret = .ok () →
      ∀ x ∈ l, ∀ r, rowOf k s x = some r →
        rowOf k (dropTouched adaptive users k l s).schema x =
          if keepTouched adaptive users s r then some r else none) := by
  induction l generalizing s with
  | nil =>
    refine ⟨fun k2 _ => SameMaps.refl k2 s, fun _ => rfl, ⟨rfl, rfl, rfl, rfl⟩, fun _ _ => rfl,
      fun _ _ h => h, ?_⟩
    intro _ x hx
    cases hx
  | cons rowId rest ih =>
    have hrest : ∀ x ∈ rest, ∀ r, rowOf k s x = some r → r.rowId = x := fun x hx =>
      hl x (List.mem_cons_of_mem _ hx)
    obtain ⟨i1, i2, i3, i4, i5, i6⟩ := ih s hrest
    cases hrow : rowOf k s rowId with
    | none =>
      have hd : dropTouched adaptive users k (rowId :: rest) s =
          dropTouched adaptive users k rest s := by
        simp only [dropTouched, hrow]
      rw [hd]
      refine ⟨i1, i2, i3, fun x hx => i4 x (fun h => hx (List.mem_cons_of_mem _ h)), i5, ?_⟩
      intro hret x hx r hr
      rcases List.mem_cons.1 hx with h | h
      · rw [h, hrow] at hr; cases hr
      · exact i6 hret x h r hr
    | some r0 =>
      have hk0 : r0.kind = k := rowOf_kind hrow
      have hid0 : r0.rowId = rowId := hl rowId (List.mem_cons_self _ _) r0 hrow
      by_cases hkeep : keepTouched adaptive users s r0 = true
      · have hd : dropTouched adaptive users k (rowId :: rest) s =
            dropTouched adaptive users k rest s := by
          simp only [dropTouched, hrow, hkeep, if_true]
        rw [hd]
        refine ⟨i1, i2, i3, fun x hx => i4 x (fun h => hx (List.mem_cons_of_mem _ h)), i5, ?_⟩
        intro hret x hx r hr
        by_cases hin : x ∈ rest
        · exact i6 hret x hin r hr
        · rcases List.mem_cons.1 hx with h | h
          · rw [i4 x hin, hr]
            rw [h, hrow] at hr
            cases hr
            rw [if_pos hkeep]
          · exact absurd h hin
      · have hf1 : ∀ k2, k2 ≠ k → SameMaps k2 s (dictDrop s r0).schema := fun k2 h2 =>
          dictDrop_frame s r0 k2 (by rw [hk0]; exact h2)
        have hrow1 : ∀ x, rowOf k (dictDrop s r0).schema x =
            if x = rowId then none else rowOf k s x := by
          intro x
          have := dictDrop_rowOf s r0 x
          rw [hk0, hid0] at this
          exact this
        have hmono1 : ∀ x r, rowOf k (dictDrop s r0).schema x = some r →
            rowOf k s x = some r := by
          intro x r h
          rw [hrow1 x] at h
          by_cases hx : x = rowId
          · rw [if_pos hx] at h; cases h
          · rw [if_neg hx] at h; exact h
        have hrest1 : ∀ x ∈ rest, ∀ r, rowOf k (dictDrop s r0).schema x = some r →
            r.rowId = x := fun x hx r h => hrest x hx r (hmono1 x r h)
        obtain ⟨j1, j2, j3, j4, j5, j6⟩ := ih (dictDrop s r0).schema hrest1
        cases hdr : (dictDrop s r0).ret with
        | error e =>
          have hd : dropTouched adaptive users k (rowId :: rest) s =
              { schema := (dictDrop s r0).schema, ret := .error e } := by
            simp only [dropTouched, hrow, hkeep, hdr]
            rfl
          rw [hd]
          refine ⟨hf1, fun k2 => dictDrop_touchedSet s r0 k2, dictDrop_tables s r0, ?_, hmono1, ?_⟩
          · intro x hx
            rw [hrow1 x, if_neg (fun h : x = rowId => hx (h ▸ List.mem_cons_self _ _))]
          · intro hret
            cases hret
        | ok u =>
          have hd : dropTouched adaptive users k (rowId :: rest) s =
              dropTouched adaptive users k rest (dictDrop s r0).schema := by
            simp only [dropTouched, hrow, hkeep, hdr]
            rfl
          rw [hd]
          refine ⟨fun k2 h2 => (hf1 k2 h2).trans (j1 k2 h2), ?_, ?_, ?_, ?_, ?_⟩
          · intro k2
            rw [j2 k2, dictDrop_touchedSet]
          · have h := dictDrop_tables s r0
            exact ⟨h.1.trans j3.1, h.2.1.trans j3.2.1, h.2.2.1.trans j3.2.2.1,
              h.2.2.2.trans j3.2.2.2⟩
          · intro x hx
            rw [j4 x (fun h => hx (List.mem_cons_of_mem _ h)), hrow1 x,
              if_neg (fun h : x = rowId => hx (h ▸ List.mem_cons_self _ _))]
          · intro x r h
            exact hmono1 x r (j5 x r h)
          · intro hret x hx r hr
            by_cases hxr : x = rowId
            · rw [hxr, hrow] at hr
              cases hr
              have hnone : rowOf k (dropTouched adaptive users k rest (dictDrop s r0).schema).schema
                  x = none := by
                cases hq : rowOf k (dropTouched adaptive users k rest (dictDrop s r0).schema).schema
                    x with
                | none => rfl
                | some q =>
                  have := j5 x q hq
                  rw [hrow1 x, if_pos hxr] at this
                  cases this
              rw [hnone, if_neg hkeep]
            · have hin : x ∈ rest := by
                rcases List.mem_cons.1 hx with h | h
                · exact absurd h hxr
                · exact h
              have hr1 : rowOf k (dictDrop s r0).schema x = some r := by
                rw [hrow1 x, if_neg hxr]; exact hr
              rw [j6 hret x hin r hr1]
              have hkr : r.kind = k := rowOf_kind hr
              rw [keepTouched_congr adaptive users s (dictDrop s r0).schema r
                (fun k2 h2 => hf1 k2 (by rw [← hkr]; exact h2))]


/-- What a pass of `dropUnusedMetadata` leaves as it is, whatever the touched
set holds. -/
theorem dropTouched_frame (adaptive : Bool) (users : List String) (k : Kind) (l : List RowId)
    (s : Schema) :
    (∀ k2, k2 ≠ k → SameMaps k2 s (dropTouched adaptive users k l s).schema) ∧
    (∀ k2, touchedSet k2 (dropTouched adaptive users k l s).schema = touchedSet k2 s) ∧
    SameTableDict s (dropTouched adaptive users k l s).schema := by
  induction l generalizing s with
  | nil => exact ⟨fun k2 _ => SameMaps.refl k2 s, fun _ => rfl, ⟨rfl, rfl, rfl, rfl⟩⟩
  | cons rowId rest ih =>
    cases hrow : rowOf k s rowId with
    | none =>
      have hd : dropTouched adaptive users k (rowId :: rest) s =
          dropTouched adaptive users k rest s := by
        simp only [dropTouched, hrow]
      rw [hd]
      exact ih s
    | some r0 =>
      have hk0 : r0.kind = k := rowOf_kind hrow
      by_cases hkeep : keepTouched adaptive users s r0 = true
      · have hd : dropTouched adaptive users k (rowId :: rest) s =
            dropTouched adaptive users k rest s := by
          simp only [dropTouched, hrow, hkeep, if_true]
        rw [hd]
        exact ih s
      · have hf1 : ∀ k2, k2 ≠ k → SameMaps k2 s (dictDrop s r0).schema := fun k2 h2 =>
          dictDrop_frame s r0 k2 (by rw [hk0]; exact h2)
        obtain ⟨j1, j2, j3⟩ := ih (dictDrop s r0).schema
        cases hdr : (dictDrop s r0).ret with
        | error e =>
          have hd : dropTouched adaptive users k (rowId :: rest) s =
              { schema := (dictDrop s r0).schema, ret := .error e } := by
            simp only [dropTouched, hrow, hkeep, hdr]
            rfl
          rw [hd]
          exact ⟨hf1, fun k2 => dictDrop_touchedSet s r0 k2, dictDrop_tables s r0⟩
        | ok u =>
          have hd : dropTouched adaptive users k (rowId :: rest) s =
              dropTouched adaptive users k rest (dictDrop s r0).schema := by
            simp only [dropTouched, hrow, hkeep, hdr]
            rfl
          rw [hd]
          refine ⟨fun k2 h2 => (hf1 k2 h2).trans (j1 k2 h2), ?_, ?_⟩
          · intro k2
            rw [j2 k2, dictDrop_touchedSet]
          · have h := dictDrop_tables s r0
            exact ⟨h.1.trans j3.1, h.2.1.trans j3.2.1, h.2.2.1.trans j3.2.2.1,
              h.2.2.2.trans j3.2.2.2⟩

/-- The maps of a kind that has no pass among `ks` are the same at the start of
every pass. -/
theorem schemaBefore_sameMaps (adaptive : Bool) (users : List String) (k : Kind)
    (ks : List Kind) (s : Schema) (k2 : Kind) (h : k2 ∉ ks) :
    SameMaps k2 s (schemaBefore adaptive users k ks s) := by
  induction ks generalizing s with
  | nil => exact SameMaps.refl k2 s
  | cons k1 ks ih =>
    simp only [schemaBefore]
    split
    · exact SameMaps.refl k2 s
    · have h1 : k2 ≠ k1 := fun e => h (e ▸ List.mem_cons_self _ _)
      have h2 : k2 ∉ ks := fun e => h (List.mem_cons_of_mem _ e)
      exact ((dropTouched_frame adaptive users k1 (touchedSet k1 s) s).1 k2 h1).trans
        (ih _ h2)

/-- What the passes of the kinds `ks` do, one after the other. -/
theorem dropKinds_spec (adaptive : Bool) (users : List String) (ks : List Kind)
    (hnd : ks.Nodup) (s : Schema)
    (hst : ∀ k ∈ ks, ∀ x ∈ touchedSet k s, ∀ r, rowOf k s x = some r → r.rowId = x) :
    (∀ k2, k2 ∉ ks → SameMaps k2 s (dropKinds adaptive users ks s).schema) ∧
    (∀ k2, touchedSet k2 (dropKinds adaptive users ks s).schema = touchedSet k2 s) ∧
    SameTableDict s (dropKinds adaptive users ks s).schema ∧
    (∀ k x, x ∉ touchedSet k s → rowOf k (dropKinds adaptive users ks s).schema x = rowOf k s x) ∧
    ((dropKinds adaptive users ks s).ret = .ok () →
      ∀ k ∈ ks, ∀ x ∈ touchedSet k s, ∀ r, rowOf k s x = some r →
        rowOf k (dropKinds adaptive users ks s).schema x =
          if keepTouched adaptive users (schemaBefore adaptive users k ks s) r then some r
          else none) := by
  induction ks generalizing s with
  | nil =>
    refine ⟨fun k2 _ => SameMaps.refl k2 s, fun _ => rfl, ⟨rfl, rfl, rfl, rfl⟩, fun _ _ _ => rfl,
      ?_⟩
    intro _ k hk
    cases hk
  | cons k1 ks ih =>
    have hk1 : k1 ∉ ks := (List.nodup_cons.1 hnd).1
    obtain ⟨p1, p2, p3, p4, p5, p6⟩ := dropTouched_spec adaptive users k1 (touchedSet k1 s) s
      (hst k1 (List.mem_cons_self _ _))
    have hrow : ∀ k, k ≠ k1 → ∀ x,
        rowOf k (dropTouched adaptive users k1 (touchedSet k1 s) s).schema x = rowOf k s x :=
      fun k hk x => rowOf_of_sameMaps (p1 k hk) x
    have hout : ∀ k x, x ∉ touchedSet k s →
        rowOf k (dropTouched adaptive users k1 (touchedSet k1 s) s).schema x = rowOf k s x := by
      intro k x hx
      by_cases hk : k = k1
      · subst hk; exact p4 x hx
      · exact hrow k hk x
    cases hret1 : (dropTouched adaptive users k1 (touchedSet k1 s) s).ret with
    | error e =>
      have hd : dropKinds adaptive users (k1 :: ks) s =
          { schema := (dropTouched adaptive users k1 (touchedSet k1 s) s).schema,
            ret := .error e } := by
        simp only [dropKinds, hret1]
      rw [hd]
      refine ⟨fun k2 h2 => p1 k2 (fun e => h2 (e ▸ List.mem_cons_self _ _)), p2, p3, hout, ?_⟩
      intro hret
      cases hret
    | ok u =>
      have hd : dropKinds adaptive users (k1 :: ks) s =
          dropKinds adaptive users ks (dropTouched adaptive users k1 (touchedSet k1 s) s).schema := by
        simp only [dropKinds, hret1]
      rw [hd]
      have hst1 : ∀ k ∈ ks,
          ∀ x ∈ touchedSet k (dropTouched adaptive users k1 (touchedSet k1 s) s).schema,
          ∀ r, rowOf k (dropTouched adaptive users k1 (touchedSet k1 s) s).schema x = some r →
            r.rowId = x := by
        intro k hk x hx r hr
        have hne : k ≠ k1 := fun e => hk1 (e ▸ hk)
        rw [p2 k] at hx
        rw [hrow k hne x] at hr
        exact hst k (List.mem_cons_of_mem _ hk) x hx r hr
      obtain ⟨q1, q2, q3, q4, q5⟩ := ih (List.nodup_cons.1 hnd).2 _ hst1
      refine ⟨?_, ?_, ?_, ?_, ?_⟩
      · intro k2 h2
        exact (p1 k2 (fun e => h2 (e ▸ List.mem_cons_self _ _))).trans
          (q1 k2 (fun e => h2 (List.mem_cons_of_mem _ e)))
      · intro k2
        rw [q2 k2, p2 k2]
      · exact ⟨p3.1.trans q3.1, p3.2.1.trans q3.2.1, p3.2.2.1.trans q3.2.2.1,
          p3.2.2.2.trans q3.2.2.2⟩
      · intro k x hx
        rw [q4 k x (by rw [p2 k]; exact hx), hout k x hx]
      · intro hret k hk x hx r hr
        by_cases hkk : k = k1
        · subst hkk
          have hb : schemaBefore adaptive users k (k :: ks) s = s := by
            simp only [schemaBefore, if_true]
          rw [hb, rowOf_of_sameMaps (q1 k hk1) x]
          exact p6 hret1 x hx r hr
        · have hin : k ∈ ks := by
            rcases List.mem_cons.1 hk with h | h
            · exact absurd h hkk
            · exact h
          have hb : schemaBefore adaptive users k (k1 :: ks) s =
              schemaBefore adaptive users k ks
                (dropTouched adaptive users k1 (touchedSet k1 s) s).schema := by
            simp only [schemaBefore, if_neg hkk]
          rw [hb]
          exact q5 hret k hin x (by rw [p2 k]; exact hx) r (by rw [hrow k hkk x]; exact hr)


/-! #### What `buildMaps` leaves as it is -/

theorem addLobIndexes_only (lob : OracleLob) (xs : List Nat) (s : Schema) :
    OnlyTableDict s (addLobIndexes s lob xs).schema := by
  induction xs generalizing s with
  | nil => exact onlyTableDict_refl s
  | cons x xs ih =>
    simp only [addLobIndexes]
    split
    · exact onlyTableDict_trans (onlyTableDict_lobIndexMap s _) (ih _)
    · exact onlyTableDict_refl s

theorem addLobPartitions_only (lob : OracleLob) (xs : List Nat) (s : Schema) :
    OnlyTableDict s (addLobPartitions s lob xs) := by
  induction xs generalizing s with
  | nil => exact onlyTableDict_refl s
  | cons x xs ih =>
    simp only [addLobPartitions]
    split
    · exact onlyTableDict_trans (onlyTableDict_lobPartitionMap s _) (ih _)
    · exact ih s

theorem addLobs_only (lobs : List OracleLob) (s : Schema) :
    OnlyTableDict s (addLobs s lobs).schema := by
  induction lobs generalizing s with
  | nil => exact onlyTableDict_refl s
  | cons lob lobs ih =>
    simp only [addLobs]
    split
    · exact addLobIndexes_only _ _ s
    · exact onlyTableDict_trans
        (onlyTableDict_trans (addLobIndexes_only _ _ s) (addLobPartitions_only _ _ _)) (ih _)

theorem addTablePartitions_only (table : OracleTable) (xs : List Nat) (s : Schema) :
    OnlyTableDict s (addTablePartitions s table xs).schema := by
  induction xs generalizing s with
  | nil => exact onlyTableDict_refl s
  | cons x xs ih =>
    simp only [addTablePartitions]
    split
    · exact onlyTableDict_trans (onlyTableDict_tablePartitionMap s _) (ih _)
    · exact onlyTableDict_refl s

theorem addTableToDict_only (s : Schema) (table : OracleTable) :
    OnlyTableDict s (addTableToDict s table).schema := by
  have h1 := onlyTableDict_tableMap s (s.tableMap.set table.obj table)
  have h2 := onlyTableDict_trans h1 (addLobs_only table.lobs _)
  simp only [addTableToDict]
  split
  · exact onlyTableDict_refl s
  · split
    · exact h2
    · split
      · exact h2
      · exact onlyTableDict_trans
          (onlyTableDict_trans h2 (onlyTableDict_tablePartitionMap _ _))
          (addTablePartitions_only table _ _)

theorem buildFrame_refl (s : Schema) : BuildFrame s s := by
  cases s; rfl

theorem buildFrame_trans {s t u : Schema} (h1 : BuildFrame s t) (h2 : BuildFrame t u) :
    BuildFrame s u := by
  unfold BuildFrame at *
  rw [h2, h1]

theorem buildFrame_of_only {s t : Schema} (h : OnlyTableDict s t) : BuildFrame s t := by
  unfold OnlyTableDict at h
  unfold BuildFrame
  rw [h]

theorem buildFrame_stg (s : Schema) (m : Map Nat (Option RowId)) :
    BuildFrame s { s with sysDeferredStgMapObj := m } := by
  cases s; rfl

theorem buildFrame_sameMaps {s t : Schema} (h : BuildFrame s t) (k : Kind)
    (hk : k ≠ Kind.DEFERRED_STG) : SameMaps k s t := by
  unfold BuildFrame at h
  rw [h]
  cases k <;> first
    | exact absurd rfl hk
    | simp [SameMaps]

theorem buildFrame_fields {s t : Schema} (h : BuildFrame s t) :
    t.sysDeferredStgMapRowId = s.sysDeferredStgMapRowId ∧
    t.identifiersTouched = s.identifiersTouched ∧ t.tablesTouched = s.tablesTouched ∧
    ∀ k, touchedSet k t = touchedSet k s := by
  unfold BuildFrame at h
  rw [h]
  exact ⟨rfl, rfl, rfl, fun k => by cases k <;> rfl⟩

theorem nullAdded_refl (s : Schema) : NullAdded s s := fun _ => Or.inl rfl

theorem nullAdded_trans {s t u : Schema} (h1 : NullAdded s t) (h2 : NullAdded t u) :
    NullAdded s u := by
  intro obj
  rcases h1 obj with a | ⟨a1, a2⟩
  · rcases h2 obj with b | ⟨b1, b2⟩
    · exact Or.inl (b.trans a)
    · exact Or.inr ⟨a ▸ b1, b2⟩
  · rcases h2 obj with b | ⟨b1, b2⟩
    · exact Or.inr ⟨a1, b.trans a2⟩
    · rw [a2] at b1; cases b1

theorem nullAdded_of_eq {s t : Schema} (h : t.sysDeferredStgMapObj = s.sysDeferredStgMapObj) :
    NullAdded s t := fun _ => Or.inl (by rw [h])

theorem nullAdded_of_only {s t : Schema} (h : OnlyTableDict s t) : NullAdded s t := by
  refine nullAdded_of_eq ?_
  unfold OnlyTableDict at h
  rw [h]

/-- The look-up `sysDeferredStgMapObj[obj]` returns the entry if there is one and
enters a null pointer if there is none. -/
theorem deferredStgAt_spec (s : Schema) (obj : Nat) :
    (∀ h, s.sysDeferredStgMapObj.find obj = some h → deferredStgAt s obj = (s, h)) ∧
    (s.sysDeferredStgMapObj.find obj = none →
      deferredStgAt s obj =
        ({ s with sysDeferredStgMapObj := s.sysDeferredStgMapObj.set obj none }, none)) := by
  constructor
  · intro h hfind
    simp only [deferredStgAt, hfind]
  · intro hfind
    simp only [deferredStgAt, hfind]

theorem deferredStgAt_frame (s : Schema) (obj : Nat) :
    BuildFrame s (deferredStgAt s obj).1 ∧ NullAdded s (deferredStgAt s obj).1 := by
  cases hfind : s.sysDeferredStgMapObj.find obj with
  | some h =>
    rw [(deferredStgAt_spec s obj).1 h hfind]
    exact ⟨buildFrame_refl s, nullAdded_refl s⟩
  | none =>
    rw [(deferredStgAt_spec s obj).2 hfind]
    refine ⟨buildFrame_stg s _, ?_⟩
    intro o
    by_cases ho : o = obj
    · subst ho
      right
      exact ⟨hfind, Map.find_set_self _ _ _⟩
    · left
      exact Map.find_set_ne _ _ _ _ ho

/-- The tests at the start of a turn leave the schema as it is, up to a null
pointer entered into `sysDeferredStgMapObj`. -/
theorem checkObj_frame (env : BuildEnv) (args : BuildArgs) (s : Schema) (obj : Nat) :
    BuildFrame s (checkObj env args s obj).schema ∧
      NullAdded s (checkObj env args s obj).schema := by
  unfold checkObj
  cases checkRecords env args s obj with
  | none => exact ⟨buildFrame_refl s, nullAdded_refl s⟩
  | some r =>
    obtain ⟨sysObj, sysUser, sysTab⟩ := r
    simp only []
    repeat' split
    all_goals first
      | exact ⟨buildFrame_refl s, nullAdded_refl s⟩
      | exact deferredStgAt_frame s _

/-- One turn of the loop of `buildMaps` changes `sysDeferredStgMapObj`, by null
pointers at new keys, and the maps of the descriptors at most. -/
theorem buildMapsObj_frame (env : BuildEnv) (args : BuildArgs) (s : Schema) (obj : Nat) :
    BuildFrame s (buildMapsObj env args s obj).schema ∧
      NullAdded s (buildMapsObj env args s obj).schema := by
  have hc := checkObj_frame env args s obj
  unfold buildMapsObj
  cases hch : checkObj env args s obj with
  | skip s1 =>
    rw [hch] at hc
    exact hc
  | build s1 sysObj sysUser sysTab =>
    rw [hch] at hc
    simp only [Checked.schema] at hc
    simp only []
    split
    · exact hc
    · exact ⟨buildFrame_trans hc.1 (buildFrame_of_only (addTableToDict_only _ _)),
        nullAdded_trans hc.2 (nullAdded_of_only (addTableToDict_only _ _))⟩

theorem buildMapsLoop_frame (env : BuildEnv) (args : BuildArgs) (l : List Nat) (s : Schema)
    (w : List (Nat × String)) :
    BuildFrame s (buildMapsLoop env args l s w).schema ∧
      NullAdded s (buildMapsLoop env args l s w).schema := by
  induction l generalizing s w with
  | nil => exact ⟨buildFrame_refl s, nullAdded_refl s⟩
  | cons obj rest ih =>
    have h := buildMapsObj_frame env args s obj
    simp only [buildMapsLoop]
    split
    · exact h
    · exact ⟨buildFrame_trans h.1 (ih _ _).1, nullAdded_trans h.2 (ih _ _).2⟩


theorem objOfObj_congr (s t : Schema) (h1 : t.sysObjMapObj = s.sysObjMapObj)
    (h2 : t.sysObjMapRowId = s.sysObjMapRowId) (obj : Nat) : objOfObj t obj = objOfObj s obj := by
  unfold objOfObj
  rw [h1, h2]

/-! #### The maps of the descriptors under `addTableToDict` -/

theorem addLobIndexes_maps (lob : OracleLob) (xs : List Nat) (s : Schema) :
    (addLobIndexes s lob xs).schema.tableMap = s.tableMap ∧
      (addLobIndexes s lob xs).schema.tablePartitionMap = s.tablePartitionMap := by
  induction xs generalizing s with
  | nil => exact ⟨rfl, rfl⟩
  | cons x xs ih =>
    simp only [addLobIndexes]
    split
    · exact ih _
    · exact ⟨rfl, rfl⟩

theorem addLobPartitions_maps (lob : OracleLob) (xs : List Nat) (s : Schema) :
    (addLobPartitions s lob xs).tableMap = s.tableMap ∧
      (addLobPartitions s lob xs).tablePartitionMap = s.tablePartitionMap := by
  induction xs generalizing s with
  | nil => exact ⟨rfl, rfl⟩
  | cons x xs ih =>
    simp only [addLobPartitions]
    split
    · exact ih _
    · exact ih s

theorem addLobs_maps (lobs : List OracleLob) (s : Schema) :
    (addLobs s lobs).schema.tableMap = s.tableMap ∧
      (addLobs s lobs).schema.tablePartitionMap = s.tablePartitionMap := by
  induction lobs generalizing s with
  | nil => exact ⟨rfl, rfl⟩
  | cons lob lobs ih =>
    simp only [addLobs]
    split
    · exact addLobIndexes_maps _ _ s
    · have h1 := addLobIndexes_maps lob lob.lobIndexes s
      have h2 := addLobPartitions_maps lob lob.lobPartitions (addLobIndexes s lob lob.lobIndexes).schema
      have h3 := ih (addLobPartitions (addLobIndexes s lob lob.lobIndexes).schema lob
        lob.lobPartitions)
      exact ⟨h3.1.trans (h2.1.trans h1.1), h3.2.trans (h2.2.trans h1.2)⟩

/-- The entries that the loop over `table->tablePartitions` leaves in
`tablePartitionMap` are those it found and entries for the table. -/
theorem addTablePartitions_maps (table : OracleTable) (xs : List Nat) (s : Schema) :
    (addTablePartitions s table xs).schema.tableMap = s.tableMap ∧
      ∀ k t, (addTablePartitions s table xs).schema.tablePartitionMap.find k = some t →
        t = table ∨ s.tablePartitionMap.find k = some t := by
  induction xs generalizing s with
  | nil => exact ⟨rfl, fun k t h => Or.inr h⟩
  | cons x xs ih =>
    simp only [addTablePartitions]
    split
    · obtain ⟨h1, h2⟩ := ih { s with
        tablePartitionMap := s.tablePartitionMap.set (unpackObj x) table }
      refine ⟨h1, ?_⟩
      intro k t h
      rcases h2 k t h with e | e
      · exact Or.inl e
      · simp only [] at e
        by_cases hk : k = unpackObj x
        · subst hk
          rw [Map.find_set_self] at e
          exact Or.inl (Option.some.inj e).symm
        · rw [Map.find_set_ne _ _ _ _ hk] at e
          exact Or.inr e
    · exact ⟨rfl, fun k t h => Or.inr h⟩

/-- The maps `tableMap` and `tablePartitionMap` after `addTableToDict`, whether it
returns or raises: `tableMap` is what it was or has the table under its obj,
and an entry of `tablePartitionMap` was there before or is one for the
table. -/
theorem addTableToDict_maps (s : Schema) (table : OracleTable) :
    ((addTableToDict s table).schema.tableMap = s.tableMap ∨
      (addTableToDict s table).schema.tableMap = s.tableMap.set table.obj table) ∧
    (∀ k t, (addTableToDict s table).schema.tablePartitionMap.find k = some t →
      t = table ∨ s.tablePartitionMap.find k = some t) ∧
    ((addTableToDict s table).ret = .ok () →
      s.tableMap.find table.obj = none ∧
      (addTableToDict s table).schema.tableMap = s.tableMap.set table.obj table) := by
  have hl := addLobs_maps table.lobs { s with tableMap := s.tableMap.set table.obj table }
  simp only [] at hl
  simp only [addTableToDict]
  split
  · refine ⟨Or.inl rfl, fun k t h => Or.inr h, ?_⟩
    intro h
    cases h
  · rename_i hnone
    split
    · refine ⟨Or.inr hl.1, ?_, ?_⟩
      · intro k t h
        rw [hl.2] at h
        exact Or.inr h
      · intro h
        cases h
    · split
      · refine ⟨Or.inr hl.1, ?_, ?_⟩
        · intro k t h
          rw [hl.2] at h
          exact Or.inr h
        · intro h
          cases h
      · obtain ⟨h1, h2⟩ := addTablePartitions_maps table table.tablePartitions
          { (addLobs { s with tableMap := s.tableMap.set table.obj table } table.lobs).schema with
            tablePartitionMap :=
              (addLobs { s with tableMap := s.tableMap.set table.obj table }
                table.lobs).schema.tablePartitionMap.set table.obj table }
        simp only [] at h1 h2
        refine ⟨Or.inr (h1.trans hl.1), ?_, fun _ => ⟨hnone, h1.trans hl.1⟩⟩
        intro k t h
        rcases h2 k t h with e | e
        · exact Or.inl e
        · by_cases hk : k = table.obj
          · subst hk
            rw [Map.find_set_self] at e
            exact Or.inl (Option.some.inj e).symm
          · rw [Map.find_set_ne _ _ _ _ hk, hl.2] at e
            exact Or.inr e

/-! #### The obj of the descriptor that a turn of `buildMaps` builds -/

theorem foldl_obj {α : Type} (f : OracleTable → α → OracleTable)
    (hf : ∀ t a, (f t a).obj = t.obj) (l : List α) (t : OracleTable) :
    (l.foldl f t).obj = t.obj := by
  induction l generalizing t with
  | nil => rfl
  | cons a l ih => rw [List.foldl_cons, ih, hf]

theorem addPartitionsOf_obj (s : Schema) (obj : Nat) (table : OracleTable) :
    (addPartitionsOf s obj table).obj = table.obj := by
  unfold addPartitionsOf
  simp only []
  rw [foldl_obj, foldl_obj]
  · intro t e
    split <;> rfl
  · intro t e
    split
    · rfl
    · rw [foldl_obj]
      intro t2 e2
      split <;> rfl

theorem scanColumns_obj (env : BuildEnv) (args : BuildArgs) (s : Schema) (sysObj : SysObj)
    (sysUser : SysUser) (b : Bool) (l : List (SysColSeg × RowId)) (c : ColumnScan) :
    (scanColumns env args s sysObj sysUser b l c).table.obj = c.table.obj := by
  induction l generalizing c with
  | nil => rfl
  | cons e rest ih =>
    simp only [scanColumns]
    split
    · exact ih c
    · split
      · rfl
      · rw [ih]
        rfl

theorem scanLobs_obj (env : BuildEnv) (s : Schema) (sysObj : SysObj) (sysTab : SysTab)
    (l : List (SysLobKey × RowId)) (c : LobScan) :
    (scanLobs env s sysObj sysTab l c).table.obj = c.table.obj := by
  induction l generalizing c with
  | nil => rfl
  | cons e rest ih =>
    simp only [scanLobs]
    split
    · exact ih c
    · split
      · rfl
      · split
        · exact ih c
        · split
          · rfl
          · rw [ih]
            rfl

theorem scanLobNames_obj (s : Schema) (sysObj : SysObj) (sysTab : SysTab)
    (l : List (SysObjNameKey × RowId)) (c : LobScan) :
    (scanLobNames s sysObj sysTab l c).table.obj = c.table.obj := by
  induction l generalizing c with
  | nil => rfl
  | cons e rest ih =>
    simp only [scanLobNames]
    split
    · exact ih c
    · split
      · exact ih c
      · rw [ih]
        simp only [addLobOfName]
        split <;> rfl

theorem columnsOf_obj (env : BuildEnv) (args : BuildArgs) (s : Schema) (sysObj : SysObj)
    (sysUser : SysUser) (sysTab : SysTab) :
    (columnsOf env args s sysObj sysUser sysTab).table.obj = sysObj.obj := by
  unfold columnsOf
  simp only []
  rw [scanColumns_obj]
  simp only []
  split
  · rw [addPartitionsOf_obj]
  · rfl

theorem lobsOf_obj (env : BuildEnv) (args : BuildArgs) (s : Schema) (sysObj : SysObj)
    (sysTab : SysTab) (c : ColumnScan) :
    (lobsOf env args s sysObj sysTab c).table.obj = c.table.obj := by
  unfold lobsOf
  split
  · simp only []
    split
    · rw [scanLobs_obj]
    · rw [scanLobNames_obj, scanLobs_obj]
  · rfl

/-- The descriptor that a turn builds has the obj of the OBJ$ row. -/
theorem buildTable_obj (env : BuildEnv) (args : BuildArgs) (s : Schema) (sysObj : SysObj)
    (sysUser : SysUser) (sysTab : SysTab) :
    (buildTable env args s sysObj sysUser sysTab).table.obj = sysObj.obj := by
  have h1 := columnsOf_obj env args s sysObj sysUser sysTab
  have h2 := lobsOf_obj env args s sysObj sysTab (columnsOf env args s sysObj sysUser sysTab)
  unfold buildTable
  simp only []
  split
  · exact h1
  · split
    · exact h2.trans h1
    · split
      · exact h2.trans h1
      · exact h2.trans h1


/-! #### The tests of a turn of `buildMaps` -/

/-- What the tests of a turn have found when they do not pass the table over. -/
theorem checkRecords_some {env : BuildEnv} {args : BuildArgs} {s : Schema} {obj : Nat}
    {sysObj : SysObj} {sysUser : SysUser} {sysTab : SysTab}
    (h : checkRecords env args s obj = some (sysObj, sysUser, sysTab)) :
    objOfObj s obj = some sysObj ∧ userOf env args s sysObj = some sysUser ∧
    s.tableMap.find sysObj.obj = none ∧
    (s.sysTabMapObj.find sysObj.obj).bind s.sysTabMapRowId.find = some sysTab := by
  unfold checkRecords at h
  split at h
  · cases h
  · rename_i o ho
    split at h
    · cases h
    · split at h
      · cases h
      · rename_i u hu
        split at h
        · cases h
        · rename_i ht
          split at h
          · cases h
          · rename_i t htab
            split at h
            · cases h
            · split at h
              · cases h
              · split at h
                · cases h
                · split at h
                  · cases h
                  · simp only [Option.some.injEq, Prod.mk.injEq] at h
                    obtain ⟨h1, h2, h3⟩ := h
                    subst h1 h2 h3
                    exact ⟨ho, hu, ht, htab⟩

/-- The tests of a turn read the maps of OBJ$, USER$ and TAB$ and look the obj of
the OBJ$ row up in `tableMap`. -/
theorem checkRecords_congr (env : BuildEnv) (args : BuildArgs) (s t : Schema) (obj : Nat)
    (h : BuildFrame s t)
    (ht : ∀ o, objOfObj s obj = some o → t.tableMap.find o.obj = s.tableMap.find o.obj) :
    checkRecords env args t obj = checkRecords env args s obj := by
  have hobj := buildFrame_sameMaps h Kind.OBJ (by decide)
  have huser := buildFrame_sameMaps h Kind.USER (by decide)
  have htab := buildFrame_sameMaps h Kind.TAB (by decide)
  simp only [SameMaps] at hobj huser htab
  have ho : objOfObj t obj = objOfObj s obj :=
    objOfObj_congr s t hobj.2.2.symm hobj.1.symm obj
  unfold checkRecords
  rw [ho]
  cases hoo : objOfObj s obj with
  | none => rfl
  | some o =>
    simp only []
    have hu : userOf env args t o = userOf env args s o := by
      unfold userOf
      rw [← huser.1, ← huser.2]
    rw [hu, ht o hoo, ← htab.1, ← htab.2]

/-! #### The passes of `dropUnusedMetadata` without the adaptive-schema flag -/

/-- Without the adaptive-schema flag the pass over OBJ$ drops nothing. -/
theorem dropTouched_obj_off (users : List String) (l : List RowId) (s : Schema) :
    dropTouched false users Kind.OBJ l s = { schema := s, ret := .ok () } := by
  induction l with
  | nil => rfl
  | cons x rest ih =>
    cases hrow : rowOf Kind.OBJ s x with
    | none => simp only [dropTouched, hrow, ih]
    | some r =>
      have hk : keepTouched false users s r = true := by
        simp only [rowOf, Option.map_eq_some'] at hrow
        obtain ⟨a, _, ha⟩ := hrow
        rw [← ha]
        simp [keepTouched]
      simp only [dropTouched, hrow, hk, if_true, ih]

/-- The passes leave the maps of the descriptors as they are, and without the
adaptive-schema flag the maps of OBJ$ too. -/
theorem dropKinds_frame (adaptive : Bool) (users : List String) (ks : List Kind) (s : Schema) :
    SameTableDict s (dropKinds adaptive users ks s).schema ∧
      (adaptive = false → SameMaps Kind.OBJ s (dropKinds adaptive users ks s).schema) := by
  induction ks generalizing s with
  | nil => exact ⟨⟨rfl, rfl, rfl, rfl⟩, fun _ => SameMaps.refl _ s⟩
  | cons k ks ih =>
    obtain ⟨p1, _, p3⟩ := dropTouched_frame adaptive users k (touchedSet k s) s
    have pobj : adaptive = false →
        SameMaps Kind.OBJ s (dropTouched adaptive users k (touchedSet k s) s).schema := by
      intro ha
      by_cases hk : k = Kind.OBJ
      · subst hk
        subst ha
        rw [dropTouched_obj_off]
        exact SameMaps.refl _ s
      · exact p1 Kind.OBJ (Ne.symm hk)
    simp only [dropKinds]
    split
    · exact ⟨p3, pobj⟩
    · obtain ⟨q1, q2⟩ := ih (dropTouched adaptive users k (touchedSet k s) s).schema
      exact ⟨⟨p3.1.trans q1.1, p3.2.1.trans q1.2.1, p3.2.2.1.trans q1.2.2.1,
        p3.2.2.2.trans q1.2.2.2⟩, fun ha => (pobj ha).trans (q2 ha)⟩


theorem deferredStgAt_tables (s : Schema) (obj : Nat) :
    SameTableDict s (deferredStgAt s obj).1 := by
  unfold deferredStgAt
  split <;> exact ⟨rfl, rfl, rfl, rfl⟩

theorem checkObj_tables (env : BuildEnv) (args : BuildArgs) (s : Schema) (obj : Nat) :
    SameTableDict s (checkObj env args s obj).schema := by
  unfold checkObj
  cases checkRecords env args s obj with
  | none => exact ⟨rfl, rfl, rfl, rfl⟩
  | some r =>
    obtain ⟨sysObj, sysUser, sysTab⟩ := r
    simp only []
    repeat' split
    all_goals first
      | exact ⟨rfl, rfl, rfl, rfl⟩
      | exact deferredStgAt_tables s _

/-- A table that a turn builds has passed the tests that read the schema. -/
theorem checkObj_build {env : BuildEnv} {args : BuildArgs} {s s1 : Schema} {obj : Nat}
    {sysObj : SysObj} {sysUser : SysUser} {sysTab : SysTab}
    (h : checkObj env args s obj = .build s1 sysObj sysUser sysTab) :
    checkRecords env args s obj = some (sysObj, sysUser, sysTab) := by
  unfold checkObj at h
  cases hr : checkRecords env args s obj with
  | none =>
    rw [hr] at h
    cases h
  | some r =>
    obtain ⟨o, u, t⟩ := r
    rw [hr] at h
    simp only [] at h
    repeat' split at h
    all_goals (cases h <;> rfl)


/-! #### The null pointers that `buildMaps` enters into `sysDeferredStgMapObj` -/

theorem onlyTableDict_stg {s t : Schema} (h : OnlyTableDict s t) :
    t.sysDeferredStgMapObj = s.sysDeferredStgMapObj := by
  unfold OnlyTableDict at h
  rw [h]

/-- The tests of a turn pass a table over when the tests that read the schema do. -/
theorem checkObj_none {env : BuildEnv} {args : BuildArgs} {s : Schema} {obj : Nat}
    (h : checkRecords env args s obj = none) : checkObj env args s obj = .skip s := by
  unfold checkObj
  rw [h]

/-- The tests of a turn for a table that is neither partitioned nor has an entry
in `sysDeferredStgMapObj`, but is initial: the look-up enters a null pointer
and the table is built. -/
theorem checkObj_initial {env : BuildEnv} {args : BuildArgs} {s : Schema} {obj : Nat}
    {sysObj : SysObj} {sysUser : SysUser} {sysTab : SysTab}
    (hrec : checkRecords env args s obj = some (sysObj, sysUser, sysTab))
    (hpart : env.tabIsPartitioned sysTab = false) (hinit : env.tabIsInitial sysTab = true)
    (hnone : s.sysDeferredStgMapObj.find sysObj.obj = none) :
    checkObj env args s obj =
      .build { s with sysDeferredStgMapObj := s.sysDeferredStgMapObj.set sysObj.obj none }
        sysObj sysUser sysTab := by
  unfold checkObj
  rw [hrec]
  simp only [hpart, hinit, (deferredStgAt_spec s sysObj.obj).2 hnone, Bool.false_eq_true,
    if_false, if_true, Option.none_bind]

/-- The tests of a turn change `sysDeferredStgMapObj` at the obj of the table at
most. -/
theorem checkObj_stg {env : BuildEnv} {args : BuildArgs} {s : Schema} {obj : Nat}
    {sysObj : SysObj} {sysUser : SysUser} {sysTab : SysTab}
    (hrec : checkRecords env args s obj = some (sysObj, sysUser, sysTab)) (o : Nat)
    (ho : o ≠ sysObj.obj) :
    (checkObj env args s obj).schema.sysDeferredStgMapObj.find o =
      s.sysDeferredStgMapObj.find o := by
  have hd : (deferredStgAt s sysObj.obj).1.sysDeferredStgMapObj.find o =
      s.sysDeferredStgMapObj.find o := by
    unfold deferredStgAt
    split
    · rfl
    · exact Map.find_set_ne _ _ _ _ ho
  unfold checkObj
  rw [hrec]
  simp only []
  repeat' split
  all_goals first
    | rfl
    | exact hd

/-- The schema after a turn of the loop has the `sysDeferredStgMapObj` that the
tests leave, and its `tableMap` is the one before the turn or has one more
descriptor, at the obj of the OBJ$ row. -/
theorem buildMapsObj_maps (env : BuildEnv) (args : BuildArgs) (s : Schema) (obj : Nat) :
    (buildMapsObj env args s obj).schema.sysDeferredStgMapObj =
      (checkObj env args s obj).schema.sysDeferredStgMapObj ∧
    ((buildMapsObj env args s obj).schema.tableMap = s.tableMap ∨
      ∃ sysObj sysUser sysTab table,
        checkRecords env args s obj = some (sysObj, sysUser, sysTab) ∧
        (buildMapsObj env args s obj).schema.tableMap = s.tableMap.set sysObj.obj table) := by
  have ht := (checkObj_tables env args s obj).1
  unfold buildMapsObj
  cases hch : checkObj env args s obj with
  | skip s1 =>
    rw [hch] at ht
    exact ⟨rfl, Or.inl ht.symm⟩
  | build s1 sysObj sysUser sysTab =>
    rw [hch] at ht
    simp only [Checked.schema] at ht ⊢
    split
    · exact ⟨rfl, Or.inl ht.symm⟩
    · refine ⟨onlyTableDict_stg (addTableToDict_only _ _), ?_⟩
      rcases (addTableToDict_maps s1 (buildTable env args s1 sysObj sysUser sysTab).table).1
        with e | e
      · left
        rw [e, ← ht]
      · right
        refine ⟨sysObj, sysUser, sysTab, (buildTable env args s1 sysObj sysUser sysTab).table,
          checkObj_build hch, ?_⟩
        rw [e, buildTable_obj, ← ht]

/-- One turn of the loop of `buildMaps`, seen from a table `sysObj` that passes
the tests in the schema `s` at the start of the call and is neither
partitioned nor not initial: a null pointer at its obj stays, and as long as
there is neither an entry at its obj nor a descriptor for it, the turn enters
the null pointer or leaves both as they are; the turn of the table itself
enters it. -/
theorem buildMapsObj_null (env : BuildEnv) (args : BuildArgs) (s s1 : Schema) (obj : Nat)
    (sysObj : SysObj) (sysUser : SysUser) (sysTab : SysTab)
    (hrec : checkRecords env args s obj = some (sysObj, sysUser, sysTab))
    (hpart : env.tabIsPartitioned sysTab = false) (hinit : env.tabIsInitial sysTab = true)
    (hF : BuildFrame s s1) (obj1 : Nat) :
    (s1.sysDeferredStgMapObj.find sysObj.obj = some none →
      (buildMapsObj env args s1 obj1).schema.sysDeferredStgMapObj.find sysObj.obj = some none) ∧
    (s1.sysDeferredStgMapObj.find sysObj.obj = none → s1.tableMap.find sysObj.obj = none →
      ((buildMapsObj env args s1 obj1).schema.sysDeferredStgMapObj.find sysObj.obj = some none ∨
        ((buildMapsObj env args s1 obj1).schema.sysDeferredStgMapObj.find sysObj.obj = none ∧
          (buildMapsObj env args s1 obj1).schema.tableMap.find sysObj.obj = none)) ∧
      (obj1 = obj →
        (buildMapsObj env args s1 obj1).schema.sysDeferredStgMapObj.find sysObj.obj =
          some none)) := by
  obtain ⟨m1, m2⟩ := buildMapsObj_maps env args s1 obj1
  constructor
  · intro h
    rcases (buildMapsObj_frame env args s1 obj1).2 sysObj.obj with e | ⟨e, _⟩
    · rw [e, h]
    · rw [h] at e
      cases e
  · intro hnone htab
    have htabs := buildFrame_sameMaps hF Kind.TAB (by decide)
    simp only [SameMaps] at htabs
    -- a turn for a table with the same obj enters the null pointer
    have hsame : ∀ o1 u1 t1, checkRecords env args s1 obj1 = some (o1, u1, t1) →
        o1.obj = sysObj.obj →
        (buildMapsObj env args s1 obj1).schema.sysDeferredStgMapObj.find sysObj.obj =
          some none := by
      intro o1 u1 t1 h1 heq
      have ht1 := (checkRecords_some h1).2.2.2
      have ht0 := (checkRecords_some hrec).2.2.2
      rw [heq, ← htabs.1, ← htabs.2, ht0] at ht1
      have ht : t1 = sysTab := (Option.some.inj ht1).symm
      subst ht
      rw [m1, checkObj_initial h1 hpart hinit (by rw [heq]; exact hnone)]
      simp only [Checked.schema]
      rw [heq, Map.find_set_self]
    constructor
    · cases h1 : checkRecords env args s1 obj1 with
      | none =>
        right
        rw [m1, checkObj_none h1]
        refine ⟨hnone, ?_⟩
        rcases m2 with e | ⟨o1, u1, t1, _, h2, _⟩
        · rw [e]; exact htab
        · rw [h1] at h2; cases h2
      | some r =>
        obtain ⟨o1, u1, t1⟩ := r
        by_cases heq : o1.obj = sysObj.obj
        · exact Or.inl (hsame o1 u1 t1 h1 heq)
        · right
          refine ⟨?_, ?_⟩
          · rw [m1, checkObj_stg h1 sysObj.obj (Ne.symm heq)]
            exact hnone
          · rcases m2 with e | ⟨o2, u2, t2, tb, h2, e⟩
            · rw [e]; exact htab
            · rw [h1] at h2
              simp only [Option.some.injEq, Prod.mk.injEq] at h2
              rw [e, ← h2.1, Map.find_set_ne _ _ _ _ (Ne.symm heq)]
              exact htab
    · intro hobj
      subst hobj
      have hc : checkRecords env args s1 obj1 = checkRecords env args s obj1 := by
        refine checkRecords_congr env args s s1 obj1 hF ?_
        intro o ho
        rw [(checkRecords_some hrec).1] at ho
        cases ho
        rw [htab, (checkRecords_some hrec).2.2.1]
      exact hsame sysObj sysUser sysTab (hc.trans hrec) rfl

/-- The loop of `buildMaps`, seen from such a table: when the loop returns and
the table is among the identifiers, or the null pointer is there already, the
null pointer is there at the end. -/
theorem buildMapsLoop_null (env : BuildEnv) (args : BuildArgs) (s : Schema) (obj : Nat)
    (sysObj : SysObj) (sysUser : SysUser) (sysTab : SysTab)
    (hrec : checkRecords env args s obj = some (sysObj, sysUser, sysTab))
    (hpart : env.tabIsPartitioned sysTab = false) (hinit : env.tabIsInitial sysTab = true)
    (l : List Nat) (s1 : Schema) (w : List (Nat × String)) (hF : BuildFrame s s1)
    (hJ : s1.sysDeferredStgMapObj.find sysObj.obj = some none ∨
      (obj ∈ l ∧ s1.sysDeferredStgMapObj.find sysObj.obj = none ∧
        s1.tableMap.find sysObj.obj = none))
    (hret : (buildMapsLoop env args l s1 w).ret = .ok ()) :
    (buildMapsLoop env args l s1 w).schema.sysDeferredStgMapObj.find sysObj.obj = some none := by
  induction l generalizing s1 w with
  | nil =>
    rcases hJ with h | ⟨h, _⟩
    · exact h
    · cases h
  | cons obj1 rest ih =>
    obtain ⟨n1, n2⟩ := buildMapsObj_null env args s s1 obj sysObj sysUser sysTab hrec hpart hinit
      hF obj1
    have hF2 := buildFrame_trans hF (buildMapsObj_frame env args s1 obj1).1
    simp only [buildMapsLoop] at hret ⊢
    cases hr : (buildMapsObj env args s1 obj1).ret with
    | error e =>
      rw [hr] at hret
      cases hret
    | ok u =>
      rw [hr] at hret
      simp only [] at hret ⊢
      refine ih _ _ hF2 ?_ hret
      rcases hJ with h | ⟨hmem, h1, h2⟩
      · exact Or.inl (n1 h)
      · obtain ⟨a, b⟩ := n2 h1 h2
        by_cases hobj : obj1 = obj
        · exact Or.inl (b hobj)
        · rcases a with a | ⟨a1, a2⟩
          · exact Or.inl a
          · right
            refine ⟨?_, a1, a2⟩
            rcases List.mem_cons.1 hmem with e | e
            · exact absurd e.symm hobj
            · exact e


/-! #### The check of the keys in `buildMaps` -/

theorem keyListed_eq (name : String) (keys : List String) :
    keyListed name keys = decide (name ∈ keys) := by
  induction keys with
  | nil => simp [keyListed]
  | cons key keys ih =>
    simp only [keyListed, ih]
    by_cases h : name = key
    · simp [h]
    · simp [h]

/-- Among names without repetition, as many are listed in a key list without
repetition as the list has keys exactly when every key is one of the names. -/
theorem filter_listed_length {names keys : List String} (hn : names.Nodup) (hk : keys.Nodup) :
    (names.filter fun n => keyListed n keys).length = keys.length ↔
      ∀ key ∈ keys, key ∈ names := by
  have hf : (names.filter fun n => keyListed n keys) = names.filter fun n => decide (n ∈ keys) := by
    congr 1
    funext n
    exact keyListed_eq n keys
  rw [hf]
  have hnd : (names.filter fun n => decide (n ∈ keys)).Nodup := hn.filter _
  have hsub : (names.filter fun n => decide (n ∈ keys)) ⊆ keys := by
    intro x hx
    simpa using (List.mem_filter.1 hx).2
  constructor
  · intro hlen key hkey
    have hperm := (List.subperm_of_subset hnd hsub).perm_of_length_le (le_of_eq hlen.symm)
    exact (List.mem_filter.1 (hperm.mem_iff.2 hkey)).1
  · intro hall
    have hperm : (names.filter fun n => decide (n ∈ keys)).Perm keys := by
      refine (List.perm_ext_iff_of_nodup hnd hk).2 ?_
      intro x
      constructor
      · exact fun hx => hsub hx
      · intro hx
        exact List.mem_filter.2 ⟨hall x hx, by simpa using hx⟩
    exact hperm.length_eq

/-- The loop over the columns raises 50026 only, and when it returns `keysCnt`
has grown by the number of the columns whose name is a key. -/
theorem scanColumns_spec (env : BuildEnv) (args : BuildArgs) (s : Schema) (sysObj : SysObj)
    (sysUser : SysUser) (b : Bool) (l : List (SysColSeg × RowId)) (c : ColumnScan)
    (hc : c.ret = .ok ()) :
    ((scanColumns env args s sysObj sysUser b l c).ret = .ok () ∨
      (scanColumns env args s sysObj sysUser b l c).ret = .error ⟨50026⟩) ∧
    ((scanColumns env args s sysObj sysUser b l c).ret = .ok () →
      (scanColumns env args s sysObj sysUser b l c).keysCnt =
        c.keysCnt +
          ((((l.filterMap fun e => s.sysColMapRowId.find e.2).map fun sysCol =>
            sysCol.name).filter fun n => keyListed n args.keys).length : Int)) := by
  induction l generalizing c with
  | nil =>
    refine ⟨Or.inl hc, fun _ => ?_⟩
    simp [scanColumns]
  | cons e rest ih =>
    cases hfind : s.sysColMapRowId.find e.2 with
    | none =>
      have hd : scanColumns env args s sysObj sysUser b (e :: rest) c =
          scanColumns env args s sysObj sysUser b rest c := by
        simp only [scanColumns, hfind]
      rw [hd]
      obtain ⟨i1, i2⟩ := ih c hc
      refine ⟨i1, fun h => ?_⟩
      rw [i2 h]
      simp only [List.filterMap_cons, hfind]
    | some sysCol =>
      simp only [scanColumns, hfind]
      split
      · refine ⟨Or.inr rfl, fun h => ?_⟩
        cases h
      · refine ⟨(ih _ (by rfl)).1, fun h => ?_⟩
        rw [(ih _ (by rfl)).2 h]
        simp only [List.filterMap_cons, hfind, List.map_cons, List.filter_cons]
        by_cases hl : keyListed sysCol.name args.keys = true
        · simp only [hl, if_true, List.length_cons]
          push_cast
          ring
        · simp only [hl, if_false]
          simp

theorem addLobFrags_ret (s : Schema) (l : List (SysLobFragKey × RowId)) (b : LobBuild) :
    (addLobFrags s l b).ret = b.ret ∨ (addLobFrags s l b).ret = .error ⟨50028⟩ := by
  induction l generalizing b with
  | nil => exact Or.inl rfl
  | cons e rest ih =>
    simp only [addLobFrags]
    split
    · exact ih b
    · split
      · exact Or.inr rfl
      · split
        · exact ih b
        · exact ih _

theorem addLobCompParts_ret (s : Schema) (l : List (SysLobCompPartKey × RowId))
    (b : LobBuild) :
    (addLobCompParts s l b).ret = b.ret ∨ (addLobCompParts s l b).ret = .error ⟨50028⟩ := by
  induction l generalizing b with
  | nil => exact Or.inl rfl
  | cons e rest ih =>
    simp only [addLobCompParts]
    split
    · exact ih b
    · rename_i sysLobCompPart _
      rcases addLobFrags_ret s
        (s.sysLobFragMapKey.scan ⟨sysLobCompPart.partObj, 0⟩
          fun k => decide (k.parentObj = sysLobCompPart.partObj)) b with h1 | h1
      · split
        · rename_i err herr
          rw [h1]
          exact Or.inl rfl
        · rcases ih (addLobFrags s
            (s.sysLobFragMapKey.scan ⟨sysLobCompPart.partObj, 0⟩
              fun k => decide (k.parentObj = sysLobCompPart.partObj)) b) with h2 | h2
          · exact Or.inl (h2.trans h1)
          · exact Or.inr h2
      · split
        · exact Or.inr h1
        · rename_i herr
          rw [h1] at herr
          cases herr

/-- The loop over LOB$ raises 50027 or 50028 only. -/
theorem scanLobs_ret (env : BuildEnv) (s : Schema) (sysObj : SysObj) (sysTab : SysTab)
    (l : List (SysLobKey × RowId)) (c : LobScan) (hc : c.ret = .ok ()) :
    (scanLobs env s sysObj sysTab l c).ret = .ok () ∨
      (scanLobs env s sysObj sysTab l c).ret = .error ⟨50027⟩ ∨
      (scanLobs env s sysObj sysTab l c).ret = .error ⟨50028⟩ := by
  induction l generalizing c with
  | nil => exact Or.inl hc
  | cons e rest ih =>
    simp only [scanLobs]
    split
    · exact ih c hc
    · split
      · exact Or.inr (Or.inl rfl)
      · split
        · exact ih c hc
        · split
          · rename_i err herr
            split at herr
            · rename_i hp
              split at herr
              · rename_i err2 herr2
                rcases addLobFrags_ret s _ _ with h | h
                · rw [h] at herr2
                  cases herr2
                · rw [h] at herr
                  cases herr
                  exact Or.inr (Or.inr rfl)
              · rcases addLobCompParts_ret s _ _ with h | h
                · rename_i hok
                  rw [h] at herr
                  rcases addLobFrags_ret s _ _ with h2 | h2
                  · rw [h2] at herr
                    cases herr
                  · rw [h2] at hok
                    cases hok
                · rw [h] at herr
                  cases herr
                  exact Or.inr (Or.inr rfl)
            · cases herr
          · exact ih _ rfl

theorem scanLobNames_ret (s : Schema) (sysObj : SysObj) (sysTab : SysTab)
    (l : List (SysObjNameKey × RowId)) (c : LobScan) :
    (scanLobNames s sysObj sysTab l c).ret = c.ret := by
  induction l generalizing c with
  | nil => rfl
  | cons e rest ih =>
    simp only [scanLobNames]
    split
    · exact ih c
    · split
      · exact ih c
      · rw [ih]

/-- The two loops over the LOBs of a table raise 50027 or 50028 only. -/
theorem lobsOf_ret (env : BuildEnv) (args : BuildArgs) (s : Schema) (sysObj : SysObj)
    (sysTab : SysTab) (c : ColumnScan) :
    (lobsOf env args s sysObj sysTab c).ret = .ok () ∨
      (lobsOf env args s sysObj sysTab c).ret = .error ⟨50027⟩ ∨
      (lobsOf env args s sysObj sysTab c).ret = .error ⟨50028⟩ := by
  unfold lobsOf
  split
  · have h := scanLobs_ret env s sysObj sysTab
      (s.sysLobMapKey.scan ⟨sysObj.obj, 0⟩ fun k => decide (k.obj = sysObj.obj))
      { table := c.table, warnings := c.warnings, ret := .ok () } rfl
    simp only []
    split
    · rename_i err herr
      exact h
    · rename_i hok
      rw [scanLobNames_ret]
      exact h
  · exact Or.inl rfl

/-- The exceptions of the part of a turn that builds the descriptor: 50026 from
the columns, 50027 and 50028 from the LOBs, and 10041 exactly when these loops
return and the number of the keys is not the number of the columns whose name
is a key. -/
theorem buildTable_ret (env : BuildEnv) (args : BuildArgs) (s : Schema) (sysObj : SysObj)
    (sysUser : SysUser) (sysTab : SysTab) :
    ((buildTable env args s sysObj sysUser sysTab).ret = .error ⟨10041⟩ ↔
      (((buildTable env args s sysObj sysUser sysTab).ret ≠ .error ⟨50026⟩ ∧
        (buildTable env args s sysObj sysUser sysTab).ret ≠ .error ⟨50027⟩ ∧
        (buildTable env args s sysObj sysUser sysTab).ret ≠ .error ⟨50028⟩) ∧
      ((columnNames s sysObj.obj).filter fun n => keyListed n args.keys).length ≠
        args.keys.length)) ∧
    (∀ e, (buildTable env args s sysObj sysUser sysTab).ret = .error e →
      e = ⟨50026⟩ ∨ e = ⟨50027⟩ ∨ e = ⟨50028⟩ ∨ e = ⟨10041⟩) := by
  have hcol := scanColumns_spec env args s sysObj sysUser
    (suppLogOf env args s sysObj sysUser).primary (columnEntries s sysObj.obj)
    { table :=
        if env.tabIsPartitioned sysTab then
          addPartitionsOf s sysObj.obj
            { obj := sysObj.obj, dataObj := sysTab.dataObj, user := sysObj.owner,
              cluCols := sysTab.cluCols, options := args.options, owner := sysUser.name,
              name := sysObj.name, columns := [], lobs := [], tablePartitions := [] }
        else
          { obj := sysObj.obj, dataObj := sysTab.dataObj, user := sysObj.owner,
            cluCols := sysTab.cluCols, options := args.options, owner := sysUser.name,
            name := sysObj.name, columns := [], lobs := [], tablePartitions := [] }
      keysCnt := 0, supLogColMissing := false, warnings := [], ret := .ok () } rfl
  have hcols : ((columnsOf env args s sysObj sysUser sysTab).ret = .ok () ∨
      (columnsOf env args s sysObj sysUser sysTab).ret = .error ⟨50026⟩) ∧
      ((columnsOf env args s sysObj sysUser sysTab).ret = .ok () →
        (columnsOf env args s sysObj sysUser sysTab).keysCnt =
          (((columnNames s sysObj.obj).filter fun n => keyListed n args.keys).length : Int)) := by
    unfold columnsOf columnNames
    simp only [] at hcol ⊢
    refine ⟨hcol.1, fun h => ?_⟩
    rw [hcol.2 h]
    simp
  have hlobs := lobsOf_ret env args s sysObj sysTab (columnsOf env args s sysObj sysUser sysTab)
  unfold buildTable
  simp only []
  rcases hcols.1 with hc | hc
  · have hk := hcols.2 hc
    rw [hc]
    simp only []
    rcases hlobs with hl | hl | hl
    · rw [hl]
      simp only []
      by_cases hne : (args.keys.length : Int) ≠ (columnsOf env args s sysObj sysUser sysTab).keysCnt
      · rw [if_pos hne]
        refine ⟨⟨fun _ => ⟨⟨fun h => (by cases h), fun h => (by cases h),
          fun h => (by cases h)⟩, ?_⟩, fun _ => rfl⟩, ?_⟩
        · intro h
          apply hne
          rw [hk, h]
        · intro e he
          simp only [Except.error.injEq] at he
          exact Or.inr (Or.inr (Or.inr he.symm))
      · rw [if_neg hne]
        refine ⟨⟨fun h => (by cases h), fun h => ?_⟩, fun e he => (by cases he)⟩
        exfalso
        apply h.2
        have := not_not.1 hne
        rw [hk] at this
        exact_mod_cast this.symm
    · rw [hl]
      simp only []
      refine ⟨⟨fun h => (by cases h), fun h => absurd rfl h.1.2.1⟩, ?_⟩
      intro e he
      simp only [Except.error.injEq] at he
      exact Or.inr (Or.inl he.symm)
    · rw [hl]
      simp only []
      refine ⟨⟨fun h => (by cases h), fun h => absurd rfl h.1.2.2⟩, ?_⟩
      intro e he
      simp only [Except.error.injEq] at he
      exact Or.inr (Or.inr (Or.inl he.symm))
  · rw [hc]
    simp only []
    refine ⟨⟨fun h => (by cases h), fun h => absurd rfl h.1.1⟩, ?_⟩
    intro e he
    simp only [Except.error.injEq] at he
    exact Or.inl he.symm


/-! #### The descriptors over `buildMaps` and the loop over `tablesTouched` -/

theorem Map.find_erase {K V : Type} [DecidableEq K] (m : Map K V) (k k2 : K) :
    (m.erase k).find k2 = if k2 = k then none else m.find k2 := by
  by_cases h : k2 = k
  · subst h
    rw [if_pos rfl, Map.find_erase_self]
  · rw [if_neg h, Map.find_erase_ne _ _ _ h]

theorem hasObjRow_congr {s t : Schema} (h : SameMaps Kind.OBJ s t) (obj : Nat) :
    HasObjRow s obj ↔ HasObjRow t obj := by
  simp only [SameMaps] at h
  unfold HasObjRow
  rw [h.1, h.2.2]

/-- What the loop over `table->tablePartitions` of `removeTableFromDict` has done
when it returns. -/
theorem removeTablePartitions_ok (xs : List Nat) (s : Schema)
    (h : (removeTablePartitions s xs).ret = .ok ()) :
    (removeTablePartitions s xs).schema =
      { s with tablePartitionMap := s.tablePartitionMap.eraseAll (xs.map unpackObj) } := by
  induction xs generalizing s with
  | nil => simp only [removeTablePartitions, List.map_nil, Map.eraseAll_nil]
  | cons x rest ih =>
    cases hfind : s.tablePartitionMap.find (unpackObj x) with
    | none =>
      simp only [removeTablePartitions, hfind] at h
      cases h
    | some y =>
      simp only [removeTablePartitions, hfind] at h ⊢
      rw [ih _ h]
      simp only [List.map_cons, Map.eraseAll_erase]

theorem removeLobIndexes_maps (xs : List Nat) (s : Schema) :
    (removeLobIndexes s xs).schema.tableMap = s.tableMap ∧
      (removeLobIndexes s xs).schema.tablePartitionMap = s.tablePartitionMap := by
  induction xs generalizing s with
  | nil => exact ⟨rfl, rfl⟩
  | cons x xs ih =>
    simp only [removeLobIndexes]
    split
    · exact ih _
    · exact ⟨rfl, rfl⟩

theorem removeLobPartitions_maps (xs : List Nat) (s : Schema) :
    (removeLobPartitions s xs).tableMap = s.tableMap ∧
      (removeLobPartitions s xs).tablePartitionMap = s.tablePartitionMap := by
  induction xs generalizing s with
  | nil => exact ⟨rfl, rfl⟩
  | cons x xs ih =>
    simp only [removeLobPartitions]
    split
    · exact ih _
    · exact ih s

theorem removeLobs_maps (lobs : List OracleLob) (s : Schema) :
    (removeLobs s lobs).schema.tableMap = s.tableMap ∧
      (removeLobs s lobs).schema.tablePartitionMap = s.tablePartitionMap := by
  induction lobs generalizing s with
  | nil => exact ⟨rfl, rfl⟩
  | cons lob lobs ih =>
    simp only [removeLobs]
    split
    · exact removeLobIndexes_maps _ s
    · have h1 := removeLobIndexes_maps lob.lobIndexes s
      have h2 := removeLobPartitions_maps lob.lobPartitions
        (removeLobIndexes s lob.lobIndexes).schema
      have h3 := ih (removeLobPartitions (removeLobIndexes s lob.lobIndexes).schema
        lob.lobPartitions)
      exact ⟨h3.1.trans (h2.1.trans h1.1), h3.2.trans (h2.2.trans h1.2)⟩

/-- What `removeTableFromDict` has done to `tableMap` and to `tablePartitionMap`
when it returns: `tableMap` had an entry at the obj of the table, which is
erased, and the entries of `tablePartitionMap` at the obj of the table and at
the objects of its partitions are erased. -/
theorem removeTableFromDict_ok (s : Schema) (table : OracleTable)
    (h : (removeTableFromDict s table).ret = .ok ()) :
    (s.tableMap.find table.obj).isSome = true ∧
    (removeTableFromDict s table).schema.tableMap = s.tableMap.erase table.obj ∧
    (removeTableFromDict s table).schema.tablePartitionMap =
      s.tablePartitionMap.eraseAll table.partitionObjs := by
  cases h1 : s.tablePartitionMap.find table.obj with
  | none =>
    simp only [removeTableFromDict, h1] at h
    cases h
  | some y =>
    simp only [removeTableFromDict, h1] at h ⊢
    cases h2 : (removeTablePartitions
        { s with tablePartitionMap := s.tablePartitionMap.erase table.obj }
        table.tablePartitions).ret with
    | error e =>
      simp only [h2] at h
      cases h
    | ok u =>
      have hp := removeTablePartitions_ok _ _ h2
      simp only [h2] at h ⊢
      rw [hp] at h ⊢
      cases h3 : (removeLobs
          { s with
            tablePartitionMap :=
              (s.tablePartitionMap.erase table.obj).eraseAll
                (table.tablePartitions.map unpackObj) }
          table.lobs).ret with
      | error e =>
        simp only [h3] at h
        cases h
      | ok u2 =>
        have hl := removeLobs_maps table.lobs
          { s with
            tablePartitionMap :=
              (s.tablePartitionMap.erase table.obj).eraseAll
                (table.tablePartitions.map unpackObj) }
        simp only [] at hl
        simp only [h3] at h ⊢
        rw [hl.1] at h ⊢
        cases h4 : s.tableMap.find table.obj with
        | none =>
          simp only [h4] at h
          cases h
        | some z =>
          simp only [h4]
          refine ⟨rfl, trivial, ?_⟩
          rw [hl.2, OracleTable.partitionObjs, Map.eraseAll_erase]

/-- The loop over `tablesTouched`, when it returns: if the descriptors are where
`addTableToDict` puts them, the descriptors of the loop are the ones that
`tableMap` has at their objs, and every other descriptor has an OBJ$ row, then
afterwards every descriptor of `tableMap` has an OBJ$ row and every entry of
`tablePartitionMap` is for a descriptor of `tableMap`. -/
theorem dropTables_stored (tables : List OracleTable) (s : Schema) (msgs : List String)
    (h1 : ∀ o t, s.tableMap.find o = some t → t.obj = o)
    (h2 : ∀ k t, s.tablePartitionMap.find k = some t →
      s.tableMap.find t.obj = some t ∧ k ∈ t.partitionObjs)
    (h3 : ∀ t ∈ tables, ∀ t2, s.tableMap.find t.obj = some t2 → t2 = t)
    (h4 : ∀ o t, s.tableMap.find o = some t → t ∈ tables ∨ HasObjRow s t.obj)
    (hret : (dropTables tables s msgs).ret = .ok ()) :
    (∀ o t, (dropTables tables s msgs).schema.tableMap.find o = some t →
      HasObjRow (dropTables tables s msgs).schema t.obj) ∧
    (∀ k t, (dropTables tables s msgs).schema.tablePartitionMap.find k = some t →
      (dropTables tables s msgs).schema.tableMap.find t.obj = some t) := by
  induction tables generalizing s msgs with
  | nil =>
    refine ⟨fun o t h => ?_, fun k t h => (h2 k t h).1⟩
    rcases h4 o t h with hm | hm
    · cases hm
    · exact hm
  | cons table rest ih =>
    simp only [dropTables] at hret ⊢
    cases hr : (removeTableFromDict s table).ret with
    | error e =>
      rw [hr] at hret
      cases hret
    | ok u =>
      rw [hr] at hret
      simp only [] at hret ⊢
      obtain ⟨r1, r2, r3⟩ := removeTableFromDict_ok s table hr
      obtain ⟨z, hz⟩ := Option.isSome_iff_exists.1 r1
      have hzt : z = table := h3 table (List.mem_cons_self _ _) z hz
      rw [hzt] at hz
      have hobj := onlyTableDict_sameMaps (removeTableFromDict_only s table) Kind.OBJ
      refine ih _ _ ?_ ?_ ?_ ?_ hret
      · intro o t h
        rw [r2, Map.find_erase] at h
        split at h
        · cases h
        · exact h1 o t h
      · intro k t h
        rw [r3, Map.find_eraseAll] at h
        split at h
        · cases h
        · rename_i hk
          obtain ⟨a, b⟩ := h2 k t h
          have hne : t.obj ≠ table.obj := by
            intro e
            rw [e, hz] at a
            exact hk ((Option.some.inj a) ▸ b)
          rw [r2, Map.find_erase_ne _ _ _ hne]
          exact ⟨a, b⟩
      · intro t ht t2 h
        rw [r2, Map.find_erase] at h
        split at h
        · cases h
        · exact h3 t (List.mem_cons_of_mem _ ht) t2 h
      · intro o t h
        rw [r2, Map.find_erase] at h
        split at h
        · cases h
        · rename_i ho
          rcases h4 o t h with hm | hm
          · rcases List.mem_cons.1 hm with e | e
            · exact absurd ((h1 o t h).symm.trans (by rw [e])) ho
            · exact Or.inl e
          · exact Or.inr ((hasObjRow_congr hobj _).1 hm)

/-- The descriptors stay where they belong over an `addTableToDict` that
returns, and the descriptors of `tableMap` are then the table and those it
had. -/
theorem addTableToDict_stored (s : Schema) (table : OracleTable) (hd : DescStored s)
    (h : (addTableToDict s table).ret = .ok ()) :
    DescStored (addTableToDict s table).schema ∧
    ∀ o t, (addTableToDict s table).schema.tableMap.find o = some t →
      t = table ∨ s.tableMap.find o = some t := by
  obtain ⟨hnone, mi, mp, mt, hsch, _, _, hins⟩ := addTableToDict_ok s table h
  obtain ⟨_, m2, _⟩ := addTableToDict_maps s table
  have htm : (addTableToDict s table).schema.tableMap = s.tableMap.set table.obj table := by
    rw [hsch]
  have htt : (addTableToDict s table).schema.tablesTouched = s.tablesTouched := by
    rw [hsch]
  have hne : ∀ t, s.tableMap.find t.obj = some t → t.obj ≠ table.obj := by
    intro t ht e
    rw [e, hnone] at ht
    cases ht
  refine ⟨⟨?_, ?_, ?_⟩, ?_⟩
  · intro o t ht
    rw [htm] at ht
    by_cases ho : o = table.obj
    · subst ho
      rw [Map.find_set_self] at ht
      rw [← Option.some.inj ht]
    · rw [Map.find_set_ne _ _ _ _ ho] at ht
      exact hd.1 o t ht
  · intro k t ht
    rw [htm]
    have hold : s.tablePartitionMap.find k = some t →
        (s.tableMap.set table.obj table).find t.obj = some t ∧ k ∈ t.partitionObjs := by
      intro e
      obtain ⟨a, b⟩ := hd.2.1 k t e
      rw [Map.find_set_ne _ _ _ _ (hne t a)]
      exact ⟨a, b⟩
    by_cases hk : k ∈ table.partitionObjs
    · rcases m2 k t ht with e | e
      · rw [e, Map.find_set_self]
        exact ⟨rfl, hk⟩
      · rw [hins.2.1 k hk] at e
        cases e
    · rcases m2 k t ht with e | e
      · have hmt : (addTableToDict s table).schema.tablePartitionMap = mt := by
          rw [hsch]
        rw [hmt, hins.2.2.2.1 k hk] at ht
        exact hold ht
      · exact hold e
  · intro t ht
    rw [htt] at ht
    rw [htm, Map.find_set_ne _ _ _ _ (hne t (hd.2.2 t ht))]
    exact hd.2.2 t ht
  · intro o t ht
    rw [htm] at ht
    by_cases ho : o = table.obj
    · subst ho
      rw [Map.find_set_self] at ht
      exact Or.inl (Option.some.inj ht).symm
    · rw [Map.find_set_ne _ _ _ _ ho] at ht
      exact Or.inr ht

/-- One turn of the loop of `buildMaps` that returns: the descriptors stay where
they belong, and a descriptor without OBJ$ row is a touched one, when the
secondary maps of OBJ$ agree with its primary map. -/
theorem buildMapsObj_stored (env : BuildEnv) (args : BuildArgs) (s : Schema) (obj : Nat)
    (hc : Consistent Kind.OBJ s) (hd : DescStored s) (hs : StaleTouched s)
    (hret : (buildMapsObj env args s obj).ret = .ok ()) :
    DescStored (buildMapsObj env args s obj).schema ∧
      StaleTouched (buildMapsObj env args s obj).schema := by
  have hf := checkObj_frame env args s obj
  have ht := checkObj_tables env args s obj
  have hobj := buildFrame_sameMaps hf.1 Kind.OBJ (by decide)
  have htt := (buildFrame_fields hf.1).2.2.1
  have hd1 : DescStored (checkObj env args s obj).schema := by
    refine ⟨?_, ?_, ?_⟩
    · intro o t h
      rw [← ht.1] at h
      exact hd.1 o t h
    · intro k t h
      rw [← ht.2.1] at h
      rw [← ht.1]
      exact hd.2.1 k t h
    · intro t h
      rw [htt] at h
      rw [← ht.1]
      exact hd.2.2 t h
  have hs1 : StaleTouched (checkObj env args s obj).schema := by
    intro o t h
    rw [← ht.1] at h
    rw [htt]
    rcases hs o t h with e | e
    · exact Or.inl e
    · exact Or.inr ((hasObjRow_congr hobj _).1 e)
  unfold buildMapsObj at hret ⊢
  cases hch : checkObj env args s obj with
  | skip s1 =>
    rw [hch] at hd1 hs1
    exact ⟨hd1, hs1⟩
  | build s1 sysObj sysUser sysTab =>
    rw [hch] at hd1 hs1 hobj
    simp only [Checked.schema] at hd1 hs1 hobj
    rw [hch] at hret
    simp only [] at hret ⊢
    cases hb : (buildTable env args s1 sysObj sysUser sysTab).ret with
    | error e =>
      rw [hb] at hret
      cases hret
    | ok u =>
      rw [hb] at hret
      simp only [] at hret ⊢
      have hto := buildTable_obj env args s1 sysObj sysUser sysTab
      obtain ⟨a1, a2⟩ := addTableToDict_stored s1
        (buildTable env args s1 sysObj sysUser sysTab).table hd1 hret
      have honly := addTableToDict_only s1 (buildTable env args s1 sysObj sysUser sysTab).table
      have hobj2 := onlyTableDict_sameMaps honly Kind.OBJ
      have htt2 := (onlyTableDict_touched honly).2
      have hrec := (checkRecords_some (checkObj_build hch)).1
      refine ⟨a1, ?_⟩
      intro o t h
      rcases a2 o t h with e | e
      · right
        rw [e, hto]
        apply (hasObjRow_congr hobj2 _).1
        apply (hasObjRow_congr hobj _).1
        unfold objOfObj at hrec
        cases hx : s.sysObjMapObj.find obj with
        | none =>
          rw [hx] at hrec
          cases hrec
        | some x =>
          rw [hx] at hrec
          simp only [Option.some_bind] at hrec
          simp only [Consistent] at hc
          exact ⟨x, sysObj, hc.2.1 x sysObj hrec, hrec, rfl⟩
      · rw [htt2]
        rcases hs1 o t e with e2 | e2
        · exact Or.inl e2
        · exact Or.inr ((hasObjRow_congr hobj2 _).1 e2)

/-- The loop of `buildMaps`, when it returns: the descriptors stay where they
belong, and a descriptor without OBJ$ row is a touched one. -/
theorem buildMapsLoop_stored (env : BuildEnv) (args : BuildArgs) (l : List Nat) (s : Schema)
    (w : List (Nat × String)) (hc : Consistent Kind.OBJ s) (hd : DescStored s)
    (hs : StaleTouched s) (hret : (buildMapsLoop env args l s w).ret = .ok ()) :
    DescStored (buildMapsLoop env args l s w).schema ∧
      StaleTouched (buildMapsLoop env args l s w).schema := by
  induction l generalizing s w with
  | nil => exact ⟨hd, hs⟩
  | cons obj rest ih =>
    simp only [buildMapsLoop] at hret ⊢
    cases hr : (buildMapsObj env args s obj).ret with
    | error e =>
      rw [hr] at hret
      cases hret
    | ok u =>
      rw [hr] at hret
      simp only [] at hret ⊢
      obtain ⟨b1, b2⟩ := buildMapsObj_stored env args s obj hc hd hs hr
      have hobj := buildFrame_sameMaps (buildMapsObj_frame env args s obj).1 Kind.OBJ
        (by decide)
      exact ih _ _ (Consistent.of_sameMaps hobj hc) b1 b2 hret


theorem Map.mem_of_find {K V : Type} [DecidableEq K] (m : Map K V) (k : K) (v : V)
    (h : m.find k = some v) : (k, v) ∈ m.entries :=
  findEntry_mem k v m.entries h

/-- The descriptors are where they belong when this holds of every entry of the
two maps. -/
theorem descStored_of_entries {s : Schema}
    (h : (∀ e ∈ s.tableMap.entries, e.2.obj = e.1) ∧
      (∀ e ∈ s.tablePartitionMap.entries,
        s.tableMap.find e.2.obj = some e.2 ∧ e.1 ∈ e.2.partitionObjs) ∧
      ∀ t ∈ s.tablesTouched, s.tableMap.find t.obj = some t) : DescStored s :=
  ⟨fun o t ht => h.1 (o, t) (Map.mem_of_find _ _ _ ht),
    fun k t ht => h.2.1 (k, t) (Map.mem_of_find _ _ _ ht), h.2.2⟩

/-- A schema in which every descriptor of `tableMap` is touched. -/
theorem staleTouched_of_entries {s : Schema}
    (h : ∀ e ∈ s.tableMap.entries, e.2 ∈ s.tablesTouched) : StaleTouched s :=
  fun o t ht => Or.inl (h (o, t) (Map.mem_of_find _ _ _ ht))

/-- The indices of the schema of scenario S4 are consistent. -/
theorem consistent_schemaEmpStg (k : Kind) : Consistent k schemaEmpStg := by
  by_cases hk : k = Kind.COL
  · subst hk
    have e1 : schemaEmpStg.sysColMapRowId = Map.empty.set "C500" sampleColId := by decide
    have e2 : schemaEmpStg.sysColMapSeg = Map.empty.set sampleColId.seg "C500" := by decide
    simp only [Consistent, e1, e2]
    refine ⟨?_, ?_⟩
    · intro rowId r h _
      by_cases hr : rowId = "C500"
      · subst hr
        rw [Map.find_set_self] at h
        cases h
        exact Map.find_set_self _ _ _
      · rw [Map.find_set_ne _ _ _ _ hr, Map.find_empty] at h
        cases h
    · intro key h hf
      by_cases hr : key = sampleColId.seg
      · subst hr
        rw [Map.find_set_self] at hf
        cases hf
        exact ⟨sampleColId, Map.find_set_self _ _ _, rfl, rfl⟩
      · rw [Map.find_set_ne _ _ _ _ hr, Map.find_empty] at hf
        cases hf
  · exact dictAddStr_consistent sampleLimits _ (.deferredStg sampleStgEmp) k hk
      (dictAddStr_consistent sampleLimits _ (.col sampleColId) k hk
        (dictAddStr_consistent sampleLimits _ (.tab sampleTabEmp) k hk
          (dictAddStr_consistent sampleLimits _ (.obj sampleObjEmp) k hk
            (dictAddStr_consistent sampleLimits Schema.empty (.user sampleUserHr) k hk
              (Consistent.at_empty k) (by decide)) (by decide)) (by decide)) (by decide))
      (by decide)


theorem Sys.run_append (k : Consts) (s : Sys) (ops : List Op) (op : Op) :
    s.run k (ops ++ [op]) = (s.run k ops).step k op := by
  simp [Sys.run, List.foldl_append]

/-- Under the invariant every removed message is confirmed, and so is every
created message with a smaller id. -/
theorem Inv.confirmed_below {k : Consts} {s : Sys} (h : Inv k s) :
    ∀ m ∈ s.popped, IsConfirmed k s.mem m ∧
      ∀ c ∈ s.created, (s.mem c).id < (s.mem m).id → IsConfirmed k s.mem c := by
  intro m hm
  refine ⟨h.poppedConfirmed m hm, ?_⟩
  intro c hc hlt
  rcases List.mem_append.1 (h.perm.subset hc) with hp | hq
  · exact h.poppedConfirmed c hp
  · exact absurd (h.poppedLeQueue m hm c hq) (Nat.not_le_of_lt hlt)

/-- Under the invariant the removed messages have strictly ascending ids. -/
theorem Inv.popped_ascending {k : Consts} {s : Sys} (h : Inv k s) :
    s.popped.Pairwise fun a b => (s.mem a).id < (s.mem b).id := by
  have hnd : s.popped.Nodup := (h.perm.nodup_iff.1 h.nodup).of_append_left
  have hinj : ∀ a ∈ s.created, ∀ b ∈ s.created, a ≠ b → (s.mem a).id ≠ (s.mem b).id :=
    List.Pairwise.forall (fun _ _ hab => Ne.symm hab)
      (h.createdLt.imp fun hab => Nat.ne_of_lt hab)
  have hsub : ∀ a ∈ s.popped, a ∈ s.created :=
    fun a ha => h.perm.symm.subset (List.mem_append_left _ ha)
  refine List.Pairwise.imp_of_mem ?_ (h.poppedLe.and hnd)
  intro a b ha hb hab
  exact Nat.lt_of_le_of_ne hab.1 (hinj a (hsub a ha) b (hsub b hb) hab.2)

/-- C1: from an empty queue, along any sequence of `createMessage` calls with
strictly increasing ids and `confirmMessage` calls on queued messages, each
message `m` whose SCN a call of `confirmMessage` assigns to `confirmedScn` (the
messages the call removes) carries the CONFIRMED flag, and so does every message
created before the call with an id smaller than that of `m`. -/
theorem confirmMessage_earlier_confirmed (k : Consts) (mem : Ptr → BuilderMsg) (w : Writer)
    (ops : List Op) (msg : Option Ptr)
    (hv : ValidTrace k (Sys.start mem w) (ops ++ [.confirm msg])) :
    ∀ m ∈ (confirmMessage k ((Sys.start mem w).run k ops).mem
              ((Sys.start mem w).run k ops).writer msg).popped,
      IsConfirmed k (confirmMessage k ((Sys.start mem w).run k ops).mem
              ((Sys.start mem w).run k ops).writer msg).mem m ∧
      ∀ c ∈ ((Sys.start mem w).run k ops).created,
        ((confirmMessage k ((Sys.start mem w).run k ops).mem
              ((Sys.start mem w).run k ops).writer msg).mem c).id
          < ((confirmMessage k ((Sys.start mem w).run k ops).mem
              ((Sys.start mem w).run k ops).writer msg).mem m).id →
        IsConfirmed k (confirmMessage k ((Sys.start mem w).run k ops).mem
              ((Sys.start mem w).run k ops).writer msg).mem c := by
  have h := (Inv.start k mem w).run _ hv
  rw [Sys.run_append] at h
  intro m hm
  exact h.confirmed_below m (List.mem_append_right _ hm)

/-- Ids 1, 2, 3 are created and id 2 is confirmed; the call that confirms id 1 removes
confirmed messages only. -/
theorem confirmMessage_earlier_confirmed_witness :
    ValidTrace sampleConsts (Sys.start memAscending sampleWriter)
        ([.create 1, .create 2, .create 3, .confirm (some 2)] ++ [.confirm (some 1)]) ∧
      ∀ m ∈ (confirmMessage sampleConsts
              ((Sys.start memAscending sampleWriter).run sampleConsts
                [.create 1, .create 2, .create 3, .confirm (some 2)]).mem
              ((Sys.start memAscending sampleWriter).run sampleConsts
                [.create 1, .create 2, .create 3, .confirm (some 2)]).writer (some 1)).popped,
        IsConfirmed sampleConsts (confirmMessage sampleConsts
              ((Sys.start memAscending sampleWriter).run sampleConsts
                [.create 1, .create 2, .create 3, .confirm (some 2)]).mem
              ((Sys.start memAscending sampleWriter).run sampleConsts
                [.create 1, .create 2, .create 3, .confirm (some 2)]).writer (some 1)).mem m :=
  ⟨by decide, fun m hm =>
    (confirmMessage_earlier_confirmed sampleConsts memAscending sampleWriter
      [.create 1, .create 2, .create 3, .confirm (some 2)] (some 1) (by decide) m hm).1⟩

/-- C2: from an empty queue, along any sequence of `createMessage` calls with
strictly increasing ids and `confirmMessage` calls on queued messages, the
messages removed from the queue are removed in strictly ascending order of id. -/
theorem confirmMessage_pops_ascending (k : Consts) (mem : Ptr → BuilderMsg) (w : Writer)
    (ops : List Op) (hv : ValidTrace k (Sys.start mem w) ops) :
    ((Sys.start mem w).run k ops).popped.Pairwise fun a b =>
      (((Sys.start mem w).run k ops).mem a).id < (((Sys.start mem w).run k ops).mem b).id :=
  ((Inv.start k mem w).run _ hv).popped_ascending

/-- Ids 1, 2, 3 are created, then ids 2 and 1 are confirmed: the messages removed are
1, 2, in this order. -/
theorem confirmMessage_pops_ascending_witness :
    ValidTrace sampleConsts (Sys.start memAscending sampleWriter)
        [.create 1, .create 2, .create 3, .confirm (some 2), .confirm (some 1)] ∧
      ((Sys.start memAscending sampleWriter).run sampleConsts
        [.create 1, .create 2, .create 3, .confirm (some 2), .confirm (some 1)]).popped = [1, 2] ∧
      ((Sys.start memAscending sampleWriter).run sampleConsts
        [.create 1, .create 2, .create 3, .confirm (some 2), .confirm (some 1)]).popped.Pairwise
        fun a b =>
          (((Sys.start memAscending sampleWriter).run sampleConsts
            [.create 1, .create 2, .create 3, .confirm (some 2), .confirm (some 1)]).mem a).id
          < (((Sys.start memAscending sampleWriter).run sampleConsts
            [.create 1, .create 2, .create 3, .confirm (some 2), .confirm (some 1)]).mem b).id :=
  ⟨by decide, by decide,
    confirmMessage_pops_ascending sampleConsts memAscending sampleWriter _ (by decide)⟩


theorem pairwise_le_last {α : Type} {R : α → α → Prop} (hrefl : ∀ a, R a a) :
    ∀ (l : List α) (m : α), l.Pairwise R → l.getLast? = some m → ∀ x ∈ l, R x m := by
  intro l m hp hm x hx
  rcases List.eq_nil_or_concat l with e | ⟨l', a, e⟩
  · subst e; simp at hx
  · rw [List.concat_eq_append] at e
    subst e
    rw [List.getLast?_concat] at hm
    have ham : a = m := Option.some.inj hm
    subst ham
    rcases List.mem_append.1 hx with h1 | h1
    · exact (List.pairwise_append.1 hp).2.2 x h1 a (List.mem_singleton_self a)
    · rw [List.mem_singleton.1 h1]; exact hrefl a

/-- C3, counterexample: ids 1 and 2 carry the SCNs 900 and 800; once both are
created, confirmed and removed, `confirmedScn` is 800, the SCN of the message
removed last, and not the greatest SCN removed, 900. -/
theorem confirmedScn_not_max_counterexample :
    ValidTrace sampleConsts (Sys.start memDescending sampleWriter)
        [.create 1, .create 2, .confirm (some 1), .confirm (some 2)] ∧
      ((Sys.start memDescending sampleWriter).run sampleConsts
        [.create 1, .create 2, .confirm (some 1), .confirm (some 2)]).popped = [1, 2] ∧
      ((Sys.start memDescending sampleWriter).run sampleConsts
        [.create 1, .create 2, .confirm (some 1), .confirm (some 2)]).writer.confirmedScn = 800 ∧
      (((Sys.start memDescending sampleWriter).run sampleConsts
        [.create 1, .create 2, .confirm (some 1), .confirm (some 2)]).mem 1).scn = 900 ∧
      ¬ IsMaxPoppedScn ((Sys.start memDescending sampleWriter).run sampleConsts
        [.create 1, .create 2, .confirm (some 1), .confirm (some 2)]) := by
  decide

/-- C3, amended: along any sequence of `createMessage` calls with strictly
increasing ids and `confirmMessage` calls on queued messages in which at least
one message has been removed, `confirmedScn` is the SCN of the message removed
last; when the SCNs of the created messages do not decrease as the ids grow, it
is the greatest SCN over all messages removed so far. -/
theorem confirmedScn_eq_max_popped (k : Consts) (mem : Ptr → BuilderMsg) (w : Writer)
    (ops : List Op) (hv : ValidTrace k (Sys.start mem w) ops)
    (hpop : ((Sys.start mem w).run k ops).popped ≠ []) :
    (∃ m, ((Sys.start mem w).run k ops).popped.getLast? = some m ∧
      ((Sys.start mem w).run k ops).writer.confirmedScn
        = (((Sys.start mem w).run k ops).mem m).scn) ∧
    ((∀ a ∈ ((Sys.start mem w).run k ops).created, ∀ b ∈ ((Sys.start mem w).run k ops).created,
        (((Sys.start mem w).run k ops).mem a).id ≤ (((Sys.start mem w).run k ops).mem b).id →
        (((Sys.start mem w).run k ops).mem a).scn ≤ (((Sys.start mem w).run k ops).mem b).scn) →
      IsMaxPoppedScn ((Sys.start mem w).run k ops)) := by
  have h := (Inv.start k mem w).run _ hv
  obtain ⟨m, hm⟩ : ∃ m, ((Sys.start mem w).run k ops).popped.getLast? = some m := by
    rcases List.eq_nil_or_concat ((Sys.start mem w).run k ops).popped with e | ⟨l, a, e⟩
    · exact absurd e hpop
    · rw [e, List.concat_eq_append, List.getLast?_concat]; exact ⟨a, rfl⟩
  have hscn := h.lastScn m hm
  refine ⟨⟨m, hm, hscn⟩, ?_⟩
  intro hmono
  have hsub : ∀ a ∈ ((Sys.start mem w).run k ops).popped,
      a ∈ ((Sys.start mem w).run k ops).created :=
    fun a ha => h.perm.symm.subset (List.mem_append_left _ ha)
  have hmem : m ∈ ((Sys.start mem w).run k ops).popped := List.mem_of_getLast?_eq_some hm
  refine ⟨⟨m, hmem, hscn.symm⟩, ?_⟩
  intro x hx
  rw [hscn]
  exact hmono x (hsub x hx) m (hsub m hmem)
    (pairwise_le_last
      (R := fun a b => (((Sys.start mem w).run k ops).mem a).id
        ≤ (((Sys.start mem w).run k ops).mem b).id)
      (fun _ => Nat.le_refl _) _ m h.poppedLe hm x hx)

/-- Ids 1, 2, 3 with SCNs 100, 200, 300: after ids 2 and 1 are confirmed,
`confirmedScn` is 200, the greatest SCN removed. -/
theorem confirmedScn_eq_max_popped_witness :
    ValidTrace sampleConsts (Sys.start memAscending sampleWriter)
        [.create 1, .create 2, .create 3, .confirm (some 2), .confirm (some 1)] ∧
      ((Sys.start memAscending sampleWriter).run sampleConsts
        [.create 1, .create 2, .create 3, .confirm (some 2), .confirm (some 1)]).popped ≠ [] ∧
      ((Sys.start memAscending sampleWriter).run sampleConsts
        [.create 1, .create 2, .create 3, .confirm (some 2), .confirm (some 1)]).writer.confirmedScn
        = 200 ∧
      IsMaxPoppedScn ((Sys.start memAscending sampleWriter).run sampleConsts
        [.create 1, .create 2, .create 3, .confirm (some 2), .confirm (some 1)]) :=
  ⟨by decide, by decide, by decide,
    (confirmedScn_eq_max_popped sampleConsts memAscending sampleWriter
      [.create 1, .create 2, .create 3, .confirm (some 2), .confirm (some 1)]
      (by decide) (by decide)).2 (by decide)⟩


/-! ### Confirming a message that is not the head -/

theorem testBit_clearBits (flags mask i : Nat) :
    (clearBits flags mask).testBit i = (flags.testBit i && !mask.testBit i) := by
  unfold clearBits
  rw [Nat.testBit_xor, Nat.testBit_and]
  cases flags.testBit i <;> cases mask.testBit i <;> rfl

/-- When CONFIRMED is a non-empty set of bits disjoint from ALLOCATED, the flags
written by `confirmMessage` carry CONFIRMED. -/
theorem confirmFlags_confirmed {k : Consts} (hc : k.OUTPUT_BUFFER_CONFIRMED ≠ 0)
    (hca : k.OUTPUT_BUFFER_CONFIRMED &&& k.OUTPUT_BUFFER_ALLOCATED = 0) (flags : Nat) :
    confirmFlags k flags &&& k.OUTPUT_BUFFER_CONFIRMED ≠ 0 := by
  obtain ⟨i, hi⟩ := Nat.ne_zero_implies_bit_true hc
  have ha : k.OUTPUT_BUFFER_ALLOCATED.testBit i = false := by
    have := congrArg (fun n => Nat.testBit n i) hca
    simp only [Nat.testBit_and, hi, Bool.true_and, Nat.zero_testBit] at this
    exact this
  intro h0
  have := congrArg (fun n => Nat.testBit n i) h0
  simp only [Nat.testBit_and, hi, Bool.and_true, Nat.zero_testBit] at this
  unfold confirmFlags at this
  simp only at this
  split_ifs at this
  · rw [testBit_clearBits, Nat.testBit_or, hi, ha] at this
    simp at this
  · rw [Nat.testBit_or, hi] at this
    simp at this

theorem popLoop_head_unconfirmed (k : Consts) (mem : Ptr → BuilderMsg) (fuel : Nat) (s : PopState)
    (h : ¬ IsConfirmed k mem (s.queue 0)) : popLoop k mem fuel s = s := by
  cases fuel with
  | zero => rfl
  | succ fuel =>
    rw [popLoop, if_neg]
    exact fun hc => h hc.2


/-- C4: if the queue is non-empty and its head is not CONFIRMED, then
`confirmMessage(m)` for a queued message `m` other than the head removes
nothing: the writer changes in `confirmedMessages` only (so `confirmedScn`,
`currentQueueSize` and the queue are unchanged) and the memory changes in the
flags of `m` only.  Scenario S5, for flag constants where CONFIRMED is a
non-empty set of bits disjoint from ALLOCATED: with ids 1,2,3 and SCNs
100,200,300, confirming id 2 leaves `confirmedScn` unchanged, then confirming
id 1 removes ids 1 and 2 and gives `confirmedScn = 200`, then confirming id 3
gives `confirmedScn = 300` and an empty queue. -/
theorem confirmMessage_not_head (k : Consts) (mem : Ptr → BuilderMsg) (w : Writer) (msg : Ptr)
    (hc : k.OUTPUT_BUFFER_CONFIRMED ≠ 0)
    (hca : k.OUTPUT_BUFFER_CONFIRMED &&& k.OUTPUT_BUFFER_ALLOCATED = 0)
    (_hn : 0 < w.currentQueueSize) (hhead : ¬ IsConfirmed k mem (w.queue 0))
    (_hq : msg ∈ queueList w.queue w.currentQueueSize) (hne : msg ≠ w.queue 0) :
    ((confirmMessage k mem w (some msg)).popped = [] ∧
      (confirmMessage k mem w (some msg)).writer
        = { w with confirmedMessages := w.confirmedMessages + 1 } ∧
      (∀ p, p ≠ msg → (confirmMessage k mem w (some msg)).mem p = mem p) ∧
      (confirmMessage k mem w (some msg)).mem msg
        = { mem msg with flags := confirmFlags k (mem msg).flags }) ∧
    (∀ w0 : Writer,
      ((Sys.start memAscending w0).run k
        [.create 1, .create 2, .create 3, .confirm (some 2)]).writer.confirmedScn
          = w0.confirmedScn ∧
      ((Sys.start memAscending w0).run k
        [.create 1, .create 2, .create 3, .confirm (some 2)]).popped = [] ∧
      ((Sys.start memAscending w0).run k
        [.create 1, .create 2, .create 3, .confirm (some 2), .confirm (some 1)]).popped
          = [1, 2] ∧
      ((Sys.start memAscending w0).run k
        [.create 1, .create 2, .create 3, .confirm (some 2),
          .confirm (some 1)]).writer.confirmedScn = 200 ∧
      ((Sys.start memAscending w0).run k
        [.create 1, .create 2, .create 3, .confirm (some 2), .confirm (some 1),
          .confirm (some 3)]).popped = [1, 2, 3] ∧
      ((Sys.start memAscending w0).run k
        [.create 1, .create 2, .create 3, .confirm (some 2), .confirm (some 1),
          .confirm (some 3)]).writer.confirmedScn = 300 ∧
      ((Sys.start memAscending w0).run k
        [.create 1, .create 2, .create 3, .confirm (some 2), .confirm (some 1),
          .confirm (some 3)]).writer.currentQueueSize = 0) := by
  have hf := confirmFlags_confirmed hc hca
  constructor
  · have hhead' : ¬ IsConfirmed k
        (Function.update mem msg { mem msg with flags := confirmFlags k (mem msg).flags })
        (w.queue 0) := by
      unfold IsConfirmed at hhead ⊢
      rw [Function.update_noteq (Ne.symm hne)]
      exact hhead
    have hloop := popLoop_head_unconfirmed k _ w.currentQueueSize
      { queue := w.queue, currentQueueSize := w.currentQueueSize,
        confirmedScn := w.confirmedScn, maxId := 0, popped := [] } hhead'
    simp only [confirmMessage, confirmMessageAt, hloop, true_and]
    refine ⟨?_, ?_⟩
    · intro p hp
      exact Function.update_noteq hp _ _
    · exact Function.update_same _ _ _
  · intro w0
    simp [Sys.run, Sys.step, Sys.start, createMessage, confirmMessage, confirmMessageAt, popLoop,
      siftDown, siftLoop, Function.update_apply, memAscending, hf]

/-- Ids 1, 2, 3 are queued and none is confirmed: confirming id 2 removes nothing. -/
theorem confirmMessage_not_head_witness :
    (0 < ((Sys.start memAscending sampleWriter).run sampleConsts
        [.create 1, .create 2, .create 3]).writer.currentQueueSize ∧
      (2 : Ptr) ∈ queueList ((Sys.start memAscending sampleWriter).run sampleConsts
        [.create 1, .create 2, .create 3]).writer.queue 3) ∧
      (confirmMessage sampleConsts memAscending
        ((Sys.start memAscending sampleWriter).run sampleConsts
          [.create 1, .create 2, .create 3]).writer (some 2)).popped = [] :=
  ⟨by decide,
    (confirmMessage_not_head sampleConsts memAscending
      ((Sys.start memAscending sampleWriter).run sampleConsts
        [.create 1, .create 2, .create 3]).writer 2
      (by decide) (by decide) (by decide) (by decide) (by decide) (by decide)).1.1⟩


/-! ### Queue size counters -/

theorem popLoop_size_le (k : Consts) (mem : Ptr → BuilderMsg) :
    ∀ (fuel : Nat) (s : PopState),
      (popLoop k mem fuel s).currentQueueSize ≤ s.currentQueueSize := by
  intro fuel
  induction fuel with
  | zero => intro s; exact Nat.le_refl _
  | succ fuel ih =>
    intro s
    rw [popLoop]
    by_cases h1 : s.currentQueueSize > 0 ∧
        (mem (s.queue 0)).flags &&& k.OUTPUT_BUFFER_CONFIRMED ≠ 0
    · rw [if_pos h1]
      simp only
      by_cases h2 : s.currentQueueSize - 1 = 0
      · rw [if_pos h2]
        exact Nat.sub_le _ _
      · rw [if_neg h2]
        exact Nat.le_trans (ih _) (Nat.sub_le _ _)
    · rw [if_neg h1]

theorem confirmMessage_size_le (k : Consts) (mem : Ptr → BuilderMsg) (w : Writer)
    (msg : Option Ptr) :
    (confirmMessage k mem w msg).writer.currentQueueSize ≤ w.currentQueueSize ∧
      (confirmMessage k mem w msg).writer.maxQueueSize = w.maxQueueSize := by
  have hAt : ∀ p, (confirmMessageAt k mem w p).writer.currentQueueSize ≤ w.currentQueueSize ∧
      (confirmMessageAt k mem w p).writer.maxQueueSize = w.maxQueueSize :=
    fun p => ⟨popLoop_size_le k _ _ _, rfl⟩
  cases msg with
  | some p => exact hAt p
  | none =>
    unfold confirmMessage
    simp only
    split_ifs
    · exact ⟨Nat.le_refl _, rfl⟩
    · exact hAt _

theorem createMessage_size_le_max (w : Writer) (msg : Ptr) :
    (createMessage w msg).currentQueueSize ≤ (createMessage w msg).maxQueueSize := by
  simp only [createMessage]
  split_ifs with h
  · exact Nat.le_refl _
  · omega

theorem run_size_le_max (k : Consts) : ∀ (ops : List Op) (s : Sys),
    s.writer.currentQueueSize ≤ s.writer.maxQueueSize →
    (s.run k ops).writer.currentQueueSize ≤ (s.run k ops).writer.maxQueueSize := by
  intro ops
  induction ops with
  | nil => intro s h; exact h
  | cons op ops ih =>
    intro s h
    apply ih (s.step k op)
    cases op with
    | create msg => exact createMessage_size_le_max _ _
    | confirm msg =>
      have := confirmMessage_size_le k s.mem s.writer msg
      simp only [Sys.step]
      omega

/-- C5: `createMessage(msg)` stores `msg` at index `currentQueueSize`, leaves
every earlier slot unchanged, increases `currentQueueSize` and `sentMessages` by
one each and sets `maxQueueSize` to the maximum of its old value and the new
`currentQueueSize`; so `maxQueueSize >= currentQueueSize` holds after
`createMessage`, and after every call of a sequence of `createMessage` and
`confirmMessage` calls made on a writer whose queue was empty. -/
theorem createMessage_effect (k : Consts) (mem : Ptr → BuilderMsg) (w : Writer) (msg : Ptr)
    (ops : List Op) :
    (createMessage w msg).queue w.currentQueueSize = msg ∧
    (∀ i, i < w.currentQueueSize → (createMessage w msg).queue i = w.queue i) ∧
    (createMessage w msg).currentQueueSize = w.currentQueueSize + 1 ∧
    (createMessage w msg).sentMessages = w.sentMessages + 1 ∧
    (createMessage w msg).maxQueueSize = max w.maxQueueSize (w.currentQueueSize + 1) ∧
    (createMessage w msg).currentQueueSize ≤ (createMessage w msg).maxQueueSize ∧
    ((Sys.start mem w).run k ops).writer.currentQueueSize
      ≤ ((Sys.start mem w).run k ops).writer.maxQueueSize := by
  refine ⟨?_, ?_, rfl, rfl, ?_, createMessage_size_le_max w msg, ?_⟩
  · simp [createMessage]
  · intro i hi
    simp only [createMessage]
    exact Function.update_noteq (Nat.ne_of_lt hi) _ _
  · simp only [createMessage]
    split_ifs with h
    · exact (Nat.max_eq_right (Nat.le_of_lt h)).symm
    · exact (Nat.max_eq_left (Nat.le_of_not_lt h)).symm
  · exact run_size_le_max k ops _ (Nat.zero_le _)

/-- On the writer as constructed, `createMessage(7)` fills slot 0 and both sizes
become 1. -/
theorem createMessage_effect_witness :
    (createMessage sampleWriter 7).queue 0 = 7 ∧
      (createMessage sampleWriter 7).currentQueueSize = 1 ∧
      (createMessage sampleWriter 7).maxQueueSize = 1 ∧
      ((Sys.start memAscending sampleWriter).run sampleConsts
          [.create 1, .create 2, .confirm (some 1)]).writer.currentQueueSize
        ≤ ((Sys.start memAscending sampleWriter).run sampleConsts
          [.create 1, .create 2, .confirm (some 1)]).writer.maxQueueSize :=
  ⟨by decide, by decide, by decide,
    (createMessage_effect sampleConsts memAscending sampleWriter 7
      [.create 1, .create 2, .confirm (some 1)]).2.2.2.2.2.2⟩


/-! ### The argument of `releaseBuffers` -/

theorem foldr_max_of_le (c : Nat) : ∀ (l : List Nat), (∀ x ∈ l, x ≤ c) → l.foldr max c = c := by
  intro l
  induction l with
  | nil => intro _; rfl
  | cons a l ih =>
    intro h
    rw [List.foldr_cons, ih fun x hx => h x (List.mem_cons_of_mem _ hx)]
    exact Nat.max_eq_right (h a (List.mem_cons_self _ _))

/-- Along a list on which `g` does not decrease, the last value of `g` is the
greatest. -/
theorem foldl_last_eq_foldr_max {α : Type} (g : α → Nat) (l : List α)
    (h : l.Pairwise fun a b => g a ≤ g b) :
    l.foldl (fun _ x => g x) 0 = (l.map g).foldr max 0 := by
  rcases List.eq_nil_or_concat l with e | ⟨l', a, e⟩
  · subst e; rfl
  · rw [List.concat_eq_append] at e
    subst e
    rw [foldl_last_eq g _ 0 a (List.getLast?_concat _), List.map_append, List.foldr_append]
    have : List.foldr max 0 (List.map g [a]) = g a := by simp
    rw [this]
    symm
    apply foldr_max_of_le
    intro x hx
    obtain ⟨y, hy, rfl⟩ := List.mem_map.1 hx
    exact (List.pairwise_append.1 h).2.2 y hy a (List.mem_singleton_self a)

/-- C6, counterexample: the queue holds ids 1 and 2 with queueIds 9 and 8, both
CONFIRMED once id 1 is confirmed; the call removes both and passes 8, the
queueId of the message removed last, while the greatest queueId removed is 9. -/
theorem releaseBuffers_not_max_counterexample :
    IsMinHeap
        ((Sys.start memDescending sampleWriter).run sampleConsts
          [.create 1, .create 2, .confirm (some 2)]).mem
        ((Sys.start memDescending sampleWriter).run sampleConsts
          [.create 1, .create 2, .confirm (some 2)]).writer.queue
        ((Sys.start memDescending sampleWriter).run sampleConsts
          [.create 1, .create 2, .confirm (some 2)]).writer.currentQueueSize ∧
      (confirmMessage sampleConsts
        ((Sys.start memDescending sampleWriter).run sampleConsts
          [.create 1, .create 2, .confirm (some 2)]).mem
        ((Sys.start memDescending sampleWriter).run sampleConsts
          [.create 1, .create 2, .confirm (some 2)]).writer (some 1)).popped = [1, 2] ∧
      (confirmMessage sampleConsts
        ((Sys.start memDescending sampleWriter).run sampleConsts
          [.create 1, .create 2, .confirm (some 2)]).mem
        ((Sys.start memDescending sampleWriter).run sampleConsts
          [.create 1, .create 2, .confirm (some 2)]).writer (some 1)).released = some 8 ∧
      maxQueueId memDescending [1, 2] = 9 := by
  decide

/-- C6, amended: for every queue that satisfies the min-heap property on id,
`confirmMessage` passes to `builder.releaseBuffers` the queueId of the message
it removed last, `0` when it removed none; when the queueIds of the queued
messages do not decrease as their ids grow, that is the greatest queueId among
the messages removed during the call.  (With `nullptr` on an empty queue
`releaseBuffers` is not called.) -/
theorem releaseBuffers_max_queueId (k : Consts) (mem : Ptr → BuilderMsg) (w : Writer)
    (msg : Option Ptr) (hheap : IsMinHeap mem w.queue w.currentQueueSize) :
    (confirmMessage k mem w msg).released
        = (if msg = none ∧ w.currentQueueSize = 0 then none
           else some ((confirmMessage k mem w msg).popped.foldl
              (fun _ m => (mem m).queueId) 0)) ∧
    ((∀ a ∈ queueList w.queue w.currentQueueSize, ∀ b ∈ queueList w.queue w.currentQueueSize,
        (mem a).id ≤ (mem b).id → (mem a).queueId ≤ (mem b).queueId) →
      (confirmMessage k mem w msg).released
        = (if msg = none ∧ w.currentQueueSize = 0 then none
           else some (maxQueueId mem (confirmMessage k mem w msg).popped))) := by
  have hAt : ∀ p,
      (confirmMessageAt k mem w p).released
          = some ((confirmMessageAt k mem w p).popped.foldl (fun _ m => (mem m).queueId) 0) ∧
      ((∀ a ∈ queueList w.queue w.currentQueueSize, ∀ b ∈ queueList w.queue w.currentQueueSize,
          (mem a).id ≤ (mem b).id → (mem a).queueId ≤ (mem b).queueId) →
        (confirmMessageAt k mem w p).released
          = some (maxQueueId mem (confirmMessageAt k mem w p).popped)) := by
    intro p
    obtain ⟨maxId, hrel, hps⟩ := confirmMessageAt_spec k mem w p hheap
    have hmax : maxId
        = (confirmMessageAt k mem w p).popped.foldl (fun _ m => (mem m).queueId) 0 := by
      have := hps.maxId_eq
      simp only at this
      rw [this]
      congr 1
      funext _ m
      exact confirm_mem_queueId k mem p m
    refine ⟨by rw [hrel, hmax], ?_⟩
    intro hmono
    rw [hrel, hmax]
    congr 1
    apply foldl_last_eq_foldr_max
    have hsorted := hps.sorted
    refine List.Pairwise.imp_of_mem ?_ hsorted
    intro a b ha hb hab
    have hsub : ∀ x ∈ (confirmMessageAt k mem w p).popped,
        x ∈ queueList w.queue w.currentQueueSize :=
      fun x hx => hps.perm.symm.subset (List.mem_append_left _ hx)
    have e : ∀ q, ((confirmMessageAt k mem w p).mem q).id = (mem q).id := confirm_mem_id k mem p
    rw [e, e] at hab
    exact hmono a (hsub a ha) b (hsub b hb) hab
  cases msg with
  | some p => simpa using hAt p
  | none =>
    by_cases h0 : w.currentQueueSize = 0
    · simp [confirmMessage, h0]
    · simpa [confirmMessage, h0] using hAt (w.queue 0)

/-- Ids 1, 2 with queueIds 1, 2 are queued: confirming id 1 passes the greatest
queueId removed. -/
theorem releaseBuffers_max_queueId_witness :
    IsMinHeap memAscending
        ((Sys.start memAscending sampleWriter).run sampleConsts
          [.create 1, .create 2, .confirm (some 2)]).writer.queue
        ((Sys.start memAscending sampleWriter).run sampleConsts
          [.create 1, .create 2, .confirm (some 2)]).writer.currentQueueSize ∧
      (confirmMessage sampleConsts memAscending
        ((Sys.start memAscending sampleWriter).run sampleConsts
          [.create 1, .create 2, .confirm (some 2)]).writer (some 1)).released
        = (if (some 1 : Option Ptr) = none ∧
              ((Sys.start memAscending sampleWriter).run sampleConsts
                [.create 1, .create 2, .confirm (some 2)]).writer.currentQueueSize = 0 then none
           else some (maxQueueId memAscending (confirmMessage sampleConsts memAscending
              ((Sys.start memAscending sampleWriter).run sampleConsts
                [.create 1, .create 2, .confirm (some 2)]).writer (some 1)).popped)) :=
  ⟨by decide,
    (releaseBuffers_max_queueId sampleConsts memAscending
      ((Sys.start memAscending sampleWriter).run sampleConsts
        [.create 1, .create 2, .confirm (some 2)]).writer (some 1) (by decide)).2 (by decide)⟩


/-! ### `sortQueue` -/

theorem siftDown_zero (mem : Ptr → BuilderMsg) (queue : Nat → Ptr) :
    siftDown mem 0 queue = queue := by
  unfold siftDown
  simp [siftLoop]

/-- The statement of `siftDown_perm` for every size. -/
theorem siftDown_perm_all (mem : Ptr → BuilderMsg) (queue : Nat → Ptr) (size : Nat) :
    (queue 0 :: queueList (siftDown mem size queue) size).Perm (queueList queue (size + 1)) := by
  rcases Nat.eq_zero_or_pos size with h | h
  · subst h
    simp [queueList, List.range_succ]
  · exact siftDown_perm mem queue h

theorem siftDown_heap_all {mem : Ptr → BuilderMsg} {queue : Nat → Ptr} {size : Nat}
    (h : IsMinHeap mem queue size) : IsMinHeap mem (siftDown mem size queue) size := by
  rcases Nat.eq_zero_or_pos size with h0 | h0
  · subst h0
    intro i hi
    exact absurd hi (Nat.not_lt_zero _)
  · exact siftDown_heap h0 h

theorem queueSegment_succ (queue : Nat → Ptr) (start n : Nat) :
    queueSegment queue start (n + 1) = queue start :: queueSegment queue (start + 1) n := by
  simp [queueSegment, List.range_succ_eq_map, List.map_map, Function.comp_def, Nat.add_assoc,
    Nat.add_comm 1]

theorem queueSegment_zero_start (queue : Nat → Ptr) (n : Nat) :
    queueSegment queue 0 n = queueList queue n := by
  simp [queueSegment, queueList]

/-- The loop of `sortQueue` leaves the slots below `newId` of the new array as
they were and fills the next `oldQueueSize` slots with the content of
`oldQueue`, in some order. -/
theorem sortLoop_perm (mem : Ptr → BuilderMsg) :
    ∀ (n newId : Nat) (oldQueue queue : Nat → Ptr),
      (∀ i, i < newId → (sortLoop mem n newId oldQueue queue).2 i = queue i) ∧
      (queueSegment (sortLoop mem n newId oldQueue queue).2 newId n).Perm
        (queueList oldQueue n) := by
  intro n
  induction n with
  | zero =>
    intro newId oldQueue queue
    exact ⟨fun _ _ => rfl, by simp [queueSegment, queueList]⟩
  | succ n ih =>
    intro newId oldQueue queue
    obtain ⟨h1, h2⟩ := ih (newId + 1) (siftDown mem n oldQueue)
      (Function.update queue newId (oldQueue 0))
    rw [sortLoop]
    refine ⟨?_, ?_⟩
    · intro i hi
      rw [h1 i (by omega)]
      exact Function.update_noteq (Nat.ne_of_lt hi) _ _
    · rw [queueSegment_succ, h1 newId (by omega), Function.update_same]
      exact (List.Perm.cons _ h2).trans (siftDown_perm_all mem oldQueue n)

/-- On a heap the loop of `sortQueue` fills the new array in ascending order of
id. -/
theorem sortLoop_sorted (mem : Ptr → BuilderMsg) :
    ∀ (n newId : Nat) (oldQueue queue : Nat → Ptr), IsMinHeap mem oldQueue n →
      (queueSegment (sortLoop mem n newId oldQueue queue).2 newId n).Pairwise
        fun a b => (mem a).id ≤ (mem b).id := by
  intro n
  induction n with
  | zero =>
    intro newId oldQueue queue _
    simp [queueSegment]
  | succ n ih =>
    intro newId oldQueue queue hheap
    have hperm := (sortLoop_perm mem (n + 1) newId oldQueue queue).2
    have hfix := (sortLoop_perm mem n (newId + 1) (siftDown mem n oldQueue)
      (Function.update queue newId (oldQueue 0))).1 newId (by omega)
    have hrest := ih (newId + 1) (siftDown mem n oldQueue)
      (Function.update queue newId (oldQueue 0)) (siftDown_heap_all (hheap.mono (by omega)))
    rw [queueSegment_succ] at hperm ⊢
    rw [sortLoop] at hperm ⊢
    rw [hfix, Function.update_same] at hperm ⊢
    refine List.Pairwise.cons ?_ hrest
    intro x hx
    exact queueList_head_le hheap (hperm.subset (List.mem_cons_of_mem _ hx))

/-- A queue in ascending order of id is a heap. -/
theorem IsMinHeap.of_sorted {mem : Ptr → BuilderMsg} {queue : Nat → Ptr} {n : Nat}
    (h : (queueList queue n).Pairwise fun a b => (mem a).id ≤ (mem b).id) :
    IsMinHeap mem queue n := by
  have key : ∀ i j, i < j → j < n → slotId mem queue i ≤ slotId mem queue j := by
    intro i j hij hj
    have := List.pairwise_iff_getElem.1 h i j (by simp [queueList]; omega)
      (by simp [queueList]; omega) hij
    simpa [queueList, slotId] using this
  intro i _
  exact ⟨fun h1 => key _ _ (by omega) h1, fun h2 => key _ _ (by omega) h2⟩

/-- C7, counterexample: on the queue holding ids 3, 1, 2 in that order, which is
not a heap, `sortQueue` returns the queue 3, 1, 2, which is not a heap. -/
theorem sortQueue_not_heap_counterexample :
    queueList (sortQueue (fun _ => 0) memAscending
        { sampleWriter with currentQueueSize := 3, queue := queueUnordered }).queue 3 = [3, 1, 2] ∧
      ¬ IsMinHeap memAscending
        (sortQueue (fun _ => 0) memAscending
          { sampleWriter with currentQueueSize := 3, queue := queueUnordered }).queue
        (sortQueue (fun _ => 0) memAscending
          { sampleWriter with currentQueueSize := 3, queue := queueUnordered }).currentQueueSize := by
  decide

/-- C7, amended: `sortQueue` takes a heap apart: for every content of
`queue[0..currentQueueSize)` that satisfies the min-heap property on id, after
`sortQueue` the queue, of unchanged size, satisfies the min-heap property on
id. -/
theorem sortQueue_heap (fresh : Nat → Ptr) (mem : Ptr → BuilderMsg) (w : Writer)
    (hheap : IsMinHeap mem w.queue w.currentQueueSize) :
    (sortQueue fresh mem w).currentQueueSize = w.currentQueueSize ∧
      IsMinHeap mem (sortQueue fresh mem w).queue (sortQueue fresh mem w).currentQueueSize := by
  unfold sortQueue
  split_ifs with h0
  · exact ⟨rfl, hheap⟩
  · refine ⟨rfl, IsMinHeap.of_sorted ?_⟩
    have := sortLoop_sorted mem w.currentQueueSize 0 w.queue fresh hheap
    rw [queueSegment_zero_start] at this
    exact this

/-- The heap 1, 3, 2, 7, 4, 5 is sorted into 1, 2, 3, 4, 5, 7, which is a heap. -/
theorem sortQueue_heap_witness :
    IsMinHeap memAscending (fun i => [1, 3, 2, 7, 4, 5].getD i 0) 6 ∧
      queueList (sortQueue (fun _ => 0) memAscending
        { sampleWriter with currentQueueSize := 6,
                            queue := fun i => [1, 3, 2, 7, 4, 5].getD i 0 }).queue 6
        = [1, 2, 3, 4, 5, 7] ∧
      IsMinHeap memAscending
        (sortQueue (fun _ => 0) memAscending
          { sampleWriter with currentQueueSize := 6,
                              queue := fun i => [1, 3, 2, 7, 4, 5].getD i 0 }).queue
        (sortQueue (fun _ => 0) memAscending
          { sampleWriter with currentQueueSize := 6,
                              queue := fun i => [1, 3, 2, 7, 4, 5].getD i 0 }).currentQueueSize :=
  ⟨by decide, by decide,
    (sortQueue_heap (fun _ => 0) memAscending
      { sampleWriter with currentQueueSize := 6,
                          queue := fun i => [1, 3, 2, 7, 4, 5].getD i 0 } (by decide)).2⟩


/-! ### `writeCheckpoint` -/

/-- C8: with `now >= checkpointTime` (both `time_t` values),
`writeCheckpoint(force)` calls `metadata.stateWrite` if and only if
`confirmedScn != checkpointScn`, `confirmedScn != ZERO_SCN` and (`force` or
`now - checkpointTime >= checkpointIntervalS`); it writes nothing and leaves the
writer, so `checkpointScn` and `checkpointTime`, unchanged when
`confirmedScn == checkpointScn`, and when `confirmedScn == ZERO_SCN`, whatever
`force` is. -/
theorem writeCheckpoint_writes_iff (k : Consts) (ctx : Ctx) (metadata : Metadata)
    (stateWrite : String → String → Bool) (now : Int) (w : Writer) (force : Bool)
    (hnow : IsTimeT now) (hcp : IsTimeT w.checkpointTime) (hle : w.checkpointTime ≤ now) :
    ((writeCheckpoint k ctx metadata stateWrite now w force).written.isSome = true ↔
      w.confirmedScn ≠ w.checkpointScn ∧ w.confirmedScn ≠ k.ZERO_SCN ∧
        (force = true ∨ (ctx.checkpointIntervalS : Int) ≤ now - w.checkpointTime)) ∧
    (w.confirmedScn = w.checkpointScn →
      (writeCheckpoint k ctx metadata stateWrite now w force).written = none ∧
      (writeCheckpoint k ctx metadata stateWrite now w force).writer = w) ∧
    (w.confirmedScn = k.ZERO_SCN →
      (writeCheckpoint k ctx metadata stateWrite now w force).written = none ∧
      (writeCheckpoint k ctx metadata stateWrite now w force).writer = w) := by
  have hmod : ((now - w.checkpointTime) % 2 ^ 64).toNat = (now - w.checkpointTime).toNat := by
    rw [Int.emod_eq_of_lt (by omega)]
    unfold IsTimeT at hnow hcp
    omega
  have hlt : ((now - w.checkpointTime) % 2 ^ 64).toNat < ctx.checkpointIntervalS ↔
      ¬ (ctx.checkpointIntervalS : Int) ≤ now - w.checkpointTime := by
    rw [hmod]; omega
  refine ⟨?_, ?_, ?_⟩
  · unfold writeCheckpoint
    by_cases h1 : w.checkpointScn = w.confirmedScn ∨ w.confirmedScn = k.ZERO_SCN
    · rw [if_pos h1]
      simp only [Option.isSome_none, Bool.false_eq_true, false_iff]
      rintro ⟨h2, h3, -⟩
      rcases h1 with h1 | h1
      · exact h2 h1.symm
      · exact h3 h1
    · rw [if_neg h1]
      simp only
      have h2 : w.confirmedScn ≠ w.checkpointScn := fun e => h1 (Or.inl e.symm)
      have h3 : w.confirmedScn ≠ k.ZERO_SCN := fun e => h1 (Or.inr e)
      by_cases h4 : ((now - w.checkpointTime) % 2 ^ 64).toNat < ctx.checkpointIntervalS ∧
          force = false
      · rw [if_pos h4]
        simp only [Option.isSome_none, Bool.false_eq_true, false_iff]
        rintro ⟨-, -, h5 | h5⟩
        · rw [h4.2] at h5; exact Bool.noConfusion h5
        · exact (hlt.1 h4.1) h5
      · rw [if_neg h4]
        have : force = true ∨ (ctx.checkpointIntervalS : Int) ≤ now - w.checkpointTime := by
          by_cases hf : force = true
          · exact Or.inl hf
          · right
            by_contra hcon
            exact h4 ⟨hlt.2 hcon, by simpa using hf⟩
        split_ifs <;> simp [h2, h3, this]
  · intro h
    unfold writeCheckpoint
    rw [if_pos (Or.inl h.symm)]
    exact ⟨rfl, rfl⟩
  · intro h
    unfold writeCheckpoint
    rw [if_pos (Or.inr h)]
    exact ⟨rfl, rfl⟩

/-- Checkpoint at SCN 100 and time 0, confirmed SCN 12345, interval 10, time 30,
not forced. -/
theorem writeCheckpoint_writes_iff_witness :
    (IsTimeT 30 ∧ IsTimeT sampleWriterConfirmed.checkpointTime ∧
        sampleWriterConfirmed.checkpointTime ≤ 30) ∧
      ((writeCheckpoint sampleConsts ⟨100, 10⟩ sampleMetadata (fun _ _ => true) 30
          sampleWriterConfirmed false).written.isSome = true ↔
        sampleWriterConfirmed.confirmedScn ≠ sampleWriterConfirmed.checkpointScn ∧
          sampleWriterConfirmed.confirmedScn ≠ sampleConsts.ZERO_SCN ∧
          (false = true ∨ ((10 : Nat) : Int) ≤ 30 - sampleWriterConfirmed.checkpointTime)) :=
  ⟨by decide,
    (writeCheckpoint_writes_iff sampleConsts ⟨100, 10⟩ sampleMetadata (fun _ _ => true) 30
      sampleWriterConfirmed false (by decide) (by decide) (by decide)).1⟩


/-- C9: when `writeCheckpoint` writes, the state key is `database` followed by
`-chkpt` and the content is exactly
`{"database":"<database>","scn":<confirmedScn>,"resetlogs":<resetlogs>,"activation":<activation>}`
with the three numbers as decimal numerals and no whitespace added;
`checkpointScn` becomes `confirmedScn` and `checkpointTime` becomes `now` if
`stateWrite` returns true, and the writer stays unchanged if it returns false. -/
theorem writeCheckpoint_content (k : Consts) (ctx : Ctx) (metadata : Metadata)
    (stateWrite : String → String → Bool) (now : Int) (w : Writer) (force : Bool)
    (name content : String)
    (hw : (writeCheckpoint k ctx metadata stateWrite now w force).written = some (name, content)) :
    name = w.database ++ "-chkpt" ∧
    content = "\x7b\"database\":\"" ++ w.database ++ "\",\"scn\":" ++ Nat.repr w.confirmedScn
      ++ ",\"resetlogs\":" ++ Nat.repr metadata.resetlogs
      ++ ",\"activation\":" ++ Nat.repr metadata.activation ++ "\x7d" ∧
    (stateWrite name content = true →
      (writeCheckpoint k ctx metadata stateWrite now w force).writer
        = { w with checkpointScn := w.confirmedScn, checkpointTime := now }) ∧
    (stateWrite name content = false →
      (writeCheckpoint k ctx metadata stateWrite now w force).writer = w) := by
  unfold writeCheckpoint at hw ⊢
  by_cases h1 : w.checkpointScn = w.confirmedScn ∨ w.confirmedScn = k.ZERO_SCN
  · rw [if_pos h1] at hw
    exact absurd hw (by simp)
  · rw [if_neg h1] at hw ⊢
    simp only at hw ⊢
    by_cases h2 : ((now - w.checkpointTime) % 2 ^ 64).toNat < ctx.checkpointIntervalS ∧
        force = false
    · rw [if_pos h2] at hw
      exact absurd hw (by simp)
    · rw [if_neg h2] at hw ⊢
      by_cases h3 : stateWrite (checkpointName w.database)
          (checkpointText w.database w.confirmedScn metadata.resetlogs metadata.activation) = true
      · rw [if_pos h3] at hw ⊢
        simp only [Option.some.injEq, Prod.mk.injEq] at hw
        obtain ⟨rfl, rfl⟩ := hw
        exact ⟨rfl, rfl, fun _ => rfl, fun h => by rw [h3] at h; exact Bool.noConfusion h⟩
      · rw [if_neg h3] at hw ⊢
        simp only [Option.some.injEq, Prod.mk.injEq] at hw
        obtain ⟨rfl, rfl⟩ := hw
        exact ⟨rfl, rfl, fun h => absurd h h3, fun _ => rfl⟩

/-- Database `DB`, confirmed SCN 12345, resetlogs 7, activation 9: the text
written, and the checkpoint SCN and time afterwards. -/
theorem writeCheckpoint_content_witness :
    (writeCheckpoint sampleConsts ⟨100, 10⟩ sampleMetadata (fun _ _ => true) 30
        sampleWriterConfirmed false).written
      = some ("DB-chkpt",
          "\x7b\"database\":\"DB\",\"scn\":12345,\"resetlogs\":7,\"activation\":9\x7d") ∧
    (writeCheckpoint sampleConsts ⟨100, 10⟩ sampleMetadata (fun _ _ => true) 30
        sampleWriterConfirmed false).writer.checkpointScn = 12345 ∧
    (writeCheckpoint sampleConsts ⟨100, 10⟩ sampleMetadata (fun _ _ => true) 30
        sampleWriterConfirmed false).writer.checkpointTime = 30 :=
  have hw : (writeCheckpoint sampleConsts ⟨100, 10⟩ sampleMetadata (fun _ _ => true) 30
        sampleWriterConfirmed false).written
      = some ("DB-chkpt",
          "\x7b\"database\":\"DB\",\"scn\":12345,\"resetlogs\":7,\"activation\":9\x7d") := by
    decide
  have h := (writeCheckpoint_content sampleConsts ⟨100, 10⟩ sampleMetadata (fun _ _ => true) 30
      sampleWriterConfirmed false _ _ hw).2.2.1 rfl
  ⟨hw, by rw [h]; rfl, by rw [h]⟩


/-! ### Decimal numerals -/

theorem digitChar_spec (d : Nat) (h : d < 10) :
    (Nat.digitChar d).isDigit = true ∧ (Nat.digitChar d).toNat - 48 = d ∧
      (Nat.digitChar d = '0' → d = 0) := by
  interval_cases d <;> decide

theorem digitsValue_append (ds : List Char) (c : Char) :
    digitsValue (ds ++ [c]) = digitsValue ds * 10 + (c.toNat - 48) := by
  simp [digitsValue, List.foldl_append]

/-- The digits produced by `Nat.toDigitsCore` with enough fuel are the decimal
numeral of the number, put in front of the digits already there. -/
theorem toDigitsCore_numeral : ∀ (fuel n : Nat) (ds : List Char), n < fuel →
    ∃ L, Nat.toDigitsCore 10 fuel n ds = L ++ ds ∧ IsNumeral L n := by
  intro fuel
  induction fuel with
  | zero => intro n ds h; omega
  | succ fuel ih =>
    intro n ds h
    obtain ⟨hd1, hd2, hd3⟩ := digitChar_spec (n % 10) (Nat.mod_lt _ (by omega))
    rw [Nat.toDigitsCore]
    by_cases h0 : n / 10 = 0
    · rw [if_pos h0]
      refine ⟨[Nat.digitChar (n % 10)], rfl, by simp, ?_, ?_, ?_⟩
      · intro c hc
        rw [List.mem_singleton.1 hc]; exact hd1
      · simp only [digitsValue, List.foldl_cons, List.foldl_nil]
        omega
      · intro hh
        simp only [List.head?_cons, Option.some.injEq] at hh
        rw [hh]
    · rw [if_neg h0]
      obtain ⟨L, hL, hne, hdig, hval, hzero⟩ :=
        ih (n / 10) (Nat.digitChar (n % 10) :: ds) (by omega)
      refine ⟨L ++ [Nat.digitChar (n % 10)], by rw [hL]; simp, by simp, ?_, ?_, ?_⟩
      · intro c hc
        rcases List.mem_append.1 hc with hc | hc
        · exact hdig c hc
        · rw [List.mem_singleton.1 hc]; exact hd1
      · rw [digitsValue_append, hval, hd2]
        omega
      · intro hh
        exfalso
        cases L with
        | nil => exact hne rfl
        | cons a L' =>
          simp only [List.cons_append, List.head?_cons, Option.some.injEq] at hh
          have := hzero (by simp [hh])
          rw [this] at hval
          simp [digitsValue] at hval
          omega

theorem repr_numeral (n : Nat) : IsNumeral (Nat.repr n).toList n := by
  obtain ⟨L, hL, h⟩ := toDigitsCore_numeral (n + 1) n [] (Nat.lt_succ_self n)
  have : (Nat.repr n).toList = L := by
    simp [Nat.repr, Nat.toDigits, hL, List.asString]
  rw [this]
  exact h


/-! ### Reading back the checkpoint text -/

theorem foldl_inString (ms : JsonObject) (name : List Char) :
    ∀ (s acc : List Char), (∀ c ∈ s, c ≠ '"' ∧ c ≠ '\\' ∧ 0x20 ≤ c.toNat) →
      s.foldl jsonStep (.inString ms name acc) = .inString ms name (acc ++ s) := by
  intro s
  induction s with
  | nil => intro acc _; simp
  | cons c s ih =>
    intro acc h
    obtain ⟨h1, h2, h3⟩ := h c (List.mem_cons_self _ _)
    have hstep : jsonStep (.inString ms name acc) c = .inString ms name (acc ++ [c]) := by
      have h4 : ¬ (c = '\\' ∨ c.toNat < 0x20) := by
        rintro (e | e)
        · exact h2 e
        · omega
      simp only [jsonStep]
      rw [if_neg h1, if_neg h4]
    rw [List.foldl_cons, hstep, ih _ fun d hd => h d (List.mem_cons_of_mem _ hd)]
    simp

theorem isDigit_not_special {c : Char} (h : c.isDigit = true) :
    isJsonSpace c = false ∧ c ≠ '"' := by
  refine ⟨?_, ?_⟩
  · by_contra hs
    have hs' : isJsonSpace c = true := by simpa using hs
    simp only [isJsonSpace, Bool.or_eq_true, decide_eq_true_eq] at hs'
    rcases hs' with ((e | e) | e) | e <;> (subst e; exact absurd h (by decide))
  · intro e; subst e; exact absurd h (by decide)

theorem foldl_inNumber (ms : JsonObject) (name : List Char) :
    ∀ (L acc : List Char), (∀ c ∈ L, c.isDigit = true) → acc ≠ [] → acc.head? ≠ some '0' →
      L.foldl jsonStep (.inNumber ms name acc) = .inNumber ms name (acc ++ L) := by
  intro L
  induction L with
  | nil => intro acc _ _ _; simp
  | cons c L ih =>
    intro acc h hne hhead
    have hc := h c (List.mem_cons_self _ _)
    have hacc : acc ≠ ['0'] := fun e => hhead (by rw [e]; rfl)
    have hstep : jsonStep (.inNumber ms name acc) c = .inNumber ms name (acc ++ [c]) := by
      simp only [jsonStep]
      rw [if_pos hc, if_neg hacc]
    rw [List.foldl_cons, hstep, ih (acc ++ [c]) (fun d hd => h d (List.mem_cons_of_mem _ hd))
      (by simp)]
    · simp
    · cases acc with
      | nil => exact absurd rfl hne
      | cons a acc' => simpa using hhead

/-- A decimal numeral in value position is read as a number, digit by digit. -/
theorem foldl_value_numeral (ms : JsonObject) (name : List Char) {L : List Char} {n : Nat}
    (h : IsNumeral L n) : L.foldl jsonStep (.value ms name) = .inNumber ms name L := by
  obtain ⟨hne, hdig, -, hzero⟩ := h
  cases L with
  | nil => exact absurd rfl hne
  | cons d L' =>
    have hd := hdig d (List.mem_cons_self _ _)
    obtain ⟨hs, hq⟩ := isDigit_not_special hd
    have hstep : jsonStep (.value ms name) d = .inNumber ms name [d] := by
      simp only [jsonStep]
      rw [hs]
      simp only [Bool.false_eq_true, if_false]
      rw [if_neg hq, if_pos hd]
    rw [List.foldl_cons, hstep]
    by_cases h0 : d = '0'
    · have := hzero (by rw [h0]; rfl)
      simp only [List.cons.injEq, true_and] at this
      · rw [this.2]; rfl
    · rw [foldl_inNumber ms name L' [d] (fun c hc => hdig c (List.mem_cons_of_mem _ hc))
        (by simp) (by simpa using h0)]
      rfl

/-- The text written by `writeCheckpoint` for a database name of plain
characters parses to the object with the four members written. -/
theorem parseDocument_checkpointText (database : String) (scn resetlogs activation : Nat)
    (hplain : IsPlainText database) :
    parseDocument (checkpointText database scn resetlogs activation)
      = some [("database", JsonValue.str database), ("scn", JsonValue.num scn),
              ("resetlogs", JsonValue.num resetlogs), ("activation", JsonValue.num activation)] := by
  have hs := repr_numeral scn
  have hr := repr_numeral resetlogs
  have ha := repr_numeral activation
  have e : (checkpointText database scn resetlogs activation).toList
      = "\x7b\"database\":\"".toList ++ (database.toList ++ ("\",\"scn\":".toList
        ++ ((Nat.repr scn).toList ++ (",\"resetlogs\":".toList ++ ((Nat.repr resetlogs).toList
        ++ (",\"activation\":".toList ++ ((Nat.repr activation).toList
        ++ "\x7d".toList))))))) := by
    simp [checkpointText, String.toList, String.data_append]
    rfl
  unfold parseDocument
  rw [e]
  simp only [List.foldl_append]
  have h1 : "\x7b\"database\":\"".toList.foldl jsonStep .start
      = .inString [] "database".toList [] := by rfl
  rw [h1, foldl_inString [] _ database.toList [] hplain]
  have h2 : "\",\"scn\":".toList.foldl jsonStep
        (.inString [] "database".toList ([] ++ database.toList))
      = .value [("database", JsonValue.str database)] "scn".toList := by rfl
  rw [h2, foldl_value_numeral _ _ hs]
  have h3 : ",\"resetlogs\":".toList.foldl jsonStep
        (.inNumber [("database", JsonValue.str database)] "scn".toList (Nat.repr scn).toList)
      = .value [("database", JsonValue.str database),
          ("scn", JsonValue.num (digitsValue (Nat.repr scn).toList))] "resetlogs".toList := by rfl
  rw [h3, foldl_value_numeral _ _ hr]
  have h4 : ",\"activation\":".toList.foldl jsonStep
        (.inNumber [("database", JsonValue.str database),
          ("scn", JsonValue.num (digitsValue (Nat.repr scn).toList))] "resetlogs".toList
          (Nat.repr resetlogs).toList)
      = .value [("database", JsonValue.str database),
          ("scn", JsonValue.num (digitsValue (Nat.repr scn).toList)),
          ("resetlogs", JsonValue.num (digitsValue (Nat.repr resetlogs).toList))]
          "activation".toList := by rfl
  rw [h4, foldl_value_numeral _ _ ha]
  have h5 : "\x7d".toList.foldl jsonStep
        (.inNumber [("database", JsonValue.str database),
          ("scn", JsonValue.num (digitsValue (Nat.repr scn).toList)),
          ("resetlogs", JsonValue.num (digitsValue (Nat.repr resetlogs).toList))]
          "activation".toList (Nat.repr activation).toList)
      = .closed [("database", JsonValue.str database),
          ("scn", JsonValue.num (digitsValue (Nat.repr scn).toList)),
          ("resetlogs", JsonValue.num (digitsValue (Nat.repr resetlogs).toList)),
          ("activation", JsonValue.num (digitsValue (Nat.repr activation).toList))] := by rfl
  rw [h5, hs.2.2.1, hr.2.2.1, ha.2.2.1]


theorem writeCheckpoint_written {k : Consts} {ctx : Ctx} {metadata : Metadata}
    {stateWrite : String → String → Bool} {now : Int} {w : Writer} {force : Bool}
    {name content : String}
    (hw : (writeCheckpoint k ctx metadata stateWrite now w force).written = some (name, content)) :
    name = checkpointName w.database ∧
      content = checkpointText w.database w.confirmedScn metadata.resetlogs metadata.activation := by
  unfold writeCheckpoint at hw
  by_cases h1 : w.checkpointScn = w.confirmedScn ∨ w.confirmedScn = k.ZERO_SCN
  · rw [if_pos h1] at hw
    exact absurd hw (by simp)
  · rw [if_neg h1] at hw
    simp only at hw
    by_cases h2 : ((now - w.checkpointTime) % 2 ^ 64).toNat < ctx.checkpointIntervalS ∧
        force = false
    · rw [if_pos h2] at hw
      exact absurd hw (by simp)
    · rw [if_neg h2] at hw
      by_cases h3 : stateWrite (checkpointName w.database)
          (checkpointText w.database w.confirmedScn metadata.resetlogs metadata.activation) = true
      · rw [if_pos h3] at hw
        simp only [Option.some.injEq, Prod.mk.injEq] at hw
        exact ⟨hw.1.symm, hw.2.symm⟩
      · rw [if_neg h3] at hw
        simp only [Option.some.injEq, Prod.mk.injEq] at hw
        exact ⟨hw.1.symm, hw.2.symm⟩

theorem checkpointText_length_pos (database : String) (scn resetlogs activation : Nat) :
    (checkpointText database scn resetlogs activation).length ≠ 0 := by
  simp only [checkpointText, String.length_append]
  have : "\x7d".length = 1 := by decide
  omega

/-- C10, counterexample: for the database name made of one quote character,
`writeCheckpoint` writes `{"database":""","scn":12345,"resetlogs":7,"activation":9}`,
which is not a JSON text, and `readCheckpoint`, run by the same writer on the
stored content, raises the parse error of Writer.cpp 354. -/
theorem checkpoint_round_trip_counterexample :
    (writeCheckpoint sampleConsts ⟨100, 10⟩ sampleMetadata (fun _ _ => true) 30
        sampleWriterQuote false).written
      = some ("\"-chkpt",
          "\x7b\"database\":\"\"\",\"scn\":12345,\"resetlogs\":7,\"activation\":9\x7d") ∧
    readCheckpoint sampleConsts
        (fun name _ => if name = "\"-chkpt" then
          some "\x7b\"database\":\"\"\",\"scn\":12345,\"resetlogs\":7,\"activation\":9\x7d"
          else none)
        sampleWriterQuote sampleMetadata
      = .error CheckpointError.parseError := by
  decide

/-- C10, amended: for every database name made of characters other than the
quote, the backslash and the control characters, of at most
`JSON_PARAMETER_LENGTH` bytes, every `confirmedScn` `s` (a 64-bit value) and
32-bit `resetlogs` and `activation`: if `writeCheckpoint` writes its content and
`readCheckpoint` is then run by a writer for the same database on that stored
content, `readCheckpoint` raises no error and sets `metadata.startScn = s`
(and the status REPLICATE, with the resetlogs and activation written). -/
theorem checkpoint_round_trip (k : Consts) (ctx : Ctx) (metadata : Metadata)
    (stateWrite : String → String → Bool) (now : Int) (w : Writer) (force : Bool)
    (stateRead : String → Nat → Option String) (reader : Writer) (metadata0 : Metadata)
    (name content : String)
    (hplain : IsPlainText w.database)
    (hlen : w.database.utf8ByteSize ≤ k.JSON_PARAMETER_LENGTH)
    (hscn : w.confirmedScn < 2 ^ 64)
    (hres : metadata.resetlogs < 2 ^ 32) (hact : metadata.activation < 2 ^ 32)
    (hw : (writeCheckpoint k ctx metadata stateWrite now w force).written = some (name, content))
    (hdb : reader.database = w.database)
    (hread : stateRead name k.CHECKPOINT_FILE_MAX_SIZE = some content) :
    readCheckpoint k stateRead reader metadata0
      = .ok { resetlogs := metadata.resetlogs
              activation := metadata.activation
              startScn := w.confirmedScn
              startSequence := k.ZERO_SEQ
              startTime := ""
              startTimeRel := 0
              status := Status.REPLICATE } := by
  obtain ⟨hname, hcontent⟩ := writeCheckpoint_written hw
  subst hname hcontent
  have hparse := parseDocument_checkpointText w.database w.confirmedScn metadata.resetlogs
    metadata.activation hplain
  have hlen0 := checkpointText_length_pos w.database w.confirmedScn metadata.resetlogs
    metadata.activation
  have hnot : ¬ w.database.utf8ByteSize > k.JSON_PARAMETER_LENGTH := by omega
  unfold readCheckpoint
  simp only [hdb, hread, hlen0, hparse, if_false]
  have hscn' : w.confirmedScn < 18446744073709551616 := hscn
  have hres' : metadata.resetlogs < 4294967296 := hres
  have hact' : metadata.activation < 4294967296 := hact
  simp [getJsonFieldS, getJsonFieldU32, getJsonFieldU64, findMember, List.find?, hnot, hscn',
    hres', hact']

/-- Database `DB`, confirmed SCN 12345: reading back the text written gives the
start SCN 12345. -/
theorem checkpoint_round_trip_witness :
    (IsPlainText sampleWriterConfirmed.database ∧
      (writeCheckpoint sampleConsts ⟨100, 10⟩ sampleMetadata (fun _ _ => true) 30
          sampleWriterConfirmed false).written
        = some ("DB-chkpt",
            "\x7b\"database\":\"DB\",\"scn\":12345,\"resetlogs\":7,\"activation\":9\x7d")) ∧
    readCheckpoint sampleConsts
        (fun name _ => if name = "DB-chkpt" then
          some "\x7b\"database\":\"DB\",\"scn\":12345,\"resetlogs\":7,\"activation\":9\x7d"
          else none)
        sampleWriter sampleMetadata
      = .ok { resetlogs := 7, activation := 9, startScn := 12345, startSequence := 2 ^ 32 - 1,
              startTime := "", startTimeRel := 0, status := Status.REPLICATE } :=
  ⟨by decide,
    checkpoint_round_trip sampleConsts ⟨100, 10⟩ sampleMetadata (fun _ _ => true) 30
      sampleWriterConfirmed false
      (fun name _ => if name = "DB-chkpt" then
          some "\x7b\"database\":\"DB\",\"scn\":12345,\"resetlogs\":7,\"activation\":9\x7d"
          else none)
      sampleWriter sampleMetadata "DB-chkpt"
      "\x7b\"database\":\"DB\",\"scn\":12345,\"resetlogs\":7,\"activation\":9\x7d"
      (by decide) (by decide) (by decide) (by decide) (by decide) (by decide) (by decide)
      (by decide)⟩


/-! ### The dictionary store: fatal data errors of add and drop -/

/-- C11: for every kind of meta-table other than OBJ$ and USER$, the add that
takes the rowId string raises DataException 50023 when the rowId is a key of
the primary map of the kind, and then the schema is what it was: every map,
every touched set and the touched flag. -/
theorem dictAddStr_duplicate_rowId (lim : SchemaLimits) (s : Schema) (r : Row)
    (hobj : r.kind ≠ Kind.OBJ) (huser : r.kind ≠ Kind.USER)
    (hstored : HasRowId s r.kind r.rowId) :
    (dictAddStr lim s r).ret = .error ⟨50023⟩ ∧ (dictAddStr lim s r).schema = s := by
  cases r <;> first
    | exact absurd rfl hobj
    | exact absurd rfl huser
    | (simp only [Row.kind, Row.rowId, HasRowId, Option.isSome_iff_exists] at hstored
       obtain ⟨x, hx⟩ := hstored
       simp [dictAddStr, dictSysCColAddStr, dictSysCDefAddStr, dictSysColAddStr,
         dictSysDeferredStgAddStr, dictSysEColAddStr, dictSysLobAddStr, dictSysLobCompPartAddStr,
         dictSysLobFragAddStr, dictSysTabAddStr, dictSysTabComPartAddStr, dictSysTabPartAddStr,
         dictSysTabSubPartAddStr, dictSysTsAddStr, hx])

/-- Scenario S2: the second of two calls of `dictSysCColAdd` with the same rowId
raises 50023 and changes nothing. -/
theorem dictAddStr_duplicate_rowId_witness :
    HasRowId schemaCCol Kind.CCOL "AAAB" ∧
      (dictSysCColAddStr schemaCCol "AAAB" 7 1 100 0 0).ret = .error ⟨50023⟩ ∧
      (dictSysCColAddStr schemaCCol "AAAB" 7 1 100 0 0).schema = schemaCCol :=
  ⟨by decide,
    dictAddStr_duplicate_rowId sampleLimits schemaCCol (.ccol sampleCCol) (by decide) (by decide)
      (by decide)⟩

/-- C13, on the code: the add of a COL$ record with
`segCol > 0` and a rowId that is not stored, whose `(obj, segCol)` is that of
a COL$ record that the store holds, returns without raising (the source
builds the DataException 50024 and does not throw it): the record is stored
in the primary map and `sysColMapSeg` keeps the entry it had.  The add that
takes the rowId string does not raise 50024 either. -/
theorem dictSysColAdd_duplicate_key_returns (lim : SchemaLimits) (s : Schema) (r stored : SysCol)
    (hseg : 0 < r.segCol) (hfresh : ¬ HasRowId s Kind.COL r.rowId)
    (hheld : Held s (.col stored)) (hkey : r.seg = stored.seg) :
    (dictSysColAdd s r).ret = .ok () ∧
      (dictSysColAdd s r).schema.sysColMapRowId.find r.rowId = some r ∧
      (dictSysColAdd s r).schema.sysColMapSeg = s.sysColMapSeg ∧
      (dictSysColAdd s r).schema.sysColMapSeg.find r.seg = some stored.rowId ∧
      (dictAddStr lim s (.col r)).ret ≠ .error ⟨50024⟩ := by
  have hseg2 : 0 < stored.segCol := by
    have h := congrArg SysColSeg.segCol hkey
    simp only [SysCol.seg] at h
    rw [← h]; exact hseg
  have hfind : s.sysColMapSeg.find r.seg = some stored.rowId := by
    rw [hkey]; exact hheld.2 hseg2
  have hsame := dictSysColAdd_seg_taken s r _ hseg hfind
  refine ⟨rfl, ?_, hsame, ?_, ?_⟩
  · rw [dictSysColAdd_primary]; exact Map.find_set_self _ _ _
  · rw [hsame]; exact hfind
  · simp only [HasRowId] at hfresh
    have hx := find_eq_none_of_not_isSome _ _ hfresh
    simp only [dictAddStr, dictSysColAddStr, hx]
    by_cases hn : r.name.utf8ByteSize > lim.SYS_COL_NAME_LENGTH
    · rw [if_pos hn]; intro h; cases h
    · rw [if_neg hn]
      by_cases hs : r.segCol > 1000
      · rw [if_pos hs]; intro h; cases h
      · rw [if_neg hs]; intro h; cases h

/-- Two columns of table 100 with `segCol = 1`: the second add returns, the
column is stored and has no entry in `sysColMapSeg`. -/
theorem dictSysColAdd_duplicate_key_returns_witness :
    ¬ HasRowId schemaCol Kind.COL "C2" ∧ Held schemaCol (.col sampleCol) ∧
      sampleColTwin.seg = sampleCol.seg ∧
      (dictSysColAdd schemaCol sampleColTwin).ret = .ok () ∧
      (dictSysColAdd schemaCol sampleColTwin).schema.sysColMapRowId.find "C2"
        = some sampleColTwin ∧
      (dictSysColAdd schemaCol sampleColTwin).schema.sysColMapSeg = schemaCol.sysColMapSeg ∧
      (dictSysColAdd schemaCol sampleColTwin).schema.sysColMapSeg.find ⟨100, 1⟩ = some "C1" ∧
      (dictSysColAddStr sampleLimits schemaCol "C2" 100 2 1 2 "NAME" 1 30 (-1) (-1) 1 873 true
        0 0).ret ≠ .error ⟨50024⟩ :=
  ⟨by decide, by decide, by decide,
    dictSysColAdd_duplicate_key_returns sampleLimits schemaCol sampleColTwin sampleCol
      (by decide) (by decide) (by decide) (by decide)⟩


/-- C14: for every kind of meta-table, the drop of a record that is stored in
the primary map, when one of the secondary maps of the kind has no entry at
the key of the record, raises DataException 50030. -/
theorem dictDrop_missing_index (s : Schema) (r : Row) (hstored : Stored s r)
    (hmissing : MissingIndex s r) : (dictDrop s r).ret = .error ⟨50030⟩ := by
  cases r with
  | col r => exact dictSysColDrop_raises s r r hstored hmissing.1 hmissing.2
  | ccol r => exact dictSysCColDrop_raises1 s r r hstored hmissing
  | cdef r =>
    rcases hmissing with h | h
    · exact dictSysCDefDrop_raises1 s r r hstored h
    · exact dictSysCDefDrop_raises2 s r r hstored h
  | deferredStg r => exact dictSysDeferredStgDrop_raises1 s r r hstored hmissing
  | ecol r => exact dictSysEColDrop_raises1 s r r hstored hmissing
  | lob r =>
    rcases hmissing with h | h
    · exact dictSysLobDrop_raises1 s r r hstored h
    · exact dictSysLobDrop_raises2 s r r hstored h
  | lobCompPart r =>
    rcases hmissing with h | h
    · exact dictSysLobCompPartDrop_raises1 s r r hstored h
    · exact dictSysLobCompPartDrop_raises2 s r r hstored h
  | lobFrag r => exact dictSysLobFragDrop_raises1 s r r hstored hmissing
  | obj r =>
    rcases hmissing with h | h
    · exact dictSysObjDrop_raises1 s r r hstored h
    · exact dictSysObjDrop_raises2 s r r hstored h
  | tab r => exact dictSysTabDrop_raises1 s r r hstored hmissing
  | tabComPart r =>
    rcases hmissing with h | h
    · exact dictSysTabComPartDrop_raises1 s r r hstored h
    · exact dictSysTabComPartDrop_raises2 s r r hstored h
  | tabPart r => exact dictSysTabPartDrop_raises1 s r r hstored hmissing
  | tabSubPart r => exact dictSysTabSubPartDrop_raises1 s r r hstored hmissing
  | ts r => exact dictSysTsDrop_raises1 s r r hstored hmissing
  | user r => exact dictSysUserDrop_raises1 s r r hstored hmissing

/-- A CCOL$ row in the primary map without its entry in `sysCColMapKey`: the
drop raises 50030. -/
theorem dictDrop_missing_index_witness :
    Stored schemaCColNoIndex (.ccol sampleCCol) ∧
      MissingIndex schemaCColNoIndex (.ccol sampleCCol) ∧
      (dictSysCColDrop schemaCColNoIndex sampleCCol).ret = .error ⟨50030⟩ :=
  ⟨by decide, by decide,
    dictDrop_missing_index schemaCColNoIndex (.ccol sampleCCol) (by decide) (by decide)⟩

/-- C15: for every kind of meta-table, the drop of a record whose rowId is not a
key of the primary map returns without error and the schema is what it was:
every primary and secondary map, every touched set, `identifiersTouched` and
the touched flag. -/
theorem dictDrop_absent (s : Schema) (r : Row) (habsent : ¬ HasRowId s r.kind r.rowId) :
    (dictDrop s r).ret = .ok () ∧ (dictDrop s r).schema = s := by
  cases r <;>
    (simp only [Row.kind, Row.rowId, HasRowId] at habsent
     have hx := find_eq_none_of_not_isSome _ _ habsent
     simp [dictDrop, dictSysCColDrop, dictSysCDefDrop, dictSysColDrop, dictSysDeferredStgDrop,
       dictSysEColDrop, dictSysLobDrop, dictSysLobCompPartDrop, dictSysLobFragDrop,
       dictSysObjDrop, dictSysTabDrop, dictSysTabComPartDrop, dictSysTabPartDrop,
       dictSysTabSubPartDrop, dictSysTsDrop, dictSysUserDrop, hx])

/-- The drop of an OBJ$ row from a schema that holds a CCOL$ row only. -/
theorem dictDrop_absent_witness :
    ¬ HasRowId schemaCCol Kind.OBJ "AAAA" ∧
      (dictSysObjDrop schemaCCol sampleObj).ret = .ok () ∧
      (dictSysObjDrop schemaCCol sampleObj).schema = schemaCCol :=
  ⟨by decide, dictDrop_absent schemaCCol (.obj sampleObj) (by decide)⟩


/-- C16: for OBJ$ and for USER$, when the record stored under a rowId has
`single = true`, an add for that rowId with `single = false` returns true and
the schema after it is the schema before it with `single` of the stored
record set to false: the record keeps its place and its other fields, every
other record of the primary map, every other map and every touched set is
what it was. -/
theorem dictAddStr_clears_single (lim : SchemaLimits) (s : Schema) (rowId : RowId) :
    (∀ (stored : SysObj) (owner obj dataObj type : Nat) (name : String) (flags1 flags2 : Nat),
      s.sysObjMapRowId.find rowId = some stored → stored.single = true →
      (dictSysObjAddStr lim s rowId owner obj dataObj type name flags1 flags2 false).ret
          = .ok true ∧
        (dictSysObjAddStr lim s rowId owner obj dataObj type name flags1 flags2 false).schema
          = { s with
              sysObjMapRowId := s.sysObjMapRowId.set rowId { stored with single := false } } ∧
        (dictSysObjAddStr lim s rowId owner obj dataObj type name flags1 flags2
          false).schema.sysObjMapRowId.find rowId = some { stored with single := false } ∧
        ∀ other, other ≠ rowId →
          (dictSysObjAddStr lim s rowId owner obj dataObj type name flags1 flags2
            false).schema.sysObjMapRowId.find other = s.sysObjMapRowId.find other) ∧
    (∀ (stored : SysUser) (user : Nat) (name : String) (spare11 spare12 : Nat),
      s.sysUserMapRowId.find rowId = some stored → stored.single = true →
      (dictSysUserAddStr lim s rowId user name spare11 spare12 false).ret = .ok true ∧
        (dictSysUserAddStr lim s rowId user name spare11 spare12 false).schema
          = { s with
              sysUserMapRowId := s.sysUserMapRowId.set rowId { stored with single := false } } ∧
        (dictSysUserAddStr lim s rowId user name spare11 spare12
          false).schema.sysUserMapRowId.find rowId = some { stored with single := false } ∧
        ∀ other, other ≠ rowId →
          (dictSysUserAddStr lim s rowId user name spare11 spare12
            false).schema.sysUserMapRowId.find other = s.sysUserMapRowId.find other) := by
  constructor
  · intro stored owner obj dataObj type name flags1 flags2 hx hsingle
    rw [dictSysObjAddStr_at_stored lim s rowId owner obj dataObj type name flags1 flags2 false
      stored hx, if_pos hsingle, if_pos rfl]
    exact ⟨rfl, rfl, Map.find_set_self _ _ _, fun other h => Map.find_set_ne _ _ _ _ h⟩
  · intro stored user name spare11 spare12 hx hsingle
    rw [dictSysUserAddStr_at_stored lim s rowId user name spare11 spare12 false stored hx,
      if_pos hsingle, if_pos rfl]
    exact ⟨rfl, rfl, Map.find_set_self _ _ _, fun other h => Map.find_set_ne _ _ _ _ h⟩

/-- The second call of scenario S3, and the same for the OBJ$ row of scenario
S1. -/
theorem dictAddStr_clears_single_witness :
    (schemaUser.sysUserMapRowId.find "U1" = some sampleUser ∧ sampleUser.single = true ∧
      (dictSysUserAddStr sampleLimits schemaUser "U1" 7 "A" 0 0 false).ret = .ok true ∧
      (dictSysUserAddStr sampleLimits schemaUser "U1" 7 "A" 0 0 false).schema
        = { schemaUser with
            sysUserMapRowId :=
              schemaUser.sysUserMapRowId.set "U1" { sampleUser with single := false } }) ∧
    (schemaObj.sysObjMapRowId.find "AAAA" = some sampleObj ∧ sampleObj.single = true ∧
      (dictSysObjAddStr sampleLimits schemaObj "AAAA" 5 100 101 2 "T1" 0 0 false).ret
        = .ok true) :=
  ⟨⟨by decide, by decide,
      ((dictAddStr_clears_single sampleLimits schemaUser "U1").2 sampleUser 7 "A" 0 0
        (by decide) (by decide)).1,
      ((dictAddStr_clears_single sampleLimits schemaUser "U1").2 sampleUser 7 "A" 0 0
        (by decide) (by decide)).2.1⟩,
    ⟨by decide, by decide,
      ((dictAddStr_clears_single sampleLimits schemaObj "AAAA").1 sampleObj 5 100 101 2 "T1" 0 0
        (by decide) (by decide)).1⟩⟩

/-- C17, counterexample: with the OBJ$ row of scenario S1 stored with
`single = true`, an add for its rowId with `single = true` (a case other than
stored true and new false) changes nothing and returns true, not false. -/
theorem dictAddStr_stored_returns_true_counterexample :
    schemaObj.sysObjMapRowId.find "AAAA" = some sampleObj ∧ sampleObj.single = true ∧
      (dictSysObjAddStr sampleLimits schemaObj "AAAA" 5 100 101 2 "T1" 0 0 true).schema
        = schemaObj ∧
      (dictSysObjAddStr sampleLimits schemaObj "AAAA" 5 100 101 2 "T1" 0 0 true).ret
        = .ok true ∧
      (dictSysObjAddStr sampleLimits schemaObj "AAAA" 5 100 101 2 "T1" 0 0 true).ret
        ≠ .ok false := by
  decide

/-- C17, amended: for OBJ$ and for USER$, an add for a rowId that is stored, in
every case other than stored `single = true` with new `single = false`,
changes nothing in the schema and returns the stored `single`: true when the
stored record has `single = true`, false when it has `single = false`. -/
theorem dictAddStr_stored_noop (lim : SchemaLimits) (s : Schema) (rowId : RowId) :
    (∀ (stored : SysObj) (owner obj dataObj type : Nat) (name : String) (flags1 flags2 : Nat)
        (single : Bool),
      s.sysObjMapRowId.find rowId = some stored → ¬ (stored.single = true ∧ single = false) →
      (dictSysObjAddStr lim s rowId owner obj dataObj type name flags1 flags2 single).schema = s ∧
        (dictSysObjAddStr lim s rowId owner obj dataObj type name flags1 flags2 single).ret
          = .ok stored.single) ∧
    (∀ (stored : SysUser) (user : Nat) (name : String) (spare11 spare12 : Nat) (single : Bool),
      s.sysUserMapRowId.find rowId = some stored → ¬ (stored.single = true ∧ single = false) →
      (dictSysUserAddStr lim s rowId user name spare11 spare12 single).schema = s ∧
        (dictSysUserAddStr lim s rowId user name spare11 spare12 single).ret
          = .ok stored.single) := by
  constructor
  · intro stored owner obj dataObj type name flags1 flags2 single hx hcase
    rw [dictSysObjAddStr_at_stored lim s rowId owner obj dataObj type name flags1 flags2 single
      stored hx]
    by_cases h1 : stored.single = true
    · have h2 : ¬ single = false := fun h => hcase ⟨h1, h⟩
      rw [if_pos h1, if_neg h2, h1]
      exact ⟨rfl, rfl⟩
    · rw [if_neg h1]
      have h3 : stored.single = false := by
        cases h : stored.single with
        | false => rfl
        | true => exact absurd h h1
      rw [h3]
      exact ⟨rfl, rfl⟩
  · intro stored user name spare11 spare12 single hx hcase
    rw [dictSysUserAddStr_at_stored lim s rowId user name spare11 spare12 single stored hx]
    by_cases h1 : stored.single = true
    · have h2 : ¬ single = false := fun h => hcase ⟨h1, h⟩
      rw [if_pos h1, if_neg h2, h1]
      exact ⟨rfl, rfl⟩
    · rw [if_neg h1]
      have h3 : stored.single = false := by
        cases h : stored.single with
        | false => rfl
        | true => exact absurd h h1
      rw [h3]
      exact ⟨rfl, rfl⟩

/-- The third call of scenario S3 (stored false, new false) returns false; an
add for the stored OBJ$ row of scenario S1 with `single = true` returns
true. -/
theorem dictAddStr_stored_noop_witness :
    (schemaUserTwice.sysUserMapRowId.find "U1" = some { sampleUser with single := false } ∧
      (dictSysUserAddStr sampleLimits schemaUserTwice "U1" 7 "A" 0 0 false).schema
        = schemaUserTwice ∧
      (dictSysUserAddStr sampleLimits schemaUserTwice "U1" 7 "A" 0 0 false).ret = .ok false) ∧
    (schemaObj.sysObjMapRowId.find "AAAA" = some sampleObj ∧
      (dictSysObjAddStr sampleLimits schemaObj "AAAA" 5 100 101 2 "T1" 0 0 true).schema
        = schemaObj ∧
      (dictSysObjAddStr sampleLimits schemaObj "AAAA" 5 100 101 2 "T1" 0 0 true).ret
        = .ok true) :=
  ⟨⟨by decide,
      (dictAddStr_stored_noop sampleLimits schemaUserTwice "U1").2
        { sampleUser with single := false } 7 "A" 0 0 false (by decide) (by decide)⟩,
    ⟨by decide,
      (dictAddStr_stored_noop sampleLimits schemaObj "AAAA").1 sampleObj 5 100 101 2 "T1" 0 0
        true (by decide) (by decide)⟩⟩


/-- C18, counterexample: in scenario S3 the first call returns true, the
second call returns true and leaves the stored `single = false`, and the
third call, identical to the second, returns false, not true. -/
theorem dictSysUserAdd_third_call_counterexample :
    (dictSysUserAddStr sampleLimits Schema.empty "U1" 7 "A" 0 0 true).ret = .ok true ∧
      (dictSysUserAddStr sampleLimits schemaUser "U1" 7 "A" 0 0 false).ret = .ok true ∧
      schemaUserTwice.sysUserMapRowId.find "U1" = some { sampleUser with single := false } ∧
      (dictSysUserAddStr sampleLimits schemaUserTwice "U1" 7 "A" 0 0 false).ret = .ok false ∧
      (dictSysUserAddStr sampleLimits schemaUserTwice "U1" 7 "A" 0 0 false).ret ≠ .ok true := by
  decide

/-- C18, amended: scenario S3 from any schema in which the first call,
`dictSysUserAdd("U1", user=7, name="A", single=true)`, returns true.  The second
call, with `single = false`, returns true and leaves the stored
`single = false`; a third call identical to the second returns false and
does not change the schema. -/
theorem dictSysUserAdd_third_call (lim : SchemaLimits) (s s1 s2 : Schema) (spare11 spare12 : Nat)
    (hfirst : (dictSysUserAddStr lim s "U1" 7 "A" spare11 spare12 true).ret = .ok true)
    (hs1 : s1 = (dictSysUserAddStr lim s "U1" 7 "A" spare11 spare12 true).schema)
    (hs2 : s2 = (dictSysUserAddStr lim s1 "U1" 7 "A" spare11 spare12 false).schema) :
    (dictSysUserAddStr lim s1 "U1" 7 "A" spare11 spare12 false).ret = .ok true ∧
      (∃ x, s2.sysUserMapRowId.find "U1" = some x ∧ x.single = false) ∧
      (dictSysUserAddStr lim s2 "U1" 7 "A" spare11 spare12 false).ret = .ok false ∧
      (dictSysUserAddStr lim s2 "U1" 7 "A" spare11 spare12 false).schema = s2 := by
  obtain ⟨x, hx, hsingle⟩ := dictSysUserAddStr_true lim s "U1" 7 "A" spare11 spare12 true hfirst
  rw [← hs1] at hx
  have hx1 : x.single = true := hsingle rfl
  have hsecond := dictSysUserAddStr_at_stored lim s1 "U1" 7 "A" spare11 spare12 false x hx
  rw [if_pos hx1, if_pos rfl] at hsecond
  have hfind : s2.sysUserMapRowId.find "U1" = some { x with single := false } := by
    rw [hs2, hsecond]
    exact Map.find_set_self _ _ _
  have hthird := dictSysUserAddStr_at_stored lim s2 "U1" 7 "A" spare11 spare12 false _ hfind
  rw [if_neg (by simp)] at hthird
  refine ⟨?_, ⟨_, hfind, rfl⟩, ?_, ?_⟩
  · rw [hsecond]
  · rw [hthird]
  · rw [hthird]

/-- Scenario S3 from the empty schema. -/
theorem dictSysUserAdd_third_call_witness :
    (dictSysUserAddStr sampleLimits Schema.empty "U1" 7 "A" 0 0 true).ret = .ok true ∧
      (dictSysUserAddStr sampleLimits schemaUser "U1" 7 "A" 0 0 false).ret = .ok true ∧
      (∃ x, schemaUserTwice.sysUserMapRowId.find "U1" = some x ∧ x.single = false) ∧
      (dictSysUserAddStr sampleLimits schemaUserTwice "U1" 7 "A" 0 0 false).ret = .ok false ∧
      (dictSysUserAddStr sampleLimits schemaUserTwice "U1" 7 "A" 0 0 false).schema
        = schemaUserTwice :=
  ⟨by decide,
    dictSysUserAdd_third_call sampleLimits Schema.empty schemaUser schemaUserTwice 0 0
      (by decide) rfl rfl⟩


/-! ### The dictionary store: add then drop, and index consistency -/

/-- C19, counterexample: with the OBJ$ row of scenario S1 stored, the add of the
same row (its rowId string and its fields, `single = true`) returns without
raising, and the drop of that row right after it empties the maps of OBJ$,
which held the row before the add. -/
theorem dictAddStr_then_drop_counterexample :
    schemaObj.sysObjMapRowId.find "AAAA" = some sampleObj ∧
      schemaObj.sysObjMapObj.find 100 = some "AAAA" ∧
      (dictSysObjAddStr sampleLimits schemaObj "AAAA" 5 100 101 2 "T1" 0 0 true).ret
        = .ok true ∧
      (dictAddStr sampleLimits schemaObj (.obj sampleObj)).ret = .ok () ∧
      (dictDrop (dictAddStr sampleLimits schemaObj (.obj sampleObj)).schema
        (.obj sampleObj)).ret = .ok () ∧
      (dictDrop (dictAddStr sampleLimits schemaObj (.obj sampleObj)).schema
        (.obj sampleObj)).schema.sysObjMapRowId = Map.empty ∧
      (dictDrop (dictAddStr sampleLimits schemaObj (.obj sampleObj)).schema
        (.obj sampleObj)).schema.sysObjMapObj = Map.empty ∧
      ¬ SameMaps Kind.OBJ schemaObj
        (dictDrop (dictAddStr sampleLimits schemaObj (.obj sampleObj)).schema
          (.obj sampleObj)).schema := by
  decide

/-- C19, amended: for every kind K of meta-table, every schema and every record
whose rowId is not stored and whose add returns without raising (for a COL$
record with `segCol > 0`: whose `(obj, segCol)` has no entry in
`sysColMapSeg`), the drop of that record right after the add returns without
raising and leaves the primary map and every secondary map of K equal to what
they were before the add. -/
theorem dictAddStr_then_drop (lim : SchemaLimits) (s : Schema) (r : Row)
    (hfresh : ¬ HasRowId s r.kind r.rowId) (hret : (dictAddStr lim s r).ret = .ok ())
    (hcol : ∀ c, r = .col c → 0 < c.segCol → s.sysColMapSeg.find c.seg = none) :
    (dictDrop (dictAddStr lim s r).schema r).ret = .ok () ∧
      SameMaps r.kind s (dictDrop (dictAddStr lim s r).schema r).schema := by
  obtain ⟨hs, hr⟩ := dictAddStr_fresh lim s r hfresh hret
  rw [hs]
  exact dictAdd_then_drop s r hfresh hr hcol

/-- Scenario S1: the OBJ$ row is added to the empty schema and dropped. -/
theorem dictAddStr_then_drop_witness :
    ¬ HasRowId Schema.empty Kind.OBJ "AAAA" ∧
      (dictAddStr sampleLimits Schema.empty (.obj sampleObj)).ret = .ok () ∧
      (dictDrop schemaObj (.obj sampleObj)).ret = .ok () ∧
      SameMaps Kind.OBJ Schema.empty (dictDrop schemaObj (.obj sampleObj)).schema :=
  ⟨by decide, by decide,
    dictAddStr_then_drop sampleLimits Schema.empty (.obj sampleObj) (by decide) (by decide)
      (fun _ h => by cases h)⟩

/-- C21, counterexample: with a CDEF$ row of table 100 and `con = 5` stored, the
add of a CDEF$ row of table 200 with `con = 5` under a new rowId raises 50024,
and afterwards the record is in the primary map and in `sysCDefMapKey`: the maps
are not what they were before the call. -/
theorem dictAddStr_error_not_atomic_counterexample :
    (dictSysCDefAddStr schemaCDef "D2" 5 200 1).ret = .error ⟨50024⟩ ∧
      schemaCDef.sysCDefMapRowId.find "D2" = none ∧
      (dictSysCDefAddStr schemaCDef "D2" 5 200 1).schema.sysCDefMapRowId.find "D2"
        = some sampleCDefTwin ∧
      (dictSysCDefAddStr schemaCDef "D2" 5 200 1).schema.sysCDefMapKey.find ⟨200, 5⟩
        = some "D2" ∧
      ¬ SameMaps Kind.CDEF schemaCDef (dictSysCDefAddStr schemaCDef "D2" 5 200 1).schema := by
  decide

/-- C21, amended: an add raises DataException 50023, 50024 or 50025 only.  When it
raises 50023 or 50025 the schema is what it was before the call, and the
record is in no map unless it was before.  When it raises 50024, the rowId was
not stored before the call and the record is afterwards stored in the primary
map of its kind; the maps of every other kind are what they were.  The add
that takes the record raises 50024 only, with the record left in the primary
map. -/
theorem dictAddStr_error_effect (lim : SchemaLimits) (s : Schema) (r : Row) (e : DataException) :
    ((dictAddStr lim s r).ret = .error e →
      (e = ⟨50023⟩ ∨ e = ⟨50024⟩ ∨ e = ⟨50025⟩) ∧
      (e ≠ ⟨50024⟩ → (dictAddStr lim s r).schema = s) ∧
      (e = ⟨50024⟩ → ¬ HasRowId s r.kind r.rowId ∧ Stored (dictAddStr lim s r).schema r ∧
        ∀ k, k ≠ r.kind → SameMaps k s (dictAddStr lim s r).schema)) ∧
    ((dictAdd s r).ret = .error e → e = ⟨50024⟩ ∧ Stored (dictAdd s r).schema r) := by
  refine ⟨fun h => ?_, dictAdd_error s r e⟩
  rcases dictAddStr_error lim s r e h with ⟨he, hs⟩ | ⟨hfresh, hs, hadd⟩
  · refine ⟨?_, fun _ => hs, fun h24 => ?_⟩
    · rcases he with he | he
      · exact Or.inl he
      · exact Or.inr (Or.inr he)
    · rcases he with he | he <;> rw [he] at h24 <;> cases h24
  · obtain ⟨he, hst⟩ := dictAdd_error s r e hadd
    refine ⟨Or.inr (Or.inl he), fun hne => absurd he hne, fun _ => ⟨hfresh, ?_, ?_⟩⟩
    · rw [hs]; exact hst
    · intro k hk
      rw [hs]; exact dictAdd_frame s r k hk

/-- The second CCOL$ add of scenario S2 raises 50023 and changes nothing; the
add of the second CDEF$ row raises 50024 and leaves the row in the primary
map. -/
theorem dictAddStr_error_effect_witness :
    ((dictAddStr sampleLimits schemaCCol (.ccol sampleCCol)).ret = .error ⟨50023⟩ ∧
      (dictAddStr sampleLimits schemaCCol (.ccol sampleCCol)).schema = schemaCCol) ∧
    ((dictAddStr sampleLimits schemaCDef (.cdef sampleCDefTwin)).ret = .error ⟨50024⟩ ∧
      Stored (dictAddStr sampleLimits schemaCDef (.cdef sampleCDefTwin)).schema
        (.cdef sampleCDefTwin)) :=
  ⟨⟨by decide,
      ((dictAddStr_error_effect sampleLimits schemaCCol (.ccol sampleCCol) ⟨50023⟩).1
        (by decide)).2.1 (by decide)⟩,
    ⟨by decide,
      (((dictAddStr_error_effect sampleLimits schemaCDef (.cdef sampleCDefTwin) ⟨50024⟩).1
        (by decide)).2.2 rfl).2.1⟩⟩

/-- C22, counterexample: a LOB$ row is added; the add of a second LOB$ row with
the same `(obj, intCol)` raises 50024 and the drop of that second row raises
50030, which leaves the first row in the primary map and in `sysLobMapLObj`
but not in `sysLobMapKey`.  The drop of the first row then raises 50030, and
afterwards the row is still in `sysLobMapLObj`. -/
theorem dictDrop_error_second_index_counterexample :
    (dictAddStr sampleLimits Schema.empty (.lob sampleLob)).ret = .ok () ∧
      (dictAddStr sampleLimits schemaLob (.lob sampleLobTwin)).ret = .error ⟨50024⟩ ∧
      (dictDrop schemaLobTwin (.lob sampleLobTwin)).ret = .error ⟨50030⟩ ∧
      schemaLobTwinDropped.sysLobMapRowId.find "L1" = some sampleLob ∧
      schemaLobTwinDropped.sysLobMapKey.find ⟨100, 3⟩ = none ∧
      schemaLobTwinDropped.sysLobMapLObj.find 200 = some "L1" ∧
      (dictSysLobDrop schemaLobTwinDropped sampleLob).ret = .error ⟨50030⟩ ∧
      (dictSysLobDrop schemaLobTwinDropped sampleLob).schema.sysLobMapRowId.find "L1" = none ∧
      (dictSysLobDrop schemaLobTwinDropped sampleLob).schema.sysLobMapLObj.find 200
        = some "L1" := by
  decide

/-- C22, amended: a drop raises DataException 50030 only, and whenever it does,
the dropped record is afterwards absent from the primary map of its kind and
from the secondary map that the drop looks into first, which is the only one
for the kinds with one secondary map.  For the kinds with two secondary maps
(CDEF$, LOB$, LOBCOMPPART$, OBJ$, TABCOMPART$) the map looked into second
(`sysCDefMapCon`, `sysLobMapLObj`, `sysLobCompPartMapPartObj`, `sysObjMapObj`,
`sysTabComPartMapObj`) is what it was before the call. -/
theorem dictDrop_error_effect (s : Schema) (r : Row) (e : DataException)
    (h : (dictDrop s r).ret = .error e) :
    e = ⟨50030⟩ ∧ ¬ HasRowId (dictDrop s r).schema r.kind r.rowId ∧
      AbsentFirstIndex (dictDrop s r).schema r ∧
      SameSecondIndex r.kind s (dictDrop s r).schema := by
  cases r with
  | col r =>
    obtain ⟨he, hP, h1⟩ := dictSysColDrop_error s r e h
    refine ⟨he, ?_, h1, trivial⟩
    show ¬ ((dictSysColDrop s r).schema.sysColMapRowId.find r.rowId).isSome = true
    rw [hP, Map.find_erase_self]; simp
  | ccol r =>
    obtain ⟨he, hP, h1⟩ := dictSysCColDrop_error s r e h
    refine ⟨he, ?_, h1, trivial⟩
    show ¬ ((dictSysCColDrop s r).schema.sysCColMapRowId.find r.rowId).isSome = true
    rw [hP, Map.find_erase_self]; simp
  | cdef r =>
    obtain ⟨he, hP, h1, h2, _⟩ := dictSysCDefDrop_error s r e h
    refine ⟨he, ?_, h1, h2.symm⟩
    show ¬ ((dictSysCDefDrop s r).schema.sysCDefMapRowId.find r.rowId).isSome = true
    rw [hP, Map.find_erase_self]; simp
  | deferredStg r =>
    obtain ⟨he, hP, h1⟩ := dictSysDeferredStgDrop_error s r e h
    refine ⟨he, ?_, h1, trivial⟩
    show ¬ ((dictSysDeferredStgDrop s r).schema.sysDeferredStgMapRowId.find r.rowId).isSome = true
    rw [hP, Map.find_erase_self]; simp
  | ecol r =>
    obtain ⟨he, hP, h1⟩ := dictSysEColDrop_error s r e h
    refine ⟨he, ?_, h1, trivial⟩
    show ¬ ((dictSysEColDrop s r).schema.sysEColMapRowId.find r.rowId).isSome = true
    rw [hP, Map.find_erase_self]; simp
  | lob r =>
    obtain ⟨he, hP, h1, h2, _⟩ := dictSysLobDrop_error s r e h
    refine ⟨he, ?_, h1, h2.symm⟩
    show ¬ ((dictSysLobDrop s r).schema.sysLobMapRowId.find r.rowId).isSome = true
    rw [hP, Map.find_erase_self]; simp
  | lobCompPart r =>
    obtain ⟨he, hP, h1, h2, _⟩ := dictSysLobCompPartDrop_error s r e h
    refine ⟨he, ?_, h1, h2.symm⟩
    show ¬ ((dictSysLobCompPartDrop s r).schema.sysLobCompPartMapRowId.find r.rowId).isSome = true
    rw [hP, Map.find_erase_self]; simp
  | lobFrag r =>
    obtain ⟨he, hP, h1⟩ := dictSysLobFragDrop_error s r e h
    refine ⟨he, ?_, h1, trivial⟩
    show ¬ ((dictSysLobFragDrop s r).schema.sysLobFragMapRowId.find r.rowId).isSome = true
    rw [hP, Map.find_erase_self]; simp
  | obj r =>
    obtain ⟨he, hP, h1, h2, _⟩ := dictSysObjDrop_error s r e h
    refine ⟨he, ?_, h1, h2.symm⟩
    show ¬ ((dictSysObjDrop s r).schema.sysObjMapRowId.find r.rowId).isSome = true
    rw [hP, Map.find_erase_self]; simp
  | tab r =>
    obtain ⟨he, hP, h1⟩ := dictSysTabDrop_error s r e h
    refine ⟨he, ?_, h1, trivial⟩
    show ¬ ((dictSysTabDrop s r).schema.sysTabMapRowId.find r.rowId).isSome = true
    rw [hP, Map.find_erase_self]; simp
  | tabComPart r =>
    obtain ⟨he, hP, h1, h2, _⟩ := dictSysTabComPartDrop_error s r e h
    refine ⟨he, ?_, h1, h2.symm⟩
    show ¬ ((dictSysTabComPartDrop s r).schema.sysTabComPartMapRowId.find r.rowId).isSome = true
    rw [hP, Map.find_erase_self]; simp
  | tabPart r =>
    obtain ⟨he, hP, h1⟩ := dictSysTabPartDrop_error s r e h
    refine ⟨he, ?_, h1, trivial⟩
    show ¬ ((dictSysTabPartDrop s r).schema.sysTabPartMapRowId.find r.rowId).isSome = true
    rw [hP, Map.find_erase_self]; simp
  | tabSubPart r =>
    obtain ⟨he, hP, h1⟩ := dictSysTabSubPartDrop_error s r e h
    refine ⟨he, ?_, h1, trivial⟩
    show ¬ ((dictSysTabSubPartDrop s r).schema.sysTabSubPartMapRowId.find r.rowId).isSome = true
    rw [hP, Map.find_erase_self]; simp
  | ts r =>
    obtain ⟨he, hP, h1⟩ := dictSysTsDrop_error s r e h
    refine ⟨he, ?_, h1, trivial⟩
    show ¬ ((dictSysTsDrop s r).schema.sysTsMapRowId.find r.rowId).isSome = true
    rw [hP, Map.find_erase_self]; simp
  | user r =>
    obtain ⟨he, hP, h1⟩ := dictSysUserDrop_error s r e h
    refine ⟨he, ?_, h1, trivial⟩
    show ¬ ((dictSysUserDrop s r).schema.sysUserMapRowId.find r.rowId).isSome = true
    rw [hP, Map.find_erase_self]; simp

/-- The drop of the CCOL$ row that `sysCColMapKey` has no entry for. -/
theorem dictDrop_error_effect_witness :
    (dictDrop schemaCColNoIndex (.ccol sampleCCol)).ret = .error ⟨50030⟩ ∧
      ¬ HasRowId (dictDrop schemaCColNoIndex (.ccol sampleCCol)).schema Kind.CCOL "AAAB" ∧
      AbsentFirstIndex (dictDrop schemaCColNoIndex (.ccol sampleCCol)).schema (.ccol sampleCCol) :=
  ⟨by decide,
    (dictDrop_error_effect schemaCColNoIndex (.ccol sampleCCol) ⟨50030⟩ (by decide)).2.1,
    (dictDrop_error_effect schemaCColNoIndex (.ccol sampleCCol) ⟨50030⟩ (by decide)).2.2.1⟩


/-! ### The dictionary store: touch tracking -/

/-- C23: an add of a record that returns without raising sets `touched = true`;
for every kind other than TS$ it inserts the record into the touched set of
the kind; and for CCOL$, CDEF$, COL$, DEFERRED_STG$, LOB$, OBJ$, TAB$ (field
`obj`), ECOL$ (field `tabObj`), TABCOMPART$ and TABPART$ (field `bo`) it
inserts that object id, when it is not zero, into `identifiersTouched`. -/
theorem dictAdd_touch (s : Schema) (r : Row) (h : (dictAdd s r).ret = .ok ()) :
    (dictAdd s r).schema.touched = true ∧
      (r.kind ≠ Kind.TS →
        touchedSet r.kind (dictAdd s r).schema = setInsert r.rowId (touchedSet r.kind s) ∧
        r.rowId ∈ touchedSet r.kind (dictAdd s r).schema) ∧
      (∀ o, r.touchObj = some o → o ≠ 0 → o ∈ (dictAdd s r).schema.identifiersTouched) := by
  cases r with
  | ccol r =>
    have h1 := dictSysCColAdd_returns s r h
    obtain ⟨ht, hset, hid⟩ := dictSysCColAdd_touch s r h1
    exact ⟨ht, fun _ => ⟨hset, by
      show r.rowId ∈ (dictSysCColAdd s r).schema.sysCColSetTouched
      rw [hset]; exact (mem_setInsert _ _ _).2 (Or.inl rfl)⟩, fun o ho h0 => by
      cases ho
      show r.obj ∈ (dictSysCColAdd s r).schema.identifiersTouched
      rw [hid, if_neg h0]
      exact (mem_setInsert _ _ _).2 (Or.inl rfl)⟩
  | cdef r =>
    obtain ⟨h1, h2⟩ := dictSysCDefAdd_returns s r h
    obtain ⟨ht, hset, hid⟩ := dictSysCDefAdd_touch s r h1 h2
    exact ⟨ht, fun _ => ⟨hset, by
      show r.rowId ∈ (dictSysCDefAdd s r).schema.sysCDefSetTouched
      rw [hset]; exact (mem_setInsert _ _ _).2 (Or.inl rfl)⟩, fun o ho h0 => by
      cases ho
      show r.obj ∈ (dictSysCDefAdd s r).schema.identifiersTouched
      rw [hid, if_neg h0]
      exact (mem_setInsert _ _ _).2 (Or.inl rfl)⟩
  | col r =>
    obtain ⟨ht, hset, hid⟩ := dictSysColAdd_touch s r
    exact ⟨ht, fun _ => ⟨hset, by
      show r.rowId ∈ (dictSysColAdd s r).schema.sysColSetTouched
      rw [hset]; exact (mem_setInsert _ _ _).2 (Or.inl rfl)⟩, fun o ho h0 => by
      cases ho
      show r.obj ∈ (dictSysColAdd s r).schema.identifiersTouched
      rw [hid, if_neg h0]
      exact (mem_setInsert _ _ _).2 (Or.inl rfl)⟩
  | deferredStg r =>
    have h1 := dictSysDeferredStgAdd_returns s r h
    obtain ⟨ht, hset, hid⟩ := dictSysDeferredStgAdd_touch s r h1
    exact ⟨ht, fun _ => ⟨hset, by
      show r.rowId ∈ (dictSysDeferredStgAdd s r).schema.sysDeferredStgSetTouched
      rw [hset]; exact (mem_setInsert _ _ _).2 (Or.inl rfl)⟩, fun o ho h0 => by
      cases ho
      show r.obj ∈ (dictSysDeferredStgAdd s r).schema.identifiersTouched
      rw [hid, if_neg h0]
      exact (mem_setInsert _ _ _).2 (Or.inl rfl)⟩
  | ecol r =>
    have h1 := dictSysEColAdd_returns s r h
    obtain ⟨ht, hset, hid⟩ := dictSysEColAdd_touch s r h1
    exact ⟨ht, fun _ => ⟨hset, by
      show r.rowId ∈ (dictSysEColAdd s r).schema.sysEColSetTouched
      rw [hset]; exact (mem_setInsert _ _ _).2 (Or.inl rfl)⟩, fun o ho h0 => by
      cases ho
      show r.tabObj ∈ (dictSysEColAdd s r).schema.identifiersTouched
      rw [hid, if_neg h0]
      exact (mem_setInsert _ _ _).2 (Or.inl rfl)⟩
  | lob r =>
    obtain ⟨h1, h2⟩ := dictSysLobAdd_returns s r h
    obtain ⟨ht, hset, hid⟩ := dictSysLobAdd_touch s r h1 h2
    exact ⟨ht, fun _ => ⟨hset, by
      show r.rowId ∈ (dictSysLobAdd s r).schema.sysLobSetTouched
      rw [hset]; exact (mem_setInsert _ _ _).2 (Or.inl rfl)⟩, fun o ho h0 => by
      cases ho
      show r.obj ∈ (dictSysLobAdd s r).schema.identifiersTouched
      rw [hid, if_neg h0]
      exact (mem_setInsert _ _ _).2 (Or.inl rfl)⟩
  | lobCompPart r =>
    obtain ⟨h1, h2⟩ := dictSysLobCompPartAdd_returns s r h
    obtain ⟨ht, hset⟩ := dictSysLobCompPartAdd_touch s r h1 h2
    exact ⟨ht, fun _ => ⟨hset, by
      show r.rowId ∈ (dictSysLobCompPartAdd s r).schema.sysLobCompPartSetTouched
      rw [hset]; exact (mem_setInsert _ _ _).2 (Or.inl rfl)⟩, fun o ho => by cases ho⟩
  | lobFrag r =>
    have h1 := dictSysLobFragAdd_returns s r h
    obtain ⟨ht, hset⟩ := dictSysLobFragAdd_touch s r h1
    exact ⟨ht, fun _ => ⟨hset, by
      show r.rowId ∈ (dictSysLobFragAdd s r).schema.sysLobFragSetTouched
      rw [hset]; exact (mem_setInsert _ _ _).2 (Or.inl rfl)⟩, fun o ho => by cases ho⟩
  | obj r =>
    obtain ⟨h1, h2⟩ := dictSysObjAdd_returns s r h
    obtain ⟨ht, hset, hid⟩ := dictSysObjAdd_touch s r h1 h2
    exact ⟨ht, fun _ => ⟨hset, by
      show r.rowId ∈ (dictSysObjAdd s r).schema.sysObjSetTouched
      rw [hset]; exact (mem_setInsert _ _ _).2 (Or.inl rfl)⟩, fun o ho h0 => by
      cases ho
      show r.obj ∈ (dictSysObjAdd s r).schema.identifiersTouched
      rw [hid, if_neg h0]
      exact (mem_setInsert _ _ _).2 (Or.inl rfl)⟩
  | tab r =>
    have h1 := dictSysTabAdd_returns s r h
    obtain ⟨ht, hset, hid⟩ := dictSysTabAdd_touch s r h1
    exact ⟨ht, fun _ => ⟨hset, by
      show r.rowId ∈ (dictSysTabAdd s r).schema.sysTabSetTouched
      rw [hset]; exact (mem_setInsert _ _ _).2 (Or.inl rfl)⟩, fun o ho h0 => by
      cases ho
      show r.obj ∈ (dictSysTabAdd s r).schema.identifiersTouched
      rw [hid, if_neg h0]
      exact (mem_setInsert _ _ _).2 (Or.inl rfl)⟩
  | tabComPart r =>
    obtain ⟨h1, h2⟩ := dictSysTabComPartAdd_returns s r h
    obtain ⟨ht, hset, hid⟩ := dictSysTabComPartAdd_touch s r h1 h2
    exact ⟨ht, fun _ => ⟨hset, by
      show r.rowId ∈ (dictSysTabComPartAdd s r).schema.sysTabComPartSetTouched
      rw [hset]; exact (mem_setInsert _ _ _).2 (Or.inl rfl)⟩, fun o ho h0 => by
      cases ho
      show r.bo ∈ (dictSysTabComPartAdd s r).schema.identifiersTouched
      rw [hid, if_neg h0]
      exact (mem_setInsert _ _ _).2 (Or.inl rfl)⟩
  | tabPart r =>
    have h1 := dictSysTabPartAdd_returns s r h
    obtain ⟨ht, hset, hid⟩ := dictSysTabPartAdd_touch s r h1
    exact ⟨ht, fun _ => ⟨hset, by
      show r.rowId ∈ (dictSysTabPartAdd s r).schema.sysTabPartSetTouched
      rw [hset]; exact (mem_setInsert _ _ _).2 (Or.inl rfl)⟩, fun o ho h0 => by
      cases ho
      show r.bo ∈ (dictSysTabPartAdd s r).schema.identifiersTouched
      rw [hid, if_neg h0]
      exact (mem_setInsert _ _ _).2 (Or.inl rfl)⟩
  | tabSubPart r =>
    have h1 := dictSysTabSubPartAdd_returns s r h
    obtain ⟨ht, hset⟩ := dictSysTabSubPartAdd_touch s r h1
    exact ⟨ht, fun _ => ⟨hset, by
      show r.rowId ∈ (dictSysTabSubPartAdd s r).schema.sysTabSubPartSetTouched
      rw [hset]; exact (mem_setInsert _ _ _).2 (Or.inl rfl)⟩, fun o ho => by cases ho⟩
  | ts r =>
    have h1 := dictSysTsAdd_returns s r h
    have ht := dictSysTsAdd_touch s r h1
    exact ⟨ht, fun hk => absurd rfl hk, fun o ho => by cases ho⟩
  | user r =>
    have h1 := dictSysUserAdd_returns s r h
    obtain ⟨ht, hset⟩ := dictSysUserAdd_touch s r h1
    exact ⟨ht, fun _ => ⟨hset, by
      show r.rowId ∈ (dictSysUserAdd s r).schema.sysUserSetTouched
      rw [hset]; exact (mem_setInsert _ _ _).2 (Or.inl rfl)⟩, fun o ho => by cases ho⟩

/-- The add of the OBJ$ row of scenario S1 to the empty schema touches the row
and object 100. -/
theorem dictAdd_touch_witness :
    (dictSysObjAdd Schema.empty sampleObj).ret = .ok () ∧
      (dictSysObjAdd Schema.empty sampleObj).schema.touched = true ∧
      "AAAA" ∈ (dictSysObjAdd Schema.empty sampleObj).schema.sysObjSetTouched ∧
      100 ∈ (dictSysObjAdd Schema.empty sampleObj).schema.identifiersTouched :=
  ⟨by decide, (dictAdd_touch Schema.empty (.obj sampleObj) (by decide)).1,
    ((dictAdd_touch Schema.empty (.obj sampleObj) (by decide)).2.1 (by decide)).2,
    (dictAdd_touch Schema.empty (.obj sampleObj) (by decide)).2.2 100 rfl (by decide)⟩


/-- C24: `touchTable(0)` changes nothing.  For `obj != 0`, `touchTable(obj)` inserts
`obj` into `identifiersTouched`, inserts the descriptor `tableMap[obj]` into
`tablesTouched` when `tableMap` has an entry for `obj` and leaves
`tablesTouched` as it is when it has none, and changes nothing else; a second
call changes nothing more. -/
theorem touchTable_effect (s : Schema) (obj : Nat) :
    touchTable s 0 = s ∧
      (obj ≠ 0 →
        touchTable s obj =
          { s with
            identifiersTouched := setInsert obj s.identifiersTouched
            tablesTouched :=
              match s.tableMap.find obj with
              | some table => setInsertLast table s.tablesTouched
              | none => s.tablesTouched } ∧
        (∀ x, x ∈ (touchTable s obj).identifiersTouched ↔ x = obj ∨ x ∈ s.identifiersTouched) ∧
        (∀ t, t ∈ (touchTable s obj).tablesTouched ↔
          s.tableMap.find obj = some t ∨ t ∈ s.tablesTouched)) ∧
      touchTable (touchTable s obj) obj = touchTable s obj := by
  refine ⟨rfl, fun h => ⟨touchTable_of_ne_zero s obj h, fun x => ?_, fun t => ?_⟩, ?_⟩
  · rw [touchTable_identifiersTouched, if_neg h]
    exact mem_setInsert _ _ _
  · rw [touchTable_of_ne_zero s obj h]
    cases hfind : s.tableMap.find obj with
    | none => simp
    | some table =>
      simp only [Option.some.injEq]
      rw [mem_setInsertLast]
      constructor
      · rintro (h1 | h1)
        · exact Or.inl h1.symm
        · exact Or.inr h1
      · rintro (h1 | h1)
        · exact Or.inl h1.symm
        · exact Or.inr h1
  · by_cases h : obj = 0
    · subst h; rfl
    · rw [touchTable_of_ne_zero (touchTable s obj) obj h, touchTable_of_ne_zero s obj h]
      dsimp only
      rw [setInsert_setInsert]
      cases hfind : s.tableMap.find obj with
      | none => rfl
      | some table =>
        dsimp only
        rw [setInsertLast_setInsertLast]

/-- Touching object 100, whose descriptor `tableMap` has, after object 7. -/
theorem touchTable_effect_witness :
    touchTable schemaTable 0 = schemaTable ∧
      (touchTable schemaTable 100).identifiersTouched = [7, 100] ∧
      (touchTable schemaTable 100).tablesTouched = [sampleTable] ∧
      (∀ x, x ∈ (touchTable schemaTable 100).identifiersTouched ↔
        x = 100 ∨ x ∈ schemaTable.identifiersTouched) ∧
      touchTable (touchTable schemaTable 100) 100 = touchTable schemaTable 100 :=
  ⟨(touchTable_effect schemaTable 100).1, by decide, by decide,
    ((touchTable_effect schemaTable 100).2.1 (by decide)).2.1,
    (touchTable_effect schemaTable 100).2.2⟩

theorem packObj2_eq (obj dataObj : Nat) (ho : obj < 2 ^ 32) (hd : dataObj < 2 ^ 32) :
    packObj2 obj dataObj = 2 ^ 32 * obj + dataObj := by
  unfold packObj2
  rw [Nat.shiftLeft_eq, Nat.mul_comm obj, ← Nat.mul_add_lt_is_or hd]
  apply Nat.mod_eq_of_lt
  have h1 : obj ≤ 2 ^ 32 - 1 := Nat.le_pred_of_lt ho
  calc 2 ^ 32 * obj + dataObj
      < 2 ^ 32 * obj + 2 ^ 32 := Nat.add_lt_add_left hd _
    _ = 2 ^ 32 * (obj + 1) := by ring
    _ ≤ 2 ^ 32 * 2 ^ 32 := Nat.mul_le_mul_left _ ho
    _ = 2 ^ 64 := by norm_num

/-- C28: `addTableToDict(table)` raises DataException 50031 if and only if
`tableMap` has an entry for `table.obj`, and then it leaves `tableMap`,
`tablePartitionMap`, `lobIndexMap` and `lobPartitionMap` (the whole schema) as
they were. -/
theorem addTableToDict_duplicate (s : Schema) (table : OracleTable) :
    ((addTableToDict s table).ret = .error ⟨50031⟩ ↔
        (s.tableMap.find table.obj).isSome = true) ∧
      ((s.tableMap.find table.obj).isSome = true →
        SameTableDict s (addTableToDict s table).schema ∧ (addTableToDict s table).schema = s) := by
  have hstored : (s.tableMap.find table.obj).isSome = true →
      (addTableToDict s table).ret = .error ⟨50031⟩ ∧ (addTableToDict s table).schema = s := by
    intro h
    obtain ⟨x, hx⟩ := Option.isSome_iff_exists.1 h
    simp only [addTableToDict, hx, and_self]
  refine ⟨⟨fun h => ?_, fun h => (hstored h).1⟩, fun h => ?_⟩
  · rcases addTableToDict_error s table _ h with ⟨_, h2, _⟩ | ⟨h1, _⟩
    · exact h2
    · rcases h1 with h1 | h1 | h1 <;> cases h1
  · rw [(hstored h).2]
    exact ⟨⟨rfl, rfl, rfl, rfl⟩, rfl⟩

/-- A second descriptor for object 100. -/
theorem addTableToDict_duplicate_witness :
    (schemaTable.tableMap.find 100).isSome = true ∧
      (addTableToDict schemaTable sampleTableLob).ret = .error ⟨50031⟩ ∧
      (addTableToDict schemaTable sampleTableLob).schema = schemaTable :=
  ⟨by decide, (addTableToDict_duplicate schemaTable sampleTableLob).1.2 (by decide),
    ((addTableToDict_duplicate schemaTable sampleTableLob).2 (by decide)).2⟩

/-- C29, counterexample: `lobPartitionMap` has data object 220 for a LOB of another
table.  `addTableToDict` of a descriptor whose LOB has the partition 220 returns
without raising and passes 220 over; `removeTableFromDict` of the descriptor
then returns and has erased 220, which was in `lobPartitionMap` before the
add. -/
theorem removeTableFromDict_not_restored_counterexample :
    (schemaLobPartition.lobPartitionMap.find 220).isSome = true ∧
      (addTableToDict schemaLobPartition sampleTableLob).ret = .ok () ∧
      (removeTableFromDict (addTableToDict schemaLobPartition sampleTableLob).schema
        sampleTableLob).ret = .ok () ∧
      (removeTableFromDict (addTableToDict schemaLobPartition sampleTableLob).schema
        sampleTableLob).schema.lobPartitionMap.find 220 = none ∧
      ¬ SameTableDict schemaLobPartition
        (removeTableFromDict (addTableToDict schemaLobPartition sampleTableLob).schema
          sampleTableLob).schema := by
  decide

/-- C29, amended: for every schema and every descriptor for which
`addTableToDict(table)` returns without raising, `removeTableFromDict(table)`
then returns without raising and restores `tableMap`, `tablePartitionMap` and
`lobIndexMap` to exactly their contents before the add; `lobPartitionMap` is
afterwards what it was before the add without the entries at the data objects
of the LOB partitions of the table, so it is restored too when none of these
data objects had an entry before the add, and then the whole schema is what it
was. -/
theorem removeTableFromDict_addTableToDict (s : Schema) (table : OracleTable)
    (hadd : (addTableToDict s table).ret = .ok ()) :
    (removeTableFromDict (addTableToDict s table).schema table).ret = .ok () ∧
      (removeTableFromDict (addTableToDict s table).schema table).schema.tableMap
        = s.tableMap ∧
      (removeTableFromDict (addTableToDict s table).schema table).schema.tablePartitionMap
        = s.tablePartitionMap ∧
      (removeTableFromDict (addTableToDict s table).schema table).schema.lobIndexMap
        = s.lobIndexMap ∧
      (removeTableFromDict (addTableToDict s table).schema table).schema.lobPartitionMap
        = s.lobPartitionMap.eraseAll (lobPartitionObjs table.lobs) ∧
      ((∀ dataObj ∈ lobPartitionObjs table.lobs, s.lobPartitionMap.find dataObj = none) →
        SameTableDict s (removeTableFromDict (addTableToDict s table).schema table).schema ∧
        (removeTableFromDict (addTableToDict s table).schema table).schema = s) := by
  obtain ⟨hfresh, mi, mp, mt, hs, hI, hP, hT⟩ := addTableToDict_ok s table hadd
  obtain ⟨hIn, _, hIp, _, hIe⟩ := hI
  obtain ⟨hTn, _, hTp, _, hTe⟩ := hT
  obtain ⟨hret, hrem⟩ := removeTableFromDict_spec (addTableToDict s table).schema table hTn
    (by rw [hs]; exact hTp) hIn (by rw [hs]; exact hIp)
    (by rw [hs]; simp only []; rw [Map.find_set_self]; rfl)
  refine ⟨hret, ?_⟩
  rw [hrem, hs]
  simp only []
  rw [hTe, hIe, hP, Map.erase_set_of_find_none _ _ _ hfresh]
  refine ⟨rfl, rfl, rfl, rfl, fun habsent => ?_⟩
  rw [Map.eraseAll_of_absent _ _ habsent]
  exact ⟨⟨rfl, rfl, rfl, rfl⟩, rfl⟩

/-- The descriptor of table 100 with a LOB and two partitions, added to the empty
schema and removed. -/
theorem removeTableFromDict_addTableToDict_witness :
    (addTableToDict Schema.empty sampleTableLob).ret = .ok () ∧
      (removeTableFromDict (addTableToDict Schema.empty sampleTableLob).schema
        sampleTableLob).ret = .ok () ∧
      (removeTableFromDict (addTableToDict Schema.empty sampleTableLob).schema
        sampleTableLob).schema = Schema.empty :=
  ⟨by decide,
    (removeTableFromDict_addTableToDict Schema.empty sampleTableLob (by decide)).1,
    ((removeTableFromDict_addTableToDict Schema.empty sampleTableLob (by decide)).2.2.2.2.2
      (by decide)).2⟩

/-- C30: the packing of a partition is invertible.  For all 32-bit `obj` and
`dataObj`, the 64-bit value with `obj` in the high 32 bits and `dataObj` in the
low 32 bits is unpacked by `objx >> 32` and `objx & 0xFFFFFFFF`, as
`addTableToDict` and `removeTableFromDict` do, to `obj` and `dataObj`. -/
theorem unpack_packObj2 (obj dataObj : Nat) (ho : obj < 2 ^ 32) (hd : dataObj < 2 ^ 32) :
    unpackObj (packObj2 obj dataObj) = obj ∧ unpackDataObj (packObj2 obj dataObj) = dataObj := by
  rw [packObj2_eq obj dataObj ho hd]
  constructor
  · unfold unpackObj
    rw [Nat.shiftRight_eq_div_pow, Nat.mul_add_div (by norm_num), Nat.div_eq_of_lt hd,
      Nat.add_zero]
    exact Nat.mod_eq_of_lt ho
  · unfold unpackDataObj
    have hmask : 0xFFFFFFFF = 2 ^ 32 - 1 := by norm_num
    rw [hmask, Nat.and_pow_two_sub_one_eq_mod, Nat.mod_mod, Nat.mul_add_mod]
    exact Nat.mod_eq_of_lt hd

/-- The partition with object 110 and data object 1110, and the greatest
values. -/
theorem unpack_packObj2_witness :
    (unpackObj (packObj2 110 1110) = 110 ∧ unpackDataObj (packObj2 110 1110) = 1110) ∧
      (unpackObj (packObj2 4294967295 4294967295) = 4294967295 ∧
        unpackDataObj (packObj2 4294967295 4294967295) = 4294967295) :=
  ⟨unpack_packObj2 110 1110 (by norm_num) (by norm_num),
    unpack_packObj2 4294967295 4294967295 (by norm_num) (by norm_num)⟩


/-! #### C26: comparing two schemas -/

/-- C26: on schemas whose primary maps hold every record under its own rowId,
`compare` returns true exactly when, for each of the fifteen kinds, the two
primary maps have the same rowIds and the records under each rowId do not
differ by the operator `!=` of their class; when these operators are those of
equalities, the value returned is the same with the two schemas exchanged, and
a schema compared with itself gives true. -/
theorem compare_iff (ne : RecordNe) (a b : Schema) (msgs : String)
    (ha : ∀ k, PrimaryOk k a) (hb : ∀ k, PrimaryOk k b) :
    ((compare ne a b msgs).1 = true ↔ ∀ k, SamePrimary ne k a b) ∧
    (ne.Ok → (∀ msgs2, (compare ne a b msgs).1 = (compare ne b a msgs2).1) ∧
      (compare ne a a msgs).1 = true) := by
  refine ⟨compare_true_iff ne a b msgs ha hb, fun hne => ⟨?_, ?_⟩⟩
  · intro msgs2
    rw [Bool.eq_iff_iff, compare_true_iff ne a b msgs ha hb, compare_true_iff ne b a msgs2 hb ha]
    exact ⟨fun h k => samePrimary_symm hne (h k), fun h k => samePrimary_symm hne (h k)⟩
  · rw [compare_true_iff ne a a msgs ha ha]
    exact fun k => samePrimary_refl ne hne k a

/-- C26 at the schema of scenario S1 and the same schema with the object under
another name, with the operators that compare all the fields. -/
theorem compare_iff_witness :
    (∀ k, PrimaryOk k schemaObj) ∧ (∀ k, PrimaryOk k schemaObjRenamed) ∧ RecordNe.fields.Ok ∧
    ((compare RecordNe.fields schemaObj schemaObjRenamed "").1 = true ↔
      ∀ k, SamePrimary RecordNe.fields k schemaObj schemaObjRenamed) ∧
    (∀ msgs2, (compare RecordNe.fields schemaObj schemaObjRenamed "").1 =
      (compare RecordNe.fields schemaObjRenamed schemaObj msgs2).1) ∧
    (compare RecordNe.fields schemaObj schemaObj "").1 = true :=
  have h := compare_iff RecordNe.fields schemaObj schemaObjRenamed ""
    (fun k => by cases k <;> decide) (fun k => by cases k <;> decide)
  ⟨fun k => by cases k <;> decide, fun k => by cases k <;> decide, RecordNe.fields_ok, h.1,
    h.2 RecordNe.fields_ok⟩


/-! #### C27: emptying the schema -/

/-- C27: from a state in which the secondary maps of every kind agree with its
primary map, the columns of COL$ are under their own rowIds with entries of
`sysColMapSeg` for `segCol > 0` only, and the descriptor maps hold what
`addTableToDict` registers for the descriptors of `tableMap`, `purge` with fuel
above the size of the schema returns without raising, reports no error 50029
and leaves the empty schema (every map and every touched set empty,
`touched = false`) with `scn = ZERO_SCN`. -/
theorem purge_empties (zeroScn fuel : Nat) (s : Schema) (hc : ∀ k, Consistent k s)
    (hcol : ColSegOk s) (hd : DescOk s) (hfuel : s.size < fuel) :
    purge zeroScn fuel s =
      some { schema := Schema.empty, scn := zeroScn, reported := [], ret := .ok () } := by
  obtain ⟨s1, h1, t1, t2, t3, t4, hsame⟩ := purgeTables_ok fuel s hd (by
    simp only [Schema.size] at hfuel
    omega)
  have hs1 : ({ s1 with
      lobPartitionMap := Map.empty
      lobIndexMap := Map.empty
      tablePartitionMap := Map.empty } : Schema) = s1 := by
    cases s1
    simp only [Schema.mk.injEq] at *
    simp only [t2, t3, t4, and_self]
  obtain ⟨s2, g1, g2, g3, g4⟩ := purgeKinds_ok zeroScn fuel purgeOrder s1 []
    (by decide) (fun k _ => Consistent.of_sameMaps (hsame k) (hc k))
    (colSegOk_of_sameMaps (hsame .COL) hcol)
    (fun k _ => by
      rw [primarySize_of_sameMaps (hsame k)]
      exact Nat.lt_of_le_of_lt (primarySize_le_size k s) hfuel)
  unfold purge
  simp only [h1, t2, t3, t4, reportLeft, Map.empty]
  simp only [Map.empty] at hs1 t2 t3 t4
  rw [hs1, g1]
  rw [resetTouched_eq_empty s2 (fun k => g2 k (mem_purgeOrder k)) ?_]
  simp only [SameTableDict, ← g4.1, ← g4.2.1, ← g4.2.2.1, ← g4.2.2.2, t1, t2, t3, t4,
    Schema.empty, Map.empty, and_self]

/-- C27 at the schema of scenario S1 with a table that has a LOB and two
partitions. -/
theorem purge_empties_witness :
    (∀ k, Consistent k schemaObjTable) ∧ ColSegOk schemaObjTable ∧ DescOk schemaObjTable ∧
    schemaObjTable.size < 3 ∧
    purge 18446744073709551615 3 schemaObjTable =
      some { schema := Schema.empty, scn := 18446744073709551615, reported := [],
             ret := .ok () } :=
  have hc : ∀ k, Consistent k schemaObjTable := fun k =>
    Consistent.of_sameMaps (show SameMaps k schemaObj schemaObjTable by cases k <;> decide) (by
      by_cases hk : k = Kind.COL
      · subst hk
        exact Consistent.of_sameMaps (show SameMaps Kind.COL Schema.empty schemaObj by decide)
          (Consistent.at_empty _)
      · exact dictAddStr_consistent sampleLimits Schema.empty (.obj sampleObj) k hk
          (Consistent.at_empty k) (by decide))
  have hcol : ColSegOk schemaObjTable :=
    ⟨fun _ _ h => (by cases h), fun _ _ h => (by cases h)⟩
  ⟨hc, hcol, by decide, by decide,
    purge_empties 18446744073709551615 3 schemaObjTable hc hcol (by decide) (by decide)⟩


/-! ### `sortQueue` on a heap -/

/-- C40: `sortQueue` leaves `currentQueueSize` unchanged and the new queue is a
permutation of the old one, for every queue; if the old queue satisfies the
min-heap property on id, the new queue is in ascending order of id. -/
theorem sortQueue_sorts (fresh : Nat → Ptr) (mem : Ptr → BuilderMsg) (w : Writer) :
    (sortQueue fresh mem w).currentQueueSize = w.currentQueueSize ∧
      (queueList (sortQueue fresh mem w).queue w.currentQueueSize).Perm
        (queueList w.queue w.currentQueueSize) ∧
      (IsMinHeap mem w.queue w.currentQueueSize →
        (queueList (sortQueue fresh mem w).queue w.currentQueueSize).Pairwise
          fun a b => (mem a).id ≤ (mem b).id) := by
  unfold sortQueue
  split_ifs with h0
  · refine ⟨rfl, List.Perm.refl _, fun _ => ?_⟩
    rw [h0]
    exact List.Pairwise.nil
  · refine ⟨rfl, ?_, fun hheap => ?_⟩
    · have := (sortLoop_perm mem w.currentQueueSize 0 w.queue fresh).2
      rw [queueSegment_zero_start] at this
      exact this
    · have := sortLoop_sorted mem w.currentQueueSize 0 w.queue fresh hheap
      rw [queueSegment_zero_start] at this
      exact this

/-- The heap 1, 3, 2, 7, 4, 5 is sorted into 1, 2, 3, 4, 5, 7. -/
theorem sortQueue_sorts_witness :
    IsMinHeap memAscending (fun i => [1, 3, 2, 7, 4, 5].getD i 0) 6 ∧
      queueList (sortQueue (fun _ => 0) memAscending
        { sampleWriter with currentQueueSize := 6,
                            queue := fun i => [1, 3, 2, 7, 4, 5].getD i 0 }).queue 6
        = [1, 2, 3, 4, 5, 7] ∧
      (queueList (sortQueue (fun _ => 0) memAscending
        { sampleWriter with currentQueueSize := 6,
                            queue := fun i => [1, 3, 2, 7, 4, 5].getD i 0 }).queue 6).Pairwise
          fun a b => (memAscending a).id ≤ (memAscending b).id :=
  ⟨by decide, by decide,
    (sortQueue_sorts (fun _ => 0) memAscending
      { sampleWriter with currentQueueSize := 6,
                          queue := fun i => [1, 3, 2, 7, 4, 5].getD i 0 }).2.2 (by decide)⟩


/-! ### One removal of the head by `confirmMessage` -/

theorem siftLoopIndices_le (mem : Ptr → BuilderMsg) (size : Nat) :
    ∀ (fuel : Nat) (queue : Nat → Ptr) (i : Nat),
      ∀ j ∈ siftLoopIndices mem size fuel queue i, j ≤ size := by
  intro fuel
  induction fuel with
  | zero => intro queue i j hj; cases hj
  | succ fuel ih =>
    intro queue i j hj
    rw [siftLoopIndices] at hj
    by_cases hi : i < size
    · rw [if_pos hi] at hj
      simp only [] at hj
      by_cases hR : i * 2 + 2 < size ∧ (mem (queue (i * 2 + 2))).id < (mem (queue size)).id
      · rw [if_pos hR, if_pos hR.1] at hj
        by_cases hLR : (mem (queue (i * 2 + 1))).id < (mem (queue (i * 2 + 2))).id
        · rw [if_pos hLR] at hj
          simp only [List.mem_append, List.mem_cons, List.mem_singleton, List.not_mem_nil,
            or_false] at hj
          rcases hj with (h | h) | h
          · omega
          · omega
          · exact ih _ _ j h
        · rw [if_neg hLR] at hj
          simp only [List.mem_append, List.mem_cons, List.mem_singleton, List.not_mem_nil,
            or_false] at hj
          rcases hj with (h | h) | h
          · omega
          · omega
          · exact ih _ _ j h
      · rw [if_neg hR] at hj
        have hfirst : ∀ x ∈ (if i * 2 + 2 < size then [i * 2 + 2, size] else []), x ≤ size := by
          intro x hx
          by_cases h2 : i * 2 + 2 < size
          · rw [if_pos h2] at hx
            simp only [List.mem_cons, List.mem_singleton, List.not_mem_nil, or_false] at hx
            omega
          · rw [if_neg h2] at hx
            cases hx
        have hsecond : ∀ x ∈ (if i * 2 + 1 < size then [i * 2 + 1, size] else []), x ≤ size := by
          intro x hx
          by_cases h2 : i * 2 + 1 < size
          · rw [if_pos h2] at hx
            simp only [List.mem_cons, List.mem_singleton, List.not_mem_nil, or_false] at hx
            omega
          · rw [if_neg h2] at hx
            cases hx
        by_cases hL : i * 2 + 1 < size ∧ (mem (queue (i * 2 + 1))).id < (mem (queue size)).id
        · rw [if_pos hL] at hj
          simp only [List.mem_append, List.mem_cons, List.mem_singleton, List.not_mem_nil,
            or_false] at hj
          rcases hj with ((h | h) | h) | h
          · exact hfirst j h
          · exact hsecond j h
          · omega
          · exact ih _ _ j h
        · rw [if_neg hL] at hj
          rcases List.mem_append.1 hj with h | h
          · exact hfirst j h
          · exact hsecond j h
    · rw [if_neg hi] at hj
      cases hj

/-- C37: when `queue[0..n)` with `n >= 1` satisfies the min-heap property on id and
its head is CONFIRMED, one turn of the loop of `confirmMessage` removes the
head: the queue then holds the former messages without the head, `n - 1` of
them, and satisfies the min-heap property again, and every index of `queue`
that the turn reads or writes is below `n`; for `n = 1` the queue becomes
empty and for `n = 2` the former second message becomes the head. -/
theorem popLoop_once (k : Consts) (mem : Ptr → BuilderMsg) (s : PopState)
    (hn : 1 ≤ s.currentQueueSize) (hheap : IsMinHeap mem s.queue s.currentQueueSize)
    (hc : IsConfirmed k mem (s.queue 0)) :
    (popLoop k mem 1 s).currentQueueSize = s.currentQueueSize - 1 ∧
      (popLoop k mem 1 s).popped = s.popped ++ [s.queue 0] ∧
      (s.queue 0 :: queueList (popLoop k mem 1 s).queue (s.currentQueueSize - 1)).Perm
        (queueList s.queue s.currentQueueSize) ∧
      IsMinHeap mem (popLoop k mem 1 s).queue (s.currentQueueSize - 1) ∧
      (∀ j ∈ popIndices k mem s, j < s.currentQueueSize) ∧
      (s.currentQueueSize = 1 → (popLoop k mem 1 s).currentQueueSize = 0) ∧
      (s.currentQueueSize = 2 → (popLoop k mem 1 s).queue 0 = s.queue 1) := by
  have hcond : s.currentQueueSize > 0 ∧
      (mem (s.queue 0)).flags &&& k.OUTPUT_BUFFER_CONFIRMED ≠ 0 := ⟨hn, hc⟩
  have hidx : ∀ j ∈ popIndices k mem s, j < s.currentQueueSize := by
    intro j hj
    unfold popIndices at hj
    rw [if_pos hcond.1, if_pos hcond.2] at hj
    by_cases h0 : s.currentQueueSize - 1 = 0
    · rw [if_pos h0] at hj
      simp only [List.mem_cons, List.mem_singleton, List.not_mem_nil, or_false, or_self] at hj
      omega
    · rw [if_neg h0] at hj
      rcases List.mem_append.1 hj with h | h
      · simp only [List.mem_cons, List.mem_singleton, List.not_mem_nil, or_false,
          or_self] at h
        omega
      · unfold siftDownIndices at h
        rcases List.mem_append.1 h with h | h
        · have := siftLoopIndices_le mem _ _ _ _ j h
          omega
        · simp only [List.mem_cons, List.mem_singleton, List.not_mem_nil, or_false] at h
          have := (siftLoop_perm mem (s.currentQueueSize - 1) (s.currentQueueSize - 1)
            s.queue 0 (by omega)).1
          omega
  have hpop : popLoop k mem 1 s =
      if s.currentQueueSize - 1 = 0 then
        { s with maxId := (mem (s.queue 0)).queueId, confirmedScn := (mem (s.queue 0)).scn,
                 popped := s.popped ++ [s.queue 0],
                 currentQueueSize := s.currentQueueSize - 1 }
      else
        { queue := siftDown mem (s.currentQueueSize - 1) s.queue
          currentQueueSize := s.currentQueueSize - 1
          confirmedScn := (mem (s.queue 0)).scn
          maxId := (mem (s.queue 0)).queueId
          popped := s.popped ++ [s.queue 0] } := by
    rw [popLoop, if_pos hcond]
    rfl
  rw [hpop]
  by_cases h0 : s.currentQueueSize - 1 = 0
  · rw [if_pos h0]
    have h1 : s.currentQueueSize = 1 := by omega
    refine ⟨rfl, rfl, ?_, ?_, hidx, fun _ => h0, fun h2 => by omega⟩
    · show (s.queue 0 :: queueList s.queue (s.currentQueueSize - 1)).Perm _
      rw [h0, h1]
      exact List.Perm.refl _
    · show IsMinHeap mem s.queue (s.currentQueueSize - 1)
      rw [h0]
      intro i hi
      exact absurd hi (Nat.not_lt_zero _)
  · rw [if_neg h0]
    refine ⟨rfl, rfl, ?_, ?_, hidx, fun h1 => by omega, fun h2 => ?_⟩
    · have := siftDown_perm mem s.queue (Nat.pos_of_ne_zero h0)
      rw [Nat.sub_add_cancel hn] at this
      exact this
    · exact siftDown_heap (Nat.pos_of_ne_zero h0) (hheap.mono (Nat.sub_le _ _))
    · have h1 : s.currentQueueSize - 1 = 1 := by omega
      show siftDown mem (s.currentQueueSize - 1) s.queue 0 = s.queue 1
      rw [h1]
      unfold siftDown
      simp [siftLoop]

/-- The heap 1, 3, 2, 7, 4, 5 of confirmed messages: one turn removes 1 and leaves
the heap 2, 3, 5, 7, 4, touching the slots 0 to 5 only. -/
theorem popLoop_once_witness :
    1 ≤ 6 ∧ IsMinHeap memConfirmed (fun i => [1, 3, 2, 7, 4, 5].getD i 0) 6 ∧
      IsConfirmed sampleConsts memConfirmed 1 ∧
      queueList (popLoop sampleConsts memConfirmed 1
        { queue := fun i => [1, 3, 2, 7, 4, 5].getD i 0, currentQueueSize := 6,
          confirmedScn := 0, maxId := 0, popped := [] }).queue 5 = [2, 3, 5, 7, 4] ∧
      IsMinHeap memConfirmed (popLoop sampleConsts memConfirmed 1
        { queue := fun i => [1, 3, 2, 7, 4, 5].getD i 0, currentQueueSize := 6,
          confirmedScn := 0, maxId := 0, popped := [] }).queue 5 ∧
      ∀ j ∈ popIndices sampleConsts memConfirmed
        { queue := fun i => [1, 3, 2, 7, 4, 5].getD i 0, currentQueueSize := 6,
          confirmedScn := 0, maxId := 0, popped := [] }, j < 6 :=
  have h := popLoop_once sampleConsts memConfirmed
    { queue := fun i => [1, 3, 2, 7, 4, 5].getD i 0, currentQueueSize := 6,
      confirmedScn := 0, maxId := 0, popped := [] } (by decide) (by decide) (by decide)
  ⟨by decide, by decide, by decide, by decide, h.2.2.2.1, h.2.2.2.2.1⟩


/-! ### The block size of a LOB -/

/-- C31: `getLobBlockSize(ts)` returns 8132, 16264 or 32528 and raises no warning
when the TS$ row for `ts` has the block size 8192, 16384 or 32768; when the
block size is another one, or there is no TS$ row for `ts`, it raises the
warning 60022 and returns 8132.  It leaves the schema as it is. -/
theorem getLobBlockSize_spec (s : Schema) (ts : Nat) :
    (getLobBlockSize s ts).schema = s ∧
      (∀ r, tsOfTs s ts = some r →
        (r.blockSize = 8192 →
          (getLobBlockSize s ts).value = 8132 ∧ (getLobBlockSize s ts).warnings = []) ∧
        (r.blockSize = 16384 →
          (getLobBlockSize s ts).value = 16264 ∧ (getLobBlockSize s ts).warnings = []) ∧
        (r.blockSize = 32768 →
          (getLobBlockSize s ts).value = 32528 ∧ (getLobBlockSize s ts).warnings = []) ∧
        (r.blockSize ≠ 8192 → r.blockSize ≠ 16384 → r.blockSize ≠ 32768 →
          (getLobBlockSize s ts).value = 8132 ∧
          (getLobBlockSize s ts).warnings.map Prod.fst = [60022])) ∧
      (tsOfTs s ts = none →
        (getLobBlockSize s ts).value = 8132 ∧
        (getLobBlockSize s ts).warnings.map Prod.fst = [60022]) := by
  refine ⟨?_, ?_, ?_⟩
  · unfold getLobBlockSize
    simp only []
    (repeat' split) <;> rfl
  · intro r hr
    unfold getLobBlockSize
    rw [hr]
    refine ⟨fun h => ?_, fun h => ?_, fun h => ?_, fun h1 h2 h3 => ?_⟩
    · simp [h]
    · simp [h]
    · simp [h]
    · simp [h1, h2, h3]
  · intro hr
    unfold getLobBlockSize
    rw [hr]
    exact ⟨rfl, rfl⟩

/-- The tablespace 4 with blocks of 16384 bytes, and the tablespace 5 that has no
row. -/
theorem getLobBlockSize_spec_witness :
    tsOfTs schemaTs 4 = some sampleTs ∧ sampleTs.blockSize = 16384 ∧
      ((getLobBlockSize schemaTs 4).value = 16264 ∧ (getLobBlockSize schemaTs 4).warnings = []) ∧
      tsOfTs schemaTs 5 = none ∧
      ((getLobBlockSize schemaTs 5).value = 8132 ∧
        (getLobBlockSize schemaTs 5).warnings.map Prod.fst = [60022]) :=
  ⟨by decide, by decide,
    ((getLobBlockSize_spec schemaTs 4).2.1 sampleTs (by decide)).2.1 (by decide),
    by decide, (getLobBlockSize_spec schemaTs 5).2.2 (by decide)⟩


/-! ### Touching by the rows of TABSUBPART$ -/

/-- C38: what the adds and drops of TABSUBPART$ touch.  The add and the drop look
`sysObjMapObj` up at the row's own `obj` and touch the `obj` of the OBJ$ row
found there; they look neither at `pObj` nor at TABCOMPART$.  An object id
`t` that is not in `identifiersTouched` and is not the `obj` of that OBJ$ row
is not in `identifiersTouched` afterwards, whatever TABCOMPART$ holds. -/
theorem dictSysTabSubPart_touch (s : Schema) (r : SysTabSubPart) (t : Nat)
    (ht : t ∉ s.identifiersTouched) (hobj : ∀ o, objOfObj s r.obj = some o → o.obj ≠ t) :
    t ∉ (dictSysTabSubPartAdd s r).schema.identifiersTouched ∧
      t ∉ (dictSysTabSubPartDrop s r).schema.identifiersTouched := by
  have key : ∀ u : Schema, u.identifiersTouched = s.identifiersTouched →
      u.sysObjMapObj = s.sysObjMapObj → u.sysObjMapRowId = s.sysObjMapRowId →
      t ∉ (match objOfObj u r.obj with
        | some sysObj => touchTable u sysObj.obj
        | none => u).identifiersTouched := by
    intro u h1 h2 h3
    rw [objOfObj_congr s u h2 h3]
    cases ho : objOfObj s r.obj with
    | none =>
      show t ∉ u.identifiersTouched
      rw [h1]
      exact ht
    | some o =>
      show t ∉ (touchTable u o.obj).identifiersTouched
      rw [touchTable_identifiersTouched, h1]
      by_cases h0 : o.obj = 0
      · rw [if_pos h0]
        exact ht
      · rw [if_neg h0, mem_setInsert]
        rintro (h | h)
        · exact hobj o ho h.symm
        · exact ht h
  constructor
  · unfold dictSysTabSubPartAdd
    simp only []
    split
    · exact ht
    · exact key _ rfl rfl rfl
  · unfold dictSysTabSubPartDrop
    simp only []
    split
    · exact ht
    · split
      · exact ht
      · exact key _ rfl rfl rfl

/-- The composite partition 400 of table 100 is stored and nothing is touched:
the add of the subpartition 500 of 400 leaves `identifiersTouched` empty, and
so does its drop. -/
theorem dictSysTabSubPart_touch_witness :
    Held schemaTabComPart (.tabComPart sampleTabComPart) ∧
      sampleTabSubPart.pObj = sampleTabComPart.obj ∧ sampleTabComPart.bo = 100 ∧
      schemaTabComPart.identifiersTouched = [] ∧
      (dictSysTabSubPartAdd schemaTabComPart sampleTabSubPart).ret = .ok () ∧
      (dictSysTabSubPartAdd schemaTabComPart sampleTabSubPart).schema.identifiersTouched = [] ∧
      Held schemaTabSubPart (.tabSubPart sampleTabSubPart) ∧
      (dictSysTabSubPartDrop schemaTabSubPart sampleTabSubPart).ret = .ok () ∧
      (dictSysTabSubPartDrop schemaTabSubPart sampleTabSubPart).schema.identifiersTouched = [] ∧
      100 ∉ (dictSysTabSubPartAdd schemaTabComPart sampleTabSubPart).schema.identifiersTouched ∧
      100 ∉ (dictSysTabSubPartDrop schemaTabSubPart sampleTabSubPart).schema.identifiersTouched :=
  ⟨by decide, by decide, by decide, by decide, by decide, by decide, by decide, by decide,
    by decide,
    (dictSysTabSubPart_touch schemaTabComPart sampleTabSubPart 100 (by decide)
      (fun o ho => by
        have h : objOfObj schemaTabComPart sampleTabSubPart.obj = none := by decide
        rw [h] at ho
        cases ho)).1,
    (dictSysTabSubPart_touch schemaTabSubPart sampleTabSubPart 100 (by decide)
      (fun o ho => by
        have h : objOfObj schemaTabSubPart sampleTabSubPart.obj = none := by decide
        rw [h] at ho
        cases ho)).2⟩


/-! ### The exceptions in the checkpoint thread -/

/-- C36: what `Checkpoint::run` does with an exception raised in its `try` block,
by `writeCheckpoint` or by `deleteOldCheckpoints`.  A `RuntimeException` and an
allocation failure are reported, `ctx->stopHard()` is called and `run` returns;
a `DataException` (or a `NetworkException`) meets no `catch` clause: nothing is
reported, `ctx->stopHard()` is not called and the exception leaves `run`. -/
theorem Checkpoint.run_raised (turns : List CheckpointTurn) (last : CheckpointEnd) (e : Raised)
    (h : Checkpoint.tryBlock turns last = some (.error e)) :
    (∀ code msg, e = .runtimeException code msg →
      Checkpoint.run turns last =
        some { errors := [(code, msg)], stopHard := true, ret := .ok () }) ∧
    (∀ what, e = .badAlloc what →
      Checkpoint.run turns last =
        some { errors := [(10018, "memory allocation failed: " ++ what)], stopHard := true,
               ret := .ok () }) ∧
    (∀ code msg, e = .dataException code msg →
      Checkpoint.run turns last =
        some { errors := [], stopHard := false, ret := .error e }) ∧
    (∀ code msg, e = .networkException code msg →
      Checkpoint.run turns last =
        some { errors := [], stopHard := false, ret := .error e }) := by
  unfold Checkpoint.run
  rw [h]
  refine ⟨?_, ?_, ?_, ?_⟩
  · rintro code msg rfl
    rfl
  · rintro what rfl
    rfl
  · rintro code msg rfl
    rfl
  · rintro code msg rfl
    rfl

/-- After one quiet turn `writeCheckpoint` raises the DataException 20001: the
exception leaves `run` and `ctx->stopHard()` is not called. -/
theorem Checkpoint.run_raised_witness :
    Checkpoint.tryBlock
        [quietTurn, { quietTurn with writeCheckpoint := some (.dataException 20001 "file") }]
        { softShutdown := false, writeCheckpoint := none }
      = some (.error (.dataException 20001 "file")) ∧
    Checkpoint.run
        [quietTurn, { quietTurn with writeCheckpoint := some (.dataException 20001 "file") }]
        { softShutdown := false, writeCheckpoint := none }
      = some { errors := [], stopHard := false,
               ret := .error (.dataException 20001 "file") } :=
  ⟨by decide,
    (Checkpoint.run_raised
      [quietTurn, { quietTurn with writeCheckpoint := some (.dataException 20001 "file") }]
      { softShutdown := false, writeCheckpoint := none } (.dataException 20001 "file")
      (by decide)).2.2.1 20001 "file" rfl⟩


theorem Option.eq_of_map_eq_ite {α β : Type} (f : α → β) (hf : Function.Injective f)
    (o : Option α) (c : Bool) (a : α)
    (h : o.map f = if c = true then some (f a) else none) :
    o = if c = true then some a else none := by
  cases c with
  | false =>
    simp only [Bool.false_eq_true, if_false] at h ⊢
    cases o with
    | none => rfl
    | some b => cases h
  | true =>
    simp only [if_true] at h ⊢
    cases o with
    | none => cases h
    | some b =>
      simp only [Option.map_some', Option.some.injEq] at h
      rw [hf h]

theorem touchedStored_rowId {s : Schema} (h : TouchedStored s) (k : Kind) (x : RowId)
    (hx : x ∈ touchedSet k s) (r : Row) (hr : rowOf k s x = some r) : r.rowId = x := by
  have := h k x hx
  rw [hr] at this
  simpa using this

theorem keepTouched_ownerObj (adaptive : Bool) (users : List String) (s : Schema) (r : Row)
    (o : Nat) (h : r.ownerObj = some o) :
    keepTouched adaptive users s r = (s.sysObjMapObj.find o).isSome := by
  cases r <;> simp only [Row.ownerObj, Option.some.injEq] at h <;>
    first
      | (subst h; rfl)
      | cases h

theorem mem_dropOrder_of_ownerObj (r : Row) (o : Nat) (h : r.ownerObj = some o) :
    r.kind ∈ dropOrder ∧ r.kind ≠ Kind.USER ∧ r.kind ≠ Kind.OBJ := by
  cases r <;> simp only [Row.ownerObj] at h <;>
    first
      | (cases h; done)
      | (refine ⟨?_, ?_, ?_⟩ <;> simp [Row.kind, dropOrder])

theorem schemaBefore_cons_ne (adaptive : Bool) (users : List String) (k k1 : Kind)
    (ks : List Kind) (s : Schema) (h : k ≠ k1) :
    schemaBefore adaptive users k (k1 :: ks) s =
      schemaBefore adaptive users k ks
        (dropTouched adaptive users k1 (touchedSet k1 s) s).schema := by
  simp only [schemaBefore, if_neg h]

theorem schemaBefore_cons_self (adaptive : Bool) (users : List String) (k : Kind)
    (ks : List Kind) (s : Schema) : schemaBefore adaptive users k (k :: ks) s = s := by
  simp only [schemaBefore, if_true]

/-- The passes after the pass over OBJ$ all see the `sysObjMapObj` that the pass
over OBJ$ left. -/
theorem schemaBefore_sysObjMapObj (adaptive : Bool) (users : List String) (k : Kind)
    (s : Schema) (h1 : k ≠ Kind.USER) (h2 : k ≠ Kind.OBJ) :
    (schemaBefore adaptive users k dropOrder s).sysObjMapObj =
      (schemaBefore adaptive users Kind.CCOL dropOrder s).sysObjMapObj := by
  have hd : dropOrder = Kind.USER :: Kind.OBJ :: Kind.CCOL :: dropOrder.drop 3 := rfl
  rw [hd, schemaBefore_cons_ne _ _ _ _ _ _ h1, schemaBefore_cons_ne _ _ _ _ _ _ h2,
    schemaBefore_cons_ne _ _ Kind.CCOL Kind.USER _ _ (by decide),
    schemaBefore_cons_ne _ _ Kind.CCOL Kind.OBJ _ _ (by decide), schemaBefore_cons_self]
  exact ((schemaBefore_sameMaps adaptive users k _ _ Kind.OBJ (by decide)).2.2).symm

/-- C35, counterexample: a CCOL$ row is added, the add of a second CCOL$ row with
the same key raises 50024 and the drop of that second row returns and takes
the entry of the first row out of `sysCColMapKey`; then a COL$ row of the same
table is added.  Every touched record is stored, and there is no OBJ$ row.
`dropUnusedMetadata` runs the passes over USER$ and OBJ$, which return, and
raises 50030 in the pass over CCOL$; the touched COL$ record is still stored,
although no OBJ$ row for its `obj` is stored after the OBJ$ pass. -/
theorem dropUnusedMetadata_raises_counterexample :
    (dictAddStr sampleLimits schemaCCol (.ccol sampleCColTwin)).ret = .error ⟨50024⟩ ∧
      (dictDrop (dictAddStr sampleLimits schemaCCol (.ccol sampleCColTwin)).schema
        (.ccol sampleCColTwin)).ret = .ok () ∧
      TouchedStored schemaCColUnindexed ∧
      "C1" ∈ schemaCColUnindexed.sysColSetTouched ∧
      schemaCColUnindexed.sysColMapRowId.find "C1" = some sampleCol ∧
      (dropKinds false [] [.USER, .OBJ] (afterTables schemaCColUnindexed)).ret = .ok () ∧
      (afterObjPass false [] schemaCColUnindexed).sysObjMapRowId = Map.empty ∧
      (afterObjPass false [] schemaCColUnindexed).sysObjMapObj.find sampleCol.obj = none ∧
      (dropUnusedMetadata false [] schemaCColUnindexed []).ret = .error ⟨50030⟩ ∧
      (dropUnusedMetadata false [] schemaCColUnindexed []).schema.sysColMapRowId.find "C1" =
        some sampleCol :=
  ⟨by decide, by decide, fun k => by cases k <;> decide, by decide, by decide, by decide,
    by decide, by decide, by decide, by decide⟩

/-- C35, amended: `dropUnusedMetadata(users, msgs)` is run from a state in which
every touched record is still stored, and returns without raising.  Then a
touched USER$ record stays stored when its name is in `users` and is dropped
otherwise; a touched OBJ$ record is dropped when `sysUserMapUser` has no entry
for its owner after the USER$ pass and the adaptive-schema flag is set, and
stays stored otherwise; a touched CCOL$, CDEF$, COL$, DEFERRED_STG$, LOB$ or
TAB$ record (by `obj`) or ECOL$ record (by `tabObj`) stays stored when
`sysObjMapObj` has an entry for that object id after the OBJ$ pass and is
dropped otherwise; and a rowId outside the touched set of its kind has the
record it had before. -/
theorem dropUnusedMetadata_passes (adaptive : Bool) (users : List String) (s : Schema)
    (msgs : List String) (hstored : TouchedStored s)
    (hret : (dropUnusedMetadata adaptive users s msgs).ret = .ok ()) :
    (∀ x ∈ s.sysUserSetTouched, ∀ r, s.sysUserMapRowId.find x = some r →
      (dropUnusedMetadata adaptive users s msgs).schema.sysUserMapRowId.find x =
        if r.name ∈ users then some r else none) ∧
    (∀ x ∈ s.sysObjSetTouched, ∀ r, s.sysObjMapRowId.find x = some r →
      (dropUnusedMetadata adaptive users s msgs).schema.sysObjMapRowId.find x =
        if (afterUserPass adaptive users s).sysUserMapUser.find r.owner = none ∧
            adaptive = true then none
        else some r) ∧
    (∀ k, ∀ x ∈ touchedSet k s, ∀ r o, rowOf k s x = some r → r.ownerObj = some o →
      rowOf k (dropUnusedMetadata adaptive users s msgs).schema x =
        if ((afterObjPass adaptive users s).sysObjMapObj.find o).isSome = true then some r
        else none) ∧
    (∀ k x, x ∉ touchedSet k s →
      rowOf k (dropUnusedMetadata adaptive users s msgs).schema x = rowOf k s x) := by
  have hsch := (dropTables_schema s.tablesTouched s msgs []).1
  have hrt := (dropTables_schema s.tablesTouched s msgs []).2
  cases hdt : (dropTables s.tablesTouched s msgs).ret with
  | error e =>
    simp only [dropUnusedMetadata, hdt] at hret
    cases hret
  | ok u =>
    have hfin : dropUnusedMetadata adaptive users s msgs =
        { schema := (dropKinds adaptive users dropOrder (afterTables s)).schema
          msgs := (dropTables s.tablesTouched s msgs).msgs
          ret := (dropKinds adaptive users dropOrder (afterTables s)).ret } := by
      simp only [dropUnusedMetadata, hdt, afterTables, hsch]
    rw [hfin] at hret ⊢
    simp only [] at hret ⊢
    have hrow0 : ∀ k x, rowOf k (afterTables s) x = rowOf k s x := fun k x =>
      rowOf_of_sameMaps (afterTables_sameMaps s k) x
    have hst : ∀ k ∈ dropOrder, ∀ x ∈ touchedSet k (afterTables s), ∀ r,
        rowOf k (afterTables s) x = some r → r.rowId = x := by
      intro k _ x hx r hr
      rw [afterTables_touchedSet] at hx
      rw [hrow0] at hr
      exact touchedStored_rowId hstored k x hx r hr
    obtain ⟨q1, q2, q3, q4, q5⟩ := dropKinds_spec adaptive users dropOrder (by decide)
      (afterTables s) hst
    have hpass : ∀ k ∈ dropOrder, ∀ x ∈ touchedSet k s, ∀ r, rowOf k s x = some r →
        rowOf k (dropKinds adaptive users dropOrder (afterTables s)).schema x =
          if keepTouched adaptive users
            (schemaBefore adaptive users k dropOrder (afterTables s)) r = true then some r
          else none := by
      intro k hk x hx r hr
      exact q5 hret k hk x (by rw [afterTables_touchedSet]; exact hx) r
        (by rw [hrow0]; exact hr)
    refine ⟨?_, ?_, ?_, ?_⟩
    · intro x hx r hr
      have h := hpass Kind.USER (by decide) x hx (.user r) (by
        simp only [rowOf, hr, Option.map_some'])
      simp only [rowOf, keepTouched] at h
      have h2 := Option.eq_of_map_eq_ite Row.user (fun a b e => by injection e) _ _ _ h
      rw [h2]
      simp only [decide_eq_true_eq]
    · intro x hx r hr
      have h := hpass Kind.OBJ (by decide) x hx (.obj r) (by
        simp only [rowOf, hr, Option.map_some'])
      simp only [rowOf, keepTouched] at h
      have h2 := Option.eq_of_map_eq_ite Row.obj (fun a b e => by injection e) _ _ _ h
      rw [h2]
      show _ = if (schemaBefore adaptive users Kind.OBJ dropOrder
        (afterTables s)).sysUserMapUser.find r.owner = none ∧ adaptive = true then none
        else some r
      cases hu : (schemaBefore adaptive users Kind.OBJ dropOrder
          (afterTables s)).sysUserMapUser.find r.owner <;> cases adaptive <;> simp
    · intro k x hx r o hr ho
      have hk : r.kind = k := rowOf_kind hr
      obtain ⟨h1, h2, h3⟩ := mem_dropOrder_of_ownerObj r o ho
      rw [hk] at h1 h2 h3
      rw [hpass k h1 x hx r hr, keepTouched_ownerObj adaptive users _ r o ho]
      rw [schemaBefore_sysObjMapObj adaptive users k _ h2 h3]
      rfl
    · intro k x hx
      rw [q4 k x (by rw [afterTables_touchedSet]; exact hx), hrow0]

/-- C35 at the schema with a touched USER$ row "A", a touched OBJ$ row of an
owner without USER$ row and a touched COL$ row of its table, with
`users = ["A"]` and the adaptive-schema flag set: the call returns, the USER$
row stays, the OBJ$ row and the COL$ row are dropped. -/
theorem dropUnusedMetadata_passes_witness :
    TouchedStored schemaTouchedThree ∧
    (dropUnusedMetadata true ["A"] schemaTouchedThree []).ret = .ok () ∧
    (dropUnusedMetadata true ["A"] schemaTouchedThree []).schema.sysUserMapRowId.find "U1" =
      some sampleUser ∧
    (dropUnusedMetadata true ["A"] schemaTouchedThree []).schema.sysObjMapRowId.find "AAAA" =
      none ∧
    rowOf .COL (dropUnusedMetadata true ["A"] schemaTouchedThree []).schema "C1" = none ∧
    ((∀ x ∈ schemaTouchedThree.sysUserSetTouched, ∀ r,
        schemaTouchedThree.sysUserMapRowId.find x = some r →
        (dropUnusedMetadata true ["A"] schemaTouchedThree []).schema.sysUserMapRowId.find x =
          if r.name ∈ ["A"] then some r else none) ∧
      (∀ x ∈ schemaTouchedThree.sysObjSetTouched, ∀ r,
        schemaTouchedThree.sysObjMapRowId.find x = some r →
        (dropUnusedMetadata true ["A"] schemaTouchedThree []).schema.sysObjMapRowId.find x =
          if (afterUserPass true ["A"] schemaTouchedThree).sysUserMapUser.find r.owner = none ∧
              true = true then none
          else some r) ∧
      (∀ k, ∀ x ∈ touchedSet k schemaTouchedThree, ∀ r o,
        rowOf k schemaTouchedThree x = some r → r.ownerObj = some o →
        rowOf k (dropUnusedMetadata true ["A"] schemaTouchedThree []).schema x =
          if ((afterObjPass true ["A"] schemaTouchedThree).sysObjMapObj.find o).isSome = true
          then some r
          else none) ∧
      (∀ k x, x ∉ touchedSet k schemaTouchedThree →
        rowOf k (dropUnusedMetadata true ["A"] schemaTouchedThree []).schema x =
          rowOf k schemaTouchedThree x)) :=
  ⟨fun k => by cases k <;> decide, by decide, by decide, by decide, by decide,
    dropUnusedMetadata_passes true ["A"] schemaTouchedThree []
      (fun k => by cases k <;> decide) (by decide)⟩


/-- C34, counterexample: the OBJ$ row and the TAB$ row of table 500 are added to
the empty schema; the owner has no USER$ row, the indices are consistent and
the maps of the descriptors are empty.
With the adaptive-schema flag set `buildMaps` builds the table under the owner
`USER_500`, and `dropUnusedMetadata` then drops the touched OBJ$ row, because
its owner has no USER$ row.  Both return without raising; afterwards
`tableMap` holds the descriptor of table 500 and no OBJ$ row is stored. -/
theorem buildMaps_adaptive_drops_obj_counterexample :
    (∀ k, Consistent k schemaObjTab) ∧ DescStored schemaObjTab ∧ StaleTouched schemaObjTab ∧
    (buildMaps sampleEnvAdaptive sampleArgs schemaObjTab).ret = .ok () ∧
    (dropUnusedMetadata sampleEnvAdaptive.adaptive []
      (buildMaps sampleEnvAdaptive sampleArgs schemaObjTab).schema []).ret = .ok () ∧
    (dropUnusedMetadata sampleEnvAdaptive.adaptive []
      (buildMaps sampleEnvAdaptive sampleArgs schemaObjTab).schema []).schema.tableMap.find 500 =
        some sampleTableAdaptive ∧
    (dropUnusedMetadata sampleEnvAdaptive.adaptive []
      (buildMaps sampleEnvAdaptive sampleArgs schemaObjTab).schema []).schema.sysObjMapRowId =
        Map.empty := by
  refine ⟨?_, descStored_of_entries (by decide), staleTouched_of_entries (by decide),
    by decide, by decide, by decide, by decide⟩
  intro k
  by_cases hk : k = Kind.COL
  · subst hk
    exact Consistent.of_sameMaps (show SameMaps Kind.COL Schema.empty schemaObjTab by decide)
      (Consistent.at_empty _)
  · exact dictAddStr_consistent sampleLimits _ (.tab sampleTabEmp) k hk
      (dictAddStr_consistent sampleLimits Schema.empty (.obj sampleObjEmp) k hk
        (Consistent.at_empty k) (by decide)) (by decide)

/-- The descriptor of a table whose OBJ$ row is gone stays when it is not
touched: from the schema that has the descriptor of object 100 in `tableMap` and
in `tablePartitionMap` and nothing else, with consistent indices and the
adaptive-schema flag off, `buildMaps` and `dropUnusedMetadata` return and
`tableMap` still has the descriptor, without OBJ$ row. -/
theorem untouched_descriptor_stays :
    (∀ k, Consistent k (addTableToDict Schema.empty sampleTable).schema) ∧
    DescStored (addTableToDict Schema.empty sampleTable).schema ∧
    (buildMaps sampleEnv sampleArgs (addTableToDict Schema.empty sampleTable).schema).ret =
      .ok () ∧
    (dropUnusedMetadata sampleEnv.adaptive []
      (buildMaps sampleEnv sampleArgs (addTableToDict Schema.empty sampleTable).schema).schema
      []).ret = .ok () ∧
    (dropUnusedMetadata sampleEnv.adaptive []
      (buildMaps sampleEnv sampleArgs (addTableToDict Schema.empty sampleTable).schema).schema
      []).schema.tableMap.find 100 = some sampleTable ∧
    (dropUnusedMetadata sampleEnv.adaptive []
      (buildMaps sampleEnv sampleArgs (addTableToDict Schema.empty sampleTable).schema).schema
      []).schema.sysObjMapObj = Map.empty := by
  refine ⟨fun k => ?_, ?_, by decide, by decide, by decide, by decide⟩
  · exact Consistent.of_sameMaps
      (show SameMaps k Schema.empty (addTableToDict Schema.empty sampleTable).schema by
        cases k <;> decide)
      (Consistent.at_empty k)
  · exact descStored_of_entries (by decide)

/-- An entry of `tablePartitionMap` without descriptor stays: from the schema that
has an entry for the descriptor of object 100 in `tablePartitionMap` and
nothing else, with consistent indices and the adaptive-schema flag off,
`buildMaps` and `dropUnusedMetadata` return and the entry is still there, while
`tableMap` is empty. -/
theorem partition_entry_stays :
    (∀ k, Consistent k { tablePartitionMap := Map.empty.set 100 sampleTable : Schema }) ∧
    StaleTouched { tablePartitionMap := Map.empty.set 100 sampleTable : Schema } ∧
    (buildMaps sampleEnv sampleArgs
      { tablePartitionMap := Map.empty.set 100 sampleTable : Schema }).ret = .ok () ∧
    (dropUnusedMetadata sampleEnv.adaptive []
      (buildMaps sampleEnv sampleArgs
        { tablePartitionMap := Map.empty.set 100 sampleTable : Schema }).schema []).ret =
      .ok () ∧
    (dropUnusedMetadata sampleEnv.adaptive []
      (buildMaps sampleEnv sampleArgs
        { tablePartitionMap := Map.empty.set 100 sampleTable : Schema }).schema
      []).schema.tablePartitionMap.find 100 = some sampleTable ∧
    (dropUnusedMetadata sampleEnv.adaptive []
      (buildMaps sampleEnv sampleArgs
        { tablePartitionMap := Map.empty.set 100 sampleTable : Schema }).schema
      []).schema.tableMap = Map.empty := by
  refine ⟨fun k => ?_, staleTouched_of_entries (by decide), by decide, by decide, by decide,
    by decide⟩
  exact Consistent.of_sameMaps
    (show SameMaps k Schema.empty { tablePartitionMap := Map.empty.set 100 sampleTable : Schema }
      by cases k <;> decide)
    (Consistent.at_empty k)

/-- C34, amended: the adaptive-schema flag is off, and in the starting state the
indices are consistent, the descriptors are where `addTableToDict` and
`touchTable` put them (a descriptor of `tableMap` is under its obj, an entry of
`tablePartitionMap` is for a descriptor of `tableMap`, under its obj or that of
one of its partitions, and a touched descriptor is in `tableMap`), and every
descriptor of `tableMap` without OBJ$ row is touched.  When `buildMaps` and
then `dropUnusedMetadata` return without raising, every descriptor in
`tableMap` has an OBJ$ row stored for its obj, and every value of
`tablePartitionMap` is a descriptor stored in `tableMap`, under its obj. -/
theorem buildMaps_dropUnusedMetadata (env : BuildEnv) (args : BuildArgs) (users : List String)
    (msgs : List String) (s : Schema) (hflag : env.adaptive = false)
    (hc : ∀ k, Consistent k s) (hstored : DescStored s) (hstale : StaleTouched s)
    (hb : (buildMaps env args s).ret = .ok ())
    (hd : (dropUnusedMetadata env.adaptive users (buildMaps env args s).schema msgs).ret =
      .ok ()) :
    (∀ o t,
      (dropUnusedMetadata env.adaptive users (buildMaps env args s).schema
        msgs).schema.tableMap.find o = some t →
      HasObjRow
        (dropUnusedMetadata env.adaptive users (buildMaps env args s).schema msgs).schema
        t.obj) ∧
    (∀ k t,
      (dropUnusedMetadata env.adaptive users (buildMaps env args s).schema
        msgs).schema.tablePartitionMap.find k = some t →
      (dropUnusedMetadata env.adaptive users (buildMaps env args s).schema
        msgs).schema.tableMap.find t.obj = some t) := by
  have hst : DescStored (buildMaps env args s).schema ∧
      StaleTouched (buildMaps env args s).schema :=
    buildMapsLoop_stored env args s.identifiersTouched s [] (hc Kind.OBJ) hstored hstale hb
  obtain ⟨d1, st1⟩ := hst
  unfold dropUnusedMetadata at hd ⊢
  simp only [] at hd ⊢
  cases hr : (dropTables (buildMaps env args s).schema.tablesTouched (buildMaps env args s).schema
      msgs).ret with
  | error e =>
    rw [hr] at hd
    cases hd
  | ok u =>
    simp only [hr]
    obtain ⟨p1, p2⟩ := dropTables_stored (buildMaps env args s).schema.tablesTouched
      (buildMaps env args s).schema msgs d1.1 d1.2.1
      (fun t ht t2 h => by
        rw [d1.2.2 t ht] at h
        exact (Option.some.inj h).symm)
      st1 hr
    obtain ⟨q1, q2⟩ := dropKinds_frame env.adaptive users dropOrder
      { (dropTables (buildMaps env args s).schema.tablesTouched (buildMaps env args s).schema
          msgs).schema with tablesTouched := [] }
    have q3 := q2 hflag
    refine ⟨?_, ?_⟩
    · intro o t h
      rw [← q1.1] at h
      exact (hasObjRow_congr q3 _).1 (p1 o t h)
    · intro k t h
      rw [← q1.2.1] at h
      rw [← q1.1]
      exact p2 k t h

/-- C34 at scenario S4 with the descriptor of table 100 touched, which has no
OBJ$ row, with `users = ["HR"]` and the adaptive-schema flag off: both calls
return, `buildMaps` builds the descriptor of table 500, whose OBJ$ row is
stored, and the loop over `tablesTouched` takes the descriptor of table 100
out of `tableMap` and its partitions out of `tablePartitionMap`. -/
theorem buildMaps_dropUnusedMetadata_witness :
    sampleEnv.adaptive = false ∧ (∀ k, Consistent k schemaEmpStale) ∧
    DescStored schemaEmpStale ∧ StaleTouched schemaEmpStale ∧
    schemaEmpStale.tableMap.find 100 = some sampleTableLob ∧
    schemaEmpStale.tablePartitionMap.find 110 = some sampleTableLob ∧
    schemaEmpStale.tablesTouched = [sampleTableLob] ∧
    schemaEmpStale.sysObjMapObj.find 100 = none ∧
    (buildMaps sampleEnv sampleArgs schemaEmpStale).ret = .ok () ∧
    (buildMaps sampleEnv sampleArgs schemaEmpStale).schema.tableMap.find 100 =
      some sampleTableLob ∧
    (dropUnusedMetadata sampleEnv.adaptive ["HR"]
      (buildMaps sampleEnv sampleArgs schemaEmpStale).schema []).ret = .ok () ∧
    (dropUnusedMetadata sampleEnv.adaptive ["HR"]
      (buildMaps sampleEnv sampleArgs schemaEmpStale).schema []).schema.tableMap =
        Map.empty.set 500 sampleTableEmp ∧
    (dropUnusedMetadata sampleEnv.adaptive ["HR"]
      (buildMaps sampleEnv sampleArgs schemaEmpStale).schema []).schema.tablePartitionMap =
        Map.empty.set 500 sampleTableEmp ∧
    (dropUnusedMetadata sampleEnv.adaptive ["HR"]
      (buildMaps sampleEnv sampleArgs schemaEmpStale).schema []).schema.sysObjMapObj.find 500 =
        some "O500" ∧
    (dropUnusedMetadata sampleEnv.adaptive ["HR"]
      (buildMaps sampleEnv sampleArgs schemaEmpStale).schema []).schema.sysObjMapRowId.find
        "O500" = some sampleObjEmp ∧
    ((∀ o t,
      (dropUnusedMetadata sampleEnv.adaptive ["HR"]
        (buildMaps sampleEnv sampleArgs schemaEmpStale).schema []).schema.tableMap.find o =
          some t →
      HasObjRow
        (dropUnusedMetadata sampleEnv.adaptive ["HR"]
          (buildMaps sampleEnv sampleArgs schemaEmpStale).schema []).schema
        t.obj) ∧
    (∀ k t,
      (dropUnusedMetadata sampleEnv.adaptive ["HR"]
        (buildMaps sampleEnv sampleArgs schemaEmpStale).schema []).schema.tablePartitionMap.find
          k = some t →
      (dropUnusedMetadata sampleEnv.adaptive ["HR"]
        (buildMaps sampleEnv sampleArgs schemaEmpStale).schema []).schema.tableMap.find t.obj =
          some t)) :=
  have hc : ∀ k, Consistent k schemaEmpStale := fun k =>
    Consistent.of_sameMaps (show SameMaps k schemaEmpStg schemaEmpStale by cases k <;> decide)
      (consistent_schemaEmpStg k)
  have hs : DescStored schemaEmpStale := descStored_of_entries (by decide)
  have ht : StaleTouched schemaEmpStale := staleTouched_of_entries (by decide)
  ⟨by decide, hc, hs, ht, by decide, by decide, by decide, by decide, by decide, by decide,
    by decide, by decide, by decide, by decide, by decide,
    buildMaps_dropUnusedMetadata sampleEnv sampleArgs ["HR"] [] schemaEmpStale (by decide)
      hc hs ht (by decide) (by decide)⟩


/-- C39: what `buildMaps` does to the dictionary stores.  It leaves the primary
and secondary maps of every kind other than DEFERRED_STG$ and the primary map
of DEFERRED_STG$ as they are; in `sysDeferredStgMapObj` it leaves the entries
that are there and enters null pointers at keys that had none.  When the call
returns, every touched identifier whose table passes the tests that read the
schema, is not partitioned, is initial and has no entry in
`sysDeferredStgMapObj` has a null pointer there afterwards, and index
consistency of DEFERRED_STG$ does not hold. -/
theorem buildMaps_dictionary (env : BuildEnv) (args : BuildArgs) (s : Schema) :
    (∀ k, k ≠ Kind.DEFERRED_STG → SameMaps k s (buildMaps env args s).schema) ∧
    (buildMaps env args s).schema.sysDeferredStgMapRowId = s.sysDeferredStgMapRowId ∧
    (∀ o, (buildMaps env args s).schema.sysDeferredStgMapObj.find o =
        s.sysDeferredStgMapObj.find o ∨
      (s.sysDeferredStgMapObj.find o = none ∧
        (buildMaps env args s).schema.sysDeferredStgMapObj.find o = some none)) ∧
    (∀ obj sysObj sysUser sysTab, obj ∈ s.identifiersTouched →
      checkRecords env args s obj = some (sysObj, sysUser, sysTab) →
      env.tabIsPartitioned sysTab = false → env.tabIsInitial sysTab = true →
      s.sysDeferredStgMapObj.find sysObj.obj = none →
      (buildMaps env args s).ret = .ok () →
      (buildMaps env args s).schema.sysDeferredStgMapObj.find sysObj.obj = some none ∧
        ¬ Consistent Kind.DEFERRED_STG (buildMaps env args s).schema) := by
  obtain ⟨hF, hN⟩ := buildMapsLoop_frame env args s.identifiersTouched s []
  refine ⟨fun k hk => buildFrame_sameMaps hF k hk, (buildFrame_fields hF).1, hN, ?_⟩
  intro obj sysObj sysUser sysTab hmem hrec hpart hinit hnone hret
  have h := buildMapsLoop_null env args s obj sysObj sysUser sysTab hrec hpart hinit
    s.identifiersTouched s [] (buildFrame_refl s)
    (Or.inr ⟨hmem, hnone, (checkRecords_some hrec).2.2.1⟩) hret
  refine ⟨h, ?_⟩
  intro hc
  simp only [Consistent] at hc
  obtain ⟨r, _, hr, _⟩ := hc.2 sysObj.obj none h
  cases hr

/-- C39 at scenario S4 without the DEFERRED_STG$ row: `buildMaps` returns and
builds the table, and `sysDeferredStgMapObj`, which had no entry for obj 500,
has a null pointer there.  Afterwards `purge` reports the map as not empty
(50029), and the add of the DEFERRED_STG$ row of the table raises 50024. -/
theorem buildMaps_dictionary_witness :
    500 ∈ schemaEmp.identifiersTouched ∧
    checkRecords sampleEnv sampleArgs schemaEmp 500 =
      some (sampleObjEmp, sampleUserHr, sampleTabEmp) ∧
    sampleEnv.tabIsPartitioned sampleTabEmp = false ∧
    sampleEnv.tabIsInitial sampleTabEmp = true ∧
    schemaEmp.sysDeferredStgMapObj.find 500 = none ∧
    schemaEmp.sysDeferredStgMapRowId = Map.empty ∧
    (buildMaps sampleEnv sampleArgs schemaEmp).ret = .ok () ∧
    (buildMaps sampleEnv sampleArgs schemaEmp).schema.tableMap.find 500 = some sampleTableEmp ∧
    (buildMaps sampleEnv sampleArgs schemaEmp).schema.sysDeferredStgMapObj.entries =
      [(500, none)] ∧
    (purge 0 8 (buildMaps sampleEnv sampleArgs schemaEmp).schema).map (fun r => r.reported) =
      some [(50029, "obj map SYS.DEFERRED_STG$ not empty, left: 1 at exit")] ∧
    (dictAddStr sampleLimits (buildMaps sampleEnv sampleArgs schemaEmp).schema
      (.deferredStg sampleStgEmp)).ret = .error ⟨50024⟩ ∧
    ((buildMaps sampleEnv sampleArgs schemaEmp).schema.sysDeferredStgMapObj.find
        sampleObjEmp.obj = some none ∧
      ¬ Consistent Kind.DEFERRED_STG (buildMaps sampleEnv sampleArgs schemaEmp).schema) :=
  ⟨by decide, by decide, by decide, by decide, by decide, by decide, by decide, by decide,
    by decide, by decide, by decide,
    (buildMaps_dictionary sampleEnv sampleArgs schemaEmp).2.2.2 500 sampleObjEmp sampleUserHr
      sampleTabEmp (by decide) (by decide) (by decide) (by decide) (by decide) (by decide)⟩


theorem columnNames_congr {s t : Schema} (h : SameMaps Kind.COL s t) (obj : Nat) :
    columnNames t obj = columnNames s obj := by
  simp only [SameMaps] at h
  unfold columnNames columnEntries
  rw [← h.1, ← h.2]

theorem addTableToDict_ret_ne (s : Schema) (table : OracleTable) (e : DataException)
    (he : e = ⟨10041⟩ ∨ e = ⟨50026⟩ ∨ e = ⟨50027⟩ ∨ e = ⟨50028⟩) :
    (addTableToDict s table).ret ≠ .error e := by
  intro h
  rcases addTableToDict_error s table e h with ⟨h1, _⟩ | ⟨h1 | h1 | h1, _⟩ <;>
    (subst h1; rcases he with he | he | he | he <;> cases he)

/-- C33, counterexample: scenario S4 with a character set that `locales` does not
have for the column "ID" and the key list `["X"]`.  Table 500 passes the tests,
its column names and the keys are pairwise distinct and "X" is not the name of
a column, but the turn of the table raises 50026, in the loop over the
columns, and not 10041. -/
theorem buildMaps_keys_counterexample :
    checkObj sampleEnv sampleArgsKey schemaEmpCharset 500 =
      .build { schemaEmpCharset with
          sysDeferredStgMapObj := schemaEmpCharset.sysDeferredStgMapObj.set 500 none }
        sampleObjEmp sampleUserHr sampleTabEmp ∧
    columnNames schemaEmpCharset 500 = ["ID"] ∧ sampleArgsKey.keys = ["X"] ∧
    (columnNames schemaEmpCharset 500).Nodup ∧ sampleArgsKey.keys.Nodup ∧
    (∃ key ∈ sampleArgsKey.keys, key ∉ columnNames schemaEmpCharset 500) ∧
    (buildMapsObj sampleEnv sampleArgsKey schemaEmpCharset 500).ret = .error ⟨50026⟩ ∧
    (buildMaps sampleEnv sampleArgsKey schemaEmpCharset).ret = .error ⟨50026⟩ ∧
    (buildMaps sampleEnv sampleArgsKey schemaEmpCharset).ret ≠ .error ⟨10041⟩ := by
  decide

/-- C33, amended: for a table that passes all the tests of its turn of
`buildMaps` and whose column names (SEGCOL# > 0) are pairwise distinct, and a
key list of pairwise distinct names, the turn raises DataException 10041 if and
only if it raises none of 50026, 50027 and 50028 and some name of the key list
is not the name of one of the columns of the table; with an empty key list it
never raises 10041. -/
theorem buildMapsObj_keys (env : BuildEnv) (args : BuildArgs) (s s1 : Schema) (obj : Nat)
    (sysObj : SysObj) (sysUser : SysUser) (sysTab : SysTab)
    (hch : checkObj env args s obj = .build s1 sysObj sysUser sysTab)
    (hcols : (columnNames s sysObj.obj).Nodup) (hkeys : args.keys.Nodup) :
    ((buildMapsObj env args s obj).ret = .error ⟨10041⟩ ↔
      (((buildMapsObj env args s obj).ret ≠ .error ⟨50026⟩ ∧
        (buildMapsObj env args s obj).ret ≠ .error ⟨50027⟩ ∧
        (buildMapsObj env args s obj).ret ≠ .error ⟨50028⟩) ∧
      ∃ key ∈ args.keys, key ∉ columnNames s sysObj.obj)) ∧
    (args.keys = [] → (buildMapsObj env args s obj).ret ≠ .error ⟨10041⟩) := by
  have hnames : columnNames s1 sysObj.obj = columnNames s sysObj.obj := by
    have hf := (checkObj_frame env args s obj).1
    rw [hch] at hf
    exact columnNames_congr (buildFrame_sameMaps hf Kind.COL (by decide)) _
  obtain ⟨b1, _⟩ := buildTable_ret env args s1 sysObj sysUser sysTab
  rw [hnames] at b1
  have hlen : ((columnNames s sysObj.obj).filter fun n => keyListed n args.keys).length ≠
      args.keys.length ↔ ∃ key ∈ args.keys, key ∉ columnNames s sysObj.obj := by
    rw [Ne, filter_listed_length hcols hkeys]
    push_neg
    rfl
  rw [hlen] at b1
  have hret : (buildMapsObj env args s obj).ret =
      match (buildTable env args s1 sysObj sysUser sysTab).ret with
      | .error e => .error e
      | .ok _ => (addTableToDict s1 (buildTable env args s1 sysObj sysUser sysTab).table).ret := by
    unfold buildMapsObj
    rw [hch]
    simp only []
    generalize (buildTable env args s1 sysObj sysUser sysTab).ret = r
    cases r <;> rfl
  have hmain : (buildMapsObj env args s obj).ret = .error ⟨10041⟩ ↔
      (((buildMapsObj env args s obj).ret ≠ .error ⟨50026⟩ ∧
        (buildMapsObj env args s obj).ret ≠ .error ⟨50027⟩ ∧
        (buildMapsObj env args s obj).ret ≠ .error ⟨50028⟩) ∧
      ∃ key ∈ args.keys, key ∉ columnNames s sysObj.obj) := by
    rw [hret]
    cases hb : (buildTable env args s1 sysObj sysUser sysTab).ret with
    | error e =>
      rw [hb] at b1
      exact b1
    | ok u =>
      rw [hb] at b1
      simp only []
      constructor
      · intro h
        exact absurd h (addTableToDict_ret_ne _ _ _ (Or.inl rfl))
      · intro h
        exfalso
        have := b1.2 ⟨⟨fun h => (by cases h), fun h => (by cases h), fun h => (by cases h)⟩, h.2⟩
        cases this
  refine ⟨hmain, ?_⟩
  intro hempty h
  obtain ⟨_, key, hkey, _⟩ := hmain.1 h
  rw [hempty] at hkey
  cases hkey

/-- C33 at scenario S4 with the key list `["X"]`: table 500 passes the tests, the
character set of its column is known, "X" is not the name of a column, and the
turn raises 10041. -/
theorem buildMapsObj_keys_witness :
    checkObj sampleEnv sampleArgsKey schemaEmpStg 500 =
      .build schemaEmpStg sampleObjEmp sampleUserHr sampleTabEmp ∧
    columnNames schemaEmpStg sampleObjEmp.obj = ["ID"] ∧ sampleArgsKey.keys = ["X"] ∧
    (buildMapsObj sampleEnv sampleArgsKey schemaEmpStg 500).ret = .error ⟨10041⟩ ∧
    (buildMaps sampleEnv sampleArgsKey schemaEmpStg).ret = .error ⟨10041⟩ ∧
    (buildMaps sampleEnv sampleArgs schemaEmpStg).ret = .ok () ∧
    (((buildMapsObj sampleEnv sampleArgsKey schemaEmpStg 500).ret = .error ⟨10041⟩ ↔
      (((buildMapsObj sampleEnv sampleArgsKey schemaEmpStg 500).ret ≠ .error ⟨50026⟩ ∧
        (buildMapsObj sampleEnv sampleArgsKey schemaEmpStg 500).ret ≠ .error ⟨50027⟩ ∧
        (buildMapsObj sampleEnv sampleArgsKey schemaEmpStg 500).ret ≠ .error ⟨50028⟩) ∧
      ∃ key ∈ sampleArgsKey.keys, key ∉ columnNames schemaEmpStg sampleObjEmp.obj)) ∧
    (sampleArgsKey.keys = [] →
      (buildMapsObj sampleEnv sampleArgsKey schemaEmpStg 500).ret ≠ .error ⟨10041⟩)) :=
  ⟨by decide, by decide, by decide, by decide, by decide, by decide,
    buildMapsObj_keys sampleEnv sampleArgsKey schemaEmpStg schemaEmpStg 500 sampleObjEmp
      sampleUserHr sampleTabEmp (by decide) (by decide) (by decide)⟩


theorem isDigit_toNat_ge {c : Char} (h : c.isDigit = true) : 48 ≤ c.toNat := by
  simp only [Char.isDigit, Bool.and_eq_true, decide_eq_true_eq] at h
  exact h.1

theorem objDigits_length (n obj : Nat) : (objDigits n obj).length = n := by
  induction n generalizing obj with
  | zero => rfl
  | succ n ih => simp [objDigits, ih]

/-- The loop that decodes the column id leaves ten times the value of the
digits. -/
theorem decode_foldl (ds : List Char) (hd : ∀ c ∈ ds, c.isDigit = true) (v : Nat) :
    ds.foldl (fun col c => (col + ((c.toNat : Int) - 48)) * 10) (10 * (v : Int)) =
      10 * ((ds.foldl (fun acc c => acc * 10 + (c.toNat - 48)) v : Nat) : Int) := by
  induction ds generalizing v with
  | nil => rfl
  | cons c ds ih =>
    have hc := isDigit_toNat_ge (hd c (List.mem_cons_self _ _))
    simp only [List.foldl_cons]
    have h1 : (10 * (v : Int) + ((c.toNat : Int) - 48)) * 10 =
        10 * ((v * 10 + (c.toNat - 48) : Nat) : Int) := by
      push_cast [Nat.cast_sub hc]
      ring
    rw [h1]
    exact ih (fun c hc => hd c (List.mem_cons_of_mem _ hc)) _

theorem addPartitionAt_append (col : Int) (dataObj pageSize : Nat) (lobs : List OracleLob)
    (lob : OracleLob) (hnone : lobs.find? (fun l => decide (l.intCol = col)) = none)
    (hcol : lob.intCol = col) :
    addPartitionAt col dataObj pageSize (lobs ++ [lob]) =
      lobs ++ [lob.addPartition dataObj pageSize] := by
  induction lobs with
  | nil => simp [addPartitionAt, hcol]
  | cons l lobs ih =>
    simp only [List.find?_cons] at hnone
    split at hnone
    · cases hnone
    · rename_i hl
      have hne : ¬ l.intCol = col := by simpa using hl
      show addPartitionAt col dataObj pageSize (l :: (lobs ++ [lob])) = _
      simp only [addPartitionAt, if_neg hne, ih hnone, List.cons_append]

/-- C32: the alternate discovery of LOBs for an OBJ$ row whose name is `SYS_LOB`,
the ten digits of the obj of the table, the letter `C`, five decimal digits
`ds` and `$$`.  The name passes the test of the loop, and the column id that
the loop decodes is ten times the decimal value of `ds`.  The data object of
the row becomes a partition of the LOB of the table whose `intCol` is that
number, ten times the value of `ds`; a LOB with that `intCol` is made, at the
end of the LOBs of the table, only if the table has none. -/
theorem addLobOfName_decodes (obj : Nat) (ds : List Char) (sysObjLob : SysObj)
    (pageSize : Nat) (table : OracleTable) (hlen : ds.length = 5)
    (hd : ∀ c ∈ ds, c.isDigit = true)
    (hname : sysObjLob.name = "SYS_LOB" ++ ⟨objDigits 10 obj⟩ ++ "C" ++ ⟨ds⟩ ++ "$$") :
    isLobName (sysLobConstraintName obj) sysObjLob.name = true ∧
    decodeCol sysObjLob.name = 10 * (digitsValue ds : Int) ∧
    (table.lobs.find? (fun lob => decide (lob.intCol = 10 * (digitsValue ds : Int))) = none →
      (addLobOfName obj sysObjLob pageSize table).lobs =
        table.lobs ++
          [{ obj := obj, dataObj := 0, lObj := 0, col := 10 * (digitsValue ds : Int),
             intCol := 10 * (digitsValue ds : Int), lobIndexes := [],
             lobPartitions := [sysObjLob.dataObj],
             lobPageMap := [(sysObjLob.dataObj, pageSize)] }]) ∧
    (∀ lob,
      table.lobs.find? (fun lob => decide (lob.intCol = 10 * (digitsValue ds : Int))) =
        some lob →
      (addLobOfName obj sysObjLob pageSize table).lobs =
        addPartitionAt (10 * (digitsValue ds : Int)) sysObjLob.dataObj pageSize table.lobs) := by
  have hP : ("SYS_LOB".data ++ objDigits 10 obj ++ "C".data).length = 18 := by
    simp [objDigits_length]
  have hdata : sysObjLob.name.data =
      ("SYS_LOB".data ++ objDigits 10 obj ++ "C".data) ++ (ds ++ "$$".data) := by
    rw [hname]
    simp [String.data_append]
  have hcons : (sysLobConstraintName obj).data =
      ("SYS_LOB".data ++ objDigits 10 obj ++ "C".data) ++ "00000$$".data := by
    unfold sysLobConstraintName
    simp [String.data_append]
  have hdec : decodeCol sysObjLob.name = 10 * (digitsValue ds : Int) := by
    unfold decodeCol digitsValue
    rw [hdata, List.drop_left' hP, ← hlen, List.take_left]
    have := decode_foldl ds hd 0
    simpa using this
  refine ⟨?_, hdec, ?_, ?_⟩
  · unfold isLobName
    have h1 : sysObjLob.name.length = 25 := by
      show sysObjLob.name.data.length = 25
      rw [hdata, List.length_append, hP, List.length_append, hlen]
      rfl
    have h2 : sysObjLob.name.data.take 18 = (sysLobConstraintName obj).data.take 18 := by
      rw [hdata, hcons, List.take_left' hP, List.take_left' hP]
    have h3 : sysObjLob.name.data.get? 23 = some (Char.ofNat 36) := by
      rw [List.get?_eq_getElem?, hdata, List.getElem?_append_right (by rw [hP]; decide), hP,
        List.getElem?_append_right (by rw [hlen]), hlen]
      rfl
    have h4 : sysObjLob.name.data.get? 24 = some (Char.ofNat 36) := by
      rw [List.get?_eq_getElem?, hdata, List.getElem?_append_right (by rw [hP]; decide), hP,
        List.getElem?_append_right (by rw [hlen]; decide), hlen]
      rfl
    simp only [h1, h2, h3, h4, decide_True, Bool.and_self]
  · intro hnone
    unfold addLobOfName
    simp only [hdec, hnone, OracleTable.addLob]
    rw [addPartitionAt_append _ _ _ _ _ hnone rfl]
    rfl
  · intro lob hsome
    unfold addLobOfName
    simp only [hdec, hsome]

/-- C32 for the OBJ$ row named `SYS_LOB0000000500C00003$$` of table 500, whose
`ddddd` has the value 3: the column id decoded is 30, and `buildMaps` gives the
descriptor of the table one LOB, with `intCol` 30, that has the data object of
the row as its partition. -/
theorem addLobOfName_decodes_witness :
    sampleObjLob.name = "SYS_LOB" ++ ⟨objDigits 10 500⟩ ++ "C" ++ ⟨"00003".data⟩ ++ "$$" ∧
    digitsValue "00003".data = 3 ∧
    decodeCol "SYS_LOB0000000500C00003$$" = 30 ∧
    (buildMaps sampleEnv sampleArgs schemaEmpLob).ret = .ok () ∧
    ((buildMaps sampleEnv sampleArgs schemaEmpLob).schema.tableMap.find 500).map
        (fun table => table.lobs) =
      some [{ obj := 500, dataObj := 0, lObj := 0, col := 30, intCol := 30, lobIndexes := [],
              lobPartitions := [777], lobPageMap := [(777, 8132)] }] ∧
    (isLobName (sysLobConstraintName 500) sampleObjLob.name = true ∧
      decodeCol sampleObjLob.name = 10 * (digitsValue "00003".data : Int) ∧
      (sampleTableEmp.lobs.find?
          (fun lob => decide (lob.intCol = 10 * (digitsValue "00003".data : Int))) = none →
        (addLobOfName 500 sampleObjLob 8132 sampleTableEmp).lobs =
          sampleTableEmp.lobs ++
            [{ obj := 500, dataObj := 0, lObj := 0, col := 10 * (digitsValue "00003".data : Int),
               intCol := 10 * (digitsValue "00003".data : Int), lobIndexes := [],
               lobPartitions := [sampleObjLob.dataObj],
               lobPageMap := [(sampleObjLob.dataObj, 8132)] }]) ∧
      (∀ lob,
        sampleTableEmp.lobs.find?
            (fun lob => decide (lob.intCol = 10 * (digitsValue "00003".data : Int))) =
          some lob →
        (addLobOfName 500 sampleObjLob 8132 sampleTableEmp).lobs =
          addPartitionAt (10 * (digitsValue "00003".data : Int)) sampleObjLob.dataObj 8132
            sampleTableEmp.lobs)) :=
  ⟨by decide, by decide, by decide, by decide, by decide,
    addLobOfName_decodes 500 "00003".data sampleObjLob 8132 sampleTableEmp (by decide)
      (by decide) (by decide)⟩

end OpenLogReplicator
